import Mathlib

/-!
# Ecosystem simulator (OOP Project variant): grid, entities and tick engine

Shallow embedding of `src/OOP Project (completed)`.

* Machine `int`s are modelled as `Int`; every coordinate the program computes is a
  grid coordinate plus or minus a small offset, far away from the 32-bit limits.
* `std::shared_ptr<Entity>` is an `Option EntityId` (`none` is `nullptr`); the objects
  live in `World.heap`, so that pointer equality is equality of identifiers.
* `cells_grid[r][c]` is a raw vector access.  `Grid.readCell` and `Grid.writeCell`
  return `none` when the index is outside the `GRID_HEIGHT x GRID_WIDTH` vector, so
  every function that touches the cell map lives in `Option`, and `none` means an
  out-of-bounds access happened.
* The global Mersenne twister `gen` is an arbitrary sequence of raw draws
  (`World.gen`), consumed in program order.
-/

namespace Ecosystem

/-! ## constants.hpp -/

abbrev GRID_WIDTH : Nat := 20
abbrev GRID_HEIGHT : Nat := 20
abbrev MAX_POPULATION : Nat := GRID_WIDTH * GRID_HEIGHT

inductive EntityType where
  | EMPTY
  | PLANT
  | HERBIVORE
  | CARNIVORE
  deriving DecidableEq, Repr

inductive Gender where
  | MALE
  | FEMALE
  | NONE
  deriving DecidableEq, Repr

inductive Season where
  | WINTER
  | SPRING
  | SUMMER
  | AUTUMN
  | NONE
  deriving DecidableEq, Repr

/-! ## entity.hpp, plants.hpp, animal.hpp : the objects -/

/-- Identity of a heap object (the address held by a `shared_ptr`). -/
abbrev EntityId := Nat

/-- Data members of `class Plant`. -/
structure PlantData where
  baseSpreadChanceValue : Int
  maximumAge : Int
  currentAge : Int
  winterDeathChanceRate : Int
  autumnDeathChanceRate : Int

/-- Data members of `class Animal` (`animalSize` is a `double` that no code reads). -/
structure AnimalData where
  animalGender : Gender
  currentAge : Int
  maximumAge : Int
  currentEnergy : Int
  maximumEnergy : Int
  sightRange : Int
  movementCostBase : Int
  cooldownForReproduction : Int
  currentCooldownForReproduction : Int
  currentlyPregnant : Bool
  periodOfGestation : Int
  currentGestationProgress : Int
  minimumBreedingAge : Int
  energyRequiredToReproduce : Int
  mealsMissedTurns : Int
  maxTurnsWithoutFoodAllowed : Int

/-- The dynamic class of an object.  `Entity` is abstract: every object is a `Plant`,
a `Herbivore` or a `Carnivore`, and the class never changes. -/
inductive EntityKind where
  | plant (p : PlantData)
  | herbivore (a : AnimalData)
  | carnivore (a : AnimalData)

/-- Members of `class Entity`.  `entityType` is fixed by the constructor of the
concrete class, so it is read off `kind`; `displaySymbol` is only used for printing. -/
structure Entity where
  r_coord : Int
  c_coord : Int
  is_alive : Bool
  kind : EntityKind

namespace Entity

def getR (e : Entity) : Int := e.r_coord

def getC (e : Entity) : Int := e.c_coord

def getType (e : Entity) : EntityType :=
  match e.kind with
  | .plant _ => .PLANT
  | .herbivore _ => .HERBIVORE
  | .carnivore _ => .CARNIVORE

def isAlive (e : Entity) : Bool := e.is_alive

def setR (e : Entity) (r_val : Int) : Entity := { e with r_coord := r_val }

def setC (e : Entity) (c_val : Int) : Entity := { e with c_coord := c_val }

def kill (e : Entity) : Entity := { e with is_alive := false }

end Entity

/-! ## monthlyStats.hpp -/

structure MonthlyStats where
  plantsEaten : Int := 0
  plantsDiedNaturalAge : Int := 0
  plantsDiedWeather : Int := 0
  plantsSpread : Int := 0
  currentPlants : Int := 0
  herbivoresEaten : Int := 0
  herbivoresDiedNatural : Int := 0
  herbivoresSpawned : Int := 0
  currentHerbivores : Int := 0
  carnivoresEaten : Int := 0
  carnivoresDiedNatural : Int := 0
  carnivoresSpawned : Int := 0
  currentCarnivores : Int := 0
  animalsImmigrated : Int := 0
  animalsEmigrated : Int := 0
  currentMonthName : String := ""
  currentSeasonName : String := ""
  monthlyEvents : List String := []

/-! ## grid.hpp : the data members of `Grid` -/

structure Grid where
  cells_grid : Int → Int → Option EntityId
  plants_list : List EntityId
  herbivores_list : List EntityId
  carnivores_list : List EntityId

/-- Everything a `Grid` method can read or write: the objects behind the pointers, the
grid itself, the statistics record and the global random generator.  `nextId` is the
allocator of `std::make_shared`. -/
structure World where
  heap : EntityId → Entity
  nextId : EntityId
  grid : Grid
  stats : MonthlyStats
  gen : List Nat

/-! ## utils.cpp : random numbers -/

/-- Model of `getRandomInt(min, max)`: swaps the bounds when `min > max`, returns `min`
without drawing when they are equal, and otherwise reduces the next raw draw into
`[min, max]` (an exhausted sequence keeps yielding 0). -/
def getRandomInt (gen : List Nat) (min max : Int) : Int × List Nat :=
  let lo := if min > max then max else min
  let hi := if min > max then min else max
  if lo = hi then (lo, gen)
  else
    match gen with
    | [] => (lo, [])
    | x :: rest => (lo + ((x % (hi - lo + 1).toNat : Nat) : Int), rest)

/-! ## grid.cpp -/

namespace Grid

/-- The constructor `Grid::Grid()`: `GRID_HEIGHT` rows of `GRID_WIDTH` null pointers. -/
def new : Grid :=
  { cells_grid := fun _ _ => none, plants_list := [], herbivores_list := [], carnivores_list := [] }

/-- Raw read `cells_grid[r][c]`; `none` when the index is outside the vector. -/
def readCell (g : Grid) (r c : Int) : Option (Option EntityId) :=
  if 0 ≤ r ∧ r < GRID_HEIGHT ∧ 0 ≤ c ∧ c < GRID_WIDTH then some (g.cells_grid r c) else none

/-- Raw write `cells_grid[r][c] = v`; `none` when the index is outside the vector. -/
def writeCell (g : Grid) (r c : Int) (v : Option EntityId) : Option Grid :=
  if 0 ≤ r ∧ r < GRID_HEIGHT ∧ 0 ≤ c ∧ c < GRID_WIDTH then
    some { g with cells_grid := fun r1 c1 => if r1 = r ∧ c1 = c then v else g.cells_grid r1 c1 }
  else none

def isValid (r_coord c_coord : Int) : Bool :=
  decide (r_coord ≥ 0) && decide (r_coord < GRID_HEIGHT) && decide (c_coord ≥ 0)
    && decide (c_coord < GRID_WIDTH)

def isEmpty (g : Grid) (r_coord c_coord : Int) : Option Bool :=
  if isValid r_coord c_coord then do
    let p ← g.readCell r_coord c_coord
    pure (p == none)
  else pure false

def getEntity (g : Grid) (r_coord c_coord : Int) : Option (Option EntityId) :=
  if isValid r_coord c_coord then g.readCell r_coord c_coord else pure none

/-- The sum `plants_list.size() + herbivores_list.size() + carnivores_list.size()`. -/
def population (g : Grid) : Nat :=
  g.plants_list.length + g.herbivores_list.length + g.carnivores_list.length

/-- The `push_back` chain at the end of `addEntity`, by `getType()`. -/
def pushBack (g : Grid) (t : EntityType) (e : EntityId) : Grid :=
  match t with
  | .PLANT => { g with plants_list := g.plants_list ++ [e] }
  | .HERBIVORE => { g with herbivores_list := g.herbivores_list ++ [e] }
  | .CARNIVORE => { g with carnivores_list := g.carnivores_list ++ [e] }
  | .EMPTY => g

/-- The `erase(remove_if(...))` chain of `removeEntity`, by `getType()`: drops from the
list of that type every pointer for which `drop` holds. -/
def eraseIf (g : Grid) (t : EntityType) (drop : EntityId → Bool) : Grid :=
  match t with
  | .PLANT => { g with plants_list := g.plants_list.filter (fun p => !drop p) }
  | .HERBIVORE => { g with herbivores_list := g.herbivores_list.filter (fun h => !drop h) }
  | .CARNIVORE => { g with carnivores_list := g.carnivores_list.filter (fun c => !drop c) }
  | .EMPTY => g

end Grid

namespace World

/-- Apply a member function to the object behind a pointer. -/
def modify (w : World) (e : EntityId) (f : Entity → Entity) : World :=
  { w with heap := fun i => if i = e then f (w.heap e) else w.heap i }

def addEntity (w : World) (entity : Option EntityId) : Option (World × Bool) :=
  match entity with
  | none => pure (w, false)
  | some e =>
    if w.grid.population ≥ MAX_POPULATION then pure (w, false)
    else
      let ent := w.heap e
      if Grid.isValid ent.getR ent.getC then do
        if (← w.grid.isEmpty ent.getR ent.getC) then
          let g1 ← w.grid.writeCell ent.getR ent.getC (some e)
          pure ({ w with grid := g1.pushBack ent.getType e }, true)
        else pure (w, false)
      else pure (w, false)

/-- The retry loop of `addMigratingAnimal`; the first argument counts the attempts that
are left of the `GRID_WIDTH * GRID_HEIGHT` the source allows. -/
def addMigratingAnimalLoop (animal_ptr : EntityId) : Nat → World → Option (World × Bool)
  | 0, w => pure (w, false)
  | n + 1, w => do
    let (r_coord, gen1) := getRandomInt w.gen 0 (GRID_HEIGHT - 1)
    let (c_coord, gen2) := getRandomInt gen1 0 (GRID_WIDTH - 1)
    let w1 := { w with gen := gen2 }
    if (← w1.grid.isEmpty r_coord c_coord) then
      let w2 := w1.modify animal_ptr (fun a => a.setR r_coord)
      let w3 := w2.modify animal_ptr (fun a => a.setC c_coord)
      w3.addEntity (some animal_ptr)
    else addMigratingAnimalLoop animal_ptr n w1

def addMigratingAnimal (w : World) (animal_ptr : EntityId) : Option (World × Bool) :=
  if w.grid.population ≥ MAX_POPULATION then pure (w, false)
  else addMigratingAnimalLoop animal_ptr (GRID_WIDTH * GRID_HEIGHT) w

def removeEntity (w : World) (entity_ptr : Option EntityId) : Option World :=
  match entity_ptr with
  | none => pure w
  | some e =>
    if !Grid.isValid (w.heap e).getR (w.heap e).getC then pure w
    else do
      let held ← w.grid.readCell (w.heap e).getR (w.heap e).getC
      let g1 ← if held = some e then w.grid.writeCell (w.heap e).getR (w.heap e).getC none
               else pure w.grid
      let w1 := { w with grid := g1 }.modify e Entity.kill
      pure { w1 with grid := g1.eraseIf (w1.heap e).getType
                              (fun p => !(w1.heap p).isAlive || p == e) }

def moveEntity (w : World) (entity_ptr : Option EntityId) (newR newC : Int) : Option World :=
  match entity_ptr with
  | none => pure w
  | some e => do
    let g1 ←
      if Grid.isValid (w.heap e).getR (w.heap e).getC then do
        let held ← w.grid.readCell (w.heap e).getR (w.heap e).getC
        if held = some e then w.grid.writeCell (w.heap e).getR (w.heap e).getC none
        else pure w.grid
      else pure w.grid
    let w1 := { w with grid := g1 }.modify e (fun a => a.setR newR)
    let w2 := w1.modify e (fun a => a.setC newC)
    if Grid.isValid newR newC then do
      let g2 ← g1.writeCell newR newC (some e)
      pure { w2 with grid := g2 }
    else pure (w2.modify e Entity.kill)

end World

namespace Grid

def dr_arr : List Int := [-1, -1, -1, 0, 0, 1, 1, 1]

def dc_arr : List Int := [-1, 0, 1, -1, 1, -1, 0, 1]

def getAdjacentEmptyCells (g : Grid) (r_coord c_coord : Int) : Option (List (Int × Int)) :=
  (List.range 8).foldlM
    (fun emptyCells_vec i => do
      let nr := r_coord + (← dr_arr[i]?)
      let nc := c_coord + (← dc_arr[i]?)
      if (← g.isEmpty nr nc) then pure (emptyCells_vec ++ [(nr, nc)])
      else pure emptyCells_vec)
    []

end Grid

/-- The values `lo, lo + 1, ..., hi` a loop `for (int i = lo; i <= hi; ++i)` runs through. -/
def intRange (lo hi : Int) : List Int :=
  (List.range (hi - lo + 1).toNat).map (fun (i : Nat) => lo + (i : Int))

namespace World

def findNearbyEntities (w : World) (r_coord c_coord : Int) (targetType : EntityType)
    (range_val : Int) : Option (List EntityId) :=
  (intRange (-range_val) range_val).foldlM
    (fun found_entities dr_scan =>
      (intRange (-range_val) range_val).foldlM
        (fun found_entities dc_scan =>
          if dr_scan = 0 ∧ dc_scan = 0 then pure found_entities
          else do
            let nr := r_coord + dr_scan
            let nc := c_coord + dc_scan
            let current_entity ← w.grid.getEntity nr nc
            match current_entity with
            | some e =>
              if (w.heap e).getType = targetType ∧ (w.heap e).isAlive then
                pure (found_entities ++ [e])
              else pure found_entities
            | none => pure found_entities)
        found_entities)
    []

end World

/-! ## utils.cpp, continued -/

/-- Model of `getRandomDouble(0.0, 1.0)`: the next raw draw, read in millionths, so the
value is `n / 1000000` with `0 ≤ n < 1000000`.  Only comparisons against the seasonal
reproduction multipliers use it. -/
def getRandomDouble01 (gen : List Nat) : Nat × List Nat :=
  match gen with
  | [] => (0, [])
  | x :: rest => (x % 1000000, rest)

def getSeasonName (season : Season) : String :=
  match season with
  | .WINTER => "Winter"
  | .SPRING => "Spring"
  | .SUMMER => "Summer"
  | .AUTUMN => "Autumn"
  | .NONE => "Unknown"

/-! ## Constructors of the concrete classes -/

/-- `Plant::Plant(r, c)`. -/
def Plant.new (r_coord c_coord : Int) : Entity :=
  { r_coord := r_coord, c_coord := c_coord, is_alive := true,
    kind := .plant { baseSpreadChanceValue := 35, maximumAge := 40, currentAge := 0,
                     winterDeathChanceRate := 20, autumnDeathChanceRate := 10 } }

/-- `Animal::Animal(...)`: the member initialisers; the energy draws one random number. -/
def Animal.new (gen : List Nat) (gender_val : Gender)
    (maxAge_val maxEnergy_val visionRange_val moveCost_val gestationPeriod_val
      minBreedingAge_val energyToReproduce_val maxTurnsWithoutFood_val : Int) :
    AnimalData × List Nat :=
  let (extra, gen1) := getRandomInt gen 0 (Int.tdiv maxEnergy_val 4)
  ({ animalGender := gender_val, currentAge := 0, maximumAge := maxAge_val,
     currentEnergy := Int.tdiv maxEnergy_val 2 + extra,
     maximumEnergy := maxEnergy_val, sightRange := visionRange_val,
     movementCostBase := moveCost_val, cooldownForReproduction := 1,
     currentCooldownForReproduction := 0, currentlyPregnant := false,
     periodOfGestation := gestationPeriod_val, currentGestationProgress := 0,
     minimumBreedingAge := minBreedingAge_val,
     energyRequiredToReproduce := energyToReproduce_val, mealsMissedTurns := 0,
     maxTurnsWithoutFoodAllowed := maxTurnsWithoutFood_val }, gen1)

/-- `Herbivore::Herbivore(r, c, gender)`. -/
def Herbivore.new (gen : List Nat) (r_coord c_coord : Int) (gender_val : Gender) :
    Entity × List Nat :=
  let (a, gen1) := Animal.new gen gender_val 70 120 5 10 3 2 40 3
  ({ r_coord := r_coord, c_coord := c_coord, is_alive := true, kind := .herbivore a }, gen1)

/-- `Carnivore::Carnivore(r, c, gender)`. -/
def Carnivore.new (gen : List Nat) (r_coord c_coord : Int) (gender_val : Gender) :
    Entity × List Nat :=
  let (a, gen1) := Animal.new gen gender_val 100 120 6 15 4 5 50 2
  ({ r_coord := r_coord, c_coord := c_coord, is_alive := true, kind := .carnivore a }, gen1)

namespace Entity

/-- The `Animal` part of an object; `none` for a plant. -/
def animal (e : Entity) : Option AnimalData :=
  match e.kind with
  | .herbivore a => some a
  | .carnivore a => some a
  | .plant _ => none

/-- The `Plant` part of an object; `none` for an animal. -/
def plant (e : Entity) : Option PlantData :=
  match e.kind with
  | .plant p => some p
  | _ => none

/-- Overwrite the `Animal` members of an animal object. -/
def setAnimal (e : Entity) (a : AnimalData) : Entity :=
  match e.kind with
  | .herbivore _ => { e with kind := .herbivore a }
  | .carnivore _ => { e with kind := .carnivore a }
  | .plant _ => e

/-- Overwrite the `Plant` members of a plant object. -/
def setPlant (e : Entity) (p : PlantData) : Entity :=
  match e.kind with
  | .plant _ => { e with kind := .plant p }
  | _ => e

/-- `Entity::getGender`, overridden by `Animal::getGender`. -/
def getGender (e : Entity) : Gender :=
  match e.kind with
  | .herbivore a => a.animalGender
  | .carnivore a => a.animalGender
  | .plant _ => .NONE

end Entity

namespace World

/-- `std::make_shared`: a fresh object, and the pointer to it. -/
def alloc (w : World) (e : Entity) : World × EntityId :=
  ({ w with heap := fun i => if i = w.nextId then e else w.heap i, nextId := w.nextId + 1 },
    w.nextId)

def addMonthlyEvent (w : World) (event : String) : World :=
  { w with stats := { w.stats with monthlyEvents := w.stats.monthlyEvents ++ [event] } }

end World

/-- `std::to_string(r) + "," + std::to_string(c)` inside the event texts. -/
def posText (r c : Int) : String := toString r ++ "," ++ toString c

/-! ## animal.cpp -/

namespace Animal

/-- `Animal::setCurrentEnergy`: clamps into `[0, maximumEnergy]`. -/
def setCurrentEnergy (a : AnimalData) (energy_val : Int) : AnimalData :=
  { a with currentEnergy := max 0 (min energy_val a.maximumEnergy) }

def die (w : World) (self : EntityId) (eaten : Bool) : World :=
  if !(w.heap self).isAlive then w
  else
    let w1 := w.modify self Entity.kill
    if !eaten then
      if (w1.heap self).getType = .HERBIVORE then
        { w1 with stats := { w1.stats with
            herbivoresDiedNatural := w1.stats.herbivoresDiedNatural + 1 } }
      else if (w1.heap self).getType = .CARNIVORE then
        { w1 with stats := { w1.stats with
            carnivoresDiedNatural := w1.stats.carnivoresDiedNatural + 1 } }
      else w1
    else w1

def baseUpdate (w : World) (self : EntityId) (currentSeason : Season) : Option World := do
  if !(w.heap self).isAlive then pure w
  else
    let a0 ← (w.heap self).animal
    let a1 := { a0 with currentAge := a0.currentAge + 1 }
    let a2 := { a1 with mealsMissedTurns := a1.mealsMissedTurns + 1 }
    let actualMoveCost : Int :=
      if currentSeason = .WINTER then a2.movementCostBase + 5
      else if currentSeason = .AUTUMN then a2.movementCostBase + 2
      else if currentSeason = .SUMMER then max 1 (a2.movementCostBase - 2)
      else a2.movementCostBase
    let a3 := { a2 with currentEnergy := a2.currentEnergy - (1 + Int.tdiv actualMoveCost 2) }
    let a4 := if a3.currentCooldownForReproduction > 0 then
        { a3 with currentCooldownForReproduction := a3.currentCooldownForReproduction - 1 }
      else a3
    let a5 := if a4.currentlyPregnant then
        { a4 with currentGestationProgress := a4.currentGestationProgress + 1,
                  currentEnergy := a4.currentEnergy - 3 }
      else a4
    let w1 := w.modify self (fun e => e.setAnimal a5)
    if a5.currentEnergy ≤ 0 ∨ a5.currentAge > a5.maximumAge ∨
        a5.mealsMissedTurns > a5.maxTurnsWithoutFoodAllowed then
      pure (die w1 self false)
    else pure w1

def canReproduceInternal (a : AnimalData) : Bool :=
  decide (a.animalGender = .FEMALE) && !a.currentlyPregnant &&
    decide (a.currentAge ≥ a.minimumBreedingAge) &&
    decide (a.currentEnergy ≥ a.energyRequiredToReproduce) &&
    decide (a.currentCooldownForReproduction = 0)

/-- The three nested loops of `attemptEat`: the offsets `(dr, dc)` on the border of the
square of radius 1, then 2, ... up to `radius`, in the order the loops visit them. -/
def eatOffsets (radius : Int) : List (Int × Int) :=
  (intRange 1 radius).flatMap (fun radius_scan =>
    (intRange (-radius_scan) radius_scan).flatMap (fun dr =>
      (intRange (-radius_scan) radius_scan).flatMap (fun dc =>
        if |dr| = radius_scan ∨ |dc| = radius_scan then [(dr, dc)] else [])))

end Animal

/-! ## Helpers shared by herbivore.cpp and carnivore.cpp

The comparisons `getCurrentEnergy() >= getMaximumEnergy() * 0.95` (and `0.9`, `0.85`) are
done in `double`.  They are modelled exactly, as `energy * 100 ≥ maximumEnergy * 95`; for
`maximumEnergy = 120`, the value both species are constructed with, the products
`120 * 0.95`, `120 * 0.9` and `120 * 0.85` are exactly `114.0`, `108.0` and `102.0`
(`Binary64.threshold_products`). -/

namespace Animal

/-- The loop that picks the closest entity of a list: squared distance to
`(getR(), getC())`, strict `<` against the running minimum that starts at `1e9`. -/
def closestOf (w : World) (self : EntityId) (nearby : List EntityId) : Option EntityId :=
  (nearby.foldl
    (fun (st : Option EntityId × Int) p_entity =>
      let d_sq :=
        ((w.heap p_entity).getR - (w.heap self).getR) * ((w.heap p_entity).getR - (w.heap self).getR)
        + ((w.heap p_entity).getC - (w.heap self).getC) * ((w.heap p_entity).getC - (w.heap self).getC)
      if d_sq < st.2 then (some p_entity, d_sq) else st)
    (none, 1000000000)).1

/-- The sign of `target - own`, as in `(t > o) ? 1 : ((t < o) ? -1 : 0)`. -/
def stepToward (target own : Int) : Int :=
  if target > own then 1 else if target < own then -1 else 0

/-- `setCurrentEnergy(getCurrentEnergy() - getMovementCostBase())` on `this`. -/
def payMove (w : World) (self : EntityId) : Option World := do
  let a ← (w.heap self).animal
  pure (w.modify self (fun e => e.setAnimal (setCurrentEnergy a (a.currentEnergy - a.movementCostBase))))

/-- The list a forage or chase block works on:
`findNearbyEntities(getR(), getC(), targetType, range)` when the energy test `hungry`
passed, and nothing when the block is skipped. -/
def nearbyIf (w : World) (self : EntityId) (hungry : Bool) (targetType : EntityType)
    (range_val : Int) : Option (List EntityId) :=
  if hungry then
    w.findNearbyEntities (w.heap self).getR (w.heap self).getC targetType range_val
  else pure []

/-- The destination test of the forage and chase blocks:
`isValid(nr, nc) && (isEmpty(nr, nc) || (getEntity(nr, nc) && getEntity(nr, nc)->getType() == targetType))`. -/
def canStepOnto (w : World) (nr nc : Int) (targetType : EntityType) : Option Bool :=
  if Grid.isValid nr nc then do
    if (← w.grid.isEmpty nr nc) then pure true
    else
      match (← w.grid.getEntity nr nc) with
      | some t => pure (decide ((w.heap t).getType = targetType))
      | none => pure false
  else pure false

/-- The last part of both `move` functions: a uniformly chosen adjacent empty cell. -/
def moveRandom (w : World) (self : EntityId) : Option World := do
  let emptyC_rand ← w.grid.getAdjacentEmptyCells (w.heap self).getR (w.heap self).getC
  if !emptyC_rand.isEmpty then
    let (ch_rand, gen1) :=
      if emptyC_rand.length > 1 then getRandomInt w.gen 0 ((emptyC_rand.length : Int) - 1)
      else (0, w.gen)
    let w1 := { w with gen := gen1 }
    let target ← emptyC_rand[ch_rand.toNat]?
    let w2 ← w1.moveEntity (← w1.grid.getEntity (w1.heap self).getR (w1.heap self).getC)
      target.1 target.2
    payMove w2 self
  else pure w

/-- The candidate cells of `giveBirth`: the adjacent empty cells, or, when there is none,
the empty cells of the square of radius `getSightRange()` around the mother. -/
def birthCells (w : World) (self : EntityId) : Option (List (Int × Int)) := do
  let a ← (w.heap self).animal
  let birthLocs ← w.grid.getAdjacentEmptyCells (w.heap self).getR (w.heap self).getC
  if birthLocs.isEmpty then
    (intRange (-a.sightRange) a.sightRange).foldlM
      (fun locs dr_scan =>
        (intRange (-a.sightRange) a.sightRange).foldlM
          (fun locs dc_scan =>
            if dr_scan = 0 ∧ dc_scan = 0 then pure locs
            else do
              if (← w.grid.isEmpty ((w.heap self).getR + dr_scan) ((w.heap self).getC + dc_scan))
              then pure (locs ++ [((w.heap self).getR + dr_scan, (w.heap self).getC + dc_scan)])
              else pure locs)
          locs)
      birthLocs
  else pure birthLocs

end Animal

/-! ## `double` arithmetic

The source computes the centroid and the distances of the flee block of `Herbivore::move`
in `double`.  A `double` is modelled by the rational number it stands for, and every
operation by the exact operation followed by the rounding of IEEE 754 binary64 (round to
nearest, ties to even), as the program does when each operation is rounded on its own. -/

/-- The loop of `ilog2`, with `fuel` halvings left. -/
def Binary64.log2Fuel : Nat → Nat → Nat
  | 0, _ => 0
  | fuel + 1, n => if 2 ≤ n then Binary64.log2Fuel fuel (n / 2) + 1 else 0

/-- The position of the leading bit of `n`: the `k` with `2 ^ k ≤ n < 2 ^ (k + 1)`. -/
def Binary64.ilog2 (n : Nat) : Nat := Binary64.log2Fuel n n

/-- The integer nearest to `N / D`, the even one of the two when `N / D` lies half way. -/
def Binary64.nearest (N D : Nat) : Nat :=
  if 2 * (N % D) < D then N / D
  else if D < 2 * (N % D) then N / D + 1
  else if (N / D) % 2 = 0 then N / D else N / D + 1

/-- The double nearest to the positive rational `a / b`: the quotient is scaled by a power
of two into `2 ^ 52 ≤ N / D < 2 ^ 53`, rounded to the nearest integer, ties to even, and
scaled back. -/
def Binary64.roundPos (a b : Nat) : ℚ :=
  let la := Binary64.ilog2 a
  let lb := Binary64.ilog2 b + 52
  let N := a * 2 ^ (lb - la)
  let D := b * 2 ^ (la - lb)
  if N < 2 ^ 52 * D then
    mkRat ((Binary64.nearest (2 * N) D * 2 ^ la : Nat) : Int) (2 ^ (lb + 1))
  else mkRat ((Binary64.nearest N D * 2 ^ la : Nat) : Int) (2 ^ lb)

/-- The rounding of IEEE 754 binary64 arithmetic, round to nearest with ties to even, on
the exact value `x` of an operation: a significand of 53 bits.  The exponent is not
bounded; the values of a run are far from the overflow and underflow thresholds. -/
def Binary64.round (x : ℚ) : ℚ :=
  if x = 0 then 0
  else if 0 < x then Binary64.roundPos x.num.natAbs x.den
  else -Binary64.roundPos x.num.natAbs x.den

/-- The conversion of an `int` to `double`. -/
def Binary64.ofInt (n : Int) : ℚ := Binary64.round n

/-- The `double` operation `x + y`. -/
def Binary64.add (x y : ℚ) : ℚ := Binary64.round (x + y)

/-- The `double` operation `x - y`. -/
def Binary64.sub (x y : ℚ) : ℚ := Binary64.round (x - y)

/-- The `double` operation `x * y`. -/
def Binary64.mul (x y : ℚ) : ℚ := Binary64.round (x * y)

/-- The `double` operation `x / y`. -/
def Binary64.div (x y : ℚ) : ℚ := Binary64.round (x / y)

/-! ## herbivore.cpp -/

/-- The value `avgCarnR` (and `avgCarnC`) of the flee block of `Herbivore::move` for the
rows (the columns) of the carnivores in sight: a `double` that starts at 0, to which each
coordinate is added in turn, and that is then divided by the number of carnivores. -/
def Herbivore.avgCarn (coords : List Int) : ℚ :=
  Binary64.div (coords.foldl (fun avg x => Binary64.add avg (Binary64.ofInt x)) 0)
    (Binary64.ofInt coords.length)

/-- The value `dsq_flee` of the flee block for the cell `(nr_move, nc_move)`:
`(nr_move - avgCarnR) * (nr_move - avgCarnR) + (nc_move - avgCarnC) * (nc_move - avgCarnC)`
in `double`, every operation rounded on its own. -/
def Herbivore.dsqFlee (avgCarnR avgCarnC : ℚ) (nr_move nc_move : Int) : ℚ :=
  Binary64.add
    (Binary64.mul (Binary64.sub (Binary64.ofInt nr_move) avgCarnR)
      (Binary64.sub (Binary64.ofInt nr_move) avgCarnR))
    (Binary64.mul (Binary64.sub (Binary64.ofInt nc_move) avgCarnC)
      (Binary64.sub (Binary64.ofInt nc_move) avgCarnC))

namespace Herbivore

/-- The scan of `attemptEat` over the offsets still to visit; it stops at the first cell
that holds a living plant. -/
def attemptEatScan (self : EntityId) : List (Int × Int) → World → Option (World × Bool)
  | [], w => pure (w, false)
  | (dr_eat, dc_eat) :: rest, w => do
    let nr_eat := (w.heap self).getR + dr_eat
    let nc_eat := (w.heap self).getC + dc_eat
    if Grid.isValid nr_eat nc_eat then
      match (← w.grid.getEntity nr_eat nc_eat) with
      | some plantEntity =>
        if (w.heap plantEntity).getType = .PLANT ∧ (w.heap plantEntity).isAlive then
          let a ← (w.heap self).animal
          let w1 := w.modify self (fun e =>
            e.setAnimal (Animal.setCurrentEnergy a (min a.maximumEnergy (a.currentEnergy + 35))))
          let w2 := w1.modify plantEntity Entity.kill
          let w3 := { w2 with stats := { w2.stats with plantsEaten := w2.stats.plantsEaten + 1 } }
          let w4 := w3.addMonthlyEvent
            ("Herbivore at (" ++ posText (w3.heap self).getR (w3.heap self).getC
              ++ ") ate plant at (" ++ posText nr_eat nc_eat ++ ")")
          let w5 ← w4.removeEntity (some plantEntity)
          pure (w5, true)
        else attemptEatScan self rest w
      | none => attemptEatScan self rest w
    else attemptEatScan self rest w

def attemptEat (w : World) (self : EntityId) (currentSeason : Season) : Option (World × Bool) := do
  let a ← (w.heap self).animal
  if !(w.heap self).isAlive || decide (a.currentEnergy * 100 ≥ a.maximumEnergy * 95) then
    pure (w, false)
  else
    let actualEatingRadius : Int :=
      if currentSeason = .WINTER then max 1 (a.sightRange - 2)
      else if currentSeason = .AUTUMN then max 1 (a.sightRange - 1)
      else if currentSeason = .SUMMER then a.sightRange + 2
      else a.sightRange
    attemptEatScan self (Animal.eatOffsets actualEatingRadius) w

/-- The flee loop of `move`: `avgCarnR` and `avgCarnC` are the means of the rows and the
columns of the carnivores, and the two loops keep, among the empty neighbour cells, the
first one whose `dsq_flee` exceeds `maxDistSq_flee`, which starts at `-1`.  All these
values are `double`s (see `Binary64.round`).  The function is called with at least one
carnivore. -/
def fleeTarget (w : World) (self : EntityId) (carnivoresNearby : List EntityId) :
    Option (Int × Int) := do
  let avgCarnR := Herbivore.avgCarn (carnivoresNearby.map (fun c_entity => (w.heap c_entity).getR))
  let avgCarnC := Herbivore.avgCarn (carnivoresNearby.map (fun c_entity => (w.heap c_entity).getC))
  let r0 := (w.heap self).getR
  let c0 := (w.heap self).getC
  let st ← (intRange (-1) 1).foldlM
    (fun (st : (Int × Int) × ℚ) dr_move =>
      (intRange (-1) 1).foldlM
        (fun (st : (Int × Int) × ℚ) dc_move =>
          if dr_move = 0 ∧ dc_move = 0 then pure st
          else do
            let nr_move := r0 + dr_move
            let nc_move := c0 + dc_move
            if (← w.grid.isEmpty nr_move nc_move) then
              let dsq_flee := Herbivore.dsqFlee avgCarnR avgCarnC nr_move nc_move
              if dsq_flee > st.2 then pure ((nr_move, nc_move), dsq_flee) else pure st
            else pure st)
        st)
    ((r0, c0), -1)
  pure st.1

/-- The flee block of `move`: with carnivores in sight the cell `fleeTarget` picks,
otherwise the own cell, the initial value of `bestR_flee`, `bestC_flee`. -/
def fleeChoice (w : World) (self : EntityId) (carnivoresNearby : List EntityId) :
    Option (Int × Int) :=
  if !carnivoresNearby.isEmpty then fleeTarget w self carnivoresNearby
  else pure ((w.heap self).getR, (w.heap self).getC)

def move (w : World) (self : EntityId) (currentSeason : Season) : Option World := do
  if !(w.heap self).isAlive then pure w
  else
    let a ← (w.heap self).animal
    let energyBeforeMove := a.currentEnergy
    if energyBeforeMove ≤ 0 then pure (Animal.die w self false)
    else
      let carnivoresNearby ← w.findNearbyEntities (w.heap self).getR (w.heap self).getC .CARNIVORE
        (a.sightRange + (if currentSeason = .SUMMER then 1 else 0)
          - (if currentSeason = .WINTER then 1 else 0))
      let best ← fleeChoice w self carnivoresNearby
      if !carnivoresNearby.isEmpty ∧
          (best.1 ≠ (w.heap self).getR ∨ best.2 ≠ (w.heap self).getC) then
        let w1 ← w.moveEntity (← w.grid.getEntity (w.heap self).getR (w.heap self).getC)
          best.1 best.2
        Animal.payMove w1 self
      else
        let plantsNearby ← Animal.nearbyIf w self
          (decide (a.currentEnergy * 100 < a.maximumEnergy * 90)) .PLANT a.sightRange
        match Animal.closestOf w self plantsNearby with
        | some closest_plant =>
          let nr_move_plant := (w.heap self).getR
            + Animal.stepToward (w.heap closest_plant).getR (w.heap self).getR
          let nc_move_plant := (w.heap self).getC
            + Animal.stepToward (w.heap closest_plant).getC (w.heap self).getC
          if (← Animal.canStepOnto w nr_move_plant nc_move_plant .PLANT) then
            let w1 ← w.moveEntity (← w.grid.getEntity (w.heap self).getR (w.heap self).getC)
              nr_move_plant nc_move_plant
            Animal.payMove w1 self
          else Animal.moveRandom w self
        | none => Animal.moveRandom w self

end Herbivore

namespace Herbivore

/-- The loop of `attemptReproduce` over the potential mates. -/
def mateLoop (self : EntityId) : List EntityId → World → Option World
  | [], w => pure w
  | mate :: rest, w => do
    if !(w.heap mate).isAlive || mate == self then mateLoop self rest w
    else if (w.heap mate).getType ≠ .HERBIVORE ∨ (w.heap mate).getGender ≠ .MALE then
      mateLoop self rest w
    else
      let m ← (w.heap mate).animal
      if m.currentAge ≥ m.minimumBreedingAge ∧
          |(w.heap self).getR - (w.heap mate).getR| ≤ 1 ∧
          |(w.heap self).getC - (w.heap mate).getC| ≤ 1 then
        let a ← (w.heap self).animal
        let w1 := w.modify self (fun e => e.setAnimal { a with currentlyPregnant := true })
        let a1 ← (w1.heap self).animal
        let w2 := w1.modify self (fun e => e.setAnimal
          (Animal.setCurrentEnergy a1 (a1.currentEnergy - Int.tdiv a1.energyRequiredToReproduce 2)))
        let m1 ← (w2.heap mate).animal
        let w3 := if (w2.heap mate).isAlive then
            w2.modify mate (fun e => e.setAnimal
              (Animal.setCurrentEnergy m1
                (m1.currentEnergy - Int.tdiv m1.energyRequiredToReproduce 4)))
          else w2
        pure (w3.addMonthlyEvent
          ("Herbivore at (" ++ posText (w3.heap self).getR (w3.heap self).getC ++ ") mated."))
      else mateLoop self rest w

def attemptReproduce (w : World) (self : EntityId) (potentialMates : List EntityId)
    (currentSeason : Season) : Option World := do
  let a ← (w.heap self).animal
  if !(w.heap self).isAlive || !Animal.canReproduceInternal a then pure w
  else
    let repMul : Nat :=
      if currentSeason = .WINTER then 200000
      else if currentSeason = .AUTUMN then 500000
      else if currentSeason = .SUMMER then 1500000
      else 1000000
    let (draw, gen1) := getRandomDouble01 w.gen
    let w1 := { w with gen := gen1 }
    if draw > repMul then pure w1
    else mateLoop self potentialMates w1

/-- The loop of `giveBirth`: `numOff` offspring at most, while candidate cells remain. -/
def birthLoop : Nat → List (Int × Int) → World → Option World
  | 0, _, w => pure w
  | n + 1, birthLocs, w => do
    if birthLocs.isEmpty then pure w
    else
      let (idx_birth, gen1) :=
        if birthLocs.length > 1 then getRandomInt w.gen 0 ((birthLocs.length : Int) - 1)
        else (0, w.gen)
      let pos_birth ← birthLocs[idx_birth.toNat]?
      let birthLocs1 := birthLocs.eraseIdx idx_birth.toNat
      let (g01, gen2) := getRandomInt gen1 0 1
      let g_birth := if g01 = 0 then Gender.MALE else Gender.FEMALE
      let (child, gen3) := Herbivore.new gen2 pos_birth.1 pos_birth.2 g_birth
      let (w1, newH_birth) := { w with gen := gen3 }.alloc child
      let (w2, added) ← w1.addEntity (some newH_birth)
      let w3 := if added then
          ({ w2 with stats := { w2.stats with
              herbivoresSpawned := w2.stats.herbivoresSpawned + 1 } }).addMonthlyEvent
            ("Herbivore born at (" ++ posText pos_birth.1 pos_birth.2 ++ ")")
        else w2
      birthLoop n birthLocs1 w3

def giveBirth (w : World) (self : EntityId) : Option World := do
  if !(w.heap self).isAlive then pure w
  else
    let birthLocs ← Animal.birthCells w self
    if birthLocs.isEmpty then pure w
    else
      let (numOff, gen1) := getRandomInt w.gen 1 3
      birthLoop numOff.toNat birthLocs { w with gen := gen1 }

end Herbivore

/-! ## carnivore.cpp -/

namespace Carnivore

/-- The scan of `attemptEat` over the offsets still to visit; it stops at the first cell
that holds a living herbivore. -/
def attemptEatScan (self : EntityId) : List (Int × Int) → World → Option (World × Bool)
  | [], w => pure (w, false)
  | (dr_scan, dc_scan) :: rest, w => do
    let nr_scan := (w.heap self).getR + dr_scan
    let nc_scan := (w.heap self).getC + dc_scan
    if Grid.isValid nr_scan nc_scan then
      match (← w.grid.getEntity nr_scan nc_scan) with
      | some target =>
        if (w.heap target).getType = .HERBIVORE ∧ (w.heap target).isAlive then
          let a ← (w.heap self).animal
          let w1 := w.modify self (fun e =>
            e.setAnimal (Animal.setCurrentEnergy a (min a.maximumEnergy (a.currentEnergy + 45))))
          let w2 := Animal.die w1 target true
          let w3 := { w2 with stats := { w2.stats with
            herbivoresEaten := w2.stats.herbivoresEaten + 1 } }
          let w4 := w3.addMonthlyEvent
            ("Carnivore at (" ++ posText (w3.heap self).getR (w3.heap self).getC
              ++ ") ate herbivore at (" ++ posText nr_scan nc_scan ++ ")")
          let w5 ← w4.removeEntity (some target)
          pure (w5, true)
        else attemptEatScan self rest w
      | none => attemptEatScan self rest w
    else attemptEatScan self rest w

def attemptEat (w : World) (self : EntityId) (currentSeason : Season) : Option (World × Bool) := do
  let a ← (w.heap self).animal
  if !(w.heap self).isAlive || decide (a.currentEnergy * 100 ≥ a.maximumEnergy * 90) then
    pure (w, false)
  else
    let eatRad : Int :=
      if currentSeason = .WINTER then max 1 (a.sightRange - 2)
      else if currentSeason = .AUTUMN then max 1 (a.sightRange - 1)
      else if currentSeason = .SUMMER then a.sightRange + 1
      else a.sightRange
    attemptEatScan self (Animal.eatOffsets eatRad) w

def move (w : World) (self : EntityId) (_currentSeason : Season) : Option World := do
  if !(w.heap self).isAlive then pure w
  else
    let a ← (w.heap self).animal
    let energyBeforeMove := a.currentEnergy
    if energyBeforeMove ≤ 0 then pure (Animal.die w self false)
    else
      let herbsNearby ← Animal.nearbyIf w self
        (decide (a.currentEnergy * 100 < a.maximumEnergy * 85)) .HERBIVORE a.sightRange
      match Animal.closestOf w self herbsNearby with
      | some closest_herb =>
        let nr_move_herb := (w.heap self).getR
          + Animal.stepToward (w.heap closest_herb).getR (w.heap self).getR
        let nc_move_herb := (w.heap self).getC
          + Animal.stepToward (w.heap closest_herb).getC (w.heap self).getC
        if (← Animal.canStepOnto w nr_move_herb nc_move_herb .HERBIVORE) then
          let w1 ← w.moveEntity (← w.grid.getEntity (w.heap self).getR (w.heap self).getC)
            nr_move_herb nc_move_herb
          Animal.payMove w1 self
        else Animal.moveRandom w self
      | none => Animal.moveRandom w self

end Carnivore

namespace Carnivore

/-- The loop of `attemptReproduce` over the potential mates. -/
def mateLoop (self : EntityId) : List EntityId → World → Option World
  | [], w => pure w
  | mate :: rest, w => do
    if !(w.heap mate).isAlive || mate == self then mateLoop self rest w
    else if (w.heap mate).getType ≠ .CARNIVORE ∨ (w.heap mate).getGender ≠ .MALE then
      mateLoop self rest w
    else
      let m ← (w.heap mate).animal
      if m.currentAge ≥ m.minimumBreedingAge ∧
          |(w.heap self).getR - (w.heap mate).getR| ≤ 1 ∧
          |(w.heap self).getC - (w.heap mate).getC| ≤ 1 then
        let a ← (w.heap self).animal
        let w1 := w.modify self (fun e => e.setAnimal { a with currentlyPregnant := true })
        let a1 ← (w1.heap self).animal
        let w2 := w1.modify self (fun e => e.setAnimal
          (Animal.setCurrentEnergy a1 (a1.currentEnergy - Int.tdiv a1.energyRequiredToReproduce 2)))
        let m1 ← (w2.heap mate).animal
        let w3 := if (w2.heap mate).isAlive then
            w2.modify mate (fun e => e.setAnimal
              (Animal.setCurrentEnergy m1
                (m1.currentEnergy - Int.tdiv m1.energyRequiredToReproduce 4)))
          else w2
        pure (w3.addMonthlyEvent
          ("Carnivore at (" ++ posText (w3.heap self).getR (w3.heap self).getC ++ ") mated."))
      else mateLoop self rest w

def attemptReproduce (w : World) (self : EntityId) (potentialMates : List EntityId)
    (currentSeason : Season) : Option World := do
  let a ← (w.heap self).animal
  if !(w.heap self).isAlive || !Animal.canReproduceInternal a then pure w
  else
    let repMul : Nat :=
      if currentSeason = .WINTER then 150000
      else if currentSeason = .AUTUMN then 400000
      else if currentSeason = .SUMMER then 1300000
      else 1000000
    let (draw, gen1) := getRandomDouble01 w.gen
    let w1 := { w with gen := gen1 }
    if draw > repMul then pure w1
    else mateLoop self potentialMates w1

/-- The loop of `giveBirth`: `numOff` offspring at most, while candidate cells remain. -/
def birthLoop : Nat → List (Int × Int) → World → Option World
  | 0, _, w => pure w
  | n + 1, birthLocs, w => do
    if birthLocs.isEmpty then pure w
    else
      let (idx_birth_carn, gen1) :=
        if birthLocs.length > 1 then getRandomInt w.gen 0 ((birthLocs.length : Int) - 1)
        else (0, w.gen)
      let pos_birth_carn ← birthLocs[idx_birth_carn.toNat]?
      let birthLocs1 := birthLocs.eraseIdx idx_birth_carn.toNat
      let (g01, gen2) := getRandomInt gen1 0 1
      let g_birth_carn := if g01 = 0 then Gender.MALE else Gender.FEMALE
      let (child, gen3) := Carnivore.new gen2 pos_birth_carn.1 pos_birth_carn.2 g_birth_carn
      let (w1, newC_birth) := { w with gen := gen3 }.alloc child
      let (w2, added) ← w1.addEntity (some newC_birth)
      let w3 := if added then
          ({ w2 with stats := { w2.stats with
              carnivoresSpawned := w2.stats.carnivoresSpawned + 1 } }).addMonthlyEvent
            ("Carnivore born at (" ++ posText pos_birth_carn.1 pos_birth_carn.2 ++ ")")
        else w2
      birthLoop n birthLocs1 w3

def giveBirth (w : World) (self : EntityId) : Option World := do
  if !(w.heap self).isAlive then pure w
  else
    let birthLocs ← Animal.birthCells w self
    if birthLocs.isEmpty then pure w
    else
      let (numOff, gen1) := getRandomInt w.gen 1 2
      birthLoop numOff.toNat birthLocs { w with gen := gen1 }

end Carnivore

/-! ## animal.cpp : `Animal::update` -/

namespace Animal

/-- The mate search of `Animal::update`: the living males of breeding age in the registry
of the own species (`all`) that are at most 2 rows and 2 columns away. -/
def matesFound (w : World) (self : EntityId) (all : List EntityId) : List EntityId :=
  all.filter (fun mate =>
    (w.heap mate).isAlive && mate != self && decide ((w.heap mate).getGender = .MALE) &&
      (match (w.heap mate).animal with
        | some m => decide (m.currentAge ≥ m.minimumBreedingAge)
        | none => false) &&
      decide (|(w.heap self).getR - (w.heap mate).getR| ≤ 2) &&
      decide (|(w.heap self).getC - (w.heap mate).getC| ≤ 2))

/-- Virtual dispatch of `attemptEat`. -/
def attemptEat (w : World) (self : EntityId) (currentSeason : Season) : Option (World × Bool) :=
  match (w.heap self).kind with
  | .herbivore _ => Herbivore.attemptEat w self currentSeason
  | .carnivore _ => Carnivore.attemptEat w self currentSeason
  | .plant _ => none

/-- Virtual dispatch of `giveBirth`. -/
def giveBirth (w : World) (self : EntityId) : Option World :=
  match (w.heap self).kind with
  | .herbivore _ => Herbivore.giveBirth w self
  | .carnivore _ => Carnivore.giveBirth w self
  | .plant _ => none

/-- Virtual dispatch of `attemptReproduce`. -/
def attemptReproduce (w : World) (self : EntityId) (potentialMates : List EntityId)
    (currentSeason : Season) : Option World :=
  match (w.heap self).kind with
  | .herbivore _ => Herbivore.attemptReproduce w self potentialMates currentSeason
  | .carnivore _ => Carnivore.attemptReproduce w self potentialMates currentSeason
  | .plant _ => none

/-- Virtual dispatch of `move`. -/
def move (w : World) (self : EntityId) (currentSeason : Season) : Option World :=
  match (w.heap self).kind with
  | .herbivore _ => Herbivore.move w self currentSeason
  | .carnivore _ => Carnivore.move w self currentSeason
  | .plant _ => none

/-- The birth block of `Animal::update`. -/
def birthPhase (w : World) (self : EntityId) : Option World := do
  let a ← (w.heap self).animal
  if a.currentlyPregnant ∧ a.currentGestationProgress ≥ a.periodOfGestation then
    let w1 ← giveBirth w self
    let a1 ← (w1.heap self).animal
    let a2 := { a1 with currentlyPregnant := false, currentGestationProgress := 0,
                        currentCooldownForReproduction := a1.cooldownForReproduction }
    let a3 := { a2 with currentEnergy := a2.currentEnergy - Int.tdiv a2.maximumEnergy 3 }
    let w2 := w1.modify self (fun e => e.setAnimal a3)
    if a3.currentEnergy ≤ 0 ∧ (w2.heap self).isAlive then pure (die w2 self false)
    else pure w2
  else pure w

/-- The mate finding block of `Animal::update`. -/
def matePhase (w : World) (self : EntityId) (currentSeason : Season) : Option World := do
  let a ← (w.heap self).animal
  if a.animalGender = .FEMALE ∧ a.currentlyPregnant = false ∧
      a.currentCooldownForReproduction = 0 ∧ a.currentAge ≥ a.minimumBreedingAge ∧
      a.currentEnergy ≥ a.energyRequiredToReproduce then
    let mates_found :=
      if (w.heap self).getType = .HERBIVORE then matesFound w self w.grid.herbivores_list
      else if (w.heap self).getType = .CARNIVORE then matesFound w self w.grid.carnivores_list
      else []
    if !mates_found.isEmpty then attemptReproduce w self mates_found currentSeason
    else pure w
  else pure w

/-- `if (attemptEat(...)) mealsMissedTurns = 0;` once `attemptEat` has returned `ate`. -/
def resetMeals (w : World) (self : EntityId) (ate : Bool) : Option World :=
  if ate then do
    let a ← (w.heap self).animal
    pure (w.modify self (fun e => e.setAnimal { a with mealsMissedTurns := 0 }))
  else pure w

def update (w : World) (self : EntityId) (currentSeason : Season) : Option World := do
  if !(w.heap self).isAlive then pure w
  else
    let w1 ← baseUpdate w self currentSeason
    if !(w1.heap self).isAlive then pure w1
    else
      let (w2, ate) ← attemptEat w1 self currentSeason
      let w3 ← resetMeals w2 self ate
      if !(w3.heap self).isAlive then pure w3
      else
        let w4 ← birthPhase w3 self
        if !(w4.heap self).isAlive then pure w4
        else
          let w5 ← matePhase w4 self currentSeason
          if !(w5.heap self).isAlive then pure w5
          else
            let w6 ← move w5 self currentSeason
            let a6 ← (w6.heap self).animal
            if a6.currentEnergy ≤ 0 ∧ (w6.heap self).isAlive then pure (die w6 self false)
            else pure w6

end Animal

/-! ## plants.cpp : `Plant::update` -/

namespace Plant

/-- The `do ... while (!grid.isEmpty(r, c))` search of the bloom: draws a cell, counts the
attempt, leaves when more than `GRID_WIDTH * GRID_HEIGHT * 2` attempts were made or the
cell is empty.  The first argument bounds the iterations the model follows; `none` means
it was too small. -/
def bloomSearch (g : Grid) : Nat → Int → List Nat → Option ((Int × Int) × List Nat)
  | 0, _, _ => none
  | fuel + 1, attempts, gen => do
    let (newR_plant, gen1) := getRandomInt gen 0 (GRID_HEIGHT - 1)
    let (newC_plant, gen2) := getRandomInt gen1 0 (GRID_WIDTH - 1)
    let attempts1 := attempts + 1
    if attempts1 > GRID_WIDTH * GRID_HEIGHT * 2 then pure ((newR_plant, newC_plant), gen2)
    else if !(← g.isEmpty newR_plant newC_plant) then bloomSearch g fuel attempts1 gen2
    else pure ((newR_plant, newC_plant), gen2)

/-- `make_shared<Plant>(r, c)` followed by `if (grid.addEntity(newPlant)) stats.incrementPlantsSpread()`. -/
def spawn (w : World) (r c : Int) : Option World := do
  let (w1, newPlant) := w.alloc (Plant.new r c)
  let (w2, added) ← w1.addEntity (some newPlant)
  if added then
    pure { w2 with stats := { w2.stats with plantsSpread := w2.stats.plantsSpread + 1 } }
  else pure w2

/-- One iteration of the bloom loop `for (int i = 0; i < 2; ++i)`. -/
def bloomOnce (w : World) (newPlantChance : Int) : Option World := do
  let (roll, gen1) := getRandomInt w.gen 1 100
  let w1 := { w with gen := gen1 }
  if roll ≤ newPlantChance then
    let (pos, gen2) ← bloomSearch w1.grid (GRID_WIDTH * GRID_HEIGHT * 2 + 1) 0 w1.gen
    let w2 := { w1 with gen := gen2 }
    if (← w2.grid.isEmpty pos.1 pos.2) then spawn w2 pos.1 pos.2
    else pure w2
  else pure w1

/-- The spread block of `Plant::update`: on a successful roll, and a second roll against
75 when an adjacent cell is empty, a new plant on a random adjacent empty cell. -/
def spread (w : World) (self : EntityId) (actualSpreadChance : Int) : Option World := do
  let (roll, gen1) := getRandomInt w.gen 1 100
  let w1 := { w with gen := gen1 }
  if roll ≤ actualSpreadChance then do
    let localEmptyCells ← w1.grid.getAdjacentEmptyCells (w1.heap self).getR (w1.heap self).getC
    if localEmptyCells.isEmpty then pure w1
    else
      let (roll2, gen2) := getRandomInt w1.gen 1 100
      let w1a := { w1 with gen := gen2 }
      if roll2 ≤ 75 then
        let (choice, gen3) :=
          if localEmptyCells.length > 1 then
            getRandomInt w1a.gen 0 ((localEmptyCells.length : Int) - 1)
          else (0, w1a.gen)
        let cell ← localEmptyCells[choice.toNat]?
        spawn { w1a with gen := gen3 } cell.1 cell.2
      else pure w1a
  else pure w1

/-- The part of `Plant::update` after the death checks: spread, then bloom. -/
def spreadAndBloom (w : World) (self : EntityId) (p : PlantData) (currentSeason : Season) :
    Option World := do
  let actualSpreadChance : Int :=
    if currentSeason = .WINTER then Int.tdiv p.baseSpreadChanceValue 2
    else if currentSeason = .SUMMER then p.baseSpreadChanceValue * 2
    else p.baseSpreadChanceValue
  let w2 ← spread w self actualSpreadChance
  let newPlantChance : Int :=
    if currentSeason = .SPRING then 75 else if currentSeason = .SUMMER then 100 else 0
  if newPlantChance > 0 then do
    let w3 ← bloomOnce w2 newPlantChance
    bloomOnce w3 newPlantChance
  else pure w2

/-- The weather death draw of `Plant::update` in Winter and Autumn. -/
def weatherDeath (w : World) (self : EntityId) (rate : Int) : World × Bool :=
  let (roll, gen1) := getRandomInt w.gen 1 100
  let w1 := { w with gen := gen1 }
  if roll ≤ rate then
    if (w1.heap self).isAlive then
      (({ w1 with stats := { w1.stats with
          plantsDiedWeather := w1.stats.plantsDiedWeather + 1 } }).modify self Entity.kill, true)
    else (w1, true)
  else (w1, false)

/-- The seasonal death check of `Plant::update`; the flag tells whether the `return`
inside it was taken. -/
def seasonalDeath (w : World) (self : EntityId) (p : PlantData) (currentSeason : Season) :
    World × Bool :=
  if currentSeason = .WINTER then weatherDeath w self p.winterDeathChanceRate
  else if currentSeason = .AUTUMN then weatherDeath w self p.autumnDeathChanceRate
  else (w, false)

def update (w : World) (self : EntityId) (currentSeason : Season) : Option World := do
  if !(w.heap self).isAlive then pure w
  else
    let p0 ← (w.heap self).plant
    let p := { p0 with currentAge := p0.currentAge + 1 }
    let w1 := w.modify self (fun e => e.setPlant p)
    if p.currentAge > p.maximumAge then
      if (w1.heap self).isAlive then
        pure (({ w1 with stats := { w1.stats with
          plantsDiedNaturalAge := w1.stats.plantsDiedNaturalAge + 1 } }).modify self Entity.kill)
      else pure w1
    else
      let (w2, died) := seasonalDeath w1 self p currentSeason
      if died then pure w2
      else if !(w2.heap self).isAlive then pure w2
      else spreadAndBloom w2 self p currentSeason

end Plant

/-- Virtual dispatch of `Entity::update`. -/
def World.update (w : World) (e : EntityId) (currentSeason : Season) : Option World :=
  match (w.heap e).kind with
  | .plant _ => Plant.update w e currentSeason
  | _ => Animal.update w e currentSeason

/-! ## simulation.hpp, simulation.cpp -/

/-- Data members of `class Simulation`; `world` carries `sim_grid` and `sim_stats`. -/
structure Simulation where
  world : World
  totalMonthsDuration : Int
  currentMonthCounter : Int
  carnivoresStarvedPreviousMonth : Bool
  isNorthernHemisphereSelected : Bool
  current_Season_sim : Season
  currentMonthIndexInYear : Int
  simulationEndReason : String

def month_Names_sim : List String :=
  ["January", "February", "March", "April", "May", "June",
   "July", "August", "September", "October", "November", "December"]

namespace Simulation

/-- `Simulation::Simulation()`, given the objects, statistics and generator it starts with. -/
def new (gen : List Nat) : Simulation :=
  { world := { heap := fun _ => Plant.new 0 0, nextId := 0, grid := Grid.new, stats := {},
               gen := gen },
    totalMonthsDuration := 0, currentMonthCounter := 0,
    carnivoresStarvedPreviousMonth := false, isNorthernHemisphereSelected := true,
    current_Season_sim := .NONE, currentMonthIndexInYear := 0, simulationEndReason := "" }

/-- The raw vector access `month_Names_sim[idx]`. -/
def monthName (idx : Int) : Option String :=
  if idx < 0 then none else month_Names_sim[idx.toNat]?

def determineSeason (s : Simulation) : Option Simulation := do
  let idx := Int.tmod s.currentMonthCounter 12
  let season : Season :=
    if s.isNorthernHemisphereSelected then
      if idx ≥ 2 ∧ idx ≤ 4 then .SPRING
      else if idx ≥ 5 ∧ idx ≤ 7 then .SUMMER
      else if idx ≥ 8 ∧ idx ≤ 10 then .AUTUMN
      else .WINTER
    else
      if idx ≥ 8 ∧ idx ≤ 10 then .SPRING
      else if idx ≥ 11 ∨ idx ≤ 1 then .SUMMER
      else if idx ≥ 2 ∧ idx ≤ 4 then .AUTUMN
      else .WINTER
  let name ← monthName idx
  pure { s with currentMonthIndexInYear := idx, current_Season_sim := season,
                world := { s.world with stats := { s.world.stats with
                  currentMonthName := name, currentSeasonName := getSeasonName season } } }

/-- The `do ... while` search of the `place` lambda in `initialize`: at most
`GRID_WIDTH * GRID_HEIGHT * 2` draws of a cell, stopping at the first empty one. -/
def placeSearch (g : Grid) : Nat → Int → List Nat → Option ((Int × Int) × List Nat)
  | 0, _, _ => none
  | fuel + 1, attempts, gen => do
    let (r_coord, gen1) := getRandomInt gen 0 (GRID_HEIGHT - 1)
    let (c_coord, gen2) := getRandomInt gen1 0 (GRID_WIDTH - 1)
    let attempts1 := attempts + 1
    if !(← g.isEmpty r_coord c_coord) ∧ attempts1 < GRID_WIDTH * GRID_HEIGHT * 2 then
      placeSearch g fuel attempts1 gen2
    else pure ((r_coord, c_coord), gen2)

/-- The body of the `place` lambda once an empty cell was found: construct the entity of
the requested type at that cell and hand it to `addEntity`, whose result is ignored. -/
def placeOne (w : World) (type_val : EntityType) (pos : Int × Int) (g : Gender) : Option World :=
  match type_val with
  | .PLANT => do
    let (w1, newEntity) := w.alloc (Plant.new pos.1 pos.2)
    let (w2, _) ← w1.addEntity (some newEntity)
    pure w2
  | .HERBIVORE => do
    let (ent, gen1) := Herbivore.new w.gen pos.1 pos.2 g
    let (w1, newEntity) := { w with gen := gen1 }.alloc ent
    let (w2, _) ← w1.addEntity (some newEntity)
    pure w2
  | .CARNIVORE => do
    let (ent, gen1) := Carnivore.new w.gen pos.1 pos.2 g
    let (w1, newEntity) := { w with gen := gen1 }.alloc ent
    let (w2, _) ← w1.addEntity (some newEntity)
    pure w2
  | .EMPTY => pure w

/-- The `place` lambda of `initialize`, with `count` entities still to place. -/
def place (type_val : EntityType) : Nat → World → Option World
  | 0, w => pure w
  | count + 1, w => do
    let (pos, gen1) ← placeSearch w.grid (GRID_WIDTH * GRID_HEIGHT * 2) 0 w.gen
    let w1 := { w with gen := gen1 }
    if (← w1.grid.isEmpty pos.1 pos.2) then
      let (g01, gen2) := getRandomInt w1.gen 0 1
      let g := if g01 = 0 then Gender.MALE else Gender.FEMALE
      let w3 ← placeOne { w1 with gen := gen2 } type_val pos g
      place type_val count w3
    else pure w1

/-- `Simulation::initialize` for the answers the user gives to its prompts: the
hemisphere, the number of years and the three initial populations.  `none` stands for
the `exit(1)` taken when the populations exceed `MAX_POPULATION` (or for a fault). -/
def initializeSimulation (s : Simulation) (northern : Bool) (years : Int) (numP numH numC : Nat) :
    Option Simulation := do
  let s1 := { s with isNorthernHemisphereSelected := northern, totalMonthsDuration := years * 12 }
  if numP + numH + numC > MAX_POPULATION then none
  else
    let w1 ← place .PLANT numP s1.world
    let w2 ← place .HERBIVORE numH w1
    let w3 ← place .CARNIVORE numC w2
    pure { s1 with world := w3 }

/-- The Spring loop of `handleMigration`, with `n` immigrants still to attempt; the
second component counts `actualImmigrated`. -/
def immigrateLoop : Nat → World × Int → Option (World × Int)
  | 0, st => pure st
  | n + 1, (w, actualImmigrated) => do
    let (t01, gen1) := getRandomInt w.gen 0 1
    let (g01, gen2) := getRandomInt gen1 0 1
    let g := if g01 = 0 then Gender.MALE else Gender.FEMALE
    let (ent, gen3) :=
      if t01 = 0 then Herbivore.new gen2 0 0 g else Carnivore.new gen2 0 0 g
    let (w1, newAnimal) := { w with gen := gen3 }.alloc ent
    let (w2, ok) ← w1.addMigratingAnimal newAnimal
    if ok then
      let speciesName := if t01 = 0 then "Herbivore" else "Carnivore"
      immigrateLoop n
        (w2.addMonthlyEvent (speciesName ++ " immigrated to ("
          ++ posText (w2.heap newAnimal).getR (w2.heap newAnimal).getC ++ ")."),
         actualImmigrated + 1)
    else immigrateLoop n (w2, actualImmigrated)

/-- The raw vector access `registry[randIdx]`. -/
def registryAt (registry : List EntityId) (randIdx : Int) : Option EntityId :=
  if randIdx < 0 then none else registry[randIdx.toNat]?

/-- The Autumn loops that pick who emigrates: `i` runs from 0 while it is below both
`emigrate` and the size of the registry; each round pushes a random element. -/
def pickEmigrants (registry : List EntityId) (emigrate : Int) :
    Nat → Int → List Nat → List EntityId → Option (List EntityId × List Nat)
  | 0, _, gen, temp => pure (temp, gen)
  | fuel + 1, i, gen, temp =>
    if i < emigrate ∧ i < registry.length then do
      let (randIdx, gen1) := getRandomInt gen 0 ((registry.length : Int) - 1)
      let picked ← registryAt registry randIdx
      pickEmigrants registry emigrate fuel (i + 1) gen1 (temp ++ [picked])
    else pure (temp, gen)

/-- The Autumn loops that remove the picked animals that are still alive. -/
def emigrateAll (speciesName : String) : List EntityId → World × Int → Option (World × Int)
  | [], st => pure st
  | toRemove :: rest, (w, actualEmigrated) => do
    if (w.heap toRemove).isAlive then
      let w1 := w.addMonthlyEvent (speciesName ++ " at ("
        ++ posText (w.heap toRemove).getR (w.heap toRemove).getC ++ ") emigrated.")
      let w2 ← w1.removeEntity (some toRemove)
      emigrateAll speciesName rest (w2, actualEmigrated + 1)
    else emigrateAll speciesName rest (w, actualEmigrated)

def handleMigration (s : Simulation) : Option Simulation := do
  if s.current_Season_sim = .SPRING then
    let (immigrateCount, gen1) := getRandomInt s.world.gen 1 3
    let (w1, actualImmigrated) ← immigrateLoop immigrateCount.toNat
      ({ s.world with gen := gen1 }, 0)
    let w2 := if actualImmigrated > 0 then
        { w1 with stats := { w1.stats with animalsImmigrated := w1.stats.animalsImmigrated + 1 } }
      else w1
    pure { s with world := w2 }
  else if s.current_Season_sim = .AUTUMN then
    let w := s.world
    let (emigrateHerbivores, gen1) :=
      if w.grid.herbivores_list.length > 2 then
        getRandomInt w.gen 0 (min (Int.tdiv (w.grid.herbivores_list.length : Int) 4) 2)
      else (0, w.gen)
    let (emigrateCarnivores, gen2) :=
      if w.grid.carnivores_list.length > 1 then
        getRandomInt gen1 0 (min (Int.tdiv (w.grid.carnivores_list.length : Int) 5) 1)
      else (0, gen1)
    let (temp_herbivores_to_emigrate, gen3) ←
      pickEmigrants w.grid.herbivores_list emigrateHerbivores emigrateHerbivores.toNat 0 gen2 []
    let (w1, actual1) ← emigrateAll "Herbivore" temp_herbivores_to_emigrate
      ({ w with gen := gen3 }, 0)
    let (temp_carnivores_to_emigrate, gen4) ←
      pickEmigrants w1.grid.carnivores_list emigrateCarnivores emigrateCarnivores.toNat 0 w1.gen []
    let (w2, actualEmigrated) ← emigrateAll "Carnivore" temp_carnivores_to_emigrate
      ({ w1 with gen := gen4 }, actual1)
    let w3 := if actualEmigrated > 0 then
        { w2 with stats := { w2.stats with animalsEmigrated := w2.stats.animalsEmigrated + 1 } }
      else w2
    pure { s with world := w3 }
  else pure s

/-- `MonthlyStats::reset`. -/
def resetStats (st : MonthlyStats) : MonthlyStats :=
  { st with plantsEaten := 0, plantsDiedNaturalAge := 0, plantsDiedWeather := 0,
            plantsSpread := 0, herbivoresEaten := 0, herbivoresDiedNatural := 0,
            herbivoresSpawned := 0, carnivoresEaten := 0, carnivoresDiedNatural := 0,
            carnivoresSpawned := 0, animalsImmigrated := 0, animalsEmigrated := 0,
            monthlyEvents := [] }

/-- The loops `for (ptr : copy) if (ptr->isAlive()) ptr->update(...)` of `runMonth`. -/
def updateAll (season : Season) : List EntityId → World → Option World
  | [], w => pure w
  | ptr :: rest, w => do
    if (w.heap ptr).isAlive then
      let w1 ← w.update ptr season
      updateAll season rest w1
    else updateAll season rest w

/-- The cleanup loop of `runMonth` over `all_entities_for_cleanup`. -/
def cleanup : List EntityId → World → Option World
  | [], w => pure w
  | e_ptr :: rest, w => do
    if !(w.heap e_ptr).isAlive then
      let w1 ← w.removeEntity (some e_ptr)
      cleanup rest w1
    else cleanup rest w

/-- The part of `runMonth` up to and including the cleanup and the population counts:
everything that changes the grid. -/
def runMonthCore (s : Simulation) : Option Simulation := do
  let s1 := { s with currentMonthCounter := s.currentMonthCounter + 1 }
  let s2 := { s1 with world := { s1.world with stats := resetStats s1.world.stats } }
  let s3 ← determineSeason s2
  let plants_copy := s3.world.grid.plants_list
  let herbivores_copy := s3.world.grid.herbivores_list
  let carnivores_copy := s3.world.grid.carnivores_list
  let w1 ← updateAll s3.current_Season_sim carnivores_copy s3.world
  let w2 ← updateAll s3.current_Season_sim herbivores_copy w1
  let w3 ← updateAll s3.current_Season_sim plants_copy w2
  let s4 ← handleMigration { s3 with world := w3 }
  let all_entities_for_cleanup :=
    s4.world.grid.plants_list ++ s4.world.grid.herbivores_list ++ s4.world.grid.carnivores_list
  let w5 ← cleanup all_entities_for_cleanup s4.world
  pure { s4 with world := { w5 with stats := { w5.stats with
    currentPlants := w5.grid.plants_list.length,
    currentHerbivores := w5.grid.herbivores_list.length,
    currentCarnivores := w5.grid.carnivores_list.length } } }

/-- The end of `runMonth`: the early-termination tests, then the prompt; `key` is the
character read by `std::cin.get()`, `none` for end of input. -/
def runMonthEnd (s : Simulation) (key : Option Char) : Simulation :=
  let g := s.world.grid
  let allAnimalsDead := g.herbivores_list.isEmpty && g.carnivores_list.isEmpty
  let plantsGone := g.plants_list.isEmpty &&
    (decide (s.world.stats.currentHerbivores > 0) || decide (s.world.stats.currentCarnivores > 0))
  let herbivoresGone := g.herbivores_list.isEmpty && decide (s.world.stats.currentCarnivores > 0)
  let s1 :=
    if s.currentMonthCounter > 1 then
      if allAnimalsDead then
        { s with simulationEndReason := "All animals have died.",
                 currentMonthCounter := s.totalMonthsDuration + 1 }
      else if plantsGone && allAnimalsDead then
        { s with simulationEndReason := "All plants and animals have died.",
                 currentMonthCounter := s.totalMonthsDuration + 1 }
      else if plantsGone then
        { s with simulationEndReason :=
                   "All plants have died. Remaining animals will likely starve.",
                 currentMonthCounter := s.totalMonthsDuration + 1 }
      else if herbivoresGone then
        { s with simulationEndReason := "All herbivores have died. Carnivores will starve.",
                 currentMonthCounter := s.totalMonthsDuration + 1 }
      else s
    else s
  if s1.currentMonthCounter ≤ s1.totalMonthsDuration then
    match key with
    | none => { s1 with simulationEndReason := "User requested exit (EOF).",
                        currentMonthCounter := s1.totalMonthsDuration + 1 }
    | some q_input_char =>
      if q_input_char.toUpper = 'Q' then
        { s1 with simulationEndReason := "User quit the simulation.",
                  currentMonthCounter := s1.totalMonthsDuration + 1 }
      else s1
  else s1

def runMonth (s : Simulation) (key : Option Char) : Option Simulation := do
  let s1 ← runMonthCore s
  pure (runMonthEnd s1 key)

end Simulation

/-! ## Specification vocabulary -/

/-- The registry `getPlants()`, `getHerbivores()` or `getCarnivores()` that stores the
entities of type `t` (there is none for `EMPTY`). -/
def Grid.registry (g : Grid) (t : EntityType) : List EntityId :=
  match t with
  | .PLANT => g.plants_list
  | .HERBIVORE => g.herbivores_list
  | .CARNIVORE => g.carnivores_list
  | .EMPTY => []

/-- The cell map after the raw write `cells_grid[r][c] = v` at a valid index. -/
def Grid.setCell (g : Grid) (r c : Int) (v : Option EntityId) : Grid :=
  { g with cells_grid := fun r1 c1 => if r1 = r ∧ c1 = c then v else g.cells_grid r1 c1 }

/-- The offsets the two nested loops of `findNearbyEntities` reach without taking the
`continue`, in the order in which they are reached. -/
def scanOffsets (range_val : Int) : List (Int × Int) :=
  (intRange (-range_val) range_val).flatMap (fun dr =>
    (intRange (-range_val) range_val).flatMap (fun dc =>
      if dr = 0 ∧ dc = 0 then [] else [(dr, dc)]))

/-- What one visited cell contributes to the result of `findNearbyEntities`. -/
def nearbyAt (w : World) (r c : Int) (targetType : EntityType) (d : Int × Int) :
    Option EntityId :=
  if Grid.isValid (r + d.1) (c + d.2) then
    (w.grid.cells_grid (r + d.1) (c + d.2)).filter
      (fun e => decide ((w.heap e).getType = targetType) && (w.heap e).is_alive)
  else none

/-- The states a program can bring a `Grid` into.  The cell map and the three lists are
private members, so they change only through the four mutating member functions; the
objects, the statistics and the generator may change freely in between. -/
inductive GridReachable : World → Prop where
  | init (heap : EntityId → Entity) (nextId : EntityId) (stats : MonthlyStats) (gen : List Nat) :
      GridReachable { heap := heap, nextId := nextId, grid := Grid.new, stats := stats, gen := gen }
  | outside {w w1 : World} : GridReachable w → w1.grid = w.grid → GridReachable w1
  | addEntity {w w1 : World} {ent : Option EntityId} {b : Bool} :
      GridReachable w → w.addEntity ent = some (w1, b) → GridReachable w1
  | addMigratingAnimal {w w1 : World} {a : EntityId} {b : Bool} :
      GridReachable w → w.addMigratingAnimal a = some (w1, b) → GridReachable w1
  | removeEntity {w w1 : World} {ent : Option EntityId} :
      GridReachable w → w.removeEntity ent = some w1 → GridReachable w1
  | moveEntity {w w1 : World} {ent : Option EntityId} {newR newC : Int} :
      GridReachable w → w.moveEntity ent newR newC = some w1 → GridReachable w1

/-! ## Concrete worlds used to exercise the theorems -/

/-- A world whose objects are plants, object `i` sitting at row `i / 20`, column
`i % 20`, with nothing placed on the grid yet. -/
def plantWorld : World :=
  { heap := fun i => Plant.new ((i / 20 : Nat) : Int) ((i % 20 : Nat) : Int),
    nextId := 400, grid := Grid.new, stats := {}, gen := [] }

/-- A grid at full capacity: cell `(r, c)` holds plant `20 * r + c`. -/
def fullWorld : World :=
  { plantWorld with
    grid := { cells_grid := fun r c => if Grid.isValid r c then some (20 * r + c).toNat else none,
              plants_list := List.range 400, herbivores_list := [], carnivores_list := [] } }

/-- Plant 45 placed alone at its cell `(2, 5)`. -/
def onePlantWorld : World :=
  { plantWorld with
    grid := { cells_grid := fun r c => if r = 2 ∧ c = 5 then some 45 else none,
              plants_list := [45], herbivores_list := [], carnivores_list := [] } }

/-- Finite sequences of changes a program can make to a `Grid`: calls of the four
mutating member functions, with arbitrary changes outside the grid in between. -/
inductive GridSteps : World → World → Prop where
  | refl (w : World) : GridSteps w w
  | outside {w w1 w2 : World} : GridSteps w w1 → w2.grid = w1.grid → GridSteps w w2
  | addEntity {w w1 w2 : World} {ent : Option EntityId} {b : Bool} :
      GridSteps w w1 → w1.addEntity ent = some (w2, b) → GridSteps w w2
  | addMigratingAnimal {w w1 w2 : World} {a : EntityId} {b : Bool} :
      GridSteps w w1 → w1.addMigratingAnimal a = some (w2, b) → GridSteps w w2
  | removeEntity {w w1 w2 : World} {ent : Option EntityId} :
      GridSteps w w1 → w1.removeEntity ent = some w2 → GridSteps w w2
  | moveEntity {w w1 w2 : World} {ent : Option EntityId} {newR newC : Int} :
      GridSteps w w1 → w1.moveEntity ent newR newC = some w2 → GridSteps w w2

/-- The states of the simulation at the boundaries of its ticks: the result of
`initialize` for some answers of the user and some random draws, followed by any number
of `runMonth` calls. -/
inductive SimReachable : Simulation → Prop where
  | stocked {gen : List Nat} {northern : Bool} {years : Int} {numP numH numC : Nat}
      {s : Simulation} :
      (Simulation.new gen).initializeSimulation northern years numP numH numC = some s →
      SimReachable s
  | month {s s1 : Simulation} {key : Option Char} :
      SimReachable s → s.runMonth key = some s1 → SimReachable s1

/-- The occupancy invariant of the specification: a cell of the grid holds `e` exactly
when `e` is alive, is in the registry of its type and is stored at that cell. -/
def OccupancyInvariant (w : World) : Prop :=
  ∀ (r c : Int) (e : EntityId), Grid.isValid r c = true →
    (w.grid.cells_grid r c = some e ↔
      ((w.heap e).is_alive = true ∧ e ∈ w.grid.registry (w.heap e).getType ∧
        (w.heap e).r_coord = r ∧ (w.heap e).c_coord = c))

/-- No two registered living entities are stored at the same position. -/
def OnePerCell (w : World) : Prop :=
  ∀ e1 e2 : EntityId, e1 ≠ e2 →
    e1 ∈ w.grid.registry (w.heap e1).getType → e2 ∈ w.grid.registry (w.heap e2).getType →
    (w.heap e1).is_alive = true → (w.heap e2).is_alive = true →
    ¬ ((w.heap e1).r_coord = (w.heap e2).r_coord ∧ (w.heap e1).c_coord = (w.heap e2).c_coord)

/-- What the reconcile step is meant to establish: no registry lists a dead entity, and
every entity held by a cell of the grid is alive and listed in the registry of its type. -/
def DeadPurged (w : World) : Prop :=
  (∀ (t : EntityType) (e : EntityId), e ∈ w.grid.registry t → (w.heap e).is_alive = true) ∧
  (∀ (r c : Int) (e : EntityId), Grid.isValid r c = true → w.grid.cells_grid r c = some e →
    ((w.heap e).is_alive = true ∧ e ∈ w.grid.registry (w.heap e).getType))

/-- Executable test of `DeadPurged` over the cells of the grid and the three registries. -/
def deadPurgedCheck (w : World) : Bool :=
  [EntityType.EMPTY, .PLANT, .HERBIVORE, .CARNIVORE].all (fun t =>
    (w.grid.registry t).all (fun e => (w.heap e).is_alive)) &&
  (List.range GRID_HEIGHT).all (fun i => (List.range GRID_WIDTH).all (fun j =>
    match w.grid.cells_grid (i : Int) (j : Int) with
    | none => true
    | some e => (w.heap e).is_alive && decide (e ∈ w.grid.registry (w.heap e).getType)))

/-- Executable test of `OccupancyInvariant` over the cells of the grid and the three
registries. -/
def occupancyCheck (w : World) : Bool :=
  (List.range GRID_HEIGHT).all (fun i => (List.range GRID_WIDTH).all (fun j =>
    match w.grid.cells_grid (i : Int) (j : Int) with
    | none => true
    | some e => (w.heap e).is_alive && decide (e ∈ w.grid.registry (w.heap e).getType) &&
        decide ((w.heap e).r_coord = i) && decide ((w.heap e).c_coord = j))) &&
  [EntityType.EMPTY, .PLANT, .HERBIVORE, .CARNIVORE].all (fun t =>
    (w.grid.registry t).all (fun e =>
      !((w.heap e).is_alive && decide ((w.heap e).getType = t)) ||
        (Grid.isValid (w.heap e).r_coord (w.heap e).c_coord &&
          decide (w.grid.cells_grid (w.heap e).r_coord (w.heap e).c_coord = some e))))

/-! ### A herbivore steps onto a living plant

Raw draws of a run in the Northern hemisphere.  Stocking: plants 0 and 1 at `(4, 4)` and
`(4, 5)`, then herbivore 2, a male with energy 60, at `(5, 5)` (row, column and gender
draw for each, plus the energy draw of the animal).  First month, which is a Winter
month: the two draws `99` make the weather-death roll and the spread roll of plant 1
come out as 100, so that it neither dies nor spreads. -/
def forageGen : List Nat := [4, 4, 0, 4, 5, 0, 5, 5, 0, 0, 99, 99]

/-- The stocked simulation of the forage scenario. -/
def forageStocked : Option Simulation :=
  (Simulation.new forageGen).initializeSimulation true 1 2 1 0

/-! ### A dead herbivore is dropped from the registry but stays in its cell

Raw draws of a run in the Southern hemisphere, whose months 2, 3 and 4 are Autumn months.
Stocking: plants 0 and 1 at `(19, 19)` and `(10, 19)`; male herbivores 2, 3, 4, 5 with
energy 60 at `(5, 2)`, `(2, 5)`, `(5, 5)` and `(19, 12)`.  Month 1 (Summer): each herbivore
moves to its first empty neighbour (draw `0`), herbivore 5 having eaten plant 0; plant 1
does not spread (`99`) and blooms twice, at `(10, 18)` and `(10, 17)`.  Months 2 and 3:
four moves, then for each of the three plants a survived weather roll and a failed spread
roll, then an emigration count of 0.  Month 4: herbivores 2, 3 and 4 starve; herbivore 5
moves; the plants as before; the emigration count is 1 and index 3 picks herbivore 5. -/
def emigrationGen : List Nat :=
  [19, 19, 0, 10, 19, 0, 5, 2, 0, 0, 2, 5, 0, 0, 5, 5, 0, 0, 19, 12, 0, 0] ++
  [0, 0, 0, 0, 99, 0, 10, 18, 0, 10, 17] ++
  [0, 0, 0, 0, 99, 99, 99, 99, 99, 99, 0] ++
  [0, 0, 0, 0, 99, 99, 99, 99, 99, 99, 0] ++
  [0, 99, 99, 99, 99, 99, 99, 1, 3]

/-- The stocked simulation of the emigration scenario. -/
def emigrationStocked : Option Simulation :=
  (Simulation.new emigrationGen).initializeSimulation false 1 2 4 0

/-- The key the user presses at the prompt that ends a month: Enter. -/
def enterKey : Option Char := some '\n'

/-- The Northern partition of the specification: months 2 to 4 are Spring, 5 to 7 Summer,
8 to 10 Autumn, and the others (11, 0, 1) Winter. -/
def northernPartition (m : Int) : Season :=
  if 2 ≤ m ∧ m ≤ 4 then .SPRING
  else if 5 ≤ m ∧ m ≤ 7 then .SUMMER
  else if 8 ≤ m ∧ m ≤ 10 then .AUTUMN
  else .WINTER

/-- What `determineSeason` hands to the rest of the program: the season, the month index,
and the two names stored in the statistics. -/
def Simulation.seasonView (s : Simulation) : Season × Int × String × String :=
  (s.current_Season_sim, s.currentMonthIndexInYear, s.world.stats.currentMonthName,
    s.world.stats.currentSeasonName)

/-- A simulation put at month counter `m` of the given hemisphere. -/
def Simulation.atMonth (s : Simulation) (m : Int) (northern : Bool) : Simulation :=
  { s with currentMonthCounter := m, isNorthernHemisphereSelected := northern }

/-! ## Energy bounds, death and pregnancy along a run -/

/-- The energy bounds the code maintains for one object: an animal never has more than
its maximum energy, and a living animal never has negative energy; the two constants the
bounds rest on, `maximumEnergy` and `movementCostBase`, are not negative.  A plant has no
energy. -/
def Entity.energyBounded (ent : Entity) : Prop :=
  ∀ a, ent.animal = some a →
    0 ≤ a.maximumEnergy ∧ 0 ≤ a.movementCostBase ∧ a.currentEnergy ≤ a.maximumEnergy ∧
      (ent.is_alive = true → 0 ≤ a.currentEnergy)

/-- The pregnancy flag of an object (`false` for a plant). -/
def Entity.pregnant (ent : Entity) : Bool :=
  match ent.animal with
  | some a => a.currentlyPregnant
  | none => false

/-- How one object may differ between two points of a run: its class is the same; if it
was dead it is still dead, with the same species-specific state; its energy bounds are
kept; and, between two points with no mating in between (`strict`), its pregnancy flag
was not newly set. -/
structure Entity.Evolves (strict : Bool) (ent ent1 : Entity) : Prop where
  type_eq : ent1.getType = ent.getType
  dead : ent.is_alive = false → ent1.is_alive = false ∧ ent1.kind = ent.kind
  energy : ent.energyBounded → ent1.energyBounded
  pregnancy : strict = true → ent1.pregnant = true → ent.pregnant = true

/-- How the objects and the registries may differ between two points of a run: objects
are only added; every object that existed evolves as `Entity.Evolves` says; the new
objects keep the energy bounds and, with no mating in between, are not pregnant; and an
object that was dead occurs in no registry more often than before. -/
structure World.Evolves (strict : Bool) (w w1 : World) : Prop where
  allocated : ∀ e : Nat, e < w.nextId → e < w1.nextId
  old : ∀ e : Nat, e < w.nextId → Entity.Evolves strict (w.heap e) (w1.heap e)
  fresh : ∀ e : Nat, ¬ e < w.nextId → e < w1.nextId →
    (w1.heap e).energyBounded ∧ (strict = true → (w1.heap e).pregnant = false)
  registry : ∀ (e : Nat) (t : EntityType), e < w.nextId → (w.heap e).is_alive = false →
    (w1.grid.registry t).count e ≤ (w.grid.registry t).count e

/-- What a write to an object that was alive when the phase began has to respect. -/
structure Entity.Writes (strict : Bool) (ent ent1 : Entity) : Prop where
  type_eq : ent1.getType = ent.getType
  energy : ent.energyBounded → ent1.energyBounded
  pregnancy : strict = true → ent1.pregnant = true → ent.pregnant = true

/-- The `Animal` members after the assignments of `Animal::baseUpdate` (age, missed
meals, energy, cooldown, gestation), before its death test. -/
def Animal.baseUpdateData (a0 : AnimalData) (currentSeason : Season) : AnimalData :=
  let a1 := { a0 with currentAge := a0.currentAge + 1 }
  let a2 := { a1 with mealsMissedTurns := a1.mealsMissedTurns + 1 }
  let actualMoveCost : Int :=
    if currentSeason = .WINTER then a2.movementCostBase + 5
    else if currentSeason = .AUTUMN then a2.movementCostBase + 2
    else if currentSeason = .SUMMER then max 1 (a2.movementCostBase - 2)
    else a2.movementCostBase
  let a3 := { a2 with currentEnergy := a2.currentEnergy - (1 + Int.tdiv actualMoveCost 2) }
  let a4 := if a3.currentCooldownForReproduction > 0 then
      { a3 with currentCooldownForReproduction := a3.currentCooldownForReproduction - 1 }
    else a3
  if a4.currentlyPregnant then
      { a4 with currentGestationProgress := a4.currentGestationProgress + 1,
                currentEnergy := a4.currentEnergy - 3 }
    else a4

/-- The eat phase of `Animal::update`: `if (attemptEat(...)) mealsMissedTurns = 0;`. -/
def Animal.eatPhase (w : World) (self : EntityId) (currentSeason : Season) : Option World := do
  let (w2, ate) ← Animal.attemptEat w self currentSeason
  Animal.resetMeals w2 self ate

/-- The move phase of `Animal::update`: `move(...)`, then the final energy check. -/
def Animal.movePhase (w : World) (self : EntityId) (currentSeason : Season) : Option World := do
  let w6 ← Animal.move w self currentSeason
  let a6 ← (w6.heap self).animal
  if a6.currentEnergy ≤ 0 ∧ (w6.heap self).isAlive then pure (Animal.die w6 self false)
  else pure w6

/-- The guard `if (!isAlive()) return;` that `Animal::update` puts before a phase. -/
def Animal.ifAlive (self : EntityId) (phase : World → Option World) (w : World) : Option World :=
  if !(w.heap self).isAlive then pure w else phase w

/-- The existing objects of a world keep their energy bounds. -/
def World.energyBounded (w : World) : Prop :=
  ∀ e : Nat, e < w.nextId → (w.heap e).energyBounded

/-- Monotonic death between two points of a run: an object that was dead at the first
point is dead at the second, with the same species-specific state, and occurs in no
registry more often than at the first point. -/
def DeadStaysDead (w w1 : World) : Prop :=
  ∀ e : Nat, e < w.nextId → (w.heap e).is_alive = false →
    (w1.heap e).is_alive = false ∧ (w1.heap e).kind = (w.heap e).kind ∧
      ∀ t : EntityType, (w1.grid.registry t).count e ≤ (w.grid.registry t).count e

/-- No pregnancy flag was newly set between two points of a run: an object that is
pregnant at the second point existed at the first point and was pregnant there. -/
def NoNewPregnancy (w w1 : World) : Prop :=
  ∀ e : Nat, e < w1.nextId → (w1.heap e).pregnant = true →
    e < w.nextId ∧ (w.heap e).pregnant = true

/-- The simulation `s1` is `s` after some number of further ticks. -/
inductive LaterTick : Simulation → Simulation → Prop where
  | same (s : Simulation) : LaterTick s s
  | month {s s1 s2 : Simulation} {key : Option Char} :
      LaterTick s s1 → s1.runMonth key = some s2 → LaterTick s s2

/-! ### A male is left alive with energy 0 by a mating -/

/-- Raw draws of a run in the Northern hemisphere, whose month 1 is a Winter month and whose
months 2, 3 and 4 are Spring months.  Stocking: plant 0 at `(19, 19)`; herbivore 1, a male
with energy 60, at `(5, 5)`; herbivore 2, a female with energy 90, at `(5, 11)`.  Months 1
and 2: the male moves one cell to the right (draw `4`), the female one cell to the left
(draw `3`); the plant survives and does not spread or bloom (`99`); in month 2 one male
herbivore immigrates to `(19, 0)`.  Month 3: the male moves to `(5, 8)` and has energy 10;
the female, at `(5, 9)`, draws `0` for the reproduction test and mates with him; she and
the immigrant move to their first empty neighbour; one male herbivore immigrates to
`(0, 19)`.  Month 4: the two animals that mated die in their base update; the others move;
one male herbivore immigrates to `(10, 10)`. -/
def matingGen : List Nat :=
  [19, 19, 0, 5, 5, 0, 0, 5, 11, 1, 30] ++
  [4, 3, 99, 99] ++
  [4, 3, 99, 99, 99, 0, 0, 0, 0, 19, 0] ++
  [4, 0, 0, 0, 99, 99, 99, 0, 0, 0, 0, 0, 19] ++
  [0, 0, 99, 99, 99, 0, 0, 0, 0, 10, 10]

/-- The stocked simulation of the mating scenario. -/
def matingStocked : Option Simulation :=
  (Simulation.new matingGen).initializeSimulation true 1 1 2 0

/-- The energy of an object (`none` for a plant). -/
def Entity.energy (ent : Entity) : Option Int :=
  ent.animal.map (fun a => a.currentEnergy)

/-- The members of a male herbivore as its constructor sets them, ten months later, with
no energy left and one missed meal. -/
def exhaustedHerbivore : AnimalData :=
  { animalGender := .MALE, currentAge := 10, maximumAge := 70, currentEnergy := 0,
    maximumEnergy := 120, sightRange := 5, movementCostBase := 10,
    cooldownForReproduction := 1, currentCooldownForReproduction := 0,
    currentlyPregnant := false, periodOfGestation := 3, currentGestationProgress := 0,
    minimumBreedingAge := 2, energyRequiredToReproduce := 40, mealsMissedTurns := 1,
    maxTurnsWithoutFoodAllowed := 3 }

/-- A grid with that herbivore alone, as object 0 at `(5, 5)`. -/
def exhaustedWorld : World :=
  { heap := fun _ => { r_coord := 5, c_coord := 5, is_alive := true,
                       kind := .herbivore exhaustedHerbivore },
    nextId := 1,
    grid := { cells_grid := fun r c => if r = 5 ∧ c = 5 then some 0 else none,
              plants_list := [], herbivores_list := [0], carnivores_list := [] },
    stats := {}, gen := [] }

/-- The local `eatRad` of `Carnivore::attemptEat`: the sight range, adjusted by season. -/
def Carnivore.eatRadius (a : AnimalData) (currentSeason : Season) : Int :=
  if currentSeason = .WINTER then max 1 (a.sightRange - 2)
  else if currentSeason = .AUTUMN then max 1 (a.sightRange - 1)
  else if currentSeason = .SUMMER then a.sightRange + 1
  else a.sightRange

/-- What `Carnivore::attemptEat` leaves behind when it has eaten `prey`. -/
structure Carnivore.Ate (w : World) (hunter : EntityId) (a : AnimalData) (w1 : World)
    (prey : EntityId) : Prop where
  prey_type : (w.heap prey).getType = .HERBIVORE
  prey_alive : (w.heap prey).is_alive = true
  prey_held : w.grid.cells_grid (w.heap prey).r_coord (w.heap prey).c_coord = some prey
  prey_dead : (w1.heap prey).is_alive = false
  others : ∀ e : EntityId, e ≠ prey → (w1.heap e).is_alive = (w.heap e).is_alive
  unregistered : prey ∉ w1.grid.herbivores_list
  cell_empty : w1.grid.cells_grid (w.heap prey).r_coord (w.heap prey).c_coord = none
  eaten : w1.stats.herbivoresEaten = w.stats.herbivoresEaten + 1
  natural : w1.stats.herbivoresDiedNatural = w.stats.herbivoresDiedNatural
  energy : (w1.heap hunter).animal =
    some { a with currentEnergy := min a.maximumEnergy (a.currentEnergy + 45) }

/-- The members of a male carnivore as its constructor sets them, six months later and
with energy 50. -/
def hungryCarnivore : AnimalData :=
  { animalGender := .MALE, currentAge := 6, maximumAge := 100, currentEnergy := 50,
    maximumEnergy := 120, sightRange := 6, movementCostBase := 15,
    cooldownForReproduction := 1, currentCooldownForReproduction := 0,
    currentlyPregnant := false, periodOfGestation := 4, currentGestationProgress := 0,
    minimumBreedingAge := 5, energyRequiredToReproduce := 50, mealsMissedTurns := 1,
    maxTurnsWithoutFoodAllowed := 2 }

/-- A grid with that carnivore as object 0 at `(5, 5)` and the herbivore of
`exhaustedWorld`, with energy 60, as object 1 at `(5, 7)`. -/
def predationWorld : World :=
  { heap := fun i =>
      if i = 0 then { r_coord := 5, c_coord := 5, is_alive := true,
                      kind := .carnivore hungryCarnivore }
      else { r_coord := 5, c_coord := 7, is_alive := true,
             kind := .herbivore { exhaustedHerbivore with currentEnergy := 60 } },
    nextId := 2,
    grid := { cells_grid := fun r c =>
                if r = 5 ∧ c = 5 then some 0 else if r = 5 ∧ c = 7 then some 1 else none,
              plants_list := [], herbivores_list := [1], carnivores_list := [0] },
    stats := {}, gen := [] }

/-- What the loop of `Herbivore::giveBirth`, started in `w` with the candidate cells
`locs` and `n` offspring to place, has done when it ends in `w1` having registered the
objects `children`. -/
structure Herbivore.Born (w : World) (locs : List (Int × Int)) (n : Nat) (w1 : World)
    (children : List EntityId) : Prop where
  le_n : children.length ≤ n
  le_locs : children.length ≤ locs.length
  some_born : 0 < n → locs ≠ [] → w.grid.population < MAX_POPULATION → 1 ≤ children.length
  herbivores : w1.grid.herbivores_list = w.grid.herbivores_list ++ children
  plants : w1.grid.plants_list = w.grid.plants_list
  carnivores : w1.grid.carnivores_list = w.grid.carnivores_list
  spawned : w1.stats.herbivoresSpawned = w.stats.herbivoresSpawned + children.length
  nextId_le : ∀ e : Nat, e < w.nextId → e < w1.nextId
  old : ∀ e : Nat, e < w.nextId → w1.heap e = w.heap e
  cells : ∀ r c : Int, (r, c) ∉ locs → w1.grid.cells_grid r c = w.grid.cells_grid r c
  sorted : children.Pairwise (fun c1 c2 => c1 < c2)
  child : ∀ c : Nat, c ∈ children → ¬ c < w.nextId ∧ c < w1.nextId ∧
    (w1.heap c).getType = .HERBIVORE ∧ (w1.heap c).is_alive = true ∧
    ((w1.heap c).r_coord, (w1.heap c).c_coord) ∈ locs ∧
    w1.grid.cells_grid (w1.heap c).r_coord (w1.heap c).c_coord = some c

/-- The members of an animal that record a pregnancy: `currentlyPregnant` and
`currentGestationProgress` (`none` for a plant). -/
def Entity.brood (ent : Entity) : Option (Bool × Int) :=
  ent.animal.map (fun a => (a.currentlyPregnant, a.currentGestationProgress))

/-- No object has its pregnancy members changed. -/
def World.SameBrood (w w1 : World) : Prop :=
  ∀ i : EntityId, (w1.heap i).brood = (w.heap i).brood

/-- The members of a female herbivore as its constructor sets them, seven months later,
pregnant, with energy 60 and a gestation of three months behind her. -/
def dueMother : AnimalData :=
  { animalGender := .FEMALE, currentAge := 7, maximumAge := 70, currentEnergy := 60,
    maximumEnergy := 120, sightRange := 5, movementCostBase := 10,
    cooldownForReproduction := 1, currentCooldownForReproduction := 0,
    currentlyPregnant := true, periodOfGestation := 3, currentGestationProgress := 3,
    minimumBreedingAge := 2, energyRequiredToReproduce := 40, mealsMissedTurns := 1,
    maxTurnsWithoutFoodAllowed := 3 }

/-- A grid with that herbivore alone, as object 0 at `(5, 5)`; the generator will yield
2 offspring, at the adjacent empty cells number 3 and number 0. -/
def birthWorld : World :=
  { heap := fun _ => { r_coord := 5, c_coord := 5, is_alive := true,
                       kind := .herbivore dueMother },
    nextId := 1,
    grid := { cells_grid := fun r c => if r = 5 ∧ c = 5 then some 0 else none,
              plants_list := [], herbivores_list := [0], carnivores_list := [] },
    stats := {}, gen := [1, 3, 0, 7, 0, 1, 9] }

/-- The loop `while (currentMonthCounter < totalMonthsDuration) runMonth();` of
`Simulation::start`.  `keys` are the characters the prompts read, one for each tick (a
tick whose prompt is not shown is the last one); when they run out the input is at its
end.  The first argument bounds the ticks the model follows; `none` means it was too
small. -/
def Simulation.monthLoop : Nat → List (Option Char) → Simulation → Option Simulation
  | 0, _, _ => none
  | fuel + 1, keys, s =>
    if s.currentMonthCounter < s.totalMonthsDuration then do
      let s1 ← s.runMonth (keys.headD none)
      Simulation.monthLoop fuel keys.tail s1
    else pure s

/-- The simulation stocked with nothing, in the Southern hemisphere, for one year. -/
def emptyStocked : Option Simulation :=
  (Simulation.new []).initializeSimulation false 1 0 0 0

/-- Raw draws of a run that starts with an empty grid: in the second month, a Spring
month, three immigrants are attempted (draw `2`), a male herbivore that is placed at
`(3, 4)`, a female herbivore that is placed at `(10, 11)` and a male carnivore that is
placed at `(15, 16)`. -/
def immigrationGen : List Nat := [2, 0, 0, 5, 3, 4, 0, 1, 7, 10, 11, 1, 0, 9, 15, 16]

/-- The simulation of the immigration scenario: Northern hemisphere, one year, nothing
stocked. -/
def immigrationStocked : Option Simulation :=
  (Simulation.new immigrationGen).initializeSimulation true 1 0 0 0

/-- No cell of the grid is empty. -/
def Grid.Full (g : Grid) : Prop :=
  ∀ r c : Int, Grid.isValid r c = true → g.cells_grid r c ≠ none

/-- What a successful `attemptReproduce` of `female` with the male `mate` of the
class `species` has read in `w` and written in `w1`. -/
structure Animal.Mated (species : EntityType) (w w1 : World) (female mate : EntityId)
    (a m : AnimalData) : Prop where
  female_data : (w.heap female).animal = some a
  male_data : (w.heap mate).animal = some m
  distinct : mate ≠ female
  mate_alive : (w.heap mate).is_alive = true
  mate_species : (w.heap mate).getType = species
  mate_male : (w.heap mate).getGender = .MALE
  mate_age : m.currentAge ≥ m.minimumBreedingAge
  adjacent_r : |(w.heap female).getR - (w.heap mate).getR| ≤ 1
  adjacent_c : |(w.heap female).getC - (w.heap mate).getC| ≤ 1
  female_after : w1.heap female = (w.heap female).setAnimal
    (Animal.setCurrentEnergy { a with currentlyPregnant := true }
      (a.currentEnergy - Int.tdiv a.energyRequiredToReproduce 2))
  male_after : w1.heap mate = (w.heap mate).setAnimal
    (Animal.setCurrentEnergy m (m.currentEnergy - Int.tdiv m.energyRequiredToReproduce 4))
  others : ∀ e : EntityId, e ≠ female → e ≠ mate → w1.heap e = w.heap e
  grid_eq : w1.grid = w.grid

/-- The members of a female herbivore as its constructor sets them, seven months later,
not pregnant, with energy 90. -/
def readyFemale : AnimalData :=
  { animalGender := .FEMALE, currentAge := 7, maximumAge := 70, currentEnergy := 90,
    maximumEnergy := 120, sightRange := 5, movementCostBase := 10,
    cooldownForReproduction := 1, currentCooldownForReproduction := 0,
    currentlyPregnant := false, periodOfGestation := 3, currentGestationProgress := 0,
    minimumBreedingAge := 2, energyRequiredToReproduce := 40, mealsMissedTurns := 1,
    maxTurnsWithoutFoodAllowed := 3 }

/-- Three herbivores: object 0, that female, at `(5, 5)`; object 1, a male with energy 60 at `(5, 7)`, two cells away;
object 2, a male with energy 5 at `(6, 6)`, adjacent to her. -/
def courtshipWorld : World :=
  { heap := fun i =>
      if i = 0 then { r_coord := 5, c_coord := 5, is_alive := true,
                      kind := .herbivore readyFemale }
      else if i = 1 then { r_coord := 5, c_coord := 7, is_alive := true,
                           kind := .herbivore { exhaustedHerbivore with currentEnergy := 60 } }
      else { r_coord := 6, c_coord := 6, is_alive := true,
             kind := .herbivore { exhaustedHerbivore with currentEnergy := 5 } },
    nextId := 3,
    grid := { cells_grid := fun r c =>
                if r = 5 ∧ c = 5 then some 0 else if r = 5 ∧ c = 7 then some 1
                else if r = 6 ∧ c = 6 then some 2 else none,
              plants_list := [], herbivores_list := [0, 1, 2], carnivores_list := [] },
    stats := {}, gen := [0] }

/-- The local `actualEatingRadius` of `Herbivore::attemptEat`: the sight range, adjusted
by season. -/
def Herbivore.eatRadius (a : AnimalData) (currentSeason : Season) : Int :=
  if currentSeason = .WINTER then max 1 (a.sightRange - 2)
  else if currentSeason = .AUTUMN then max 1 (a.sightRange - 1)
  else if currentSeason = .SUMMER then a.sightRange + 2
  else a.sightRange

/-- The order in which the three loops of `attemptEat` visit two offsets: the smaller ring
`max(|dr|, |dc|)` first, within a ring the smaller `dr` first, then the smaller `dc`. -/
def Animal.scansBefore (d e : Int × Int) : Prop :=
  max |d.1| |d.2| < max |e.1| |e.2| ∨
    (max |d.1| |d.2| = max |e.1| |e.2| ∧ (d.1 < e.1 ∨ (d.1 = e.1 ∧ d.2 < e.2)))

/-- What `Herbivore::attemptEat` leaves behind when it has eaten `food`. -/
structure Herbivore.Grazed (w : World) (grazer : EntityId) (a : AnimalData) (w1 : World)
    (food : EntityId) : Prop where
  food_type : (w.heap food).getType = .PLANT
  food_alive : (w.heap food).is_alive = true
  food_held : w.grid.cells_grid (w.heap food).r_coord (w.heap food).c_coord = some food
  food_dead : (w1.heap food).is_alive = false
  others : ∀ e : EntityId, e ≠ food → e ≠ grazer → w1.heap e = w.heap e
  grazer_alive : (w1.heap grazer).is_alive = (w.heap grazer).is_alive
  unregistered : food ∉ w1.grid.plants_list
  cell_empty : w1.grid.cells_grid (w.heap food).r_coord (w.heap food).c_coord = none
  eaten : w1.stats.plantsEaten = w.stats.plantsEaten + 1
  energy : (w1.heap grazer).animal =
    some { a with currentEnergy := min a.maximumEnergy (a.currentEnergy + 35) }

/-- A herbivore with energy 60 as object 0 at `(5, 5)` and three plants: object 1 at
`(5, 7)` and object 2 at `(3, 5)`, both two cells away, and object 3 at `(9, 9)`. -/
def grazingWorld : World :=
  { heap := fun i =>
      if i = 0 then { r_coord := 5, c_coord := 5, is_alive := true,
                      kind := .herbivore { exhaustedHerbivore with currentEnergy := 60 } }
      else if i = 1 then Plant.new 5 7
      else if i = 2 then Plant.new 3 5
      else Plant.new 9 9,
    nextId := 4,
    grid := { cells_grid := fun r c =>
                if r = 5 ∧ c = 5 then some 0 else if r = 5 ∧ c = 7 then some 1
                else if r = 3 ∧ c = 5 then some 2 else if r = 9 ∧ c = 9 then some 3 else none,
              plants_list := [1, 2, 3], herbivores_list := [0], carnivores_list := [] },
    stats := {}, gen := [] }

/-- A pregnant herbivore, object 0, at the corner `(0, 0)` of a grid whose 36 cells
`(r, c)` with `r ≤ 5` and `c ≤ 5` are all held, the other 35 by the plants `6 * r + c`;
every other cell of the grid is empty. -/
def crowdedWorld : World :=
  { heap := fun i =>
      if i = 0 then { r_coord := 0, c_coord := 0, is_alive := true,
                      kind := .herbivore dueMother }
      else Plant.new ((i / 6 : Nat) : Int) ((i % 6 : Nat) : Int),
    nextId := 36,
    grid := { cells_grid := fun r c =>
                if 0 ≤ r ∧ r ≤ 5 ∧ 0 ≤ c ∧ c ≤ 5 then some (6 * r + c).toNat else none,
              plants_list := (List.range 36).tail, herbivores_list := [0],
              carnivores_list := [] },
    stats := {}, gen := [2, 0, 1, 7] }

/-- The same grid without plant 21: its cell `(3, 3)` is empty. -/
def gapWorld : World :=
  { crowdedWorld with
    grid := { cells_grid := fun r c =>
                if r = 3 ∧ c = 3 then none else crowdedWorld.grid.cells_grid r c,
              plants_list := (List.range 36).tail.filter (fun i => i != 21),
              herbivores_list := [0], carnivores_list := [] } }

/-- The value `dsq_flee` that the flee block computes in `double` for the cell `p` and
the carnivores `cs`. -/
def Herbivore.doubleDistSq (w : World) (cs : List EntityId) (p : Int × Int) : ℚ :=
  Herbivore.dsqFlee (Herbivore.avgCarn (cs.map (fun c_entity => (w.heap c_entity).getR)))
    (Herbivore.avgCarn (cs.map (fun c_entity => (w.heap c_entity).getC))) p.1 p.2

/-- The eight neighbour cells of `(r, c)` in the order of the two loops of the flee block:
row by row, and each row from left to right. -/
def neighbourCells (r c : Int) : List (Int × Int) :=
  [(r - 1, c - 1), (r - 1, c), (r - 1, c + 1), (r, c - 1), (r, c + 1),
   (r + 1, c - 1), (r + 1, c), (r + 1, c + 1)]

/-- The order of the cells of the grid row by row. -/
def rowMajorBefore (p q : Int × Int) : Prop :=
  p.1 < q.1 ∨ (p.1 = q.1 ∧ p.2 < q.2)

/-- The age of an object: the member `currentAge` of the plant or of the animal. -/
def Entity.age (ent : Entity) : Int :=
  match ent.kind with
  | .plant p => p.currentAge
  | .herbivore a => a.currentAge
  | .carnivore a => a.currentAge

/-- The registered objects in the order in which the three passes of `runMonth` take
their copies: the carnivores, the herbivores, the plants. -/
def Grid.all (g : Grid) : List EntityId :=
  g.carnivores_list ++ g.herbivores_list ++ g.plants_list

/-- How the ages and the registries may differ between two points of a run when only the
objects `upd` have had an `update` in between: objects are only added; every other object
that existed has the age it had; the new objects have age 0; no object that existed is
registered more often than before, and a new object is registered at most once more. -/
structure World.Ages (upd : List EntityId) (w w1 : World) : Prop where
  allocated : ∀ e : Nat, e < w.nextId → e < w1.nextId
  old : ∀ e : Nat, e < w.nextId → e ∉ upd → (w1.heap e).age = (w.heap e).age
  fresh : ∀ e : Nat, ¬ e < w.nextId → e < w1.nextId → (w1.heap e).age = 0
  listed : ∀ e : Nat, e < w.nextId ∨ ¬ e < w1.nextId →
    w1.grid.all.count e ≤ w.grid.all.count e
  listed_fresh : ∀ e : Nat, w1.grid.all.count e ≤ w.grid.all.count e + 1

/-- The registries list allocated objects, each once. -/
def World.Registered (w : World) : Prop :=
  w.grid.all.Nodup ∧ ∀ e ∈ w.grid.all, e < w.nextId

/-- What `addEntity` and `addMigratingAnimal` do to the ages and the registries: no age
changes, and only the object passed may be registered once more. -/
structure World.Adds (x : EntityId) (w w1 : World) : Prop where
  nextId_eq : w1.nextId = w.nextId
  age_eq : ∀ e : Nat, (w1.heap e).age = (w.heap e).age
  count_other : ∀ e : Nat, e ≠ x → w1.grid.all.count e ≤ w.grid.all.count e
  count_self : w1.grid.all.count x ≤ w.grid.all.count x + 1

/-- Data members of `class Simulation` of the single-file program that utils.cpp carries
after its helper functions.  `grid` and the counters of `stats` are left out: neither
`Simulation::determineSeason` nor the part of `Simulation::start` before the first tick
reads them.  `currentMonthName` and `currentSeasonName` are the two strings of `stats`
that `determineSeason` writes. -/
structure SingleFile.Simulation where
  totalMonthsToSim : Int
  currentMonthSimTime : Int
  carnivoresStarvedLastMonth_sim : Bool
  isNorthernHemisphere_sim : Bool
  currentSeason_sim : Season
  currentMonthOfYear_sim : Int
  currentMonthName : String
  currentSeasonName : String

/-- `Simulation::Simulation()` of the single-file program.  It initialises neither
`totalMonthsToSim` nor `isNorthernHemisphere_sim`; the values these members happen to
have are the two arguments. -/
def SingleFile.Simulation.new (total : Int) (northern : Bool) : SingleFile.Simulation :=
  { totalMonthsToSim := total, currentMonthSimTime := 0,
    carnivoresStarvedLastMonth_sim := false, isNorthernHemisphere_sim := northern,
    currentSeason_sim := .NONE, currentMonthOfYear_sim := 0,
    currentMonthName := "", currentSeasonName := "" }

/-- `Simulation::determineSeason` of the single-file program.  The month index is
`(currentMonthSimTime - 1) % 12` with the truncating remainder of C++; `none` stands for
the access `monthNames_sim[idx]` outside the twelve entries of the vector. -/
def SingleFile.Simulation.determineSeason (s : SingleFile.Simulation) :
    Option SingleFile.Simulation := do
  let idx := Int.tmod (s.currentMonthSimTime - 1) 12
  let season : Season :=
    if s.isNorthernHemisphere_sim then
      if idx ≥ 2 ∧ idx ≤ 4 then .SPRING
      else if idx ≥ 5 ∧ idx ≤ 7 then .SUMMER
      else if idx ≥ 8 ∧ idx ≤ 10 then .AUTUMN
      else .WINTER
    else
      if idx ≥ 8 ∧ idx ≤ 10 then .SPRING
      else if idx ≥ 11 ∨ idx ≤ 1 then .SUMMER
      else if idx ≥ 2 ∧ idx ≤ 4 then .AUTUMN
      else .WINTER
  let name ← Simulation.monthName idx
  pure { s with currentMonthOfYear_sim := idx, currentSeason_sim := season,
                currentMonthName := name, currentSeasonName := getSeasonName season }

/-- The assignments of `Simulation::initialize` of the single-file program to the members
kept here: the hemisphere and the duration, from the answers of the user.  The month
counter is not written. -/
def SingleFile.Simulation.initializeSimulation (s : SingleFile.Simulation) (northern : Bool)
    (years : Int) : SingleFile.Simulation :=
  { s with isNorthernHemisphere_sim := northern, totalMonthsToSim := years * 12 }

/-- The first two statements of `Simulation::start` of the single-file program:
`initialize(); determineSeason();`, run on the object `main` constructs. -/
def SingleFile.Simulation.startSetup (total : Int) (north0 northern : Bool) (years : Int) :
    Option SingleFile.Simulation :=
  ((SingleFile.Simulation.new total north0).initializeSimulation northern years).determineSeason

/-- The first three statements of `Simulation::runMonth` of the single-file program:
`currentMonthSimTime++; stats.reset(); determineSeason();` (the reset touches none of the
members kept here but the two names, which `determineSeason` overwrites). -/
def SingleFile.Simulation.runMonthSeason (s : SingleFile.Simulation) :
    Option SingleFile.Simulation :=
  SingleFile.Simulation.determineSeason
    { s with currentMonthSimTime := s.currentMonthSimTime + 1,
             currentMonthName := "", currentSeasonName := "" }

/-- The one-plant grid after `moveEntity(plant 45, -1, 0)`: the plant is dead and stored
outside the grid, its old cell is empty, and the plant registry still lists it. -/
def strandedWorld : World :=
  { onePlantWorld with
    heap := fun i => if i = 45 then { onePlantWorld.heap 45 with
                                      r_coord := -1, c_coord := 0, is_alive := false }
                     else onePlantWorld.heap i,
    grid := onePlantWorld.grid.setCell 2 5 none }

/-- What the spread and bloom blocks of `Plant::update` have done between two worlds: the
objects `added`, new living plants, were appended to the plant registry and counted by
`plantsSpread`; the other registries, the two death counters of the plants and the
objects that existed are as before. -/
structure Plant.Sprouted (w w1 : World) (added : List EntityId) : Prop where
  plants : w1.grid.plants_list = w.grid.plants_list ++ added
  herbivores : w1.grid.herbivores_list = w.grid.herbivores_list
  carnivores : w1.grid.carnivores_list = w.grid.carnivores_list
  spread : w1.stats.plantsSpread = w.stats.plantsSpread + (added.length : Int)
  diedAge : w1.stats.plantsDiedNaturalAge = w.stats.plantsDiedNaturalAge
  diedWeather : w1.stats.plantsDiedWeather = w.stats.plantsDiedWeather
  allocated : w.nextId ≤ w1.nextId
  old : ∀ e : Nat, e < w.nextId → w1.heap e = w.heap e
  fresh : ∀ e ∈ added, w.nextId ≤ e ∧ e < w1.nextId ∧ (w1.heap e).is_alive = true ∧
    (w1.heap e).getType = .PLANT

/-- The draw `getRandomInt(1, 100)` that a living plant of members `p` makes for its
weather death in the given season comes out at or below the death rate of that season. -/
def Plant.weatherKills (gen : List Nat) (p : PlantData) (currentSeason : Season) : Prop :=
  (currentSeason = .WINTER ∧ (getRandomInt gen 1 100).1 ≤ p.winterDeathChanceRate) ∨
  (currentSeason = .AUTUMN ∧ (getRandomInt gen 1 100).1 ≤ p.autumnDeathChanceRate)

/-- A young plant, object 0 at `(5, 5)`, alone on the grid; the draws make its spread
roll succeed (`1 + 0 ≤ 35`), the second roll succeed (`1 + 0 ≤ 75`), pick the first
empty neighbour, and, in Spring, make both bloom rolls succeed with the cells `(0, 0)`
and `(0, 1)`. -/
def seedlingWorld : World :=
  { heap := fun _ => Plant.new 5 5, nextId := 1,
    grid := { cells_grid := fun r c => if r = 5 ∧ c = 5 then some 0 else none,
              plants_list := [0], herbivores_list := [], carnivores_list := [] },
    stats := {}, gen := [0, 0, 0, 0, 0, 0, 0, 0, 1] }

/-- Raw draws of the chase scenario, in which a herbivore relocates the carnivore that
stepped onto its cell: a run in the Northern hemisphere, whose first month is a Winter month.
Stocking: no plant; the male herbivores 0 and 1 with energy 60 at `(4, 4)` and `(5, 6)`;
the male carnivore 2 with energy 60 at `(5, 5)` (row, column, gender and energy draw for
each).  The first month makes a single draw, the `0` with which herbivore 1 picks the
first of its empty neighbour cells. -/
def chaseGen : List Nat := [4, 4, 0, 0, 5, 6, 0, 0, 5, 5, 0, 0] ++ [0]

/-- The stocked simulation of the chase scenario. -/
def chaseStocked : Option Simulation :=
  (Simulation.new chaseGen).initializeSimulation true 1 0 2 1

/-- The stored position of an object. -/
def Entity.pos (ent : Entity) : Int × Int := (ent.getR, ent.getC)

/-- The phases of `Animal::update` that come before the move of a living animal. -/
def Animal.beforeMove (w : World) (self : EntityId) (currentSeason : Season) : Option World :=
  (Animal.baseUpdate w self currentSeason).bind (fun wb =>
    (Animal.eatPhase wb self currentSeason).bind (fun w3 =>
      (Animal.birthPhase w3 self).bind (fun w4 => Animal.matePhase w4 self currentSeason)))

/-- The objects that the constructors of the three concrete classes build. -/
inductive Entity.Constructed : Entity → Prop where
  | plant (r c : Int) : Entity.Constructed (Plant.new r c)
  | herbivore (gen : List Nat) (r c : Int) (g : Gender) :
      Entity.Constructed (Herbivore.new gen r c g).1
  | carnivore (gen : List Nat) (r c : Int) (g : Gender) :
      Entity.Constructed (Carnivore.new gen r c g).1

/-- The assignments that the tick engine makes to the `Animal` members of an object:
`setCurrentEnergy`; the reset of the missed meals after a meal; `currentlyPregnant = true`
in `attemptReproduce`, behind `canReproduceInternal`; the four assignments of the birth
block of `Animal::update`; and, only where the flag allows it, the assignments of
`Animal::baseUpdate`. -/
inductive Animal.Write : Bool → AnimalData → AnimalData → Prop where
  | energy (b : Bool) (a : AnimalData) (v : Int) : Animal.Write b a (Animal.setCurrentEnergy a v)
  | meals (b : Bool) (a : AnimalData) : Animal.Write b a { a with mealsMissedTurns := 0 }
  | conceive (b : Bool) (a : AnimalData) : Animal.canReproduceInternal a = true →
      Animal.Write b a { a with currentlyPregnant := true }
  | born (b : Bool) (a : AnimalData) :
      Animal.Write b a
        { a with currentlyPregnant := false, currentGestationProgress := 0,
                 currentCooldownForReproduction := a.cooldownForReproduction,
                 currentEnergy := a.currentEnergy - Int.tdiv a.maximumEnergy 3 }
  | base (a : AnimalData) (season : Season) :
      Animal.Write true a (Animal.baseUpdateData a season)

/-- Finite sequences of the steps by which the tick engine changes a world: changes of
the statistics and the generator; writes to the members of an animal; writes to the
members of a plant; `kill`; `make_shared` of a constructed object followed by
`addEntity`, or by `addMigratingAnimal`, of the new pointer; `removeEntity`; and
`moveEntity`, to a valid destination, of a null pointer or of an entity that a cell
holds.  The flag tells whether the writes of `Animal::baseUpdate` may occur. -/
inductive World.Trace (tick : Bool) : World → World → Prop where
  | refl (w : World) : World.Trace tick w w
  | same {w w1 w2 : World} : World.Trace tick w w1 → w2.heap = w1.heap →
      w2.nextId = w1.nextId → w2.grid = w1.grid → World.Trace tick w w2
  | write {w w1 : World} (e : EntityId) {a a1 : AnimalData} : World.Trace tick w w1 →
      (w1.heap e).animal = some a → Animal.Write tick a a1 →
      World.Trace tick w (w1.modify e (fun x => x.setAnimal a1))
  | grow {w w1 : World} (e : EntityId) (p1 : PlantData) : World.Trace tick w w1 →
      World.Trace tick w (w1.modify e (fun x => x.setPlant p1))
  | kill {w w1 : World} (e : EntityId) : World.Trace tick w w1 →
      World.Trace tick w (w1.modify e Entity.kill)
  | spawn {w w1 w2 : World} (ent : Entity) {ok : Bool} : World.Trace tick w w1 →
      ent.Constructed → (w1.alloc ent).1.addEntity (some w1.nextId) = some (w2, ok) →
      World.Trace tick w w2
  | immigrate {w w1 w2 : World} (ent : Entity) {ok : Bool} : World.Trace tick w w1 →
      ent.Constructed → (w1.alloc ent).1.addMigratingAnimal w1.nextId = some (w2, ok) →
      World.Trace tick w w2
  | remove {w w1 w2 : World} (ent : Option EntityId) : World.Trace tick w w1 →
      w1.removeEntity ent = some w2 → World.Trace tick w w2
  | move {w w1 w2 : World} (ent : Option EntityId) (r c : Int) : World.Trace tick w w1 →
      Grid.isValid r c = true →
      (∀ e, ent = some e → ∃ r0 c0, Grid.isValid r0 c0 = true ∧
        w1.grid.cells_grid r0 c0 = some e) →
      w1.moveEntity ent r c = some w2 → World.Trace tick w w2

/-- Finite sequences of the steps that the `move` functions take once their energy test
has passed: draws of random numbers; `setCurrentEnergy` on the mover; and `moveEntity`,
to a valid destination, of a null pointer or of an entity that a cell holds. -/
inductive World.Relocates (self : EntityId) : World → World → Prop where
  | refl (w : World) : World.Relocates self w w
  | draw {w w1 : World} (gen : List Nat) : World.Relocates self w w1 →
      World.Relocates self w { w1 with gen := gen }
  | pay {w w1 : World} {a : AnimalData} (v : Int) : World.Relocates self w w1 →
      (w1.heap self).animal = some a →
      World.Relocates self w
        (w1.modify self (fun x => x.setAnimal (Animal.setCurrentEnergy a v)))
  | move {w w1 w2 : World} (ent : Option EntityId) (r c : Int) :
      World.Relocates self w w1 → Grid.isValid r c = true →
      (∀ e, ent = some e → ∃ r0 c0, Grid.isValid r0 c0 = true ∧
        w1.grid.cells_grid r0 c0 = some e) →
      w1.moveEntity ent r c = some w2 → World.Relocates self w w2

/-- The cell map and the registries agree with the stored positions: a cell of the grid
holds only an allocated object that is stored at that cell, and each registry lists only
allocated objects of its type whose stored position is valid. -/
structure World.Sited (w : World) : Prop where
  held : ∀ (r c : Int) (e : EntityId), Grid.isValid r c = true →
    w.grid.cells_grid r c = some e →
      e < w.nextId ∧ (w.heap e).r_coord = r ∧ (w.heap e).c_coord = c
  listed : ∀ (t : EntityType) (e : EntityId), e ∈ w.grid.registry t →
    e < w.nextId ∧ (w.heap e).getType = t ∧
      Grid.isValid (w.heap e).r_coord (w.heap e).c_coord = true

/-- How `addMigratingAnimal`, `removeEntity` and `moveEntity` to a valid destination
change an object: not at all, or in its stored position, which stays valid, or by
`kill`. -/
inductive Entity.Placed : Entity → Entity → Prop where
  | same (ent : Entity) : Entity.Placed ent ent
  | moved (ent : Entity) (r c : Int) : Grid.isValid r c = true →
      Entity.Placed ent { ent with r_coord := r, c_coord := c }
  | killed (ent : Entity) : Entity.Placed ent ent.kill

/-- Between two worlds no object was killed or revived, and every stored position that
was valid is still valid. -/
def World.NoneLost (w w1 : World) : Prop :=
  ∀ e : EntityId, (w1.heap e).is_alive = (w.heap e).is_alive ∧
    (Grid.isValid (w.heap e).r_coord (w.heap e).c_coord = true →
      Grid.isValid (w1.heap e).r_coord (w1.heap e).c_coord = true)

/-- The stored position of an object is inside the grid. -/
def Entity.onGrid (ent : Entity) : Prop :=
  Grid.isValid ent.r_coord ent.c_coord = true

/-- Every non-empty slot of the cell map holds an entity whose stored position is that
slot. -/
def World.CellsAgree (w : World) : Prop :=
  ∀ (r c : Int) (e : EntityId), Grid.isValid r c = true → w.grid.cells_grid r c = some e →
    (w.heap e).r_coord = r ∧ (w.heap e).c_coord = c

/-- No entity is held by more than one slot of the cell map. -/
def World.OneSlot (w : World) : Prop :=
  ∀ (r c r1 c1 : Int) (e : EntityId), Grid.isValid r c = true → Grid.isValid r1 c1 = true →
    w.grid.cells_grid r c = some e → w.grid.cells_grid r1 c1 = some e → r = r1 ∧ c = c1

/-- The pregnancy members of an object are consistent: for an animal the gestation
period is positive, `currentGestationProgress` is 0 when it is not pregnant, and when it
is pregnant it is a female with `0 <= currentGestationProgress <= periodOfGestation`.
A plant has no such members. -/
def Entity.Gestating (ent : Entity) : Prop :=
  ∀ a, ent.animal = some a →
    1 ≤ a.periodOfGestation ∧
    (a.currentlyPregnant = false → a.currentGestationProgress = 0) ∧
    (a.currentlyPregnant = true → a.animalGender = .FEMALE ∧
      0 ≤ a.currentGestationProgress ∧ a.currentGestationProgress ≤ a.periodOfGestation)

/-- Between two updates a living pregnant animal has not completed its gestation. -/
def Entity.Settled (ent : Entity) : Prop :=
  ∀ a, ent.animal = some a → ent.is_alive = true → a.currentlyPregnant = true →
    a.currentGestationProgress < a.periodOfGestation

/-- The pregnancy state of every object of a world as it is between two updates. -/
def World.AtRest (w : World) : Prop :=
  ∀ e : EntityId, (w.heap e).Gestating ∧ (w.heap e).Settled

/-- What `giveBirth` leaves alone between two worlds: objects are only added, the objects
that existed are as before, and so are the two natural-death counters. -/
structure World.Births (w w1 : World) : Prop where
  allocated : w.nextId ≤ w1.nextId
  old : ∀ e : Nat, e < w.nextId → w1.heap e = w.heap e
  herbivoresDied : w1.stats.herbivoresDiedNatural = w.stats.herbivoresDiedNatural
  carnivoresDied : w1.stats.carnivoresDiedNatural = w.stats.carnivoresDiedNatural

/-- The members `cooldownForReproduction` and `maximumEnergy` of an animal have the
values that the constructors of both species give them; a plant has no such members. -/
def Entity.Stock (ent : Entity) : Prop :=
  ∀ a, ent.animal = some a → a.cooldownForReproduction = 1 ∧ a.maximumEnergy = 120

/-- The death and eaten counters of the statistics. -/
def MonthlyStats.deathCounters (st : MonthlyStats) : List Int :=
  [st.plantsEaten, st.plantsDiedNaturalAge, st.plantsDiedWeather, st.herbivoresEaten,
   st.herbivoresDiedNatural, st.carnivoresEaten, st.carnivoresDiedNatural]

/-- What a removal loop of `handleMigration`, run on picks from the registry of type `t`,
has done between `w` and `w1` when it removed the animals `em`: they were registered and
alive, and are now killed, absent from the registry and held by no cell; no other object
was written; the death and eaten counters and the other registries are as before; the
registry and the cell map have only lost entries, and the registry has kept every living
animal that was not removed. -/
structure World.Emigrated (t : EntityType) (w w1 : World) (em : List EntityId) : Prop where
  sited : w1.Sited
  alive : ∀ x ∈ em, x ∈ w.grid.registry t ∧ (w.heap x).is_alive = true
  gone : ∀ x ∈ em, w1.heap x = (w.heap x).kill
  others : ∀ e : EntityId, e ∉ em → w1.heap e = w.heap e
  counters : w1.stats.deathCounters = w.stats.deathCounters
  otherRegistries : ∀ t1 : EntityType, t1 ≠ t → w1.grid.registry t1 = w.grid.registry t1
  absent : ∀ x ∈ em, x ∉ w1.grid.registry t
  kept : ∀ p ∈ w.grid.registry t, (w.heap p).is_alive = true → p ∉ em →
    p ∈ w1.grid.registry t
  sub : ∀ p ∈ w1.grid.registry t, p ∈ w.grid.registry t
  unheld : ∀ x ∈ em, ∀ r c : Int, Grid.isValid r c = true → w1.grid.cells_grid r c ≠ some x
  cellsSub : ∀ (r c : Int) (e : EntityId), Grid.isValid r c = true →
    w1.grid.cells_grid r c = some e → w.grid.cells_grid r c = some e
  unchanged : em = [] → w1.grid = w.grid

/-- The part of `runMonth` before `handleMigration`: the counter, the reset of the
statistics, `determineSeason` and the three update loops. -/
def Simulation.runMonthUpdates (s : Simulation) : Option Simulation := do
  let s1 := { s with currentMonthCounter := s.currentMonthCounter + 1 }
  let s2 := { s1 with world := { s1.world with stats := Simulation.resetStats s1.world.stats } }
  let s3 ← Simulation.determineSeason s2
  let plants_copy := s3.world.grid.plants_list
  let herbivores_copy := s3.world.grid.herbivores_list
  let carnivores_copy := s3.world.grid.carnivores_list
  let w1 ← Simulation.updateAll s3.current_Season_sim carnivores_copy s3.world
  let w2 ← Simulation.updateAll s3.current_Season_sim herbivores_copy w1
  let w3 ← Simulation.updateAll s3.current_Season_sim plants_copy w2
  pure { s3 with world := w3 }

/-- What `handleMigration` has done between `w` and `w1` in an Autumn tick when it removed
the herbivores `emH` and the carnivores `emC`. -/
structure World.AutumnMigration (w w1 : World) (emH emC : List EntityId) : Prop where
  capH : (emH.length : Int) ≤ min (Int.tdiv (w.grid.herbivores_list.length : Int) 4) 2
  capC : (emC.length : Int) ≤ min (Int.tdiv (w.grid.carnivores_list.length : Int) 5) 1
  noneH : w.grid.herbivores_list.length ≤ 2 → emH = []
  noneC : w.grid.carnivores_list.length ≤ 1 → emC = []
  selectedH : ∀ x ∈ emH, x ∈ w.grid.herbivores_list ∧ (w.heap x).is_alive = true
  selectedC : ∀ x ∈ emC, x ∈ w.grid.carnivores_list ∧ (w.heap x).is_alive = true
  gone : ∀ x ∈ emH ++ emC, (w1.heap x).is_alive = false ∧
    (∀ t : EntityType, x ∉ w1.grid.registry t) ∧
    ∀ r c : Int, Grid.isValid r c = true → w1.grid.cells_grid r c ≠ some x
  others : ∀ e : EntityId, e ∉ emH ++ emC → w1.heap e = w.heap e
  counters : w1.stats.deathCounters = w.stats.deathCounters
  plants : w1.grid.plants_list = w.grid.plants_list
  keptH : ∀ p ∈ w.grid.herbivores_list, (w.heap p).is_alive = true → p ∉ emH →
    p ∈ w1.grid.herbivores_list
  keptC : ∀ p ∈ w.grid.carnivores_list, (w.heap p).is_alive = true → p ∉ emC →
    p ∈ w1.grid.carnivores_list
  subH : ∀ p ∈ w1.grid.herbivores_list, p ∈ w.grid.herbivores_list
  subC : ∀ p ∈ w1.grid.carnivores_list, p ∈ w.grid.carnivores_list
  nonemptyH : w.grid.herbivores_list.Nodup →
    (∀ p ∈ w.grid.herbivores_list, (w.heap p).is_alive = true) →
    w.grid.herbivores_list ≠ [] → w1.grid.herbivores_list ≠ []
  nonemptyC : w.grid.carnivores_list.Nodup →
    (∀ p ∈ w.grid.carnivores_list, (w.heap p).is_alive = true) →
    w.grid.carnivores_list ≠ [] → w1.grid.carnivores_list ≠ []

/-! ## Basic facts about the raw cell accesses -/

theorem Grid.isValid_iff (r c : Int) :
    Grid.isValid r c = true ↔ 0 ≤ r ∧ r < 20 ∧ 0 ≤ c ∧ c < 20 := by
  simp [Grid.isValid, and_assoc]

theorem Grid.isValid_eq_false_iff (r c : Int) :
    Grid.isValid r c = false ↔ ¬ (0 ≤ r ∧ r < 20 ∧ 0 ≤ c ∧ c < 20) := by
  rw [← Grid.isValid_iff]; simp

theorem Grid.readCell_of_valid (g : Grid) {r c : Int} (h : Grid.isValid r c = true) :
    g.readCell r c = some (g.cells_grid r c) := by
  rw [Grid.isValid_iff] at h
  simp [Grid.readCell, h]

theorem Grid.writeCell_of_valid (g : Grid) {r c : Int} (v : Option EntityId)
    (h : Grid.isValid r c = true) :
    g.writeCell r c v =
      some { g with cells_grid := fun r1 c1 => if r1 = r ∧ c1 = c then v else g.cells_grid r1 c1 } := by
  rw [Grid.isValid_iff] at h
  simp [Grid.writeCell, h]

theorem Grid.isEmpty_eq (g : Grid) (r c : Int) :
    g.isEmpty r c = some (Grid.isValid r c && (g.cells_grid r c == none)) := by
  unfold Grid.isEmpty
  by_cases h : Grid.isValid r c = true
  · simp [h, Grid.readCell_of_valid g h]
  · simp [h]

theorem Grid.getEntity_eq (g : Grid) (r c : Int) :
    g.getEntity r c = some (if Grid.isValid r c then g.cells_grid r c else none) := by
  unfold Grid.getEntity
  by_cases h : Grid.isValid r c = true
  · simp [h, Grid.readCell_of_valid g h]
  · simp [h]

theorem Grid.writeCell_eq_setCell (g : Grid) {r c : Int} (v : Option EntityId)
    (h : Grid.isValid r c = true) : g.writeCell r c v = some (g.setCell r c v) :=
  Grid.writeCell_of_valid g v h

/-- Closed form of `addEntity` on a non-null pointer: it never faults. -/
theorem World.addEntity_some (w : World) (e : EntityId) :
    w.addEntity (some e) =
      some (if w.grid.population < MAX_POPULATION ∧
              Grid.isValid (w.heap e).r_coord (w.heap e).c_coord = true ∧
              w.grid.cells_grid (w.heap e).r_coord (w.heap e).c_coord = none then
            ({ w with grid := (w.grid.setCell (w.heap e).r_coord (w.heap e).c_coord
                (some e)).pushBack (w.heap e).getType e }, true)
          else (w, false)) := by
  unfold World.addEntity
  by_cases hpop : w.grid.population ≥ MAX_POPULATION
  · have : ¬ w.grid.population < MAX_POPULATION := by omega
    simp [hpop, this]
  · have hlt : w.grid.population < MAX_POPULATION := by omega
    by_cases hv : Grid.isValid (w.heap e).r_coord (w.heap e).c_coord = true
    · by_cases he : w.grid.cells_grid (w.heap e).r_coord (w.heap e).c_coord = none
      · simp [hpop, hlt, hv, he, Grid.isEmpty_eq, Grid.writeCell_eq_setCell, Entity.getR,
          Entity.getC]
      · simp [hpop, hlt, hv, he, Grid.isEmpty_eq, Entity.getR, Entity.getC]
    · simp [hpop, hv, Entity.getR, Entity.getC]

/-! ## C4 : `Grid::addEntity` -/

/-- Closed form of `removeEntity` on a non-null pointer: it never faults. -/
theorem World.removeEntity_some (w : World) (e : EntityId) :
    w.removeEntity (some e) =
      some (if Grid.isValid (w.heap e).r_coord (w.heap e).c_coord = true then
          { (w.modify e Entity.kill) with
            grid := (if w.grid.cells_grid (w.heap e).r_coord (w.heap e).c_coord = some e then
                      w.grid.setCell (w.heap e).r_coord (w.heap e).c_coord none
                    else w.grid).eraseIf (w.heap e).getType
                      (fun p => !((w.modify e Entity.kill).heap p).is_alive || p == e) }
        else w) := by
  unfold World.removeEntity
  by_cases hv : Grid.isValid (w.heap e).r_coord (w.heap e).c_coord = true
  · by_cases hc : w.grid.cells_grid (w.heap e).r_coord (w.heap e).c_coord = some e
    · simp [hv, hc, Grid.readCell_of_valid, Grid.writeCell_eq_setCell, Entity.getR,
        Entity.getC, World.modify, Entity.kill, Entity.getType, Entity.isAlive]
    · simp [hv, hc, Grid.readCell_of_valid, Entity.getR,
        Entity.getC, World.modify, Entity.kill, Entity.getType, Entity.isAlive]
  · simp [hv, Entity.getR, Entity.getC]

/-- Closed form of `moveEntity` on a non-null pointer: it never faults. -/
theorem World.moveEntity_some (w : World) (e : EntityId) (newR newC : Int) :
    w.moveEntity (some e) newR newC =
      some (
        let g1 := if Grid.isValid (w.heap e).r_coord (w.heap e).c_coord = true ∧
                    w.grid.cells_grid (w.heap e).r_coord (w.heap e).c_coord = some e then
                  w.grid.setCell (w.heap e).r_coord (w.heap e).c_coord none
                else w.grid
        if Grid.isValid newR newC = true then
          { w with heap := fun i => if i = e then { w.heap e with r_coord := newR, c_coord := newC }
                                    else w.heap i,
                   grid := g1.setCell newR newC (some e) }
        else
          { w with heap := fun i => if i = e then { w.heap e with r_coord := newR, c_coord := newC,
                                                                    is_alive := false }
                                    else w.heap i,
                   grid := g1 }) := by
  unfold World.moveEntity
  by_cases hv : Grid.isValid (w.heap e).r_coord (w.heap e).c_coord = true <;>
  by_cases hc : w.grid.cells_grid (w.heap e).r_coord (w.heap e).c_coord = some e <;>
  by_cases hn : Grid.isValid newR newC = true <;>
  simp [hv, hc, hn, Grid.readCell_of_valid, Grid.writeCell_eq_setCell, Entity.getR,
    Entity.getC, World.modify, Entity.kill, Entity.setR, Entity.setC] <;>
  (funext i; by_cases hi : i = e <;> simp [hi])

theorem GridSteps.trans {a b c : World} (h1 : GridSteps a b) (h2 : GridSteps b c) :
    GridSteps a c := by
  induction h2 with
  | refl => exact h1
  | outside _ hg ih => exact GridSteps.outside ih hg
  | addEntity _ hs ih => exact GridSteps.addEntity ih hs
  | addMigratingAnimal _ hs ih => exact GridSteps.addMigratingAnimal ih hs
  | removeEntity _ hs ih => exact GridSteps.removeEntity ih hs
  | moveEntity _ hs ih => exact GridSteps.moveEntity ih hs

theorem GridSteps.of_grid_eq {w w1 : World} (h : w1.grid = w.grid) : GridSteps w w1 :=
  GridSteps.outside (GridSteps.refl w) h

theorem GridReachable.of_steps {w w1 : World} (hw : GridReachable w) (h : GridSteps w w1) :
    GridReachable w1 := by
  induction h with
  | refl => exact hw
  | outside _ hg ih => exact GridReachable.outside ih hg
  | addEntity _ hs ih => exact GridReachable.addEntity ih hs
  | addMigratingAnimal _ hs ih => exact GridReachable.addMigratingAnimal ih hs
  | removeEntity _ hs ih => exact GridReachable.removeEntity ih hs
  | moveEntity _ hs ih => exact GridReachable.moveEntity ih hs

@[simp] theorem World.modify_grid (w : World) (e : EntityId) (f : Entity → Entity) :
    (w.modify e f).grid = w.grid := rfl

@[simp] theorem World.addMonthlyEvent_grid (w : World) (ev : String) :
    (w.addMonthlyEvent ev).grid = w.grid := rfl

@[simp] theorem World.alloc_grid (w : World) (e : Entity) : (w.alloc e).1.grid = w.grid := rfl

theorem Animal.die_grid (w : World) (self : EntityId) (eaten : Bool) :
    (Animal.die w self eaten).grid = w.grid := by
  unfold Animal.die
  split
  · rfl
  · dsimp only
    split
    · split
      · rfl
      · split <;> rfl
    · rfl

theorem eq_of_ite_some {α : Type} {c : Prop} [Decidable c] {a b x : α}
    (h : (if c then some a else some b) = some x) : x = a ∨ x = b := by
  split at h <;> simp only [Option.some.injEq] at h
  · exact Or.inl h.symm
  · exact Or.inr h.symm

theorem Animal.baseUpdate_grid {w w1 : World} {self : EntityId} {season : Season}
    (h : Animal.baseUpdate w self season = some w1) : w1.grid = w.grid := by
  unfold Animal.baseUpdate at h
  by_cases hal : (!(w.heap self).isAlive) = true
  · rw [if_pos hal] at h
    simp only [pure, Option.some.injEq] at h; rw [← h]
  · rw [if_neg hal] at h
    cases ha : (w.heap self).animal with
    | none => simp [ha] at h
    | some a0 =>
      simp only [ha, Option.bind_eq_bind, Option.some_bind, Option.pure_def] at h
      rcases eq_of_ite_some h with rfl | rfl
      · rw [Animal.die_grid]; rfl
      · rfl

theorem Animal.payMove_grid {w w1 : World} {self : EntityId}
    (h : Animal.payMove w self = some w1) : w1.grid = w.grid := by
  unfold Animal.payMove at h
  cases ha : (w.heap self).animal with
  | none => simp [ha] at h
  | some a0 =>
    simp only [ha, Option.bind_eq_bind, Option.some_bind, Option.pure_def, Option.some.injEq] at h
    rw [← h]; rfl

theorem ite_eq_some_cases {α : Type} {c : Prop} [Decidable c] {x y : Option α} {v : α}
    (h : (if c then x else y) = some v) : x = some v ∨ y = some v := by
  split at h
  · exact Or.inl h
  · exact Or.inr h

theorem bind_some_elim {α β : Type} {x : Option α} {f : α → Option β} {b : β}
    (h : x.bind f = some b) : ∃ a, x = some a ∧ f a = some b :=
  Option.bind_eq_some.mp h

theorem Herbivore.herbivore_mateLoop_grid (self : EntityId) (mates : List EntityId) :
    ∀ {w w1 : World}, Herbivore.mateLoop self mates w = some w1 → w1.grid = w.grid := by
  induction mates with
  | nil =>
    intro w w1 h
    simp only [Herbivore.mateLoop, pure, Option.some.injEq] at h
    rw [← h]
  | cons mate rest ih =>
    intro w w1 h
    unfold Herbivore.mateLoop at h
    by_cases h1 : (!(w.heap mate).isAlive || mate == self) = true
    · rw [if_pos h1] at h; exact ih h
    · rw [if_neg h1] at h
      by_cases h2 : (w.heap mate).getType ≠ .HERBIVORE ∨ (w.heap mate).getGender ≠ .MALE
      · rw [if_pos h2] at h; exact ih h
      · rw [if_neg h2] at h
        obtain ⟨m, _, h⟩ := bind_some_elim h
        split at h
        · obtain ⟨a, _, h⟩ := bind_some_elim h
          obtain ⟨a1, _, h⟩ := bind_some_elim h
          obtain ⟨m1, _, h⟩ := bind_some_elim h
          simp only [pure, Option.some.injEq] at h
          rw [← h, World.addMonthlyEvent_grid]
          split <;> rfl
        · exact ih h

theorem Herbivore.herbivore_attemptReproduce_grid {w w1 : World} {self : EntityId} {mates : List EntityId}
    {season : Season} (h : Herbivore.attemptReproduce w self mates season = some w1) :
    w1.grid = w.grid := by
  unfold Herbivore.attemptReproduce at h
  obtain ⟨a, _, h⟩ := bind_some_elim h
  rcases ite_eq_some_cases h with h | h
  · simp only [pure, Option.some.injEq] at h; rw [← h]
  · dsimp only at h
    rcases ite_eq_some_cases h with h | h
    · simp only [pure, Option.some.injEq] at h; rw [← h]
    · have hg := Herbivore.herbivore_mateLoop_grid self mates h
      exact hg

theorem Carnivore.carnivore_mateLoop_grid (self : EntityId) (mates : List EntityId) :
    ∀ {w w1 : World}, Carnivore.mateLoop self mates w = some w1 → w1.grid = w.grid := by
  induction mates with
  | nil =>
    intro w w1 h
    simp only [Carnivore.mateLoop, pure, Option.some.injEq] at h
    rw [← h]
  | cons mate rest ih =>
    intro w w1 h
    unfold Carnivore.mateLoop at h
    by_cases h1 : (!(w.heap mate).isAlive || mate == self) = true
    · rw [if_pos h1] at h; exact ih h
    · rw [if_neg h1] at h
      by_cases h2 : (w.heap mate).getType ≠ .CARNIVORE ∨ (w.heap mate).getGender ≠ .MALE
      · rw [if_pos h2] at h; exact ih h
      · rw [if_neg h2] at h
        obtain ⟨m, _, h⟩ := bind_some_elim h
        split at h
        · obtain ⟨a, _, h⟩ := bind_some_elim h
          obtain ⟨a1, _, h⟩ := bind_some_elim h
          obtain ⟨m1, _, h⟩ := bind_some_elim h
          simp only [pure, Option.some.injEq] at h
          rw [← h, World.addMonthlyEvent_grid]
          split <;> rfl
        · exact ih h

theorem Carnivore.carnivore_attemptReproduce_grid {w w1 : World} {self : EntityId} {mates : List EntityId}
    {season : Season} (h : Carnivore.attemptReproduce w self mates season = some w1) :
    w1.grid = w.grid := by
  unfold Carnivore.attemptReproduce at h
  obtain ⟨a, _, h⟩ := bind_some_elim h
  rcases ite_eq_some_cases h with h | h
  · simp only [pure, Option.some.injEq] at h; rw [← h]
  · dsimp only at h
    rcases ite_eq_some_cases h with h | h
    · simp only [pure, Option.some.injEq] at h; rw [← h]
    · have hg := Carnivore.carnivore_mateLoop_grid self mates h
      exact hg

theorem Animal.animal_attemptReproduce_grid {w w1 : World} {self : EntityId} {mates : List EntityId}
    {season : Season} (h : Animal.attemptReproduce w self mates season = some w1) :
    w1.grid = w.grid := by
  unfold Animal.attemptReproduce at h
  split at h
  · exact Herbivore.herbivore_attemptReproduce_grid h
  · exact Carnivore.carnivore_attemptReproduce_grid h
  · exact absurd h (by simp)

theorem Animal.matePhase_grid {w w1 : World} {self : EntityId} {season : Season}
    (h : Animal.matePhase w self season = some w1) : w1.grid = w.grid := by
  unfold Animal.matePhase at h
  obtain ⟨a, _, h⟩ := bind_some_elim h
  rcases ite_eq_some_cases h with h | h
  · dsimp only at h
    rcases ite_eq_some_cases h with h | h
    · exact Animal.animal_attemptReproduce_grid h
    · simp only [pure, Option.some.injEq] at h; rw [← h]
  · simp only [pure, Option.some.injEq] at h; rw [← h]



theorem Herbivore.herbivore_attemptEatScan_steps (self : EntityId) (offs : List (Int × Int)) :
    ∀ {w w1 : World} {b : Bool}, Herbivore.attemptEatScan self offs w = some (w1, b) →
      GridSteps w w1 := by
  induction offs with
  | nil =>
    intro w w1 b h
    simp only [Herbivore.attemptEatScan, pure, Option.some.injEq, Prod.mk.injEq] at h
    rw [← h.1]; exact GridSteps.refl w
  | cons d rest ih =>
    intro w w1 b h
    obtain ⟨dr, dc⟩ := d
    unfold Herbivore.attemptEatScan at h
    dsimp only at h
    rcases ite_eq_some_cases h with h | h
    · obtain ⟨target, _, h⟩ := bind_some_elim h
      cases target with
      | none => exact ih h
      | some plantEntity =>
        dsimp only at h
        rcases ite_eq_some_cases h with h | h
        · obtain ⟨a, _, h⟩ := bind_some_elim h
          obtain ⟨w5, h5, h⟩ := bind_some_elim h
          simp only [pure, Option.some.injEq, Prod.mk.injEq] at h
          rw [← h.1]
          refine GridSteps.removeEntity (GridSteps.of_grid_eq ?_) h5
          rfl
        · exact ih h
    · exact ih h

theorem Herbivore.herbivore_attemptEat_steps {w w1 : World} {self : EntityId} {season : Season} {b : Bool}
    (h : Herbivore.attemptEat w self season = some (w1, b)) : GridSteps w w1 := by
  unfold Herbivore.attemptEat at h
  obtain ⟨a, _, h⟩ := bind_some_elim h
  rcases ite_eq_some_cases h with h | h
  · simp only [pure, Option.some.injEq, Prod.mk.injEq] at h
    rw [← h.1]; exact GridSteps.refl w
  · exact Herbivore.herbivore_attemptEatScan_steps self _ h

theorem Carnivore.carnivore_attemptEatScan_steps (self : EntityId) (offs : List (Int × Int)) :
    ∀ {w w1 : World} {b : Bool}, Carnivore.attemptEatScan self offs w = some (w1, b) →
      GridSteps w w1 := by
  induction offs with
  | nil =>
    intro w w1 b h
    simp only [Carnivore.attemptEatScan, pure, Option.some.injEq, Prod.mk.injEq] at h
    rw [← h.1]; exact GridSteps.refl w
  | cons d rest ih =>
    intro w w1 b h
    obtain ⟨dr, dc⟩ := d
    unfold Carnivore.attemptEatScan at h
    dsimp only at h
    rcases ite_eq_some_cases h with h | h
    · obtain ⟨target, _, h⟩ := bind_some_elim h
      cases target with
      | none => exact ih h
      | some t =>
        dsimp only at h
        rcases ite_eq_some_cases h with h | h
        · obtain ⟨a, _, h⟩ := bind_some_elim h
          obtain ⟨w5, h5, h⟩ := bind_some_elim h
          simp only [pure, Option.some.injEq, Prod.mk.injEq] at h
          rw [← h.1]
          refine GridSteps.removeEntity (GridSteps.of_grid_eq ?_) h5
          simp only [World.addMonthlyEvent_grid]
          exact Animal.die_grid _ _ _
        · exact ih h
    · exact ih h

theorem Carnivore.carnivore_attemptEat_steps {w w1 : World} {self : EntityId} {season : Season} {b : Bool}
    (h : Carnivore.attemptEat w self season = some (w1, b)) : GridSteps w w1 := by
  unfold Carnivore.attemptEat at h
  obtain ⟨a, _, h⟩ := bind_some_elim h
  rcases ite_eq_some_cases h with h | h
  · simp only [pure, Option.some.injEq, Prod.mk.injEq] at h
    rw [← h.1]; exact GridSteps.refl w
  · exact Carnivore.carnivore_attemptEatScan_steps self _ h

theorem Animal.moveRandom_steps {w w1 : World} {self : EntityId}
    (h : Animal.moveRandom w self = some w1) : GridSteps w w1 := by
  unfold Animal.moveRandom at h
  obtain ⟨cells, _, h⟩ := bind_some_elim h
  rcases ite_eq_some_cases h with h | h
  · dsimp only at h
    obtain ⟨target, _, h⟩ := bind_some_elim h
    obtain ⟨ent, _, h⟩ := bind_some_elim h
    obtain ⟨w2, h2, h⟩ := bind_some_elim h
    have hg := Animal.payMove_grid h
    refine GridSteps.outside (GridSteps.moveEntity (GridSteps.of_grid_eq ?_) h2) hg
    rfl
  · simp only [pure, Option.some.injEq] at h
    rw [← h]; exact GridSteps.refl w

theorem Herbivore.herbivore_move_steps {w w1 : World} {self : EntityId} {season : Season}
    (h : Herbivore.move w self season = some w1) : GridSteps w w1 := by
  unfold Herbivore.move at h
  rcases ite_eq_some_cases h with h | h
  · simp only [pure, Option.some.injEq] at h
    rw [← h]; exact GridSteps.refl w
  · obtain ⟨a, _, h⟩ := bind_some_elim h
    dsimp only at h
    rcases ite_eq_some_cases h with h | h
    · simp only [pure, Option.some.injEq] at h
      rw [← h]; exact GridSteps.of_grid_eq (Animal.die_grid _ _ _)
    · obtain ⟨carnivoresNearby, _, h⟩ := bind_some_elim h
      obtain ⟨best, _, h⟩ := bind_some_elim h
      rcases ite_eq_some_cases h with h | h
      · obtain ⟨ent, _, h⟩ := bind_some_elim h
        obtain ⟨w2, h2, h⟩ := bind_some_elim h
        exact GridSteps.outside (GridSteps.moveEntity (GridSteps.refl w) h2)
          (Animal.payMove_grid h)
      · obtain ⟨plantsNearby, _, h⟩ := bind_some_elim h
        cases hcl : Animal.closestOf w self plantsNearby with
        | none =>
          rw [hcl] at h
          exact Animal.moveRandom_steps h
        | some closest =>
          rw [hcl] at h
          dsimp only at h
          obtain ⟨onPlant, _, h⟩ := bind_some_elim h
          rcases ite_eq_some_cases h with h | h
          · obtain ⟨ent, _, h⟩ := bind_some_elim h
            obtain ⟨w2, h2, h⟩ := bind_some_elim h
            exact GridSteps.outside (GridSteps.moveEntity (GridSteps.refl w) h2)
              (Animal.payMove_grid h)
          · exact Animal.moveRandom_steps h

theorem Carnivore.carnivore_move_steps {w w1 : World} {self : EntityId} {season : Season}
    (h : Carnivore.move w self season = some w1) : GridSteps w w1 := by
  unfold Carnivore.move at h
  rcases ite_eq_some_cases h with h | h
  · simp only [pure, Option.some.injEq] at h
    rw [← h]; exact GridSteps.refl w
  · obtain ⟨a, _, h⟩ := bind_some_elim h
    dsimp only at h
    rcases ite_eq_some_cases h with h | h
    · simp only [pure, Option.some.injEq] at h
      rw [← h]; exact GridSteps.of_grid_eq (Animal.die_grid _ _ _)
    · obtain ⟨herbsNearby, _, h⟩ := bind_some_elim h
      cases hcl : Animal.closestOf w self herbsNearby with
      | none =>
        rw [hcl] at h
        exact Animal.moveRandom_steps h
      | some closest =>
        rw [hcl] at h
        dsimp only at h
        obtain ⟨onHerb, _, h⟩ := bind_some_elim h
        rcases ite_eq_some_cases h with h | h
        · obtain ⟨ent, _, h⟩ := bind_some_elim h
          obtain ⟨w2, h2, h⟩ := bind_some_elim h
          exact GridSteps.outside (GridSteps.moveEntity (GridSteps.refl w) h2)
            (Animal.payMove_grid h)
        · exact Animal.moveRandom_steps h

theorem Herbivore.herbivore_birthLoop_steps (n : Nat) :
    ∀ {locs : List (Int × Int)} {w w1 : World}, Herbivore.birthLoop n locs w = some w1 →
      GridSteps w w1 := by
  induction n with
  | zero =>
    intro locs w w1 h
    simp only [Herbivore.birthLoop, pure, Option.some.injEq] at h
    rw [← h]; exact GridSteps.refl w
  | succ n ih =>
    intro locs w w1 h
    unfold Herbivore.birthLoop at h
    rcases ite_eq_some_cases h with h | h
    · simp only [pure, Option.some.injEq] at h
      rw [← h]; exact GridSteps.refl w
    · dsimp only at h
      obtain ⟨pos, _, h⟩ := bind_some_elim h
      obtain ⟨r, hadd, h⟩ := bind_some_elim h
      obtain ⟨w2, added⟩ := r
      dsimp only at h
      refine GridSteps.trans (GridSteps.outside
        (GridSteps.addEntity (GridSteps.of_grid_eq ?_) hadd) ?_) (ih h)
      · rfl
      · split <;> rfl

theorem Herbivore.herbivore_giveBirth_steps {w w1 : World} {self : EntityId}
    (h : Herbivore.giveBirth w self = some w1) : GridSteps w w1 := by
  unfold Herbivore.giveBirth at h
  rcases ite_eq_some_cases h with h | h
  · simp only [pure, Option.some.injEq] at h
    rw [← h]; exact GridSteps.refl w
  · obtain ⟨locs, _, h⟩ := bind_some_elim h
    rcases ite_eq_some_cases h with h | h
    · simp only [pure, Option.some.injEq] at h
      rw [← h]; exact GridSteps.refl w
    · dsimp only at h
      have hs := Herbivore.herbivore_birthLoop_steps _ h
      refine GridSteps.trans (GridSteps.of_grid_eq ?_) hs
      rfl

theorem Carnivore.carnivore_birthLoop_steps (n : Nat) :
    ∀ {locs : List (Int × Int)} {w w1 : World}, Carnivore.birthLoop n locs w = some w1 →
      GridSteps w w1 := by
  induction n with
  | zero =>
    intro locs w w1 h
    simp only [Carnivore.birthLoop, pure, Option.some.injEq] at h
    rw [← h]; exact GridSteps.refl w
  | succ n ih =>
    intro locs w w1 h
    unfold Carnivore.birthLoop at h
    rcases ite_eq_some_cases h with h | h
    · simp only [pure, Option.some.injEq] at h
      rw [← h]; exact GridSteps.refl w
    · dsimp only at h
      obtain ⟨pos, _, h⟩ := bind_some_elim h
      obtain ⟨r, hadd, h⟩ := bind_some_elim h
      obtain ⟨w2, added⟩ := r
      dsimp only at h
      refine GridSteps.trans (GridSteps.outside
        (GridSteps.addEntity (GridSteps.of_grid_eq ?_) hadd) ?_) (ih h)
      · rfl
      · split <;> rfl

theorem Carnivore.carnivore_giveBirth_steps {w w1 : World} {self : EntityId}
    (h : Carnivore.giveBirth w self = some w1) : GridSteps w w1 := by
  unfold Carnivore.giveBirth at h
  rcases ite_eq_some_cases h with h | h
  · simp only [pure, Option.some.injEq] at h
    rw [← h]; exact GridSteps.refl w
  · obtain ⟨locs, _, h⟩ := bind_some_elim h
    rcases ite_eq_some_cases h with h | h
    · simp only [pure, Option.some.injEq] at h
      rw [← h]; exact GridSteps.refl w
    · dsimp only at h
      have hs := Carnivore.carnivore_birthLoop_steps _ h
      refine GridSteps.trans (GridSteps.of_grid_eq ?_) hs
      rfl

theorem Animal.animal_attemptEat_steps {w w1 : World} {self : EntityId} {season : Season} {b : Bool}
    (h : Animal.attemptEat w self season = some (w1, b)) : GridSteps w w1 := by
  unfold Animal.attemptEat at h
  split at h
  · exact Herbivore.herbivore_attemptEat_steps h
  · exact Carnivore.carnivore_attemptEat_steps h
  · exact absurd h (by simp)

theorem Animal.animal_giveBirth_steps {w w1 : World} {self : EntityId}
    (h : Animal.giveBirth w self = some w1) : GridSteps w w1 := by
  unfold Animal.giveBirth at h
  split at h
  · exact Herbivore.herbivore_giveBirth_steps h
  · exact Carnivore.carnivore_giveBirth_steps h
  · exact absurd h (by simp)

theorem Animal.animal_move_steps {w w1 : World} {self : EntityId} {season : Season}
    (h : Animal.move w self season = some w1) : GridSteps w w1 := by
  unfold Animal.move at h
  split at h
  · exact Herbivore.herbivore_move_steps h
  · exact Carnivore.carnivore_move_steps h
  · exact absurd h (by simp)

theorem Animal.resetMeals_grid {w w1 : World} {self : EntityId} {ate : Bool}
    (h : Animal.resetMeals w self ate = some w1) : w1.grid = w.grid := by
  unfold Animal.resetMeals at h
  rcases ite_eq_some_cases h with h | h
  · obtain ⟨a, _, h⟩ := bind_some_elim h
    simp only [pure, Option.some.injEq] at h
    rw [← h]; rfl
  · simp only [pure, Option.some.injEq] at h
    rw [← h]

theorem Animal.birthPhase_steps {w w1 : World} {self : EntityId}
    (h : Animal.birthPhase w self = some w1) : GridSteps w w1 := by
  unfold Animal.birthPhase at h
  obtain ⟨a, _, h⟩ := bind_some_elim h
  rcases ite_eq_some_cases h with h | h
  · obtain ⟨w2, h2, h⟩ := bind_some_elim h
    obtain ⟨a1, _, h⟩ := bind_some_elim h
    dsimp only at h
    refine GridSteps.outside (Animal.animal_giveBirth_steps h2) ?_
    rcases ite_eq_some_cases h with h | h
    · simp only [pure, Option.some.injEq] at h
      rw [← h, Animal.die_grid]; rfl
    · simp only [pure, Option.some.injEq] at h
      rw [← h]; rfl
  · simp only [pure, Option.some.injEq] at h
    rw [← h]; exact GridSteps.refl w

theorem Animal.animal_update_steps {w w1 : World} {self : EntityId} {season : Season}
    (h : Animal.update w self season = some w1) : GridSteps w w1 := by
  unfold Animal.update at h
  rcases ite_eq_some_cases h with h | h
  · simp only [pure, Option.some.injEq] at h
    rw [← h]; exact GridSteps.refl w
  · obtain ⟨wa, ha, h⟩ := bind_some_elim h
    have s1 : GridSteps w wa := GridSteps.of_grid_eq (Animal.baseUpdate_grid ha)
    rcases ite_eq_some_cases h with h | h
    · simp only [pure, Option.some.injEq] at h
      rw [← h]; exact s1
    · obtain ⟨r, hb, h⟩ := bind_some_elim h
      obtain ⟨wb, ate⟩ := r
      dsimp only at h
      have s2 : GridSteps w wb := GridSteps.trans s1 (Animal.animal_attemptEat_steps hb)
      obtain ⟨wc, hc, h⟩ := bind_some_elim h
      have s3 : GridSteps w wc := GridSteps.outside s2 (Animal.resetMeals_grid hc)
      rcases ite_eq_some_cases h with h | h
      · simp only [pure, Option.some.injEq] at h
        rw [← h]; exact s3
      · obtain ⟨wd, hd, h⟩ := bind_some_elim h
        have s4 : GridSteps w wd := GridSteps.trans s3 (Animal.birthPhase_steps hd)
        rcases ite_eq_some_cases h with h | h
        · simp only [pure, Option.some.injEq] at h
          rw [← h]; exact s4
        · obtain ⟨we, he, h⟩ := bind_some_elim h
          have s5 : GridSteps w we := GridSteps.outside s4 (Animal.matePhase_grid he)
          rcases ite_eq_some_cases h with h | h
          · simp only [pure, Option.some.injEq] at h
            rw [← h]; exact s5
          · obtain ⟨wf, hf, h⟩ := bind_some_elim h
            have s6 : GridSteps w wf := GridSteps.trans s5 (Animal.animal_move_steps hf)
            obtain ⟨a6, _, h⟩ := bind_some_elim h
            rcases ite_eq_some_cases h with h | h
            · simp only [pure, Option.some.injEq] at h
              rw [← h]; exact GridSteps.outside s6 (Animal.die_grid _ _ _)
            · simp only [pure, Option.some.injEq] at h
              rw [← h]; exact s6

theorem Plant.spawn_steps {w w1 : World} {r c : Int}
    (h : Plant.spawn w r c = some w1) : GridSteps w w1 := by
  unfold Plant.spawn at h
  dsimp only at h
  obtain ⟨res, hadd, h⟩ := bind_some_elim h
  obtain ⟨w2, added⟩ := res
  dsimp only at h
  have s1 : GridSteps w w2 := by
    refine GridSteps.addEntity (GridSteps.of_grid_eq ?_) hadd
    rfl
  rcases ite_eq_some_cases h with h | h
  · simp only [pure, Option.some.injEq] at h
    rw [← h]; exact GridSteps.outside s1 rfl
  · simp only [pure, Option.some.injEq] at h
    rw [← h]; exact s1

theorem Plant.bloomOnce_steps {w w1 : World} {chance : Int}
    (h : Plant.bloomOnce w chance = some w1) : GridSteps w w1 := by
  unfold Plant.bloomOnce at h
  dsimp only at h
  rcases ite_eq_some_cases h with h | h
  · obtain ⟨res, _, h⟩ := bind_some_elim h
    obtain ⟨pos, gen2⟩ := res
    dsimp only at h
    obtain ⟨e, _, h⟩ := bind_some_elim h
    rcases ite_eq_some_cases h with h | h
    · have hs := Plant.spawn_steps h
      refine GridSteps.trans (GridSteps.of_grid_eq ?_) hs
      rfl
    · simp only [pure, Option.some.injEq] at h
      rw [← h]; exact GridSteps.of_grid_eq rfl
  · simp only [pure, Option.some.injEq] at h
    rw [← h]; exact GridSteps.of_grid_eq rfl

theorem Plant.spread_steps {w w1 : World} {self : EntityId} {chance : Int}
    (h : Plant.spread w self chance = some w1) : GridSteps w w1 := by
  unfold Plant.spread at h
  dsimp only at h
  rcases ite_eq_some_cases h with h | h
  · obtain ⟨cells, _, h⟩ := bind_some_elim h
    rcases ite_eq_some_cases h with h | h
    · simp only [pure, Option.some.injEq] at h
      rw [← h]; exact GridSteps.of_grid_eq rfl
    · rcases ite_eq_some_cases h with h | h
      · obtain ⟨cell, _, h⟩ := bind_some_elim h
        have hs := Plant.spawn_steps h
        refine GridSteps.trans (GridSteps.of_grid_eq ?_) hs
        rfl
      · simp only [pure, Option.some.injEq] at h
        rw [← h]; exact GridSteps.of_grid_eq rfl
  · simp only [pure, Option.some.injEq] at h
    rw [← h]; exact GridSteps.of_grid_eq rfl

theorem Plant.spreadAndBloom_steps {w w1 : World} {self : EntityId} {p : PlantData}
    {season : Season} (h : Plant.spreadAndBloom w self p season = some w1) :
    GridSteps w w1 := by
  unfold Plant.spreadAndBloom at h
  dsimp only at h
  obtain ⟨w2, h2, h⟩ := bind_some_elim h
  have s2 := Plant.spread_steps h2
  rcases ite_eq_some_cases h with h | h
  · obtain ⟨w3, h3, h⟩ := bind_some_elim h
    exact GridSteps.trans (GridSteps.trans s2 (Plant.bloomOnce_steps h3))
      (Plant.bloomOnce_steps h)
  · simp only [pure, Option.some.injEq] at h
    rw [← h]; exact s2

theorem Plant.weatherDeath_grid (w : World) (self : EntityId) (rate : Int) :
    (Plant.weatherDeath w self rate).1.grid = w.grid := by
  unfold Plant.weatherDeath
  dsimp only
  split
  · split <;> rfl
  · rfl

theorem Plant.seasonalDeath_grid (w : World) (self : EntityId) (p : PlantData)
    (season : Season) : (Plant.seasonalDeath w self p season).1.grid = w.grid := by
  unfold Plant.seasonalDeath
  split
  · exact Plant.weatherDeath_grid _ _ _
  · split
    · exact Plant.weatherDeath_grid _ _ _
    · rfl

theorem Plant.plant_update_steps {w w1 : World} {self : EntityId} {season : Season}
    (h : Plant.update w self season = some w1) : GridSteps w w1 := by
  unfold Plant.update at h
  rcases ite_eq_some_cases h with h | h
  · simp only [pure, Option.some.injEq] at h
    rw [← h]; exact GridSteps.refl w
  · obtain ⟨p0, _, h⟩ := bind_some_elim h
    dsimp only at h
    rcases ite_eq_some_cases h with h | h
    · rcases ite_eq_some_cases h with h | h
      · simp only [pure, Option.some.injEq] at h
        rw [← h]; exact GridSteps.of_grid_eq rfl
      · simp only [pure, Option.some.injEq] at h
        rw [← h]; exact GridSteps.of_grid_eq rfl
    · rcases ite_eq_some_cases h with h | h
      · simp only [pure, Option.some.injEq] at h
        rw [← h]
        exact GridSteps.of_grid_eq (Plant.seasonalDeath_grid _ _ _ _)
      · rcases ite_eq_some_cases h with h | h
        · simp only [pure, Option.some.injEq] at h
          rw [← h]
          exact GridSteps.of_grid_eq (Plant.seasonalDeath_grid _ _ _ _)
        · have hs := Plant.spreadAndBloom_steps h
          refine GridSteps.trans (GridSteps.of_grid_eq ?_) hs
          exact Plant.seasonalDeath_grid _ _ _ _

theorem World.world_update_steps {w w1 : World} {e : EntityId} {season : Season}
    (h : w.update e season = some w1) : GridSteps w w1 := by
  unfold World.update at h
  split at h
  · exact Plant.plant_update_steps h
  · exact Animal.animal_update_steps h

theorem Simulation.placeOne_steps {w w1 : World} {t : EntityType} {pos : Int × Int} {g : Gender}
    (h : Simulation.placeOne w t pos g = some w1) : GridSteps w w1 := by
  unfold Simulation.placeOne at h
  cases t with
  | EMPTY =>
    simp only [pure, Option.some.injEq] at h
    rw [← h]; exact GridSteps.refl w
  | PLANT =>
    dsimp only at h
    obtain ⟨res, hadd, h⟩ := bind_some_elim h
    obtain ⟨w2, b⟩ := res
    simp only [pure, Option.some.injEq] at h
    rw [← h]
    refine GridSteps.addEntity (GridSteps.of_grid_eq ?_) hadd
    rfl
  | HERBIVORE =>
    dsimp only at h
    obtain ⟨res, hadd, h⟩ := bind_some_elim h
    obtain ⟨w2, b⟩ := res
    simp only [pure, Option.some.injEq] at h
    rw [← h]
    refine GridSteps.addEntity (GridSteps.of_grid_eq ?_) hadd
    rfl
  | CARNIVORE =>
    dsimp only at h
    obtain ⟨res, hadd, h⟩ := bind_some_elim h
    obtain ⟨w2, b⟩ := res
    simp only [pure, Option.some.injEq] at h
    rw [← h]
    refine GridSteps.addEntity (GridSteps.of_grid_eq ?_) hadd
    rfl

theorem Simulation.place_steps (t : EntityType) (n : Nat) :
    ∀ {w w1 : World}, Simulation.place t n w = some w1 → GridSteps w w1 := by
  induction n with
  | zero =>
    intro w w1 h
    simp only [Simulation.place, pure, Option.some.injEq] at h
    rw [← h]; exact GridSteps.refl w
  | succ n ih =>
    intro w w1 h
    unfold Simulation.place at h
    obtain ⟨res, _, h⟩ := bind_some_elim h
    obtain ⟨pos, gen1⟩ := res
    dsimp only at h
    obtain ⟨e, _, h⟩ := bind_some_elim h
    rcases ite_eq_some_cases h with h | h
    · obtain ⟨w3, h3, h⟩ := bind_some_elim h
      have s3 := Simulation.placeOne_steps h3
      refine GridSteps.trans (GridSteps.trans (GridSteps.of_grid_eq ?_) s3) (ih h)
      rfl
    · simp only [pure, Option.some.injEq] at h
      rw [← h]; exact GridSteps.of_grid_eq rfl

theorem Simulation.initializeSimulation_steps {s s1 : Simulation} {northern : Bool} {years : Int}
    {numP numH numC : Nat}
    (h : s.initializeSimulation northern years numP numH numC = some s1) :
    GridSteps s.world s1.world := by
  unfold Simulation.initializeSimulation at h
  dsimp only at h
  rcases ite_eq_some_cases h with h | h
  · exact absurd h (by simp)
  · obtain ⟨w1, h1, h⟩ := bind_some_elim h
    obtain ⟨w2, h2, h⟩ := bind_some_elim h
    obtain ⟨w3, h3, h⟩ := bind_some_elim h
    simp only [pure, Option.some.injEq] at h
    rw [← h]
    exact GridSteps.trans (GridSteps.trans (Simulation.place_steps _ _ h1)
      (Simulation.place_steps _ _ h2)) (Simulation.place_steps _ _ h3)

theorem Simulation.immigrateLoop_steps (n : Nat) :
    ∀ {w w1 : World} {k k1 : Int}, Simulation.immigrateLoop n (w, k) = some (w1, k1) →
      GridSteps w w1 := by
  induction n with
  | zero =>
    intro w w1 k k1 h
    simp only [Simulation.immigrateLoop, pure, Option.some.injEq, Prod.mk.injEq] at h
    rw [← h.1]; exact GridSteps.refl w
  | succ n ih =>
    intro w w1 k k1 h
    unfold Simulation.immigrateLoop at h
    dsimp only at h
    obtain ⟨res, hadd, h⟩ := bind_some_elim h
    obtain ⟨w2, ok⟩ := res
    dsimp only at h
    have s2 : GridSteps w w2 := by
      refine GridSteps.addMigratingAnimal (GridSteps.of_grid_eq ?_) hadd
      split <;> rfl
    rcases ite_eq_some_cases h with h | h
    · have hs := ih h
      refine GridSteps.trans (GridSteps.outside s2 ?_) hs
      rfl
    · exact GridSteps.trans s2 (ih h)

theorem Simulation.emigrateAll_steps (name : String) (l : List EntityId) :
    ∀ {w w1 : World} {k k1 : Int}, Simulation.emigrateAll name l (w, k) = some (w1, k1) →
      GridSteps w w1 := by
  induction l with
  | nil =>
    intro w w1 k k1 h
    simp only [Simulation.emigrateAll, pure, Option.some.injEq, Prod.mk.injEq] at h
    rw [← h.1]; exact GridSteps.refl w
  | cons e rest ih =>
    intro w w1 k k1 h
    unfold Simulation.emigrateAll at h
    rcases ite_eq_some_cases h with h | h
    · dsimp only at h
      obtain ⟨w2, h2, h⟩ := bind_some_elim h
      have s2 : GridSteps w w2 := by
        refine GridSteps.removeEntity (GridSteps.of_grid_eq ?_) h2
        rfl
      exact GridSteps.trans s2 (ih h)
    · exact ih h

theorem Simulation.handleMigration_steps {s s1 : Simulation}
    (h : s.handleMigration = some s1) : GridSteps s.world s1.world := by
  unfold Simulation.handleMigration at h
  rcases ite_eq_some_cases h with h | h
  · dsimp only at h
    obtain ⟨res, hl, h⟩ := bind_some_elim h
    obtain ⟨w1, k⟩ := res
    dsimp only at h
    simp only [pure, Option.some.injEq] at h
    rw [← h]
    have hs := Simulation.immigrateLoop_steps _ hl
    refine GridSteps.outside (GridSteps.trans (GridSteps.of_grid_eq ?_) hs) ?_
    · rfl
    · dsimp only
      split <;> rfl
  · rcases ite_eq_some_cases h with h | h
    · dsimp only at h
      obtain ⟨res1, _, h⟩ := bind_some_elim h
      obtain ⟨temp1, gen3⟩ := res1
      dsimp only at h
      obtain ⟨res2, he1, h⟩ := bind_some_elim h
      obtain ⟨w1, k1⟩ := res2
      dsimp only at h
      obtain ⟨res3, _, h⟩ := bind_some_elim h
      obtain ⟨temp2, gen4⟩ := res3
      dsimp only at h
      obtain ⟨res4, he2, h⟩ := bind_some_elim h
      obtain ⟨w2, k2⟩ := res4
      dsimp only at h
      simp only [pure, Option.some.injEq] at h
      rw [← h]
      have hs1 := Simulation.emigrateAll_steps _ _ he1
      have hs2 := Simulation.emigrateAll_steps _ _ he2
      refine GridSteps.outside (GridSteps.trans (GridSteps.trans
        (GridSteps.of_grid_eq ?_) hs1) (GridSteps.trans (GridSteps.of_grid_eq ?_) hs2)) ?_
      · rfl
      · rfl
      · dsimp only
        split <;> rfl
    · simp only [pure, Option.some.injEq] at h
      rw [← h]; exact GridSteps.refl _

theorem Simulation.updateAll_steps (season : Season) (l : List EntityId) :
    ∀ {w w1 : World}, Simulation.updateAll season l w = some w1 → GridSteps w w1 := by
  induction l with
  | nil =>
    intro w w1 h
    simp only [Simulation.updateAll, pure, Option.some.injEq] at h
    rw [← h]; exact GridSteps.refl w
  | cons e rest ih =>
    intro w w1 h
    unfold Simulation.updateAll at h
    rcases ite_eq_some_cases h with h | h
    · obtain ⟨w2, h2, h⟩ := bind_some_elim h
      exact GridSteps.trans (World.world_update_steps h2) (ih h)
    · exact ih h

theorem Simulation.cleanup_steps (l : List EntityId) :
    ∀ {w w1 : World}, Simulation.cleanup l w = some w1 → GridSteps w w1 := by
  induction l with
  | nil =>
    intro w w1 h
    simp only [Simulation.cleanup, pure, Option.some.injEq] at h
    rw [← h]; exact GridSteps.refl w
  | cons e rest ih =>
    intro w w1 h
    unfold Simulation.cleanup at h
    rcases ite_eq_some_cases h with h | h
    · obtain ⟨w2, h2, h⟩ := bind_some_elim h
      exact GridSteps.trans (GridSteps.removeEntity (GridSteps.refl w) h2) (ih h)
    · exact ih h

theorem Simulation.determineSeason_grid {s s1 : Simulation}
    (h : s.determineSeason = some s1) : s1.world.grid = s.world.grid := by
  unfold Simulation.determineSeason at h
  dsimp only at h
  obtain ⟨name, _, h⟩ := bind_some_elim h
  simp only [pure, Option.some.injEq] at h
  rw [← h]

theorem Simulation.runMonthCore_steps {s s1 : Simulation}
    (h : s.runMonthCore = some s1) : GridSteps s.world s1.world := by
  unfold Simulation.runMonthCore at h
  dsimp only at h
  obtain ⟨s3, h3, h⟩ := bind_some_elim h
  have g3 := Simulation.determineSeason_grid h3
  obtain ⟨w1, h1, h⟩ := bind_some_elim h
  obtain ⟨w2, h2, h⟩ := bind_some_elim h
  obtain ⟨w3, h3a, h⟩ := bind_some_elim h
  obtain ⟨s4, h4, h⟩ := bind_some_elim h
  obtain ⟨w5, h5, h⟩ := bind_some_elim h
  simp only [pure, Option.some.injEq] at h
  rw [← h]
  have t0 : GridSteps s.world s3.world := GridSteps.of_grid_eq g3
  have t1 := Simulation.updateAll_steps _ _ h1
  have t2 := Simulation.updateAll_steps _ _ h2
  have t3 := Simulation.updateAll_steps _ _ h3a
  have t4 := Simulation.handleMigration_steps h4
  have t5 := Simulation.cleanup_steps _ h5
  exact GridSteps.outside (GridSteps.trans (GridSteps.trans (GridSteps.trans (GridSteps.trans
    (GridSteps.trans t0 t1) t2) t3) t4) t5) rfl

theorem Simulation.runMonthEnd_world (s : Simulation) (key : Option Char) :
    (s.runMonthEnd key).world = s.world := by
  unfold Simulation.runMonthEnd
  dsimp only
  repeat' split
  all_goals rfl

theorem Simulation.runMonth_steps {s s1 : Simulation} {key : Option Char}
    (h : s.runMonth key = some s1) : GridSteps s.world s1.world := by
  unfold Simulation.runMonth at h
  obtain ⟨s2, h2, h⟩ := bind_some_elim h
  simp only [pure, Option.some.injEq] at h
  rw [← h, Simulation.runMonthEnd_world]
  exact Simulation.runMonthCore_steps h2

theorem SimReachable.gridReachable {s : Simulation} (h : SimReachable s) :
    GridReachable s.world := by
  induction h with
  | stocked hinit =>
    exact GridReachable.of_steps (GridReachable.init _ _ _ _)
      (Simulation.initializeSimulation_steps hinit)
  | month _ hstep ih => exact GridReachable.of_steps ih (Simulation.runMonth_steps hstep)

/-! ## C5 : capacity -/

theorem Grid.population_pushBack_le (g : Grid) (t : EntityType) (e : EntityId) :
    (g.pushBack t e).population ≤ g.population + 1 := by
  cases t <;> simp [Grid.pushBack, Grid.population] <;> omega

theorem Grid.population_eraseIf_le (g : Grid) (t : EntityType) (drop : EntityId → Bool) :
    (g.eraseIf t drop).population ≤ g.population := by
  cases t <;> simp only [Grid.eraseIf, Grid.population, le_refl]
  · have := List.length_filter_le (fun p => !drop p) g.plants_list
    omega
  · have := List.length_filter_le (fun p => !drop p) g.herbivores_list
    omega
  · have := List.length_filter_le (fun p => !drop p) g.carnivores_list
    omega

theorem Grid.population_setCell (g : Grid) (r c : Int) (v : Option EntityId) :
    (g.setCell r c v).population = g.population := rfl

theorem World.addEntity_full (w : World) (ent : Option EntityId)
    (h : w.grid.population ≥ MAX_POPULATION) : w.addEntity ent = some (w, false) := by
  cases ent with
  | none => rfl
  | some e => simp [World.addEntity, h]

theorem World.addEntity_population_le {w w1 : World} {ent : Option EntityId} {b : Bool}
    (h : w.addEntity ent = some (w1, b)) (hw : w.grid.population ≤ MAX_POPULATION) :
    w1.grid.population ≤ MAX_POPULATION := by
  cases ent with
  | none =>
    simp only [World.addEntity, pure, Option.some.injEq, Prod.mk.injEq] at h
    rw [← h.1]; exact hw
  | some e =>
    rw [World.addEntity_some] at h
    split at h
    · next hc =>
      simp only [Option.some.injEq, Prod.mk.injEq] at h
      rw [← h.1]
      have := Grid.population_pushBack_le
        (w.grid.setCell (w.heap e).r_coord (w.heap e).c_coord (some e)) (w.heap e).getType e
      rw [Grid.population_setCell] at this
      have := hc.1
      show Grid.population (Grid.pushBack _ _ _) ≤ _
      omega
    · simp only [Option.some.injEq, Prod.mk.injEq] at h
      rw [← h.1]; exact hw

theorem World.addMigratingAnimalLoop_population_le (a : EntityId) (n : Nat) :
    ∀ {w w1 : World} {b : Bool}, World.addMigratingAnimalLoop a n w = some (w1, b) →
      w.grid.population ≤ MAX_POPULATION → w1.grid.population ≤ MAX_POPULATION := by
  induction n with
  | zero =>
    intro w w1 b h hw
    simp only [World.addMigratingAnimalLoop, pure, Option.some.injEq, Prod.mk.injEq] at h
    rw [← h.1]; exact hw
  | succ n ih =>
    intro w w1 b h hw
    simp only [World.addMigratingAnimalLoop, Grid.isEmpty_eq, Option.pure_def,
      Option.bind_eq_bind, Option.some_bind] at h
    split at h
    · exact World.addEntity_population_le h hw
    · exact ih h hw

theorem World.addMigratingAnimal_population_le {w w1 : World} {a : EntityId} {b : Bool}
    (h : w.addMigratingAnimal a = some (w1, b)) (hw : w.grid.population ≤ MAX_POPULATION) :
    w1.grid.population ≤ MAX_POPULATION := by
  unfold World.addMigratingAnimal at h
  split at h
  · simp only [pure, Option.some.injEq, Prod.mk.injEq] at h
    rw [← h.1]; exact hw
  · exact World.addMigratingAnimalLoop_population_le a _ h hw

theorem World.removeEntity_population_le {w w1 : World} {ent : Option EntityId}
    (h : w.removeEntity ent = some w1) : w1.grid.population ≤ w.grid.population := by
  cases ent with
  | none =>
    simp only [World.removeEntity, pure, Option.some.injEq] at h
    rw [← h]
  | some e =>
    rw [World.removeEntity_some] at h
    simp only [Option.some.injEq] at h
    rw [← h]
    split
    · refine le_trans (Grid.population_eraseIf_le _ _ _) ?_
      split <;> simp [Grid.population_setCell]
    · exact le_refl _

theorem World.moveEntity_population {w w1 : World} {ent : Option EntityId} {newR newC : Int}
    (h : w.moveEntity ent newR newC = some w1) : w1.grid.population = w.grid.population := by
  cases ent with
  | none =>
    simp only [World.moveEntity, pure, Option.some.injEq] at h
    rw [← h]
  | some e =>
    rw [World.moveEntity_some] at h
    simp only [Option.some.injEq] at h
    rw [← h]
    split <;> split <;> simp [Grid.population_setCell]

theorem GridReachable.population_le {w : World} (h : GridReachable w) :
    w.grid.population ≤ MAX_POPULATION := by
  induction h with
  | init => simp [Grid.new, Grid.population]
  | outside _ hg ih => rw [hg]; exact ih
  | addEntity _ hstep ih => exact World.addEntity_population_le hstep ih
  | addMigratingAnimal _ hstep ih => exact World.addMigratingAnimal_population_le hstep ih
  | removeEntity _ hstep ih => exact le_trans (World.removeEntity_population_le hstep) ih
  | moveEntity _ hstep ih => rw [World.moveEntity_population hstep]; exact ih

/-- C5. When the registered population equals the capacity 400, `addEntity` (for any
pointer, whatever its target cell) and `addMigratingAnimal` return `false` and leave the
whole world, in particular the cell map and the three registries, as it was.
Consequently the registered population is at most 400 in every state the grid can be
brought into through its member functions, and in particular in every state the
simulation reaches by stocking the grid and running months. -/
theorem capacity_spec (w : World) (s : Simulation) :
    MAX_POPULATION = 400 ∧
    (w.grid.population = MAX_POPULATION →
      (∀ ent, w.addEntity ent = some (w, false)) ∧
      (∀ a, w.addMigratingAnimal a = some (w, false))) ∧
    (GridReachable w → w.grid.population ≤ MAX_POPULATION) ∧
    (SimReachable s → s.world.grid.population ≤ MAX_POPULATION) := by
  refine ⟨rfl, fun hfull => ⟨fun ent => World.addEntity_full w ent (by omega), fun a => ?_⟩,
    GridReachable.population_le, fun hs => GridReachable.population_le hs.gridReachable⟩
  simp [World.addMigratingAnimal, hfull]

/-- The full grid rejects a new plant; the one-plant grid is reachable through
`addEntity`; the stocked world of the forage scenario is reachable by the simulation. -/
theorem capacity_spec_witness :
    fullWorld.grid.population = MAX_POPULATION ∧
    fullWorld.addEntity (some 400) = some (fullWorld, false) ∧
    fullWorld.addMigratingAnimal 400 = some (fullWorld, false) ∧
    GridReachable onePlantWorld ∧
    onePlantWorld.grid.population ≤ MAX_POPULATION ∧
    ∃ s0, forageStocked = some s0 ∧ SimReachable s0 ∧
      s0.world.grid.population ≤ MAX_POPULATION := by
  have hfull : fullWorld.grid.population = MAX_POPULATION := by
    simp only [fullWorld, Grid.population, List.length_range, List.length_nil]
    rfl
  have hreach : GridReachable onePlantWorld := by
    have h0 : GridReachable plantWorld := GridReachable.init _ _ _ _
    refine @GridReachable.addEntity plantWorld onePlantWorld (some 45) true h0 ?_
    rw [World.addEntity_some]
    simp [plantWorld, onePlantWorld, Grid.new, Grid.population, Grid.isValid, Plant.new,
      Grid.setCell, Grid.pushBack, Entity.getType]
  have hsome : forageStocked.isSome = true := by decide!
  obtain ⟨s0, h0⟩ := Option.isSome_iff_exists.mp hsome
  have hsim : SimReachable s0 := SimReachable.stocked h0
  exact ⟨hfull, ((capacity_spec fullWorld s0).2.1 hfull).1 (some 400),
    ((capacity_spec fullWorld s0).2.1 hfull).2 400, hreach,
    (capacity_spec onePlantWorld s0).2.2.1 hreach,
    s0, h0, hsim, (capacity_spec fullWorld s0).2.2.2 hsim⟩

/-! ## C6, C7 : `Grid::removeEntity` -/

theorem Grid.not_mem_registry_eraseIf (g : Grid) (t : EntityType) (drop : EntityId → Bool)
    (e : EntityId) (h : drop e = true) : e ∉ (g.eraseIf t drop).registry t := by
  cases t <;> simp [Grid.eraseIf, Grid.registry, h]

theorem Grid.cells_eraseIf (g : Grid) (t : EntityType) (drop : EntityId → Bool) :
    (g.eraseIf t drop).cells_grid = g.cells_grid := by
  cases t <;> rfl

/-- C6. For an entity whose stored position is valid, `removeEntity` never faults and
marks the entity dead; the cell at its position becomes empty when it held the entity
and keeps its content when it held anything else; afterwards the entity is not in the
registry of its type. -/
theorem removeEntity_spec (w : World) (e : EntityId)
    (hv : Grid.isValid (w.heap e).r_coord (w.heap e).c_coord = true) :
    ∃ w1, w.removeEntity (some e) = some w1 ∧
      (w1.heap e).is_alive = false ∧
      (w.grid.cells_grid (w.heap e).r_coord (w.heap e).c_coord = some e →
        w1.grid.cells_grid (w.heap e).r_coord (w.heap e).c_coord = none) ∧
      (w.grid.cells_grid (w.heap e).r_coord (w.heap e).c_coord ≠ some e →
        w1.grid.cells_grid (w.heap e).r_coord (w.heap e).c_coord =
          w.grid.cells_grid (w.heap e).r_coord (w.heap e).c_coord) ∧
      e ∉ w1.grid.registry (w.heap e).getType := by
  rw [World.removeEntity_some, if_pos hv]
  refine ⟨_, rfl, ?_, ?_, ?_, ?_⟩
  · simp [World.modify, Entity.kill]
  · intro hc
    simp [Grid.cells_eraseIf, hc, Grid.setCell]
  · intro hc
    simp [Grid.cells_eraseIf, hc]
  · exact Grid.not_mem_registry_eraseIf _ _ _ _ (by simp)

/-- Removing the only plant of the one-plant grid empties its cell and the plant
registry. -/
theorem removeEntity_spec_witness :
    Grid.isValid (onePlantWorld.heap 45).r_coord (onePlantWorld.heap 45).c_coord = true ∧
    ∃ w1, onePlantWorld.removeEntity (some 45) = some w1 ∧
      (w1.heap 45).is_alive = false ∧
      (onePlantWorld.grid.cells_grid (onePlantWorld.heap 45).r_coord
          (onePlantWorld.heap 45).c_coord = some 45 →
        w1.grid.cells_grid (onePlantWorld.heap 45).r_coord
          (onePlantWorld.heap 45).c_coord = none) ∧
      (onePlantWorld.grid.cells_grid (onePlantWorld.heap 45).r_coord
          (onePlantWorld.heap 45).c_coord ≠ some 45 →
        w1.grid.cells_grid (onePlantWorld.heap 45).r_coord (onePlantWorld.heap 45).c_coord =
          onePlantWorld.grid.cells_grid (onePlantWorld.heap 45).r_coord
            (onePlantWorld.heap 45).c_coord) ∧
      45 ∉ w1.grid.registry (onePlantWorld.heap 45).getType :=
  ⟨by decide, removeEntity_spec onePlantWorld 45 (by decide)⟩

theorem Grid.eraseIf_eraseIf (g : Grid) (t : EntityType) (drop : EntityId → Bool) :
    (g.eraseIf t drop).eraseIf t drop = g.eraseIf t drop := by
  cases t <;> simp [Grid.eraseIf, List.filter_filter]

theorem World.eq_of_fields {w w1 : World} (h1 : w.heap = w1.heap) (h2 : w.nextId = w1.nextId)
    (h3 : w.grid = w1.grid) (h4 : w.stats = w1.stats) (h5 : w.gen = w1.gen) : w = w1 := by
  cases w; cases w1; simp_all

theorem Grid.eq_of_cells_and_lists {g g1 : Grid} (h1 : g.cells_grid = g1.cells_grid)
    (h2 : g.plants_list = g1.plants_list) (h3 : g.herbivores_list = g1.herbivores_list)
    (h4 : g.carnivores_list = g1.carnivores_list) : g = g1 := by
  cases g; cases g1; simp_all

theorem Grid.eraseIf_congr (g : Grid) (t : EntityType) (drop drop1 : EntityId → Bool)
    (h : ∀ p, drop p = drop1 p) : g.eraseIf t drop = g.eraseIf t drop1 := by
  have : drop = drop1 := funext h
  rw [this]

/-- C7. `removeEntity` is idempotent for every world and every pointer (null included):
the first call never faults, and a second call on its result returns that result
unchanged, so the cell map, the three registries and all alive flags are the same as
after one call. -/
theorem removeEntity_idempotent (w : World) (ent : Option EntityId) :
    ∃ w1, w.removeEntity ent = some w1 ∧ w1.removeEntity ent = some w1 := by
  cases ent with
  | none => exact ⟨w, rfl, rfl⟩
  | some e =>
    by_cases hv : Grid.isValid (w.heap e).r_coord (w.heap e).c_coord = true
    · refine ⟨_, by rw [World.removeEntity_some, if_pos hv], ?_⟩
      rw [World.removeEntity_some]
      have he : (w.modify e Entity.kill).heap e = (w.heap e).kill := by simp [World.modify]
      have hv1 : Grid.isValid ((w.modify e Entity.kill).heap e).r_coord
          ((w.modify e Entity.kill).heap e).c_coord = true := by rw [he]; exact hv
      rw [if_pos hv1]
      congr 1
      apply World.eq_of_fields
      · funext i
        by_cases hi : i = e <;> simp [hi, World.modify, Entity.kill]
      · rfl
      · show Grid.eraseIf _ _ _ = Grid.eraseIf _ _ _
        have hcell : ¬ ((if w.grid.cells_grid (w.heap e).r_coord (w.heap e).c_coord = some e then
                w.grid.setCell (w.heap e).r_coord (w.heap e).c_coord none
              else w.grid).eraseIf (w.heap e).getType
                (fun p => !((w.modify e Entity.kill).heap p).is_alive || p == e)).cells_grid
              ((w.modify e Entity.kill).heap e).r_coord
              ((w.modify e Entity.kill).heap e).c_coord = some e := by
          rw [Grid.cells_eraseIf, he]
          show ¬ Grid.cells_grid _ (w.heap e).r_coord (w.heap e).c_coord = some e
          split
          · simp [Grid.setCell]
          · assumption
        rw [if_neg hcell, he]
        show Grid.eraseIf _ (w.heap e).getType _ = _
        rw [Grid.eraseIf_congr _ _ _
          (fun p => !((w.modify e Entity.kill).heap p).is_alive || p == e)]
        · exact Grid.eraseIf_eraseIf _ _ _
        · intro p
          by_cases hp : p = e <;> simp [hp, World.modify, Entity.kill]
      · rfl
      · rfl
    · exact ⟨w, by rw [World.removeEntity_some, if_neg hv],
        by rw [World.removeEntity_some, if_neg hv]⟩

/-! ## C8 : `Grid::moveEntity` -/

/-- C8. For every entity and all integers `newR`, `newC`, `moveEntity` never faults (no
raw access of the cell vector is out of bounds).  The slot at the old stored position is
empty afterwards when it held the entity and is not the destination.  When the
destination is outside the grid the entity ends dead and, the cell map holding an entity
only at its stored position, no cell of the grid holds it afterwards.  When the
destination is valid the stored position becomes `(newR, newC)`, that cell holds the
entity and its alive flag is unchanged. -/
theorem moveEntity_spec (w : World) (e : EntityId) (newR newC : Int) :
    ∃ w1, w.moveEntity (some e) newR newC = some w1 ∧
      (Grid.isValid (w.heap e).r_coord (w.heap e).c_coord = true →
        w.grid.cells_grid (w.heap e).r_coord (w.heap e).c_coord = some e →
        ¬ ((w.heap e).r_coord = newR ∧ (w.heap e).c_coord = newC) →
        w1.grid.cells_grid (w.heap e).r_coord (w.heap e).c_coord = none) ∧
      (Grid.isValid newR newC = false →
        (w1.heap e).is_alive = false ∧
        ((∀ r c, Grid.isValid r c = true → w.grid.cells_grid r c = some e →
            r = (w.heap e).r_coord ∧ c = (w.heap e).c_coord) →
          ∀ r c, Grid.isValid r c = true → w1.grid.cells_grid r c ≠ some e)) ∧
      (Grid.isValid newR newC = true →
        (w1.heap e).r_coord = newR ∧ (w1.heap e).c_coord = newC ∧
        w1.grid.cells_grid newR newC = some e ∧
        (w1.heap e).is_alive = (w.heap e).is_alive) := by
  rw [World.moveEntity_some]
  refine ⟨_, rfl, ?_, ?_, ?_⟩
  · intro hv hc hne
    by_cases hn : Grid.isValid newR newC = true
    · simp only [hv, hc, and_self, if_true, hn]
      simp [Grid.setCell, hne]
    · simp only [hv, hc, and_self, if_true, hn]
      simp [Grid.setCell]
  · intro hn
    simp only [hn, Bool.false_eq_true, if_false]
    refine ⟨by simp, ?_⟩
    intro hinv r c hrc hheld
    by_cases hc : Grid.isValid (w.heap e).r_coord (w.heap e).c_coord = true ∧
        w.grid.cells_grid (w.heap e).r_coord (w.heap e).c_coord = some e
    · rw [if_pos hc] at hheld
      simp only [Grid.setCell] at hheld
      split at hheld
      · exact absurd hheld (by simp)
      · next hpos => exact hpos (hinv r c hrc hheld)
    · rw [if_neg hc] at hheld
      have hpos := hinv r c hrc hheld
      rw [hpos.1, hpos.2] at hrc hheld
      exact hc ⟨hrc, hheld⟩
  · intro hn
    simp only [hn, if_true]
    simp [Grid.setCell]

/-- The lone plant of the one-plant grid, moved off the grid, dies and leaves every cell;
moved one row down it sits at `(3, 5)`, still alive. -/
theorem moveEntity_spec_witness :
    (∃ w1, onePlantWorld.moveEntity (some 45) (-1) 7 = some w1 ∧
      (w1.heap 45).is_alive = false ∧
      ∀ r c, Grid.isValid r c = true → w1.grid.cells_grid r c ≠ some 45) ∧
    (∃ w1, onePlantWorld.moveEntity (some 45) 3 5 = some w1 ∧
      (w1.heap 45).r_coord = 3 ∧ (w1.heap 45).c_coord = 5 ∧
      w1.grid.cells_grid 3 5 = some 45 ∧ w1.grid.cells_grid 2 5 = none ∧
      (w1.heap 45).is_alive = true) := by
  have hinv : ∀ r c, Grid.isValid r c = true → onePlantWorld.grid.cells_grid r c = some 45 →
      r = (onePlantWorld.heap 45).r_coord ∧ c = (onePlantWorld.heap 45).c_coord := by
    intro r c _ h
    simp only [onePlantWorld] at h
    split at h
    · next hrc => exact ⟨by rw [hrc.1]; decide, by rw [hrc.2]; decide⟩
    · exact absurd h (by simp)
  constructor
  · obtain ⟨w1, h1, _, h3, _⟩ := moveEntity_spec onePlantWorld 45 (-1) 7
    exact ⟨w1, h1, (h3 (by decide)).1, (h3 (by decide)).2 hinv⟩
  · obtain ⟨w1, h1, h2, _, h4⟩ := moveEntity_spec onePlantWorld 45 3 5
    have h5 := h4 (by decide)
    exact ⟨w1, h1, h5.1, h5.2.1, h5.2.2.1, h2 (by decide) (by decide) (by decide),
      by rw [h5.2.2.2]; decide⟩

/-! ## C9 : `Grid::getAdjacentEmptyCells` -/

/-- A loop that appends to a vector, run in `Option`: when every iteration succeeds and
appends `g x`, the loop succeeds and appends the pieces in order. -/
theorem foldlM_append_eq {α β : Type} (g : α → List β) (step : List β → α → Option (List β))
    (xs : List α) (hstep : ∀ acc x, x ∈ xs → step acc x = some (acc ++ g x)) (acc : List β) :
    xs.foldlM step acc = some (acc ++ xs.flatMap g) := by
  induction xs generalizing acc with
  | nil => simp
  | cons x xs ih =>
    rw [List.foldlM_cons, hstep acc x (List.mem_cons_self _ _)]
    simp only [Option.bind_eq_bind, Option.some_bind]
    rw [ih (fun acc y hy => hstep acc y (List.mem_cons_of_mem _ hy))]
    simp [List.flatMap_cons]

theorem filter_eq_flatMap {α : Type} (p : α → Bool) (xs : List α) :
    xs.filter p = xs.flatMap (fun x => if p x then [x] else []) := by
  induction xs with
  | nil => rfl
  | cons x xs ih =>
    rw [List.filter_cons, List.flatMap_cons, ih]
    split <;> simp

/-- Closed form of `getAdjacentEmptyCells`: it never faults and filters the eight
neighbour cells, taken in the order of `dr_arr` and `dc_arr`. -/
theorem Grid.getAdjacentEmptyCells_eq (g : Grid) (r c : Int) :
    g.getAdjacentEmptyCells r c =
      some (([(-1, -1), (-1, 0), (-1, 1), (0, -1), (0, 1), (1, -1), (1, 0), (1, 1)].map
          (fun d : Int × Int => (r + d.1, c + d.2))).filter
        (fun p => Grid.isValid p.1 p.2 && (g.cells_grid p.1 p.2 == none))) := by
  unfold Grid.getAdjacentEmptyCells
  rw [foldlM_append_eq
    (fun i => if Grid.isValid (r + dr_arr.getD i 0) (c + dc_arr.getD i 0) &&
        (g.cells_grid (r + dr_arr.getD i 0) (c + dc_arr.getD i 0) == none)
      then [(r + dr_arr.getD i 0, c + dc_arr.getD i 0)] else [])]
  · rw [filter_eq_flatMap]
    simp [List.range_succ, List.flatMap_cons, dr_arr, dc_arr]
  · intro acc i hi
    rw [List.mem_range] at hi
    interval_cases i <;> simp only [dr_arr, dc_arr, Grid.isEmpty_eq] <;> simp <;>
      split <;> simp_all

/-- C9. For all integers `r`, `c`, `getAdjacentEmptyCells` never faults and returns the
cells `(r + dr, c + dc)`, for `(dr, dc)` running through the eight offsets of
`{-1, 0, 1}^2` without `(0, 0)` in row-major order, that are inside the grid and empty:
each such cell once and in that order.  The result has at most 8 elements and contains
neither `(r, c)` nor an invalid position. -/
theorem getAdjacentEmptyCells_spec (g : Grid) (r c : Int) :
    ∃ offsets : List (Int × Int), ∃ cells : List (Int × Int),
      (∀ d : Int × Int, d ∈ offsets ↔
        (-1 ≤ d.1 ∧ d.1 ≤ 1 ∧ -1 ≤ d.2 ∧ d.2 ≤ 1 ∧ d ≠ (0, 0))) ∧
      offsets.Pairwise (fun a b => a.1 < b.1 ∨ (a.1 = b.1 ∧ a.2 < b.2)) ∧
      g.getAdjacentEmptyCells r c = some cells ∧
      cells = (offsets.map (fun d => (r + d.1, c + d.2))).filter
        (fun p => Grid.isValid p.1 p.2 && (g.cells_grid p.1 p.2 == none)) ∧
      cells.Nodup ∧
      cells.length ≤ 8 ∧
      (r, c) ∉ cells ∧
      (∀ p ∈ cells, Grid.isValid p.1 p.2 = true ∧ g.cells_grid p.1 p.2 = none) := by
  refine ⟨[(-1, -1), (-1, 0), (-1, 1), (0, -1), (0, 1), (1, -1), (1, 0), (1, 1)], _, ?_, ?_,
    Grid.getAdjacentEmptyCells_eq g r c, rfl, ?_, ?_, ?_, ?_⟩
  · rintro ⟨a, b⟩
    simp only [List.mem_cons, Prod.mk.injEq, List.mem_singleton, List.not_mem_nil, or_false,
      ne_eq]
    constructor
    · rintro (h | h | h | h | h | h | h | h) <;> obtain ⟨rfl, rfl⟩ := h <;> decide
    · rintro ⟨h1, h2, h3, h4, h5⟩
      have ha : a = -1 ∨ a = 0 ∨ a = 1 := by omega
      have hb : b = -1 ∨ b = 0 ∨ b = 1 := by omega
      rcases ha with rfl | rfl | rfl <;> rcases hb with rfl | rfl | rfl <;> simp at h5 ⊢
  · decide
  · refine List.Nodup.filter _ ?_
    refine List.Nodup.map ?_ (by decide)
    intro a b hab
    simp only [Prod.mk.injEq] at hab
    ext <;> omega
  · refine le_trans (List.length_filter_le _ _) ?_
    simp
  · intro h
    rw [List.mem_filter, List.mem_map] at h
    obtain ⟨⟨d, hd, hrc⟩, _⟩ := h
    simp only [Prod.mk.injEq] at hrc
    have h1 : d.1 = 0 := by omega
    have h2 : d.2 = 0 := by omega
    have : d = (0, 0) := Prod.ext h1 h2
    rw [this] at hd
    revert hd
    decide
  · intro p hp
    rw [List.mem_filter] at hp
    simpa using hp.2

/-- Around `(2, 4)` in the one-plant grid the occupied cell `(2, 5)` is not reported. -/
theorem getAdjacentEmptyCells_spec_witness :
    ∃ cells, onePlantWorld.grid.getAdjacentEmptyCells 2 4 = some cells ∧
      cells.length ≤ 8 ∧ (2, 4) ∉ cells ∧ (2, 5) ∉ cells := by
  obtain ⟨_, cells, _, _, h, _, _, hlen, hself, hall⟩ :=
    getAdjacentEmptyCells_spec onePlantWorld.grid 2 4
  refine ⟨cells, h, hlen, hself, fun hmem => ?_⟩
  have := (hall (2, 5) hmem).2
  exact absurd this (by decide)

/-! ## C10 : `Grid::findNearbyEntities` -/

theorem mem_intRange (lo hi x : Int) : x ∈ intRange lo hi ↔ lo ≤ x ∧ x ≤ hi := by
  unfold intRange
  rw [List.mem_map]
  constructor
  · rintro ⟨i, hi1, rfl⟩
    rw [List.mem_range] at hi1
    omega
  · rintro ⟨h1, h2⟩
    refine ⟨(x - lo).toNat, ?_, ?_⟩
    · rw [List.mem_range]; omega
    · omega

theorem pairwise_intRange (lo hi : Int) : (intRange lo hi).Pairwise (fun a b => a < b) := by
  unfold intRange
  rw [List.pairwise_map]
  refine List.Pairwise.imp ?_ (List.pairwise_lt_range _)
  intro a b hab
  omega

theorem mem_scanOffsets (k : Int) (d : Int × Int) :
    d ∈ scanOffsets k ↔ (1 ≤ max |d.1| |d.2| ∧ max |d.1| |d.2| ≤ k) := by
  obtain ⟨a, b⟩ := d
  simp only [scanOffsets, List.mem_flatMap, mem_intRange, max_le_iff, abs_le, le_max_iff,
    le_abs]
  constructor
  · rintro ⟨dr, hdr, dc, hdc, hmem⟩
    split at hmem
    · simp at hmem
    · next hne =>
      simp only [List.mem_singleton, Prod.mk.injEq] at hmem
      obtain ⟨rfl, rfl⟩ := hmem
      refine ⟨?_, hdr, hdc⟩
      omega
  · rintro ⟨h1, h2, h3⟩
    refine ⟨a, h2, b, h3, ?_⟩
    have hne : ¬ (a = 0 ∧ b = 0) := by omega
    simp [hne]

theorem pairwise_scanOffsets (k : Int) :
    (scanOffsets k).Pairwise (fun a b => a.1 < b.1 ∨ (a.1 = b.1 ∧ a.2 < b.2)) := by
  unfold scanOffsets
  rw [List.pairwise_flatMap]
  constructor
  · intro dr _
    rw [List.pairwise_flatMap]
    constructor
    · intro dc _
      split <;> simp
    · refine List.Pairwise.imp ?_ (pairwise_intRange _ _)
      intro a b hab x hx y hy
      split at hx
      · simp at hx
      · split at hy
        · simp at hy
        · simp only [List.mem_singleton] at hx hy
          subst hx hy
          exact Or.inr ⟨rfl, hab⟩
  · refine List.Pairwise.imp ?_ (pairwise_intRange _ _)
    intro a b hab x hx y hy
    simp only [List.mem_flatMap] at hx hy
    obtain ⟨dc, _, hx⟩ := hx
    obtain ⟨dc1, _, hy⟩ := hy
    split at hx
    · simp at hx
    · split at hy
      · simp at hy
      · simp only [List.mem_singleton] at hx hy
        subst hx hy
        exact Or.inl hab

/-- Closed form of `findNearbyEntities`: it never faults. -/
theorem World.findNearbyEntities_eq (w : World) (r c : Int) (targetType : EntityType)
    (k : Int) :
    w.findNearbyEntities r c targetType k =
      some ((scanOffsets k).filterMap (nearbyAt w r c targetType)) := by
  unfold World.findNearbyEntities scanOffsets
  rw [foldlM_append_eq (fun dr => (intRange (-k) k).flatMap (fun dc =>
      if dr = 0 ∧ dc = 0 then [] else (nearbyAt w r c targetType (dr, dc)).toList))]
  · rw [List.nil_append, List.filterMap_flatMap]
    congr 1
    refine List.flatMap_congr ?_
    intro dr _
    rw [List.filterMap_flatMap]
    refine List.flatMap_congr ?_
    intro dc _
    split
    · rfl
    · cases h : nearbyAt w r c targetType (dr, dc) <;> simp [h]
  · intro acc dr _
    rw [foldlM_append_eq (fun dc =>
      if dr = 0 ∧ dc = 0 then [] else (nearbyAt w r c targetType (dr, dc)).toList)]
    intro acc1 dc _
    by_cases h0 : dr = 0 ∧ dc = 0
    · simp [h0]
    · simp only [h0, if_false, Grid.getEntity_eq, Option.pure_def, Option.bind_eq_bind,
        Option.some_bind, nearbyAt]
      by_cases hv : Grid.isValid (r + dr) (c + dc) = true
      · simp only [hv, if_true]
        cases hcell : w.grid.cells_grid (r + dr) (c + dc) with
        | none => simp
        | some e =>
          by_cases hm : (w.heap e).getType = targetType ∧ (w.heap e).isAlive = true
          · have hm1 := hm
            simp only [Entity.isAlive] at hm1
            simp [hm, Option.filter, hm1.1, hm1.2]
          · have hm1 := hm
            simp only [Entity.isAlive] at hm1
            have : (decide ((w.heap e).getType = targetType) && (w.heap e).is_alive) = false := by
              by_cases ht : (w.heap e).getType = targetType
              · simp [ht] at hm1 ⊢; exact hm1
              · simp [ht]
            simp [hm, Option.filter, this]
      · simp [hv]

/-- C10. For all integers `r`, `c`, `k` and every type `T`, `findNearbyEntities` never
faults.  Let the offsets `(dr, dc)` with `1 ≤ max |dr| |dc| ≤ k` be listed in row-major
order (`dr` ascending, then `dc` ascending), each once.  The result lists, in that
order, the entity held by cell `(r + dr, c + dc)` for every such offset whose cell is
inside the grid and holds a living entity of type `T`.  The offset `(0, 0)` of the
centre is not among them and the result is empty when `k ≤ 0`. -/
theorem findNearbyEntities_spec (w : World) (r c : Int) (T : EntityType) (k : Int) :
    ∃ offsets : List (Int × Int), ∃ found : List EntityId,
      (∀ d : Int × Int, d ∈ offsets ↔ (1 ≤ max |d.1| |d.2| ∧ max |d.1| |d.2| ≤ k)) ∧
      offsets.Pairwise (fun a b => a.1 < b.1 ∨ (a.1 = b.1 ∧ a.2 < b.2)) ∧
      w.findNearbyEntities r c T k = some found ∧
      found = offsets.filterMap (fun d =>
        if Grid.isValid (r + d.1) (c + d.2) then
          (w.grid.cells_grid (r + d.1) (c + d.2)).filter
            (fun e => decide ((w.heap e).getType = T) && (w.heap e).is_alive)
        else none) ∧
      (0, 0) ∉ offsets ∧
      (k ≤ 0 → found = []) := by
  refine ⟨scanOffsets k, _, mem_scanOffsets k, pairwise_scanOffsets k,
    World.findNearbyEntities_eq w r c T k, rfl, ?_, ?_⟩
  · rw [mem_scanOffsets]
    simp
  · intro hk
    have hnil : scanOffsets k = [] := by
      rw [List.eq_nil_iff_forall_not_mem]
      intro d hd
      rw [mem_scanOffsets] at hd
      omega
    rw [hnil]
    rfl

/-! ## Sound executable tests of the invariants -/

theorem valid_cell_cases {r c : Int} (hv : Grid.isValid r c = true) :
    r.toNat < GRID_HEIGHT ∧ c.toNat < GRID_WIDTH ∧ ((r.toNat : Nat) : Int) = r ∧
      ((c.toNat : Nat) : Int) = c := by
  rw [Grid.isValid_iff] at hv
  refine ⟨?_, ?_, ?_, ?_⟩
  · show r.toNat < 20
    omega
  · show c.toNat < 20
    omega
  · omega
  · omega

theorem deadPurged_of_check (w : World) (h : deadPurgedCheck w = true) : DeadPurged w := by
  simp only [deadPurgedCheck, Bool.and_eq_true, List.all_eq_true, List.mem_range] at h
  obtain ⟨hreg, hcells⟩ := h
  constructor
  · intro t e he
    exact hreg t (by cases t <;> simp) e he
  · intro r c e hv hheld
    obtain ⟨h1, h2, h3, h4⟩ := valid_cell_cases hv
    have := hcells r.toNat h1 c.toNat h2
    rw [h3, h4, hheld] at this
    simpa using this

theorem occupancy_of_check (w : World) (h : occupancyCheck w = true) : OccupancyInvariant w := by
  simp only [occupancyCheck, Bool.and_eq_true, List.all_eq_true, List.mem_range] at h
  obtain ⟨hcells, hreg⟩ := h
  intro r c e hv
  obtain ⟨h1, h2, h3, h4⟩ := valid_cell_cases hv
  constructor
  · intro hheld
    have := hcells r.toNat h1 c.toNat h2
    rw [h3, h4, hheld] at this
    simp only [Bool.and_eq_true, decide_eq_true_eq] at this
    obtain ⟨⟨⟨ha, hm⟩, hr⟩, hc⟩ := this
    exact ⟨ha, hm, hr, hc⟩
  · rintro ⟨ha, hm, hr, hc⟩
    have := hreg (w.heap e).getType (by cases (w.heap e).getType <;> simp) e hm
    simp only [ha, decide_True, Bool.and_self, Bool.not_true, Bool.false_or, Bool.and_eq_true,
      decide_eq_true_eq] at this
    rw [← hr, ← hc]
    exact this.2

/-! ## C1, C2 : a herbivore that forages onto a living plant -/

/-- C1, evaluated on the forage scenario.  The world stocked with two plants and one
herbivore satisfies the occupancy invariant.  After the first month was run to its end
(reconcile step included), plant 1 is alive, listed in the plant registry and stored at
`(4, 5)`, while cell `(4, 5)` holds herbivore 2: the occupancy invariant does not hold
at the end of `runMonth`. -/
theorem occupancy_broken_after_first_month :
    ∃ s0 s1 : Simulation, forageStocked = some s0 ∧ s0.runMonth enterKey = some s1 ∧
      OccupancyInvariant s0.world ∧
      (s1.world.heap 1).is_alive = true ∧
      1 ∈ s1.world.grid.registry (s1.world.heap 1).getType ∧
      (s1.world.heap 1).r_coord = 4 ∧ (s1.world.heap 1).c_coord = 5 ∧
      s1.world.grid.cells_grid 4 5 = some 2 ∧
      ¬ OccupancyInvariant s1.world := by
  have h : (forageStocked.bind (fun s0 => (s0.runMonth enterKey).map
      (fun s => occupancyCheck s0.world &&
        (s.world.heap 1).is_alive && decide (1 ∈ s.world.grid.plants_list) &&
        decide ((s.world.heap 1).getType = .PLANT) && decide ((s.world.heap 1).r_coord = 4) &&
        decide ((s.world.heap 1).c_coord = 5) && decide (s.world.grid.cells_grid 4 5 = some 2))))
      = some true := by decide!
  cases h0 : forageStocked with
  | none => rw [h0] at h; exact absurd h (by simp)
  | some s0 =>
    rw [h0, Option.some_bind] at h
    cases h1 : s0.runMonth enterKey with
    | none => rw [h1] at h; exact absurd h (by simp)
    | some s1 =>
      rw [h1] at h
      simp only [Option.map_some', Option.some.injEq, Bool.and_eq_true, decide_eq_true_eq] at h
      obtain ⟨⟨⟨⟨⟨⟨hocc, ha⟩, hm⟩, ht⟩, hr⟩, hc⟩, hcell⟩ := h
      have hreg : 1 ∈ s1.world.grid.registry (s1.world.heap 1).getType := by
        rw [ht]; exact hm
      refine ⟨s0, s1, rfl, h1, occupancy_of_check _ hocc, ha, hreg, hr, hc, hcell, ?_⟩
      intro hinv
      have := (hinv 4 5 1 (by decide)).2 ⟨ha, hreg, hr, hc⟩
      rw [hcell] at this
      exact absurd this (by decide)

/-- In the stocked world of the forage scenario the three registered entities occupy
three different cells. -/
theorem forageStocked_onePerCell (s0 : Simulation) (h0 : forageStocked = some s0) :
    OnePerCell s0.world := by
  have h : forageStocked.map (fun s =>
      decide (s.world.grid.plants_list = [0, 1]) && decide (s.world.grid.herbivores_list = [2]) &&
      decide (s.world.grid.carnivores_list = []) &&
      decide ((s.world.heap 0).r_coord = 4) && decide ((s.world.heap 0).c_coord = 4) &&
      decide ((s.world.heap 1).r_coord = 4) && decide ((s.world.heap 1).c_coord = 5) &&
      decide ((s.world.heap 2).r_coord = 5) && decide ((s.world.heap 2).c_coord = 5))
      = some true := by decide!
  rw [h0] at h
  simp only [Option.map_some', Option.some.injEq, Bool.and_eq_true, decide_eq_true_eq] at h
  obtain ⟨⟨⟨⟨⟨⟨⟨⟨hp, hh⟩, hc⟩, r0⟩, c0⟩, r1⟩, c1⟩, r2⟩, c2⟩ := h
  have hmem : ∀ e : EntityId, e ∈ s0.world.grid.registry (s0.world.heap e).getType →
      e = 0 ∨ e = 1 ∨ e = 2 := by
    intro e he
    cases ht : (s0.world.heap e).getType <;> rw [ht] at he <;>
      simp [Grid.registry, hp, hh, hc] at he
    · rcases he with rfl | rfl <;> simp
    · simp [he]
  intro e1 e2 hne hm1 hm2 _ _ hpos
  rcases hmem e1 hm1 with rfl | rfl | rfl <;> rcases hmem e2 hm2 with rfl | rfl | rfl <;>
    first
      | exact hne rfl
      | (simp only [r0, c0, r1, c1, r2, c2] at hpos; omega)

/-- C2, evaluated on the forage scenario.  In the stocked world the herbivore 2 and the
plants 0 and 1 occupy three different cells.  One `Animal::update` of the herbivore in
Winter, the season of the first month, eats plant 0 and then forages onto the cell of
plant 1: afterwards plant 1 and herbivore 2 are both alive, both registered, and both
stored at `(4, 5)`. -/
theorem two_living_entities_share_a_cell :
    ∃ (s0 : Simulation) (w1 : World), forageStocked = some s0 ∧
      OnePerCell s0.world ∧
      Animal.update s0.world 2 .WINTER = some w1 ∧
      (w1.heap 1).is_alive = true ∧ (w1.heap 2).is_alive = true ∧
      (w1.heap 1).r_coord = 4 ∧ (w1.heap 1).c_coord = 5 ∧
      (w1.heap 2).r_coord = 4 ∧ (w1.heap 2).c_coord = 5 ∧
      ¬ OnePerCell w1 := by
  have h : (forageStocked.bind (fun s0 => Animal.update s0.world 2 .WINTER)).map
      (fun w => (w.heap 1).is_alive && (w.heap 2).is_alive &&
        decide ((w.heap 1).r_coord = 4) && decide ((w.heap 1).c_coord = 5) &&
        decide ((w.heap 2).r_coord = 4) && decide ((w.heap 2).c_coord = 5) &&
        decide (1 ∈ w.grid.registry (w.heap 1).getType) &&
        decide (2 ∈ w.grid.registry (w.heap 2).getType))
      = some true := by decide!
  cases h0 : forageStocked with
  | none => rw [h0] at h; exact absurd h (by simp)
  | some s0 =>
    have hone0 := forageStocked_onePerCell s0 h0
    rw [h0, Option.some_bind] at h
    cases h1 : Animal.update s0.world 2 .WINTER with
    | none => rw [h1] at h; exact absurd h (by simp)
    | some w1 =>
      rw [h1] at h
      simp only [Option.map_some', Option.some.injEq, Bool.and_eq_true, decide_eq_true_eq] at h
      obtain ⟨⟨⟨⟨⟨⟨⟨ha1, ha2⟩, hr1⟩, hc1⟩, hr2⟩, hc2⟩, hm1⟩, hm2⟩ := h
      refine ⟨s0, w1, rfl, hone0, h1, ha1, ha2, hr1, hc1, hr2, hc2, ?_⟩
      intro hone
      exact hone 1 2 (by decide) hm1 hm2 ha1 ha2 ⟨by rw [hr1, hr2], by rw [hc1, hc2]⟩

/-! ## C3 : reconcile after an Autumn month with natural deaths and an emigration -/

/-- C3, evaluated on the emigration scenario.  Four months are run from the stocking
(before each of them the month counter is below the duration, so the main loop runs
it).  At the end of the third month no registry lists a dead entity and no cell holds a
dead or unregistered one.  In the fourth month, an Autumn month, herbivores 2, 3 and 4
starve in their base update and herbivore 5 emigrates; the `removeEntity` of the emigrant
drops the three dead herbivores from the registry without clearing their cells, so the
reconcile step never sees them.  At the end of that `runMonth`, cell `(2, 0)` still
holds herbivore 2, which is dead and in no registry. -/
theorem dead_herbivore_left_in_cell_map :
    ∃ s0 s1 s2 s3 s4 : Simulation, emigrationStocked = some s0 ∧
      s0.runMonth enterKey = some s1 ∧ s1.runMonth enterKey = some s2 ∧
      s2.runMonth enterKey = some s3 ∧ s3.runMonth enterKey = some s4 ∧
      s0.currentMonthCounter < s0.totalMonthsDuration ∧
      s1.currentMonthCounter < s1.totalMonthsDuration ∧
      s2.currentMonthCounter < s2.totalMonthsDuration ∧
      s3.currentMonthCounter < s3.totalMonthsDuration ∧
      DeadPurged s3.world ∧
      s4.current_Season_sim = .AUTUMN ∧
      s4.world.grid.cells_grid 2 0 = some 2 ∧
      (s4.world.heap 2).is_alive = false ∧
      (∀ t, 2 ∉ s4.world.grid.registry t) ∧
      ¬ DeadPurged s4.world := by
  have h : (emigrationStocked.bind (fun s0 => (s0.runMonth enterKey).bind (fun s1 =>
      (s1.runMonth enterKey).bind (fun s2 => (s2.runMonth enterKey).bind (fun s3 =>
        (s3.runMonth enterKey).map (fun s4 =>
          decide (s0.currentMonthCounter < s0.totalMonthsDuration) &&
          decide (s1.currentMonthCounter < s1.totalMonthsDuration) &&
          decide (s2.currentMonthCounter < s2.totalMonthsDuration) &&
          decide (s3.currentMonthCounter < s3.totalMonthsDuration) &&
          deadPurgedCheck s3.world &&
          decide (s4.current_Season_sim = .AUTUMN) &&
          decide (s4.world.grid.cells_grid 2 0 = some 2) &&
          !(s4.world.heap 2).is_alive &&
          decide (2 ∉ s4.world.grid.plants_list) &&
          decide (2 ∉ s4.world.grid.herbivores_list) &&
          decide (2 ∉ s4.world.grid.carnivores_list)))))))
      = some true := by decide!
  cases h0 : emigrationStocked with
  | none => rw [h0] at h; exact absurd h (by simp)
  | some s0 =>
    rw [h0, Option.some_bind] at h
    cases h1 : s0.runMonth enterKey with
    | none => rw [h1] at h; exact absurd h (by simp)
    | some s1 =>
      rw [h1, Option.some_bind] at h
      cases h2 : s1.runMonth enterKey with
      | none => rw [h2] at h; exact absurd h (by simp)
      | some s2 =>
        rw [h2, Option.some_bind] at h
        cases h3 : s2.runMonth enterKey with
        | none => rw [h3] at h; exact absurd h (by simp)
        | some s3 =>
          rw [h3, Option.some_bind] at h
          cases h4 : s3.runMonth enterKey with
          | none => rw [h4] at h; exact absurd h (by simp)
          | some s4 =>
            rw [h4] at h
            simp only [Option.map_some', Option.some.injEq, Bool.and_eq_true,
              decide_eq_true_eq, Bool.not_eq_true'] at h
            obtain ⟨⟨⟨⟨⟨⟨⟨⟨⟨⟨g0, g1⟩, g2⟩, g3⟩, hpur⟩, hs⟩, hcell⟩, hdead⟩, hp⟩, hh⟩, hc⟩ := h
            have hreg : ∀ t, 2 ∉ s4.world.grid.registry t := by
              intro t
              cases t
              · simp [Grid.registry]
              · exact hp
              · exact hh
              · exact hc
            refine ⟨s0, s1, s2, s3, s4, rfl, h1, h2, h3, h4, g0, g1, g2, g3,
              deadPurged_of_check _ hpur, hs, hcell, hdead, hreg, ?_⟩
            intro hpurged
            have := (hpurged.2 2 0 2 (by decide) hcell).1
            rw [hdead] at this
            exact absurd this (by decide)

/-- With range 0 nothing is found, even next to a plant. -/
theorem findNearbyEntities_spec_witness :
    ∃ found, onePlantWorld.findNearbyEntities 2 4 .PLANT 0 = some found ∧ found = [] := by
  obtain ⟨_, found, _, _, h, _, _, h0⟩ := findNearbyEntities_spec onePlantWorld 2 4 .PLANT 0
  exact ⟨found, h, h0 (by decide)⟩

/-- With range 1 the plant next to `(2, 4)` is found. -/
theorem findNearbyEntities_finds_neighbour :
    onePlantWorld.findNearbyEntities 2 4 .PLANT 1 = some [45] := by decide!

/-- The rings `attemptEat` scans with radius 1: the eight neighbours in row-major order. -/
theorem eatOffsets_one :
    Animal.eatOffsets 1 = [(-1, -1), (-1, 0), (-1, 1), (0, -1), (0, 1), (1, -1), (1, 0), (1, 1)] := by
  decide!

/-! ## C11, C12, C13 : `Simulation::determineSeason` -/

theorem Simulation.monthName_isSome (idx : Int) (h0 : 0 ≤ idx) (h1 : idx < 12) :
    ∃ name, Simulation.monthName idx = some name ∧ month_Names_sim[idx.toNat]? = some name := by
  have hlt : idx.toNat < month_Names_sim.length := by
    show idx.toNat < 12
    omega
  refine ⟨month_Names_sim[idx.toNat], ?_, ?_⟩
  · unfold Simulation.monthName
    rw [if_neg (by omega)]
    exact List.getElem?_eq_getElem hlt
  · exact List.getElem?_eq_getElem hlt

theorem Simulation.determineSeason_some (s : Simulation) (h : 0 ≤ s.currentMonthCounter) :
    ∃ name, Simulation.monthName (s.currentMonthCounter % 12) = some name ∧
      s.determineSeason = some { s with
        currentMonthIndexInYear := s.currentMonthCounter % 12,
        current_Season_sim :=
          if s.isNorthernHemisphereSelected then northernPartition (s.currentMonthCounter % 12)
          else northernPartition ((s.currentMonthCounter % 12 + 6) % 12),
        world := { s.world with stats := { s.world.stats with
          currentMonthName := name,
          currentSeasonName := getSeasonName
            (if s.isNorthernHemisphereSelected then northernPartition (s.currentMonthCounter % 12)
             else northernPartition ((s.currentMonthCounter % 12 + 6) % 12)) } } } := by
  have hmod : Int.tmod s.currentMonthCounter 12 = s.currentMonthCounter % 12 :=
    Int.tmod_eq_emod h (by decide)
  have h0 : 0 ≤ s.currentMonthCounter % 12 := Int.emod_nonneg _ (by decide)
  have h1 : s.currentMonthCounter % 12 < 12 := Int.emod_lt_of_pos _ (by decide)
  obtain ⟨name, hn, _⟩ := Simulation.monthName_isSome _ h0 h1
  refine ⟨name, hn, ?_⟩
  unfold Simulation.determineSeason
  rw [hmod]
  simp only [hn, Option.bind_eq_bind, Option.some_bind, Option.pure_def]
  generalize s.currentMonthCounter % 12 = m at h0 h1
  have hs : (if s.isNorthernHemisphereSelected = true then
        if m ≥ 2 ∧ m ≤ 4 then Season.SPRING
        else if m ≥ 5 ∧ m ≤ 7 then .SUMMER
        else if m ≥ 8 ∧ m ≤ 10 then .AUTUMN
        else .WINTER
      else
        if m ≥ 8 ∧ m ≤ 10 then .SPRING
        else if m ≥ 11 ∨ m ≤ 1 then .SUMMER
        else if m ≥ 2 ∧ m ≤ 4 then .AUTUMN
        else .WINTER) =
      (if s.isNorthernHemisphereSelected = true then northernPartition m
        else northernPartition ((m + 6) % 12)) := by
    have hm : m = 0 ∨ m = 1 ∨ m = 2 ∨ m = 3 ∨ m = 4 ∨ m = 5 ∨ m = 6 ∨ m = 7 ∨ m = 8 ∨ m = 9 ∨
        m = 10 ∨ m = 11 := by omega
    cases s.isNorthernHemisphereSelected <;>
      rcases hm with h | h | h | h | h | h | h | h | h | h | h | h <;> subst h <;> decide
  rw [hs]

theorem northernPartition_ne_none (m : Int) : northernPartition m ≠ .NONE := by
  unfold northernPartition
  split_ifs <;> decide

/-- C11.  For a non-negative month counter `determineSeason` returns; the month index it
stores is `counter mod 12` and lies in `0..11`, the month name is the entry of
`month_Names_sim` at that index, the season is never `NONE`, and in the Northern
hemisphere it is Spring for the indices 2 to 4, Summer for 5 to 7, Autumn for 8 to 10 and
Winter for 11, 0 and 1. -/
theorem determineSeason_partition (s : Simulation) (h : 0 ≤ s.currentMonthCounter) :
    ∃ s1 : Simulation, s.determineSeason = some s1 ∧
      s1.currentMonthIndexInYear = s.currentMonthCounter % 12 ∧
      0 ≤ s1.currentMonthIndexInYear ∧ s1.currentMonthIndexInYear ≤ 11 ∧
      month_Names_sim[s1.currentMonthIndexInYear.toNat]? = some s1.world.stats.currentMonthName ∧
      s1.current_Season_sim ≠ .NONE ∧
      (s.isNorthernHemisphereSelected = true →
        ((2 ≤ s1.currentMonthIndexInYear ∧ s1.currentMonthIndexInYear ≤ 4 →
            s1.current_Season_sim = .SPRING) ∧
         (5 ≤ s1.currentMonthIndexInYear ∧ s1.currentMonthIndexInYear ≤ 7 →
            s1.current_Season_sim = .SUMMER) ∧
         (8 ≤ s1.currentMonthIndexInYear ∧ s1.currentMonthIndexInYear ≤ 10 →
            s1.current_Season_sim = .AUTUMN) ∧
         (s1.currentMonthIndexInYear = 11 ∨ s1.currentMonthIndexInYear = 0 ∨
            s1.currentMonthIndexInYear = 1 → s1.current_Season_sim = .WINTER))) := by
  obtain ⟨name, hn, hs⟩ := Simulation.determineSeason_some s h
  have h0 : 0 ≤ s.currentMonthCounter % 12 := Int.emod_nonneg _ (by decide)
  have h1 : s.currentMonthCounter % 12 < 12 := Int.emod_lt_of_pos _ (by decide)
  obtain ⟨name1, hn1, hn2⟩ := Simulation.monthName_isSome _ h0 h1
  have hname : name1 = name := by
    rw [hn] at hn1
    exact (Option.some.inj hn1).symm
  subst hname
  refine ⟨_, hs, rfl, h0, Int.lt_add_one_iff.mp h1, hn2, ?_, ?_⟩
  · dsimp only
    split_ifs <;> exact northernPartition_ne_none _
  · intro hnorth
    dsimp only
    rw [if_pos hnorth]
    generalize s.currentMonthCounter % 12 = m at h0 h1
    unfold northernPartition
    refine ⟨fun hm => ?_, fun hm => ?_, fun hm => ?_, fun hm => ?_⟩
    · rw [if_pos hm]
    · rw [if_neg (by omega), if_pos hm]
    · rw [if_neg (by omega), if_neg (by omega), if_pos hm]
    · rw [if_neg (by omega), if_neg (by omega), if_neg (by omega)]

theorem determineSeason_partition_witness :
    ∃ s1 : Simulation,
      ((Simulation.new []).atMonth 15 true : Simulation).determineSeason = some s1 ∧
      s1.currentMonthIndexInYear = 3 ∧ s1.current_Season_sim = .SPRING ∧
      s1.world.stats.currentMonthName = "April" := by
  obtain ⟨s1, h1, h2, _, _, h5, _, h7⟩ :=
    determineSeason_partition ((Simulation.new []).atMonth 15 true) (by decide)
  have h2a : s1.currentMonthIndexInYear = 3 := h2
  refine ⟨s1, h1, h2a, ?_, ?_⟩
  · exact (h7 rfl).1 (by rw [h2a]; decide)
  · rw [h2a] at h5
    exact (Option.some.inj h5).symm

theorem ite_some_cond {α : Type} {c : Prop} [Decidable c] {x y : Option α} {v : α}
    (h : (if c then x else y) = some v) : (c ∧ x = some v) ∨ (¬ c ∧ y = some v) := by
  split at h
  · exact Or.inl ⟨‹_›, h⟩
  · exact Or.inr ⟨‹_›, h⟩

/-- Migration changes nothing of the simulation but its world. -/
theorem Simulation.handleMigration_eq {s s1 : Simulation} (h : s.handleMigration = some s1) :
    s1 = { s with world := s1.world } := by
  unfold Simulation.handleMigration at h
  rcases ite_eq_some_cases h with h | h
  · dsimp only at h
    obtain ⟨res, _, h⟩ := bind_some_elim h
    simp only [pure, Option.some.injEq] at h
    rw [← h]
  · rcases ite_eq_some_cases h with h | h
    · dsimp only at h
      obtain ⟨res1, _, h⟩ := bind_some_elim h
      obtain ⟨res2, _, h⟩ := bind_some_elim h
      obtain ⟨res3, _, h⟩ := bind_some_elim h
      obtain ⟨res4, _, h⟩ := bind_some_elim h
      simp only [pure, Option.some.injEq] at h
      rw [← h]
    · simp only [pure, Option.some.injEq] at h
      rw [← h]

theorem Simulation.runMonthEnd_index (s : Simulation) (key : Option Char) :
    (s.runMonthEnd key).currentMonthIndexInYear = s.currentMonthIndexInYear ∧
    (s.runMonthEnd key).current_Season_sim = s.current_Season_sim := by
  unfold Simulation.runMonthEnd
  dsimp only
  repeat' split
  all_goals exact ⟨rfl, rfl⟩

/-- The month index a tick is given: `runMonth` advances the counter before it determines
the season, so the index is the one of the advanced counter. -/
theorem Simulation.runMonth_month_index {s s1 : Simulation} {key : Option Char}
    (h : s.runMonth key = some s1) :
    s1.currentMonthIndexInYear = Int.tmod (s.currentMonthCounter + 1) 12 := by
  unfold Simulation.runMonth at h
  obtain ⟨s2, h2, h⟩ := bind_some_elim h
  simp only [pure, Option.some.injEq] at h
  rw [← h, (Simulation.runMonthEnd_index s2 key).1]
  unfold Simulation.runMonthCore at h2
  dsimp only at h2
  obtain ⟨s3, h3, h2⟩ := bind_some_elim h2
  obtain ⟨w1, _, h2⟩ := bind_some_elim h2
  obtain ⟨w2, _, h2⟩ := bind_some_elim h2
  obtain ⟨w3, _, h2⟩ := bind_some_elim h2
  obtain ⟨s4, h4, h2⟩ := bind_some_elim h2
  obtain ⟨w5, _, h2⟩ := bind_some_elim h2
  simp only [pure, Option.some.injEq] at h2
  rw [← h2]
  dsimp only
  rw [Simulation.handleMigration_eq h4]
  dsimp only
  unfold Simulation.determineSeason at h3
  dsimp only at h3
  obtain ⟨name, _, h3⟩ := bind_some_elim h3
  simp only [pure, Option.some.injEq] at h3
  rw [← h3]

/-- C12, evaluated on the first and on the thirteenth tick.  The stocked simulation of
the forage scenario has executed no tick (its counter is 0); the first `runMonth` gives
that tick the month index 1 and the month name February, not index 0 and January.  In
general the tick executed from counter `n`, which is the `n`-th tick counted from 0,
gets the index of `n + 1`; so the tick number 12 gets index 1 again, not index 0. -/
theorem first_tick_is_february :
    (∃ s0 s1 : Simulation, forageStocked = some s0 ∧ s0.currentMonthCounter = 0 ∧
      s0.runMonth enterKey = some s1 ∧
      s1.currentMonthIndexInYear = 1 ∧ s1.world.stats.currentMonthName = "February" ∧
      s1.currentMonthIndexInYear ≠ 0 % 12) ∧
    (∀ (s s1 : Simulation) (key : Option Char), s.runMonth key = some s1 →
      s1.currentMonthIndexInYear = Int.tmod (s.currentMonthCounter + 1) 12) ∧
    Int.tmod (12 + 1) 12 ≠ 12 % 12 := by
  refine ⟨?_, fun s s1 key h => Simulation.runMonth_month_index h, by decide⟩
  have h : (forageStocked.bind (fun s0 => (s0.runMonth enterKey).map
      (fun s => decide (s0.currentMonthCounter = 0) && decide (s.currentMonthIndexInYear = 1) &&
        decide (s.world.stats.currentMonthName = "February"))))
      = some true := by decide!
  cases h0 : forageStocked with
  | none => rw [h0] at h; exact absurd h (by simp)
  | some s0 =>
    rw [h0, Option.some_bind] at h
    cases h1 : s0.runMonth enterKey with
    | none => rw [h1] at h; exact absurd h (by simp)
    | some s1 =>
      rw [h1] at h
      simp only [Option.map_some', Option.some.injEq, Bool.and_eq_true, decide_eq_true_eq] at h
      obtain ⟨⟨hc, hi⟩, hn⟩ := h
      exact ⟨s0, s1, rfl, hc, h1, hi, hn, by rw [hi]; decide⟩

/-- C13.  For every month index `m` in `0..11`, the season `determineSeason` gives the
Southern hemisphere at counter `m` is the one it gives the Northern hemisphere at counter
`(m + 6) mod 12`; and two simulations with the same month counter and the same hemisphere
flag get the same season, month index, month name and season name, whatever else differs
(both calls fail together when the counter is negative). -/
theorem hemisphere_mirror (s t : Simulation) (m : Int) (h0 : 0 ≤ m) (h1 : m ≤ 11) :
    (∃ s1 t1 : Simulation,
      (s.atMonth m false).determineSeason = some s1 ∧
      (t.atMonth ((m + 6) % 12) true).determineSeason = some t1 ∧
      s1.current_Season_sim = t1.current_Season_sim) ∧
    (s.currentMonthCounter = t.currentMonthCounter →
      s.isNorthernHemisphereSelected = t.isNorthernHemisphereSelected →
      s.determineSeason.map Simulation.seasonView = t.determineSeason.map Simulation.seasonView) := by
  constructor
  · obtain ⟨n1, _, e1⟩ := Simulation.determineSeason_some (s.atMonth m false) h0
    obtain ⟨n2, _, e2⟩ := Simulation.determineSeason_some (t.atMonth ((m + 6) % 12) true)
      (Int.emod_nonneg _ (by decide))
    refine ⟨_, _, e1, e2, ?_⟩
    dsimp only [Simulation.atMonth]
    have hm : m % 12 = m := Int.emod_eq_of_lt h0 (by omega)
    rw [if_neg (by decide), if_pos rfl, hm, Int.emod_emod_of_dvd _ (dvd_refl 12)]
  · intro hc hf
    unfold Simulation.determineSeason
    rw [hc, hf]
    dsimp only
    cases Simulation.monthName (Int.tmod t.currentMonthCounter 12) with
    | none => rfl
    | some name => rfl

theorem hemisphere_mirror_witness :
    (∃ s1 t1 : Simulation,
      ((Simulation.new []).atMonth 9 false).determineSeason = some s1 ∧
      ((Simulation.new [7]).atMonth ((9 + 6) % 12) true).determineSeason = some t1 ∧
      s1.current_Season_sim = t1.current_Season_sim) ∧
    ((Simulation.new []).currentMonthCounter = (Simulation.new [7]).currentMonthCounter →
      (Simulation.new []).isNorthernHemisphereSelected =
        (Simulation.new [7]).isNorthernHemisphereSelected →
      (Simulation.new []).determineSeason.map Simulation.seasonView =
        (Simulation.new [7]).determineSeason.map Simulation.seasonView) :=
  hemisphere_mirror (Simulation.new []) (Simulation.new [7]) 9 (by decide) (by decide)

/-! ## Objects between two points of a run -/

theorem Entity.Evolves.ent_same (b : Bool) (ent : Entity) : Entity.Evolves b ent ent :=
  ⟨rfl, fun h => ⟨h, rfl⟩, fun h => h, fun _ h => h⟩

theorem Entity.Evolves.ent_chain {b : Bool} {x y z : Entity} (h1 : Entity.Evolves b x y)
    (h2 : Entity.Evolves b y z) : Entity.Evolves b x z :=
  ⟨h2.type_eq.trans h1.type_eq,
   fun h => ⟨(h2.dead (h1.dead h).1).1, (h2.dead (h1.dead h).1).2.trans (h1.dead h).2⟩,
   fun h => h2.energy (h1.energy h),
   fun hs h => h1.pregnancy hs (h2.pregnancy hs h)⟩

theorem Entity.Evolves.ent_relax {b : Bool} {x y : Entity} (h : Entity.Evolves true x y) :
    Entity.Evolves b x y :=
  ⟨h.type_eq, h.dead, h.energy, fun _ hp => h.pregnancy rfl hp⟩

theorem Entity.evolves_kill (b : Bool) (ent : Entity) : Entity.Evolves b ent ent.kill := by
  refine ⟨rfl, fun _ => ⟨rfl, rfl⟩, fun h a ha => ?_, fun _ h => h⟩
  obtain ⟨h1, h2, h3, _⟩ := h a ha
  exact ⟨h1, h2, h3, fun hd => absurd hd (by simp [Entity.kill])⟩

theorem Entity.evolves_setR (b : Bool) (ent : Entity) (r : Int) :
    Entity.Evolves b ent (ent.setR r) :=
  ⟨rfl, fun h => ⟨h, rfl⟩, fun h => h, fun _ h => h⟩

theorem Entity.evolves_setC (b : Bool) (ent : Entity) (c : Int) :
    Entity.Evolves b ent (ent.setC c) :=
  ⟨rfl, fun h => ⟨h, rfl⟩, fun h => h, fun _ h => h⟩

theorem Entity.setAnimal_animal {ent : Entity} {a : AnimalData} (a1 : AnimalData)
    (h : ent.animal = some a) : (ent.setAnimal a1).animal = some a1 := by
  unfold Entity.animal at h
  unfold Entity.setAnimal Entity.animal
  cases hk : ent.kind with
  | plant p => rw [hk] at h; exact absurd h (by simp)
  | herbivore x => rfl
  | carnivore x => rfl

theorem Entity.setAnimal_getType (ent : Entity) (a1 : AnimalData) :
    (ent.setAnimal a1).getType = ent.getType := by
  unfold Entity.setAnimal Entity.getType
  cases hk : ent.kind <;> simp [hk]

theorem Entity.setAnimal_is_alive (ent : Entity) (a1 : AnimalData) :
    (ent.setAnimal a1).is_alive = ent.is_alive := by
  unfold Entity.setAnimal
  cases hk : ent.kind <;> rfl

theorem Entity.setPlant_animal (ent : Entity) (p : PlantData) :
    (ent.setPlant p).animal = ent.animal := by
  unfold Entity.setPlant Entity.animal
  cases hk : ent.kind <;> simp [hk]

theorem Entity.setPlant_getType (ent : Entity) (p : PlantData) :
    (ent.setPlant p).getType = ent.getType := by
  unfold Entity.setPlant Entity.getType
  cases hk : ent.kind <;> simp [hk]

theorem Entity.setPlant_is_alive (ent : Entity) (p : PlantData) :
    (ent.setPlant p).is_alive = ent.is_alive := by
  unfold Entity.setPlant
  cases hk : ent.kind <;> rfl

theorem Entity.Evolves.writes {b : Bool} {x y : Entity} (h : Entity.Evolves b x y) :
    Entity.Writes b x y := ⟨h.type_eq, h.energy, h.pregnancy⟩

theorem Entity.Writes.writes_chain {b : Bool} {x y z : Entity} (h1 : Entity.Writes b x y)
    (h2 : Entity.Writes b y z) : Entity.Writes b x z :=
  ⟨h2.type_eq.trans h1.type_eq, fun h => h2.energy (h1.energy h),
   fun hs h => h1.pregnancy hs (h2.pregnancy hs h)⟩

/-- A write of new `Animal` members: the two constants are kept, the energy stays below
the maximum, is not negative while the animal lives, and the pregnancy flag is not newly
set. -/
theorem Entity.writes_setAnimal {b : Bool} {ent ent1 : Entity} {a a1 : AnimalData}
    (ha : ent.animal = some a) (ha1 : ent1.animal = some a1)
    (hty : ent1.getType = ent.getType)
    (hmax : a1.maximumEnergy = a.maximumEnergy)
    (hcost : a1.movementCostBase = a.movementCostBase)
    (hup : 0 ≤ a.maximumEnergy → 0 ≤ a.movementCostBase →
      a.currentEnergy ≤ a.maximumEnergy → a1.currentEnergy ≤ a.maximumEnergy)
    (hlow : ent1.is_alive = true → 0 ≤ a.maximumEnergy → 0 ≤ a.movementCostBase →
      (ent.is_alive = true → 0 ≤ a.currentEnergy) → 0 ≤ a1.currentEnergy)
    (hpreg : b = true → a1.currentlyPregnant = true → a.currentlyPregnant = true) :
    Entity.Writes b ent ent1 := by
  refine ⟨hty, fun h x hx => ?_, fun hb hp => ?_⟩
  · rw [ha1] at hx
    cases hx
    obtain ⟨h1, h2, h3, h4⟩ := h a ha
    exact ⟨hmax ▸ h1, hcost ▸ h2, hmax ▸ hup h1 h2 h3, fun hal => hlow hal h1 h2 h4⟩
  · unfold Entity.pregnant at hp ⊢
    rw [ha1] at hp
    rw [ha]
    exact hpreg hb hp

theorem Entity.writes_alive {b : Bool} {x y : Entity} (h : Entity.Writes b x y)
    (hal : x.is_alive = true) : Entity.Evolves b x y :=
  ⟨h.type_eq, fun hd => absurd hal (by rw [hd]; decide), h.energy, h.pregnancy⟩

/-! ## Worlds between two points of a run -/

theorem World.Evolves.same (b : Bool) (w : World) : World.Evolves b w w :=
  ⟨fun _ h => h, fun _ _ => Entity.Evolves.ent_same b _, fun _ h1 h2 => absurd h2 h1,
   fun _ _ _ _ => le_refl _⟩

theorem World.Evolves.chain {b : Bool} {x y z : World} (h1 : World.Evolves b x y)
    (h2 : World.Evolves b y z) : World.Evolves b x z := by
  refine ⟨fun e he => h2.allocated e (h1.allocated e he), fun e he => ?_, fun e he1 he2 => ?_,
    fun e t he hd => ?_⟩
  · exact (h1.old e he).ent_chain (h2.old e (h1.allocated e he))
  · by_cases hy : e < y.nextId
    · obtain ⟨f1, f2⟩ := h1.fresh e he1 hy
      have hev := h2.old e hy
      refine ⟨hev.energy f1, fun hs => ?_⟩
      cases hp : (z.heap e).pregnant with
      | false => rfl
      | true =>
        have := hev.pregnancy hs hp
        rw [f2 hs] at this
        exact absurd this (by decide)
    · exact h2.fresh e hy he2
  · have hd1 := ((h1.old e he).dead hd).1
    exact le_trans (h2.registry e t (h1.allocated e he) hd1) (h1.registry e t he hd)

theorem World.Evolves.relax {b : Bool} {x y : World} (h : World.Evolves true x y) :
    World.Evolves b x y :=
  ⟨h.allocated, fun e he => (h.old e he).ent_relax,
   fun e h1 h2 => ⟨(h.fresh e h1 h2).1, fun _ => (h.fresh e h1 h2).2 rfl⟩, h.registry⟩

/-- Changes outside the objects, the allocator and the grid (statistics, generator). -/
theorem World.Evolves.of_same {b : Bool} {w w1 : World} (hh : w1.heap = w.heap)
    (hn : w1.nextId = w.nextId) (hg : w1.grid = w.grid) : World.Evolves b w w1 := by
  refine ⟨fun e he => hn ▸ he, fun e _ => ?_, fun e h1 h2 => absurd (hn ▸ h2) h1,
    fun e t _ _ => ?_⟩
  · rw [hh]; exact Entity.Evolves.ent_same b _
  · rw [hg]

theorem World.Evolves.then_same {b : Bool} {w wm w1 : World} (h : World.Evolves b w wm)
    (hh : w1.heap = wm.heap) (hn : w1.nextId = wm.nextId) (hg : w1.grid = wm.grid) :
    World.Evolves b w w1 :=
  h.chain (World.Evolves.of_same hh hn hg)

/-- A member function applied to one object. -/
theorem World.evolves_modify {b : Bool} (w : World) (e : EntityId) (f : Entity → Entity)
    (h : Entity.Evolves b (w.heap e) (f (w.heap e))) : World.Evolves b w (w.modify e f) := by
  refine ⟨fun _ hi => hi, fun i _ => ?_, fun i h1 h2 => absurd h2 h1,
    fun i t _ _ => le_refl _⟩
  show Entity.Evolves b (w.heap i) (if i = e then f (w.heap e) else w.heap i)
  by_cases hi : i = e
  · rw [if_pos hi, hi]; exact h
  · rw [if_neg hi]; exact Entity.Evolves.ent_same b _

theorem World.Evolves.then_modify {b : Bool} {w wm : World} (h : World.Evolves b w wm)
    (e : EntityId) (f : Entity → Entity)
    (hf : Entity.Evolves b (wm.heap e) (f (wm.heap e))) : World.Evolves b w (wm.modify e f) :=
  h.chain (World.evolves_modify wm e f hf)

/-- A write to an object that was alive when the phase began, after other steps of the
phase. -/
theorem World.Evolves.then_write {b : Bool} {w wm : World} (h : World.Evolves b w wm)
    (self : EntityId) (f : Entity → Entity) (hal : (w.heap self).is_alive = true)
    (hwr : Entity.Writes b (wm.heap self) (f (wm.heap self))) :
    World.Evolves b w (wm.modify self f) := by
  refine ⟨h.allocated, fun i hi => ?_, fun i h1 h2 => ?_, h.registry⟩
  · show Entity.Evolves b (w.heap i) (if i = self then f (wm.heap self) else wm.heap i)
    by_cases his : i = self
    · rw [if_pos his]
      subst his
      exact Entity.writes_alive ((h.old i hi).writes.writes_chain hwr) hal
    · rw [if_neg his]; exact h.old i hi
  · show (if i = self then f (wm.heap self) else wm.heap i).energyBounded ∧
      (b = true → (if i = self then f (wm.heap self) else wm.heap i).pregnant = false)
    obtain ⟨f1, f2⟩ := h.fresh i h1 h2
    by_cases his : i = self
    · rw [if_pos his]
      subst his
      refine ⟨hwr.energy f1, fun hs => ?_⟩
      cases hp : (f (wm.heap i)).pregnant with
      | false => rfl
      | true =>
        have := hwr.pregnancy hs hp
        rw [f2 hs] at this
        exact absurd this (by decide)
    · rw [if_neg his]; exact ⟨f1, f2⟩

theorem World.modify_modify (w : World) (e : EntityId) (f g : Entity → Entity) :
    (w.modify e f).modify e g = w.modify e (fun x => g (f x)) := by
  unfold World.modify
  congr 1
  funext i
  by_cases hi : i = e <;> simp [hi]

/-- `std::make_shared` of an object within its energy bounds that is not pregnant. -/
theorem World.evolves_alloc (b : Bool) (w : World) (ent : Entity) (he : ent.energyBounded)
    (hp : ent.pregnant = false) : World.Evolves b w (w.alloc ent).1 := by
  refine ⟨fun i hi => Nat.lt_succ_of_lt hi, fun i hi => ?_, fun i h1 h2 => ?_,
    fun i t _ _ => le_refl _⟩
  · show Entity.Evolves b (w.heap i) (if i = w.nextId then ent else w.heap i)
    rw [if_neg (Nat.ne_of_lt hi)]; exact Entity.Evolves.ent_same b _
  · show (if i = w.nextId then ent else w.heap i).energyBounded ∧
      (b = true → (if i = w.nextId then ent else w.heap i).pregnant = false)
    have h3 : i < w.nextId + 1 := h2
    have : i = w.nextId := Nat.le_antisymm (Nat.lt_succ_iff.mp h3) (Nat.not_lt.mp h1)
    rw [if_pos this]; exact ⟨he, fun _ => hp⟩

theorem Animal.evolves_die (b : Bool) (w : World) (self : EntityId) (eaten : Bool) :
    World.Evolves b w (Animal.die w self eaten) := by
  unfold Animal.die
  split
  · exact World.Evolves.same b w
  · have h := World.evolves_modify w self Entity.kill (Entity.evolves_kill b _)
    dsimp only
    split
    · split
      · exact h.then_same rfl rfl rfl
      · split
        · exact h.then_same rfl rfl rfl
        · exact h
    · exact h

theorem World.Evolves.then_stats {b : Bool} {w wm : World} (h : World.Evolves b w wm)
    (st : MonthlyStats) : World.Evolves b w { wm with stats := st } :=
  h.then_same rfl rfl rfl

theorem World.Evolves.then_gen {b : Bool} {w wm : World} (h : World.Evolves b w wm)
    (gen : List Nat) : World.Evolves b w { wm with gen := gen } :=
  h.then_same rfl rfl rfl

theorem World.Evolves.then_event {b : Bool} {w wm : World} (h : World.Evolves b w wm)
    (ev : String) : World.Evolves b w (wm.addMonthlyEvent ev) :=
  h.then_same rfl rfl rfl

theorem World.Evolves.then_die {b : Bool} {w wm : World} (h : World.Evolves b w wm)
    (self : EntityId) (eaten : Bool) : World.Evolves b w (Animal.die wm self eaten) :=
  h.chain (Animal.evolves_die b wm self eaten)

theorem Animal.die_nextId (w : World) (self : EntityId) (eaten : Bool) :
    (Animal.die w self eaten).nextId = w.nextId := by
  unfold Animal.die
  split
  · rfl
  · dsimp only
    split
    · split
      · rfl
      · split <;> rfl
    · rfl

theorem Animal.die_heap (w : World) (self : EntityId) (eaten : Bool) :
    (Animal.die w self eaten).heap = (w.modify self Entity.kill).heap := by
  unfold Animal.die
  split
  · rename_i hd
    funext i
    show w.heap i = if i = self then (w.heap self).kill else w.heap i
    by_cases hi : i = self
    · rw [if_pos hi, hi]
      have : (w.heap self).is_alive = false := by
        simpa [Entity.isAlive] using hd
      show w.heap self = { w.heap self with is_alive := false }
      rw [← this]
    · rw [if_neg hi]
  · dsimp only
    split
    · split
      · rfl
      · split <;> rfl
    · rfl

/-- A write to an object that was alive when the phase began, followed by its death. -/
theorem World.Evolves.then_write_die {b : Bool} {w wm : World} (h : World.Evolves b w wm)
    (self : EntityId) (f : Entity → Entity) (eaten : Bool)
    (hal : (w.heap self).is_alive = true)
    (hwr : Entity.Writes b (wm.heap self) ((f (wm.heap self)).kill)) :
    World.Evolves b w (Animal.die (wm.modify self f) self eaten) := by
  have h1 := h.then_write self (fun x => (f x).kill) hal hwr
  refine h1.then_same ?_ (Animal.die_nextId _ _ _) (Animal.die_grid _ _ _)
  rw [Animal.die_heap, World.modify_modify]

theorem getRandomInt_mem (gen : List Nat) (lo hi : Int) (h : lo ≤ hi) :
    lo ≤ (getRandomInt gen lo hi).1 ∧ (getRandomInt gen lo hi).1 ≤ hi := by
  unfold getRandomInt
  have hgt : ¬ lo > hi := by omega
  simp only [if_neg hgt]
  by_cases he : lo = hi
  · rw [if_pos he]; exact ⟨le_refl _, h⟩
  · rw [if_neg he]
    cases gen with
    | nil => exact ⟨le_refl _, h⟩
    | cons x rest =>
      dsimp only
      have hpos : 0 < (hi - lo + 1).toNat := by omega
      have hlt := Nat.mod_lt x hpos
      have hcast : (((hi - lo + 1).toNat : Nat) : Int) = hi - lo + 1 := Int.toNat_of_nonneg (by omega)
      constructor <;> omega

theorem Plant.plant_new_energyBounded (r c : Int) : (Plant.new r c).energyBounded := by
  intro a ha
  exact absurd ha (by simp [Plant.new, Entity.animal])

theorem Plant.new_pregnant (r c : Int) : (Plant.new r c).pregnant = false := rfl

theorem Animal.new_bounds (gen : List Nat) (g : Gender)
    (maxAge maxEnergy vision moveCost gestation minBreed reproEnergy maxNoFood : Int)
    (hmax : 0 ≤ maxEnergy) (hcost : 0 ≤ moveCost) :
    let a := (Animal.new gen g maxAge maxEnergy vision moveCost gestation minBreed reproEnergy
      maxNoFood).1
    0 ≤ a.maximumEnergy ∧ 0 ≤ a.movementCostBase ∧ a.currentEnergy ≤ a.maximumEnergy ∧
      0 ≤ a.currentEnergy ∧ a.currentlyPregnant = false := by
  unfold Animal.new
  dsimp only
  have h4 : 0 ≤ Int.tdiv maxEnergy 4 := Int.tdiv_nonneg hmax (by decide)
  obtain ⟨h1, h2⟩ := getRandomInt_mem gen 0 (Int.tdiv maxEnergy 4) h4
  have e2 : Int.tdiv maxEnergy 2 = maxEnergy / 2 := Int.tdiv_eq_ediv hmax (by decide)
  have e4 : Int.tdiv maxEnergy 4 = maxEnergy / 4 := Int.tdiv_eq_ediv hmax (by decide)
  rw [e4] at h1 h2 ⊢
  rw [e2]
  refine ⟨hmax, hcost, ?_, ?_, rfl⟩ <;> omega

theorem Herbivore.herbivore_new_energyBounded (gen : List Nat) (r c : Int) (g : Gender) :
    (Herbivore.new gen r c g).1.energyBounded ∧ (Herbivore.new gen r c g).1.pregnant = false := by
  have h := Animal.new_bounds gen g 70 120 5 10 3 2 40 3 (by decide) (by decide)
  dsimp only at h
  unfold Herbivore.new
  refine ⟨fun a ha => ?_, ?_⟩
  · simp only [Entity.animal, Option.some.injEq] at ha
    subst ha
    exact ⟨h.1, h.2.1, h.2.2.1, fun _ => h.2.2.2.1⟩
  · exact h.2.2.2.2

theorem Carnivore.carnivore_new_energyBounded (gen : List Nat) (r c : Int) (g : Gender) :
    (Carnivore.new gen r c g).1.energyBounded ∧ (Carnivore.new gen r c g).1.pregnant = false := by
  have h := Animal.new_bounds gen g 100 120 6 15 4 5 50 2 (by decide) (by decide)
  dsimp only at h
  unfold Carnivore.new
  refine ⟨fun a ha => ?_, ?_⟩
  · simp only [Entity.animal, Option.some.injEq] at ha
    subst ha
    exact ⟨h.1, h.2.1, h.2.2.1, fun _ => h.2.2.2.1⟩
  · exact h.2.2.2.2

/-! ### The four mutating member functions of `Grid` -/

theorem Grid.registry_setCell (g : Grid) (r c : Int) (v : Option EntityId) (t : EntityType) :
    (g.setCell r c v).registry t = g.registry t := by
  cases t <;> rfl

theorem Grid.count_registry_pushBack (g : Grid) (t t1 : EntityType) (x e : EntityId)
    (h : e ≠ x) : ((g.pushBack t x).registry t1).count e = (g.registry t1).count e := by
  have hx : List.count e [x] = 0 := by
    rw [List.count_eq_zero]
    simpa using h
  cases t <;> cases t1 <;>
    simp [Grid.pushBack, Grid.registry, List.count_append, hx]

theorem Grid.count_registry_eraseIf (g : Grid) (t t1 : EntityType) (drop : EntityId → Bool)
    (e : EntityId) : ((g.eraseIf t drop).registry t1).count e ≤ (g.registry t1).count e := by
  cases t <;> cases t1 <;>
    first
    | exact le_refl _
    | exact List.Sublist.count_le (List.filter_sublist _) e

/-- Steps that leave the objects alone and may change the grid, as long as no dead object
is listed more often. -/
theorem World.Evolves.of_grid {b : Bool} {w w1 : World} (hh : w1.heap = w.heap)
    (hn : w1.nextId = w.nextId)
    (hreg : ∀ (e : Nat) (t : EntityType), (w.heap e).is_alive = false →
      (w1.grid.registry t).count e ≤ (w.grid.registry t).count e) : World.Evolves b w w1 := by
  refine ⟨fun e he => hn ▸ he, fun e _ => ?_, fun e h1 h2 => absurd (hn ▸ h2) h1,
    fun e t _ hd => hreg e t hd⟩
  rw [hh]; exact Entity.Evolves.ent_same b _

theorem World.addEntity_evolves (b : Bool) {w w1 : World} {x : EntityId} {ok : Bool}
    (h : w.addEntity (some x) = some (w1, ok)) (hal : (w.heap x).is_alive = true) :
    World.Evolves b w w1 := by
  rw [World.addEntity_some] at h
  simp only [Option.some.injEq] at h
  split at h
  · simp only [Prod.mk.injEq] at h
    rw [← h.1]
    refine World.Evolves.of_grid rfl rfl (fun e t hd => ?_)
    have hne : e ≠ x := by
      intro hex
      rw [hex, hal] at hd
      exact absurd hd (by decide)
    show ((((w.grid.setCell _ _ _).pushBack _ x).registry t).count e) ≤ _
    rw [Grid.count_registry_pushBack _ _ _ _ _ hne, Grid.registry_setCell]
  · simp only [Prod.mk.injEq] at h
    rw [← h.1]; exact World.Evolves.same b w

theorem World.removeEntity_evolves (b : Bool) {w w1 : World} {ent : Option EntityId}
    (h : w.removeEntity ent = some w1) : World.Evolves b w w1 := by
  cases ent with
  | none =>
    simp only [World.removeEntity, pure, Option.some.injEq] at h
    rw [← h]; exact World.Evolves.same b w
  | some e =>
    rw [World.removeEntity_some] at h
    simp only [Option.some.injEq] at h
    split at h
    · rw [← h]
      have h1 := World.evolves_modify w e Entity.kill (Entity.evolves_kill b _)
      refine h1.chain (World.Evolves.of_grid rfl rfl (fun i t _ => ?_))
      refine le_trans (Grid.count_registry_eraseIf _ _ _ _ _) ?_
      show ((if _ then _ else _ : Grid).registry t).count i ≤ (w.grid.registry t).count i
      split
      · rw [Grid.registry_setCell]
      · exact le_refl _
    · rw [← h]; exact World.Evolves.same b w

theorem World.moveEntity_evolves (b : Bool) {w w1 : World} {ent : Option EntityId}
    {newR newC : Int} (h : w.moveEntity ent newR newC = some w1) : World.Evolves b w w1 := by
  cases ent with
  | none =>
    simp only [World.moveEntity, pure, Option.some.injEq] at h
    rw [← h]; exact World.Evolves.same b w
  | some e =>
    rw [World.moveEntity_some] at h
    simp only [Option.some.injEq] at h
    rw [← h]
    have hreg : ∀ (g : Grid) (t : EntityType) (i : Nat),
        (((if Grid.isValid (w.heap e).r_coord (w.heap e).c_coord = true ∧
            w.grid.cells_grid (w.heap e).r_coord (w.heap e).c_coord = some e then
          w.grid.setCell (w.heap e).r_coord (w.heap e).c_coord none
          else w.grid) : Grid).registry t).count i = (w.grid.registry t).count i := by
      intro g t i
      split
      · rw [Grid.registry_setCell]
      · rfl
    split
    · refine ⟨fun _ hi => hi, fun i _ => ?_, fun i h1 h2 => absurd h2 h1, fun i t _ _ => ?_⟩
      · dsimp only
        by_cases hi : i = e
        · rw [if_pos hi, hi]
          exact ⟨rfl, fun hd => ⟨hd, rfl⟩, fun hb => hb, fun _ hp => hp⟩
        · rw [if_neg hi]; exact Entity.Evolves.ent_same b _
      · dsimp only
        rw [Grid.registry_setCell, hreg w.grid]
    · refine ⟨fun _ hi => hi, fun i _ => ?_, fun i h1 h2 => absurd h2 h1, fun i t _ _ => ?_⟩
      · dsimp only
        by_cases hi : i = e
        · rw [if_pos hi, hi]
          refine ⟨rfl, fun _ => ⟨rfl, rfl⟩, fun hb a ha => ?_, fun _ hp => hp⟩
          obtain ⟨h1, h2, h3, _⟩ := hb a ha
          exact ⟨h1, h2, h3, fun hd => absurd hd (by simp)⟩
        · rw [if_neg hi]; exact Entity.Evolves.ent_same b _
      · dsimp only
        rw [hreg w.grid]

theorem World.addMigratingAnimalLoop_evolves (b : Bool) (x : EntityId) (n : Nat) :
    ∀ {w w1 : World} {ok : Bool}, World.addMigratingAnimalLoop x n w = some (w1, ok) →
      (w.heap x).is_alive = true → World.Evolves b w w1 := by
  induction n with
  | zero =>
    intro w w1 ok h _
    simp only [World.addMigratingAnimalLoop, pure, Option.some.injEq, Prod.mk.injEq] at h
    rw [← h.1]; exact World.Evolves.same b w
  | succ n ih =>
    intro w w1 ok h hal
    unfold World.addMigratingAnimalLoop at h
    dsimp only at h
    obtain ⟨emp, _, h⟩ := bind_some_elim h
    rcases ite_eq_some_cases h with h | h
    · refine World.Evolves.chain ?_ (World.addEntity_evolves b h ?_)
      · refine World.Evolves.then_modify ?_ _ _ (Entity.evolves_setC b _ _)
        refine World.Evolves.then_modify ?_ _ _ (Entity.evolves_setR b _ _)
        exact World.Evolves.of_same rfl rfl rfl
      · simp [World.modify, Entity.setR, Entity.setC, hal]
    · refine World.Evolves.chain ?_ (ih h hal)
      exact World.Evolves.of_same rfl rfl rfl

theorem World.addMigratingAnimal_evolves (b : Bool) {w w1 : World} {x : EntityId} {ok : Bool}
    (h : w.addMigratingAnimal x = some (w1, ok)) (hal : (w.heap x).is_alive = true) :
    World.Evolves b w w1 := by
  unfold World.addMigratingAnimal at h
  rcases ite_eq_some_cases h with h | h
  · simp only [pure, Option.some.injEq, Prod.mk.injEq] at h
    rw [← h.1]; exact World.Evolves.same b w
  · exact World.addMigratingAnimalLoop_evolves b x _ h hal

theorem some_ite_cond {α : Type} {c : Prop} [Decidable c] {a b x : α}
    (h : (if c then some a else some b) = some x) : (c ∧ x = a) ∨ (¬ c ∧ x = b) := by
  split at h <;> simp only [Option.some.injEq] at h
  · exact Or.inl ⟨‹_›, h.symm⟩
  · exact Or.inr ⟨‹_›, h.symm⟩

theorem Animal.baseUpdate_eq (w : World) (self : EntityId) (season : Season) :
    Animal.baseUpdate w self season =
      if !(w.heap self).isAlive then some w
      else (w.heap self).animal.bind (fun a0 =>
        if (Animal.baseUpdateData a0 season).currentEnergy ≤ 0 ∨
            (Animal.baseUpdateData a0 season).currentAge >
              (Animal.baseUpdateData a0 season).maximumAge ∨
            (Animal.baseUpdateData a0 season).mealsMissedTurns >
              (Animal.baseUpdateData a0 season).maxTurnsWithoutFoodAllowed then
          some (Animal.die (w.modify self (fun e => e.setAnimal (Animal.baseUpdateData a0 season)))
            self false)
        else some (w.modify self (fun e => e.setAnimal (Animal.baseUpdateData a0 season)))) := rfl

theorem Animal.baseUpdateData_fields (a0 : AnimalData) (season : Season) :
    (Animal.baseUpdateData a0 season).maximumEnergy = a0.maximumEnergy ∧
    (Animal.baseUpdateData a0 season).movementCostBase = a0.movementCostBase ∧
    (Animal.baseUpdateData a0 season).currentlyPregnant = a0.currentlyPregnant ∧
    (Animal.baseUpdateData a0 season).maximumAge = a0.maximumAge ∧
    (Animal.baseUpdateData a0 season).maxTurnsWithoutFoodAllowed = a0.maxTurnsWithoutFoodAllowed ∧
    (Animal.baseUpdateData a0 season).currentAge = a0.currentAge + 1 ∧
    (Animal.baseUpdateData a0 season).mealsMissedTurns = a0.mealsMissedTurns + 1 := by
  unfold Animal.baseUpdateData
  dsimp only
  refine ⟨?_, ?_, ?_, ?_, ?_, ?_, ?_⟩ <;> split_ifs <;> rfl

theorem Animal.baseUpdateData_energy (a0 : AnimalData) (season : Season)
    (hcost : 0 ≤ a0.movementCostBase) :
    (Animal.baseUpdateData a0 season).currentEnergy ≤ a0.currentEnergy - 1 := by
  have e1 : Int.tdiv (a0.movementCostBase + 5) 2 = (a0.movementCostBase + 5) / 2 :=
    Int.tdiv_eq_ediv (by omega) (by decide)
  have e2 : Int.tdiv (a0.movementCostBase + 2) 2 = (a0.movementCostBase + 2) / 2 :=
    Int.tdiv_eq_ediv (by omega) (by decide)
  have e3 : Int.tdiv (max 1 (a0.movementCostBase - 2)) 2 = (max 1 (a0.movementCostBase - 2)) / 2 :=
    Int.tdiv_eq_ediv (by omega) (by decide)
  have e4 : Int.tdiv a0.movementCostBase 2 = a0.movementCostBase / 2 :=
    Int.tdiv_eq_ediv hcost (by decide)
  unfold Animal.baseUpdateData
  dsimp only
  split_ifs <;> simp only [e1, e2, e3, e4] <;> omega

/-! ### The member functions of `Animal`, `Herbivore` and `Carnivore` -/

theorem Animal.setCurrentEnergy_writes (b : Bool) {ent : Entity} {a : AnimalData} (v : Int)
    (ha : ent.animal = some a) :
    Entity.Writes b ent (ent.setAnimal (Animal.setCurrentEnergy a v)) :=
  Entity.writes_setAnimal ha (Entity.setAnimal_animal _ ha) (Entity.setAnimal_getType _ _) rfl rfl
    (fun h1 _ _ => max_le h1 (min_le_right _ _)) (fun _ _ _ _ => le_max_left _ _) (fun _ h => h)

theorem Entity.not_isAlive_false {ent : Entity} (h : ¬ ((!ent.isAlive) = true)) :
    ent.is_alive = true := by
  simpa [Entity.isAlive] using h

theorem Animal.baseUpdate_evolves (b : Bool) {w w1 : World} {self : EntityId} {season : Season}
    (h : Animal.baseUpdate w self season = some w1) : World.Evolves b w w1 := by
  rw [Animal.baseUpdate_eq] at h
  rcases ite_some_cond h with ⟨_, h⟩ | ⟨hal, h⟩
  · cases h; exact World.Evolves.same b w
  · have hal1 := Entity.not_isAlive_false hal
    obtain ⟨a0, ha, h⟩ := bind_some_elim h
    obtain ⟨f1, f2, f3, _⟩ := Animal.baseUpdateData_fields a0 season
    rcases some_ite_cond h with ⟨_, rfl⟩ | ⟨hc, rfl⟩
    · refine World.Evolves.then_write_die (World.Evolves.same b w) self _ false hal1 ?_
      exact Entity.writes_setAnimal ha
        (show (((w.heap self).setAnimal _).kill).animal = some _ from
          Entity.setAnimal_animal _ ha)
        (Entity.setAnimal_getType _ _) f1 f2
        (fun _ h2 h3 => le_trans (le_trans (Animal.baseUpdateData_energy a0 season h2)
          (by omega)) h3)
        (fun hd => absurd hd (by simp [Entity.kill])) (fun _ hp => f3 ▸ hp)
    · refine World.Evolves.then_write (World.Evolves.same b w) self _ hal1 ?_
      exact Entity.writes_setAnimal ha (Entity.setAnimal_animal _ ha)
        (Entity.setAnimal_getType _ _) f1 f2
        (fun _ h2 h3 => le_trans (le_trans (Animal.baseUpdateData_energy a0 season h2)
          (by omega)) h3)
        (fun _ _ _ _ => by
          have := (not_or.mp hc).1
          omega)
        (fun _ hp => f3 ▸ hp)

theorem Animal.payMove_evolves {b : Bool} {w wm w1 : World} {self : EntityId}
    (hev : World.Evolves b w wm) (hal : (w.heap self).is_alive = true)
    (h : Animal.payMove wm self = some w1) : World.Evolves b w w1 := by
  unfold Animal.payMove at h
  obtain ⟨a, ha, h⟩ := bind_some_elim h
  simp only [pure, Option.some.injEq] at h
  rw [← h]
  exact hev.then_write self _ hal (Animal.setCurrentEnergy_writes b _ ha)

theorem Herbivore.herbivore_attemptEatScan_evolves (b : Bool) (self : EntityId)
    (offs : List (Int × Int)) :
    ∀ {w w1 : World} {ok : Bool}, Herbivore.attemptEatScan self offs w = some (w1, ok) →
      (w.heap self).is_alive = true → World.Evolves b w w1 := by
  induction offs with
  | nil =>
    intro w w1 ok h _
    simp only [Herbivore.attemptEatScan, pure, Option.some.injEq, Prod.mk.injEq] at h
    rw [← h.1]; exact World.Evolves.same b w
  | cons d rest ih =>
    intro w w1 ok h hal
    obtain ⟨dr, dc⟩ := d
    unfold Herbivore.attemptEatScan at h
    dsimp only at h
    rcases ite_eq_some_cases h with h | h
    · obtain ⟨target, _, h⟩ := bind_some_elim h
      cases target with
      | none => exact ih h hal
      | some plantEntity =>
        dsimp only at h
        rcases ite_eq_some_cases h with h | h
        · obtain ⟨a, ha, h⟩ := bind_some_elim h
          obtain ⟨w5, h5, h⟩ := bind_some_elim h
          simp only [pure, Option.some.injEq, Prod.mk.injEq] at h
          rw [← h.1]
          refine World.Evolves.chain ?_ (World.removeEntity_evolves b h5)
          refine World.Evolves.then_event ?_ _
          refine World.Evolves.then_stats ?_ _
          refine World.Evolves.then_modify ?_ _ _ (Entity.evolves_kill b _)
          exact (World.Evolves.same b w).then_write self _ hal
            (Animal.setCurrentEnergy_writes b _ ha)
        · exact ih h hal
    · exact ih h hal

theorem Herbivore.herbivore_attemptEat_evolves (b : Bool) {w w1 : World} {self : EntityId}
    {season : Season} {ok : Bool} (h : Herbivore.attemptEat w self season = some (w1, ok)) :
    World.Evolves b w w1 := by
  unfold Herbivore.attemptEat at h
  obtain ⟨a, _, h⟩ := bind_some_elim h
  rcases ite_some_cond h with ⟨_, h⟩ | ⟨hc, h⟩
  · simp only [pure, Option.some.injEq, Prod.mk.injEq] at h
    rw [← h.1]; exact World.Evolves.same b w
  · refine Herbivore.herbivore_attemptEatScan_evolves b self _ h ?_
    have := hc
    simp only [Bool.or_eq_true, not_or] at this
    exact Entity.not_isAlive_false this.1

theorem Carnivore.carnivore_attemptEatScan_evolves (b : Bool) (self : EntityId)
    (offs : List (Int × Int)) :
    ∀ {w w1 : World} {ok : Bool}, Carnivore.attemptEatScan self offs w = some (w1, ok) →
      (w.heap self).is_alive = true → World.Evolves b w w1 := by
  induction offs with
  | nil =>
    intro w w1 ok h _
    simp only [Carnivore.attemptEatScan, pure, Option.some.injEq, Prod.mk.injEq] at h
    rw [← h.1]; exact World.Evolves.same b w
  | cons d rest ih =>
    intro w w1 ok h hal
    obtain ⟨dr, dc⟩ := d
    unfold Carnivore.attemptEatScan at h
    dsimp only at h
    rcases ite_eq_some_cases h with h | h
    · obtain ⟨target, _, h⟩ := bind_some_elim h
      cases target with
      | none => exact ih h hal
      | some t =>
        dsimp only at h
        rcases ite_eq_some_cases h with h | h
        · obtain ⟨a, ha, h⟩ := bind_some_elim h
          obtain ⟨w5, h5, h⟩ := bind_some_elim h
          simp only [pure, Option.some.injEq, Prod.mk.injEq] at h
          rw [← h.1]
          refine World.Evolves.chain ?_ (World.removeEntity_evolves b h5)
          refine World.Evolves.then_event ?_ _
          refine World.Evolves.then_stats ?_ _
          refine World.Evolves.then_die ?_ _ _
          exact (World.Evolves.same b w).then_write self _ hal
            (Animal.setCurrentEnergy_writes b _ ha)
        · exact ih h hal
    · exact ih h hal

theorem Carnivore.carnivore_attemptEat_evolves (b : Bool) {w w1 : World} {self : EntityId}
    {season : Season} {ok : Bool} (h : Carnivore.attemptEat w self season = some (w1, ok)) :
    World.Evolves b w w1 := by
  unfold Carnivore.attemptEat at h
  obtain ⟨a, _, h⟩ := bind_some_elim h
  rcases ite_some_cond h with ⟨_, h⟩ | ⟨hc, h⟩
  · simp only [pure, Option.some.injEq, Prod.mk.injEq] at h
    rw [← h.1]; exact World.Evolves.same b w
  · refine Carnivore.carnivore_attemptEatScan_evolves b self _ h ?_
    have := hc
    simp only [Bool.or_eq_true, not_or] at this
    exact Entity.not_isAlive_false this.1

theorem Animal.animal_attemptEat_evolves (b : Bool) {w w1 : World} {self : EntityId}
    {season : Season} {ok : Bool} (h : Animal.attemptEat w self season = some (w1, ok)) :
    World.Evolves b w w1 := by
  unfold Animal.attemptEat at h
  split at h
  · exact Herbivore.herbivore_attemptEat_evolves b h
  · exact Carnivore.carnivore_attemptEat_evolves b h
  · exact absurd h (by simp)

theorem Animal.resetMeals_evolves {b : Bool} {w wm w1 : World} {self : EntityId} {ate : Bool}
    (hev : World.Evolves b w wm) (hal : (w.heap self).is_alive = true)
    (h : Animal.resetMeals wm self ate = some w1) : World.Evolves b w w1 := by
  unfold Animal.resetMeals at h
  rcases ite_eq_some_cases h with h | h
  · obtain ⟨a, ha, h⟩ := bind_some_elim h
    simp only [pure, Option.some.injEq] at h
    rw [← h]
    refine hev.then_write self _ hal ?_
    exact Entity.writes_setAnimal ha (Entity.setAnimal_animal _ ha)
      (Entity.setAnimal_getType _ _) rfl rfl (fun _ _ h3 => h3)
      (fun h1 _ _ h4 => h4 ((Entity.setAnimal_is_alive _ _) ▸ h1)) (fun _ hp => hp)
  · simp only [pure, Option.some.injEq] at h
    rw [← h]; exact hev

theorem Herbivore.herbivore_mateLoop_evolves (self : EntityId) (mates : List EntityId) :
    ∀ {w w1 : World}, Herbivore.mateLoop self mates w = some w1 →
      (w.heap self).is_alive = true → World.Evolves false w w1 := by
  induction mates with
  | nil =>
    intro w w1 h _
    simp only [Herbivore.mateLoop, pure, Option.some.injEq] at h
    rw [← h]; exact World.Evolves.same false w
  | cons mate rest ih =>
    intro w w1 h hal
    unfold Herbivore.mateLoop at h
    by_cases h1 : (!(w.heap mate).isAlive || mate == self) = true
    · rw [if_pos h1] at h; exact ih h hal
    · rw [if_neg h1] at h
      have hmal : (w.heap mate).is_alive = true := by
        simp only [Bool.or_eq_true, not_or] at h1
        exact Entity.not_isAlive_false h1.1
      by_cases h2 : (w.heap mate).getType ≠ .HERBIVORE ∨ (w.heap mate).getGender ≠ .MALE
      · rw [if_pos h2] at h; exact ih h hal
      · rw [if_neg h2] at h
        obtain ⟨m, _, h⟩ := bind_some_elim h
        split at h
        · obtain ⟨a, ha, h⟩ := bind_some_elim h
          obtain ⟨a1, ha1, h⟩ := bind_some_elim h
          obtain ⟨m1, hm1, h⟩ := bind_some_elim h
          simp only [pure, Option.some.injEq] at h
          rw [← h]
          refine World.Evolves.then_event ?_ _
          have e2 : World.Evolves false w
              ((w.modify self (fun e => e.setAnimal { a with currentlyPregnant := true })).modify
                self (fun e => e.setAnimal (Animal.setCurrentEnergy a1
                  (a1.currentEnergy - Int.tdiv a1.energyRequiredToReproduce 2)))) := by
            refine World.Evolves.then_write ?_ self _ hal
              (Animal.setCurrentEnergy_writes false _ ha1)
            refine (World.Evolves.same false w).then_write self _ hal ?_
            exact Entity.writes_setAnimal ha (Entity.setAnimal_animal _ ha)
              (Entity.setAnimal_getType _ _) rfl rfl (fun _ _ h3 => h3)
              (fun h1 _ _ h4 => h4 ((Entity.setAnimal_is_alive _ _) ▸ h1))
              (fun hb => absurd hb (by decide))
          split
          · exact e2.then_write mate _ hmal (Animal.setCurrentEnergy_writes false _ hm1)
          · exact e2
        · exact ih h hal

theorem Herbivore.herbivore_attemptReproduce_evolves {w w1 : World} {self : EntityId}
    {mates : List EntityId} {season : Season}
    (h : Herbivore.attemptReproduce w self mates season = some w1) :
    World.Evolves false w w1 := by
  unfold Herbivore.attemptReproduce at h
  obtain ⟨a, _, h⟩ := bind_some_elim h
  rcases ite_some_cond h with ⟨_, h⟩ | ⟨hc, h⟩
  · simp only [pure, Option.some.injEq] at h; rw [← h]; exact World.Evolves.same false w
  · dsimp only at h
    rcases ite_eq_some_cases h with h | h
    · simp only [pure, Option.some.injEq] at h; rw [← h]
      exact World.Evolves.of_same rfl rfl rfl
    · refine World.Evolves.chain ?_ (Herbivore.herbivore_mateLoop_evolves self mates h ?_)
      · exact World.Evolves.of_same rfl rfl rfl
      · simp only [Bool.or_eq_true, not_or] at hc
        exact Entity.not_isAlive_false hc.1

theorem Carnivore.carnivore_mateLoop_evolves (self : EntityId) (mates : List EntityId) :
    ∀ {w w1 : World}, Carnivore.mateLoop self mates w = some w1 →
      (w.heap self).is_alive = true → World.Evolves false w w1 := by
  induction mates with
  | nil =>
    intro w w1 h _
    simp only [Carnivore.mateLoop, pure, Option.some.injEq] at h
    rw [← h]; exact World.Evolves.same false w
  | cons mate rest ih =>
    intro w w1 h hal
    unfold Carnivore.mateLoop at h
    by_cases h1 : (!(w.heap mate).isAlive || mate == self) = true
    · rw [if_pos h1] at h; exact ih h hal
    · rw [if_neg h1] at h
      have hmal : (w.heap mate).is_alive = true := by
        simp only [Bool.or_eq_true, not_or] at h1
        exact Entity.not_isAlive_false h1.1
      by_cases h2 : (w.heap mate).getType ≠ .CARNIVORE ∨ (w.heap mate).getGender ≠ .MALE
      · rw [if_pos h2] at h; exact ih h hal
      · rw [if_neg h2] at h
        obtain ⟨m, _, h⟩ := bind_some_elim h
        split at h
        · obtain ⟨a, ha, h⟩ := bind_some_elim h
          obtain ⟨a1, ha1, h⟩ := bind_some_elim h
          obtain ⟨m1, hm1, h⟩ := bind_some_elim h
          simp only [pure, Option.some.injEq] at h
          rw [← h]
          refine World.Evolves.then_event ?_ _
          have e2 : World.Evolves false w
              ((w.modify self (fun e => e.setAnimal { a with currentlyPregnant := true })).modify
                self (fun e => e.setAnimal (Animal.setCurrentEnergy a1
                  (a1.currentEnergy - Int.tdiv a1.energyRequiredToReproduce 2)))) := by
            refine World.Evolves.then_write ?_ self _ hal
              (Animal.setCurrentEnergy_writes false _ ha1)
            refine (World.Evolves.same false w).then_write self _ hal ?_
            exact Entity.writes_setAnimal ha (Entity.setAnimal_animal _ ha)
              (Entity.setAnimal_getType _ _) rfl rfl (fun _ _ h3 => h3)
              (fun h1 _ _ h4 => h4 ((Entity.setAnimal_is_alive _ _) ▸ h1))
              (fun hb => absurd hb (by decide))
          split
          · exact e2.then_write mate _ hmal (Animal.setCurrentEnergy_writes false _ hm1)
          · exact e2
        · exact ih h hal

theorem Carnivore.carnivore_attemptReproduce_evolves {w w1 : World} {self : EntityId}
    {mates : List EntityId} {season : Season}
    (h : Carnivore.attemptReproduce w self mates season = some w1) :
    World.Evolves false w w1 := by
  unfold Carnivore.attemptReproduce at h
  obtain ⟨a, _, h⟩ := bind_some_elim h
  rcases ite_some_cond h with ⟨_, h⟩ | ⟨hc, h⟩
  · simp only [pure, Option.some.injEq] at h; rw [← h]; exact World.Evolves.same false w
  · dsimp only at h
    rcases ite_eq_some_cases h with h | h
    · simp only [pure, Option.some.injEq] at h; rw [← h]
      exact World.Evolves.of_same rfl rfl rfl
    · refine World.Evolves.chain ?_ (Carnivore.carnivore_mateLoop_evolves self mates h ?_)
      · exact World.Evolves.of_same rfl rfl rfl
      · simp only [Bool.or_eq_true, not_or] at hc
        exact Entity.not_isAlive_false hc.1

theorem Animal.animal_attemptReproduce_evolves {w w1 : World} {self : EntityId}
    {mates : List EntityId} {season : Season}
    (h : Animal.attemptReproduce w self mates season = some w1) :
    World.Evolves false w w1 := by
  unfold Animal.attemptReproduce at h
  split at h
  · exact Herbivore.herbivore_attemptReproduce_evolves h
  · exact Carnivore.carnivore_attemptReproduce_evolves h
  · exact absurd h (by simp)

theorem Animal.matePhase_evolves {w w1 : World} {self : EntityId} {season : Season}
    (h : Animal.matePhase w self season = some w1) : World.Evolves false w w1 := by
  unfold Animal.matePhase at h
  obtain ⟨a, _, h⟩ := bind_some_elim h
  rcases ite_eq_some_cases h with h | h
  · dsimp only at h
    rcases ite_eq_some_cases h with h | h
    · exact Animal.animal_attemptReproduce_evolves h
    · simp only [pure, Option.some.injEq] at h; rw [← h]; exact World.Evolves.same false w
  · simp only [pure, Option.some.injEq] at h; rw [← h]; exact World.Evolves.same false w

theorem Animal.moveRandom_evolves (b : Bool) {w w1 : World} {self : EntityId}
    (h : Animal.moveRandom w self = some w1) (hal : (w.heap self).is_alive = true) :
    World.Evolves b w w1 := by
  unfold Animal.moveRandom at h
  obtain ⟨cells, _, h⟩ := bind_some_elim h
  rcases ite_eq_some_cases h with h | h
  · dsimp only at h
    obtain ⟨target, _, h⟩ := bind_some_elim h
    obtain ⟨ent, _, h⟩ := bind_some_elim h
    obtain ⟨w2, h2, h⟩ := bind_some_elim h
    refine Animal.payMove_evolves (World.Evolves.chain ?_ (World.moveEntity_evolves b h2)) hal h
    exact World.Evolves.of_same rfl rfl rfl
  · simp only [pure, Option.some.injEq] at h
    rw [← h]; exact World.Evolves.same b w

theorem Herbivore.herbivore_move_evolves (b : Bool) {w w1 : World} {self : EntityId}
    {season : Season} (h : Herbivore.move w self season = some w1) : World.Evolves b w w1 := by
  unfold Herbivore.move at h
  rcases ite_some_cond h with ⟨_, h⟩ | ⟨hc, h⟩
  · simp only [pure, Option.some.injEq] at h
    rw [← h]; exact World.Evolves.same b w
  · have hal := Entity.not_isAlive_false hc
    obtain ⟨a, _, h⟩ := bind_some_elim h
    dsimp only at h
    rcases ite_eq_some_cases h with h | h
    · simp only [pure, Option.some.injEq] at h
      rw [← h]; exact Animal.evolves_die b _ _ _
    · obtain ⟨carnivoresNearby, _, h⟩ := bind_some_elim h
      obtain ⟨best, _, h⟩ := bind_some_elim h
      rcases ite_eq_some_cases h with h | h
      · obtain ⟨ent, _, h⟩ := bind_some_elim h
        obtain ⟨w2, h2, h⟩ := bind_some_elim h
        exact Animal.payMove_evolves (World.moveEntity_evolves b h2) hal h
      · obtain ⟨plantsNearby, _, h⟩ := bind_some_elim h
        cases hcl : Animal.closestOf w self plantsNearby with
        | none =>
          rw [hcl] at h
          exact Animal.moveRandom_evolves b h hal
        | some closest =>
          rw [hcl] at h
          dsimp only at h
          obtain ⟨onPlant, _, h⟩ := bind_some_elim h
          rcases ite_eq_some_cases h with h | h
          · obtain ⟨ent, _, h⟩ := bind_some_elim h
            obtain ⟨w2, h2, h⟩ := bind_some_elim h
            exact Animal.payMove_evolves (World.moveEntity_evolves b h2) hal h
          · exact Animal.moveRandom_evolves b h hal

theorem Carnivore.carnivore_move_evolves (b : Bool) {w w1 : World} {self : EntityId}
    {season : Season} (h : Carnivore.move w self season = some w1) : World.Evolves b w w1 := by
  unfold Carnivore.move at h
  rcases ite_some_cond h with ⟨_, h⟩ | ⟨hc, h⟩
  · simp only [pure, Option.some.injEq] at h
    rw [← h]; exact World.Evolves.same b w
  · have hal := Entity.not_isAlive_false hc
    obtain ⟨a, _, h⟩ := bind_some_elim h
    dsimp only at h
    rcases ite_eq_some_cases h with h | h
    · simp only [pure, Option.some.injEq] at h
      rw [← h]; exact Animal.evolves_die b _ _ _
    · obtain ⟨herbsNearby, _, h⟩ := bind_some_elim h
      cases hcl : Animal.closestOf w self herbsNearby with
      | none =>
        rw [hcl] at h
        exact Animal.moveRandom_evolves b h hal
      | some closest =>
        rw [hcl] at h
        dsimp only at h
        obtain ⟨onHerb, _, h⟩ := bind_some_elim h
        rcases ite_eq_some_cases h with h | h
        · obtain ⟨ent, _, h⟩ := bind_some_elim h
          obtain ⟨w2, h2, h⟩ := bind_some_elim h
          exact Animal.payMove_evolves (World.moveEntity_evolves b h2) hal h
        · exact Animal.moveRandom_evolves b h hal

theorem Animal.animal_move_evolves (b : Bool) {w w1 : World} {self : EntityId}
    {season : Season} (h : Animal.move w self season = some w1) : World.Evolves b w w1 := by
  unfold Animal.move at h
  split at h
  · exact Herbivore.herbivore_move_evolves b h
  · exact Carnivore.carnivore_move_evolves b h
  · exact absurd h (by simp)

theorem World.alloc_heap_new (w : World) (ent : Entity) :
    (w.alloc ent).1.heap (w.alloc ent).2 = ent := by
  simp [World.alloc]

theorem Herbivore.herbivore_birthLoop_evolves (b : Bool) (n : Nat) :
    ∀ {locs : List (Int × Int)} {w w1 : World}, Herbivore.birthLoop n locs w = some w1 →
      World.Evolves b w w1 := by
  induction n with
  | zero =>
    intro locs w w1 h
    simp only [Herbivore.birthLoop, pure, Option.some.injEq] at h
    rw [← h]; exact World.Evolves.same b w
  | succ n ih =>
    intro locs w w1 h
    unfold Herbivore.birthLoop at h
    rcases ite_eq_some_cases h with h | h
    · simp only [pure, Option.some.injEq] at h
      rw [← h]; exact World.Evolves.same b w
    · dsimp only at h
      obtain ⟨pos, _, h⟩ := bind_some_elim h
      obtain ⟨r, hadd, h⟩ := bind_some_elim h
      obtain ⟨w2, added⟩ := r
      dsimp only at h
      refine World.Evolves.chain ?_ (ih h)
      have e2 : World.Evolves b w w2 := by
        refine World.Evolves.chain ?_ (World.addEntity_evolves b hadd ?_)
        · refine World.Evolves.chain ?_ (World.evolves_alloc b _ _
            (Herbivore.herbivore_new_energyBounded _ _ _ _).1 (Herbivore.herbivore_new_energyBounded _ _ _ _).2)
          exact World.Evolves.of_same rfl rfl rfl
        · rw [World.alloc_heap_new]; rfl
      split
      · exact (e2.then_stats _).then_event _
      · exact e2

theorem Herbivore.herbivore_giveBirth_evolves (b : Bool) {w w1 : World} {self : EntityId}
    (h : Herbivore.giveBirth w self = some w1) : World.Evolves b w w1 := by
  unfold Herbivore.giveBirth at h
  rcases ite_eq_some_cases h with h | h
  · simp only [pure, Option.some.injEq] at h
    rw [← h]; exact World.Evolves.same b w
  · obtain ⟨locs, _, h⟩ := bind_some_elim h
    rcases ite_eq_some_cases h with h | h
    · simp only [pure, Option.some.injEq] at h
      rw [← h]; exact World.Evolves.same b w
    · dsimp only at h
      refine World.Evolves.chain ?_ (Herbivore.herbivore_birthLoop_evolves b _ h)
      exact World.Evolves.of_same rfl rfl rfl

theorem Carnivore.carnivore_birthLoop_evolves (b : Bool) (n : Nat) :
    ∀ {locs : List (Int × Int)} {w w1 : World}, Carnivore.birthLoop n locs w = some w1 →
      World.Evolves b w w1 := by
  induction n with
  | zero =>
    intro locs w w1 h
    simp only [Carnivore.birthLoop, pure, Option.some.injEq] at h
    rw [← h]; exact World.Evolves.same b w
  | succ n ih =>
    intro locs w w1 h
    unfold Carnivore.birthLoop at h
    rcases ite_eq_some_cases h with h | h
    · simp only [pure, Option.some.injEq] at h
      rw [← h]; exact World.Evolves.same b w
    · dsimp only at h
      obtain ⟨pos, _, h⟩ := bind_some_elim h
      obtain ⟨r, hadd, h⟩ := bind_some_elim h
      obtain ⟨w2, added⟩ := r
      dsimp only at h
      refine World.Evolves.chain ?_ (ih h)
      have e2 : World.Evolves b w w2 := by
        refine World.Evolves.chain ?_ (World.addEntity_evolves b hadd ?_)
        · refine World.Evolves.chain ?_ (World.evolves_alloc b _ _
            (Carnivore.carnivore_new_energyBounded _ _ _ _).1 (Carnivore.carnivore_new_energyBounded _ _ _ _).2)
          exact World.Evolves.of_same rfl rfl rfl
        · rw [World.alloc_heap_new]; rfl
      split
      · exact (e2.then_stats _).then_event _
      · exact e2

theorem Carnivore.carnivore_giveBirth_evolves (b : Bool) {w w1 : World} {self : EntityId}
    (h : Carnivore.giveBirth w self = some w1) : World.Evolves b w w1 := by
  unfold Carnivore.giveBirth at h
  rcases ite_eq_some_cases h with h | h
  · simp only [pure, Option.some.injEq] at h
    rw [← h]; exact World.Evolves.same b w
  · obtain ⟨locs, _, h⟩ := bind_some_elim h
    rcases ite_eq_some_cases h with h | h
    · simp only [pure, Option.some.injEq] at h
      rw [← h]; exact World.Evolves.same b w
    · dsimp only at h
      refine World.Evolves.chain ?_ (Carnivore.carnivore_birthLoop_evolves b _ h)
      exact World.Evolves.of_same rfl rfl rfl

theorem Animal.animal_giveBirth_evolves (b : Bool) {w w1 : World} {self : EntityId}
    (h : Animal.giveBirth w self = some w1) : World.Evolves b w w1 := by
  unfold Animal.giveBirth at h
  split at h
  · exact Herbivore.herbivore_giveBirth_evolves b h
  · exact Carnivore.carnivore_giveBirth_evolves b h
  · exact absurd h (by simp)

theorem World.modify_heap_self (w : World) (e : EntityId) (f : Entity → Entity) :
    (w.modify e f).heap e = f (w.heap e) := by
  simp [World.modify]

theorem Animal.birthPhase_evolves (b : Bool) {w w1 : World} {self : EntityId}
    (h : Animal.birthPhase w self = some w1) (hal : (w.heap self).is_alive = true) :
    World.Evolves b w w1 := by
  unfold Animal.birthPhase at h
  obtain ⟨a, _, h⟩ := bind_some_elim h
  rcases ite_eq_some_cases h with h | h
  · obtain ⟨w2, h2, h⟩ := bind_some_elim h
    obtain ⟨a1, ha1, h⟩ := bind_some_elim h
    dsimp only at h
    have e2 := Animal.animal_giveBirth_evolves b h2
    rcases some_ite_cond h with ⟨_, rfl⟩ | ⟨hc, rfl⟩
    · refine World.Evolves.then_write_die e2 self _ false hal ?_
      exact Entity.writes_setAnimal ha1
        (show (((w2.heap self).setAnimal _).kill).animal = some _ from
          Entity.setAnimal_animal _ ha1)
        (Entity.setAnimal_getType _ _) rfl rfl
        (fun h1 _ h3 => by
          have := Int.tdiv_nonneg h1 (show (0 : Int) ≤ 3 by decide)
          show a1.currentEnergy - Int.tdiv a1.maximumEnergy 3 ≤ a1.maximumEnergy
          omega)
        (fun hd => absurd hd (by simp [Entity.kill])) (fun _ hp => absurd hp (by simp))
    · refine e2.then_write self _ hal ?_
      exact Entity.writes_setAnimal ha1 (Entity.setAnimal_animal _ ha1)
        (Entity.setAnimal_getType _ _) rfl rfl
        (fun h1 _ h3 => by
          have := Int.tdiv_nonneg h1 (show (0 : Int) ≤ 3 by decide)
          show a1.currentEnergy - Int.tdiv a1.maximumEnergy 3 ≤ a1.maximumEnergy
          omega)
        (fun hd _ _ _ => by
          rw [World.modify_heap_self] at hc
          have hc1 := not_and.mp hc
          by_contra hneg
          exact hc1 (by
            show a1.currentEnergy - Int.tdiv a1.maximumEnergy 3 ≤ 0
            have : ¬ 0 ≤ a1.currentEnergy - Int.tdiv a1.maximumEnergy 3 := hneg
            omega) hd)
        (fun _ hp => absurd hp (by simp))
  · simp only [pure, Option.some.injEq] at h
    rw [← h]; exact World.Evolves.same b w

theorem Animal.animal_update_evolves {w w1 : World} {self : EntityId} {season : Season}
    (h : Animal.update w self season = some w1) : World.Evolves false w w1 := by
  unfold Animal.update at h
  rcases ite_eq_some_cases h with h | h
  · simp only [pure, Option.some.injEq] at h
    rw [← h]; exact World.Evolves.same false w
  · obtain ⟨wa, ha, h⟩ := bind_some_elim h
    have s1 : World.Evolves false w wa := Animal.baseUpdate_evolves false ha
    rcases ite_some_cond h with ⟨_, h⟩ | ⟨hala, h⟩
    · simp only [pure, Option.some.injEq] at h
      rw [← h]; exact s1
    · obtain ⟨r, hb, h⟩ := bind_some_elim h
      obtain ⟨wb, ate⟩ := r
      dsimp only at h
      obtain ⟨wc, hc, h⟩ := bind_some_elim h
      have s3 : World.Evolves false w wc :=
        s1.chain (Animal.resetMeals_evolves (Animal.animal_attemptEat_evolves false hb)
          (Entity.not_isAlive_false hala) hc)
      rcases ite_some_cond h with ⟨_, h⟩ | ⟨halc, h⟩
      · simp only [pure, Option.some.injEq] at h
        rw [← h]; exact s3
      · obtain ⟨wd, hd, h⟩ := bind_some_elim h
        have s4 : World.Evolves false w wd :=
          s3.chain (Animal.birthPhase_evolves false hd (Entity.not_isAlive_false halc))
        rcases ite_eq_some_cases h with h | h
        · simp only [pure, Option.some.injEq] at h
          rw [← h]; exact s4
        · obtain ⟨we, he, h⟩ := bind_some_elim h
          have s5 : World.Evolves false w we := s4.chain (Animal.matePhase_evolves he)
          rcases ite_eq_some_cases h with h | h
          · simp only [pure, Option.some.injEq] at h
            rw [← h]; exact s5
          · obtain ⟨wf, hf, h⟩ := bind_some_elim h
            have s6 : World.Evolves false w wf :=
              s5.chain (Animal.animal_move_evolves false hf)
            obtain ⟨a6, _, h⟩ := bind_some_elim h
            rcases ite_eq_some_cases h with h | h
            · simp only [pure, Option.some.injEq] at h
              rw [← h]; exact s6.then_die _ _
            · simp only [pure, Option.some.injEq] at h
              rw [← h]; exact s6

/-! ### `Plant::update` -/

theorem Entity.writes_setPlant (b : Bool) (ent : Entity) (p : PlantData) :
    Entity.Writes b ent (ent.setPlant p) := by
  refine ⟨Entity.setPlant_getType _ _, fun h a ha => ?_, fun _ hp => ?_⟩
  · rw [Entity.setPlant_animal] at ha
    rw [Entity.setPlant_is_alive]
    exact h a ha
  · unfold Entity.pregnant at hp ⊢
    rw [Entity.setPlant_animal] at hp
    exact hp

theorem Plant.spawn_evolves (b : Bool) {w w1 : World} {r c : Int}
    (h : Plant.spawn w r c = some w1) : World.Evolves b w w1 := by
  unfold Plant.spawn at h
  dsimp only at h
  obtain ⟨res, hadd, h⟩ := bind_some_elim h
  obtain ⟨w2, added⟩ := res
  dsimp only at h
  have e2 : World.Evolves b w w2 := by
    refine World.Evolves.chain ?_ (World.addEntity_evolves b hadd ?_)
    · exact World.evolves_alloc b _ _ (Plant.plant_new_energyBounded _ _) (Plant.new_pregnant _ _)
    · rw [World.alloc_heap_new]; rfl
  rcases ite_eq_some_cases h with h | h
  · simp only [pure, Option.some.injEq] at h
    rw [← h]; exact e2.then_stats _
  · simp only [pure, Option.some.injEq] at h
    rw [← h]; exact e2

theorem Plant.bloomOnce_evolves (b : Bool) {w w1 : World} {chance : Int}
    (h : Plant.bloomOnce w chance = some w1) : World.Evolves b w w1 := by
  unfold Plant.bloomOnce at h
  dsimp only at h
  rcases ite_eq_some_cases h with h | h
  · obtain ⟨res, _, h⟩ := bind_some_elim h
    obtain ⟨pos, gen2⟩ := res
    dsimp only at h
    obtain ⟨e, _, h⟩ := bind_some_elim h
    rcases ite_eq_some_cases h with h | h
    · refine World.Evolves.chain ?_ (Plant.spawn_evolves b h)
      exact World.Evolves.of_same rfl rfl rfl
    · simp only [pure, Option.some.injEq] at h
      rw [← h]; exact World.Evolves.of_same rfl rfl rfl
  · simp only [pure, Option.some.injEq] at h
    rw [← h]; exact World.Evolves.of_same rfl rfl rfl

theorem Plant.spread_evolves (b : Bool) {w w1 : World} {self : EntityId} {chance : Int}
    (h : Plant.spread w self chance = some w1) : World.Evolves b w w1 := by
  unfold Plant.spread at h
  dsimp only at h
  rcases ite_eq_some_cases h with h | h
  · obtain ⟨cells, _, h⟩ := bind_some_elim h
    rcases ite_eq_some_cases h with h | h
    · simp only [pure, Option.some.injEq] at h
      rw [← h]; exact World.Evolves.of_same rfl rfl rfl
    · rcases ite_eq_some_cases h with h | h
      · obtain ⟨cell, _, h⟩ := bind_some_elim h
        refine World.Evolves.chain ?_ (Plant.spawn_evolves b h)
        exact World.Evolves.of_same rfl rfl rfl
      · simp only [pure, Option.some.injEq] at h
        rw [← h]; exact World.Evolves.of_same rfl rfl rfl
  · simp only [pure, Option.some.injEq] at h
    rw [← h]; exact World.Evolves.of_same rfl rfl rfl

theorem Plant.spreadAndBloom_evolves (b : Bool) {w w1 : World} {self : EntityId}
    {p : PlantData} {season : Season} (h : Plant.spreadAndBloom w self p season = some w1) :
    World.Evolves b w w1 := by
  unfold Plant.spreadAndBloom at h
  dsimp only at h
  obtain ⟨w2, h2, h⟩ := bind_some_elim h
  have s2 := Plant.spread_evolves b h2
  rcases ite_eq_some_cases h with h | h
  · obtain ⟨w3, h3, h⟩ := bind_some_elim h
    exact (s2.chain (Plant.bloomOnce_evolves b h3)).chain (Plant.bloomOnce_evolves b h)
  · simp only [pure, Option.some.injEq] at h
    rw [← h]; exact s2

theorem Plant.weatherDeath_evolves (b : Bool) (w : World) (self : EntityId) (rate : Int) :
    World.Evolves b w (Plant.weatherDeath w self rate).1 := by
  unfold Plant.weatherDeath
  dsimp only
  split
  · split
    · exact ((World.Evolves.of_same rfl rfl rfl : World.Evolves b w
        ({ w with gen := (getRandomInt w.gen 1 100).2 } : World)).then_stats _).then_modify _ _
          (Entity.evolves_kill b _)
    · exact World.Evolves.of_same rfl rfl rfl
  · exact World.Evolves.of_same rfl rfl rfl

theorem Plant.seasonalDeath_evolves (b : Bool) (w : World) (self : EntityId) (p : PlantData)
    (season : Season) : World.Evolves b w (Plant.seasonalDeath w self p season).1 := by
  unfold Plant.seasonalDeath
  split
  · exact Plant.weatherDeath_evolves b _ _ _
  · split
    · exact Plant.weatherDeath_evolves b _ _ _
    · exact World.Evolves.same b w

theorem Plant.plant_update_evolves (b : Bool) {w w1 : World} {self : EntityId}
    {season : Season} (h : Plant.update w self season = some w1) : World.Evolves b w w1 := by
  unfold Plant.update at h
  rcases ite_some_cond h with ⟨_, h⟩ | ⟨hc, h⟩
  · simp only [pure, Option.some.injEq] at h
    rw [← h]; exact World.Evolves.same b w
  · have hal := Entity.not_isAlive_false hc
    obtain ⟨p0, _, h⟩ := bind_some_elim h
    dsimp only at h
    have e1 : World.Evolves b w (w.modify self
        (fun e => e.setPlant { p0 with currentAge := p0.currentAge + 1 })) :=
      (World.Evolves.same b w).then_write self _ hal (Entity.writes_setPlant b _ _)
    rcases ite_eq_some_cases h with h | h
    · rcases ite_eq_some_cases h with h | h
      · simp only [pure, Option.some.injEq] at h
        rw [← h]
        exact (e1.then_stats _).then_modify _ _ (Entity.evolves_kill b _)
      · simp only [pure, Option.some.injEq] at h
        rw [← h]; exact e1
    · rcases ite_eq_some_cases h with h | h
      · simp only [pure, Option.some.injEq] at h
        rw [← h]
        exact e1.chain (Plant.seasonalDeath_evolves b _ _ _ _)
      · rcases ite_eq_some_cases h with h | h
        · simp only [pure, Option.some.injEq] at h
          rw [← h]
          exact e1.chain (Plant.seasonalDeath_evolves b _ _ _ _)
        · exact (e1.chain (Plant.seasonalDeath_evolves b _ _ _ _)).chain
            (Plant.spreadAndBloom_evolves b h)

theorem World.world_update_evolves {w w1 : World} {e : EntityId} {season : Season}
    (h : w.update e season = some w1) : World.Evolves false w w1 := by
  unfold World.update at h
  split at h
  · exact Plant.plant_update_evolves false h
  · exact Animal.animal_update_evolves h

/-! ### `Simulation` -/

theorem Simulation.placeOne_evolves (b : Bool) {w w1 : World} {t : EntityType}
    {pos : Int × Int} {g : Gender} (h : Simulation.placeOne w t pos g = some w1) :
    World.Evolves b w w1 := by
  unfold Simulation.placeOne at h
  cases t with
  | EMPTY =>
    simp only [pure, Option.some.injEq] at h
    rw [← h]; exact World.Evolves.same b w
  | PLANT =>
    dsimp only at h
    obtain ⟨res, hadd, h⟩ := bind_some_elim h
    obtain ⟨w2, ok⟩ := res
    simp only [pure, Option.some.injEq] at h
    rw [← h]
    refine World.Evolves.chain ?_ (World.addEntity_evolves b hadd ?_)
    · exact World.evolves_alloc b _ _ (Plant.plant_new_energyBounded _ _) (Plant.new_pregnant _ _)
    · rw [World.alloc_heap_new]; rfl
  | HERBIVORE =>
    dsimp only at h
    obtain ⟨res, hadd, h⟩ := bind_some_elim h
    obtain ⟨w2, ok⟩ := res
    simp only [pure, Option.some.injEq] at h
    rw [← h]
    refine World.Evolves.chain ?_ (World.addEntity_evolves b hadd ?_)
    · refine World.Evolves.chain ?_ (World.evolves_alloc b _ _
        (Herbivore.herbivore_new_energyBounded _ _ _ _).1 (Herbivore.herbivore_new_energyBounded _ _ _ _).2)
      exact World.Evolves.of_same rfl rfl rfl
    · rw [World.alloc_heap_new]; rfl
  | CARNIVORE =>
    dsimp only at h
    obtain ⟨res, hadd, h⟩ := bind_some_elim h
    obtain ⟨w2, ok⟩ := res
    simp only [pure, Option.some.injEq] at h
    rw [← h]
    refine World.Evolves.chain ?_ (World.addEntity_evolves b hadd ?_)
    · refine World.Evolves.chain ?_ (World.evolves_alloc b _ _
        (Carnivore.carnivore_new_energyBounded _ _ _ _).1 (Carnivore.carnivore_new_energyBounded _ _ _ _).2)
      exact World.Evolves.of_same rfl rfl rfl
    · rw [World.alloc_heap_new]; rfl

theorem Simulation.place_evolves (b : Bool) (t : EntityType) (n : Nat) :
    ∀ {w w1 : World}, Simulation.place t n w = some w1 → World.Evolves b w w1 := by
  induction n with
  | zero =>
    intro w w1 h
    simp only [Simulation.place, pure, Option.some.injEq] at h
    rw [← h]; exact World.Evolves.same b w
  | succ n ih =>
    intro w w1 h
    unfold Simulation.place at h
    obtain ⟨res, _, h⟩ := bind_some_elim h
    obtain ⟨pos, gen1⟩ := res
    dsimp only at h
    obtain ⟨e, _, h⟩ := bind_some_elim h
    rcases ite_eq_some_cases h with h | h
    · obtain ⟨w3, h3, h⟩ := bind_some_elim h
      refine World.Evolves.chain (World.Evolves.chain ?_ (Simulation.placeOne_evolves b h3)) (ih h)
      exact World.Evolves.of_same rfl rfl rfl
    · simp only [pure, Option.some.injEq] at h
      rw [← h]; exact World.Evolves.of_same rfl rfl rfl

theorem Simulation.initializeSimulation_evolves (b : Bool) {s s1 : Simulation} {northern : Bool}
    {years : Int} {numP numH numC : Nat}
    (h : s.initializeSimulation northern years numP numH numC = some s1) :
    World.Evolves b s.world s1.world := by
  unfold Simulation.initializeSimulation at h
  dsimp only at h
  rcases ite_eq_some_cases h with h | h
  · exact absurd h (by simp)
  · obtain ⟨w1, h1, h⟩ := bind_some_elim h
    obtain ⟨w2, h2, h⟩ := bind_some_elim h
    obtain ⟨w3, h3, h⟩ := bind_some_elim h
    simp only [pure, Option.some.injEq] at h
    rw [← h]
    exact ((Simulation.place_evolves b _ _ h1).chain (Simulation.place_evolves b _ _ h2)).chain
      (Simulation.place_evolves b _ _ h3)

theorem Simulation.immigrateLoop_evolves (b : Bool) (n : Nat) :
    ∀ {w w1 : World} {k k1 : Int}, Simulation.immigrateLoop n (w, k) = some (w1, k1) →
      World.Evolves b w w1 := by
  induction n with
  | zero =>
    intro w w1 k k1 h
    simp only [Simulation.immigrateLoop, pure, Option.some.injEq, Prod.mk.injEq] at h
    rw [← h.1]; exact World.Evolves.same b w
  | succ n ih =>
    intro w w1 k k1 h
    unfold Simulation.immigrateLoop at h
    dsimp only at h
    obtain ⟨res, hadd, h⟩ := bind_some_elim h
    obtain ⟨w2, ok⟩ := res
    dsimp only at h
    have e2 : World.Evolves b w w2 := by
      refine World.Evolves.chain ?_ (World.addMigratingAnimal_evolves b hadd ?_)
      · refine World.Evolves.chain ?_ (World.evolves_alloc b _ _ ?_ ?_)
        · exact World.Evolves.of_same rfl rfl rfl
        · split
          · exact (Herbivore.herbivore_new_energyBounded _ _ _ _).1
          · exact (Carnivore.carnivore_new_energyBounded _ _ _ _).1
        · split
          · exact (Herbivore.herbivore_new_energyBounded _ _ _ _).2
          · exact (Carnivore.carnivore_new_energyBounded _ _ _ _).2
      · rw [World.alloc_heap_new]
        split <;> rfl
    rcases ite_eq_some_cases h with h | h
    · exact (e2.then_event _).chain (ih h)
    · exact e2.chain (ih h)

theorem Simulation.emigrateAll_evolves (b : Bool) (name : String) (l : List EntityId) :
    ∀ {w w1 : World} {k k1 : Int}, Simulation.emigrateAll name l (w, k) = some (w1, k1) →
      World.Evolves b w w1 := by
  induction l with
  | nil =>
    intro w w1 k k1 h
    simp only [Simulation.emigrateAll, pure, Option.some.injEq, Prod.mk.injEq] at h
    rw [← h.1]; exact World.Evolves.same b w
  | cons e rest ih =>
    intro w w1 k k1 h
    unfold Simulation.emigrateAll at h
    rcases ite_eq_some_cases h with h | h
    · dsimp only at h
      obtain ⟨w2, h2, h⟩ := bind_some_elim h
      refine World.Evolves.chain (World.Evolves.chain ?_ (World.removeEntity_evolves b h2)) (ih h)
      exact World.Evolves.of_same rfl rfl rfl
    · exact ih h

theorem Simulation.handleMigration_evolves (b : Bool) {s s1 : Simulation}
    (h : s.handleMigration = some s1) : World.Evolves b s.world s1.world := by
  unfold Simulation.handleMigration at h
  rcases ite_eq_some_cases h with h | h
  · dsimp only at h
    obtain ⟨res, hl, h⟩ := bind_some_elim h
    obtain ⟨w1, k⟩ := res
    dsimp only at h
    simp only [pure, Option.some.injEq] at h
    rw [← h]
    have hs : World.Evolves b s.world w1 := by
      refine World.Evolves.chain ?_ (Simulation.immigrateLoop_evolves b _ hl)
      exact World.Evolves.of_same rfl rfl rfl
    dsimp only
    split
    · exact hs.then_stats _
    · exact hs
  · rcases ite_eq_some_cases h with h | h
    · dsimp only at h
      obtain ⟨res1, _, h⟩ := bind_some_elim h
      obtain ⟨temp1, gen3⟩ := res1
      dsimp only at h
      obtain ⟨res2, he1, h⟩ := bind_some_elim h
      obtain ⟨w1, k1⟩ := res2
      dsimp only at h
      obtain ⟨res3, _, h⟩ := bind_some_elim h
      obtain ⟨temp2, gen4⟩ := res3
      dsimp only at h
      obtain ⟨res4, he2, h⟩ := bind_some_elim h
      obtain ⟨w2, k2⟩ := res4
      dsimp only at h
      simp only [pure, Option.some.injEq] at h
      rw [← h]
      have hs : World.Evolves b s.world w2 := by
        refine World.Evolves.chain (World.Evolves.chain ?_
          (Simulation.emigrateAll_evolves b _ _ he1)) (World.Evolves.chain ?_
          (Simulation.emigrateAll_evolves b _ _ he2))
        · exact World.Evolves.of_same rfl rfl rfl
        · exact World.Evolves.of_same rfl rfl rfl
      dsimp only
      split
      · exact hs.then_stats _
      · exact hs
    · simp only [pure, Option.some.injEq] at h
      rw [← h]; exact World.Evolves.same b _

theorem Simulation.updateAll_evolves (season : Season) (l : List EntityId) :
    ∀ {w w1 : World}, Simulation.updateAll season l w = some w1 → World.Evolves false w w1 := by
  induction l with
  | nil =>
    intro w w1 h
    simp only [Simulation.updateAll, pure, Option.some.injEq] at h
    rw [← h]; exact World.Evolves.same false w
  | cons e rest ih =>
    intro w w1 h
    unfold Simulation.updateAll at h
    rcases ite_eq_some_cases h with h | h
    · obtain ⟨w2, h2, h⟩ := bind_some_elim h
      exact (World.world_update_evolves h2).chain (ih h)
    · exact ih h

theorem Simulation.cleanup_evolves (b : Bool) (l : List EntityId) :
    ∀ {w w1 : World}, Simulation.cleanup l w = some w1 → World.Evolves b w w1 := by
  induction l with
  | nil =>
    intro w w1 h
    simp only [Simulation.cleanup, pure, Option.some.injEq] at h
    rw [← h]; exact World.Evolves.same b w
  | cons e rest ih =>
    intro w w1 h
    unfold Simulation.cleanup at h
    rcases ite_eq_some_cases h with h | h
    · obtain ⟨w2, h2, h⟩ := bind_some_elim h
      exact (World.removeEntity_evolves b h2).chain (ih h)
    · exact ih h

theorem Simulation.determineSeason_world {s s1 : Simulation} (h : s.determineSeason = some s1) :
    s1.world.heap = s.world.heap ∧ s1.world.nextId = s.world.nextId ∧
      s1.world.grid = s.world.grid := by
  unfold Simulation.determineSeason at h
  dsimp only at h
  obtain ⟨name, _, h⟩ := bind_some_elim h
  simp only [pure, Option.some.injEq] at h
  rw [← h]
  exact ⟨rfl, rfl, rfl⟩

theorem Simulation.runMonthCore_evolves {s s1 : Simulation}
    (h : s.runMonthCore = some s1) : World.Evolves false s.world s1.world := by
  unfold Simulation.runMonthCore at h
  dsimp only at h
  obtain ⟨s3, h3, h⟩ := bind_some_elim h
  obtain ⟨g1, g2, g3⟩ := Simulation.determineSeason_world h3
  obtain ⟨w1, h1, h⟩ := bind_some_elim h
  obtain ⟨w2, h2, h⟩ := bind_some_elim h
  obtain ⟨w3, h3a, h⟩ := bind_some_elim h
  obtain ⟨s4, h4, h⟩ := bind_some_elim h
  obtain ⟨w5, h5, h⟩ := bind_some_elim h
  simp only [pure, Option.some.injEq] at h
  rw [← h]
  have t0 : World.Evolves false s.world s3.world := World.Evolves.of_same g1 g2 g3
  have t1 := Simulation.updateAll_evolves _ _ h1
  have t2 := Simulation.updateAll_evolves _ _ h2
  have t3 := Simulation.updateAll_evolves _ _ h3a
  have t4 := Simulation.handleMigration_evolves false h4
  have t5 := Simulation.cleanup_evolves false _ h5
  exact (((((t0.chain t1).chain t2).chain t3).chain t4).chain t5).then_stats _

theorem Simulation.runMonth_evolves {s s1 : Simulation} {key : Option Char}
    (h : s.runMonth key = some s1) : World.Evolves false s.world s1.world := by
  unfold Simulation.runMonth at h
  obtain ⟨s2, h2, h⟩ := bind_some_elim h
  simp only [pure, Option.some.injEq] at h
  rw [← h, Simulation.runMonthEnd_world]
  exact Simulation.runMonthCore_evolves h2

theorem Animal.ifAlive_dead {w : World} {self : EntityId} (phase : World → Option World)
    (h : (!(w.heap self).isAlive) = true) : Animal.ifAlive self phase w = some w := by
  unfold Animal.ifAlive
  rw [if_pos h]; rfl

theorem Animal.ifAlive_alive {w : World} {self : EntityId} (phase : World → Option World)
    (h : ¬ (!(w.heap self).isAlive) = true) : Animal.ifAlive self phase w = phase w := by
  unfold Animal.ifAlive
  rw [if_neg h]

/-- `Animal::update` is its five phases in their order, each behind the `isAlive` guard
(the base update has the guard inside). -/
theorem Animal.update_eq_phases (w : World) (self : EntityId) (season : Season) :
    Animal.update w self season =
      (Animal.baseUpdate w self season).bind (fun w1 =>
        (Animal.ifAlive self (fun u => Animal.eatPhase u self season) w1).bind (fun w3 =>
          (Animal.ifAlive self (fun u => Animal.birthPhase u self) w3).bind (fun w4 =>
            (Animal.ifAlive self (fun u => Animal.matePhase u self season) w4).bind (fun w5 =>
              Animal.ifAlive self (fun u => Animal.movePhase u self season) w5)))) := by
  unfold Animal.update
  by_cases h0 : (!(w.heap self).isAlive) = true
  · rw [if_pos h0, Animal.baseUpdate_eq, if_pos h0]
    simp only [Option.some_bind, Animal.ifAlive_dead _ h0]
    rfl
  · rw [if_neg h0]
    cases h1 : Animal.baseUpdate w self season with
    | none => rfl
    | some w1 =>
      simp only [Option.bind_eq_bind, Option.some_bind]
      by_cases a1 : (!(w1.heap self).isAlive) = true
      · rw [if_pos a1]
        simp only [Option.some_bind, Animal.ifAlive_dead _ a1]
        rfl
      · rw [if_neg a1, Animal.ifAlive_alive _ a1]
        simp only [Animal.eatPhase, Option.bind_eq_bind]
        cases h2 : Animal.attemptEat w1 self season with
        | none => rfl
        | some r =>
          obtain ⟨w2, ate⟩ := r
          simp only [Option.some_bind]
          cases h3 : Animal.resetMeals w2 self ate with
          | none => rfl
          | some w3 =>
            simp only [Option.some_bind]
            by_cases a3 : (!(w3.heap self).isAlive) = true
            · rw [if_pos a3]
              simp only [Option.some_bind, Animal.ifAlive_dead _ a3]
              rfl
            · rw [if_neg a3, Animal.ifAlive_alive _ a3]
              cases h4 : Animal.birthPhase w3 self with
              | none => rfl
              | some w4 =>
                simp only [Option.some_bind]
                by_cases a4 : (!(w4.heap self).isAlive) = true
                · rw [if_pos a4]
                  simp only [Option.some_bind, Animal.ifAlive_dead _ a4]
                  rfl
                · rw [if_neg a4, Animal.ifAlive_alive _ a4]
                  cases h5 : Animal.matePhase w4 self season with
                  | none => rfl
                  | some w5 =>
                    simp only [Option.some_bind]
                    by_cases a5 : (!(w5.heap self).isAlive) = true
                    · rw [if_pos a5, Animal.ifAlive_dead _ a5]
                      rfl
                    · rw [if_neg a5, Animal.ifAlive_alive _ a5]
                      rfl

/-! ### The guarded phases of `Animal::update` -/

theorem Animal.eatPhase_evolves (b : Bool) {w w1 : World} {self : EntityId} {season : Season}
    (h : Animal.ifAlive self (fun u => Animal.eatPhase u self season) w = some w1) :
    World.Evolves b w w1 := by
  unfold Animal.ifAlive at h
  rcases ite_some_cond h with ⟨_, h⟩ | ⟨hc, h⟩
  · simp only [pure, Option.some.injEq] at h
    rw [← h]; exact World.Evolves.same b w
  · unfold Animal.eatPhase at h
    obtain ⟨r, hb, h⟩ := bind_some_elim h
    obtain ⟨w2, ate⟩ := r
    exact Animal.resetMeals_evolves (Animal.animal_attemptEat_evolves b hb)
      (Entity.not_isAlive_false hc) h

theorem Animal.guarded_birthPhase_evolves (b : Bool) {w w1 : World} {self : EntityId}
    (h : Animal.ifAlive self (fun u => Animal.birthPhase u self) w = some w1) :
    World.Evolves b w w1 := by
  unfold Animal.ifAlive at h
  rcases ite_some_cond h with ⟨_, h⟩ | ⟨hc, h⟩
  · simp only [pure, Option.some.injEq] at h
    rw [← h]; exact World.Evolves.same b w
  · exact Animal.birthPhase_evolves b h (Entity.not_isAlive_false hc)

theorem Animal.guarded_matePhase_evolves {w w1 : World} {self : EntityId} {season : Season}
    (h : Animal.ifAlive self (fun u => Animal.matePhase u self season) w = some w1) :
    World.Evolves false w w1 := by
  unfold Animal.ifAlive at h
  rcases ite_some_cond h with ⟨_, h⟩ | ⟨_, h⟩
  · simp only [pure, Option.some.injEq] at h
    rw [← h]; exact World.Evolves.same false w
  · exact Animal.matePhase_evolves h

theorem Animal.movePhase_evolves (b : Bool) {w w1 : World} {self : EntityId} {season : Season}
    (h : Animal.ifAlive self (fun u => Animal.movePhase u self season) w = some w1) :
    World.Evolves b w w1 := by
  unfold Animal.ifAlive at h
  rcases ite_some_cond h with ⟨_, h⟩ | ⟨_, h⟩
  · simp only [pure, Option.some.injEq] at h
    rw [← h]; exact World.Evolves.same b w
  · unfold Animal.movePhase at h
    obtain ⟨w6, h6, h⟩ := bind_some_elim h
    obtain ⟨a6, _, h⟩ := bind_some_elim h
    have e6 := Animal.animal_move_evolves b h6
    rcases ite_eq_some_cases h with h | h
    · simp only [pure, Option.some.injEq] at h
      rw [← h]; exact e6.then_die _ _
    · simp only [pure, Option.some.injEq] at h
      rw [← h]; exact e6

/-! ### What follows for the three properties -/

theorem World.Evolves.deadStaysDead {b : Bool} {w w1 : World} (h : World.Evolves b w w1) :
    DeadStaysDead w w1 :=
  fun e he hd => ⟨((h.old e he).dead hd).1, ((h.old e he).dead hd).2,
    fun t => h.registry e t he hd⟩

theorem World.Evolves.noNewPregnancy {w w1 : World} (h : World.Evolves true w w1) :
    NoNewPregnancy w w1 := by
  intro e he hp
  by_cases hold : e < w.nextId
  · exact ⟨hold, (h.old e hold).pregnancy rfl hp⟩
  · have := (h.fresh e hold he).2 rfl
    rw [this] at hp
    exact absurd hp (by decide)

theorem World.Evolves.keeps_energyBounded {b : Bool} {w w1 : World} (h : World.Evolves b w w1)
    (hw : w.energyBounded) : w1.energyBounded := by
  intro e he
  by_cases hold : e < w.nextId
  · exact (h.old e hold).energy (hw e hold)
  · exact (h.fresh e hold he).1

theorem LaterTick.evolves {s s1 : Simulation} (h : LaterTick s s1) :
    World.Evolves false s.world s1.world := by
  induction h with
  | same => exact World.Evolves.same false _
  | month _ hm ih => exact ih.chain (Simulation.runMonth_evolves hm)

theorem SimReachable.energyBounded {s : Simulation} (h : SimReachable s) :
    s.world.energyBounded := by
  induction h with
  | stocked hinit =>
    refine (Simulation.initializeSimulation_evolves false hinit).keeps_energyBounded ?_
    intro e he
    exact absurd he (Nat.not_lt_zero e)
  | month _ hm ih => exact (Simulation.runMonth_evolves hm).keeps_energyBounded ih

/-! ### What the mating functions write -/

theorem Animal.canReproduceInternal_gated {a : AnimalData}
    (hgate : a.currentCooldownForReproduction > 0 ∨ a.currentlyPregnant = true ∨
      a.currentAge < a.minimumBreedingAge ∨ a.currentEnergy < a.energyRequiredToReproduce) :
    Animal.canReproduceInternal a = false := by
  unfold Animal.canReproduceInternal
  rcases hgate with h | h | h | h
  · have : ¬ a.currentCooldownForReproduction = 0 := by omega
    simp [this]
  · simp [h]
  · have : ¬ a.currentAge ≥ a.minimumBreedingAge := by omega
    simp [this]
  · have : ¬ a.currentEnergy ≥ a.energyRequiredToReproduce := by omega
    simp [this]

theorem Entity.pregnant_setCurrentEnergy {ent : Entity} {a : AnimalData} (v : Int)
    (ha : ent.animal = some a) :
    (ent.setAnimal (Animal.setCurrentEnergy a v)).pregnant = ent.pregnant := by
  unfold Entity.pregnant
  rw [Entity.setAnimal_animal _ ha, ha]
  rfl

theorem World.modify_heap_other (w : World) {e i : EntityId} (f : Entity → Entity)
    (h : i ≠ e) : (w.modify e f).heap i = w.heap i := by
  simp [World.modify, h]

theorem Herbivore.herbivore_mateLoop_others (self : EntityId) (mates : List EntityId) :
    ∀ {w w1 : World}, Herbivore.mateLoop self mates w = some w1 →
      ∀ e : EntityId, e ≠ self → (w1.heap e).pregnant = (w.heap e).pregnant := by
  induction mates with
  | nil =>
    intro w w1 h e _
    simp only [Herbivore.mateLoop, pure, Option.some.injEq] at h
    rw [← h]
  | cons mate rest ih =>
    intro w w1 h e he
    unfold Herbivore.mateLoop at h
    by_cases h1 : (!(w.heap mate).isAlive || mate == self) = true
    · rw [if_pos h1] at h; exact ih h e he
    · rw [if_neg h1] at h
      by_cases h2 : (w.heap mate).getType ≠ .HERBIVORE ∨ (w.heap mate).getGender ≠ .MALE
      · rw [if_pos h2] at h; exact ih h e he
      · rw [if_neg h2] at h
        obtain ⟨m, _, h⟩ := bind_some_elim h
        split at h
        · obtain ⟨a, ha, h⟩ := bind_some_elim h
          obtain ⟨a1, ha1, h⟩ := bind_some_elim h
          obtain ⟨m1, hm1, h⟩ := bind_some_elim h
          simp only [pure, Option.some.injEq] at h
          rw [← h]
          show (World.heap (if _ then _ else _) e).pregnant = _
          split
          · by_cases hem : e = mate
            · subst hem
              rw [World.modify_heap_self, Entity.pregnant_setCurrentEnergy _ hm1,
                World.modify_heap_other _ _ he, World.modify_heap_other _ _ he]
            · rw [World.modify_heap_other _ _ hem, World.modify_heap_other _ _ he,
                World.modify_heap_other _ _ he]
          · rw [World.modify_heap_other _ _ he, World.modify_heap_other _ _ he]
        · exact ih h e he

theorem Carnivore.carnivore_mateLoop_others (self : EntityId) (mates : List EntityId) :
    ∀ {w w1 : World}, Carnivore.mateLoop self mates w = some w1 →
      ∀ e : EntityId, e ≠ self → (w1.heap e).pregnant = (w.heap e).pregnant := by
  induction mates with
  | nil =>
    intro w w1 h e _
    simp only [Carnivore.mateLoop, pure, Option.some.injEq] at h
    rw [← h]
  | cons mate rest ih =>
    intro w w1 h e he
    unfold Carnivore.mateLoop at h
    by_cases h1 : (!(w.heap mate).isAlive || mate == self) = true
    · rw [if_pos h1] at h; exact ih h e he
    · rw [if_neg h1] at h
      by_cases h2 : (w.heap mate).getType ≠ .CARNIVORE ∨ (w.heap mate).getGender ≠ .MALE
      · rw [if_pos h2] at h; exact ih h e he
      · rw [if_neg h2] at h
        obtain ⟨m, _, h⟩ := bind_some_elim h
        split at h
        · obtain ⟨a, ha, h⟩ := bind_some_elim h
          obtain ⟨a1, ha1, h⟩ := bind_some_elim h
          obtain ⟨m1, hm1, h⟩ := bind_some_elim h
          simp only [pure, Option.some.injEq] at h
          rw [← h]
          show (World.heap (if _ then _ else _) e).pregnant = _
          split
          · by_cases hem : e = mate
            · subst hem
              rw [World.modify_heap_self, Entity.pregnant_setCurrentEnergy _ hm1,
                World.modify_heap_other _ _ he, World.modify_heap_other _ _ he]
            · rw [World.modify_heap_other _ _ hem, World.modify_heap_other _ _ he,
                World.modify_heap_other _ _ he]
          · rw [World.modify_heap_other _ _ he, World.modify_heap_other _ _ he]
        · exact ih h e he

theorem Herbivore.herbivore_attemptReproduce_others {w w1 : World} {self : EntityId}
    {mates : List EntityId} {season : Season}
    (h : Herbivore.attemptReproduce w self mates season = some w1) (e : EntityId)
    (he : e ≠ self) : (w1.heap e).pregnant = (w.heap e).pregnant := by
  unfold Herbivore.attemptReproduce at h
  obtain ⟨a, _, h⟩ := bind_some_elim h
  rcases ite_eq_some_cases h with h | h
  · simp only [pure, Option.some.injEq] at h; rw [← h]
  · dsimp only at h
    rcases ite_eq_some_cases h with h | h
    · simp only [pure, Option.some.injEq] at h; rw [← h]
    · exact Herbivore.herbivore_mateLoop_others self mates h e he

theorem Carnivore.carnivore_attemptReproduce_others {w w1 : World} {self : EntityId}
    {mates : List EntityId} {season : Season}
    (h : Carnivore.attemptReproduce w self mates season = some w1) (e : EntityId)
    (he : e ≠ self) : (w1.heap e).pregnant = (w.heap e).pregnant := by
  unfold Carnivore.attemptReproduce at h
  obtain ⟨a, _, h⟩ := bind_some_elim h
  rcases ite_eq_some_cases h with h | h
  · simp only [pure, Option.some.injEq] at h; rw [← h]
  · dsimp only at h
    rcases ite_eq_some_cases h with h | h
    · simp only [pure, Option.some.injEq] at h; rw [← h]
    · exact Carnivore.carnivore_mateLoop_others self mates h e he

theorem Herbivore.herbivore_attemptReproduce_gated {w : World} {self : EntityId}
    {a : AnimalData} (mates : List EntityId) (season : Season)
    (ha : (w.heap self).animal = some a) (hcan : Animal.canReproduceInternal a = false) :
    Herbivore.attemptReproduce w self mates season = some w := by
  unfold Herbivore.attemptReproduce
  simp [ha, hcan]

theorem Carnivore.carnivore_attemptReproduce_gated {w : World} {self : EntityId}
    {a : AnimalData} (mates : List EntityId) (season : Season)
    (ha : (w.heap self).animal = some a) (hcan : Animal.canReproduceInternal a = false) :
    Carnivore.attemptReproduce w self mates season = some w := by
  unfold Carnivore.attemptReproduce
  simp [ha, hcan]

theorem Animal.matePhase_cases {w w1 : World} {self : EntityId} {season : Season}
    (h : Animal.matePhase w self season = some w1) :
    w1 = w ∨ ∃ mates : List EntityId, Animal.attemptReproduce w self mates season = some w1 := by
  unfold Animal.matePhase at h
  obtain ⟨a, _, h⟩ := bind_some_elim h
  rcases ite_eq_some_cases h with h | h
  · dsimp only at h
    rcases ite_eq_some_cases h with h | h
    · exact Or.inr ⟨_, h⟩
    · simp only [pure, Option.some.injEq] at h; exact Or.inl h.symm
  · simp only [pure, Option.some.injEq] at h; exact Or.inl h.symm

/-! ## C14 : energy bounds -/

/-- C14, evaluated on the mating scenario.  Herbivore 1 is alive with energy 0 when
the third month ends, which is within the bounds; the base update of the fourth month
subtracts its cost from the energy without clamping and then kills the animal, which is
left with energy `-6`, below 0. -/
theorem dead_herbivore_with_negative_energy :
    ∃ s0 s1 s2 s3 s4 : Simulation, matingStocked = some s0 ∧
      s0.runMonth enterKey = some s1 ∧ s1.runMonth enterKey = some s2 ∧
      s2.runMonth enterKey = some s3 ∧ s3.runMonth enterKey = some s4 ∧
      (s3.world.heap 1).is_alive = true ∧ (s3.world.heap 1).energy = some 0 ∧
      (s4.world.heap 1).is_alive = false ∧ (s4.world.heap 1).getType = .HERBIVORE ∧
      (s4.world.heap 1).energy = some (-6) ∧
      ¬ (∃ e : Int, (s4.world.heap 1).energy = some e ∧ 0 ≤ e) := by
  have h : (matingStocked.bind (fun s0 => (s0.runMonth enterKey).bind (fun s1 =>
      (s1.runMonth enterKey).bind (fun s2 => (s2.runMonth enterKey).bind (fun s3 =>
        (s3.runMonth enterKey).map (fun s4 =>
          (s3.world.heap 1).is_alive && decide ((s3.world.heap 1).energy = some 0) &&
          !(s4.world.heap 1).is_alive && decide ((s4.world.heap 1).getType = .HERBIVORE) &&
          decide ((s4.world.heap 1).energy = some (-6))))))))
      = some true := by decide!
  cases h0 : matingStocked with
  | none => rw [h0] at h; exact absurd h (by simp)
  | some s0 =>
    rw [h0, Option.some_bind] at h
    cases h1 : s0.runMonth enterKey with
    | none => rw [h1] at h; exact absurd h (by simp)
    | some s1 =>
      rw [h1, Option.some_bind] at h
      cases h2 : s1.runMonth enterKey with
      | none => rw [h2] at h; exact absurd h (by simp)
      | some s2 =>
        rw [h2, Option.some_bind] at h
        cases h3 : s2.runMonth enterKey with
        | none => rw [h3] at h; exact absurd h (by simp)
        | some s3 =>
          rw [h3, Option.some_bind] at h
          cases h4 : s3.runMonth enterKey with
          | none => rw [h4] at h; exact absurd h (by simp)
          | some s4 =>
            rw [h4] at h
            simp only [Option.map_some', Option.some.injEq, Bool.and_eq_true,
              decide_eq_true_eq, Bool.not_eq_true'] at h
            obtain ⟨⟨⟨⟨g1, g2⟩, g3⟩, g4⟩, g5⟩ := h
            refine ⟨s0, s1, s2, s3, s4, rfl, h1, h2, h3, h4, g1, g2, g3, g4, g5, ?_⟩
            rintro ⟨e, he, hpos⟩
            rw [g5] at he
            cases he
            exact absurd hpos (by decide)

/-- C14, amended.  In a world whose existing animals all have non-negative constants
`maximumEnergy` and `movementCostBase`, at most their maximum energy, and, when alive,
non-negative energy, the same holds after each of `baseUpdate`, `attemptEat`, `giveBirth`,
the birth phase, `attemptReproduce`, `move` and `update`, called for any object; the
constructors establish it; and so it holds in every state the simulation reaches. -/
theorem energy_bounds_kept (w w1 : World) (self : EntityId) (season : Season)
    (mates : List EntityId) (ate : Bool) (hw : w.energyBounded) :
    (Animal.baseUpdate w self season = some w1 → w1.energyBounded) ∧
    (Animal.attemptEat w self season = some (w1, ate) → w1.energyBounded) ∧
    (Animal.giveBirth w self = some w1 → w1.energyBounded) ∧
    (Animal.ifAlive self (fun u => Animal.birthPhase u self) w = some w1 → w1.energyBounded) ∧
    (Animal.attemptReproduce w self mates season = some w1 → w1.energyBounded) ∧
    (Animal.move w self season = some w1 → w1.energyBounded) ∧
    (Animal.update w self season = some w1 → w1.energyBounded) ∧
    (∀ (gen : List Nat) (r c : Int) (g : Gender),
      (Herbivore.new gen r c g).1.energyBounded ∧ (Carnivore.new gen r c g).1.energyBounded) ∧
    (∀ s : Simulation, SimReachable s → s.world.energyBounded) :=
  ⟨fun h => (Animal.baseUpdate_evolves false h).keeps_energyBounded hw,
   fun h => (Animal.animal_attemptEat_evolves false h).keeps_energyBounded hw,
   fun h => (Animal.animal_giveBirth_evolves false h).keeps_energyBounded hw,
   fun h => (Animal.guarded_birthPhase_evolves false h).keeps_energyBounded hw,
   fun h => (Animal.animal_attemptReproduce_evolves h).keeps_energyBounded hw,
   fun h => (Animal.animal_move_evolves false h).keeps_energyBounded hw,
   fun h => (Animal.animal_update_evolves h).keeps_energyBounded hw,
   fun gen r c g => ⟨(Herbivore.herbivore_new_energyBounded gen r c g).1,
     (Carnivore.carnivore_new_energyBounded gen r c g).1⟩,
   fun _ hs => hs.energyBounded⟩

/-- The stocked world of the forage scenario keeps the bounds, and so does the world
after the update of its herbivore. -/
theorem energy_bounds_kept_witness :
    ∃ s0 w1, forageStocked = some s0 ∧ s0.world.energyBounded ∧
      Animal.update s0.world 2 .WINTER = some w1 ∧ w1.energyBounded := by
  have hsome : (forageStocked.bind (fun s => Animal.update s.world 2 .WINTER)).isSome = true := by
    decide!
  obtain ⟨w1, h1⟩ := Option.isSome_iff_exists.mp hsome
  obtain ⟨s0, h0, h1⟩ := bind_some_elim h1
  have hw : s0.world.energyBounded := (SimReachable.stocked h0).energyBounded
  exact ⟨s0, w1, h0, hw, h1,
    (energy_bounds_kept s0.world w1 2 .WINTER [] false hw).2.2.2.2.2.2.1 h1⟩

/-! ## C15 : death by the end of the tick -/

/-- C15, evaluated on the mating scenario.  Three months are run from the stocking (the
counter is below the duration before each).  At the end of the second month herbivore 1,
a male, has energy 26.  In the third month his own update, which comes first, leaves him
10; then the female, herbivore 2, mates with him and `attemptReproduce` lowers his energy
by his share, `setCurrentEnergy` clamping it to 0, without any death check.  At the end
of that `runMonth` he is registered and alive with `currentEnergy = 0`. -/
theorem male_alive_with_zero_energy :
    ∃ s0 s1 s2 s3 : Simulation, matingStocked = some s0 ∧
      s0.runMonth enterKey = some s1 ∧ s1.runMonth enterKey = some s2 ∧
      s2.runMonth enterKey = some s3 ∧
      s0.currentMonthCounter < s0.totalMonthsDuration ∧
      s1.currentMonthCounter < s1.totalMonthsDuration ∧
      s2.currentMonthCounter < s2.totalMonthsDuration ∧
      (s2.world.heap 1).energy = some 26 ∧
      (s2.world.heap 2).pregnant = false ∧ (s3.world.heap 2).pregnant = true ∧
      1 ∈ s3.world.grid.herbivores_list ∧ (s3.world.heap 1).getType = .HERBIVORE ∧
      (s3.world.heap 1).is_alive = true ∧
      (s3.world.heap 1).energy = some 0 ∧
      ∃ a : AnimalData, (s3.world.heap 1).animal = some a ∧ a.currentEnergy ≤ 0 := by
  have h : (matingStocked.bind (fun s0 => (s0.runMonth enterKey).bind (fun s1 =>
      (s1.runMonth enterKey).bind (fun s2 => (s2.runMonth enterKey).map (fun s3 =>
          decide (s0.currentMonthCounter < s0.totalMonthsDuration) &&
          decide (s1.currentMonthCounter < s1.totalMonthsDuration) &&
          decide (s2.currentMonthCounter < s2.totalMonthsDuration) &&
          decide ((s2.world.heap 1).energy = some 26) &&
          !(s2.world.heap 2).pregnant && (s3.world.heap 2).pregnant &&
          decide (1 ∈ s3.world.grid.herbivores_list) &&
          decide ((s3.world.heap 1).getType = .HERBIVORE) &&
          (s3.world.heap 1).is_alive &&
          decide ((s3.world.heap 1).energy = some 0))))))
      = some true := by decide!
  cases h0 : matingStocked with
  | none => rw [h0] at h; exact absurd h (by simp)
  | some s0 =>
    rw [h0, Option.some_bind] at h
    cases h1 : s0.runMonth enterKey with
    | none => rw [h1] at h; exact absurd h (by simp)
    | some s1 =>
      rw [h1, Option.some_bind] at h
      cases h2 : s1.runMonth enterKey with
      | none => rw [h2] at h; exact absurd h (by simp)
      | some s2 =>
        rw [h2, Option.some_bind] at h
        cases h3 : s2.runMonth enterKey with
        | none => rw [h3] at h; exact absurd h (by simp)
        | some s3 =>
          rw [h3] at h
          simp only [Option.map_some', Option.some.injEq, Bool.and_eq_true,
            decide_eq_true_eq, Bool.not_eq_true'] at h
          obtain ⟨⟨⟨⟨⟨⟨⟨⟨⟨g0, g1⟩, g2⟩, g3⟩, g4⟩, g5⟩, g6⟩, g7⟩, g8⟩, g9⟩ := h
          refine ⟨s0, s1, s2, s3, rfl, h1, h2, h3, g0, g1, g2, g3, g4, g5, g6, g7, g8, g9, ?_⟩
          unfold Entity.energy at g9
          cases ha : (s3.world.heap 1).animal with
          | none => rw [ha] at g9; exact absurd g9 (by simp)
          | some a =>
            rw [ha] at g9
            simp only [Option.map_some', Option.some.injEq] at g9
            exact ⟨a, rfl, by omega⟩

/-! ## C16 : monotonic death -/

/-- C16.  Between a tick boundary and any later tick boundary an object that was dead
stays dead, keeps its species-specific state (for an animal the age, energy, cooldown,
pregnancy, gestation progress and missed-meal count, for a plant the age) and is listed
in no registry more often than before.  The same holds across every phase of a tick:
`Animal::update` is its base update followed by the eat, birth, mate and move phases,
each behind the `isAlive` guard, and each of these, `Plant::update`, `Animal::update` as
a whole, the migration and the reconcile loop leave the dead objects as they are, for
whichever object they are called. -/
theorem dead_stays_dead (s s2 : Simulation) (h : LaterTick s s2) :
    DeadStaysDead s.world s2.world ∧
    (∀ (w : World) (self : EntityId) (season : Season),
      Animal.update w self season =
        (Animal.baseUpdate w self season).bind (fun w1 =>
          (Animal.ifAlive self (fun u => Animal.eatPhase u self season) w1).bind (fun w3 =>
            (Animal.ifAlive self (fun u => Animal.birthPhase u self) w3).bind (fun w4 =>
              (Animal.ifAlive self (fun u => Animal.matePhase u self season) w4).bind
                (fun w5 => Animal.ifAlive self (fun u => Animal.movePhase u self season)
                  w5))))) ∧
    (∀ (w w1 : World) (self : EntityId) (season : Season),
      (Animal.baseUpdate w self season = some w1 → DeadStaysDead w w1) ∧
      (Animal.ifAlive self (fun u => Animal.eatPhase u self season) w = some w1 →
        DeadStaysDead w w1) ∧
      (Animal.ifAlive self (fun u => Animal.birthPhase u self) w = some w1 →
        DeadStaysDead w w1) ∧
      (Animal.ifAlive self (fun u => Animal.matePhase u self season) w = some w1 →
        DeadStaysDead w w1) ∧
      (Animal.ifAlive self (fun u => Animal.movePhase u self season) w = some w1 →
        DeadStaysDead w w1) ∧
      (Animal.update w self season = some w1 → DeadStaysDead w w1) ∧
      (Plant.update w self season = some w1 → DeadStaysDead w w1)) ∧
    (∀ t t1 : Simulation, t.handleMigration = some t1 → DeadStaysDead t.world t1.world) ∧
    (∀ (l : List EntityId) (w w1 : World), Simulation.cleanup l w = some w1 →
      DeadStaysDead w w1) :=
  ⟨h.evolves.deadStaysDead,
   Animal.update_eq_phases,
   fun _ _ _ _ =>
    ⟨fun h => (Animal.baseUpdate_evolves false h).deadStaysDead,
     fun h => (Animal.eatPhase_evolves false h).deadStaysDead,
     fun h => (Animal.guarded_birthPhase_evolves false h).deadStaysDead,
     fun h => (Animal.guarded_matePhase_evolves h).deadStaysDead,
     fun h => (Animal.movePhase_evolves false h).deadStaysDead,
     fun h => (Animal.animal_update_evolves h).deadStaysDead,
     fun h => (Plant.plant_update_evolves false h).deadStaysDead⟩,
   fun _ _ h => (Simulation.handleMigration_evolves false h).deadStaysDead,
   fun _ _ _ h => (Simulation.cleanup_evolves false _ h).deadStaysDead⟩

/-- In the forage scenario plant 0 is eaten in the first month; one month later it is
still dead, with its state unchanged. -/
theorem dead_stays_dead_witness :
    ∃ s1 s2 : Simulation, LaterTick s1 s2 ∧ s1.runMonth enterKey = some s2 ∧
      0 < s1.world.nextId ∧ (s1.world.heap 0).is_alive = false ∧
      (s2.world.heap 0).is_alive = false ∧ (s2.world.heap 0).kind = (s1.world.heap 0).kind := by
  have hsome : (forageStocked.bind (fun s0 => (s0.runMonth enterKey).bind (fun s1 =>
      (s1.runMonth enterKey).map (fun _ =>
        decide (0 < s1.world.nextId) && !(s1.world.heap 0).is_alive)))) = some true := by
    decide!
  obtain ⟨s0, _, h⟩ := bind_some_elim hsome
  obtain ⟨s1, _, h⟩ := bind_some_elim h
  cases h2 : s1.runMonth enterKey with
  | none => rw [h2] at h; exact absurd h (by simp)
  | some s2 =>
    rw [h2] at h
    simp only [Option.map_some', Option.some.injEq, Bool.and_eq_true, decide_eq_true_eq,
      Bool.not_eq_true'] at h
    have hl : LaterTick s1 s2 := LaterTick.month (LaterTick.same s1) h2
    have hd := (dead_stays_dead s1 s2 hl).1 0 h.1 h.2
    exact ⟨s1, s2, hl, h2, h.1, h.2, hd.1, hd.2.1⟩

/-! ## C17 : reproduction gating -/

/-- C17.  For an animal whose cooldown is positive, or that is pregnant, or younger than
its breeding age, or short of the energy to reproduce, `Herbivore::attemptReproduce` and
`Carnivore::attemptReproduce` return at once, for every mate list, season and random
draw, and leave the whole world as it was, the pregnancy flag included.  A call never
changes the pregnancy flag of an object other than the caller.  No other operation of a
tick sets a pregnancy flag: after the base update, the eat, birth and move phases,
`Plant::update`, the migration and the reconcile loop, every pregnant object existed
before and was pregnant; and the mate phase changes the world only through
`attemptReproduce`. -/
theorem reproduction_gating (w : World) (self : EntityId) (mates : List EntityId)
    (season : Season) (a : AnimalData) (ha : (w.heap self).animal = some a)
    (hgate : a.currentCooldownForReproduction > 0 ∨ a.currentlyPregnant = true ∨
      a.currentAge < a.minimumBreedingAge ∨ a.currentEnergy < a.energyRequiredToReproduce) :
    Herbivore.attemptReproduce w self mates season = some w ∧
    Carnivore.attemptReproduce w self mates season = some w ∧
    (∀ (u u1 : World) (me e : EntityId) (l : List EntityId) (t : Season), e ≠ me →
      (Herbivore.attemptReproduce u me l t = some u1 ∨
        Carnivore.attemptReproduce u me l t = some u1) →
      (u1.heap e).pregnant = (u.heap e).pregnant) ∧
    (∀ (u u1 : World) (me : EntityId) (t : Season),
      (Animal.baseUpdate u me t = some u1 → NoNewPregnancy u u1) ∧
      (Animal.ifAlive me (fun x => Animal.eatPhase x me t) u = some u1 →
        NoNewPregnancy u u1) ∧
      (Animal.ifAlive me (fun x => Animal.birthPhase x me) u = some u1 →
        NoNewPregnancy u u1) ∧
      (Animal.ifAlive me (fun x => Animal.movePhase x me t) u = some u1 →
        NoNewPregnancy u u1) ∧
      (Plant.update u me t = some u1 → NoNewPregnancy u u1) ∧
      (Animal.matePhase u me t = some u1 →
        u1 = u ∨ ∃ l : List EntityId, Animal.attemptReproduce u me l t = some u1)) ∧
    (∀ t t1 : Simulation, t.handleMigration = some t1 → NoNewPregnancy t.world t1.world) ∧
    (∀ (l : List EntityId) (u u1 : World), Simulation.cleanup l u = some u1 →
      NoNewPregnancy u u1) :=
  ⟨Herbivore.herbivore_attemptReproduce_gated mates season ha
      (Animal.canReproduceInternal_gated hgate),
   Carnivore.carnivore_attemptReproduce_gated mates season ha
      (Animal.canReproduceInternal_gated hgate),
   fun _ _ _ e _ _ he h => h.elim
     (fun h1 => Herbivore.herbivore_attemptReproduce_others h1 e he)
     (fun h1 => Carnivore.carnivore_attemptReproduce_others h1 e he),
   fun _ _ _ _ =>
    ⟨fun h => (Animal.baseUpdate_evolves true h).noNewPregnancy,
     fun h => (Animal.eatPhase_evolves true h).noNewPregnancy,
     fun h => (Animal.guarded_birthPhase_evolves true h).noNewPregnancy,
     fun h => (Animal.movePhase_evolves true h).noNewPregnancy,
     fun h => (Plant.plant_update_evolves true h).noNewPregnancy,
     fun h => Animal.matePhase_cases h⟩,
   fun _ _ h => (Simulation.handleMigration_evolves true h).noNewPregnancy,
   fun _ _ _ h => (Simulation.cleanup_evolves true _ h).noNewPregnancy⟩

/-- The freshly stocked herbivore of the forage scenario has age 0, below its breeding
age 2: a call of `attemptReproduce` for it changes nothing. -/
theorem reproduction_gating_witness :
    ∃ (s0 : Simulation) (a : AnimalData), forageStocked = some s0 ∧
      (s0.world.heap 2).animal = some a ∧ a.currentAge < a.minimumBreedingAge ∧
      Herbivore.attemptReproduce s0.world 2 [2] .SPRING = some s0.world ∧
      Carnivore.attemptReproduce s0.world 2 [2] .SPRING = some s0.world := by
  have hsome : (forageStocked.bind (fun s0 => (s0.world.heap 2).animal.map (fun a =>
      decide (a.currentAge < a.minimumBreedingAge)))) = some true := by decide!
  obtain ⟨s0, h0, h⟩ := bind_some_elim hsome
  cases ha : (s0.world.heap 2).animal with
  | none => rw [ha] at h; exact absurd h (by simp)
  | some a =>
    rw [ha] at h
    simp only [Option.map_some', Option.some.injEq, decide_eq_true_eq] at h
    have hg := reproduction_gating s0.world 2 [2] .SPRING a ha (Or.inr (Or.inr (Or.inl h)))
    exact ⟨s0, a, h0, ha, h, hg.1, hg.2.1⟩

/-! ## C18 : scenario, energy death -/

theorem Entity.animal_of_herbivore {ent : Entity} {a : AnimalData}
    (h : ent.kind = .herbivore a) : ent.animal = some a := by
  unfold Entity.animal
  rw [h]

theorem Entity.animal_of_carnivore {ent : Entity} {a : AnimalData}
    (h : ent.kind = .carnivore a) : ent.animal = some a := by
  unfold Entity.animal
  rw [h]

/-- C18.  For a living herbivore with `currentEnergy = 0`, `currentAge = 10` and fewer
missed meals than its limit (and the non-negative `movementCostBase` every herbivore
has), in every season `Animal::update` returns the world its base update returns: the
herbivore is dead, its members are those the base update assigned, no other object, the
grid and the generator are unchanged (no eat, birth, mate or move phase ran), and the
statistics differ only in `herbivoresDiedNatural`, which is one higher. -/
theorem energy_death_scenario (w : World) (self : EntityId) (season : Season)
    (a : AnimalData) (hk : (w.heap self).kind = .herbivore a)
    (hal : (w.heap self).is_alive = true) (he : a.currentEnergy = 0)
    (_hage : a.currentAge = 10) (_hmeals : a.mealsMissedTurns < a.maxTurnsWithoutFoodAllowed)
    (hcost : 0 ≤ a.movementCostBase) :
    ∃ w1 : World, Animal.update w self season = some w1 ∧
      Animal.baseUpdate w self season = some w1 ∧
      (w1.heap self).is_alive = false ∧
      w1.heap self = ((w.heap self).setAnimal (Animal.baseUpdateData a season)).kill ∧
      (∀ e : EntityId, e ≠ self → w1.heap e = w.heap e) ∧
      w1.grid = w.grid ∧ w1.gen = w.gen ∧ w1.nextId = w.nextId ∧
      w1.stats = { w.stats with herbivoresDiedNatural := w.stats.herbivoresDiedNatural + 1 } := by
  have ha := Entity.animal_of_herbivore hk
  have hal0 : ¬ ((!(w.heap self).isAlive) = true) := by simp [Entity.isAlive, hal]
  have hen := Animal.baseUpdateData_energy a season hcost
  have hle : (Animal.baseUpdateData a season).currentEnergy ≤ 0 := by omega
  have hty : ((w.heap self).setAnimal (Animal.baseUpdateData a season)).getType = .HERBIVORE := by
    rw [Entity.setAnimal_getType]
    unfold Entity.getType
    rw [hk]
  have halive1 : ((w.modify self (fun e => e.setAnimal (Animal.baseUpdateData a season))).heap
      self).isAlive = true := by
    rw [World.modify_heap_self]
    show ((w.heap self).setAnimal _).is_alive = true
    rw [Entity.setAnimal_is_alive]; exact hal
  have hbase : Animal.baseUpdate w self season =
      some (Animal.die (w.modify self (fun e => e.setAnimal (Animal.baseUpdateData a season)))
        self false) := by
    rw [Animal.baseUpdate_eq, if_neg hal0, ha, Option.some_bind, if_pos (Or.inl hle)]
  have hdie : Animal.die (w.modify self (fun e => e.setAnimal (Animal.baseUpdateData a season)))
      self false =
      { (w.modify self (fun e => e.setAnimal (Animal.baseUpdateData a season))).modify self
          Entity.kill with
        stats := { w.stats with herbivoresDiedNatural := w.stats.herbivoresDiedNatural + 1 } } := by
    unfold Animal.die
    rw [if_neg (by rw [halive1]; decide)]
    dsimp only
    rw [if_pos (by decide), if_pos (by
      rw [World.modify_heap_self, World.modify_heap_self]
      exact hty)]
    rfl
  refine ⟨_, ?_, hbase, ?_, ?_, ?_, ?_, ?_, ?_, ?_⟩
  · unfold Animal.update
    rw [if_neg hal0, hbase]
    simp only [Option.bind_eq_bind, Option.some_bind]
    rw [if_pos]
    · rfl
    · rw [hdie]
      show (!((World.modify _ self Entity.kill).heap self).isAlive) = true
      rw [World.modify_heap_self]
      rfl
  · rw [hdie]
    show ((World.modify _ self Entity.kill).heap self).is_alive = false
    rw [World.modify_heap_self]
    rfl
  · rw [hdie]
    show (World.modify _ self Entity.kill).heap self = _
    rw [World.modify_heap_self, World.modify_heap_self]
  · intro e hne
    rw [hdie]
    show (World.modify _ self Entity.kill).heap e = _
    rw [World.modify_heap_other _ _ hne, World.modify_heap_other _ _ hne]
  · rw [hdie]; rfl
  · rw [hdie]; rfl
  · rw [hdie]; rfl
  · rw [hdie]

theorem energy_death_scenario_witness :
    ∃ w1 : World, Animal.update exhaustedWorld 0 .SPRING = some w1 ∧
      Animal.baseUpdate exhaustedWorld 0 .SPRING = some w1 ∧
      (w1.heap 0).is_alive = false ∧
      w1.stats.herbivoresDiedNatural = exhaustedWorld.stats.herbivoresDiedNatural + 1 ∧
      w1.stats.herbivoresEaten = exhaustedWorld.stats.herbivoresEaten := by
  obtain ⟨w1, h1, h2, h3, _, _, _, _, _, h9⟩ :=
    energy_death_scenario exhaustedWorld 0 .SPRING exhaustedHerbivore rfl rfl rfl rfl
      (by decide) (by decide)
  exact ⟨w1, h1, h2, h3, by rw [h9], by rw [h9]⟩

/-! ## C19 : scenario, predation -/

theorem mem_eatOffsets (k : Int) (d : Int × Int) :
    d ∈ Animal.eatOffsets k ↔ (1 ≤ max |d.1| |d.2| ∧ max |d.1| |d.2| ≤ k) := by
  obtain ⟨a, b⟩ := d
  simp only [Animal.eatOffsets, List.mem_flatMap, mem_intRange]
  constructor
  · rintro ⟨rs, hrs, dr, hdr, dc, hdc, hmem⟩
    split at hmem
    · next hcond =>
      simp only [List.mem_singleton, Prod.mk.injEq] at hmem
      obtain ⟨rfl, rfl⟩ := hmem
      have h1 : |a| ≤ rs := abs_le.mpr hdr
      have h2 : |b| ≤ rs := abs_le.mpr hdc
      have h3 : max |a| |b| = rs := by
        rcases hcond with h | h
        · rw [h] at h1 ⊢; exact max_eq_left h2
        · rw [h] at h2 ⊢; exact max_eq_right h1
      rw [h3]
      exact hrs
    · simp at hmem
  · rintro ⟨h1, h2⟩
    have ha : |a| ≤ max |a| |b| := le_max_left _ _
    have hb : |b| ≤ max |a| |b| := le_max_right _ _
    refine ⟨max |a| |b|, ⟨h1, h2⟩, a, abs_le.mp ha, b, abs_le.mp hb, ?_⟩
    have hc : |a| = max |a| |b| ∨ |b| = max |a| |b| := by
      rcases le_total |a| |b| with h | h
      · exact Or.inr (max_eq_right h).symm
      · exact Or.inl (max_eq_left h).symm
    rw [if_pos hc]
    exact List.mem_singleton.mpr rfl

theorem Carnivore.attemptEat_eq (w : World) (self : EntityId) (season : Season)
    (a : AnimalData) (ha : (w.heap self).animal = some a)
    (hal : (w.heap self).is_alive = true)
    (he : a.currentEnergy * 100 < a.maximumEnergy * 90) :
    Carnivore.attemptEat w self season =
      Carnivore.attemptEatScan self (Animal.eatOffsets (Carnivore.eatRadius a season)) w := by
  unfold Carnivore.attemptEat
  rw [ha]
  have h1 : ¬ ((!(w.heap self).isAlive || decide (a.currentEnergy * 100 ≥ a.maximumEnergy * 90))
      = true) := by
    simp [Entity.isAlive, hal, he]
  simp only [Option.some_bind, Option.bind_eq_bind, if_neg h1]
  rfl

/-- The effect of `removeEntity` on an entity that the cell at its stored position
holds. -/
theorem World.removeEntity_held (w : World) (e : EntityId)
    (hv : Grid.isValid (w.heap e).r_coord (w.heap e).c_coord = true)
    (hcell : w.grid.cells_grid (w.heap e).r_coord (w.heap e).c_coord = some e) :
    ∃ w1, w.removeEntity (some e) = some w1 ∧
      (w1.heap e).is_alive = false ∧
      (∀ i : EntityId, i ≠ e → w1.heap i = w.heap i) ∧
      e ∉ w1.grid.registry (w.heap e).getType ∧
      w1.grid.cells_grid (w.heap e).r_coord (w.heap e).c_coord = none ∧
      w1.stats = w.stats := by
  rw [World.removeEntity_some, if_pos hv, if_pos hcell]
  refine ⟨_, rfl, ?_, ?_, ?_, ?_, rfl⟩
  · simp [World.modify, Entity.kill]
  · intro i hi
    simp [World.modify, hi]
  · exact Grid.not_mem_registry_eraseIf _ _ _ _ (by simp)
  · simp [Grid.cells_eraseIf, Grid.setCell]

/-- One successful iteration of the scan of `Carnivore::attemptEat`. -/
theorem Carnivore.eat_one (w : World) (self target : EntityId) (a : AnimalData)
    (hk : (w.heap self).kind = .carnivore a)
    (he0 : 0 ≤ a.currentEnergy) (he : a.currentEnergy * 100 < a.maximumEnergy * 90)
    (hv : Grid.isValid (w.heap target).r_coord (w.heap target).c_coord = true)
    (hcell : w.grid.cells_grid (w.heap target).r_coord (w.heap target).c_coord = some target)
    (hty : (w.heap target).getType = .HERBIVORE) (htal : (w.heap target).is_alive = true)
    (ev : String) :
    ∃ w5, World.removeEntity (World.addMonthlyEvent
        { Animal.die (w.modify self (fun e => e.setAnimal (Animal.setCurrentEnergy a
            (min a.maximumEnergy (a.currentEnergy + 45))))) target true with
          stats := { (Animal.die (w.modify self (fun e => e.setAnimal (Animal.setCurrentEnergy a
            (min a.maximumEnergy (a.currentEnergy + 45))))) target true).stats with
            herbivoresEaten := (Animal.die (w.modify self (fun e => e.setAnimal
              (Animal.setCurrentEnergy a (min a.maximumEnergy (a.currentEnergy + 45)))))
              target true).stats.herbivoresEaten + 1 } } ev) (some target) = some w5 ∧
      Carnivore.Ate w self a w5 target := by
  have hne : target ≠ self := by
    rintro rfl
    unfold Entity.getType at hty
    rw [hk] at hty
    simp at hty
  have hne1 : self ≠ target := fun h => hne h.symm
  have hen : Animal.setCurrentEnergy a (min a.maximumEnergy (a.currentEnergy + 45)) =
      { a with currentEnergy := min a.maximumEnergy (a.currentEnergy + 45) } := by
    unfold Animal.setCurrentEnergy
    congr 1
    omega
  rw [hen]
  generalize ha1 : ({ a with currentEnergy := min a.maximumEnergy (a.currentEnergy + 45) } :
    AnimalData) = a1
  have hal1 : (!((w.modify self (fun e => e.setAnimal a1)).heap target).isAlive) = false := by
    rw [World.modify_heap_other _ _ hne]
    simp [Entity.isAlive, htal]
  have hd : Animal.die (w.modify self (fun e => e.setAnimal a1)) target true
      = (w.modify self (fun e => e.setAnimal a1)).modify target Entity.kill := by
    unfold Animal.die
    simp [hal1]
  rw [hd]
  have h4 : ∀ st : MonthlyStats,
      (World.addMonthlyEvent { (w.modify self (fun e => e.setAnimal a1)).modify target
        Entity.kill with stats := st } ev).heap target = (w.heap target).kill := by
    intro st
    simp [World.modify, World.addMonthlyEvent, hne]
  obtain ⟨w5, h5, hdead, hoth, hreg, hcl, hst⟩ := World.removeEntity_held
    (World.addMonthlyEvent { (w.modify self (fun e => e.setAnimal a1)).modify target
        Entity.kill with stats := { ((w.modify self (fun e => e.setAnimal a1)).modify target
          Entity.kill).stats with herbivoresEaten := ((w.modify self
            (fun e => e.setAnimal a1)).modify target Entity.kill).stats.herbivoresEaten + 1 } }
      ev) target (by rw [h4]; exact hv) (by rw [h4]; exact hcell)
  rw [h4] at hreg hcl
  refine ⟨w5, h5, ?_⟩
  have hkt : (w.heap target).kill.getType = .HERBIVORE := hty
  rw [hkt] at hreg
  constructor
  · exact hty
  · exact htal
  · exact hcell
  · exact hdead
  · intro e hne2
    rw [hoth e hne2]
    by_cases hes : e = self
    · subst hes
      simp [World.modify, World.addMonthlyEvent, hne1, Entity.setAnimal_is_alive]
    · simp [World.modify, World.addMonthlyEvent, hes, hne2]
  · exact hreg
  · exact hcl
  · rw [hst]
    rfl
  · rw [hst]
    rfl
  · rw [hoth self hne1, ha1]
    show ((((w.modify self (fun e => e.setAnimal a1)).modify target Entity.kill).heap
      self).animal = some a1)
    rw [World.modify_heap_other _ _ hne1, World.modify_heap_self]
    exact Entity.setAnimal_animal a1 (Entity.animal_of_carnivore hk)

theorem exists_bind_true {x : Option World} {P : World → Prop}
    (h : ∃ w5, x = some w5 ∧ P w5) :
    ∃ w5, (x.bind fun w5 => some (w5, true)) = some (w5, true) ∧ P w5 := by
  obtain ⟨w5, h5, hp⟩ := h
  exact ⟨w5, by rw [h5]; rfl, hp⟩

/-- The scan eats the herbivore of the first cell when that cell holds a living one. -/
theorem Carnivore.scan_hit (w : World) (self target : EntityId) (a : AnimalData)
    (dr dc : Int) (rest : List (Int × Int))
    (hk : (w.heap self).kind = .carnivore a)
    (he0 : 0 ≤ a.currentEnergy) (he : a.currentEnergy * 100 < a.maximumEnergy * 90)
    (hv : Grid.isValid ((w.heap self).r_coord + dr) ((w.heap self).c_coord + dc) = true)
    (hc : w.grid.cells_grid ((w.heap self).r_coord + dr) ((w.heap self).c_coord + dc)
      = some target)
    (hr : (w.heap target).r_coord = (w.heap self).r_coord + dr)
    (hcc : (w.heap target).c_coord = (w.heap self).c_coord + dc)
    (hty : (w.heap target).getType = .HERBIVORE) (htal : (w.heap target).is_alive = true) :
    ∃ w5, Carnivore.attemptEatScan self ((dr, dc) :: rest) w = some (w5, true) ∧
      Carnivore.Ate w self a w5 target := by
  unfold Carnivore.attemptEatScan
  simp only [Entity.getR, Entity.getC, Grid.getEntity_eq, Option.bind_eq_bind,
    Option.some_bind]
  rw [if_pos hv]
  simp only [hv, if_true, hc]
  have hgood : (w.heap target).getType = .HERBIVORE ∧ (w.heap target).isAlive = true :=
    ⟨hty, htal⟩
  rw [if_pos hgood, Entity.animal_of_carnivore hk]
  simp only [Option.some_bind]
  apply exists_bind_true
  exact Carnivore.eat_one w self target a hk he0 he (by rw [hr, hcc]; exact hv)
    (by rw [hr, hcc]; exact hc) hty htal _

/-- The scan passes over a cell that holds no living herbivore. -/
theorem Carnivore.scan_miss (w : World) (self : EntityId) (dr dc : Int)
    (rest : List (Int × Int))
    (hno : ¬ (Grid.isValid ((w.heap self).r_coord + dr) ((w.heap self).c_coord + dc) = true ∧
      ∃ h, w.grid.cells_grid ((w.heap self).r_coord + dr) ((w.heap self).c_coord + dc) = some h ∧
        (w.heap h).getType = .HERBIVORE ∧ (w.heap h).is_alive = true)) :
    Carnivore.attemptEatScan self ((dr, dc) :: rest) w = Carnivore.attemptEatScan self rest w := by
  conv => lhs; unfold Carnivore.attemptEatScan
  simp only [Entity.getR, Entity.getC, Grid.getEntity_eq, Option.bind_eq_bind,
    Option.some_bind]
  by_cases hv : Grid.isValid ((w.heap self).r_coord + dr) ((w.heap self).c_coord + dc) = true
  · rw [if_pos hv]
    simp only [hv, if_true]
    cases hc : w.grid.cells_grid ((w.heap self).r_coord + dr) ((w.heap self).c_coord + dc) with
    | none => rfl
    | some target =>
      dsimp only
      have hgood : ¬ ((w.heap target).getType = .HERBIVORE ∧ (w.heap target).isAlive = true) :=
        fun hg => hno ⟨hv, target, hc, hg.1, hg.2⟩
      rw [if_neg hgood]
  · rw [if_neg hv]

/-- The scan of `Carnivore::attemptEat` eats the first living herbivore it meets, and it
meets one when a scanned cell holds one. -/
theorem Carnivore.scan_eats (w : World) (self : EntityId) (a : AnimalData)
    (hk : (w.heap self).kind = .carnivore a)
    (he0 : 0 ≤ a.currentEnergy) (he : a.currentEnergy * 100 < a.maximumEnergy * 90)
    (hcoh : ∀ (r c : Int) (e : EntityId), Grid.isValid r c = true →
      w.grid.cells_grid r c = some e → (w.heap e).r_coord = r ∧ (w.heap e).c_coord = c)
    (offs : List (Int × Int)) :
    (∃ d ∈ offs, ∃ h : EntityId,
        Grid.isValid ((w.heap self).r_coord + d.1) ((w.heap self).c_coord + d.2) = true ∧
        w.grid.cells_grid ((w.heap self).r_coord + d.1) ((w.heap self).c_coord + d.2) = some h ∧
        (w.heap h).getType = .HERBIVORE ∧ (w.heap h).is_alive = true) →
    ∃ w1 prey, Carnivore.attemptEatScan self offs w = some (w1, true) ∧
      Carnivore.Ate w self a w1 prey ∧
      (((w.heap prey).r_coord - (w.heap self).r_coord,
        (w.heap prey).c_coord - (w.heap self).c_coord) ∈ offs) := by
  induction offs with
  | nil =>
    rintro ⟨d, hd, _⟩
    exact absurd hd (List.not_mem_nil _)
  | cons d rest ih =>
    intro hex
    obtain ⟨dr, dc⟩ := d
    by_cases hit : Grid.isValid ((w.heap self).r_coord + dr) ((w.heap self).c_coord + dc) = true ∧
      ∃ h, w.grid.cells_grid ((w.heap self).r_coord + dr) ((w.heap self).c_coord + dc) = some h ∧
        (w.heap h).getType = .HERBIVORE ∧ (w.heap h).is_alive = true
    · obtain ⟨hv, target, hc, hty, htal⟩ := hit
      obtain ⟨hr, hcc⟩ := hcoh _ _ _ hv hc
      obtain ⟨w5, h5, hate⟩ := Carnivore.scan_hit w self target a dr dc rest hk he0 he hv hc
        hr hcc hty htal
      refine ⟨w5, target, h5, hate, ?_⟩
      rw [hr, hcc]
      simp
    · rw [Carnivore.scan_miss w self dr dc rest hit]
      obtain ⟨d1, hd1, h, hv, hc, hty, hal⟩ := hex
      rcases List.mem_cons.mp hd1 with heq | hin
      · subst heq
        exact absurd ⟨hv, h, hc, hty, hal⟩ hit
      · obtain ⟨w1, prey, h1, h2, h3⟩ := ih ⟨d1, hin, h, hv, hc, hty, hal⟩
        exact ⟨w1, prey, h1, h2, List.mem_cons_of_mem _ h3⟩

/-- C19.  Scenario, predation.  Take a living carnivore with energy `e`, `0 ≤ e` and
`e < 90%` of its maximum energy, in a world whose cell map holds every entity at the
entity's stored position, and suppose a cell at distance between 1 and the eat radius of
the season holds a living herbivore.  Then `Carnivore::attemptEat` (also through the
virtual call) returns `true`.  It has killed one herbivore `prey` that was alive, held by
the cell map and within the eat radius; the alive flag of every other object is
unchanged; `prey` is not in the herbivore registry and its cell is empty;
`herbivoresEaten` is one higher, `herbivoresDiedNatural` is unchanged, and the energy of
the carnivore is `min(maximumEnergy, e + 45)`. -/
theorem predation_scenario (w : World) (self : EntityId) (season : Season) (a : AnimalData)
    (hk : (w.heap self).kind = .carnivore a) (hal : (w.heap self).is_alive = true)
    (he0 : 0 ≤ a.currentEnergy) (he : a.currentEnergy * 100 < a.maximumEnergy * 90)
    (hcoh : ∀ (r c : Int) (e : EntityId), Grid.isValid r c = true →
      w.grid.cells_grid r c = some e → (w.heap e).r_coord = r ∧ (w.heap e).c_coord = c)
    (hprey : ∃ h : EntityId, (w.heap h).getType = .HERBIVORE ∧ (w.heap h).is_alive = true ∧
      Grid.isValid (w.heap h).r_coord (w.heap h).c_coord = true ∧
      w.grid.cells_grid (w.heap h).r_coord (w.heap h).c_coord = some h ∧
      1 ≤ max |(w.heap h).r_coord - (w.heap self).r_coord|
            |(w.heap h).c_coord - (w.heap self).c_coord| ∧
      max |(w.heap h).r_coord - (w.heap self).r_coord|
          |(w.heap h).c_coord - (w.heap self).c_coord| ≤ Carnivore.eatRadius a season) :
    ∃ (w1 : World) (prey : EntityId),
      Carnivore.attemptEat w self season = some (w1, true) ∧
      Animal.attemptEat w self season = some (w1, true) ∧
      (w.heap prey).getType = .HERBIVORE ∧ (w.heap prey).is_alive = true ∧
      w.grid.cells_grid (w.heap prey).r_coord (w.heap prey).c_coord = some prey ∧
      max |(w.heap prey).r_coord - (w.heap self).r_coord|
          |(w.heap prey).c_coord - (w.heap self).c_coord| ≤ Carnivore.eatRadius a season ∧
      (w1.heap prey).is_alive = false ∧
      (∀ e : EntityId, e ≠ prey → (w1.heap e).is_alive = (w.heap e).is_alive) ∧
      prey ∉ w1.grid.herbivores_list ∧
      w1.grid.cells_grid (w.heap prey).r_coord (w.heap prey).c_coord = none ∧
      w1.stats.herbivoresEaten = w.stats.herbivoresEaten + 1 ∧
      w1.stats.herbivoresDiedNatural = w.stats.herbivoresDiedNatural ∧
      (w1.heap self).energy = some (min a.maximumEnergy (a.currentEnergy + 45)) := by
  obtain ⟨h, hty, htal, hv, hc, hd1, hd2⟩ := hprey
  have hmem : ((w.heap h).r_coord - (w.heap self).r_coord,
      (w.heap h).c_coord - (w.heap self).c_coord) ∈
        Animal.eatOffsets (Carnivore.eatRadius a season) :=
    (mem_eatOffsets _ _).mpr ⟨hd1, hd2⟩
  have hback : ∀ x y : Int, y + (x - y) = x := fun x y => by omega
  obtain ⟨w1, prey, h1, hate, hin⟩ := Carnivore.scan_eats w self a hk he0 he hcoh
    (Animal.eatOffsets (Carnivore.eatRadius a season))
    ⟨_, hmem, h, by simpa only [hback] using hv, by simpa only [hback] using hc, hty, htal⟩
  have heq := Carnivore.attemptEat_eq w self season a (Entity.animal_of_carnivore hk) hal he
  refine ⟨w1, prey, heq.trans h1, ?_, hate.prey_type, hate.prey_alive, hate.prey_held,
    ((mem_eatOffsets _ _).mp hin).2, hate.prey_dead, hate.others, hate.unregistered,
    hate.cell_empty, hate.eaten, hate.natural, ?_⟩
  · unfold Animal.attemptEat
    rw [hk]
    exact heq.trans h1
  · unfold Entity.energy
    rw [hate.energy]
    rfl

/-- The carnivore of `predationWorld` eats the herbivore two cells to its right. -/
theorem predation_scenario_witness :
    ∃ (w1 : World) (prey : EntityId),
      Carnivore.attemptEat predationWorld 0 .SPRING = some (w1, true) ∧
      Animal.attemptEat predationWorld 0 .SPRING = some (w1, true) ∧
      (predationWorld.heap prey).getType = .HERBIVORE ∧
      (predationWorld.heap prey).is_alive = true ∧
      predationWorld.grid.cells_grid (predationWorld.heap prey).r_coord
        (predationWorld.heap prey).c_coord = some prey ∧
      max |(predationWorld.heap prey).r_coord - (predationWorld.heap 0).r_coord|
          |(predationWorld.heap prey).c_coord - (predationWorld.heap 0).c_coord|
        ≤ Carnivore.eatRadius hungryCarnivore .SPRING ∧
      (w1.heap prey).is_alive = false ∧
      (∀ e : EntityId, e ≠ prey → (w1.heap e).is_alive = (predationWorld.heap e).is_alive) ∧
      prey ∉ w1.grid.herbivores_list ∧
      w1.grid.cells_grid (predationWorld.heap prey).r_coord
        (predationWorld.heap prey).c_coord = none ∧
      w1.stats.herbivoresEaten = predationWorld.stats.herbivoresEaten + 1 ∧
      w1.stats.herbivoresDiedNatural = predationWorld.stats.herbivoresDiedNatural ∧
      (w1.heap 0).energy = some (min hungryCarnivore.maximumEnergy
        (hungryCarnivore.currentEnergy + 45)) :=
  predation_scenario predationWorld 0 .SPRING hungryCarnivore rfl rfl (by decide) (by decide)
    (by
      intro r c e _ hc
      simp only [predationWorld] at hc ⊢
      split at hc
      · next h5 =>
        cases hc
        exact ⟨h5.1.symm, h5.2.symm⟩
      · split at hc
        · next h7 =>
          cases hc
          exact ⟨h7.1.symm, h7.2.symm⟩
        · exact absurd hc (by simp))
    ⟨1, rfl, rfl, by decide, by decide, by decide, by decide⟩

/-! ## C20 : scenario, birth -/

/-- The candidate cells of `giveBirth` when an adjacent cell is empty, and in general
a list: the search never faults. -/
theorem Animal.birthCells_some (w : World) (self : EntityId) (a : AnimalData)
    (ha : (w.heap self).animal = some a) :
    ∃ locs, Animal.birthCells w self = some locs ∧
      ∀ adj, w.grid.getAdjacentEmptyCells (w.heap self).r_coord (w.heap self).c_coord = some adj →
        adj ≠ [] → locs = adj := by
  unfold Animal.birthCells
  rw [ha]
  simp only [Option.bind_eq_bind, Option.some_bind, Entity.getR, Entity.getC,
    Grid.getAdjacentEmptyCells_eq]
  split
  · next hempty =>
    rw [foldlM_append_eq (fun dr => (intRange (-a.sightRange) a.sightRange).flatMap (fun dc =>
      if dr = 0 ∧ dc = 0 then []
      else if Grid.isValid ((w.heap self).r_coord + dr) ((w.heap self).c_coord + dc) &&
          (w.grid.cells_grid ((w.heap self).r_coord + dr) ((w.heap self).c_coord + dc) == none)
        then [((w.heap self).r_coord + dr, (w.heap self).c_coord + dc)] else []))]
    · refine ⟨_, rfl, ?_⟩
      intro adj hadj hne
      simp only [Option.some.injEq] at hadj
      rw [hadj] at hempty
      exact absurd (List.isEmpty_iff.mp hempty) hne
    · intro acc dr _
      rw [foldlM_append_eq (fun dc =>
        if dr = 0 ∧ dc = 0 then []
        else if Grid.isValid ((w.heap self).r_coord + dr) ((w.heap self).c_coord + dc) &&
            (w.grid.cells_grid ((w.heap self).r_coord + dr) ((w.heap self).c_coord + dc) == none)
          then [((w.heap self).r_coord + dr, (w.heap self).c_coord + dc)] else [])]
      intro acc1 dc _
      by_cases h0 : dr = 0 ∧ dc = 0
      · simp [h0]
      · simp only [h0, if_false, Grid.isEmpty_eq, Option.pure_def, Option.bind_eq_bind,
          Option.some_bind]
        split <;> simp
  · refine ⟨_, rfl, ?_⟩
    intro adj hadj _
    simp only [Option.some.injEq] at hadj
    exact hadj

/-- The index `idx_birth` that the loop of `giveBirth` draws is inside the vector. -/
theorem birthIdx_lt (gen : List Nat) (locs : List (Int × Int)) (hne : locs ≠ []) :
    (if locs.length > 1 then getRandomInt gen 0 ((locs.length : Int) - 1)
      else (0, gen)).1.toNat < locs.length := by
  have hpos : 0 < locs.length := List.length_pos.mpr hne
  split
  · have h := getRandomInt_mem gen 0 ((locs.length : Int) - 1) (by omega)
    omega
  · exact hpos

/-- The loop of `Herbivore::giveBirth` never faults. -/
theorem Herbivore.birthLoop_some (n : Nat) :
    ∀ (locs : List (Int × Int)) (w : World), ∃ w1, Herbivore.birthLoop n locs w = some w1 := by
  induction n with
  | zero =>
    intro locs w
    exact ⟨w, rfl⟩
  | succ n ih =>
    intro locs w
    unfold Herbivore.birthLoop
    by_cases hE : locs.isEmpty = true
    · rw [if_pos hE]
      exact ⟨w, rfl⟩
    · rw [if_neg hE]
      dsimp only
      have hne : locs ≠ [] := fun h => hE (by rw [h]; rfl)
      rw [List.getElem?_eq_getElem (birthIdx_lt w.gen locs hne)]
      simp only [Option.bind_eq_bind, Option.some_bind, World.addEntity_some]
      exact ih _ _

theorem ite_eq_cases {α : Type} {c : Prop} [Decidable c] {a b x : α}
    (h : (if c then a else b) = x) : (c ∧ a = x) ∨ (¬ c ∧ b = x) := by
  split at h
  · exact Or.inl ⟨‹_›, h⟩
  · exact Or.inr ⟨‹_›, h⟩

theorem Herbivore.new_fields (gen : List Nat) (r c : Int) (g : Gender) :
    (Herbivore.new gen r c g).1.r_coord = r ∧ (Herbivore.new gen r c g).1.c_coord = c ∧
      (Herbivore.new gen r c g).1.is_alive = true ∧
      (Herbivore.new gen r c g).1.getType = .HERBIVORE :=
  ⟨rfl, rfl, rfl, rfl⟩

/-- One iteration of the loop of `Herbivore::giveBirth`: it draws a position of the
vector, allocates a living herbivore stored at the cell found there, and registers it at
that cell when `addEntity` accepts it. -/
theorem Herbivore.birthLoop_succ_elim {n : Nat} {locs : List (Int × Int)} {w w1 : World}
    (h : Herbivore.birthLoop (n + 1) locs w = some w1) (hne : locs ≠ []) :
    ∃ (k : Nat) (pos : Int × Int) (w3 : World), k < locs.length ∧ locs[k]? = some pos ∧
      Herbivore.birthLoop n (locs.eraseIdx k) w3 = some w1 ∧
      w3.nextId = w.nextId + 1 ∧ (∀ e : Nat, e ≠ w.nextId → w3.heap e = w.heap e) ∧
      (w3.heap w.nextId).getType = .HERBIVORE ∧ (w3.heap w.nextId).is_alive = true ∧
      (w3.heap w.nextId).r_coord = pos.1 ∧ (w3.heap w.nextId).c_coord = pos.2 ∧
      (((w.grid.population < MAX_POPULATION ∧ Grid.isValid pos.1 pos.2 = true ∧
            w.grid.cells_grid pos.1 pos.2 = none) ∧
          w3.grid = (w.grid.setCell pos.1 pos.2 (some w.nextId)).pushBack .HERBIVORE w.nextId ∧
          w3.stats.herbivoresSpawned = w.stats.herbivoresSpawned + 1) ∨
        (¬ (w.grid.population < MAX_POPULATION ∧ Grid.isValid pos.1 pos.2 = true ∧
            w.grid.cells_grid pos.1 pos.2 = none) ∧ w3.grid = w.grid ∧
          w3.stats.herbivoresSpawned = w.stats.herbivoresSpawned)) := by
  unfold Herbivore.birthLoop at h
  have hE : ¬ locs.isEmpty = true := fun hh => hne (List.isEmpty_iff.mp hh)
  rw [if_neg hE] at h
  dsimp only at h
  obtain ⟨pos, hpos, h⟩ := bind_some_elim h
  obtain ⟨r, hadd, h⟩ := bind_some_elim h
  obtain ⟨w2, added⟩ := r
  dsimp only at h
  have hk := birthIdx_lt w.gen locs hne
  rw [World.addEntity_some] at hadd
  simp only [Option.some.injEq] at hadd
  refine ⟨_, pos, _, hk, hpos, h, ?_⟩
  rcases ite_eq_cases hadd with ⟨hcond, hadd⟩ | ⟨hcond, hadd⟩
  · have hpop : w.grid.population < MAX_POPULATION ∧ Grid.isValid pos.1 pos.2 = true ∧
        w.grid.cells_grid pos.1 pos.2 = none :=
      ⟨hcond.1, by simpa [World.alloc] using hcond.2.1, by simpa [World.alloc] using hcond.2.2⟩
    simp only [Prod.mk.injEq] at hadd
    obtain ⟨h2, hb⟩ := hadd
    subst hb
    subst h2
    simp only [if_true]
    refine ⟨rfl, ?_, ?_, ?_, ?_, ?_, Or.inl ⟨hpop, ?_, rfl⟩⟩
    · intro e he
      simp [World.alloc, World.addMonthlyEvent, he]
    · simp [World.alloc, World.addMonthlyEvent, (Herbivore.new_fields _ _ _ _).2.2.2]
    · simp [World.alloc, World.addMonthlyEvent, (Herbivore.new_fields _ _ _ _).2.2.1]
    · simp [World.alloc, World.addMonthlyEvent, (Herbivore.new_fields _ _ _ _).1]
    · simp [World.alloc, World.addMonthlyEvent, (Herbivore.new_fields _ _ _ _).2.1]
    · simp [World.alloc, World.addMonthlyEvent, Herbivore.new_fields]
  · have hpop : ¬ (w.grid.population < MAX_POPULATION ∧ Grid.isValid pos.1 pos.2 = true ∧
        w.grid.cells_grid pos.1 pos.2 = none) := fun hp =>
      hcond ⟨hp.1, by simpa [World.alloc] using hp.2.1, by simpa [World.alloc] using hp.2.2⟩
    simp only [Prod.mk.injEq] at hadd
    obtain ⟨h2, hb⟩ := hadd
    subst hb
    subst h2
    simp only [Bool.false_eq_true, if_false]
    refine ⟨rfl, ?_, ?_, ?_, ?_, ?_, Or.inr ⟨hpop, rfl, rfl⟩⟩
    · intro e he
      simp [World.alloc, he]
    · simp [World.alloc, (Herbivore.new_fields _ _ _ _).2.2.2]
    · simp [World.alloc, (Herbivore.new_fields _ _ _ _).2.2.1]
    · simp [World.alloc, (Herbivore.new_fields _ _ _ _).1]
    · simp [World.alloc, (Herbivore.new_fields _ _ _ _).2.1]

/-- The loop of `Herbivore::giveBirth` writes to no object that existed before it. -/
theorem Herbivore.birthLoop_old (n : Nat) :
    ∀ {locs : List (Int × Int)} {w w1 : World}, Herbivore.birthLoop n locs w = some w1 →
      ∀ e : Nat, e < w.nextId → e < w1.nextId ∧ w1.heap e = w.heap e := by
  induction n with
  | zero =>
    intro locs w w1 h e he
    simp only [Herbivore.birthLoop, pure, Option.some.injEq] at h
    subst h
    exact ⟨he, rfl⟩
  | succ n ih =>
    intro locs w w1 h e he
    by_cases hne : locs = []
    · subst hne
      unfold Herbivore.birthLoop at h
      simp only [List.isEmpty_nil, if_true, pure, Option.some.injEq] at h
      subst h
      exact ⟨he, rfl⟩
    · obtain ⟨k, pos, w3, _, _, hrec, hnext, hheap, _⟩ := Herbivore.birthLoop_succ_elim h hne
      obtain ⟨h1, h2⟩ := ih hrec e (by rw [hnext]; omega)
      exact ⟨h1, by rw [h2, hheap e (by omega)]⟩

/-- The loop of `Herbivore::giveBirth` over distinct candidate cells that are valid and
empty. -/
theorem Herbivore.birthLoop_born (n : Nat) :
    ∀ {locs : List (Int × Int)} {w w1 : World}, Herbivore.birthLoop n locs w = some w1 →
      locs.Nodup →
      (∀ p ∈ locs, Grid.isValid p.1 p.2 = true ∧ w.grid.cells_grid p.1 p.2 = none) →
      ∃ children : List EntityId, Herbivore.Born w locs n w1 children := by
  induction n with
  | zero =>
    intro locs w w1 h _ _
    simp only [Herbivore.birthLoop, pure, Option.some.injEq] at h
    subst h
    exact ⟨[], ⟨Nat.le_refl _, Nat.zero_le _, fun h0 => absurd h0 (Nat.lt_irrefl _),
      (List.append_nil _).symm, rfl, rfl, by simp, fun _ h => h, fun _ _ => rfl,
      fun _ _ _ => rfl, List.Pairwise.nil, fun c hc => absurd hc (List.not_mem_nil _)⟩⟩
  | succ n ih =>
    intro locs w w1 h hnd hlocs
    by_cases hne : locs = []
    · subst hne
      unfold Herbivore.birthLoop at h
      simp only [List.isEmpty_nil, if_true, pure, Option.some.injEq] at h
      subst h
      exact ⟨[], ⟨Nat.zero_le _, Nat.zero_le _, fun _ h0 => absurd rfl h0,
        (List.append_nil _).symm, rfl, rfl, by simp, fun _ h => h, fun _ _ => rfl,
        fun _ _ _ => rfl, List.Pairwise.nil, fun c hc => absurd hc (List.not_mem_nil _)⟩⟩
    · obtain ⟨k, pos, w3, hk, hpos, hrec, hnext, hheap, hty, hal, hr, hc, hcase⟩ :=
        Herbivore.birthLoop_succ_elim h hne
      have hposmem : pos ∈ locs := List.getElem?_mem hpos
      have hcase : (w.grid.population < MAX_POPULATION ∧
          w3.grid = (w.grid.setCell pos.1 pos.2 (some w.nextId)).pushBack .HERBIVORE w.nextId ∧
          w3.stats.herbivoresSpawned = w.stats.herbivoresSpawned + 1) ∨
        (¬ w.grid.population < MAX_POPULATION ∧ w3.grid = w.grid ∧
          w3.stats.herbivoresSpawned = w.stats.herbivoresSpawned) := by
        rcases hcase with ⟨h1, h2⟩ | ⟨h1, h2⟩
        · exact Or.inl ⟨h1.1, h2⟩
        · exact Or.inr ⟨fun hp => h1 ⟨hp, hlocs pos hposmem⟩, h2⟩
      have hsub : ∀ p, p ∈ locs.eraseIdx k → p ∈ locs ∧ p ≠ pos := by
        intro p hp
        refine ⟨(List.eraseIdx_sublist locs k).subset hp, ?_⟩
        rintro rfl
        obtain ⟨i, hik, hi⟩ := List.mem_eraseIdx_iff_getElem?.mp hp
        exact hik ((List.getElem?_inj hk hnd (hpos.trans hi.symm)).symm)
      have hlen : (locs.eraseIdx k).length + 1 = locs.length := by
        rw [List.length_eraseIdx, if_pos hk]
        omega
      have hcells3 : ∀ r c : Int, (r, c) ≠ pos → w3.grid.cells_grid r c = w.grid.cells_grid r c := by
        intro r c hrc
        rcases hcase with ⟨_, hg, _⟩ | ⟨_, hg, _⟩
        · rw [hg]
          have : ¬ (r = pos.1 ∧ c = pos.2) := fun hh => hrc (Prod.ext hh.1 hh.2)
          simp [Grid.pushBack, Grid.setCell, this]
        · rw [hg]
      obtain ⟨ch, hb⟩ := ih hrec (List.Nodup.eraseIdx k hnd) (fun p hp => by
        obtain ⟨hin, hnp⟩ := hsub p hp
        refine ⟨(hlocs p hin).1, ?_⟩
        rw [hcells3 p.1 p.2 hnp]
        exact (hlocs p hin).2)
      have hposnot : pos ∉ locs.eraseIdx k := fun hp => (hsub pos hp).2 rfl
      have hold : ∀ e : Nat, e < w.nextId → w1.heap e = w.heap e := by
        intro e he
        rw [hb.old e (by rw [hnext]; omega), hheap e (by omega)]
      have hnew : w1.heap w.nextId = w3.heap w.nextId := hb.old _ (by rw [hnext]; omega)
      have hchild : ∀ c : Nat, c ∈ ch → ¬ c < w.nextId ∧ c < w1.nextId ∧
          (w1.heap c).getType = .HERBIVORE ∧ (w1.heap c).is_alive = true ∧
          ((w1.heap c).r_coord, (w1.heap c).c_coord) ∈ locs ∧
          w1.grid.cells_grid (w1.heap c).r_coord (w1.heap c).c_coord = some c := by
        intro c hc1
        obtain ⟨h1, h2, h3, h4, h5, h6⟩ := hb.child c hc1
        rw [hnext] at h1
        exact ⟨by omega, h2, h3, h4, (hsub _ h5).1, h6⟩
      have hcellsfin : ∀ r c : Int, (r, c) ∉ locs → w1.grid.cells_grid r c = w.grid.cells_grid r c := by
        intro r c hrc
        rw [hb.cells r c (fun hh => hrc (hsub _ hh).1)]
        exact hcells3 r c (fun hh => hrc (hh ▸ hposmem))
      rcases hcase with ⟨hpop, hg, hst⟩ | ⟨hpop, hg, hst⟩
      · refine ⟨w.nextId :: ch, ⟨?_, ?_, ?_, ?_, ?_, ?_, ?_, ?_, hold, hcellsfin, ?_, ?_⟩⟩
        · have := hb.le_n
          simp only [List.length_cons]
          omega
        · have := hb.le_locs
          simp only [List.length_cons]
          omega
        · intro _ _ _
          simp only [List.length_cons]
          omega
        · rw [hb.herbivores, hg]
          simp [Grid.pushBack, Grid.setCell]
        · rw [hb.plants, hg]
          rfl
        · rw [hb.carnivores, hg]
          rfl
        · rw [hb.spawned, hst]
          simp only [List.length_cons]
          push_cast
          omega
        · intro e he
          exact hb.nextId_le e (by rw [hnext]; omega)
        · refine List.Pairwise.cons ?_ hb.sorted
          intro c hc1
          have := (hb.child c hc1).1
          rw [hnext] at this
          exact Nat.lt_of_succ_le (Nat.le_of_not_lt this)
        · intro c hc1
          rcases List.mem_cons.mp hc1 with rfl | hc2
          · refine ⟨Nat.lt_irrefl _, hb.nextId_le _ (by rw [hnext]; omega), ?_, ?_, ?_, ?_⟩
            · rw [hnew]; exact hty
            · rw [hnew]; exact hal
            · rw [hnew, hr, hc]; exact hposmem
            · rw [hnew, hr, hc, hb.cells pos.1 pos.2 hposnot, hg]
              simp [Grid.pushBack, Grid.setCell]
          · exact hchild c hc2
      · refine ⟨ch, ⟨?_, ?_, ?_, ?_, ?_, ?_, ?_, ?_, hold, hcellsfin, hb.sorted, hchild⟩⟩
        · have := hb.le_n
          omega
        · have := hb.le_locs
          omega
        · intro _ _ hp
          exact absurd hp hpop
        · rw [hb.herbivores, hg]
        · rw [hb.plants, hg]
        · rw [hb.carnivores, hg]
        · rw [hb.spawned, hst]
        · intro e he
          exact hb.nextId_le e (by rw [hnext]; omega)

/-- The adjacent empty cells are distinct, valid and empty. -/
theorem Grid.adjacentEmpty_facts (g : Grid) (r c : Int) :
    ∃ adj, g.getAdjacentEmptyCells r c = some adj ∧ adj.Nodup ∧
      ∀ p ∈ adj, Grid.isValid p.1 p.2 = true ∧ g.cells_grid p.1 p.2 = none := by
  refine ⟨_, Grid.getAdjacentEmptyCells_eq g r c, ?_, ?_⟩
  · refine List.Nodup.filter _ ?_
    refine List.Nodup.map ?_ (by decide)
    intro a b hab
    simp only [Prod.mk.injEq] at hab
    ext <;> omega
  · intro p hp
    rw [List.mem_filter] at hp
    simpa using hp.2

/-- `Herbivore::giveBirth` of a living herbivore never faults: it runs its loop, for one
to three offspring, over the candidate cells when there is one. -/
theorem Herbivore.giveBirth_eq (w : World) (self : EntityId) (a : AnimalData)
    (ha : (w.heap self).animal = some a) (hal : (w.heap self).is_alive = true) :
    ∃ (locs : List (Int × Int)) (n : Nat) (gen1 : List Nat),
      Animal.birthCells w self = some locs ∧ 1 ≤ n ∧ n ≤ 3 ∧
      Herbivore.giveBirth w self =
        if locs.isEmpty then some w else Herbivore.birthLoop n locs { w with gen := gen1 } := by
  obtain ⟨locs, hlocs, _⟩ := Animal.birthCells_some w self a ha
  have hr := getRandomInt_mem w.gen 1 3 (by decide)
  refine ⟨locs, (getRandomInt w.gen 1 3).1.toNat, (getRandomInt w.gen 1 3).2, hlocs,
    by omega, by omega, ?_⟩
  unfold Herbivore.giveBirth
  have h0 : ¬ ((!(w.heap self).isAlive) = true) := by simp [Entity.isAlive, hal]
  rw [if_neg h0, hlocs]
  rfl

theorem Animal.die_gen (w : World) (self : EntityId) (eaten : Bool) :
    (Animal.die w self eaten).gen = w.gen := by
  unfold Animal.die
  split
  · rfl
  · dsimp only
    split
    · split
      · rfl
      · split <;> rfl
    · rfl

theorem Animal.die_spawned (w : World) (self : EntityId) (eaten : Bool) :
    (Animal.die w self eaten).stats.herbivoresSpawned = w.stats.herbivoresSpawned := by
  unfold Animal.die
  split
  · rfl
  · dsimp only
    split
    · split
      · rfl
      · split <;> rfl
    · rfl

/-- The birth block of `Animal::update` for a herbivore whose gestation is complete,
given the world `wb` that its `giveBirth` returns. -/
theorem Animal.birthPhase_due (w wb : World) (self : EntityId) (a : AnimalData)
    (hk : (w.heap self).kind = .herbivore a)
    (hp : a.currentlyPregnant = true) (hg : a.periodOfGestation ≤ a.currentGestationProgress)
    (hwb : Herbivore.giveBirth w self = some wb) (hsame : wb.heap self = w.heap self) :
    ∃ w1, Animal.birthPhase w self = some w1 ∧
      w1.grid = wb.grid ∧ w1.gen = wb.gen ∧ w1.nextId = wb.nextId ∧
      (∀ e : EntityId, e ≠ self → w1.heap e = wb.heap e) ∧
      w1.stats.herbivoresSpawned = wb.stats.herbivoresSpawned ∧
      (w1.heap self).kind = .herbivore { a with
        currentlyPregnant := false, currentGestationProgress := 0,
        currentCooldownForReproduction := a.cooldownForReproduction,
        currentEnergy := a.currentEnergy - Int.tdiv a.maximumEnergy 3 } := by
  have ha := Entity.animal_of_herbivore hk
  have hgb : Animal.giveBirth w self = some wb := by
    unfold Animal.giveBirth
    rw [hk]
    exact hwb
  unfold Animal.birthPhase
  rw [ha]
  simp only [Option.bind_eq_bind, Option.some_bind]
  rw [if_pos ⟨hp, hg⟩, hgb]
  simp only [Option.some_bind]
  rw [hsame, ha]
  simp only [Option.some_bind]
  generalize ha3 : ({ a with
        currentlyPregnant := false, currentGestationProgress := 0,
        currentCooldownForReproduction := a.cooldownForReproduction,
        currentEnergy := a.currentEnergy - Int.tdiv a.maximumEnergy 3 } : AnimalData) = a3
  have hanim : ((wb.modify self (fun e => e.setAnimal a3)).heap self).kind = .herbivore a3 := by
    rw [World.modify_heap_self, hsame]
    unfold Entity.setAnimal
    rw [hk]
  split
  · refine ⟨_, rfl, ?_, ?_, ?_, ?_, ?_, ?_⟩
    · rw [Animal.die_grid]; rfl
    · rw [Animal.die_gen]; rfl
    · rw [Animal.die_nextId]; rfl
    · intro e he
      rw [Animal.die_heap]
      simp [World.modify, he]
    · rw [Animal.die_spawned]; rfl
    · rw [Animal.die_heap, World.modify_heap_self]
      exact hanim
  · exact ⟨_, rfl, rfl, rfl, rfl, fun e he => World.modify_heap_other _ _ he, rfl, hanim⟩

/-- The birth block of `Animal::update` for an allocated living herbivore whose gestation
is complete: `giveBirth` and the block return, the block leaves the world of `giveBirth`
but for the members of the mother, and with an empty adjacent cell the herbivores added
are a list `children` of new objects, each stored at and held by an empty adjacent
cell of its own. -/
theorem Animal.birthPhase_scenario (w : World) (self : EntityId) (a : AnimalData)
    (hk : (w.heap self).kind = .herbivore a) (hal : (w.heap self).is_alive = true)
    (hself : self < w.nextId)
    (hp : a.currentlyPregnant = true)
    (hg : a.periodOfGestation ≤ a.currentGestationProgress) :
    ∃ (wb w1 : World) (adj : List (Int × Int)),
      Herbivore.giveBirth w self = some wb ∧ Animal.birthPhase w self = some w1 ∧
      (∀ (w0 wa : World) (season : Season), Animal.baseUpdate w0 self season = some wa →
        Animal.ifAlive self (fun u => Animal.eatPhase u self season) wa = some w →
        Animal.update w0 self season =
          (Animal.ifAlive self (fun u => Animal.matePhase u self season) w1).bind (fun w5 =>
            Animal.ifAlive self (fun u => Animal.movePhase u self season) w5)) ∧
      w1.grid = wb.grid ∧ w1.gen = wb.gen ∧ w1.nextId = wb.nextId ∧
      (∀ e : EntityId, e ≠ self → w1.heap e = wb.heap e) ∧
      (w1.heap self).kind = .herbivore { a with
        currentlyPregnant := false, currentGestationProgress := 0,
        currentCooldownForReproduction := a.cooldownForReproduction,
        currentEnergy := a.currentEnergy - Int.tdiv a.maximumEnergy 3 } ∧
      w.grid.getAdjacentEmptyCells (w.heap self).r_coord (w.heap self).c_coord = some adj ∧
      (adj ≠ [] → ∃ children : List EntityId,
        children.length ≤ 3 ∧ children.length ≤ adj.length ∧
        (w.grid.population < MAX_POPULATION → 1 ≤ children.length) ∧
        w1.grid.herbivores_list = w.grid.herbivores_list ++ children ∧
        w1.grid.plants_list = w.grid.plants_list ∧
        w1.grid.carnivores_list = w.grid.carnivores_list ∧
        w1.stats.herbivoresSpawned = w.stats.herbivoresSpawned + children.length ∧
        children.Nodup ∧
        (children.map (fun c => ((w1.heap c).r_coord, (w1.heap c).c_coord))).Nodup ∧
        ∀ c : Nat, c ∈ children → ¬ c < w.nextId ∧
          (w1.heap c).getType = .HERBIVORE ∧ (w1.heap c).is_alive = true ∧
          ((w1.heap c).r_coord, (w1.heap c).c_coord) ∈ adj ∧
          Grid.isValid (w1.heap c).r_coord (w1.heap c).c_coord = true ∧
          w.grid.cells_grid (w1.heap c).r_coord (w1.heap c).c_coord = none ∧
          w1.grid.cells_grid (w1.heap c).r_coord (w1.heap c).c_coord = some c) := by
  have ha := Entity.animal_of_herbivore hk
  obtain ⟨locs, n, gen1, hbc, hn1, hn3, hgb⟩ := Herbivore.giveBirth_eq w self a ha hal
  obtain ⟨locs1, hbc1, hlink⟩ := Animal.birthCells_some w self a ha
  obtain ⟨adj, hadj, hnd, hadjp⟩ :=
    Grid.adjacentEmpty_facts w.grid (w.heap self).r_coord (w.heap self).c_coord
  have hll : locs1 = locs := Option.some.inj (hbc1.symm.trans hbc)
  subst hll
  have hwb : ∃ wb, Herbivore.giveBirth w self = some wb ∧ wb.heap self = w.heap self ∧
      (locs1.isEmpty = false → Herbivore.birthLoop n locs1 { w with gen := gen1 } = some wb) := by
    rw [hgb]
    by_cases hE : locs1.isEmpty = true
    · rw [if_pos hE]
      exact ⟨w, rfl, rfl, fun h => absurd hE (by rw [h]; decide)⟩
    · rw [if_neg hE]
      obtain ⟨wb, hloop⟩ := Herbivore.birthLoop_some n locs1 { w with gen := gen1 }
      exact ⟨wb, hloop, (Herbivore.birthLoop_old n hloop self hself).2, fun _ => hloop⟩
  obtain ⟨wb, hgive, hsame, hloop⟩ := hwb
  obtain ⟨w1, hbp, hgrid, hgen, hnext, hoth, hsp, hmother⟩ :=
    Animal.birthPhase_due w wb self a hk hp hg hgive hsame
  refine ⟨wb, w1, adj, hgive, hbp, ?_, hgrid, hgen, hnext, hoth, hmother, hadj, ?_⟩
  · intro w0 wa season hbase heat
    have h0 : ¬ ((!(w.heap self).isAlive) = true) := by simp [Entity.isAlive, hal]
    rw [Animal.update_eq_phases, hbase, Option.some_bind, heat, Option.some_bind,
      Animal.ifAlive_alive _ h0, hbp, Option.some_bind]
  · intro hne
    have hla : locs1 = adj := hlink adj hadj hne
    subst hla
    have hE : locs1.isEmpty = false := by
      cases locs1 with
      | nil => exact absurd rfl hne
      | cons x xs => rfl
    obtain ⟨children, hb⟩ := Herbivore.birthLoop_born n (hloop hE) hnd hadjp
    have hcs : ∀ c : Nat, c ∈ children → c ≠ self := by
      intro c hc hcs
      have := (hb.child c hc).1
      rw [hcs] at this
      exact this hself
    have hheap : ∀ c : Nat, c ∈ children → w1.heap c = wb.heap c := fun c hc => hoth c (hcs c hc)
    refine ⟨children, le_trans hb.le_n hn3, hb.le_locs, fun hpop => hb.some_born hn1 hne hpop,
      ?_, ?_, ?_, ?_, hb.sorted.imp (fun h => Nat.ne_of_lt h), ?_, ?_⟩
    · rw [hgrid]; exact hb.herbivores
    · rw [hgrid]; exact hb.plants
    · rw [hgrid]; exact hb.carnivores
    · rw [hsp]; exact hb.spawned
    · refine List.Nodup.map_on ?_ (hb.sorted.imp (fun h => Nat.ne_of_lt h))
      intro c1 h1 c2 h2 heq
      have e1 := (hb.child c1 h1).2.2.2.2.2
      have e2 := (hb.child c2 h2).2.2.2.2.2
      rw [← hheap c1 h1] at e1
      rw [← hheap c2 h2] at e2
      simp only [Prod.mk.injEq] at heq
      rw [heq.1, heq.2, e2] at e1
      exact (Option.some.inj e1).symm
    · intro c hc
      obtain ⟨h1, _, h3, h4, h5, h6⟩ := hb.child c hc
      rw [hheap c hc, hgrid]
      exact ⟨h1, h3, h4, h5, (hadjp _ h5).1, (hadjp _ h5).2, h6⟩

/-! ### The mate and move phases after a birth -/

theorem World.SameBrood.rfl_of (w : World) : World.SameBrood w w := fun _ => rfl

theorem World.SameBrood.trans_of {w w1 w2 : World} (h1 : World.SameBrood w w1)
    (h2 : World.SameBrood w1 w2) : World.SameBrood w w2 := fun i => (h2 i).trans (h1 i)

theorem Entity.brood_isSome {ent ent1 : Entity} {a : AnimalData}
    (h : ent1.brood = ent.brood) (ha : ent.animal = some a) : ∃ a1, ent1.animal = some a1 := by
  unfold Entity.brood at h
  rw [ha] at h
  cases h1 : ent1.animal with
  | none => rw [h1] at h; exact absurd h (by simp)
  | some a1 => exact ⟨a1, rfl⟩

theorem Entity.brood_setCurrentEnergy {ent : Entity} {a : AnimalData} (x : Int)
    (ha : ent.animal = some a) :
    (ent.setAnimal (Animal.setCurrentEnergy a x)).brood = ent.brood := by
  unfold Entity.brood
  rw [Entity.setAnimal_animal _ ha, ha]
  rfl

theorem World.sameBrood_modify (w : World) (e : EntityId) (f : Entity → Entity)
    (h : (f (w.heap e)).brood = (w.heap e).brood) : World.SameBrood w (w.modify e f) := by
  intro i
  by_cases hi : i = e
  · subst hi
    rw [World.modify_heap_self]
    exact h
  · rw [World.modify_heap_other _ _ hi]

theorem Animal.die_sameBrood (w : World) (self : EntityId) (eaten : Bool) :
    World.SameBrood w (Animal.die w self eaten) := by
  intro i
  rw [Animal.die_heap]
  exact World.sameBrood_modify w self Entity.kill rfl i

/-- `moveEntity` never faults and leaves the pregnancy members alone. -/
theorem World.moveEntity_sameBrood (w : World) (ent : Option EntityId) (newR newC : Int) :
    ∃ w1, w.moveEntity ent newR newC = some w1 ∧ World.SameBrood w w1 := by
  cases ent with
  | none => exact ⟨w, rfl, World.SameBrood.rfl_of w⟩
  | some e =>
    rw [World.moveEntity_some]
    refine ⟨_, rfl, ?_⟩
    intro i
    dsimp only
    split
    · by_cases hi : i = e
      · subst hi
        simp [Entity.brood, Entity.animal]
      · simp [hi]
    · by_cases hi : i = e
      · subst hi
        simp [Entity.brood, Entity.animal]
      · simp [hi]

theorem Animal.payMove_sameBrood (w : World) (self : EntityId) (a : AnimalData)
    (ha : (w.heap self).animal = some a) :
    ∃ w1, Animal.payMove w self = some w1 ∧ World.SameBrood w w1 := by
  unfold Animal.payMove
  rw [ha]
  exact ⟨_, rfl, World.sameBrood_modify w self _ (Entity.brood_setCurrentEnergy _ ha)⟩

/-- A step of `move`: `moveEntity` on whatever the own cell holds, then the energy cost. -/
theorem Animal.step_sameBrood (w w0 : World) (hh : w0.heap = w.heap) (self : EntityId)
    (a : AnimalData) (ha : (w.heap self).animal = some a) (ent : Option EntityId)
    (newR newC : Int) :
    ∃ w1, (w0.moveEntity ent newR newC).bind (fun w2 => Animal.payMove w2 self) = some w1 ∧
      World.SameBrood w w1 := by
  obtain ⟨w2, h2, hb2⟩ := World.moveEntity_sameBrood w0 ent newR newC
  have hb0 : World.SameBrood w w2 := fun i => by rw [hb2 i, hh]
  obtain ⟨a2, ha2⟩ := Entity.brood_isSome (hb0 self) ha
  obtain ⟨w1, h1, hb1⟩ := Animal.payMove_sameBrood w2 self a2 ha2
  exact ⟨w1, by rw [h2]; exact h1, hb0.trans_of hb1⟩

theorem Animal.moveRandom_sameBrood (w : World) (self : EntityId) (a : AnimalData)
    (ha : (w.heap self).animal = some a) :
    ∃ w1, Animal.moveRandom w self = some w1 ∧ World.SameBrood w w1 := by
  unfold Animal.moveRandom
  simp only [Entity.getR, Entity.getC, Grid.getAdjacentEmptyCells_eq, Option.bind_eq_bind,
    Option.some_bind, Grid.getEntity_eq]
  split
  · next hne =>
    have hne1 : (List.filter (fun p => Grid.isValid p.1 p.2 && (w.grid.cells_grid p.1 p.2 == none))
        (List.map (fun d : Int × Int => ((w.heap self).r_coord + d.1, (w.heap self).c_coord + d.2))
          [(-1, -1), (-1, 0), (-1, 1), (0, -1), (0, 1), (1, -1), (1, 0), (1, 1)])) ≠ [] := by
      intro h0
      rw [h0] at hne
      exact absurd hne (by decide)
    rw [List.getElem?_eq_getElem (birthIdx_lt w.gen _ hne1)]
    simp only [Option.some_bind]
    exact Animal.step_sameBrood w _ (by rfl) self a ha _ _ _
  · exact ⟨w, rfl, World.SameBrood.rfl_of w⟩

/-- A loop run in `Option` succeeds when each of its iterations does. -/
theorem foldlM_some {α β : Type} (step : β → α → Option β)
    (hstep : ∀ acc x, ∃ r, step acc x = some r) (xs : List α) :
    ∀ acc : β, ∃ r, xs.foldlM step acc = some r := by
  induction xs with
  | nil => exact fun acc => ⟨acc, rfl⟩
  | cons x xs ih =>
    intro acc
    obtain ⟨r, hr⟩ := hstep acc x
    rw [List.foldlM_cons, hr]
    exact ih r

theorem Herbivore.fleeChoice_some (w : World) (self : EntityId) (cs : List EntityId) :
    ∃ best, Herbivore.fleeChoice w self cs = some best := by
  unfold Herbivore.fleeChoice
  split
  · unfold Herbivore.fleeTarget
    dsimp only
    obtain ⟨st, hst⟩ := foldlM_some
      (fun (st : (Int × Int) × ℚ) dr_move =>
        (intRange (-1) 1).foldlM
          (fun (st : (Int × Int) × ℚ) dc_move =>
            if dr_move = 0 ∧ dc_move = 0 then pure st
            else do
              let nr_move := (w.heap self).getR + dr_move
              let nc_move := (w.heap self).getC + dc_move
              if (← w.grid.isEmpty nr_move nc_move) then
                let dsq_flee := Herbivore.dsqFlee
                  (Herbivore.avgCarn (cs.map (fun c_entity => (w.heap c_entity).getR)))
                  (Herbivore.avgCarn (cs.map (fun c_entity => (w.heap c_entity).getC)))
                  nr_move nc_move
                if dsq_flee > st.2 then pure ((nr_move, nc_move), dsq_flee) else pure st
              else pure st)
          st)
      (fun acc dr => foldlM_some _ (fun acc1 dc => by
        by_cases h0 : dr = 0 ∧ dc = 0
        · exact ⟨acc1, by simp [h0]⟩
        · simp only [h0, if_false, Grid.isEmpty_eq, Option.pure_def, Option.bind_eq_bind,
            Option.some_bind]
          split
          · split
            · exact ⟨_, rfl⟩
            · exact ⟨_, rfl⟩
          · exact ⟨_, rfl⟩) _ acc)
      (intRange (-1) 1)
      (((w.heap self).getR, (w.heap self).getC), -1)
    exact ⟨st.1, by rw [hst]; rfl⟩
  · exact ⟨_, rfl⟩

theorem Animal.canStepOnto_some (w : World) (nr nc : Int) (t : EntityType) :
    ∃ b, Animal.canStepOnto w nr nc t = some b := by
  unfold Animal.canStepOnto
  simp only [Grid.isEmpty_eq, Grid.getEntity_eq, Option.bind_eq_bind, Option.some_bind]
  split
  · split
    · exact ⟨_, rfl⟩
    · split <;> exact ⟨_, rfl⟩
  · exact ⟨_, rfl⟩

theorem Animal.nearbyIf_some (w : World) (self : EntityId) (hungry : Bool) (t : EntityType)
    (k : Int) : ∃ l, Animal.nearbyIf w self hungry t k = some l := by
  unfold Animal.nearbyIf
  split
  · exact ⟨_, World.findNearbyEntities_eq _ _ _ _ _⟩
  · exact ⟨_, rfl⟩

/-- `Herbivore::move` never faults and leaves the pregnancy members alone. -/
theorem Herbivore.move_sameBrood (w : World) (self : EntityId) (season : Season)
    (a : AnimalData) (ha : (w.heap self).animal = some a) :
    ∃ w1, Herbivore.move w self season = some w1 ∧ World.SameBrood w w1 := by
  unfold Herbivore.move
  split
  · exact ⟨w, rfl, World.SameBrood.rfl_of w⟩
  · rw [ha]
    simp only [Option.bind_eq_bind, Option.some_bind]
    split
    · exact ⟨_, rfl, Animal.die_sameBrood w self false⟩
    · rw [World.findNearbyEntities_eq]
      simp only [Option.some_bind]
      generalize (scanOffsets (a.sightRange + (if season = .SUMMER then 1 else 0)
          - (if season = .WINTER then 1 else 0))).filterMap
            (nearbyAt w (w.heap self).getR (w.heap self).getC .CARNIVORE) = cs
      obtain ⟨best, hbest⟩ := Herbivore.fleeChoice_some w self cs
      rw [hbest]
      simp only [Option.some_bind]
      split
      · rw [Grid.getEntity_eq]
        simp only [Option.some_bind]
        exact Animal.step_sameBrood w w rfl self a ha _ _ _
      · obtain ⟨plants, hplants⟩ := Animal.nearbyIf_some w self
          (decide (a.currentEnergy * 100 < a.maximumEnergy * 90)) .PLANT a.sightRange
        rw [hplants]
        simp only [Option.some_bind]
        cases hcl : Animal.closestOf w self plants with
        | none => exact Animal.moveRandom_sameBrood w self a ha
        | some closest =>
          dsimp only
          obtain ⟨b, hb⟩ := Animal.canStepOnto_some w
            ((w.heap self).getR + Animal.stepToward (w.heap closest).getR (w.heap self).getR)
            ((w.heap self).getC + Animal.stepToward (w.heap closest).getC (w.heap self).getC)
            .PLANT
          rw [hb]
          simp only [Option.some_bind]
          split
          · rw [Grid.getEntity_eq]
            simp only [Option.some_bind]
            exact Animal.step_sameBrood w w rfl self a ha _ _ _
          · exact Animal.moveRandom_sameBrood w self a ha

/-- The move phase of `Animal::update` of a herbivore never faults and leaves the
pregnancy members alone. -/
theorem Animal.movePhase_sameBrood (w : World) (self : EntityId) (season : Season)
    (a : AnimalData) (hk : (w.heap self).kind = .herbivore a) :
    ∃ w1, Animal.ifAlive self (fun u => Animal.movePhase u self season) w = some w1 ∧
      World.SameBrood w w1 := by
  unfold Animal.ifAlive
  split
  · exact ⟨w, rfl, World.SameBrood.rfl_of w⟩
  · have ha := Entity.animal_of_herbivore hk
    obtain ⟨w6, h6, hb6⟩ := Herbivore.move_sameBrood w self season a ha
    obtain ⟨a6, ha6⟩ := Entity.brood_isSome (hb6 self) ha
    have hm : Animal.move w self season = some w6 := by
      unfold Animal.move
      rw [hk]
      exact h6
    unfold Animal.movePhase
    dsimp only
    rw [hm]
    simp only [Option.bind_eq_bind, Option.some_bind]
    rw [ha6]
    simp only [Option.some_bind]
    split
    · exact ⟨_, rfl, hb6.trans_of (Animal.die_sameBrood w6 self false)⟩
    · exact ⟨_, rfl, hb6⟩

/-- The mate phase of `Animal::update` does nothing for an animal whose cooldown is
running. -/
theorem Animal.matePhase_skip (w : World) (self : EntityId) (season : Season)
    (a : AnimalData) (ha : (w.heap self).animal = some a)
    (hcd : a.currentCooldownForReproduction ≠ 0) :
    Animal.ifAlive self (fun u => Animal.matePhase u self season) w = some w := by
  unfold Animal.ifAlive
  split
  · rfl
  · unfold Animal.matePhase
    dsimp only
    rw [ha]
    simp only [Option.bind_eq_bind, Option.some_bind]
    rw [if_neg (fun h => hcd h.2.2.1)]
    rfl

/-- C20.  Scenario, birth.  Let `w` be the world in which `Animal::update` of an
allocated herbivore arrives at its birth block, alive, pregnant and with
`currentGestationProgress` at least `periodOfGestation`.  Then `Herbivore::giveBirth`
returns a world `wb`, the birth block returns a world `w1`, and `Animal::update`
continues from `w1` with its mate and move phases.  The block has run `giveBirth` once:
`w1` is `wb` but for the members of the mother, whose `currentlyPregnant` is `false` and
whose `currentGestationProgress` is 0; with the non-zero `cooldownForReproduction` of
every herbivore the whole update returns and the two members still have these values
at its end.  When an adjacent cell is empty, the herbivores added are the list
`children`: at most 3, at most as many as there are empty adjacent cells, at least 1
when the population is below `MAX_POPULATION`; they are appended to the herbivore
registry, `herbivoresSpawned` has grown by their number, they are new living herbivores,
and each is stored at, and held by, a cell of its own that was an empty adjacent cell. -/
theorem birth_scenario (w : World) (self : EntityId) (a : AnimalData)
    (hk : (w.heap self).kind = .herbivore a) (hal : (w.heap self).is_alive = true)
    (hself : self < w.nextId)
    (hp : a.currentlyPregnant = true)
    (hg : a.periodOfGestation ≤ a.currentGestationProgress) :
    ∃ (wb w1 : World) (adj : List (Int × Int)),
      Herbivore.giveBirth w self = some wb ∧ Animal.birthPhase w self = some w1 ∧
      (∀ (w0 wa : World) (season : Season), Animal.baseUpdate w0 self season = some wa →
        Animal.ifAlive self (fun u => Animal.eatPhase u self season) wa = some w →
        Animal.update w0 self season =
          (Animal.ifAlive self (fun u => Animal.matePhase u self season) w1).bind (fun w5 =>
            Animal.ifAlive self (fun u => Animal.movePhase u self season) w5) ∧
        (a.cooldownForReproduction ≠ 0 →
          ∃ wu, Animal.update w0 self season = some wu ∧
            (wu.heap self).brood = some (false, 0))) ∧
      w1.grid = wb.grid ∧ w1.gen = wb.gen ∧ w1.nextId = wb.nextId ∧
      (∀ e : EntityId, e ≠ self → w1.heap e = wb.heap e) ∧
      (w1.heap self).brood = some (false, 0) ∧
      w.grid.getAdjacentEmptyCells (w.heap self).r_coord (w.heap self).c_coord = some adj ∧
      (adj ≠ [] → ∃ children : List EntityId,
        children.length ≤ 3 ∧ children.length ≤ adj.length ∧
        (w.grid.population < MAX_POPULATION → 1 ≤ children.length) ∧
        w1.grid.herbivores_list = w.grid.herbivores_list ++ children ∧
        w1.grid.plants_list = w.grid.plants_list ∧
        w1.grid.carnivores_list = w.grid.carnivores_list ∧
        w1.stats.herbivoresSpawned = w.stats.herbivoresSpawned + children.length ∧
        children.Nodup ∧
        (children.map (fun c => ((w1.heap c).r_coord, (w1.heap c).c_coord))).Nodup ∧
        ∀ c : Nat, c ∈ children → ¬ c < w.nextId ∧
          (w1.heap c).getType = .HERBIVORE ∧ (w1.heap c).is_alive = true ∧
          ((w1.heap c).r_coord, (w1.heap c).c_coord) ∈ adj ∧
          Grid.isValid (w1.heap c).r_coord (w1.heap c).c_coord = true ∧
          w.grid.cells_grid (w1.heap c).r_coord (w1.heap c).c_coord = none ∧
          w1.grid.cells_grid (w1.heap c).r_coord (w1.heap c).c_coord = some c) := by
  obtain ⟨wb, w1, adj, hgive, hbp, hupd, hgrid, hgen, hnext, hoth, hmother, hadj, hch⟩ :=
    Animal.birthPhase_scenario w self a hk hal hself hp hg
  have ham := Entity.animal_of_herbivore hmother
  have hbrood : (w1.heap self).brood = some (false, 0) := by
    unfold Entity.brood
    rw [ham]
    rfl
  refine ⟨wb, w1, adj, hgive, hbp, ?_, hgrid, hgen, hnext, hoth, hbrood, hadj, hch⟩
  intro w0 wa season hbase heat
  refine ⟨hupd w0 wa season hbase heat, fun hcd => ?_⟩
  rw [hupd w0 wa season hbase heat, Animal.matePhase_skip w1 self season _ ham hcd,
    Option.some_bind]
  obtain ⟨wu, hwu, hbu⟩ := Animal.movePhase_sameBrood w1 self season _ hmother
  exact ⟨wu, hwu, (hbu self).trans hbrood⟩

/-- The mother of `birthWorld` gives birth to at least one and at most three
herbivores, and is not pregnant afterwards. -/
theorem birth_scenario_witness :
    ∃ (w1 : World) (children : List EntityId),
      Animal.birthPhase birthWorld 0 = some w1 ∧
      (w1.heap 0).brood = some (false, 0) ∧
      1 ≤ children.length ∧ children.length ≤ 3 ∧
      w1.grid.herbivores_list = [0] ++ children ∧
      w1.stats.herbivoresSpawned = (children.length : Int) := by
  obtain ⟨wb, w1, adj, _, hbp, _, _, _, _, _, hbrood, hadj, hch⟩ :=
    birth_scenario birthWorld 0 dueMother rfl rfl (by decide) rfl (by decide)
  have hne : adj ≠ [] := by
    rw [Grid.getAdjacentEmptyCells_eq] at hadj
    cases hadj
    decide
  obtain ⟨children, h3, _, h1, hlist, _, _, hsp, _⟩ := hch hne
  exact ⟨w1, children, hbp, hbrood, h1 (by decide), h3, hlist, by rw [hsp]; simp [birthWorld]⟩

/-! ## C30 : the arithmetic of `Animal::baseUpdate` -/

/-- C30.  For a living animal with members `a`, `Animal::baseUpdate` returns; it writes
to no other object and not to the grid; afterwards the age and the missed-meal count of
the animal are one higher, a positive cooldown is one lower, the energy is
`e - (1 + c' / 2)` with the truncating division of C++, where `c'` is `c + 5` in Winter,
`c + 2` in Autumn, `max(1, c - 2)` in Summer and `c` otherwise, less 3 when the animal is
pregnant, in which case the gestation progress is one higher; every other member is as
before; and the animal is dead afterwards exactly when the new energy is at most 0, the
new age exceeds `maximumAge` or the new missed-meal count exceeds
`maxTurnsWithoutFoodAllowed`.  For the base cost 10 of a herbivore the energy charged is
8, 7, 5, 6 (Winter, Autumn, Summer, Spring), for the 15 of a carnivore 11, 9, 7, 8. -/
theorem baseUpdate_arithmetic (w : World) (self : EntityId) (season : Season)
    (a : AnimalData) (ha : (w.heap self).animal = some a)
    (hal : (w.heap self).is_alive = true) :
    ∃ (w1 : World) (a1 : AnimalData),
      Animal.baseUpdate w self season = some w1 ∧ (w1.heap self).animal = some a1 ∧
      (∀ e : EntityId, e ≠ self → w1.heap e = w.heap e) ∧ w1.grid = w.grid ∧
      a1.currentAge = a.currentAge + 1 ∧
      a1.mealsMissedTurns = a.mealsMissedTurns + 1 ∧
      a1.currentCooldownForReproduction =
        (if a.currentCooldownForReproduction > 0 then a.currentCooldownForReproduction - 1
         else a.currentCooldownForReproduction) ∧
      a1.currentEnergy = a.currentEnergy -
        (1 + Int.tdiv (if season = .WINTER then a.movementCostBase + 5
                       else if season = .AUTUMN then a.movementCostBase + 2
                       else if season = .SUMMER then max 1 (a.movementCostBase - 2)
                       else a.movementCostBase) 2) -
        (if a.currentlyPregnant = true then 3 else 0) ∧
      a1.currentGestationProgress =
        (if a.currentlyPregnant = true then a.currentGestationProgress + 1
         else a.currentGestationProgress) ∧
      a1 = { a with currentAge := a1.currentAge, mealsMissedTurns := a1.mealsMissedTurns,
                    currentCooldownForReproduction := a1.currentCooldownForReproduction,
                    currentEnergy := a1.currentEnergy,
                    currentGestationProgress := a1.currentGestationProgress } ∧
      ((w1.heap self).is_alive = false ↔
        (a1.currentEnergy ≤ 0 ∨ a1.currentAge > a.maximumAge ∨
          a1.mealsMissedTurns > a.maxTurnsWithoutFoodAllowed)) ∧
      (a.movementCostBase = 10 →
        a1.currentEnergy = a.currentEnergy -
          (if season = .WINTER then 8 else if season = .AUTUMN then 7
           else if season = .SUMMER then 5 else 6) -
          (if a.currentlyPregnant = true then 3 else 0)) ∧
      (a.movementCostBase = 15 →
        a1.currentEnergy = a.currentEnergy -
          (if season = .WINTER then 11 else if season = .AUTUMN then 9
           else if season = .SUMMER then 7 else 8) -
          (if a.currentlyPregnant = true then 3 else 0)) := by
  have h0 : ¬ ((!(w.heap self).isAlive) = true) := by simp [Entity.isAlive, hal]
  have hdata : ∀ a1, a1 = Animal.baseUpdateData a season →
      a1.currentAge = a.currentAge + 1 ∧
      a1.mealsMissedTurns = a.mealsMissedTurns + 1 ∧
      a1.currentCooldownForReproduction =
        (if a.currentCooldownForReproduction > 0 then a.currentCooldownForReproduction - 1
         else a.currentCooldownForReproduction) ∧
      a1.currentEnergy = a.currentEnergy -
        (1 + Int.tdiv (if season = .WINTER then a.movementCostBase + 5
                       else if season = .AUTUMN then a.movementCostBase + 2
                       else if season = .SUMMER then max 1 (a.movementCostBase - 2)
                       else a.movementCostBase) 2) -
        (if a.currentlyPregnant = true then 3 else 0) ∧
      a1.currentGestationProgress =
        (if a.currentlyPregnant = true then a.currentGestationProgress + 1
         else a.currentGestationProgress) ∧
      a1 = { a with currentAge := a1.currentAge, mealsMissedTurns := a1.mealsMissedTurns,
                    currentCooldownForReproduction := a1.currentCooldownForReproduction,
                    currentEnergy := a1.currentEnergy,
                    currentGestationProgress := a1.currentGestationProgress } ∧
      a1.maximumAge = a.maximumAge ∧
      a1.maxTurnsWithoutFoodAllowed = a.maxTurnsWithoutFoodAllowed := by
    intro a1 h1
    subst h1
    unfold Animal.baseUpdateData
    dsimp only
    by_cases hc : a.currentCooldownForReproduction > 0 <;>
      by_cases hp : a.currentlyPregnant = true <;>
      simp [hc, hp]
  obtain ⟨d1, d2, d3, d4, d5, d6, d7, d8⟩ := hdata _ rfl
  have hanim : ((w.modify self (fun e => e.setAnimal (Animal.baseUpdateData a season))).heap
      self).animal = some (Animal.baseUpdateData a season) := by
    rw [World.modify_heap_self]
    exact Entity.setAnimal_animal _ ha
  have halive : ((w.modify self (fun e => e.setAnimal (Animal.baseUpdateData a season))).heap
      self).is_alive = true := by
    rw [World.modify_heap_self, Entity.setAnimal_is_alive]
    exact hal
  have hten : a.movementCostBase = 10 →
      (Animal.baseUpdateData a season).currentEnergy = a.currentEnergy -
        (if season = .WINTER then 8 else if season = .AUTUMN then 7
         else if season = .SUMMER then 5 else 6) -
        (if a.currentlyPregnant = true then 3 else 0) := by
    intro hc
    rw [d4, hc]
    cases season <;> simp <;> rfl
  have hfifteen : a.movementCostBase = 15 →
      (Animal.baseUpdateData a season).currentEnergy = a.currentEnergy -
        (if season = .WINTER then 11 else if season = .AUTUMN then 9
         else if season = .SUMMER then 7 else 8) -
        (if a.currentlyPregnant = true then 3 else 0) := by
    intro hc
    rw [d4, hc]
    cases season <;> simp <;> rfl
  rw [Animal.baseUpdate_eq, if_neg h0, ha, Option.some_bind]
  by_cases hdie : (Animal.baseUpdateData a season).currentEnergy ≤ 0 ∨
      (Animal.baseUpdateData a season).currentAge >
        (Animal.baseUpdateData a season).maximumAge ∨
      (Animal.baseUpdateData a season).mealsMissedTurns >
        (Animal.baseUpdateData a season).maxTurnsWithoutFoodAllowed
  · rw [if_pos hdie]
    refine ⟨_, Animal.baseUpdateData a season, rfl, ?_, ?_, ?_, d1, d2, d3, d4, d5, d6, ?_,
      hten, hfifteen⟩
    · rw [Animal.die_heap, World.modify_heap_self]
      exact hanim
    · intro e he
      rw [Animal.die_heap, World.modify_heap_other _ _ he, World.modify_heap_other _ _ he]
    · rw [Animal.die_grid]
      rfl
    · rw [d7, d8] at hdie
      refine ⟨fun _ => hdie, fun _ => ?_⟩
      rw [Animal.die_heap, World.modify_heap_self]
      rfl
  · rw [if_neg hdie]
    refine ⟨_, Animal.baseUpdateData a season, rfl, hanim, ?_, rfl, d1, d2, d3, d4, d5, d6, ?_,
      hten, hfifteen⟩
    · intro e he
      exact World.modify_heap_other _ _ he
    · rw [d7, d8] at hdie
      refine ⟨fun hd => ?_, fun hd => absurd hd hdie⟩
      rw [halive] at hd
      exact absurd hd (by decide)

/-- A herbivore as constructed, pregnant, in a Winter month: its energy drops by 8 + 3. -/
theorem baseUpdate_arithmetic_witness :
    ∃ (w1 : World) (a1 : AnimalData),
      Animal.baseUpdate birthWorld 0 .WINTER = some w1 ∧ (w1.heap 0).animal = some a1 ∧
      a1.currentAge = 8 ∧ a1.currentEnergy = 49 ∧ a1.currentGestationProgress = 4 ∧
      (w1.heap 0).is_alive = true := by
  obtain ⟨w1, a1, h1, h2, _, _, h5, h6, _, _, h9, _, h11, h12, _⟩ :=
    baseUpdate_arithmetic birthWorld 0 .WINTER dueMother rfl rfl
  have he : a1.currentEnergy = 49 := by rw [h12 rfl]; rfl
  have hage : a1.currentAge = 8 := by rw [h5]; rfl
  refine ⟨w1, a1, h1, h2, hage, he, by rw [h9]; rfl, ?_⟩
  cases hal : (w1.heap 0).is_alive with
  | true => rfl
  | false =>
    have := h11.mp hal
    rw [he, hage, h6] at this
    exact absurd this (by decide)

/-! ## C23 : early termination -/

/-- What `runMonth` has set when it reaches its early-termination tests: the counter is
one higher, the duration and the end reason are as before, and the three population
counts of the statistics are the sizes of the registries. -/
theorem Simulation.runMonthCore_fields {s s1 : Simulation} (h : s.runMonthCore = some s1) :
    s1.currentMonthCounter = s.currentMonthCounter + 1 ∧
    s1.totalMonthsDuration = s.totalMonthsDuration ∧
    s1.simulationEndReason = s.simulationEndReason ∧
    s1.world.stats.currentPlants = s1.world.grid.plants_list.length ∧
    s1.world.stats.currentHerbivores = s1.world.grid.herbivores_list.length ∧
    s1.world.stats.currentCarnivores = s1.world.grid.carnivores_list.length := by
  unfold Simulation.runMonthCore at h
  dsimp only at h
  obtain ⟨s3, h3, h⟩ := bind_some_elim h
  obtain ⟨w1, _, h⟩ := bind_some_elim h
  obtain ⟨w2, _, h⟩ := bind_some_elim h
  obtain ⟨w3, _, h⟩ := bind_some_elim h
  obtain ⟨s4, h4, h⟩ := bind_some_elim h
  obtain ⟨w5, _, h⟩ := bind_some_elim h
  simp only [pure, Option.some.injEq] at h
  rw [← h]
  dsimp only
  rw [Simulation.handleMigration_eq h4]
  dsimp only
  unfold Simulation.determineSeason at h3
  dsimp only at h3
  obtain ⟨name, _, h3⟩ := bind_some_elim h3
  simp only [pure, Option.some.injEq] at h3
  rw [← h3]
  exact ⟨rfl, rfl, rfl, rfl, rfl, rfl⟩

/-- The loop of `Simulation::start` runs no tick from a counter that is not below the
duration. -/
theorem Simulation.monthLoop_done (s : Simulation) (fuel : Nat) (keys : List (Option Char))
    (h : ¬ s.currentMonthCounter < s.totalMonthsDuration) :
    Simulation.monthLoop (fuel + 1) keys s = some s := by
  unfold Simulation.monthLoop
  rw [if_neg h]
  rfl

theorem Simulation.runMonthEnd_duration (s : Simulation) (key : Option Char) :
    (s.runMonthEnd key).totalMonthsDuration = s.totalMonthsDuration := by
  unfold Simulation.runMonthEnd
  dsimp only
  repeat' split
  all_goals rfl

/-- The early-termination tests of `runMonth` for a counter above 1. -/
theorem Simulation.runMonthEnd_early (s : Simulation) (key : Option Char)
    (hgt : s.currentMonthCounter > 1)
    (hH : s.world.stats.currentHerbivores = s.world.grid.herbivores_list.length)
    (hC : s.world.stats.currentCarnivores = s.world.grid.carnivores_list.length)
    (hcond : (s.world.grid.herbivores_list = [] ∧ s.world.grid.carnivores_list = []) ∨
        (s.world.grid.plants_list = [] ∧
          (s.world.grid.herbivores_list ≠ [] ∨ s.world.grid.carnivores_list ≠ [])) ∨
        (s.world.grid.herbivores_list = [] ∧ s.world.grid.carnivores_list ≠ [])) :
    (s.runMonthEnd key).currentMonthCounter = s.totalMonthsDuration + 1 ∧
    (s.runMonthEnd key).simulationEndReason ≠ "" := by
  have hlt : ¬ (s.totalMonthsDuration + 1 ≤ s.totalMonthsDuration) := by omega
  unfold Simulation.runMonthEnd
  dsimp only
  rw [if_pos hgt, hH, hC]
  cases hh : s.world.grid.herbivores_list with
  | nil =>
    cases hc : s.world.grid.carnivores_list with
    | nil =>
      simp [hlt]
    | cons c cs =>
      cases hp : s.world.grid.plants_list with
      | nil =>
        simp [hlt]
      | cons p ps =>
        simp [hlt]
  | cons x xs =>
    cases hc : s.world.grid.carnivores_list with
    | nil =>
      cases hp : s.world.grid.plants_list with
      | nil => simp [hlt]
      | cons p ps =>
        rw [hh, hc, hp] at hcond
        simp at hcond
    | cons c cs =>
      cases hp : s.world.grid.plants_list with
      | nil => simp [hlt]
      | cons p ps =>
        rw [hh, hc, hp] at hcond
        simp at hcond

/-- The end of `runMonth` for the counter 1: only the prompt acts. -/
theorem Simulation.runMonthEnd_first (s : Simulation) (key : Option Char)
    (h1 : s.currentMonthCounter = 1) :
    s.runMonthEnd key =
      if 1 ≤ s.totalMonthsDuration then
        match key with
        | none => { s with simulationEndReason := "User requested exit (EOF).",
                           currentMonthCounter := s.totalMonthsDuration + 1 }
        | some q_input_char =>
          if q_input_char.toUpper = 'Q' then
            { s with simulationEndReason := "User quit the simulation.",
                     currentMonthCounter := s.totalMonthsDuration + 1 }
          else s
      else s := by
  have hgt : ¬ s.currentMonthCounter > 1 := by omega
  unfold Simulation.runMonthEnd
  dsimp only
  rw [if_neg hgt, h1]

/-- C23.  Let `runMonth` take the simulation from `s0` to `s1`.  The tests at its end
see the counter `s0.currentMonthCounter + 1` and registries whose sizes are the
population counts of the statistics.  When that counter is greater than 1 and both
animal registries are empty, or the plant registry is empty while an animal remains, or
the herbivore registry is empty while a carnivore remains, the counter of `s1` is
`totalMonthsDuration + 1`, the duration is unchanged, the end reason is not empty, and
the loop of `Simulation::start` executes no further tick from `s1`.  When that counter
is 1, the registries have no influence: the counter and the reason of `s1` are those of
the prompt alone, which leaves the counter 1 and the reason as it was unless the input
is at its end or the key is `q` or `Q`. -/
theorem early_termination (s0 s1 : Simulation) (key : Option Char)
    (h : s0.runMonth key = some s1) :
    s1.world.stats.currentPlants = s1.world.grid.plants_list.length ∧
    s1.world.stats.currentHerbivores = s1.world.grid.herbivores_list.length ∧
    s1.world.stats.currentCarnivores = s1.world.grid.carnivores_list.length ∧
    s1.totalMonthsDuration = s0.totalMonthsDuration ∧
    (s0.currentMonthCounter + 1 > 1 →
      ((s1.world.grid.herbivores_list = [] ∧ s1.world.grid.carnivores_list = []) ∨
        (s1.world.grid.plants_list = [] ∧
          (s1.world.grid.herbivores_list ≠ [] ∨ s1.world.grid.carnivores_list ≠ [])) ∨
        (s1.world.grid.herbivores_list = [] ∧ s1.world.grid.carnivores_list ≠ [])) →
      s1.currentMonthCounter = s0.totalMonthsDuration + 1 ∧
      s1.simulationEndReason ≠ "" ∧
      ∀ (fuel : Nat) (keys : List (Option Char)),
        Simulation.monthLoop (fuel + 1) keys s1 = some s1) ∧
    (s0.currentMonthCounter + 1 = 1 →
      ((s1.currentMonthCounter = 1 ∧ s1.simulationEndReason = s0.simulationEndReason) ∨
        (1 ≤ s0.totalMonthsDuration ∧ s1.currentMonthCounter = s0.totalMonthsDuration + 1 ∧
          ((key = none ∧ s1.simulationEndReason = "User requested exit (EOF).") ∨
           (∃ c : Char, key = some c ∧ c.toUpper = 'Q' ∧
              s1.simulationEndReason = "User quit the simulation.")))) ∧
      (∀ c : Char, key = some c → c.toUpper ≠ 'Q' →
        s1.currentMonthCounter = 1 ∧ s1.simulationEndReason = s0.simulationEndReason)) := by
  unfold Simulation.runMonth at h
  obtain ⟨sc, hc, h⟩ := bind_some_elim h
  simp only [pure, Option.some.injEq] at h
  obtain ⟨f1, f2, f3, f4, f5, f6⟩ := Simulation.runMonthCore_fields hc
  have hw : s1.world = sc.world := by rw [← h]; exact Simulation.runMonthEnd_world sc key
  have hd : s1.totalMonthsDuration = s0.totalMonthsDuration := by
    rw [← h, Simulation.runMonthEnd_duration, f2]
  rw [hw]
  refine ⟨f4, f5, f6, hd, ?_, ?_⟩
  · intro hgt hcond
    obtain ⟨e1, e2⟩ := Simulation.runMonthEnd_early sc key (by rw [f1]; exact hgt) f5 f6 hcond
    rw [h, f2] at e1
    rw [h] at e2
    refine ⟨e1, e2, fun fuel keys => Simulation.monthLoop_done s1 fuel keys ?_⟩
    rw [e1, hd]
    omega
  · intro hone
    have hc1 : sc.currentMonthCounter = 1 := by rw [f1]; exact hone
    have hfirst := Simulation.runMonthEnd_first sc key hc1
    rw [h, f2] at hfirst
    constructor
    · by_cases hdur : 1 ≤ s0.totalMonthsDuration
      · rw [if_pos hdur] at hfirst
        cases key with
        | none =>
          dsimp only at hfirst
          rw [hfirst]
          exact Or.inr ⟨hdur, rfl, Or.inl ⟨rfl, rfl⟩⟩
        | some c =>
          dsimp only at hfirst
          by_cases hq : c.toUpper = 'Q'
          · rw [if_pos hq] at hfirst
            rw [hfirst]
            exact Or.inr ⟨hdur, rfl, Or.inr ⟨c, rfl, hq, rfl⟩⟩
          · rw [if_neg hq] at hfirst
            rw [hfirst]
            exact Or.inl ⟨hc1, f3⟩
      · rw [if_neg hdur] at hfirst
        rw [hfirst]
        exact Or.inl ⟨hc1, f3⟩
    · intro c hkey hq
      subst hkey
      dsimp only at hfirst
      rw [if_neg hq] at hfirst
      have : s1 = sc := by
        rw [hfirst]
        split <;> rfl
      rw [this]
      exact ⟨hc1, f3⟩

/-- The simulation stocked with nothing ends with its second tick. -/
theorem early_termination_witness :
    ∃ s0 s1 s2 : Simulation, emptyStocked = some s0 ∧ s0.runMonth enterKey = some s1 ∧
      s1.runMonth enterKey = some s2 ∧
      s1.currentMonthCounter = 1 ∧ s1.simulationEndReason = "" ∧
      s2.currentMonthCounter = 13 ∧ s2.simulationEndReason ≠ "" ∧
      Simulation.monthLoop 1 [] s2 = some s2 := by
  have hsome : (emptyStocked.bind (fun s0 => (s0.runMonth enterKey).bind (fun s1 =>
      (s1.runMonth enterKey).map (fun s2 =>
        decide (s0.currentMonthCounter = 0) && decide (s0.totalMonthsDuration = 12) &&
        decide (s0.simulationEndReason = "") &&
        s2.world.grid.herbivores_list.isEmpty && s2.world.grid.carnivores_list.isEmpty)))) =
      some true := by
    decide!
  obtain ⟨s0, h0, hsome⟩ := bind_some_elim hsome
  obtain ⟨s1, h1, hsome⟩ := bind_some_elim hsome
  cases h2 : s1.runMonth enterKey with
  | none => rw [h2] at hsome; exact absurd hsome (by simp)
  | some s2 =>
    rw [h2] at hsome
    simp only [Option.map_some', Option.some.injEq, Bool.and_eq_true, decide_eq_true_eq,
      List.isEmpty_iff] at hsome
    obtain ⟨⟨⟨⟨g1, g2⟩, g3⟩, g4⟩, g5⟩ := hsome
    obtain ⟨_, _, _, d1, _, first⟩ := early_termination s0 s1 enterKey h1
    obtain ⟨c1, r1⟩ := (first (by rw [g1]; rfl)).2 '\n' rfl (by decide)
    obtain ⟨_, _, _, d2, early, _⟩ := early_termination s1 s2 enterKey h2
    obtain ⟨c2, r2, loop⟩ := early (by rw [c1]; decide) (Or.inl ⟨g4, g5⟩)
    refine ⟨s0, s1, s2, h0, h1, h2, c1, by rw [r1, g3], ?_, r2, loop 0 []⟩
    rw [c2, d1, g2]
    rfl

/-! ## C22 : the migration counters -/

theorem World.addMigratingAnimalLoop_stats (x : EntityId) (n : Nat) :
    ∀ {w w1 : World} {ok : Bool}, World.addMigratingAnimalLoop x n w = some (w1, ok) →
      w1.stats = w.stats := by
  induction n with
  | zero =>
    intro w w1 ok h
    simp only [World.addMigratingAnimalLoop, pure, Option.some.injEq, Prod.mk.injEq] at h
    rw [← h.1]
  | succ n ih =>
    intro w w1 ok h
    unfold World.addMigratingAnimalLoop at h
    dsimp only at h
    obtain ⟨b, _, h⟩ := bind_some_elim h
    rcases ite_eq_some_cases h with h | h
    · rw [World.addEntity_some] at h
      simp only [Option.some.injEq] at h
      rcases ite_eq_cases h with ⟨_, h⟩ | ⟨_, h⟩ <;>
        simp only [Prod.mk.injEq] at h <;> rw [← h.1] <;> rfl
    · exact (ih h).trans rfl

theorem World.addMigratingAnimal_stats {w w1 : World} {x : EntityId} {ok : Bool}
    (h : w.addMigratingAnimal x = some (w1, ok)) : w1.stats = w.stats := by
  unfold World.addMigratingAnimal at h
  rcases ite_eq_some_cases h with h | h
  · simp only [pure, Option.some.injEq, Prod.mk.injEq] at h
    rw [← h.1]
  · exact World.addMigratingAnimalLoop_stats x _ h

theorem Simulation.immigrateLoop_stats (n : Nat) :
    ∀ {st st1 : World × Int}, Simulation.immigrateLoop n st = some st1 →
      st1.1.stats.animalsImmigrated = st.1.stats.animalsImmigrated ∧
      st1.1.stats.animalsEmigrated = st.1.stats.animalsEmigrated := by
  induction n with
  | zero =>
    intro st st1 h
    simp only [Simulation.immigrateLoop, pure, Option.some.injEq] at h
    rw [← h]
    exact ⟨rfl, rfl⟩
  | succ n ih =>
    intro st st1 h
    obtain ⟨w, k⟩ := st
    unfold Simulation.immigrateLoop at h
    dsimp only at h
    obtain ⟨r, hadd, h⟩ := bind_some_elim h
    obtain ⟨w2, ok⟩ := r
    dsimp only at h
    have hst := World.addMigratingAnimal_stats hadd
    rcases ite_eq_some_cases h with h | h
    · obtain ⟨e1, e2⟩ := ih h
      rw [e1, e2]
      simp only [World.addMonthlyEvent, hst]
      exact ⟨rfl, rfl⟩
    · obtain ⟨e1, e2⟩ := ih h
      rw [e1, e2]
      simp only [hst]
      exact ⟨rfl, rfl⟩

theorem Simulation.emigrateAll_stats (name : String) (l : List EntityId) :
    ∀ {st st1 : World × Int}, Simulation.emigrateAll name l st = some st1 →
      st1.1.stats.animalsImmigrated = st.1.stats.animalsImmigrated ∧
      st1.1.stats.animalsEmigrated = st.1.stats.animalsEmigrated := by
  induction l with
  | nil =>
    intro st st1 h
    simp only [Simulation.emigrateAll, pure, Option.some.injEq] at h
    rw [← h]
    exact ⟨rfl, rfl⟩
  | cons x rest ih =>
    intro st st1 h
    obtain ⟨w, k⟩ := st
    unfold Simulation.emigrateAll at h
    rcases ite_eq_some_cases h with h | h
    · dsimp only at h
      obtain ⟨w2, h2, h⟩ := bind_some_elim h
      obtain ⟨e1, e2⟩ := ih h
      rw [e1, e2]
      rw [World.removeEntity_some] at h2
      simp only [Option.some.injEq] at h2
      rw [← h2]
      split <;> exact ⟨rfl, rfl⟩
    · exact ih h

/-- Whatever the number of animals that immigrate or emigrate, `handleMigration` raises
each of the two counters by at most 1. -/
theorem Simulation.handleMigration_counters {s s1 : Simulation}
    (h : s.handleMigration = some s1) :
    (s1.world.stats.animalsImmigrated = s.world.stats.animalsImmigrated ∨
      s1.world.stats.animalsImmigrated = s.world.stats.animalsImmigrated + 1) ∧
    (s1.world.stats.animalsEmigrated = s.world.stats.animalsEmigrated ∨
      s1.world.stats.animalsEmigrated = s.world.stats.animalsEmigrated + 1) := by
  unfold Simulation.handleMigration at h
  rcases ite_eq_some_cases h with h | h
  · dsimp only at h
    obtain ⟨res, hres, h⟩ := bind_some_elim h
    obtain ⟨w1, k⟩ := res
    simp only [pure, Option.some.injEq] at h
    obtain ⟨e1, e2⟩ := Simulation.immigrateLoop_stats _ hres
    rw [← h]
    dsimp only at e1 e2 ⊢
    split
    · exact ⟨Or.inr (by rw [← e1]), Or.inl e2⟩
    · exact ⟨Or.inl e1, Or.inl e2⟩
  · rcases ite_eq_some_cases h with h | h
    · dsimp only at h
      obtain ⟨res1, _, h⟩ := bind_some_elim h
      obtain ⟨res2, h2, h⟩ := bind_some_elim h
      obtain ⟨res3, _, h⟩ := bind_some_elim h
      obtain ⟨res4, h4, h⟩ := bind_some_elim h
      simp only [pure, Option.some.injEq] at h
      obtain ⟨a1, a2⟩ := Simulation.emigrateAll_stats _ _ h2
      obtain ⟨b1, b2⟩ := Simulation.emigrateAll_stats _ _ h4
      dsimp only at a1 a2 b1 b2
      rw [← h]
      dsimp only
      split
      · exact ⟨Or.inl (by rw [b1, a1]), Or.inr (by rw [← a2, ← b2])⟩
      · exact ⟨Or.inl (by rw [b1, a1]), Or.inl (by rw [b2, a2])⟩
    · simp only [pure, Option.some.injEq] at h
      rw [← h]
      exact ⟨Or.inl rfl, Or.inl rfl⟩

/-- C22, evaluated on the immigration scenario.  The grid is empty after the stocking and
after the first month.  The second month is a Spring month; in its `handleMigration`
`addMigratingAnimal` succeeds for three animals, the herbivores 0 and 1 and the
carnivore 2, which are alive and registered at the end of the month; the counter
`animalsImmigrated`, reset at the start of the month, is 1 at its end, not 3. -/
theorem three_immigrants_counted_once :
    ∃ s0 s1 s2 : Simulation, immigrationStocked = some s0 ∧
      s0.runMonth enterKey = some s1 ∧ s1.runMonth enterKey = some s2 ∧
      s1.world.grid.population = 0 ∧ s1.world.nextId = 0 ∧
      s2.current_Season_sim = .SPRING ∧
      s2.world.nextId = 3 ∧
      s2.world.grid.herbivores_list = [0, 1] ∧ s2.world.grid.carnivores_list = [2] ∧
      s2.world.grid.cells_grid 3 4 = some 0 ∧ s2.world.grid.cells_grid 10 11 = some 1 ∧
      s2.world.grid.cells_grid 15 16 = some 2 ∧
      (s2.world.heap 0).is_alive = true ∧ (s2.world.heap 1).is_alive = true ∧
      (s2.world.heap 2).is_alive = true ∧
      s2.world.stats.animalsImmigrated = 1 := by
  have hsome : (immigrationStocked.bind (fun s0 => (s0.runMonth enterKey).bind (fun s1 =>
      (s1.runMonth enterKey).map (fun s2 =>
        decide (s1.world.grid.population = 0) && decide (s1.world.nextId = 0) &&
        decide (s2.current_Season_sim = .SPRING) && decide (s2.world.nextId = 3) &&
        decide (s2.world.grid.herbivores_list = [0, 1]) &&
        decide (s2.world.grid.carnivores_list = [2]) &&
        decide (s2.world.grid.cells_grid 3 4 = some 0) &&
        decide (s2.world.grid.cells_grid 10 11 = some 1) &&
        decide (s2.world.grid.cells_grid 15 16 = some 2) &&
        (s2.world.heap 0).is_alive && (s2.world.heap 1).is_alive &&
        (s2.world.heap 2).is_alive &&
        decide (s2.world.stats.animalsImmigrated = 1))))) = some true := by
    decide!
  obtain ⟨s0, h0, hsome⟩ := bind_some_elim hsome
  obtain ⟨s1, h1, hsome⟩ := bind_some_elim hsome
  cases h2 : s1.runMonth enterKey with
  | none => rw [h2] at hsome; exact absurd hsome (by simp)
  | some s2 =>
    rw [h2] at hsome
    simp only [Option.map_some', Option.some.injEq, Bool.and_eq_true, decide_eq_true_eq]
      at hsome
    obtain ⟨⟨⟨⟨⟨⟨⟨⟨⟨⟨⟨⟨g1, g2⟩, g3⟩, g4⟩, g5⟩, g6⟩, g7⟩, g8⟩, g9⟩, g10⟩, g11⟩, g12⟩, g13⟩ := hsome
    exact ⟨s0, s1, s2, h0, h1, h2, g1, g2, g3, g4, g5, g6, g7, g8, g9, g10, g11, g12, g13⟩

/-! ## C24 : bounded retries -/

theorem getRandomInt_length (gen : List Nat) (lo hi : Int) :
    (getRandomInt gen lo hi).2.length ≤ gen.length ∧
    gen.length ≤ (getRandomInt gen lo hi).2.length + 1 := by
  unfold getRandomInt
  dsimp only
  generalize (if lo > hi then hi else lo) = a
  generalize (if lo > hi then lo else hi) = b
  by_cases hab : a = b
  · rw [if_pos hab]
    exact ⟨Nat.le_refl _, Nat.le_succ _⟩
  · rw [if_neg hab]
    cases gen with
    | nil => exact ⟨Nat.le_refl _, Nat.le_succ _⟩
    | cons x rest => exact ⟨Nat.le_succ _, Nat.le_refl _⟩

theorem Grid.Full.isEmpty_false {g : Grid} (h : g.Full) (r c : Int) :
    g.isEmpty r c = some false := by
  rw [Grid.isEmpty_eq]
  by_cases hv : Grid.isValid r c = true
  · have := h r c hv
    cases hc : g.cells_grid r c with
    | none => exact absurd hc this
    | some e => simp [hv]
  · simp [hv]

theorem grid_area : ((GRID_WIDTH : Nat) : Int) * ((GRID_HEIGHT : Nat) : Int) = 400 := rfl

/-- The result of the bloom search does not depend on the fuel, once the fuel covers the
attempts that are left of the 801. -/
theorem Plant.bloomSearch_fuel (g : Grid) (fuel : Nat) :
    ∀ (fuel1 : Nat) (attempts : Int) (gen : List Nat), 1 ≤ fuel → 1 ≤ fuel1 →
      (GRID_WIDTH * GRID_HEIGHT * 2 + 1 : Int) ≤ attempts + fuel →
      (GRID_WIDTH * GRID_HEIGHT * 2 + 1 : Int) ≤ attempts + fuel1 →
      Plant.bloomSearch g fuel1 attempts gen = Plant.bloomSearch g fuel attempts gen := by
  induction fuel with
  | zero => intro fuel1 attempts gen h; omega
  | succ n ih =>
    intro fuel1 attempts gen _ h1 h h2
    obtain ⟨m, rfl⟩ : ∃ m, fuel1 = m + 1 := ⟨fuel1 - 1, by omega⟩
    simp only [Plant.bloomSearch, Grid.isEmpty_eq, Option.pure_def,
      Option.bind_eq_bind, Option.some_bind]
    rw [grid_area] at h h2 ⊢
    split
    · rfl
    · rename_i hlt
      split
      · apply ih
        · push_cast at h; omega
        · push_cast at h2; omega
        · push_cast at h ⊢; omega
        · push_cast at h2 ⊢; omega
      · rfl

/-- The bloom search returns once the fuel covers the attempts that are left of the 801,
and it takes at most two raw draws for each unit of fuel. -/
theorem Plant.bloomSearch_some (g : Grid) (fuel : Nat) :
    ∀ (attempts : Int) (gen : List Nat), 1 ≤ fuel →
      (GRID_WIDTH * GRID_HEIGHT * 2 + 1 : Int) ≤ attempts + fuel →
      ∃ r, Plant.bloomSearch g fuel attempts gen = some r ∧
        r.2.length ≤ gen.length ∧
        gen.length ≤ r.2.length + 2 * fuel := by
  induction fuel with
  | zero => intro attempts gen h; omega
  | succ n ih =>
    intro attempts gen _ h
    have l1 := getRandomInt_length gen 0 (GRID_HEIGHT - 1)
    have l2 := getRandomInt_length (getRandomInt gen 0 (GRID_HEIGHT - 1)).2 0 (GRID_WIDTH - 1)
    simp only [Plant.bloomSearch, Grid.isEmpty_eq, Option.pure_def,
      Option.bind_eq_bind, Option.some_bind]
    rw [grid_area] at h ⊢
    split
    · refine ⟨_, rfl, ?_, ?_⟩
      · exact le_trans l2.1 l1.1
      · dsimp only; omega
    · rename_i hlt
      split
      · obtain ⟨r, hr, b1, b2⟩ := ih (attempts + 1)
          (getRandomInt (getRandomInt gen 0 (GRID_HEIGHT - 1)).2 0 (GRID_WIDTH - 1)).2
          (by push_cast at h; omega) (by rw [grid_area]; push_cast at h ⊢; omega)
        refine ⟨r, hr, ?_, ?_⟩
        · exact le_trans b1 (le_trans l2.1 l1.1)
        · omega
      · refine ⟨_, rfl, ?_, ?_⟩
        · exact le_trans l2.1 l1.1
        · dsimp only; omega

/-- The population check and the cell checks of `addEntity` never fault, and a call that
reports `false` leaves the world as it was. -/
theorem World.addEntity_total (w : World) (e : EntityId) :
    ∃ w1 ok, w.addEntity (some e) = some (w1, ok) ∧ w1.gen = w.gen ∧ w1.heap = w.heap ∧
      (ok = false → w1 = w) ∧
      (ok = true → w.grid.cells_grid (w.heap e).r_coord (w.heap e).c_coord = none ∧
        Grid.isValid (w.heap e).r_coord (w.heap e).c_coord = true) := by
  rw [World.addEntity_some]
  split
  · rename_i h
    exact ⟨_, true, rfl, rfl, rfl, (by intro h; cases h), fun _ => ⟨h.2.2, h.2.1⟩⟩
  · exact ⟨_, false, rfl, rfl, rfl, fun _ => rfl, (by intro h; cases h)⟩

/-- The retry loop of `addMigratingAnimal` returns after at most `n` iterations of two raw
draws each; below the population cap a `false` means that nothing but the generator has
changed, and on a grid without an empty cell it reports `false`. -/
theorem World.addMigratingAnimalLoop_total (a : EntityId) (n : Nat) :
    ∀ w : World, w.grid.population < MAX_POPULATION →
      ∃ w1 ok, World.addMigratingAnimalLoop a n w = some (w1, ok) ∧
      w1.gen.length ≤ w.gen.length ∧ w.gen.length ≤ w1.gen.length + 2 * n ∧
      (ok = false → w1.grid = w.grid ∧ w1.heap = w.heap ∧ w1.nextId = w.nextId ∧
        w1.stats = w.stats) ∧
      (w.grid.Full → ok = false) := by
  induction n with
  | zero =>
    intro w _
    exact ⟨w, false, rfl, Nat.le_refl _, Nat.le_add_right _ _, fun _ => ⟨rfl, rfl, rfl, rfl⟩,
      fun _ => rfl⟩
  | succ n ih =>
    intro w hpop
    have l1 := getRandomInt_length w.gen 0 (GRID_HEIGHT - 1)
    have l2 := getRandomInt_length (getRandomInt w.gen 0 (GRID_HEIGHT - 1)).2 0 (GRID_WIDTH - 1)
    simp only [World.addMigratingAnimalLoop, Option.pure_def,
      Option.bind_eq_bind, Grid.isEmpty_eq, Option.some_bind]
    split
    · rename_i hemp
      simp only [Bool.and_eq_true, beq_iff_eq] at hemp
      rw [World.addEntity_some, if_pos]
      · refine ⟨_, true, rfl, ?_, ?_, ?_, ?_⟩
        · exact le_trans l2.1 l1.1
        · show w.gen.length ≤ _; dsimp only [World.modify]; omega
        · intro h; cases h
        · intro hf
          exact absurd hemp.2 (hf _ _ hemp.1)
      · refine ⟨hpop, ?_, ?_⟩
        · simpa [World.modify, Entity.setR, Entity.setC] using hemp.1
        · simpa [World.modify, Entity.setR, Entity.setC] using hemp.2
    · obtain ⟨w1, ok, hr, b1, b2, b3, b4⟩ := ih { w with gen := (getRandomInt (getRandomInt w.gen 0
          (GRID_HEIGHT - 1)).2 0 (GRID_WIDTH - 1)).2 } hpop
      refine ⟨w1, ok, hr, ?_, ?_, b3, b4⟩
      · exact le_trans b1 (le_trans l2.1 l1.1)
      · dsimp only at b2; omega

/-- The claim C24 for `Grid::addMigratingAnimal`. -/
theorem World.addMigratingAnimal_total (w : World) (a : EntityId) :
    ∃ w1 ok, w.addMigratingAnimal a = some (w1, ok) ∧
      w1.gen.length ≤ w.gen.length ∧
      w.gen.length ≤ w1.gen.length + 2 * (GRID_WIDTH * GRID_HEIGHT) ∧
      (ok = false → w1.grid = w.grid ∧ w1.heap = w.heap ∧ w1.nextId = w.nextId ∧
        w1.stats = w.stats) ∧
      (w.grid.Full → ok = false) := by
  unfold World.addMigratingAnimal
  split
  · exact ⟨w, false, rfl, Nat.le_refl _, Nat.le_add_right _ _, fun _ => ⟨rfl, rfl, rfl, rfl⟩,
      fun _ => rfl⟩
  · rename_i h
    exact World.addMigratingAnimalLoop_total a _ w (Nat.lt_of_not_le h)

theorem Plant.spawn_total (w : World) (r c : Int) :
    ∃ w1, Plant.spawn w r c = some w1 ∧ w1.gen = w.gen := by
  unfold Plant.spawn
  obtain ⟨w1, ok, h, hg, -⟩ := World.addEntity_total (w.alloc (Plant.new r c)).1
    (w.alloc (Plant.new r c)).2
  simp only [h, Option.pure_def, Option.bind_eq_bind, Option.some_bind]
  split
  · exact ⟨_, rfl, hg⟩
  · exact ⟨_, rfl, hg⟩

/-- One iteration of the bloom returns, after at most 1 + 2 * 801 raw draws, and places
nothing on a grid without an empty cell. -/
theorem Plant.bloomOnce_total (w : World) (chance : Int) :
    ∃ w1, Plant.bloomOnce w chance = some w1 ∧
      w1.gen.length ≤ w.gen.length ∧
      w.gen.length ≤ w1.gen.length + (1 + 2 * (GRID_WIDTH * GRID_HEIGHT * 2 + 1)) ∧
      (∀ r, Plant.bloomSearch w.grid (GRID_WIDTH * GRID_HEIGHT * 2 + 1) 0
          (getRandomInt w.gen 1 100).2 = some r →
        w.grid.isEmpty r.1.1 r.1.2 = some false →
        w1.grid = w.grid ∧ w1.heap = w.heap ∧ w1.nextId = w.nextId ∧ w1.stats = w.stats) ∧
      (w.grid.Full → w1.grid = w.grid ∧ w1.heap = w.heap ∧ w1.nextId = w.nextId ∧
        w1.stats = w.stats) := by
  have l1 := getRandomInt_length w.gen 1 100
  unfold Plant.bloomOnce
  dsimp only
  split
  · obtain ⟨r, hr, b1, b2⟩ := Plant.bloomSearch_some w.grid (GRID_WIDTH * GRID_HEIGHT * 2 + 1) 0
      (getRandomInt w.gen 1 100).2 (by decide) (by decide)
    simp only [hr, Option.pure_def, Option.bind_eq_bind, Option.some_bind, Grid.isEmpty_eq]
    split
    · rename_i hemp
      simp only [Bool.and_eq_true, beq_iff_eq] at hemp
      obtain ⟨w1, h1, hg⟩ := Plant.spawn_total
        { w with gen := r.2 } r.1.1 r.1.2
      refine ⟨w1, h1, ?_, ?_, ?_, ?_⟩
      · rw [hg]; exact le_trans b1 l1.1
      · rw [hg]; dsimp only; omega
      · intro r1 hr1 hfull
        rw [Option.some.injEq] at hr1
        subst hr1
        simp [hemp.1, hemp.2] at hfull
      · intro hf
        exact absurd hemp.2 (hf _ _ hemp.1)
    · refine ⟨_, rfl, ?_, ?_, fun _ _ _ => ⟨rfl, rfl, rfl, rfl⟩, fun _ => ⟨rfl, rfl, rfl, rfl⟩⟩
      · exact le_trans b1 l1.1
      · dsimp only; omega
  · exact ⟨_, rfl, l1.1, by dsimp only; omega, fun _ _ _ => ⟨rfl, rfl, rfl, rfl⟩,
      fun _ => ⟨rfl, rfl, rfl, rfl⟩⟩

/-- C24.  Both empty-cell searches stop after a bounded number of iterations on every
grid and for every sequence of draws.  The bloom search returns with a fuel of 801
iterations (and returns the same with any larger one), having taken at most 2 * 801 raw
draws; one bloom iteration of `Plant::update` returns and, when the cell its search ends
on is not empty, as on every grid without an empty cell, leaves the cell map, the
registries, the objects and the counters as they were; `Grid::addMigratingAnimal`
returns after at most 400 iterations (2 * 400 raw draws), a `false` means that nothing
was placed or written, and on a grid without an empty cell it returns `false`. -/
theorem bounded_retries (w : World) (chance : Int) (a : EntityId) (gen : List Nat) (k : Nat) :
    (∃ r, Plant.bloomSearch w.grid 801 0 gen = some r ∧
      Plant.bloomSearch w.grid (801 + k) 0 gen = some r ∧
      gen.length ≤ r.2.length + 2 * 801) ∧
    (∃ w1, Plant.bloomOnce w chance = some w1 ∧
      w.gen.length ≤ w1.gen.length + (1 + 2 * 801) ∧
      (∀ r, Plant.bloomSearch w.grid 801 0 (getRandomInt w.gen 1 100).2 = some r →
        w.grid.isEmpty r.1.1 r.1.2 = some false →
        w1.grid = w.grid ∧ w1.heap = w.heap ∧ w1.nextId = w.nextId ∧ w1.stats = w.stats) ∧
      (w.grid.Full → w1.grid = w.grid ∧ w1.heap = w.heap ∧ w1.nextId = w.nextId ∧
        w1.stats = w.stats)) ∧
    (∃ w1 ok, w.addMigratingAnimal a = some (w1, ok) ∧
      w.gen.length ≤ w1.gen.length + 2 * 400 ∧
      (ok = false → w1.grid = w.grid ∧ w1.heap = w.heap ∧ w1.nextId = w.nextId ∧
        w1.stats = w.stats) ∧
      (w.grid.Full → ok = false)) := by
  refine ⟨?_, ?_, ?_⟩
  · obtain ⟨r, hr, -, b2⟩ := Plant.bloomSearch_some w.grid 801 0 gen (by decide) (by decide)
    refine ⟨r, hr, ?_, b2⟩
    rw [Plant.bloomSearch_fuel w.grid 801 (801 + k) 0 gen (by decide) (by omega) (by decide)
      (by rw [grid_area]; push_cast; omega)]
    exact hr
  · obtain ⟨w1, h, -, b2, b3, b4⟩ := Plant.bloomOnce_total w chance
    exact ⟨w1, h, b2, b3, b4⟩
  · obtain ⟨w1, ok, h, -, b2, b3, b4⟩ := World.addMigratingAnimal_total w a
    exact ⟨w1, ok, h, b2, b3, b4⟩

/-! ## C29 : mating -/

theorem World.addMonthlyEvent_heap (w : World) (ev : String) :
    (w.addMonthlyEvent ev).heap = w.heap := rfl

theorem Entity.setAnimal_setAnimal (ent : Entity) (x y : AnimalData) :
    (ent.setAnimal x).setAnimal y = ent.setAnimal y := by
  unfold Entity.setAnimal
  cases hk : ent.kind <;> simp [hk]

theorem Herbivore.herbivore_mateLoop_cases (self : EntityId) (mates : List EntityId) :
    ∀ {w w1 : World}, Herbivore.mateLoop self mates w = some w1 →
      w1 = w ∨ ∃ mate a m, mate ∈ mates ∧ Animal.Mated .HERBIVORE w w1 self mate a m := by
  induction mates with
  | nil =>
    intro w w1 h
    simp only [Herbivore.mateLoop, pure, Option.some.injEq] at h
    exact Or.inl h.symm
  | cons mate rest ih =>
    intro w w1 h
    have next : Herbivore.mateLoop self rest w = some w1 →
        w1 = w ∨ ∃ mate1 a m, mate1 ∈ mate :: rest ∧
          Animal.Mated .HERBIVORE w w1 self mate1 a m := by
      intro h
      rcases ih h with h | ⟨x, a, m, hx, hm⟩
      · exact Or.inl h
      · exact Or.inr ⟨x, a, m, List.mem_cons_of_mem _ hx, hm⟩
    unfold Herbivore.mateLoop at h
    by_cases h1 : (!(w.heap mate).isAlive || mate == self) = true
    · rw [if_pos h1] at h; exact next h
    · rw [if_neg h1] at h
      by_cases h2 : (w.heap mate).getType ≠ .HERBIVORE ∨ (w.heap mate).getGender ≠ .MALE
      · rw [if_pos h2] at h; exact next h
      · rw [if_neg h2] at h
        obtain ⟨m, hm, h⟩ := bind_some_elim h
        rcases ite_some_cond h with ⟨hc, h⟩ | ⟨_, h⟩
        · obtain ⟨a, ha, h⟩ := bind_some_elim h
          obtain ⟨a1, ha1, h⟩ := bind_some_elim h
          obtain ⟨m1, hm1, h⟩ := bind_some_elim h
          simp only [pure, Option.some.injEq] at h
          simp only [Bool.or_eq_true, Bool.not_eq_true', beq_iff_eq, not_or,
            Bool.not_eq_false] at h1
          have hne : mate ≠ self := h1.2
          have hal : (w.heap mate).is_alive = true := h1.1
          simp only [not_or, not_not] at h2
          rw [World.modify_heap_self, Entity.setAnimal_animal _ ha] at ha1
          simp only [Option.some.injEq] at ha1
          rw [World.modify_heap_other _ _ hne, World.modify_heap_other _ _ hne, hm] at hm1
          simp only [Option.some.injEq] at hm1
          subst ha1 hm1
          refine Or.inr ⟨mate, a, m, List.mem_cons_self _ _, ?_⟩
          rw [← h]
          split
          · exact
              { female_data := ha
                male_data := hm
                distinct := hne
                mate_alive := hal
                mate_species := h2.1
                mate_male := h2.2
                mate_age := hc.1
                adjacent_r := hc.2.1
                adjacent_c := hc.2.2
                female_after := by
                  rw [World.addMonthlyEvent_heap, World.modify_heap_other _ _ (Ne.symm hne), World.modify_heap_self,
                    World.modify_heap_self, Entity.setAnimal_setAnimal]
                male_after := by
                  rw [World.addMonthlyEvent_heap, World.modify_heap_self, World.modify_heap_other _ _ hne,
                    World.modify_heap_other _ _ hne]
                others := by
                  intro e he hem
                  rw [World.addMonthlyEvent_heap, World.modify_heap_other _ _ hem, World.modify_heap_other _ _ he,
                    World.modify_heap_other _ _ he]
                grid_eq := rfl }
          · rename_i hdead
            rw [World.modify_heap_other _ _ hne, World.modify_heap_other _ _ hne] at hdead
            exact absurd hal hdead
        · exact next h

theorem Carnivore.carnivore_mateLoop_cases (self : EntityId) (mates : List EntityId) :
    ∀ {w w1 : World}, Carnivore.mateLoop self mates w = some w1 →
      w1 = w ∨ ∃ mate a m, mate ∈ mates ∧ Animal.Mated .CARNIVORE w w1 self mate a m := by
  induction mates with
  | nil =>
    intro w w1 h
    simp only [Carnivore.mateLoop, pure, Option.some.injEq] at h
    exact Or.inl h.symm
  | cons mate rest ih =>
    intro w w1 h
    have next : Carnivore.mateLoop self rest w = some w1 →
        w1 = w ∨ ∃ mate1 a m, mate1 ∈ mate :: rest ∧
          Animal.Mated .CARNIVORE w w1 self mate1 a m := by
      intro h
      rcases ih h with h | ⟨x, a, m, hx, hm⟩
      · exact Or.inl h
      · exact Or.inr ⟨x, a, m, List.mem_cons_of_mem _ hx, hm⟩
    unfold Carnivore.mateLoop at h
    by_cases h1 : (!(w.heap mate).isAlive || mate == self) = true
    · rw [if_pos h1] at h; exact next h
    · rw [if_neg h1] at h
      by_cases h2 : (w.heap mate).getType ≠ .CARNIVORE ∨ (w.heap mate).getGender ≠ .MALE
      · rw [if_pos h2] at h; exact next h
      · rw [if_neg h2] at h
        obtain ⟨m, hm, h⟩ := bind_some_elim h
        rcases ite_some_cond h with ⟨hc, h⟩ | ⟨_, h⟩
        · obtain ⟨a, ha, h⟩ := bind_some_elim h
          obtain ⟨a1, ha1, h⟩ := bind_some_elim h
          obtain ⟨m1, hm1, h⟩ := bind_some_elim h
          simp only [pure, Option.some.injEq] at h
          simp only [Bool.or_eq_true, Bool.not_eq_true', beq_iff_eq, not_or,
            Bool.not_eq_false] at h1
          have hne : mate ≠ self := h1.2
          have hal : (w.heap mate).is_alive = true := h1.1
          simp only [not_or, not_not] at h2
          rw [World.modify_heap_self, Entity.setAnimal_animal _ ha] at ha1
          simp only [Option.some.injEq] at ha1
          rw [World.modify_heap_other _ _ hne, World.modify_heap_other _ _ hne, hm] at hm1
          simp only [Option.some.injEq] at hm1
          subst ha1 hm1
          refine Or.inr ⟨mate, a, m, List.mem_cons_self _ _, ?_⟩
          rw [← h]
          split
          · exact
              { female_data := ha
                male_data := hm
                distinct := hne
                mate_alive := hal
                mate_species := h2.1
                mate_male := h2.2
                mate_age := hc.1
                adjacent_r := hc.2.1
                adjacent_c := hc.2.2
                female_after := by
                  rw [World.addMonthlyEvent_heap, World.modify_heap_other _ _ (Ne.symm hne), World.modify_heap_self,
                    World.modify_heap_self, Entity.setAnimal_setAnimal]
                male_after := by
                  rw [World.addMonthlyEvent_heap, World.modify_heap_self, World.modify_heap_other _ _ hne,
                    World.modify_heap_other _ _ hne]
                others := by
                  intro e he hem
                  rw [World.addMonthlyEvent_heap, World.modify_heap_other _ _ hem, World.modify_heap_other _ _ he,
                    World.modify_heap_other _ _ he]
                grid_eq := rfl }
          · rename_i hdead
            rw [World.modify_heap_other _ _ hne, World.modify_heap_other _ _ hne] at hdead
            exact absurd hal hdead
        · exact next h

theorem Herbivore.herbivore_attemptReproduce_cases {w w1 : World} {self : EntityId}
    {mates : List EntityId} {season : Season} {a : AnimalData}
    (h : Herbivore.attemptReproduce w self mates season = some w1)
    (ha : (w.heap self).animal = some a) :
    w1.heap = w.heap ∨ (Animal.canReproduceInternal a = true ∧
      ∃ mate m, mate ∈ mates ∧ Animal.Mated .HERBIVORE w w1 self mate a m) := by
  unfold Herbivore.attemptReproduce at h
  rw [ha] at h
  simp only [Option.bind_eq_bind, Option.some_bind] at h
  rcases ite_some_cond h with ⟨_, h⟩ | ⟨hcan, h⟩
  · simp only [pure, Option.some.injEq] at h; rw [← h]; exact Or.inl rfl
  · rcases ite_eq_some_cases h with h | h
    · simp only [pure, Option.some.injEq] at h; rw [← h]; exact Or.inl rfl
    · rcases Herbivore.herbivore_mateLoop_cases self mates h with h | ⟨mate, a1, m, hin, hm⟩
      · rw [h]; exact Or.inl rfl
      · have ha1 : a1 = a := by
          have := hm.female_data
          rw [show World.heap _ self = w.heap self from rfl, ha] at this
          simp only [Option.some.injEq] at this
          exact this.symm
        subst ha1
        simp only [Bool.or_eq_true, Bool.not_eq_true', not_or, Bool.not_eq_false] at hcan
        exact Or.inr ⟨hcan.2, mate, m, hin,
          ⟨hm.female_data, hm.male_data, hm.distinct, hm.mate_alive, hm.mate_species,
            hm.mate_male, hm.mate_age, hm.adjacent_r, hm.adjacent_c, hm.female_after,
            hm.male_after, hm.others, hm.grid_eq⟩⟩

theorem Carnivore.carnivore_attemptReproduce_cases {w w1 : World} {self : EntityId}
    {mates : List EntityId} {season : Season} {a : AnimalData}
    (h : Carnivore.attemptReproduce w self mates season = some w1)
    (ha : (w.heap self).animal = some a) :
    w1.heap = w.heap ∨ (Animal.canReproduceInternal a = true ∧
      ∃ mate m, mate ∈ mates ∧ Animal.Mated .CARNIVORE w w1 self mate a m) := by
  unfold Carnivore.attemptReproduce at h
  rw [ha] at h
  simp only [Option.bind_eq_bind, Option.some_bind] at h
  rcases ite_some_cond h with ⟨_, h⟩ | ⟨hcan, h⟩
  · simp only [pure, Option.some.injEq] at h; rw [← h]; exact Or.inl rfl
  · rcases ite_eq_some_cases h with h | h
    · simp only [pure, Option.some.injEq] at h; rw [← h]; exact Or.inl rfl
    · rcases Carnivore.carnivore_mateLoop_cases self mates h with h | ⟨mate, a1, m, hin, hm⟩
      · rw [h]; exact Or.inl rfl
      · have ha1 : a1 = a := by
          have := hm.female_data
          rw [show World.heap _ self = w.heap self from rfl, ha] at this
          simp only [Option.some.injEq] at this
          exact this.symm
        subst ha1
        simp only [Bool.or_eq_true, Bool.not_eq_true', not_or, Bool.not_eq_false] at hcan
        exact Or.inr ⟨hcan.2, mate, m, hin,
          ⟨hm.female_data, hm.male_data, hm.distinct, hm.mate_alive, hm.mate_species,
            hm.mate_male, hm.mate_age, hm.adjacent_r, hm.adjacent_c, hm.female_after,
            hm.male_after, hm.others, hm.grid_eq⟩⟩

theorem Animal.attemptReproduce_cases {w w1 : World} {self : EntityId}
    {mates : List EntityId} {season : Season} {a : AnimalData}
    (h : Animal.attemptReproduce w self mates season = some w1)
    (ha : (w.heap self).animal = some a) :
    w1.heap = w.heap ∨ (Animal.canReproduceInternal a = true ∧
      ∃ mate m, mate ∈ mates ∧ Animal.Mated (w.heap self).getType w w1 self mate a m) := by
  unfold Animal.attemptReproduce at h
  unfold Entity.getType
  split at h
  · rename_i hk
    rw [hk]
    exact Herbivore.herbivore_attemptReproduce_cases h ha
  · rename_i hk
    rw [hk]
    exact Carnivore.carnivore_attemptReproduce_cases h ha
  · exact absurd h (by simp)

theorem Herbivore.herbivore_new_energyRequired (gen : List Nat) (r c : Int) (g : Gender) :
    (Herbivore.new gen r c g).1.animal.map (fun a => a.energyRequiredToReproduce) = some 40 :=
  rfl

theorem Carnivore.carnivore_new_energyRequired (gen : List Nat) (r c : Int) (g : Gender) :
    (Carnivore.new gen r c g).1.animal.map (fun a => a.energyRequiredToReproduce) = some 50 :=
  rfl

/-- C29.  A call of `attemptReproduce` (of either species) on a female that is not
pregnant leaves her pregnant only if the mate list holds a living male of her species,
other than herself, of breeding age, at a distance of at most 1 in both coordinates; so
with every listed animal more than one cell away she is not pregnant afterwards.  When
she is, her members are those of before with the flag set and the energy lowered by
`energyRequiredToReproduce / 2` (20 for the 40 of a herbivore, 25 for the 50 of a
carnivore), that one mate has its energy lowered by `energyRequiredToReproduce / 4`
(10, resp. 12) but not below 0, and every other object, and the grid, are as before. -/
theorem mating_costs (w w1 : World) (self : EntityId) (mates : List EntityId)
    (season : Season) (a : AnimalData)
    (h : Animal.attemptReproduce w self mates season = some w1)
    (ha : (w.heap self).animal = some a) (hnot : a.currentlyPregnant = false) :
    ((w1.heap self).pregnant = true →
      ∃ mate m, mate ∈ mates ∧ Animal.Mated (w.heap self).getType w w1 self mate a m ∧
        a.animalGender = .FEMALE ∧ a.energyRequiredToReproduce ≤ a.currentEnergy ∧
        (0 ≤ a.energyRequiredToReproduce → a.currentEnergy ≤ a.maximumEnergy →
          (w1.heap self).animal = some { a with
            currentlyPregnant := true,
            currentEnergy := a.currentEnergy - Int.tdiv a.energyRequiredToReproduce 2 }) ∧
        (0 ≤ m.energyRequiredToReproduce → m.currentEnergy ≤ m.maximumEnergy →
          (w1.heap mate).animal = some { m with
            currentEnergy :=
              max 0 (m.currentEnergy - Int.tdiv m.energyRequiredToReproduce 4) }) ∧
        (a.energyRequiredToReproduce = 40 → Int.tdiv a.energyRequiredToReproduce 2 = 20) ∧
        (a.energyRequiredToReproduce = 50 → Int.tdiv a.energyRequiredToReproduce 2 = 25) ∧
        (m.energyRequiredToReproduce = 40 → Int.tdiv m.energyRequiredToReproduce 4 = 10) ∧
        (m.energyRequiredToReproduce = 50 → Int.tdiv m.energyRequiredToReproduce 4 = 12)) ∧
    ((∀ mate ∈ mates, ¬ (|(w.heap self).getR - (w.heap mate).getR| ≤ 1 ∧
        |(w.heap self).getC - (w.heap mate).getC| ≤ 1)) →
      (w1.heap self).pregnant = false) ∧
    (∀ (gen : List Nat) (r c : Int) (g : Gender),
      (Herbivore.new gen r c g).1.animal.map (fun x => x.energyRequiredToReproduce) = some 40 ∧
      (Carnivore.new gen r c g).1.animal.map (fun x => x.energyRequiredToReproduce) =
        some 50) := by
  have hbefore : (w.heap self).pregnant = false := by
    unfold Entity.pregnant; rw [ha]; exact hnot
  refine ⟨?_, ?_, fun gen r c g => ⟨rfl, rfl⟩⟩
  · intro hpreg
    rcases Animal.attemptReproduce_cases h ha with hsame | ⟨hcan, mate, m, hin, hm⟩
    · rw [hsame, hbefore] at hpreg; exact absurd hpreg (by simp)
    · unfold Animal.canReproduceInternal at hcan
      simp only [Bool.and_eq_true, decide_eq_true_eq] at hcan
      obtain ⟨⟨⟨⟨hfem, _⟩, _⟩, hen⟩, _⟩ := hcan
      refine ⟨mate, m, hin, hm, hfem, hen, ?_, ?_, ?_, ?_, ?_, ?_⟩
      · intro hreq hmax
        rw [hm.female_after, Entity.setAnimal_animal _ ha]
        have e2 := Int.tdiv_eq_ediv hreq (show (0 : Int) ≤ 2 by decide)
        unfold Animal.setCurrentEnergy
        dsimp only
        have : max 0 (min (a.currentEnergy - Int.tdiv a.energyRequiredToReproduce 2)
            a.maximumEnergy) = a.currentEnergy - Int.tdiv a.energyRequiredToReproduce 2 := by
          rw [e2]; omega
        rw [this]
      · intro hreq hmax
        rw [hm.male_after, Entity.setAnimal_animal _ hm.male_data]
        have e4 := Int.tdiv_eq_ediv hreq (show (0 : Int) ≤ 4 by decide)
        unfold Animal.setCurrentEnergy
        have : max 0 (min (m.currentEnergy - Int.tdiv m.energyRequiredToReproduce 4)
            m.maximumEnergy) =
            max 0 (m.currentEnergy - Int.tdiv m.energyRequiredToReproduce 4) := by
          rw [e4]; omega
        rw [this]
      · intro h40; rw [h40]; rfl
      · intro h50; rw [h50]; rfl
      · intro h40; rw [h40]; rfl
      · intro h50; rw [h50]; rfl
  · intro hfar
    rcases Animal.attemptReproduce_cases h ha with hsame | ⟨_, mate, m, hin, hm⟩
    · rw [hsame]; exact hbefore
    · exact absurd ⟨hm.adjacent_r, hm.adjacent_c⟩ (hfar mate hin)

/-- In `courtshipWorld` the female, offered the male two cells away and the adjacent one,
mates with the adjacent one: her energy goes from 90 to 70, his from 5 to 0, and the
other male keeps his 60. -/
theorem mating_costs_witness :
    ∃ w1 : World, Animal.attemptReproduce courtshipWorld 0 [1, 2] .SPRING = some w1 ∧
      (w1.heap 0).pregnant = true ∧ (w1.heap 0).energy = some 70 ∧
      (w1.heap 2).energy = some 0 ∧ w1.heap 1 = courtshipWorld.heap 1 ∧
      ∃ m, Animal.Mated .HERBIVORE courtshipWorld w1 0 2 readyFemale m := by
  have hsome : (Animal.attemptReproduce courtshipWorld 0 [1, 2] .SPRING).map
      (fun w1 => (w1.heap 0).pregnant) = some true := by
    decide!
  cases h : Animal.attemptReproduce courtshipWorld 0 [1, 2] .SPRING with
  | none => rw [h] at hsome; exact absurd hsome (by simp)
  | some w1 =>
    rw [h] at hsome
    simp only [Option.map_some', Option.some.injEq] at hsome
    obtain ⟨mate, m, hin, hm, -, -, hfemale, hmale, -⟩ :=
      (mating_costs courtshipWorld w1 0 [1, 2] .SPRING readyFemale h rfl rfl).1 hsome
    have hmate : mate = 2 := by
      simp only [List.mem_cons, List.mem_singleton, List.not_mem_nil, or_false] at hin
      rcases hin with h1 | h2
      · subst h1
        exact absurd hm.adjacent_c (by decide)
      · exact h2
    subst hmate
    have hm2 : m = { exhaustedHerbivore with currentEnergy := 5 } := by
      have := hm.male_data
      simp only [courtshipWorld, Entity.animal] at this
      simpa using this.symm
    refine ⟨w1, rfl, hsome, ?_, ?_, ?_, m, hm⟩
    · unfold Entity.energy
      rw [hfemale (by decide) (by decide)]
      rfl
    · unfold Entity.energy
      rw [hmale (by rw [hm2]; decide) (by rw [hm2]; decide), hm2]
      rfl
    · exact hm.others 1 (by decide) (by decide)

/-! ## C25 : foraging -/

theorem Herbivore.graze_eq (w : World) (self : EntityId) (season : Season)
    (a : AnimalData) (ha : (w.heap self).animal = some a)
    (hal : (w.heap self).is_alive = true)
    (he : a.currentEnergy * 100 < a.maximumEnergy * 95) :
    Herbivore.attemptEat w self season =
      Herbivore.attemptEatScan self (Animal.eatOffsets (Herbivore.eatRadius a season)) w := by
  unfold Herbivore.attemptEat
  rw [ha]
  have h1 : ¬ ((!(w.heap self).isAlive || decide (a.currentEnergy * 100 ≥ a.maximumEnergy * 95))
      = true) := by
    simp [Entity.isAlive, hal, he]
  simp only [Option.some_bind, Option.bind_eq_bind, if_neg h1]
  rfl

theorem Herbivore.graze_sated (w : World) (self : EntityId) (season : Season)
    (a : AnimalData) (ha : (w.heap self).animal = some a)
    (he : a.currentEnergy * 100 ≥ a.maximumEnergy * 95) :
    Herbivore.attemptEat w self season = some (w, false) := by
  unfold Herbivore.attemptEat
  rw [ha]
  have h1 : (!(w.heap self).isAlive || decide (a.currentEnergy * 100 ≥ a.maximumEnergy * 95))
      = true := by
    simp [he]
  simp only [Option.some_bind, Option.bind_eq_bind, if_pos h1]
  rfl

/-- One successful iteration of the scan of `Herbivore::attemptEat`. -/
theorem Herbivore.graze_one (w : World) (self target : EntityId) (a : AnimalData)
    (hk : (w.heap self).kind = .herbivore a)
    (he0 : 0 ≤ a.currentEnergy) (he : a.currentEnergy * 100 < a.maximumEnergy * 95)
    (hv : Grid.isValid (w.heap target).r_coord (w.heap target).c_coord = true)
    (hcell : w.grid.cells_grid (w.heap target).r_coord (w.heap target).c_coord = some target)
    (hty : (w.heap target).getType = .PLANT) (htal : (w.heap target).is_alive = true)
    (ev : String) :
    ∃ w5, World.removeEntity (World.addMonthlyEvent
        { (w.modify self (fun e => e.setAnimal (Animal.setCurrentEnergy a
            (min a.maximumEnergy (a.currentEnergy + 35))))).modify target Entity.kill with
          stats := { ((w.modify self (fun e => e.setAnimal (Animal.setCurrentEnergy a
            (min a.maximumEnergy (a.currentEnergy + 35))))).modify target Entity.kill).stats with
            plantsEaten := ((w.modify self (fun e => e.setAnimal
              (Animal.setCurrentEnergy a (min a.maximumEnergy (a.currentEnergy + 35))))).modify
              target Entity.kill).stats.plantsEaten + 1 } } ev) (some target) = some w5 ∧
      Herbivore.Grazed w self a w5 target := by
  have hne : target ≠ self := by
    rintro rfl
    unfold Entity.getType at hty
    rw [hk] at hty
    simp at hty
  have hne1 : self ≠ target := fun h => hne h.symm
  have hen : Animal.setCurrentEnergy a (min a.maximumEnergy (a.currentEnergy + 35)) =
      { a with currentEnergy := min a.maximumEnergy (a.currentEnergy + 35) } := by
    unfold Animal.setCurrentEnergy
    congr 1
    omega
  rw [hen]
  generalize ha1 : ({ a with currentEnergy := min a.maximumEnergy (a.currentEnergy + 35) } :
    AnimalData) = a1
  have h4 : ∀ st : MonthlyStats,
      (World.addMonthlyEvent { (w.modify self (fun e => e.setAnimal a1)).modify target
        Entity.kill with stats := st } ev).heap target = (w.heap target).kill := by
    intro st
    simp [World.modify, World.addMonthlyEvent, hne]
  obtain ⟨w5, h5, hdead, hoth, hreg, hcl, hst⟩ := World.removeEntity_held
    (World.addMonthlyEvent { (w.modify self (fun e => e.setAnimal a1)).modify target
        Entity.kill with stats := { ((w.modify self (fun e => e.setAnimal a1)).modify target
          Entity.kill).stats with plantsEaten := ((w.modify self
            (fun e => e.setAnimal a1)).modify target Entity.kill).stats.plantsEaten + 1 } }
      ev) target (by rw [h4]; exact hv) (by rw [h4]; exact hcell)
  rw [h4] at hreg hcl
  refine ⟨w5, h5, ?_⟩
  have hkt : (w.heap target).kill.getType = .PLANT := hty
  rw [hkt] at hreg
  have hself : w5.heap self = (w.heap self).setAnimal a1 := by
    rw [hoth self hne1]
    show (((w.modify self (fun e => e.setAnimal a1)).modify target Entity.kill).heap self) = _
    rw [World.modify_heap_other _ _ hne1, World.modify_heap_self]
  constructor
  · exact hty
  · exact htal
  · exact hcell
  · exact hdead
  · intro e hne2 hes
    rw [hoth e hne2]
    simp [World.modify, World.addMonthlyEvent, hes, hne2]
  · rw [hself, Entity.setAnimal_is_alive]
  · exact hreg
  · exact hcl
  · rw [hst]
    rfl
  · rw [hself, ← ha1]
    exact Entity.setAnimal_animal _ (Entity.animal_of_herbivore hk)

/-- The scan eats the plant of the first cell when that cell holds a living one. -/
theorem Herbivore.graze_hit (w : World) (self target : EntityId) (a : AnimalData)
    (dr dc : Int) (rest : List (Int × Int))
    (hk : (w.heap self).kind = .herbivore a)
    (he0 : 0 ≤ a.currentEnergy) (he : a.currentEnergy * 100 < a.maximumEnergy * 95)
    (hv : Grid.isValid ((w.heap self).r_coord + dr) ((w.heap self).c_coord + dc) = true)
    (hc : w.grid.cells_grid ((w.heap self).r_coord + dr) ((w.heap self).c_coord + dc)
      = some target)
    (hr : (w.heap target).r_coord = (w.heap self).r_coord + dr)
    (hcc : (w.heap target).c_coord = (w.heap self).c_coord + dc)
    (hty : (w.heap target).getType = .PLANT) (htal : (w.heap target).is_alive = true) :
    ∃ w5, Herbivore.attemptEatScan self ((dr, dc) :: rest) w = some (w5, true) ∧
      Herbivore.Grazed w self a w5 target := by
  unfold Herbivore.attemptEatScan
  simp only [Entity.getR, Entity.getC, Grid.getEntity_eq, Option.bind_eq_bind,
    Option.some_bind]
  rw [if_pos hv]
  simp only [hv, if_true, hc]
  have hgood : (w.heap target).getType = .PLANT ∧ (w.heap target).isAlive = true :=
    ⟨hty, htal⟩
  rw [if_pos hgood, Entity.animal_of_herbivore hk]
  simp only [Option.some_bind]
  apply exists_bind_true
  exact Herbivore.graze_one w self target a hk he0 he (by rw [hr, hcc]; exact hv)
    (by rw [hr, hcc]; exact hc) hty htal _

/-- The scan passes over a cell that holds no living plant. -/
theorem Herbivore.graze_miss (w : World) (self : EntityId) (dr dc : Int)
    (rest : List (Int × Int))
    (hno : ¬ (Grid.isValid ((w.heap self).r_coord + dr) ((w.heap self).c_coord + dc) = true ∧
      ∃ h, w.grid.cells_grid ((w.heap self).r_coord + dr) ((w.heap self).c_coord + dc) = some h ∧
        (w.heap h).getType = .PLANT ∧ (w.heap h).is_alive = true)) :
    Herbivore.attemptEatScan self ((dr, dc) :: rest) w = Herbivore.attemptEatScan self rest w := by
  conv => lhs; unfold Herbivore.attemptEatScan
  simp only [Entity.getR, Entity.getC, Grid.getEntity_eq, Option.bind_eq_bind,
    Option.some_bind]
  by_cases hv : Grid.isValid ((w.heap self).r_coord + dr) ((w.heap self).c_coord + dc) = true
  · rw [if_pos hv]
    simp only [hv, if_true]
    cases hc : w.grid.cells_grid ((w.heap self).r_coord + dr) ((w.heap self).c_coord + dc) with
    | none => rfl
    | some target =>
      dsimp only
      have hgood : ¬ ((w.heap target).getType = .PLANT ∧ (w.heap target).isAlive = true) :=
        fun hg => hno ⟨hv, target, hc, hg.1, hg.2⟩
      rw [if_neg hgood]
  · rw [if_neg hv]

/-- The scan of `Herbivore::attemptEat` eats the living plant of the first offset, in the
order of the list, whose cell holds one. -/
theorem Herbivore.graze_first (w : World) (self : EntityId) (a : AnimalData)
    (hk : (w.heap self).kind = .herbivore a)
    (he0 : 0 ≤ a.currentEnergy) (he : a.currentEnergy * 100 < a.maximumEnergy * 95)
    (hcoh : ∀ (r c : Int) (e : EntityId), Grid.isValid r c = true →
      w.grid.cells_grid r c = some e → (w.heap e).r_coord = r ∧ (w.heap e).c_coord = c)
    (R : Int × Int → Int × Int → Prop) (offs : List (Int × Int)) (hsorted : offs.Pairwise R) :
    (∃ d ∈ offs, ∃ h : EntityId,
        Grid.isValid ((w.heap self).r_coord + d.1) ((w.heap self).c_coord + d.2) = true ∧
        w.grid.cells_grid ((w.heap self).r_coord + d.1) ((w.heap self).c_coord + d.2) = some h ∧
        (w.heap h).getType = .PLANT ∧ (w.heap h).is_alive = true) →
    ∃ w1 food, Herbivore.attemptEatScan self offs w = some (w1, true) ∧
      Herbivore.Grazed w self a w1 food ∧
      (((w.heap food).r_coord - (w.heap self).r_coord,
        (w.heap food).c_coord - (w.heap self).c_coord) ∈ offs) ∧
      ∀ d ∈ offs, ∀ h : EntityId,
        Grid.isValid ((w.heap self).r_coord + d.1) ((w.heap self).c_coord + d.2) = true →
        w.grid.cells_grid ((w.heap self).r_coord + d.1) ((w.heap self).c_coord + d.2) = some h →
        (w.heap h).getType = .PLANT → (w.heap h).is_alive = true →
        h = food ∨ R ((w.heap food).r_coord - (w.heap self).r_coord,
          (w.heap food).c_coord - (w.heap self).c_coord) d := by
  induction offs with
  | nil =>
    rintro ⟨d, hd, _⟩
    exact absurd hd (List.not_mem_nil _)
  | cons d rest ih =>
    intro hex
    obtain ⟨dr, dc⟩ := d
    rw [List.pairwise_cons] at hsorted
    by_cases hit : Grid.isValid ((w.heap self).r_coord + dr) ((w.heap self).c_coord + dc) = true ∧
      ∃ h, w.grid.cells_grid ((w.heap self).r_coord + dr) ((w.heap self).c_coord + dc) = some h ∧
        (w.heap h).getType = .PLANT ∧ (w.heap h).is_alive = true
    · obtain ⟨hv, target, hc, hty, htal⟩ := hit
      obtain ⟨hr, hcc⟩ := hcoh _ _ _ hv hc
      obtain ⟨w5, h5, hate⟩ := Herbivore.graze_hit w self target a dr dc rest hk he0 he hv hc
        hr hcc hty htal
      have hoff : ((w.heap target).r_coord - (w.heap self).r_coord,
          (w.heap target).c_coord - (w.heap self).c_coord) = (dr, dc) := by
        rw [hr, hcc]; simp
      refine ⟨w5, target, h5, hate, ?_, ?_⟩
      · rw [hoff]; exact List.mem_cons_self _ _
      · intro d1 hd1 h hv1 hc1 _ _
        rw [hoff]
        rcases List.mem_cons.mp hd1 with heq | hin
        · subst heq
          rw [hc] at hc1
          exact Or.inl (Option.some.inj hc1).symm
        · exact Or.inr (hsorted.1 d1 hin)
    · rw [Herbivore.graze_miss w self dr dc rest hit]
      obtain ⟨d1, hd1, h, hv, hc, hty, hal⟩ := hex
      rcases List.mem_cons.mp hd1 with heq | hin
      · subst heq
        exact absurd ⟨hv, h, hc, hty, hal⟩ hit
      · obtain ⟨w1, food, h1, h2, h3, h4⟩ := ih hsorted.2 ⟨d1, hin, h, hv, hc, hty, hal⟩
        refine ⟨w1, food, h1, h2, List.mem_cons_of_mem _ h3, ?_⟩
        intro d2 hd2 h' hv2 hc2 hty2 hal2
        rcases List.mem_cons.mp hd2 with heq | hin2
        · subst heq
          exact absurd ⟨hv2, h', hc2, hty2, hal2⟩ hit
        · exact h4 d2 hin2 h' hv2 hc2 hty2 hal2

theorem ring_norm {rs dr dc : Int} (hdr : -rs ≤ dr ∧ dr ≤ rs) (hdc : -rs ≤ dc ∧ dc ≤ rs)
    (hcond : |dr| = rs ∨ |dc| = rs) : max |dr| |dc| = rs := by
  have h1 : |dr| ≤ rs := abs_le.mpr hdr
  have h2 : |dc| ≤ rs := abs_le.mpr hdc
  rcases hcond with h | h
  · rw [h] at h1 ⊢; exact max_eq_left h2
  · rw [h] at h2 ⊢; exact max_eq_right h1

/-- The offsets the innermost loop of `attemptEat` visits in the row `dr` of a ring. -/
theorem mem_ring_row {rs dr : Int} {x : Int × Int}
    (hx : x ∈ (intRange (-rs) rs).flatMap (fun dc =>
      if |dr| = rs ∨ |dc| = rs then [(dr, dc)] else [])) :
    x.1 = dr ∧ (-rs ≤ x.2 ∧ x.2 ≤ rs) ∧ (|dr| = rs ∨ |x.2| = rs) := by
  simp only [List.mem_flatMap, mem_intRange] at hx
  obtain ⟨dc, hdc, hmem⟩ := hx
  split at hmem
  · next hcond =>
    simp only [List.mem_singleton] at hmem
    subst hmem
    exact ⟨rfl, hdc, hcond⟩
  · simp at hmem

/-- The offsets of one ring all have the norm of the ring. -/
theorem mem_ring {rs : Int} {x : Int × Int}
    (hx : x ∈ (intRange (-rs) rs).flatMap (fun dr =>
      (intRange (-rs) rs).flatMap (fun dc =>
        if |dr| = rs ∨ |dc| = rs then [(dr, dc)] else []))) :
    max |x.1| |x.2| = rs := by
  rw [List.mem_flatMap] at hx
  obtain ⟨dr, hdr, hrow⟩ := hx
  obtain ⟨h1, h2, h3⟩ := mem_ring_row hrow
  rw [mem_intRange] at hdr
  rw [h1]
  exact ring_norm hdr h2 h3

/-- The three loops of `attemptEat` visit the offsets ring by ring, and each ring row by
row. -/
theorem pairwise_eatOffsets (k : Int) :
    (Animal.eatOffsets k).Pairwise Animal.scansBefore := by
  unfold Animal.eatOffsets
  rw [List.pairwise_flatMap]
  constructor
  · intro rs _
    rw [List.pairwise_flatMap]
    constructor
    · intro dr hdr
      rw [mem_intRange] at hdr
      rw [List.pairwise_flatMap]
      constructor
      · intro dc _
        split
        · exact List.pairwise_singleton _ _
        · exact List.Pairwise.nil
      · refine List.Pairwise.imp_of_mem ?_ (pairwise_intRange _ _)
        intro c1 c2 hc1 hc2 hlt x hx y hy
        rw [mem_intRange] at hc1 hc2
        split at hx
        · next h1 =>
          split at hy
          · next h2 =>
            simp only [List.mem_singleton] at hx hy
            subst hx hy
            refine Or.inr ⟨?_, Or.inr ⟨rfl, hlt⟩⟩
            show max |dr| |c1| = max |dr| |c2|
            rw [ring_norm hdr hc1 h1, ring_norm hdr hc2 h2]
          · simp at hy
        · simp at hx
    · refine List.Pairwise.imp_of_mem ?_ (pairwise_intRange _ _)
      intro r1 r2 hr1 hr2 hlt x hx y hy
      rw [mem_intRange] at hr1 hr2
      obtain ⟨x1, x2, x3⟩ := mem_ring_row hx
      obtain ⟨y1, y2, y3⟩ := mem_ring_row hy
      refine Or.inr ⟨?_, Or.inl (by rw [x1, y1]; exact hlt)⟩
      rw [x1, y1, ring_norm hr1 x2 x3, ring_norm hr2 y2 y3]
  · refine List.Pairwise.imp ?_ (pairwise_intRange _ _)
    intro rs1 rs2 hlt x hx y hy
    refine Or.inl ?_
    rw [mem_ring hx, mem_ring hy]
    exact hlt

/-- C25, for a herbivore `self` with members `a`.  With an energy of at least 95% of
the maximum (114 of 120) `Herbivore::attemptEat` returns `false` and the world as it was.
The eat radius for a sight range of 5 is 3 in Winter, 4 in Autumn, 7 in Summer and 5
otherwise.  If the herbivore is alive with an energy `e`, `0 ≤ e`, below 95%, the cell map
holds every entity at the entity's stored position, and a cell at a distance between 1
and the radius holds a living plant, then the call (also the virtual one) returns `true`
and has eaten one plant `food`: it was alive, held by the cell map and within the radius;
it is dead, out of the plant registry and of its cell; no other object but the herbivore
has changed; `plantsEaten` is one higher; the energy is `min(maximumEnergy, e + 35)`;
and every other living plant held within the radius comes later in the scan, so it is not
nearer (in the maximum norm), and at the same distance it is in a later row, or in the
same row and a later column. -/
theorem foraging_nearest_plant (w : World) (self : EntityId) (season : Season)
    (a : AnimalData) (hk : (w.heap self).kind = .herbivore a) :
    (a.currentEnergy * 100 ≥ a.maximumEnergy * 95 →
      Herbivore.attemptEat w self season = some (w, false) ∧
      Animal.attemptEat w self season = some (w, false)) ∧
    (a.maximumEnergy = 120 →
      (a.currentEnergy * 100 ≥ a.maximumEnergy * 95 ↔ a.currentEnergy ≥ 114)) ∧
    (a.sightRange = 5 →
      Herbivore.eatRadius a .WINTER = 3 ∧ Herbivore.eatRadius a .AUTUMN = 4 ∧
      Herbivore.eatRadius a .SUMMER = 7 ∧ Herbivore.eatRadius a .SPRING = 5 ∧
      Herbivore.eatRadius a .NONE = 5) ∧
    ((w.heap self).is_alive = true → 0 ≤ a.currentEnergy →
      a.currentEnergy * 100 < a.maximumEnergy * 95 →
      (∀ (r c : Int) (e : EntityId), Grid.isValid r c = true →
        w.grid.cells_grid r c = some e → (w.heap e).r_coord = r ∧ (w.heap e).c_coord = c) →
      (∃ p : EntityId, (w.heap p).getType = .PLANT ∧ (w.heap p).is_alive = true ∧
        Grid.isValid (w.heap p).r_coord (w.heap p).c_coord = true ∧
        w.grid.cells_grid (w.heap p).r_coord (w.heap p).c_coord = some p ∧
        1 ≤ max |(w.heap p).r_coord - (w.heap self).r_coord|
              |(w.heap p).c_coord - (w.heap self).c_coord| ∧
        max |(w.heap p).r_coord - (w.heap self).r_coord|
            |(w.heap p).c_coord - (w.heap self).c_coord| ≤ Herbivore.eatRadius a season) →
      ∃ (w1 : World) (food : EntityId),
        Herbivore.attemptEat w self season = some (w1, true) ∧
        Animal.attemptEat w self season = some (w1, true) ∧
        Herbivore.Grazed w self a w1 food ∧
        1 ≤ max |(w.heap food).r_coord - (w.heap self).r_coord|
              |(w.heap food).c_coord - (w.heap self).c_coord| ∧
        max |(w.heap food).r_coord - (w.heap self).r_coord|
            |(w.heap food).c_coord - (w.heap self).c_coord| ≤ Herbivore.eatRadius a season ∧
        (w1.heap self).energy = some (min a.maximumEnergy (a.currentEnergy + 35)) ∧
        ∀ p : EntityId, p ≠ food → (w.heap p).getType = .PLANT → (w.heap p).is_alive = true →
          Grid.isValid (w.heap p).r_coord (w.heap p).c_coord = true →
          w.grid.cells_grid (w.heap p).r_coord (w.heap p).c_coord = some p →
          1 ≤ max |(w.heap p).r_coord - (w.heap self).r_coord|
                |(w.heap p).c_coord - (w.heap self).c_coord| →
          max |(w.heap p).r_coord - (w.heap self).r_coord|
              |(w.heap p).c_coord - (w.heap self).c_coord| ≤ Herbivore.eatRadius a season →
          Animal.scansBefore
            ((w.heap food).r_coord - (w.heap self).r_coord,
              (w.heap food).c_coord - (w.heap self).c_coord)
            ((w.heap p).r_coord - (w.heap self).r_coord,
              (w.heap p).c_coord - (w.heap self).c_coord)) := by
  have ha := Entity.animal_of_herbivore hk
  refine ⟨?_, ?_, ?_, ?_⟩
  · intro he
    have h1 := Herbivore.graze_sated w self season a ha he
    refine ⟨h1, ?_⟩
    unfold Animal.attemptEat
    rw [hk]
    exact h1
  · intro hmax
    rw [hmax]
    constructor <;> intro h <;> omega
  · intro hs
    unfold Herbivore.eatRadius
    rw [hs]
    decide
  · intro hal he0 he hcoh ⟨p, hty, htal, hv, hc, hd1, hd2⟩
    have hback : ∀ x y : Int, y + (x - y) = x := fun x y => by omega
    have hmem : ((w.heap p).r_coord - (w.heap self).r_coord,
        (w.heap p).c_coord - (w.heap self).c_coord) ∈
          Animal.eatOffsets (Herbivore.eatRadius a season) :=
      (mem_eatOffsets _ _).mpr ⟨hd1, hd2⟩
    obtain ⟨w1, food, h1, hate, hin, hfirst⟩ := Herbivore.graze_first w self a hk he0 he hcoh
      Animal.scansBefore (Animal.eatOffsets (Herbivore.eatRadius a season))
      (pairwise_eatOffsets _)
      ⟨_, hmem, p, by simpa only [hback] using hv, by simpa only [hback] using hc, hty, htal⟩
    have heq := Herbivore.graze_eq w self season a ha hal he
    refine ⟨w1, food, heq.trans h1, ?_, hate, ((mem_eatOffsets _ _).mp hin).1,
      ((mem_eatOffsets _ _).mp hin).2, ?_, ?_⟩
    · unfold Animal.attemptEat
      rw [hk]
      exact heq.trans h1
    · unfold Entity.energy
      rw [hate.energy]
      rfl
    · intro q hq qty qal qv qc q1 q2
      have qmem : ((w.heap q).r_coord - (w.heap self).r_coord,
          (w.heap q).c_coord - (w.heap self).c_coord) ∈
            Animal.eatOffsets (Herbivore.eatRadius a season) :=
        (mem_eatOffsets _ _).mpr ⟨q1, q2⟩
      rcases hfirst _ qmem q (by simpa only [hback] using qv) (by simpa only [hback] using qc)
        qty qal with h | h
      · exact absurd h hq
      · exact h

/-- The herbivore of `grazingWorld` eats plant 2 at `(3, 5)`: it is as far as plant 1 at
`(5, 7)`, in an earlier row, and nearer than plant 3. -/
theorem foraging_nearest_plant_witness :
    ∃ w1 : World, Herbivore.attemptEat grazingWorld 0 .SPRING = some (w1, true) ∧
      Herbivore.Grazed grazingWorld 0 { exhaustedHerbivore with currentEnergy := 60 } w1 2 ∧
      (w1.heap 0).energy = some 95 ∧ w1.heap 1 = grazingWorld.heap 1 ∧
      w1.heap 3 = grazingWorld.heap 3 ∧ w1.grid.plants_list = [1, 3] := by
  have hsome : (Herbivore.attemptEat grazingWorld 0 .SPRING).map
      (fun r => !(r.1.heap 2).is_alive && decide (r.1.grid.plants_list = [1, 3])) =
        some true := by
    decide!
  obtain ⟨w1, food, h1, -, hate, -, -, hen, -⟩ :=
    (foraging_nearest_plant grazingWorld 0 .SPRING
      { exhaustedHerbivore with currentEnergy := 60 } rfl).2.2.2 rfl (by decide) (by decide)
      (by
        intro r c e _ hc
        simp only [grazingWorld] at hc ⊢
        split at hc
        · next h5 => cases hc; exact ⟨h5.1.symm, h5.2.symm⟩
        · split at hc
          · next h5 => cases hc; exact ⟨h5.1.symm, h5.2.symm⟩
          · split at hc
            · next h5 => cases hc; exact ⟨h5.1.symm, h5.2.symm⟩
            · split at hc
              · next h5 => cases hc; exact ⟨h5.1.symm, h5.2.symm⟩
              · exact absurd hc (by simp))
      ⟨1, rfl, rfl, by decide, by decide, by decide, by decide⟩
  rw [h1] at hsome
  simp only [Option.map_some', Option.some.injEq, Bool.and_eq_true, Bool.not_eq_true',
    decide_eq_true_eq] at hsome
  have hfood : food = 2 := by
    by_contra hne
    have := hate.others 2 (fun h => hne h.symm) (by decide)
    rw [this] at hsome
    exact absurd hsome.1 (by decide)
  subst hfood
  exact ⟨w1, h1, hate, hen, hate.others 1 (by decide) (by decide),
    hate.others 3 (by decide) (by decide), hsome.2⟩

/-! ## C26 : the candidate cells of a birth -/

/-- A double loop over offsets that appends at most the cell of each offset yields
distinct cells. -/
theorem nodup_offsetCells (r c lo hi : Int) (keep : Int → Int → Bool) :
    ((intRange lo hi).flatMap (fun dr => (intRange lo hi).flatMap (fun dc =>
      if keep dr dc then [(r + dr, c + dc)] else []))).Nodup := by
  have hsorted : ((intRange lo hi).flatMap (fun dr => (intRange lo hi).flatMap (fun dc =>
      if keep dr dc then [(r + dr, c + dc)] else []))).Pairwise
      (fun p q : Int × Int => p.1 < q.1 ∨ (p.1 = q.1 ∧ p.2 < q.2)) := by
    rw [List.pairwise_flatMap]
    constructor
    · intro dr _
      rw [List.pairwise_flatMap]
      constructor
      · intro dc _
        split
        · exact List.pairwise_singleton _ _
        · exact List.Pairwise.nil
      · refine List.Pairwise.imp ?_ (pairwise_intRange _ _)
        intro c1 c2 hlt x hx y hy
        split at hx
        · split at hy
          · simp only [List.mem_singleton] at hx hy
            subst hx hy
            exact Or.inr ⟨rfl, by show c + c1 < c + c2; omega⟩
          · simp at hy
        · simp at hx
    · refine List.Pairwise.imp ?_ (pairwise_intRange _ _)
      intro r1 r2 hlt x hx y hy
      simp only [List.mem_flatMap] at hx hy
      obtain ⟨_, _, hx⟩ := hx
      obtain ⟨_, _, hy⟩ := hy
      split at hx
      · split at hy
        · simp only [List.mem_singleton] at hx hy
          subst hx hy
          exact Or.inl (by show r + r1 < r + r2; omega)
        · simp at hy
      · simp at hx
  refine List.Pairwise.imp ?_ hsorted
  intro p q h heq
  subst heq
  omega

/-- The candidate cells of `giveBirth` for a mother without an empty adjacent cell: the
scan of the square of radius `getSightRange()` never faults and collects its empty
cells. -/
theorem Animal.birthCells_fallback (w : World) (self : EntityId) (a : AnimalData)
    (ha : (w.heap self).animal = some a)
    (hadj : w.grid.getAdjacentEmptyCells (w.heap self).r_coord (w.heap self).c_coord = some []) :
    Animal.birthCells w self = some ((intRange (-a.sightRange) a.sightRange).flatMap (fun dr =>
      (intRange (-a.sightRange) a.sightRange).flatMap (fun dc =>
        if !(decide (dr = 0 ∧ dc = 0)) &&
            (Grid.isValid ((w.heap self).r_coord + dr) ((w.heap self).c_coord + dc) &&
            (w.grid.cells_grid ((w.heap self).r_coord + dr) ((w.heap self).c_coord + dc) == none))
        then [((w.heap self).r_coord + dr, (w.heap self).c_coord + dc)] else []))) := by
  unfold Animal.birthCells
  rw [ha]
  simp only [Option.bind_eq_bind, Option.some_bind, Entity.getR, Entity.getC]
  rw [hadj]
  simp only [Option.some_bind, List.isEmpty_nil, if_true]
  rw [foldlM_append_eq (fun dr => (intRange (-a.sightRange) a.sightRange).flatMap (fun dc =>
        if !(decide (dr = 0 ∧ dc = 0)) &&
            (Grid.isValid ((w.heap self).r_coord + dr) ((w.heap self).c_coord + dc) &&
            (w.grid.cells_grid ((w.heap self).r_coord + dr) ((w.heap self).c_coord + dc) == none))
        then [((w.heap self).r_coord + dr, (w.heap self).c_coord + dc)] else []))]
  · rfl
  · intro acc dr _
    rw [foldlM_append_eq (fun dc =>
        if !(decide (dr = 0 ∧ dc = 0)) &&
            (Grid.isValid ((w.heap self).r_coord + dr) ((w.heap self).c_coord + dc) &&
            (w.grid.cells_grid ((w.heap self).r_coord + dr) ((w.heap self).c_coord + dc) == none))
        then [((w.heap self).r_coord + dr, (w.heap self).c_coord + dc)] else [])]
    intro acc1 dc _
    by_cases h0 : dr = 0 ∧ dc = 0
    · simp [h0]
    · simp only [h0, if_false, Grid.isEmpty_eq, Option.pure_def, Option.bind_eq_bind,
        Option.some_bind]
      split <;> simp_all

theorem mem_offsetCells (r c S : Int) (keep : Int → Int → Bool) (p : Int × Int) :
    p ∈ ((intRange (-S) S).flatMap (fun dr => (intRange (-S) S).flatMap (fun dc =>
      if keep dr dc then [(r + dr, c + dc)] else []))) ↔
    (|p.1 - r| ≤ S ∧ |p.2 - c| ≤ S ∧ keep (p.1 - r) (p.2 - c) = true) := by
  obtain ⟨x, y⟩ := p
  simp only [List.mem_flatMap, mem_intRange]
  constructor
  · rintro ⟨dr, hdr, dc, hdc, hmem⟩
    split at hmem
    · next hk =>
      simp only [List.mem_singleton, Prod.mk.injEq] at hmem
      obtain ⟨rfl, rfl⟩ := hmem
      have e1 : r + dr - r = dr := by omega
      have e2 : c + dc - c = dc := by omega
      rw [e1, e2]
      exact ⟨abs_le.mpr hdr, abs_le.mpr hdc, hk⟩
    · simp at hmem
  · rintro ⟨h1, h2, hk⟩
    refine ⟨x - r, abs_le.mp h1, y - c, abs_le.mp h2, ?_⟩
    rw [if_pos hk]
    simp

/-- C26, evaluated on a crowded corner of the grid.  The mother of `crowdedWorld` has
no empty cell within her sight range of 5, so `Herbivore::giveBirth` (also through the
virtual call) returns the world as it was and no offspring is placed, although the cell
`(10, 10)` is empty, as are 364 cells in all, and the population of 36 is below the
capacity of 400. -/
theorem birth_fallback_stops_at_sight_range :
    (crowdedWorld.heap 0).kind = .herbivore dueMother ∧
    (crowdedWorld.heap 0).is_alive = true ∧
    crowdedWorld.grid.getAdjacentEmptyCells 0 0 = some [] ∧
    Grid.isValid 10 10 = true ∧ crowdedWorld.grid.isEmpty 10 10 = some true ∧
    crowdedWorld.grid.population = 36 ∧ crowdedWorld.grid.population < MAX_POPULATION ∧
    Animal.birthCells crowdedWorld 0 = some [] ∧
    Herbivore.giveBirth crowdedWorld 0 = some crowdedWorld ∧
    Animal.giveBirth crowdedWorld 0 = some crowdedWorld := by
  have hcells : Animal.birthCells crowdedWorld 0 = some [] := by decide!
  have hgive : Herbivore.giveBirth crowdedWorld 0 = some crowdedWorld := by
    unfold Herbivore.giveBirth
    rw [hcells]
    rfl
  refine ⟨rfl, rfl, by decide!, by decide, by decide!, by decide!, by decide!, hcells, hgive, ?_⟩
  unfold Animal.giveBirth
  exact hgive

/-- C26, amended.  For a living herbivore `self` without an empty adjacent cell the
candidate cells of `Herbivore::giveBirth` are the empty cells, other than its own, of the
square of radius `getSightRange()` around it.  The call returns; with no candidate the
world is as it was; otherwise the herbivores it has added are at most 3 and at most as
many as the candidates, at least 1 when the population is below `MAX_POPULATION`, and
each is a new living herbivore held by a candidate cell. -/
theorem birth_fallback_within_sight (w : World) (self : EntityId) (a : AnimalData)
    (hk : (w.heap self).kind = .herbivore a) (hal : (w.heap self).is_alive = true)
    (hadj : w.grid.getAdjacentEmptyCells (w.heap self).r_coord (w.heap self).c_coord
      = some []) :
    ∃ (locs : List (Int × Int)) (w1 : World) (children : List EntityId),
      Animal.birthCells w self = some locs ∧
      (∀ p : Int × Int, p ∈ locs ↔
        (Grid.isValid p.1 p.2 = true ∧ w.grid.cells_grid p.1 p.2 = none ∧
          |p.1 - (w.heap self).r_coord| ≤ a.sightRange ∧
          |p.2 - (w.heap self).c_coord| ≤ a.sightRange ∧
          p ≠ ((w.heap self).r_coord, (w.heap self).c_coord))) ∧
      Herbivore.giveBirth w self = some w1 ∧
      (locs = [] → w1 = w) ∧
      w1.grid.herbivores_list = w.grid.herbivores_list ++ children ∧
      children.length ≤ 3 ∧ children.length ≤ locs.length ∧
      (locs ≠ [] → w.grid.population < MAX_POPULATION → 1 ≤ children.length) ∧
      ∀ c : Nat, c ∈ children → ¬ c < w.nextId ∧
        (w1.heap c).getType = .HERBIVORE ∧ (w1.heap c).is_alive = true ∧
        ((w1.heap c).r_coord, (w1.heap c).c_coord) ∈ locs ∧
        w1.grid.cells_grid (w1.heap c).r_coord (w1.heap c).c_coord = some c := by
  have ha := Entity.animal_of_herbivore hk
  have hcells := Animal.birthCells_fallback w self a ha hadj
  have hmem : ∀ p : Int × Int,
      p ∈ ((intRange (-a.sightRange) a.sightRange).flatMap (fun dr =>
        (intRange (-a.sightRange) a.sightRange).flatMap (fun dc =>
          if !(decide (dr = 0 ∧ dc = 0)) &&
              (Grid.isValid ((w.heap self).r_coord + dr) ((w.heap self).c_coord + dc) &&
              (w.grid.cells_grid ((w.heap self).r_coord + dr) ((w.heap self).c_coord + dc)
                == none))
          then [((w.heap self).r_coord + dr, (w.heap self).c_coord + dc)] else []))) ↔
      (Grid.isValid p.1 p.2 = true ∧ w.grid.cells_grid p.1 p.2 = none ∧
          |p.1 - (w.heap self).r_coord| ≤ a.sightRange ∧
          |p.2 - (w.heap self).c_coord| ≤ a.sightRange ∧
          p ≠ ((w.heap self).r_coord, (w.heap self).c_coord)) := by
    intro p
    rw [mem_offsetCells (w.heap self).r_coord (w.heap self).c_coord a.sightRange
      (fun dr dc => !(decide (dr = 0 ∧ dc = 0)) &&
        (Grid.isValid ((w.heap self).r_coord + dr) ((w.heap self).c_coord + dc) &&
        (w.grid.cells_grid ((w.heap self).r_coord + dr) ((w.heap self).c_coord + dc)
          == none))) p]
    obtain ⟨x, y⟩ := p
    have e1 : (w.heap self).r_coord + (x - (w.heap self).r_coord) = x := by omega
    have e2 : (w.heap self).c_coord + (y - (w.heap self).c_coord) = y := by omega
    simp only [e1, e2, Bool.and_eq_true, Bool.not_eq_true', decide_eq_false_iff_not,
      beq_iff_eq, ne_eq, Prod.mk.injEq]
    constructor
    · rintro ⟨h1, h2, h3, h4, h5⟩
      exact ⟨h4, h5, h1, h2, fun h => h3 ⟨by omega, by omega⟩⟩
    · rintro ⟨h1, h2, h3, h4, h5⟩
      exact ⟨h3, h4, fun h => h5 ⟨by omega, by omega⟩, h1, h2⟩
  obtain ⟨locs, n, gen1, hlocs, hn1, hn3, hgive⟩ := Herbivore.giveBirth_eq w self a ha hal
  rw [hcells] at hlocs
  simp only [Option.some.injEq] at hlocs
  by_cases hE : locs = []
  · refine ⟨locs, w, [], by rw [hcells, hlocs], ?_, ?_, fun _ => rfl, by simp, by simp, by simp,
      fun h => absurd hE h, fun c hc => absurd hc (List.not_mem_nil _)⟩
    · intro p; rw [← hlocs]; exact hmem p
    · rw [hgive, hE]; rfl
  · have hne : locs.isEmpty = false := by
      cases locs with
      | nil => exact absurd rfl hE
      | cons _ _ => rfl
    rw [hne] at hgive
    simp only [Bool.false_eq_true, if_false] at hgive
    obtain ⟨w1, hloop⟩ := Herbivore.birthLoop_some n locs { w with gen := gen1 }
    have hnd : locs.Nodup := by
      rw [← hlocs]
      exact nodup_offsetCells _ _ _ _ _
    obtain ⟨children, hb⟩ := Herbivore.birthLoop_born n hloop hnd (by
      intro p hp
      rw [← hlocs] at hp
      have := (hmem p).mp hp
      exact ⟨this.1, this.2.1⟩)
    refine ⟨locs, w1, children, by rw [hcells, hlocs], ?_, by rw [hgive, hloop],
      fun h => absurd h hE, hb.herbivores, le_trans hb.le_n hn3, hb.le_locs,
      fun hl hp => hb.some_born (by omega) hl hp, ?_⟩
    · intro p; rw [← hlocs]; exact hmem p
    · intro c hc
      obtain ⟨c1, _, c3, c4, c5, c6⟩ := hb.child c hc
      exact ⟨c1, c3, c4, c5, c6⟩

/-- In `gapWorld` the only empty cell within sight of the mother is `(3, 3)`, and she
gives birth to one herbivore there. -/
theorem birth_fallback_within_sight_witness :
    ∃ (w1 : World) (child : EntityId),
      Animal.birthCells gapWorld 0 = some [(3, 3)] ∧
      Herbivore.giveBirth gapWorld 0 = some w1 ∧
      w1.grid.herbivores_list = [0, child] ∧ ¬ child < gapWorld.nextId ∧
      w1.grid.cells_grid 3 3 = some child := by
  obtain ⟨locs, w1, children, hlocs, -, hgive, -, hlist, -, hle, hone, hch⟩ :=
    birth_fallback_within_sight gapWorld 0 dueMother rfl rfl (by decide!)
  have hcells : Animal.birthCells gapWorld 0 = some [(3, 3)] := by decide!
  rw [hcells] at hlocs
  simp only [Option.some.injEq] at hlocs
  subst hlocs
  have h1 := hone (by simp) (by decide!)
  obtain ⟨child, hchild⟩ : ∃ child, children = [child] := by
    cases children with
    | nil => simp at h1
    | cons x rest =>
      cases rest with
      | nil => exact ⟨x, rfl⟩
      | cons y rest => simp at hle
  subst hchild
  obtain ⟨c1, -, -, c4, c5⟩ := hch child (List.mem_singleton.mpr rfl)
  simp only [List.mem_singleton, Prod.mk.injEq] at c4
  rw [c4.1, c4.2] at c5
  exact ⟨w1, child, hcells, hgive, hlist, c1, c5⟩

/-! ## The rounding of `double` arithmetic -/

theorem Binary64.log2Fuel_spec : ∀ (fuel n : Nat), 1 ≤ n → n ≤ fuel →
    2 ^ Binary64.log2Fuel fuel n ≤ n ∧ n < 2 ^ (Binary64.log2Fuel fuel n + 1) := by
  intro fuel
  induction fuel with
  | zero => intro n h1 h2; omega
  | succ f ih =>
    intro n h1 h2
    unfold Binary64.log2Fuel
    by_cases h : 2 ≤ n
    · rw [if_pos h]
      have hd : 1 ≤ n / 2 := by omega
      have hf : n / 2 ≤ f := by omega
      obtain ⟨i1, i2⟩ := ih (n / 2) hd hf
      constructor
      · rw [pow_succ]
        omega
      · rw [pow_succ]
        omega
    · rw [if_neg h]
      have : n = 1 := by omega
      subst this
      exact ⟨by norm_num, by norm_num⟩

theorem Binary64.ilog2_spec (n : Nat) (h : 1 ≤ n) :
    2 ^ Binary64.ilog2 n ≤ n ∧ n < 2 ^ (Binary64.ilog2 n + 1) :=
  Binary64.log2Fuel_spec n n h (Nat.le_refl n)

theorem Binary64.nearest_spec (N D : Nat) (hD : 0 < D) :
    |((Binary64.nearest N D : Nat) : ℚ) - (N : ℚ) / (D : ℚ)| ≤ 1 / 2 := by
  have hDq : (0 : ℚ) < (D : ℚ) := by exact_mod_cast hD
  have hN : (N : ℚ) = (D : ℚ) * ((N / D : Nat) : ℚ) + ((N % D : Nat) : ℚ) := by
    exact_mod_cast (Nat.div_add_mod N D).symm
  have hr : ((N % D : Nat) : ℚ) < (D : ℚ) := by exact_mod_cast Nat.mod_lt N hD
  have hr0 : (0 : ℚ) ≤ ((N % D : Nat) : ℚ) := by positivity
  have hdiv : (N : ℚ) / (D : ℚ) = ((N / D : Nat) : ℚ) + ((N % D : Nat) : ℚ) / (D : ℚ) := by
    rw [hN]
    field_simp
    ring
  rw [hdiv, abs_le]
  unfold Binary64.nearest
  split
  · next h =>
    have h2 : 2 * ((N % D : Nat) : ℚ) < (D : ℚ) := by exact_mod_cast h
    have h3 : ((N % D : Nat) : ℚ) / (D : ℚ) < 1 / 2 := by
      rw [div_lt_iff₀ hDq]; linarith
    have h4 : 0 ≤ ((N % D : Nat) : ℚ) / (D : ℚ) := by positivity
    constructor <;> linarith
  · next h =>
    have h1 : (D : ℚ) ≤ 2 * ((N % D : Nat) : ℚ) := by
      have : D ≤ 2 * (N % D) := by omega
      exact_mod_cast this
    have h3 : 1 / 2 ≤ ((N % D : Nat) : ℚ) / (D : ℚ) := by
      rw [le_div_iff₀ hDq]; linarith
    have h4 : ((N % D : Nat) : ℚ) / (D : ℚ) < 1 := by
      rw [div_lt_iff₀ hDq]; linarith
    have h5 : 2 * ((N % D : Nat) : ℚ) ≤ (D : ℚ) → ((N % D : Nat) : ℚ) / (D : ℚ) ≤ 1 / 2 := by
      intro h
      rw [div_le_iff₀ hDq]; linarith
    split
    · push_cast
      constructor <;> linarith
    · next hn =>
      have h6 : 2 * ((N % D : Nat) : ℚ) ≤ (D : ℚ) := by
        have : 2 * (N % D) ≤ D := by omega
        exact_mod_cast this
      have h7 := h5 h6
      split
      · constructor <;> linarith
      · push_cast
        constructor <;> linarith

theorem Binary64.nearest_nonneg (N D : Nat) : (0 : ℚ) ≤ ((Binary64.nearest N D : Nat) : ℚ) :=
  Nat.cast_nonneg _

/-- The powers of two by which `roundPos` scales: `2 ^ la * 2 ^ (lb - la)` and
`2 ^ lb * 2 ^ (la - lb)` are the same number. -/
theorem Binary64.pow_cross (la lb : Nat) :
    (2 : ℚ) ^ la * 2 ^ (lb - la) = 2 ^ lb * 2 ^ (la - lb) := by
  rw [← pow_add, ← pow_add]
  congr 1
  omega

theorem Binary64.scaled_err (m S r : ℚ) (hr : 0 < r) (hS : 2 ^ 52 ≤ S)
    (hm : |m - S| ≤ 1 / 2) : |m * r - S * r| ≤ S * r / 2 ^ 53 := by
  have h1 : m * r - S * r = (m - S) * r := by ring
  rw [h1, abs_mul, abs_of_pos hr]
  have h2 : |m - S| * r ≤ 1 / 2 * r := mul_le_mul_of_nonneg_right hm (le_of_lt hr)
  have h3 : (1 : ℚ) / 2 * r ≤ S * r / 2 ^ 53 := by
    rw [le_div_iff₀ (by positivity)]
    have h4 : (2 : ℚ) ^ 53 = 2 * 2 ^ 52 := by norm_num
    rw [h4]
    nlinarith
  exact le_trans h2 h3

/-- The relative error of the rounding of a positive quotient is at most `2 ^ -53`, and
the result is not negative. -/
theorem Binary64.roundPos_spec (a b : Nat) (ha : 1 ≤ a) (hb : 1 ≤ b) :
    0 ≤ Binary64.roundPos a b ∧
      |Binary64.roundPos a b - (a : ℚ) / (b : ℚ)| ≤ (a : ℚ) / (b : ℚ) / 2 ^ 53 := by
  obtain ⟨a1, a2⟩ := Binary64.ilog2_spec a ha
  obtain ⟨b1, b2⟩ := Binary64.ilog2_spec b hb
  have hbq : (0 : ℚ) < (b : ℚ) := by exact_mod_cast hb
  have haq : (0 : ℚ) < (a : ℚ) := by exact_mod_cast ha
  have a1q : (2 : ℚ) ^ Binary64.ilog2 a ≤ (a : ℚ) := by exact_mod_cast a1
  have b2q : (b : ℚ) * 2 ^ 52 < 2 * (2 : ℚ) ^ (Binary64.ilog2 b + 52) := by
    have h : (b : ℚ) < (2 : ℚ) ^ (Binary64.ilog2 b + 1) := by exact_mod_cast b2
    have h2 : (2 : ℚ) * 2 ^ (Binary64.ilog2 b + 52) = 2 ^ (Binary64.ilog2 b + 1) * 2 ^ 52 := by
      rw [pow_add, pow_add]
      ring
    rw [h2]
    exact mul_lt_mul_of_pos_right h (by positivity)
  have hcross := Binary64.pow_cross (Binary64.ilog2 a) (Binary64.ilog2 b + 52)
  unfold Binary64.roundPos
  dsimp only
  generalize Binary64.ilog2 a = la at *
  generalize Binary64.ilog2 b + 52 = lb at *
  have hP : (0 : ℚ) < 2 ^ (lb - la) := by positivity
  have hQ : (0 : ℚ) < 2 ^ (la - lb) := by positivity
  have hA : (0 : ℚ) < 2 ^ la := by positivity
  have hB : (0 : ℚ) < 2 ^ lb := by positivity
  have hD : 0 < b * 2 ^ (la - lb) := Nat.mul_pos hb (by positivity)
  have hDq : (0 : ℚ) < (b : ℚ) * 2 ^ (la - lb) := by positivity
  by_cases hc : a * 2 ^ (lb - la) < 2 ^ 52 * (b * 2 ^ (la - lb))
  · rw [if_pos hc]
    have hm := Binary64.nearest_spec (2 * (a * 2 ^ (lb - la))) (b * 2 ^ (la - lb)) hD
    rw [Rat.mkRat_eq_div]
    push_cast at hm ⊢
    generalize ((Binary64.nearest (2 * (a * 2 ^ (lb - la))) (b * 2 ^ (la - lb)) : Nat) : ℚ)
      = m at hm ⊢
    have hS : (2 : ℚ) ^ 52 ≤ 2 * ((a : ℚ) * 2 ^ (lb - la)) / ((b : ℚ) * 2 ^ (la - lb)) := by
      rw [le_div_iff₀ hDq]
      have h1 : (2 : ℚ) ^ la * 2 ^ (lb - la) ≤ (a : ℚ) * 2 ^ (lb - la) :=
        mul_le_mul_of_nonneg_right a1q (le_of_lt hP)
      have h2 : (b : ℚ) * 2 ^ 52 * 2 ^ (la - lb) ≤ 2 * 2 ^ lb * 2 ^ (la - lb) :=
        mul_le_mul_of_nonneg_right (le_of_lt b2q) (le_of_lt hQ)
      nlinarith
    have hr : (0 : ℚ) < 2 ^ la / (2 ^ lb * 2) := by positivity
    have key := Binary64.scaled_err m _ _ hr hS hm
    have e1 : m * 2 ^ la / 2 ^ (lb + 1) = m * (2 ^ la / (2 ^ lb * 2)) := by
      rw [pow_succ]
      ring
    have e2 : (a : ℚ) / (b : ℚ) =
        2 * ((a : ℚ) * 2 ^ (lb - la)) / ((b : ℚ) * 2 ^ (la - lb)) * (2 ^ la / (2 ^ lb * 2)) := by
      field_simp
      nlinarith [mul_pos haq hbq]
    constructor
    · rw [e1]
      have : 0 ≤ m := by
        rcases abs_le.mp hm with ⟨l, _⟩
        have : (0 : ℚ) ≤ 2 ^ 52 := by positivity
        linarith
      positivity
    · rw [e1]
      rw [e2]
      exact key
  · rw [if_neg hc]
    have hm := Binary64.nearest_spec (a * 2 ^ (lb - la)) (b * 2 ^ (la - lb)) hD
    rw [Rat.mkRat_eq_div]
    push_cast at hm ⊢
    generalize ((Binary64.nearest (a * 2 ^ (lb - la)) (b * 2 ^ (la - lb)) : Nat) : ℚ)
      = m at hm ⊢
    have hS : (2 : ℚ) ^ 52 ≤ ((a : ℚ) * 2 ^ (lb - la)) / ((b : ℚ) * 2 ^ (la - lb)) := by
      rw [le_div_iff₀ hDq]
      have : 2 ^ 52 * (b * 2 ^ (la - lb)) ≤ a * 2 ^ (lb - la) := Nat.le_of_not_lt hc
      exact_mod_cast this
    have hr : (0 : ℚ) < 2 ^ la / 2 ^ lb := by positivity
    have key := Binary64.scaled_err m _ _ hr hS hm
    have e1 : m * 2 ^ la / 2 ^ lb = m * (2 ^ la / 2 ^ lb) := by ring
    have e2 : (a : ℚ) / (b : ℚ) =
        ((a : ℚ) * 2 ^ (lb - la)) / ((b : ℚ) * 2 ^ (la - lb)) * (2 ^ la / 2 ^ lb) := by
      field_simp
      nlinarith [mul_pos haq hbq]
    constructor
    · rw [e1]
      have : 0 ≤ m := by
        rcases abs_le.mp hm with ⟨l, _⟩
        have : (0 : ℚ) ≤ 2 ^ 52 := by positivity
        linarith
      positivity
    · rw [e1]
      rw [e2]
      exact key

theorem Binary64.round_nonneg (x : ℚ) (h : 0 ≤ x) : 0 ≤ Binary64.round x := by
  unfold Binary64.round
  by_cases h0 : x = 0
  · rw [if_pos h0]
  · rw [if_neg h0, if_pos (lt_of_le_of_ne h (Ne.symm h0))]
    have hnum : 1 ≤ x.num.natAbs := by
      have : x.num ≠ 0 := fun h => h0 (Rat.num_eq_zero.mp h)
      omega
    exact (Binary64.roundPos_spec x.num.natAbs x.den hnum x.den_pos).1

theorem Herbivore.dsqFlee_nonneg (avgCarnR avgCarnC : ℚ) (nr nc : Int) :
    0 ≤ Herbivore.dsqFlee avgCarnR avgCarnC nr nc := by
  unfold Herbivore.dsqFlee Binary64.add Binary64.mul
  exact Binary64.round_nonneg _ (add_nonneg (Binary64.round_nonneg _ (mul_self_nonneg _))
    (Binary64.round_nonneg _ (mul_self_nonneg _)))

/-- The products that the energy thresholds of `attemptEat` and `move` compare with, for
the maximal energy 120 of both species: in `double` they are exactly 114, 108 and 102. -/
theorem Binary64.threshold_products :
    Binary64.mul (Binary64.ofInt 120) (Binary64.round (95 / 100)) = 114 ∧
    Binary64.mul (Binary64.ofInt 120) (Binary64.round (9 / 10)) = 108 ∧
    Binary64.mul (Binary64.ofInt 120) (Binary64.round (85 / 100)) = 102 := by
  decide!

/-! ## C27, C28 : the flee block of `Herbivore::move` -/

theorem foldlM_eq_foldl {α β : Type} (step : β → α → Option β) (g : β → α → β)
    (xs : List α) (hstep : ∀ acc x, x ∈ xs → step acc x = some (g acc x)) (acc : β) :
    xs.foldlM step acc = some (xs.foldl g acc) := by
  induction xs generalizing acc with
  | nil => rfl
  | cons x xs ih =>
    rw [List.foldlM_cons, hstep acc x (List.mem_cons_self _ _)]
    simp only [Option.bind_eq_bind, Option.some_bind, List.foldl_cons]
    exact ih (fun acc y hy => hstep acc y (List.mem_cons_of_mem _ hy)) _

/-- A loop that keeps the first element with the largest value among those that pass a
test, comparing with `>`. -/
theorem foldl_argmax {α β : Type} [LinearOrder β] (P : α → Prop) [DecidablePred P]
    (f : α → β) (R : α → α → Prop) :
    ∀ (L : List α) (st0 : α × β), L.Pairwise R →
      (L.foldl (fun st x => if P x ∧ f x > st.2 then (x, f x) else st) st0 = st0 ∧
        ∀ y ∈ L, P y → f y ≤ st0.2) ∨
      ((L.foldl (fun st x => if P x ∧ f x > st.2 then (x, f x) else st) st0).1 ∈ L ∧
        P (L.foldl (fun st x => if P x ∧ f x > st.2 then (x, f x) else st) st0).1 ∧
        (L.foldl (fun st x => if P x ∧ f x > st.2 then (x, f x) else st) st0).2 =
          f (L.foldl (fun st x => if P x ∧ f x > st.2 then (x, f x) else st) st0).1 ∧
        st0.2 < (L.foldl (fun st x => if P x ∧ f x > st.2 then (x, f x) else st) st0).2 ∧
        ∀ y ∈ L, P y →
          (f y < (L.foldl (fun st x => if P x ∧ f x > st.2 then (x, f x) else st) st0).2 ∨
            (f y = (L.foldl (fun st x => if P x ∧ f x > st.2 then (x, f x) else st) st0).2 ∧
              (y = (L.foldl (fun st x => if P x ∧ f x > st.2 then (x, f x) else st) st0).1 ∨
                R (L.foldl (fun st x => if P x ∧ f x > st.2 then (x, f x) else st) st0).1
                  y)))) := by
  intro L
  induction L with
  | nil =>
    intro st0 _
    exact Or.inl ⟨rfl, fun y hy => absurd hy (List.not_mem_nil _)⟩
  | cons x xs ih =>
    intro st0 hp
    rw [List.pairwise_cons] at hp
    rw [List.foldl_cons]
    by_cases hx : P x ∧ f x > st0.2
    · rw [if_pos hx]
      rcases ih (x, f x) hp.2 with ⟨hres, hall⟩ | ⟨h1, h2, h3, h4, h5⟩
      · rw [hres]
        refine Or.inr ⟨List.mem_cons_self _ _, hx.1, rfl, hx.2, ?_⟩
        intro y hy hPy
        rcases List.mem_cons.mp hy with rfl | hin
        · exact Or.inr ⟨rfl, Or.inl rfl⟩
        · have := hall y hin hPy
          rcases lt_or_eq_of_le this with hlt | heq
          · exact Or.inl hlt
          · exact Or.inr ⟨heq, Or.inr (hp.1 y hin)⟩
      · refine Or.inr ⟨List.mem_cons_of_mem _ h1, h2, h3, ?_, ?_⟩
        · exact lt_trans hx.2 h4
        · intro y hy hPy
          rcases List.mem_cons.mp hy with rfl | hin
          · exact Or.inl h4
          · exact h5 y hin hPy
    · rw [if_neg hx]
      have hxle : P x → f x ≤ st0.2 := fun hP => not_lt.mp (fun h => hx ⟨hP, h⟩)
      rcases ih st0 hp.2 with ⟨hres, hall⟩ | ⟨h1, h2, h3, h4, h5⟩
      · refine Or.inl ⟨hres, ?_⟩
        intro y hy hPy
        rcases List.mem_cons.mp hy with rfl | hin
        · exact hxle hPy
        · exact hall y hin hPy
      · refine Or.inr ⟨List.mem_cons_of_mem _ h1, h2, h3, h4, ?_⟩
        intro y hy hPy
        rcases List.mem_cons.mp hy with rfl | hin
        · exact Or.inl (lt_of_le_of_lt (hxle hPy) h4)
        · exact h5 y hin hPy

theorem pairwise_neighbourCells (r c : Int) :
    (neighbourCells r c).Pairwise rowMajorBefore := by
  unfold neighbourCells rowMajorBefore
  simp only [List.pairwise_cons, List.mem_cons, List.mem_singleton, List.not_mem_nil,
    forall_eq_or_imp, forall_eq, or_false, List.Pairwise.nil, and_true, IsEmpty.forall_iff,
    implies_true]
  simp only [true_and]
  omega

/-- Closed form of `fleeTarget`: the two loops never fault and keep, among the eight
neighbour cells taken row by row, the first empty one with the largest `dsq_flee`. -/
theorem Herbivore.fleeTarget_eq (w : World) (self : EntityId) (cs : List EntityId) :
    Herbivore.fleeTarget w self cs =
      some ((neighbourCells (w.heap self).r_coord (w.heap self).c_coord).foldl
        (fun st x =>
          if (Grid.isValid x.1 x.2 && (w.grid.cells_grid x.1 x.2 == none)) = true ∧
              Herbivore.doubleDistSq w cs x > st.2
          then (x, Herbivore.doubleDistSq w cs x) else st)
        (((w.heap self).r_coord, (w.heap self).c_coord), (-1 : ℚ))).1 := by
  unfold Herbivore.fleeTarget
  dsimp only
  rw [foldlM_eq_foldl _ (fun (st : (Int × Int) × ℚ) (dr : Int) =>
    (intRange (-1) 1).foldl (fun (st : (Int × Int) × ℚ) (dc : Int) =>
      if dr = 0 ∧ dc = 0 then st
      else if (Grid.isValid ((w.heap self).r_coord + dr) ((w.heap self).c_coord + dc) &&
          (w.grid.cells_grid ((w.heap self).r_coord + dr) ((w.heap self).c_coord + dc)
            == none)) = true ∧
          Herbivore.doubleDistSq w cs ((w.heap self).r_coord + dr, (w.heap self).c_coord + dc)
            > st.2
        then (((w.heap self).r_coord + dr, (w.heap self).c_coord + dc),
          Herbivore.doubleDistSq w cs ((w.heap self).r_coord + dr, (w.heap self).c_coord + dc))
        else st) st)]
  · simp only [Option.pure_def, Option.bind_eq_bind, Option.some_bind, Option.some.injEq]
    have hr : intRange (-1) 1 = [-1, 0, 1] := by decide
    rw [hr]
    simp [neighbourCells, Entity.getR, Entity.getC, Int.add_neg_one]
  · intro acc dr _
    rw [foldlM_eq_foldl]
    intro acc1 dc _
    by_cases h0 : dr = 0 ∧ dc = 0
    · simp [h0]
    · simp only [h0, if_false, Grid.isEmpty_eq, Option.pure_def, Option.bind_eq_bind,
        Option.some_bind, Entity.getR, Entity.getC]
      unfold Herbivore.doubleDistSq
      simp only [Entity.getR, Entity.getC]
      split
      · next hE =>
        split
        · next hgt => rw [if_pos ⟨hE, hgt⟩]
        · next hgt => rw [if_neg (fun h => hgt h.2)]
      · next hE => rw [if_neg (fun h => hE h.1)]

theorem Herbivore.doubleDistSq_nonneg (w : World) (cs : List EntityId) (p : Int × Int) :
    0 ≤ Herbivore.doubleDistSq w cs p :=
  Herbivore.dsqFlee_nonneg _ _ _ _

/-- What the flee block picks: the own cell when no neighbour cell is empty, and
otherwise the first of the empty neighbour cells, row by row, with the largest
`dsq_flee`. -/
theorem Herbivore.fleeTarget_spec (w : World) (self : EntityId) (cs : List EntityId)
    (_ : cs ≠ []) :
    ∃ t, Herbivore.fleeTarget w self cs = some t ∧
      ((t = ((w.heap self).r_coord, (w.heap self).c_coord) ∧
          ∀ q ∈ neighbourCells (w.heap self).r_coord (w.heap self).c_coord,
            ¬ (Grid.isValid q.1 q.2 = true ∧ w.grid.cells_grid q.1 q.2 = none)) ∨
        (t ∈ neighbourCells (w.heap self).r_coord (w.heap self).c_coord ∧
          Grid.isValid t.1 t.2 = true ∧ w.grid.cells_grid t.1 t.2 = none ∧
          ∀ q ∈ neighbourCells (w.heap self).r_coord (w.heap self).c_coord,
            Grid.isValid q.1 q.2 = true → w.grid.cells_grid q.1 q.2 = none →
            (Herbivore.doubleDistSq w cs q ≤ Herbivore.doubleDistSq w cs t ∧
              (Herbivore.doubleDistSq w cs q = Herbivore.doubleDistSq w cs t →
                q = t ∨ rowMajorBefore t q)))) := by
  refine ⟨_, Herbivore.fleeTarget_eq w self cs, ?_⟩
  have hP : ∀ q : Int × Int,
      (Grid.isValid q.1 q.2 && (w.grid.cells_grid q.1 q.2 == none)) = true ↔
        (Grid.isValid q.1 q.2 = true ∧ w.grid.cells_grid q.1 q.2 = none) := by
    intro q
    simp
  rcases foldl_argmax
    (fun x : Int × Int => (Grid.isValid x.1 x.2 && (w.grid.cells_grid x.1 x.2 == none)) = true)
    (Herbivore.doubleDistSq w cs) rowMajorBefore
    (neighbourCells (w.heap self).r_coord (w.heap self).c_coord)
    (((w.heap self).r_coord, (w.heap self).c_coord), (-1 : ℚ))
    (pairwise_neighbourCells _ _) with ⟨hres, hall⟩ | ⟨h1, h2, h3, h4, h5⟩
  · refine Or.inl ⟨by rw [hres], ?_⟩
    intro q hq hE
    have := hall q hq ((hP q).mpr hE)
    have h0 := Herbivore.doubleDistSq_nonneg w cs q
    dsimp only at this
    linarith
  · refine Or.inr ⟨h1, ((hP _).mp h2).1, ((hP _).mp h2).2, ?_⟩
    intro q hq hv hc
    rw [h3] at h5
    rcases h5 q hq ((hP q).mpr ⟨hv, hc⟩) with hlt | ⟨heq, hor⟩
    · exact ⟨le_of_lt hlt, fun hq2 => absurd hq2 (ne_of_lt hlt)⟩
    · exact ⟨le_of_eq heq, fun _ => hor⟩

theorem Entity.age_kill (ent : Entity) : ent.kill.age = ent.age := rfl

theorem Entity.age_setR (ent : Entity) (r : Int) : (ent.setR r).age = ent.age := rfl

theorem Entity.age_setC (ent : Entity) (c : Int) : (ent.setC c).age = ent.age := rfl

theorem Entity.age_setAnimal {ent : Entity} {a : AnimalData} (a1 : AnimalData)
    (ha : ent.animal = some a) :
    (ent.setAnimal a1).age = ent.age + (a1.currentAge - a.currentAge) := by
  unfold Entity.animal at ha
  unfold Entity.setAnimal Entity.age
  cases hk : ent.kind with
  | plant p => rw [hk] at ha; exact absurd ha (by simp)
  | herbivore x =>
    rw [hk] at ha
    simp only [Option.some.injEq] at ha
    subst ha
    simp
  | carnivore x =>
    rw [hk] at ha
    simp only [Option.some.injEq] at ha
    subst ha
    simp

theorem Entity.age_setAnimal_same {ent : Entity} {a : AnimalData} (a1 : AnimalData)
    (ha : ent.animal = some a) (h : a1.currentAge = a.currentAge) :
    (ent.setAnimal a1).age = ent.age := by
  rw [Entity.age_setAnimal a1 ha, h]
  omega

theorem Entity.age_setCurrentEnergy {ent : Entity} {a : AnimalData} (v : Int)
    (ha : ent.animal = some a) :
    (ent.setAnimal (Animal.setCurrentEnergy a v)).age = ent.age :=
  Entity.age_setAnimal_same _ ha rfl

theorem Entity.age_setPlant {ent : Entity} {p : PlantData} (p1 : PlantData)
    (hp : ent.plant = some p) :
    (ent.setPlant p1).age = ent.age + (p1.currentAge - p.currentAge) := by
  unfold Entity.plant at hp
  unfold Entity.setPlant Entity.age
  cases hk : ent.kind with
  | plant x =>
    rw [hk] at hp
    simp only [Option.some.injEq] at hp
    subst hp
    simp
  | herbivore x => rw [hk] at hp; exact absurd hp (by simp)
  | carnivore x => rw [hk] at hp; exact absurd hp (by simp)

theorem Plant.new_age (r c : Int) : (Plant.new r c).age = 0 := rfl

theorem Herbivore.herbivore_new_age (gen : List Nat) (r c : Int) (g : Gender) :
    (Herbivore.new gen r c g).1.age = 0 := rfl

theorem Carnivore.carnivore_new_age (gen : List Nat) (r c : Int) (g : Gender) :
    (Carnivore.new gen r c g).1.age = 0 := rfl

theorem World.Ages.ages_same (w : World) : World.Ages [] w w :=
  ⟨fun _ h => h, fun _ _ _ => rfl, fun _ h1 h2 => absurd h2 h1, fun _ _ => le_refl _,
   fun _ => Nat.le_succ _⟩

/-- Two stretches of a run one after the other; the objects updated in the second one
existed at the start of the first. -/
theorem World.Ages.ages_append {u1 u2 : List EntityId} {x y z : World}
    (h1 : World.Ages u1 x y) (h2 : World.Ages u2 y z) (hu : ∀ e ∈ u2, e < x.nextId) :
    World.Ages (u1 ++ u2) x z := by
  refine ⟨fun e he => h2.allocated e (h1.allocated e he), fun e he hn => ?_,
    fun e he1 he2 => ?_, fun e he => ?_, fun e => ?_⟩
  · rw [List.mem_append, not_or] at hn
    rw [h2.old e (h1.allocated e he) hn.2, h1.old e he hn.1]
  · by_cases hy : e < y.nextId
    · rw [h2.old e hy (fun hm => he1 (hu e hm))]
      exact h1.fresh e he1 hy
    · exact h2.fresh e hy he2
  · rcases he with he | he
    · exact le_trans (h2.listed e (Or.inl (h1.allocated e he))) (h1.listed e (Or.inl he))
    · have hy : ¬ e < y.nextId := fun hy => he (h2.allocated e hy)
      exact le_trans (h2.listed e (Or.inr he)) (h1.listed e (Or.inr hy))
  · by_cases hy : e < y.nextId
    · exact le_trans (h2.listed e (Or.inl hy)) (h1.listed_fresh e)
    · have := h1.listed e (Or.inr hy)
      have := h2.listed_fresh e
      omega

theorem World.Ages.ages_chain {x y z : World} (h1 : World.Ages [] x y)
    (h2 : World.Ages [] y z) : World.Ages [] x z :=
  h1.ages_append h2 (fun _ h => absurd h (List.not_mem_nil _))

theorem World.Ages.ages_weaken {w w1 : World} (h : World.Ages [] w w1) (l : List EntityId) :
    World.Ages l w w1 :=
  ⟨h.allocated, fun e he _ => h.old e he (List.not_mem_nil _), h.fresh, h.listed,
   h.listed_fresh⟩

/-- Steps that leave the allocator alone, keep every age and register no object more
often. -/
theorem World.Ages.ages_of_frame {w w1 : World} (hn : w1.nextId = w.nextId)
    (hage : ∀ e : Nat, (w1.heap e).age = (w.heap e).age)
    (hcount : ∀ e : Nat, w1.grid.all.count e ≤ w.grid.all.count e) : World.Ages [] w w1 :=
  ⟨fun _ he => hn ▸ he, fun e _ _ => hage e, fun _ h1 h2 => absurd (hn ▸ h2) h1,
   fun e _ => hcount e, fun e => le_trans (hcount e) (Nat.le_succ _)⟩

/-- Changes outside the objects, the allocator and the grid (statistics, generator). -/
theorem World.Ages.ages_of_same {w w1 : World} (hh : w1.heap = w.heap)
    (hn : w1.nextId = w.nextId) (hg : w1.grid = w.grid) : World.Ages [] w w1 :=
  World.Ages.ages_of_frame hn (fun _ => by rw [hh]) (fun _ => by rw [hg])

theorem World.Ages.ages_then_same {l : List EntityId} {w wm w1 : World}
    (h : World.Ages l w wm) (hh : w1.heap = wm.heap) (hn : w1.nextId = wm.nextId)
    (hg : w1.grid = wm.grid) : World.Ages l w w1 :=
  ⟨fun e he => hn ▸ h.allocated e he, fun e he hl => by rw [hh]; exact h.old e he hl,
   fun e h1 h2 => by rw [hh]; exact h.fresh e h1 (hn ▸ h2),
   fun e he => by rw [hg]; exact h.listed e (by rw [← hn]; exact he),
   fun e => by rw [hg]; exact h.listed_fresh e⟩

/-- A member function that keeps the age, applied to one object. -/
theorem World.ages_modify (w : World) (e : EntityId) (f : Entity → Entity)
    (hf : (f (w.heap e)).age = (w.heap e).age) : World.Ages [] w (w.modify e f) := by
  refine World.Ages.ages_of_frame rfl (fun i => ?_) (fun i => le_refl _)
  show (if i = e then f (w.heap e) else w.heap i).age = _
  by_cases hi : i = e
  · rw [if_pos hi, hi]; exact hf
  · rw [if_neg hi]

theorem World.Ages.ages_then_modify {w wm : World} (h : World.Ages [] w wm)
    (e : EntityId) (f : Entity → Entity) (hf : (f (wm.heap e)).age = (wm.heap e).age) :
    World.Ages [] w (wm.modify e f) :=
  h.ages_chain (World.ages_modify wm e f hf)

theorem World.Ages.ages_then_stats {l : List EntityId} {w wm : World} (h : World.Ages l w wm)
    (st : MonthlyStats) : World.Ages l w { wm with stats := st } :=
  h.ages_then_same rfl rfl rfl

theorem World.Ages.ages_then_gen {l : List EntityId} {w wm : World} (h : World.Ages l w wm)
    (gen : List Nat) : World.Ages l w { wm with gen := gen } :=
  h.ages_then_same rfl rfl rfl

theorem World.Ages.ages_then_event {l : List EntityId} {w wm : World} (h : World.Ages l w wm)
    (ev : String) : World.Ages l w (wm.addMonthlyEvent ev) :=
  h.ages_then_same rfl rfl rfl

theorem Animal.die_ages (w : World) (self : EntityId) (eaten : Bool) :
    World.Ages [] w (Animal.die w self eaten) := by
  refine World.Ages.ages_of_frame (Animal.die_nextId _ _ _) (fun i => ?_)
    (fun i => by rw [Animal.die_grid])
  rw [Animal.die_heap]
  show (if i = self then (w.heap self).kill else w.heap i).age = _
  by_cases hi : i = self
  · rw [if_pos hi, hi]; rfl
  · rw [if_neg hi]

theorem World.Ages.ages_then_die {w wm : World} (h : World.Ages [] w wm)
    (self : EntityId) (eaten : Bool) : World.Ages [] w (Animal.die wm self eaten) :=
  h.ages_chain (Animal.die_ages wm self eaten)

/-- The registries of a world that evolved from one whose registries list allocated
objects once do so as well. -/
theorem World.Ages.ages_registered {l : List EntityId} {w w1 : World} (h : World.Ages l w w1)
    (hw : w.Registered) : w1.Registered := by
  have hzero : ∀ e : Nat, ¬ e < w.nextId → w.grid.all.count e = 0 := by
    intro e he
    rw [List.count_eq_zero]
    exact fun hm => he (hw.2 e hm)
  constructor
  · rw [List.nodup_iff_count_le_one]
    intro e
    by_cases he : e < w.nextId
    · exact le_trans (h.listed e (Or.inl he)) (List.nodup_iff_count_le_one.mp hw.1 e)
    · have := h.listed_fresh e
      rw [hzero e he] at this
      exact this
  · intro e hm
    by_contra hn
    have hold : ¬ e < w.nextId := fun he => hn (h.allocated e he)
    have := h.listed e (Or.inr hn)
    rw [hzero e hold] at this
    have hpos : 0 < w1.grid.all.count e := List.count_pos_iff.mpr hm
    omega

/-! ### The four mutating member functions of `Grid` -/

theorem Grid.all_setCell (g : Grid) (r c : Int) (v : Option EntityId) :
    (g.setCell r c v).all = g.all := rfl

theorem Grid.count_all_eraseIf (g : Grid) (t : EntityType) (drop : EntityId → Bool)
    (e : EntityId) : (g.eraseIf t drop).all.count e ≤ g.all.count e := by
  have hf : ∀ l : List EntityId, (l.filter (fun x => !drop x)).count e ≤ l.count e :=
    fun l => List.Sublist.count_le (List.filter_sublist _) e
  cases t with
  | PLANT =>
    have := hf g.plants_list
    simp only [Grid.eraseIf, Grid.all, List.count_append]
    omega
  | HERBIVORE =>
    have := hf g.herbivores_list
    simp only [Grid.eraseIf, Grid.all, List.count_append]
    omega
  | CARNIVORE =>
    have := hf g.carnivores_list
    simp only [Grid.eraseIf, Grid.all, List.count_append]
    omega
  | EMPTY => exact le_refl _

theorem Grid.count_all_pushBack (g : Grid) (t : EntityType) (x e : EntityId) :
    (g.pushBack t x).all.count e ≤ g.all.count e + 1 ∧
      (e ≠ x → (g.pushBack t x).all.count e = g.all.count e) := by
  have h1 : List.count e [x] ≤ 1 := by
    rw [List.count_singleton]
    split <;> omega
  have h0 : e ≠ x → List.count e [x] = 0 := by
    intro h
    rw [List.count_eq_zero]
    simpa using h
  cases t with
  | PLANT =>
    simp only [Grid.pushBack, Grid.all, List.count_append]
    exact ⟨by omega, fun h => by rw [h0 h]; omega⟩
  | HERBIVORE =>
    simp only [Grid.pushBack, Grid.all, List.count_append]
    exact ⟨by omega, fun h => by rw [h0 h]; omega⟩
  | CARNIVORE =>
    simp only [Grid.pushBack, Grid.all, List.count_append]
    exact ⟨by omega, fun h => by rw [h0 h]; omega⟩
  | EMPTY => exact ⟨Nat.le_succ _, fun _ => rfl⟩

theorem World.removeEntity_ages {w w1 : World} {ent : Option EntityId}
    (h : w.removeEntity ent = some w1) : World.Ages [] w w1 := by
  cases ent with
  | none =>
    simp only [World.removeEntity, pure, Option.some.injEq] at h
    rw [← h]; exact World.Ages.ages_same w
  | some e =>
    rw [World.removeEntity_some] at h
    simp only [Option.some.injEq] at h
    split at h
    · rw [← h]
      have h1 := World.ages_modify w e Entity.kill (Entity.age_kill _)
      refine h1.ages_chain (World.Ages.ages_of_frame rfl (fun _ => rfl) (fun i => ?_))
      refine le_trans (Grid.count_all_eraseIf _ _ _ _) ?_
      show ((if _ then _ else _ : Grid).all).count i ≤ w.grid.all.count i
      split
      · rw [Grid.all_setCell]
      · exact le_refl _
    · rw [← h]; exact World.Ages.ages_same w

theorem World.moveEntity_ages {w w1 : World} {ent : Option EntityId}
    {newR newC : Int} (h : w.moveEntity ent newR newC = some w1) : World.Ages [] w w1 := by
  cases ent with
  | none =>
    simp only [World.moveEntity, pure, Option.some.injEq] at h
    rw [← h]; exact World.Ages.ages_same w
  | some e =>
    rw [World.moveEntity_some] at h
    simp only [Option.some.injEq] at h
    rw [← h]
    have hreg : ∀ i : Nat,
        (((if Grid.isValid (w.heap e).r_coord (w.heap e).c_coord = true ∧
            w.grid.cells_grid (w.heap e).r_coord (w.heap e).c_coord = some e then
          w.grid.setCell (w.heap e).r_coord (w.heap e).c_coord none
          else w.grid) : Grid).all).count i = w.grid.all.count i := by
      intro i
      split
      · rw [Grid.all_setCell]
      · rfl
    split
    · refine World.Ages.ages_of_frame rfl (fun i => ?_) (fun i => ?_)
      · dsimp only
        by_cases hi : i = e
        · rw [if_pos hi, hi]; rfl
        · rw [if_neg hi]
      · dsimp only
        rw [Grid.all_setCell, hreg]
    · refine World.Ages.ages_of_frame rfl (fun i => ?_) (fun i => ?_)
      · dsimp only
        by_cases hi : i = e
        · rw [if_pos hi, hi]; rfl
        · rw [if_neg hi]
      · dsimp only
        rw [hreg]

theorem World.Adds.adds_same (x : EntityId) (w : World) : World.Adds x w w :=
  ⟨rfl, fun _ => rfl, fun _ _ => le_refl _, Nat.le_succ _⟩

theorem World.addEntity_adds {w w1 : World} {x : EntityId} {ok : Bool}
    (h : w.addEntity (some x) = some (w1, ok)) : World.Adds x w w1 := by
  rw [World.addEntity_some] at h
  simp only [Option.some.injEq] at h
  split at h
  · simp only [Prod.mk.injEq] at h
    rw [← h.1]
    refine ⟨rfl, fun _ => rfl, fun e he => ?_, ?_⟩
    · show (((w.grid.setCell _ _ _).pushBack _ x).all.count e) ≤ _
      rw [(Grid.count_all_pushBack _ _ _ _).2 he, Grid.all_setCell]
    · show (((w.grid.setCell _ _ _).pushBack _ x).all.count x) ≤ _
      exact le_trans (Grid.count_all_pushBack _ _ _ _).1 (by rw [Grid.all_setCell])
  · simp only [Prod.mk.injEq] at h
    rw [← h.1]; exact World.Adds.adds_same x w

theorem World.addMigratingAnimalLoop_adds (x : EntityId) (n : Nat) :
    ∀ {w w1 : World} {ok : Bool}, World.addMigratingAnimalLoop x n w = some (w1, ok) →
      World.Adds x w w1 := by
  induction n with
  | zero =>
    intro w w1 ok h
    simp only [World.addMigratingAnimalLoop, pure, Option.some.injEq, Prod.mk.injEq] at h
    rw [← h.1]; exact World.Adds.adds_same x w
  | succ n ih =>
    intro w w1 ok h
    unfold World.addMigratingAnimalLoop at h
    dsimp only at h
    obtain ⟨emp, _, h⟩ := bind_some_elim h
    rcases ite_eq_some_cases h with h | h
    · have ha := World.addEntity_adds h
      refine ⟨ha.nextId_eq, fun e => ?_, ha.count_other, ha.count_self⟩
      rw [ha.age_eq]
      simp only [World.modify]
      by_cases he : e = x
      · simp [he, Entity.setR, Entity.setC, Entity.age]
      · simp [he]
    · have hr := ih h
      exact ⟨hr.nextId_eq, hr.age_eq, hr.count_other, hr.count_self⟩

theorem World.addMigratingAnimal_adds {w w1 : World} {x : EntityId} {ok : Bool}
    (h : w.addMigratingAnimal x = some (w1, ok)) : World.Adds x w w1 := by
  unfold World.addMigratingAnimal at h
  rcases ite_eq_some_cases h with h | h
  · simp only [pure, Option.some.injEq, Prod.mk.injEq] at h
    rw [← h.1]; exact World.Adds.adds_same x w
  · exact World.addMigratingAnimalLoop_adds x _ h

/-- `std::make_shared` of an object of age 0 followed by its registration. -/
theorem World.ages_alloc_adds {w w1 : World} (ent : Entity) (h0 : ent.age = 0)
    (h : World.Adds (w.alloc ent).2 (w.alloc ent).1 w1) : World.Ages [] w w1 := by
  have hn : w1.nextId = w.nextId + 1 := h.nextId_eq
  refine ⟨fun e he => by rw [hn]; exact Nat.lt_succ_of_lt he, fun e he _ => ?_,
    fun e h1 h2 => ?_, fun e he => ?_, fun e => ?_⟩
  · rw [h.age_eq]
    show (if e = w.nextId then ent else w.heap e).age = _
    rw [if_neg (Nat.ne_of_lt he)]
  · rw [h.age_eq]
    show (if e = w.nextId then ent else w.heap e).age = _
    have h3 : e < w.nextId + 1 := hn ▸ h2
    have : e = w.nextId := Nat.le_antisymm (Nat.lt_succ_iff.mp h3) (Nat.not_lt.mp h1)
    rw [if_pos this]; exact h0
  · have hne : e ≠ w.nextId := by
      rcases he with he | he
      · exact Nat.ne_of_lt he
      · intro heq
        apply he
        rw [hn, heq]
        exact Nat.lt_succ_self _
    exact h.count_other e hne
  · by_cases he : e = w.nextId
    · rw [he]; exact h.count_self
    · exact le_trans (h.count_other e he) (Nat.le_succ _)

/-! ### The member functions of `Animal`, `Herbivore` and `Carnivore` -/

theorem Animal.payMove_ages {w wm w1 : World} {self : EntityId}
    (hev : World.Ages [] w wm)
    (h : Animal.payMove wm self = some w1) : World.Ages [] w w1 := by
  unfold Animal.payMove at h
  obtain ⟨a, ha, h⟩ := bind_some_elim h
  simp only [pure, Option.some.injEq] at h
  rw [← h]
  exact hev.ages_then_modify self _ (Entity.age_setCurrentEnergy _ ha)

theorem Herbivore.herbivore_attemptEatScan_ages (self : EntityId)
    (offs : List (Int × Int)) :
    ∀ {w w1 : World} {ok : Bool}, Herbivore.attemptEatScan self offs w = some (w1, ok) → World.Ages [] w w1 := by
  induction offs with
  | nil =>
    intro w w1 ok h
    simp only [Herbivore.attemptEatScan, pure, Option.some.injEq, Prod.mk.injEq] at h
    rw [← h.1]; exact World.Ages.ages_same w
  | cons d rest ih =>
    intro w w1 ok h
    obtain ⟨dr, dc⟩ := d
    unfold Herbivore.attemptEatScan at h
    dsimp only at h
    rcases ite_eq_some_cases h with h | h
    · obtain ⟨target, _, h⟩ := bind_some_elim h
      cases target with
      | none => exact ih h
      | some plantEntity =>
        dsimp only at h
        rcases ite_eq_some_cases h with h | h
        · obtain ⟨a, ha, h⟩ := bind_some_elim h
          obtain ⟨w5, h5, h⟩ := bind_some_elim h
          simp only [pure, Option.some.injEq, Prod.mk.injEq] at h
          rw [← h.1]
          refine World.Ages.ages_chain ?_ (World.removeEntity_ages h5)
          refine World.Ages.ages_then_event ?_ _
          refine World.Ages.ages_then_stats ?_ _
          refine World.Ages.ages_then_modify ?_ _ _ (Entity.age_kill _)
          exact (World.Ages.ages_same w).ages_then_modify self _
            (Entity.age_setCurrentEnergy _ ha)
        · exact ih h
    · exact ih h

theorem Herbivore.herbivore_attemptEat_ages {w w1 : World} {self : EntityId}
    {season : Season} {ok : Bool} (h : Herbivore.attemptEat w self season = some (w1, ok)) :
    World.Ages [] w w1 := by
  unfold Herbivore.attemptEat at h
  obtain ⟨a, _, h⟩ := bind_some_elim h
  rcases ite_some_cond h with ⟨_, h⟩ | ⟨hc, h⟩
  · simp only [pure, Option.some.injEq, Prod.mk.injEq] at h
    rw [← h.1]; exact World.Ages.ages_same w
  · exact Herbivore.herbivore_attemptEatScan_ages self _ h

theorem Carnivore.carnivore_attemptEatScan_ages (self : EntityId)
    (offs : List (Int × Int)) :
    ∀ {w w1 : World} {ok : Bool}, Carnivore.attemptEatScan self offs w = some (w1, ok) → World.Ages [] w w1 := by
  induction offs with
  | nil =>
    intro w w1 ok h
    simp only [Carnivore.attemptEatScan, pure, Option.some.injEq, Prod.mk.injEq] at h
    rw [← h.1]; exact World.Ages.ages_same w
  | cons d rest ih =>
    intro w w1 ok h
    obtain ⟨dr, dc⟩ := d
    unfold Carnivore.attemptEatScan at h
    dsimp only at h
    rcases ite_eq_some_cases h with h | h
    · obtain ⟨target, _, h⟩ := bind_some_elim h
      cases target with
      | none => exact ih h
      | some t =>
        dsimp only at h
        rcases ite_eq_some_cases h with h | h
        · obtain ⟨a, ha, h⟩ := bind_some_elim h
          obtain ⟨w5, h5, h⟩ := bind_some_elim h
          simp only [pure, Option.some.injEq, Prod.mk.injEq] at h
          rw [← h.1]
          refine World.Ages.ages_chain ?_ (World.removeEntity_ages h5)
          refine World.Ages.ages_then_event ?_ _
          refine World.Ages.ages_then_stats ?_ _
          refine World.Ages.ages_then_die ?_ _ _
          exact (World.Ages.ages_same w).ages_then_modify self _
            (Entity.age_setCurrentEnergy _ ha)
        · exact ih h
    · exact ih h

theorem Carnivore.carnivore_attemptEat_ages {w w1 : World} {self : EntityId}
    {season : Season} {ok : Bool} (h : Carnivore.attemptEat w self season = some (w1, ok)) :
    World.Ages [] w w1 := by
  unfold Carnivore.attemptEat at h
  obtain ⟨a, _, h⟩ := bind_some_elim h
  rcases ite_some_cond h with ⟨_, h⟩ | ⟨hc, h⟩
  · simp only [pure, Option.some.injEq, Prod.mk.injEq] at h
    rw [← h.1]; exact World.Ages.ages_same w
  · exact Carnivore.carnivore_attemptEatScan_ages self _ h

theorem Animal.animal_attemptEat_ages {w w1 : World} {self : EntityId}
    {season : Season} {ok : Bool} (h : Animal.attemptEat w self season = some (w1, ok)) :
    World.Ages [] w w1 := by
  unfold Animal.attemptEat at h
  split at h
  · exact Herbivore.herbivore_attemptEat_ages h
  · exact Carnivore.carnivore_attemptEat_ages h
  · exact absurd h (by simp)

theorem Animal.resetMeals_ages {w wm w1 : World} {self : EntityId} {ate : Bool}
    (hev : World.Ages [] w wm)
    (h : Animal.resetMeals wm self ate = some w1) : World.Ages [] w w1 := by
  unfold Animal.resetMeals at h
  rcases ite_eq_some_cases h with h | h
  · obtain ⟨a, ha, h⟩ := bind_some_elim h
    simp only [pure, Option.some.injEq] at h
    rw [← h]
    refine hev.ages_then_modify self _ ?_
    exact Entity.age_setAnimal_same _ ha rfl
  · simp only [pure, Option.some.injEq] at h
    rw [← h]; exact hev

theorem Herbivore.herbivore_mateLoop_ages (self : EntityId) (mates : List EntityId) :
    ∀ {w w1 : World}, Herbivore.mateLoop self mates w = some w1 → World.Ages [] w w1 := by
  induction mates with
  | nil =>
    intro w w1 h
    simp only [Herbivore.mateLoop, pure, Option.some.injEq] at h
    rw [← h]; exact World.Ages.ages_same w
  | cons mate rest ih =>
    intro w w1 h
    unfold Herbivore.mateLoop at h
    by_cases h1 : (!(w.heap mate).isAlive || mate == self) = true
    · rw [if_pos h1] at h; exact ih h
    · rw [if_neg h1] at h
      have hmal : (w.heap mate).is_alive = true := by
        simp only [Bool.or_eq_true, not_or] at h1
        exact Entity.not_isAlive_false h1.1
      by_cases h2 : (w.heap mate).getType ≠ .HERBIVORE ∨ (w.heap mate).getGender ≠ .MALE
      · rw [if_pos h2] at h; exact ih h
      · rw [if_neg h2] at h
        obtain ⟨m, _, h⟩ := bind_some_elim h
        split at h
        · obtain ⟨a, ha, h⟩ := bind_some_elim h
          obtain ⟨a1, ha1, h⟩ := bind_some_elim h
          obtain ⟨m1, hm1, h⟩ := bind_some_elim h
          simp only [pure, Option.some.injEq] at h
          rw [← h]
          refine World.Ages.ages_then_event ?_ _
          have e2 : World.Ages [] w
              ((w.modify self (fun e => e.setAnimal { a with currentlyPregnant := true })).modify
                self (fun e => e.setAnimal (Animal.setCurrentEnergy a1
                  (a1.currentEnergy - Int.tdiv a1.energyRequiredToReproduce 2)))) := by
            refine World.Ages.ages_then_modify ?_ self _
              (Entity.age_setCurrentEnergy _ ha1)
            refine (World.Ages.ages_same w).ages_then_modify self _ ?_
            exact Entity.age_setAnimal_same _ ha rfl
          split
          · exact e2.ages_then_modify mate _ (Entity.age_setCurrentEnergy _ hm1)
          · exact e2
        · exact ih h

theorem Herbivore.herbivore_attemptReproduce_ages {w w1 : World} {self : EntityId}
    {mates : List EntityId} {season : Season}
    (h : Herbivore.attemptReproduce w self mates season = some w1) :
    World.Ages [] w w1 := by
  unfold Herbivore.attemptReproduce at h
  obtain ⟨a, _, h⟩ := bind_some_elim h
  rcases ite_some_cond h with ⟨_, h⟩ | ⟨hc, h⟩
  · simp only [pure, Option.some.injEq] at h; rw [← h]; exact World.Ages.ages_same w
  · dsimp only at h
    rcases ite_eq_some_cases h with h | h
    · simp only [pure, Option.some.injEq] at h; rw [← h]
      exact World.Ages.ages_of_same rfl rfl rfl
    · refine World.Ages.ages_chain ?_ (Herbivore.herbivore_mateLoop_ages self mates h)
      exact World.Ages.ages_of_same rfl rfl rfl

theorem Carnivore.carnivore_mateLoop_ages (self : EntityId) (mates : List EntityId) :
    ∀ {w w1 : World}, Carnivore.mateLoop self mates w = some w1 → World.Ages [] w w1 := by
  induction mates with
  | nil =>
    intro w w1 h
    simp only [Carnivore.mateLoop, pure, Option.some.injEq] at h
    rw [← h]; exact World.Ages.ages_same w
  | cons mate rest ih =>
    intro w w1 h
    unfold Carnivore.mateLoop at h
    by_cases h1 : (!(w.heap mate).isAlive || mate == self) = true
    · rw [if_pos h1] at h; exact ih h
    · rw [if_neg h1] at h
      have hmal : (w.heap mate).is_alive = true := by
        simp only [Bool.or_eq_true, not_or] at h1
        exact Entity.not_isAlive_false h1.1
      by_cases h2 : (w.heap mate).getType ≠ .CARNIVORE ∨ (w.heap mate).getGender ≠ .MALE
      · rw [if_pos h2] at h; exact ih h
      · rw [if_neg h2] at h
        obtain ⟨m, _, h⟩ := bind_some_elim h
        split at h
        · obtain ⟨a, ha, h⟩ := bind_some_elim h
          obtain ⟨a1, ha1, h⟩ := bind_some_elim h
          obtain ⟨m1, hm1, h⟩ := bind_some_elim h
          simp only [pure, Option.some.injEq] at h
          rw [← h]
          refine World.Ages.ages_then_event ?_ _
          have e2 : World.Ages [] w
              ((w.modify self (fun e => e.setAnimal { a with currentlyPregnant := true })).modify
                self (fun e => e.setAnimal (Animal.setCurrentEnergy a1
                  (a1.currentEnergy - Int.tdiv a1.energyRequiredToReproduce 2)))) := by
            refine World.Ages.ages_then_modify ?_ self _
              (Entity.age_setCurrentEnergy _ ha1)
            refine (World.Ages.ages_same w).ages_then_modify self _ ?_
            exact Entity.age_setAnimal_same _ ha rfl
          split
          · exact e2.ages_then_modify mate _ (Entity.age_setCurrentEnergy _ hm1)
          · exact e2
        · exact ih h

theorem Carnivore.carnivore_attemptReproduce_ages {w w1 : World} {self : EntityId}
    {mates : List EntityId} {season : Season}
    (h : Carnivore.attemptReproduce w self mates season = some w1) :
    World.Ages [] w w1 := by
  unfold Carnivore.attemptReproduce at h
  obtain ⟨a, _, h⟩ := bind_some_elim h
  rcases ite_some_cond h with ⟨_, h⟩ | ⟨hc, h⟩
  · simp only [pure, Option.some.injEq] at h; rw [← h]; exact World.Ages.ages_same w
  · dsimp only at h
    rcases ite_eq_some_cases h with h | h
    · simp only [pure, Option.some.injEq] at h; rw [← h]
      exact World.Ages.ages_of_same rfl rfl rfl
    · refine World.Ages.ages_chain ?_ (Carnivore.carnivore_mateLoop_ages self mates h)
      exact World.Ages.ages_of_same rfl rfl rfl

theorem Animal.animal_attemptReproduce_ages {w w1 : World} {self : EntityId}
    {mates : List EntityId} {season : Season}
    (h : Animal.attemptReproduce w self mates season = some w1) :
    World.Ages [] w w1 := by
  unfold Animal.attemptReproduce at h
  split at h
  · exact Herbivore.herbivore_attemptReproduce_ages h
  · exact Carnivore.carnivore_attemptReproduce_ages h
  · exact absurd h (by simp)

theorem Animal.matePhase_ages {w w1 : World} {self : EntityId} {season : Season}
    (h : Animal.matePhase w self season = some w1) : World.Ages [] w w1 := by
  unfold Animal.matePhase at h
  obtain ⟨a, _, h⟩ := bind_some_elim h
  rcases ite_eq_some_cases h with h | h
  · dsimp only at h
    rcases ite_eq_some_cases h with h | h
    · exact Animal.animal_attemptReproduce_ages h
    · simp only [pure, Option.some.injEq] at h; rw [← h]; exact World.Ages.ages_same w
  · simp only [pure, Option.some.injEq] at h; rw [← h]; exact World.Ages.ages_same w

theorem Animal.moveRandom_ages {w w1 : World} {self : EntityId}
    (h : Animal.moveRandom w self = some w1) :
    World.Ages [] w w1 := by
  unfold Animal.moveRandom at h
  obtain ⟨cells, _, h⟩ := bind_some_elim h
  rcases ite_eq_some_cases h with h | h
  · dsimp only at h
    obtain ⟨target, _, h⟩ := bind_some_elim h
    obtain ⟨ent, _, h⟩ := bind_some_elim h
    obtain ⟨w2, h2, h⟩ := bind_some_elim h
    refine Animal.payMove_ages (World.Ages.ages_chain ?_ (World.moveEntity_ages h2)) h
    exact World.Ages.ages_of_same rfl rfl rfl
  · simp only [pure, Option.some.injEq] at h
    rw [← h]; exact World.Ages.ages_same w

theorem Herbivore.herbivore_move_ages {w w1 : World} {self : EntityId}
    {season : Season} (h : Herbivore.move w self season = some w1) : World.Ages [] w w1 := by
  unfold Herbivore.move at h
  rcases ite_some_cond h with ⟨_, h⟩ | ⟨hc, h⟩
  · simp only [pure, Option.some.injEq] at h
    rw [← h]; exact World.Ages.ages_same w
  · obtain ⟨a, _, h⟩ := bind_some_elim h
    dsimp only at h
    rcases ite_eq_some_cases h with h | h
    · simp only [pure, Option.some.injEq] at h
      rw [← h]; exact Animal.die_ages _ _ _
    · obtain ⟨carnivoresNearby, _, h⟩ := bind_some_elim h
      obtain ⟨best, _, h⟩ := bind_some_elim h
      rcases ite_eq_some_cases h with h | h
      · obtain ⟨ent, _, h⟩ := bind_some_elim h
        obtain ⟨w2, h2, h⟩ := bind_some_elim h
        exact Animal.payMove_ages (World.moveEntity_ages h2) h
      · obtain ⟨plantsNearby, _, h⟩ := bind_some_elim h
        cases hcl : Animal.closestOf w self plantsNearby with
        | none =>
          rw [hcl] at h
          exact Animal.moveRandom_ages h
        | some closest =>
          rw [hcl] at h
          dsimp only at h
          obtain ⟨onPlant, _, h⟩ := bind_some_elim h
          rcases ite_eq_some_cases h with h | h
          · obtain ⟨ent, _, h⟩ := bind_some_elim h
            obtain ⟨w2, h2, h⟩ := bind_some_elim h
            exact Animal.payMove_ages (World.moveEntity_ages h2) h
          · exact Animal.moveRandom_ages h

theorem Carnivore.carnivore_move_ages {w w1 : World} {self : EntityId}
    {season : Season} (h : Carnivore.move w self season = some w1) : World.Ages [] w w1 := by
  unfold Carnivore.move at h
  rcases ite_some_cond h with ⟨_, h⟩ | ⟨hc, h⟩
  · simp only [pure, Option.some.injEq] at h
    rw [← h]; exact World.Ages.ages_same w
  · obtain ⟨a, _, h⟩ := bind_some_elim h
    dsimp only at h
    rcases ite_eq_some_cases h with h | h
    · simp only [pure, Option.some.injEq] at h
      rw [← h]; exact Animal.die_ages _ _ _
    · obtain ⟨herbsNearby, _, h⟩ := bind_some_elim h
      cases hcl : Animal.closestOf w self herbsNearby with
      | none =>
        rw [hcl] at h
        exact Animal.moveRandom_ages h
      | some closest =>
        rw [hcl] at h
        dsimp only at h
        obtain ⟨onHerb, _, h⟩ := bind_some_elim h
        rcases ite_eq_some_cases h with h | h
        · obtain ⟨ent, _, h⟩ := bind_some_elim h
          obtain ⟨w2, h2, h⟩ := bind_some_elim h
          exact Animal.payMove_ages (World.moveEntity_ages h2) h
        · exact Animal.moveRandom_ages h

theorem Animal.animal_move_ages {w w1 : World} {self : EntityId}
    {season : Season} (h : Animal.move w self season = some w1) : World.Ages [] w w1 := by
  unfold Animal.move at h
  split at h
  · exact Herbivore.herbivore_move_ages h
  · exact Carnivore.carnivore_move_ages h
  · exact absurd h (by simp)

theorem Herbivore.herbivore_birthLoop_ages (n : Nat) :
    ∀ {locs : List (Int × Int)} {w w1 : World}, Herbivore.birthLoop n locs w = some w1 →
      World.Ages [] w w1 := by
  induction n with
  | zero =>
    intro locs w w1 h
    simp only [Herbivore.birthLoop, pure, Option.some.injEq] at h
    rw [← h]; exact World.Ages.ages_same w
  | succ n ih =>
    intro locs w w1 h
    unfold Herbivore.birthLoop at h
    rcases ite_eq_some_cases h with h | h
    · simp only [pure, Option.some.injEq] at h
      rw [← h]; exact World.Ages.ages_same w
    · dsimp only at h
      obtain ⟨pos, _, h⟩ := bind_some_elim h
      obtain ⟨r, hadd, h⟩ := bind_some_elim h
      obtain ⟨w2, added⟩ := r
      dsimp only at h
      refine World.Ages.ages_chain ?_ (ih h)
      have e2 : World.Ages [] w w2 := by
        refine World.Ages.ages_chain ?_
          (World.ages_alloc_adds _ (Herbivore.herbivore_new_age _ _ _ _) (World.addEntity_adds hadd))
        exact World.Ages.ages_of_same rfl rfl rfl
      split
      · exact (e2.ages_then_stats _).ages_then_event _
      · exact e2

theorem Herbivore.herbivore_giveBirth_ages {w w1 : World} {self : EntityId}
    (h : Herbivore.giveBirth w self = some w1) : World.Ages [] w w1 := by
  unfold Herbivore.giveBirth at h
  rcases ite_eq_some_cases h with h | h
  · simp only [pure, Option.some.injEq] at h
    rw [← h]; exact World.Ages.ages_same w
  · obtain ⟨locs, _, h⟩ := bind_some_elim h
    rcases ite_eq_some_cases h with h | h
    · simp only [pure, Option.some.injEq] at h
      rw [← h]; exact World.Ages.ages_same w
    · dsimp only at h
      refine World.Ages.ages_chain ?_ (Herbivore.herbivore_birthLoop_ages _ h)
      exact World.Ages.ages_of_same rfl rfl rfl

theorem Carnivore.carnivore_birthLoop_ages (n : Nat) :
    ∀ {locs : List (Int × Int)} {w w1 : World}, Carnivore.birthLoop n locs w = some w1 →
      World.Ages [] w w1 := by
  induction n with
  | zero =>
    intro locs w w1 h
    simp only [Carnivore.birthLoop, pure, Option.some.injEq] at h
    rw [← h]; exact World.Ages.ages_same w
  | succ n ih =>
    intro locs w w1 h
    unfold Carnivore.birthLoop at h
    rcases ite_eq_some_cases h with h | h
    · simp only [pure, Option.some.injEq] at h
      rw [← h]; exact World.Ages.ages_same w
    · dsimp only at h
      obtain ⟨pos, _, h⟩ := bind_some_elim h
      obtain ⟨r, hadd, h⟩ := bind_some_elim h
      obtain ⟨w2, added⟩ := r
      dsimp only at h
      refine World.Ages.ages_chain ?_ (ih h)
      have e2 : World.Ages [] w w2 := by
        refine World.Ages.ages_chain ?_
          (World.ages_alloc_adds _ (Carnivore.carnivore_new_age _ _ _ _) (World.addEntity_adds hadd))
        exact World.Ages.ages_of_same rfl rfl rfl
      split
      · exact (e2.ages_then_stats _).ages_then_event _
      · exact e2

theorem Carnivore.carnivore_giveBirth_ages {w w1 : World} {self : EntityId}
    (h : Carnivore.giveBirth w self = some w1) : World.Ages [] w w1 := by
  unfold Carnivore.giveBirth at h
  rcases ite_eq_some_cases h with h | h
  · simp only [pure, Option.some.injEq] at h
    rw [← h]; exact World.Ages.ages_same w
  · obtain ⟨locs, _, h⟩ := bind_some_elim h
    rcases ite_eq_some_cases h with h | h
    · simp only [pure, Option.some.injEq] at h
      rw [← h]; exact World.Ages.ages_same w
    · dsimp only at h
      refine World.Ages.ages_chain ?_ (Carnivore.carnivore_birthLoop_ages _ h)
      exact World.Ages.ages_of_same rfl rfl rfl

theorem Animal.animal_giveBirth_ages {w w1 : World} {self : EntityId}
    (h : Animal.giveBirth w self = some w1) : World.Ages [] w w1 := by
  unfold Animal.giveBirth at h
  split at h
  · exact Herbivore.herbivore_giveBirth_ages h
  · exact Carnivore.carnivore_giveBirth_ages h
  · exact absurd h (by simp)

theorem Animal.birthPhase_ages {w w1 : World} {self : EntityId}
    (h : Animal.birthPhase w self = some w1) :
    World.Ages [] w w1 := by
  unfold Animal.birthPhase at h
  obtain ⟨a, _, h⟩ := bind_some_elim h
  rcases ite_eq_some_cases h with h | h
  · obtain ⟨w2, h2, h⟩ := bind_some_elim h
    obtain ⟨a1, ha1, h⟩ := bind_some_elim h
    dsimp only at h
    have e2 := Animal.animal_giveBirth_ages h2
    rcases some_ite_cond h with ⟨_, rfl⟩ | ⟨hc, rfl⟩
    · refine (e2.ages_then_modify self _ ?_).ages_then_die _ _
      exact Entity.age_setAnimal_same _ ha1 rfl
    · refine e2.ages_then_modify self _ ?_
      exact Entity.age_setAnimal_same _ ha1 rfl
  · simp only [pure, Option.some.injEq] at h
    rw [← h]; exact World.Ages.ages_same w

theorem Plant.spawn_ages {w w1 : World} {r c : Int}
    (h : Plant.spawn w r c = some w1) : World.Ages [] w w1 := by
  unfold Plant.spawn at h
  dsimp only at h
  obtain ⟨res, hadd, h⟩ := bind_some_elim h
  obtain ⟨w2, added⟩ := res
  dsimp only at h
  have e2 : World.Ages [] w w2 :=
    World.ages_alloc_adds _ (Plant.new_age _ _) (World.addEntity_adds hadd)
  rcases ite_eq_some_cases h with h | h
  · simp only [pure, Option.some.injEq] at h
    rw [← h]; exact e2.ages_then_stats _
  · simp only [pure, Option.some.injEq] at h
    rw [← h]; exact e2

theorem Plant.bloomOnce_ages {w w1 : World} {chance : Int}
    (h : Plant.bloomOnce w chance = some w1) : World.Ages [] w w1 := by
  unfold Plant.bloomOnce at h
  dsimp only at h
  rcases ite_eq_some_cases h with h | h
  · obtain ⟨res, _, h⟩ := bind_some_elim h
    obtain ⟨pos, gen2⟩ := res
    dsimp only at h
    obtain ⟨e, _, h⟩ := bind_some_elim h
    rcases ite_eq_some_cases h with h | h
    · refine World.Ages.ages_chain ?_ (Plant.spawn_ages h)
      exact World.Ages.ages_of_same rfl rfl rfl
    · simp only [pure, Option.some.injEq] at h
      rw [← h]; exact World.Ages.ages_of_same rfl rfl rfl
  · simp only [pure, Option.some.injEq] at h
    rw [← h]; exact World.Ages.ages_of_same rfl rfl rfl

theorem Plant.spread_ages {w w1 : World} {self : EntityId} {chance : Int}
    (h : Plant.spread w self chance = some w1) : World.Ages [] w w1 := by
  unfold Plant.spread at h
  dsimp only at h
  rcases ite_eq_some_cases h with h | h
  · obtain ⟨cells, _, h⟩ := bind_some_elim h
    rcases ite_eq_some_cases h with h | h
    · simp only [pure, Option.some.injEq] at h
      rw [← h]; exact World.Ages.ages_of_same rfl rfl rfl
    · rcases ite_eq_some_cases h with h | h
      · obtain ⟨cell, _, h⟩ := bind_some_elim h
        refine World.Ages.ages_chain ?_ (Plant.spawn_ages h)
        exact World.Ages.ages_of_same rfl rfl rfl
      · simp only [pure, Option.some.injEq] at h
        rw [← h]; exact World.Ages.ages_of_same rfl rfl rfl
  · simp only [pure, Option.some.injEq] at h
    rw [← h]; exact World.Ages.ages_of_same rfl rfl rfl

theorem Plant.spreadAndBloom_ages {w w1 : World} {self : EntityId}
    {p : PlantData} {season : Season} (h : Plant.spreadAndBloom w self p season = some w1) :
    World.Ages [] w w1 := by
  unfold Plant.spreadAndBloom at h
  dsimp only at h
  obtain ⟨w2, h2, h⟩ := bind_some_elim h
  have s2 := Plant.spread_ages h2
  rcases ite_eq_some_cases h with h | h
  · obtain ⟨w3, h3, h⟩ := bind_some_elim h
    exact (s2.ages_chain (Plant.bloomOnce_ages h3)).ages_chain (Plant.bloomOnce_ages h)
  · simp only [pure, Option.some.injEq] at h
    rw [← h]; exact s2

theorem Plant.weatherDeath_ages (w : World) (self : EntityId) (rate : Int) :
    World.Ages [] w (Plant.weatherDeath w self rate).1 := by
  unfold Plant.weatherDeath
  dsimp only
  split
  · split
    · exact ((World.Ages.ages_of_same rfl rfl rfl : World.Ages [] w
        ({ w with gen := (getRandomInt w.gen 1 100).2 } : World)).ages_then_stats _).ages_then_modify _ _
          (Entity.age_kill _)
    · exact World.Ages.ages_of_same rfl rfl rfl
  · exact World.Ages.ages_of_same rfl rfl rfl

theorem Plant.seasonalDeath_ages (w : World) (self : EntityId) (p : PlantData)
    (season : Season) : World.Ages [] w (Plant.seasonalDeath w self p season).1 := by
  unfold Plant.seasonalDeath
  split
  · exact Plant.weatherDeath_ages _ _ _
  · split
    · exact Plant.weatherDeath_ages _ _ _
    · exact World.Ages.ages_same w

theorem Simulation.placeOne_ages {w w1 : World} {t : EntityType}
    {pos : Int × Int} {g : Gender} (h : Simulation.placeOne w t pos g = some w1) :
    World.Ages [] w w1 := by
  unfold Simulation.placeOne at h
  cases t with
  | EMPTY =>
    simp only [pure, Option.some.injEq] at h
    rw [← h]; exact World.Ages.ages_same w
  | PLANT =>
    dsimp only at h
    obtain ⟨res, hadd, h⟩ := bind_some_elim h
    obtain ⟨w2, ok⟩ := res
    simp only [pure, Option.some.injEq] at h
    rw [← h]
    exact World.ages_alloc_adds _ (Plant.new_age _ _) (World.addEntity_adds hadd)
  | HERBIVORE =>
    dsimp only at h
    obtain ⟨res, hadd, h⟩ := bind_some_elim h
    obtain ⟨w2, ok⟩ := res
    simp only [pure, Option.some.injEq] at h
    rw [← h]
    refine World.Ages.ages_chain ?_
      (World.ages_alloc_adds _ (Herbivore.herbivore_new_age _ _ _ _) (World.addEntity_adds hadd))
    exact World.Ages.ages_of_same rfl rfl rfl
  | CARNIVORE =>
    dsimp only at h
    obtain ⟨res, hadd, h⟩ := bind_some_elim h
    obtain ⟨w2, ok⟩ := res
    simp only [pure, Option.some.injEq] at h
    rw [← h]
    refine World.Ages.ages_chain ?_
      (World.ages_alloc_adds _ (Carnivore.carnivore_new_age _ _ _ _) (World.addEntity_adds hadd))
    exact World.Ages.ages_of_same rfl rfl rfl

theorem Simulation.place_ages (t : EntityType) (n : Nat) :
    ∀ {w w1 : World}, Simulation.place t n w = some w1 → World.Ages [] w w1 := by
  induction n with
  | zero =>
    intro w w1 h
    simp only [Simulation.place, pure, Option.some.injEq] at h
    rw [← h]; exact World.Ages.ages_same w
  | succ n ih =>
    intro w w1 h
    unfold Simulation.place at h
    obtain ⟨res, _, h⟩ := bind_some_elim h
    obtain ⟨pos, gen1⟩ := res
    dsimp only at h
    obtain ⟨e, _, h⟩ := bind_some_elim h
    rcases ite_eq_some_cases h with h | h
    · obtain ⟨w3, h3, h⟩ := bind_some_elim h
      refine World.Ages.ages_chain (World.Ages.ages_chain ?_ (Simulation.placeOne_ages h3)) (ih h)
      exact World.Ages.ages_of_same rfl rfl rfl
    · simp only [pure, Option.some.injEq] at h
      rw [← h]; exact World.Ages.ages_of_same rfl rfl rfl

theorem Simulation.initializeSimulation_ages {s s1 : Simulation} {northern : Bool}
    {years : Int} {numP numH numC : Nat}
    (h : s.initializeSimulation northern years numP numH numC = some s1) :
    World.Ages [] s.world s1.world := by
  unfold Simulation.initializeSimulation at h
  dsimp only at h
  rcases ite_eq_some_cases h with h | h
  · exact absurd h (by simp)
  · obtain ⟨w1, h1, h⟩ := bind_some_elim h
    obtain ⟨w2, h2, h⟩ := bind_some_elim h
    obtain ⟨w3, h3, h⟩ := bind_some_elim h
    simp only [pure, Option.some.injEq] at h
    rw [← h]
    exact ((Simulation.place_ages _ _ h1).ages_chain (Simulation.place_ages _ _ h2)).ages_chain
      (Simulation.place_ages _ _ h3)

theorem Simulation.immigrateLoop_ages (n : Nat) :
    ∀ {w w1 : World} {k k1 : Int}, Simulation.immigrateLoop n (w, k) = some (w1, k1) →
      World.Ages [] w w1 := by
  induction n with
  | zero =>
    intro w w1 k k1 h
    simp only [Simulation.immigrateLoop, pure, Option.some.injEq, Prod.mk.injEq] at h
    rw [← h.1]; exact World.Ages.ages_same w
  | succ n ih =>
    intro w w1 k k1 h
    unfold Simulation.immigrateLoop at h
    dsimp only at h
    obtain ⟨res, hadd, h⟩ := bind_some_elim h
    obtain ⟨w2, ok⟩ := res
    dsimp only at h
    have e2 : World.Ages [] w w2 := by
      refine World.Ages.ages_chain ?_
        (World.ages_alloc_adds _ ?_ (World.addMigratingAnimal_adds hadd))
      · exact World.Ages.ages_of_same rfl rfl rfl
      · split <;> rfl
    rcases ite_eq_some_cases h with h | h
    · exact (e2.ages_then_event _).ages_chain (ih h)
    · exact e2.ages_chain (ih h)

theorem Simulation.emigrateAll_ages (name : String) (l : List EntityId) :
    ∀ {w w1 : World} {k k1 : Int}, Simulation.emigrateAll name l (w, k) = some (w1, k1) →
      World.Ages [] w w1 := by
  induction l with
  | nil =>
    intro w w1 k k1 h
    simp only [Simulation.emigrateAll, pure, Option.some.injEq, Prod.mk.injEq] at h
    rw [← h.1]; exact World.Ages.ages_same w
  | cons e rest ih =>
    intro w w1 k k1 h
    unfold Simulation.emigrateAll at h
    rcases ite_eq_some_cases h with h | h
    · dsimp only at h
      obtain ⟨w2, h2, h⟩ := bind_some_elim h
      refine World.Ages.ages_chain (World.Ages.ages_chain ?_ (World.removeEntity_ages h2)) (ih h)
      exact World.Ages.ages_of_same rfl rfl rfl
    · exact ih h

theorem Simulation.handleMigration_ages {s s1 : Simulation}
    (h : s.handleMigration = some s1) : World.Ages [] s.world s1.world := by
  unfold Simulation.handleMigration at h
  rcases ite_eq_some_cases h with h | h
  · dsimp only at h
    obtain ⟨res, hl, h⟩ := bind_some_elim h
    obtain ⟨w1, k⟩ := res
    dsimp only at h
    simp only [pure, Option.some.injEq] at h
    rw [← h]
    have hs : World.Ages [] s.world w1 := by
      refine World.Ages.ages_chain ?_ (Simulation.immigrateLoop_ages _ hl)
      exact World.Ages.ages_of_same rfl rfl rfl
    dsimp only
    split
    · exact hs.ages_then_stats _
    · exact hs
  · rcases ite_eq_some_cases h with h | h
    · dsimp only at h
      obtain ⟨res1, _, h⟩ := bind_some_elim h
      obtain ⟨temp1, gen3⟩ := res1
      dsimp only at h
      obtain ⟨res2, he1, h⟩ := bind_some_elim h
      obtain ⟨w1, k1⟩ := res2
      dsimp only at h
      obtain ⟨res3, _, h⟩ := bind_some_elim h
      obtain ⟨temp2, gen4⟩ := res3
      dsimp only at h
      obtain ⟨res4, he2, h⟩ := bind_some_elim h
      obtain ⟨w2, k2⟩ := res4
      dsimp only at h
      simp only [pure, Option.some.injEq] at h
      rw [← h]
      have hs : World.Ages [] s.world w2 := by
        refine World.Ages.ages_chain (World.Ages.ages_chain ?_
          (Simulation.emigrateAll_ages _ _ he1)) (World.Ages.ages_chain ?_
          (Simulation.emigrateAll_ages _ _ he2))
        · exact World.Ages.ages_of_same rfl rfl rfl
        · exact World.Ages.ages_of_same rfl rfl rfl
      dsimp only
      split
      · exact hs.ages_then_stats _
      · exact hs
    · simp only [pure, Option.some.injEq] at h
      rw [← h]; exact World.Ages.ages_same _

theorem Simulation.cleanup_ages (l : List EntityId) :
    ∀ {w w1 : World}, Simulation.cleanup l w = some w1 → World.Ages [] w w1 := by
  induction l with
  | nil =>
    intro w w1 h
    simp only [Simulation.cleanup, pure, Option.some.injEq] at h
    rw [← h]; exact World.Ages.ages_same w
  | cons e rest ih =>
    intro w w1 h
    unfold Simulation.cleanup at h
    rcases ite_eq_some_cases h with h | h
    · obtain ⟨w2, h2, h⟩ := bind_some_elim h
      exact (World.removeEntity_ages h2).ages_chain (ih h)
    · exact ih h

theorem Animal.eatPhase_ages {w w1 : World} {self : EntityId} {season : Season}
    (h : Animal.ifAlive self (fun u => Animal.eatPhase u self season) w = some w1) :
    World.Ages [] w w1 := by
  unfold Animal.ifAlive at h
  rcases ite_some_cond h with ⟨_, h⟩ | ⟨hc, h⟩
  · simp only [pure, Option.some.injEq] at h
    rw [← h]; exact World.Ages.ages_same w
  · unfold Animal.eatPhase at h
    obtain ⟨r, hb, h⟩ := bind_some_elim h
    obtain ⟨w2, ate⟩ := r
    exact Animal.resetMeals_ages (Animal.animal_attemptEat_ages hb) h

theorem Animal.guarded_birthPhase_ages {w w1 : World} {self : EntityId}
    (h : Animal.ifAlive self (fun u => Animal.birthPhase u self) w = some w1) :
    World.Ages [] w w1 := by
  unfold Animal.ifAlive at h
  rcases ite_some_cond h with ⟨_, h⟩ | ⟨hc, h⟩
  · simp only [pure, Option.some.injEq] at h
    rw [← h]; exact World.Ages.ages_same w
  · exact Animal.birthPhase_ages h

theorem Animal.guarded_matePhase_ages {w w1 : World} {self : EntityId} {season : Season}
    (h : Animal.ifAlive self (fun u => Animal.matePhase u self season) w = some w1) :
    World.Ages [] w w1 := by
  unfold Animal.ifAlive at h
  rcases ite_some_cond h with ⟨_, h⟩ | ⟨_, h⟩
  · simp only [pure, Option.some.injEq] at h
    rw [← h]; exact World.Ages.ages_same w
  · exact Animal.matePhase_ages h

theorem Animal.movePhase_ages {w w1 : World} {self : EntityId} {season : Season}
    (h : Animal.ifAlive self (fun u => Animal.movePhase u self season) w = some w1) :
    World.Ages [] w w1 := by
  unfold Animal.ifAlive at h
  rcases ite_some_cond h with ⟨_, h⟩ | ⟨_, h⟩
  · simp only [pure, Option.some.injEq] at h
    rw [← h]; exact World.Ages.ages_same w
  · unfold Animal.movePhase at h
    obtain ⟨w6, h6, h⟩ := bind_some_elim h
    obtain ⟨a6, _, h⟩ := bind_some_elim h
    have e6 := Animal.animal_move_ages h6
    rcases ite_eq_some_cases h with h | h
    · simp only [pure, Option.some.injEq] at h
      rw [← h]; exact e6.ages_then_die _ _
    · simp only [pure, Option.some.injEq] at h
      rw [← h]; exact e6

/-! ### The updates -/

theorem World.Ages.ages_mono {l l1 : List EntityId} {w w1 : World} (h : World.Ages l w w1)
    (hl : ∀ x ∈ l, x ∈ l1) : World.Ages l1 w w1 :=
  ⟨h.allocated, fun e he hn => h.old e he (fun hm => hn (hl e hm)), h.fresh, h.listed,
   h.listed_fresh⟩

/-- An update of `self`: first the age of `self` alone is written, and what follows keeps
every age. -/
theorem World.Ages.ages_after_bump {w wb w1 : World} {self : EntityId}
    (hn : wb.nextId = w.nextId) (hg : wb.grid = w.grid)
    (hoth : ∀ e : Nat, e ≠ self → (wb.heap e).age = (w.heap e).age)
    (h : World.Ages [] wb w1) : World.Ages [self] w w1 := by
  refine ⟨fun e he => h.allocated e (hn ▸ he), fun e he hs => ?_,
    fun e h1 h2 => h.fresh e (by rw [hn]; exact h1) h2, fun e he => ?_, fun e => ?_⟩
  · rw [h.old e (hn ▸ he) (List.not_mem_nil _)]
    exact hoth e (fun heq => hs (by rw [heq]; exact List.mem_singleton.mpr rfl))
  · rw [← hg]
    exact h.listed e (by rw [hn]; exact he)
  · rw [← hg]
    exact h.listed_fresh e

theorem Animal.baseUpdate_bump {w w1 : World} {self : EntityId} {season : Season}
    (h : Animal.baseUpdate w self season = some w1) (hal : (w.heap self).is_alive = true) :
    w1.nextId = w.nextId ∧ w1.grid = w.grid ∧
      (∀ e : Nat, e ≠ self → (w1.heap e).age = (w.heap e).age) ∧
      (w1.heap self).age = (w.heap self).age + 1 := by
  rw [Animal.baseUpdate_eq] at h
  have h0 : ¬ ((!(w.heap self).isAlive) = true) := by simp [Entity.isAlive, hal]
  rw [if_neg h0] at h
  obtain ⟨a0, ha, h⟩ := bind_some_elim h
  obtain ⟨_, _, _, _, _, f6, _⟩ := Animal.baseUpdateData_fields a0 season
  have hage : (((w.heap self).setAnimal (Animal.baseUpdateData a0 season))).age =
      (w.heap self).age + 1 := by
    rw [Entity.age_setAnimal _ ha, f6]
    omega
  rcases some_ite_cond h with ⟨_, rfl⟩ | ⟨_, rfl⟩
  · refine ⟨by rw [Animal.die_nextId]; rfl, by rw [Animal.die_grid]; rfl, fun e he => ?_, ?_⟩
    · rw [Animal.die_heap, World.modify_heap_other _ _ he, World.modify_heap_other _ _ he]
    · rw [Animal.die_heap, World.modify_heap_self, World.modify_heap_self]
      exact hage
  · refine ⟨rfl, rfl, fun e he => ?_, ?_⟩
    · rw [World.modify_heap_other _ _ he]
    · rw [World.modify_heap_self]
      exact hage

/-- `Animal::update` of a living animal raises its age by 1 and no other age. -/
theorem Animal.animal_update_ages {w w1 : World} {self : EntityId} {season : Season}
    (h : Animal.update w self season = some w1) (hal : (w.heap self).is_alive = true)
    (hself : self < w.nextId) :
    World.Ages [self] w w1 ∧ (w1.heap self).age = (w.heap self).age + 1 := by
  rw [Animal.update_eq_phases] at h
  obtain ⟨wb, hb, h⟩ := bind_some_elim h
  obtain ⟨w3, h3, h⟩ := bind_some_elim h
  obtain ⟨w4, h4, h⟩ := bind_some_elim h
  obtain ⟨w5, h5, h⟩ := bind_some_elim h
  obtain ⟨hn, hg, hoth, hs⟩ := Animal.baseUpdate_bump hb hal
  have hrest : World.Ages [] wb w1 :=
    (((Animal.eatPhase_ages h3).ages_chain (Animal.guarded_birthPhase_ages h4)).ages_chain
      (Animal.guarded_matePhase_ages h5)).ages_chain (Animal.movePhase_ages h)
  refine ⟨World.Ages.ages_after_bump hn hg hoth hrest, ?_⟩
  rw [hrest.old self (by rw [hn]; exact hself) (List.not_mem_nil _), hs]

/-- `Plant::update` of a living plant raises its age by 1 and no other age. -/
theorem Plant.plant_update_ages {w w1 : World} {self : EntityId} {season : Season}
    (h : Plant.update w self season = some w1) (hal : (w.heap self).is_alive = true)
    (hself : self < w.nextId) :
    World.Ages [self] w w1 ∧ (w1.heap self).age = (w.heap self).age + 1 := by
  unfold Plant.update at h
  have h0 : ¬ ((!(w.heap self).isAlive) = true) := by simp [Entity.isAlive, hal]
  rw [if_neg h0] at h
  obtain ⟨p0, hp0, h⟩ := bind_some_elim h
  dsimp only at h
  have hoth : ∀ e : Nat, e ≠ self → ((w.modify self
      (fun e => e.setPlant { p0 with currentAge := p0.currentAge + 1 })).heap e).age =
        (w.heap e).age := fun e he => by rw [World.modify_heap_other _ _ he]
  have hs : ((w.modify self
      (fun e => e.setPlant { p0 with currentAge := p0.currentAge + 1 })).heap self).age =
        (w.heap self).age + 1 := by
    rw [World.modify_heap_self, Entity.age_setPlant _ hp0]
    show (w.heap self).age + (p0.currentAge + 1 - p0.currentAge) = _
    omega
  have key : ∀ w1 : World, World.Ages [] (w.modify self
      (fun e => e.setPlant { p0 with currentAge := p0.currentAge + 1 })) w1 →
      World.Ages [self] w w1 ∧ (w1.heap self).age = (w.heap self).age + 1 := by
    intro w1 hrest
    refine ⟨World.Ages.ages_after_bump ?_ ?_ hoth hrest, ?_⟩
    · rfl
    · rfl
    · rw [hrest.old self hself (List.not_mem_nil _), hs]
  rcases ite_eq_some_cases h with h | h
  · rcases ite_eq_some_cases h with h | h
    · simp only [pure, Option.some.injEq] at h
      rw [← h]
      exact key _ (((World.Ages.ages_same _).ages_then_stats _).ages_then_modify _ _
        (Entity.age_kill _))
    · simp only [pure, Option.some.injEq] at h
      rw [← h]; exact key _ (World.Ages.ages_same _)
  · rcases ite_eq_some_cases h with h | h
    · simp only [pure, Option.some.injEq] at h
      rw [← h]
      exact key _ (Plant.seasonalDeath_ages _ _ _ _)
    · rcases ite_eq_some_cases h with h | h
      · simp only [pure, Option.some.injEq] at h
        rw [← h]
        exact key _ (Plant.seasonalDeath_ages _ _ _ _)
      · exact key _ ((Plant.seasonalDeath_ages _ _ _ _).ages_chain
          (Plant.spreadAndBloom_ages h))

theorem World.world_update_ages {w w1 : World} {e : EntityId} {season : Season}
    (h : w.update e season = some w1) (hal : (w.heap e).is_alive = true)
    (he : e < w.nextId) :
    World.Ages [e] w w1 ∧ (w1.heap e).age = (w.heap e).age + 1 := by
  unfold World.update at h
  split at h
  · exact Plant.plant_update_ages h hal he
  · exact Animal.animal_update_ages h hal he

theorem Simulation.updateAll_ages (season : Season) (l : List EntityId) :
    ∀ {w w1 : World}, Simulation.updateAll season l w = some w1 →
      (∀ x ∈ l, x < w.nextId) → World.Ages l w w1 := by
  induction l with
  | nil =>
    intro w w1 h _
    simp only [Simulation.updateAll, pure, Option.some.injEq] at h
    rw [← h]; exact World.Ages.ages_same w
  | cons e rest ih =>
    intro w w1 h hl
    unfold Simulation.updateAll at h
    rcases ite_some_cond h with ⟨hal, h⟩ | ⟨_, h⟩
    · obtain ⟨w2, h2, h⟩ := bind_some_elim h
      have s1 := (World.world_update_ages h2 hal (hl e (List.mem_cons_self _ _))).1
      have s2 := ih h (fun x hx => s1.allocated x (hl x (List.mem_cons_of_mem _ hx)))
      exact s1.ages_append s2 (fun x hx => hl x (List.mem_cons_of_mem _ hx))
    · exact (ih h (fun x hx => hl x (List.mem_cons_of_mem _ hx))).ages_mono
        (fun x hx => List.mem_cons_of_mem _ hx)

theorem Simulation.updateAll_cons (season : Season) (e : EntityId) (rest : List EntityId)
    (w : World) : Simulation.updateAll season (e :: rest) w =
      if (w.heap e).isAlive = true then
        (w.update e season).bind (fun w1 => Simulation.updateAll season rest w1)
      else Simulation.updateAll season rest w := by
  rw [Simulation.updateAll]
  rfl

theorem Simulation.updateAll_append (season : Season) (l1 l2 : List EntityId) :
    ∀ w : World, Simulation.updateAll season (l1 ++ l2) w =
      (Simulation.updateAll season l1 w).bind (fun w2 => Simulation.updateAll season l2 w2) := by
  induction l1 with
  | nil => intro w; rfl
  | cons e rest ih =>
    intro w
    rw [List.cons_append, Simulation.updateAll_cons, Simulation.updateAll_cons]
    split
    · cases h : w.update e season with
      | none => rfl
      | some w2 =>
        simp only [Option.some_bind]
        exact ih w2
    · exact ih w

/-- The turn of one object in a pass over distinct allocated objects: the turns before
it leave its age alone; if it is dead when its turn comes the turn does nothing and its
age after the pass is the one before; if it is alive it has exactly one `update`, which
raises its age by 1, and its age after the pass is one more than before. -/
theorem Simulation.updateAll_turn (season : Season) (pre post : List EntityId)
    (e : EntityId) {w w1 : World}
    (h : Simulation.updateAll season (pre ++ e :: post) w = some w1)
    (hnd : (pre ++ e :: post).Nodup) (hl : ∀ x ∈ pre ++ e :: post, x < w.nextId) :
    ∃ wm, Simulation.updateAll season pre w = some wm ∧
      (wm.heap e).age = (w.heap e).age ∧
      ((wm.heap e).is_alive = false →
        Simulation.updateAll season (e :: post) wm = Simulation.updateAll season post wm ∧
        Simulation.updateAll season post wm = some w1 ∧
        (w1.heap e).age = (w.heap e).age) ∧
      ((wm.heap e).is_alive = true →
        ∃ wu, wm.update e season = some wu ∧ (wu.heap e).age = (wm.heap e).age + 1 ∧
          Simulation.updateAll season post wu = some w1 ∧
          (w1.heap e).age = (w.heap e).age + 1) := by
  rw [Simulation.updateAll_append] at h
  obtain ⟨wm, hm, h⟩ := bind_some_elim h
  have hpre : ∀ x ∈ pre, x < w.nextId := fun x hx => hl x (List.mem_append_left _ hx)
  have he : e < w.nextId := hl e (List.mem_append_right _ (List.mem_cons_self _ _))
  have hpost : ∀ x ∈ post, x < w.nextId :=
    fun x hx => hl x (List.mem_append_right _ (List.mem_cons_of_mem _ hx))
  have hnotpre : e ∉ pre := by
    intro hx
    exact (List.nodup_append.mp hnd).2.2 hx (List.mem_cons_self _ _) 
  have hnotpost : e ∉ post := by
    have := (List.nodup_append.mp hnd).2.1
    exact (List.nodup_cons.mp this).1
  have s1 := Simulation.updateAll_ages season pre hm hpre
  have hage := s1.old e he hnotpre
  refine ⟨wm, hm, hage, fun hdead => ?_, fun halive => ?_⟩
  · have hskip : Simulation.updateAll season (e :: post) wm =
        Simulation.updateAll season post wm := by
      conv => lhs; unfold Simulation.updateAll
      have : ¬ (wm.heap e).isAlive = true := by
        show ¬ (wm.heap e).is_alive = true
        rw [hdead]; decide
      rw [if_neg this]
    rw [hskip] at h
    have s2 := Simulation.updateAll_ages season post h
      (fun x hx => s1.allocated x (hpost x hx))
    exact ⟨hskip, h, by rw [s2.old e (s1.allocated e he) hnotpost, hage]⟩
  · unfold Simulation.updateAll at h
    have : (wm.heap e).isAlive = true := halive
    rw [if_pos this] at h
    obtain ⟨wu, hu, h⟩ := bind_some_elim h
    obtain ⟨su, hbump⟩ := World.world_update_ages hu halive (s1.allocated e he)
    have s2 := Simulation.updateAll_ages season post h
      (fun x hx => su.allocated x (s1.allocated x (hpost x hx)))
    refine ⟨wu, hu, hbump, h, ?_⟩
    rw [s2.old e (su.allocated e (s1.allocated e he)) hnotpost, hbump, hage]

/-! ### The tick -/

/-- The three passes of `runMonth`, in the order of the code, are one pass over the
carnivores, the herbivores and the plants registered when the tick starts; what follows
them (migration, the reconcile loop, the counts, the tests at the end) keeps every age. -/
theorem Simulation.runMonth_passes {s s1 : Simulation} {key : Option Char}
    (h : s.runMonth key = some s1) :
    ∃ w0 w1 w2 w3 : World,
      w0.heap = s.world.heap ∧ w0.nextId = s.world.nextId ∧ w0.grid = s.world.grid ∧
      Simulation.updateAll s1.current_Season_sim s.world.grid.carnivores_list w0 = some w1 ∧
      Simulation.updateAll s1.current_Season_sim s.world.grid.herbivores_list w1 = some w2 ∧
      Simulation.updateAll s1.current_Season_sim s.world.grid.plants_list w2 = some w3 ∧
      Simulation.updateAll s1.current_Season_sim s.world.grid.all w0 = some w3 ∧
      World.Ages [] w3 s1.world := by
  unfold Simulation.runMonth at h
  obtain ⟨sc, hc, h⟩ := bind_some_elim h
  simp only [pure, Option.some.injEq] at h
  rw [← h, Simulation.runMonthEnd_world, (Simulation.runMonthEnd_index sc key).2]
  unfold Simulation.runMonthCore at hc
  dsimp only at hc
  obtain ⟨s3, h3, hc⟩ := bind_some_elim hc
  obtain ⟨g1, g2, g3⟩ := Simulation.determineSeason_world h3
  obtain ⟨w1, h1, hc⟩ := bind_some_elim hc
  obtain ⟨w2, h2, hc⟩ := bind_some_elim hc
  obtain ⟨w3, h3a, hc⟩ := bind_some_elim hc
  obtain ⟨s4, h4, hc⟩ := bind_some_elim hc
  obtain ⟨w5, h5, hc⟩ := bind_some_elim hc
  simp only [pure, Option.some.injEq] at hc
  have hseason : sc.current_Season_sim = s3.current_Season_sim := by
    rw [← hc]
    dsimp only
    rw [Simulation.handleMigration_eq h4]
  rw [hseason]
  have t4 := Simulation.handleMigration_ages h4
  have t5 := Simulation.cleanup_ages _ h5
  have hg : s3.world.grid = s.world.grid := g3
  rw [hg] at h1 h2 h3a
  refine ⟨s3.world, w1, w2, w3, g1, g2, g3, h1, h2, h3a, ?_, ?_⟩
  · unfold Grid.all
    rw [List.append_assoc, Simulation.updateAll_append, h1, Option.some_bind,
      Simulation.updateAll_append, h2, Option.some_bind]
    exact h3a
  · rw [← hc]
    exact (t4.ages_chain t5).ages_then_stats _

theorem Simulation.runMonth_ages {s s1 : Simulation} {key : Option Char}
    (h : s.runMonth key = some s1) (hreg : s.world.Registered) :
    World.Ages s.world.grid.all s.world s1.world := by
  obtain ⟨w0, w1, w2, w3, e1, e2, e3, _, _, _, hall, hrest⟩ := Simulation.runMonth_passes h
  have hp := Simulation.updateAll_ages _ _ hall (fun x hx => by rw [e2]; exact hreg.2 x hx)
  have hfull : World.Ages (s.world.grid.all ++ []) w0 s1.world :=
    hp.ages_append hrest (fun _ hx => absurd hx (List.not_mem_nil _))
  rw [List.append_nil] at hfull
  refine ⟨fun e he => hfull.allocated e (by rw [e2]; exact he),
    fun e he hn => ?_, fun e h1 h2 => hfull.fresh e (by rw [e2]; exact h1) h2,
    fun e he => ?_, fun e => ?_⟩
  · rw [hfull.old e (by rw [e2]; exact he) hn, e1]
  · rw [← e3]
    exact hfull.listed e (by rw [e2]; exact he)
  · rw [← e3]
    exact hfull.listed_fresh e

/-- At every tick boundary the three registries together list no object twice, and only
allocated objects. -/
theorem SimReachable.sim_registered {s : Simulation} (h : SimReachable s) :
    s.world.Registered := by
  induction h with
  | stocked hinit =>
    refine (Simulation.initializeSimulation_ages hinit).ages_registered ?_
    exact ⟨List.nodup_nil, fun e he => absurd he (List.not_mem_nil _)⟩
  | month _ hm ih => exact (Simulation.runMonth_ages hm ih).ages_registered ih

/-! ## C21 : snapshot iteration -/

/-- C21.  Let `runMonth` take a tick boundary `s0` of a run to `s1`.  The registries of
`s0` list no object twice and only objects allocated before the tick.  Every object
allocated during the tick (offspring, plant spread or bloom, immigrant) has age 0 in
`s1`, and every object registered in `s1` but not in `s0` is such an object.  The three
passes, over the carnivores, the herbivores and the plants registered in `s0`, in that
order, are one pass `updateAll` over these lists, started with the objects of `s0`; an
old object outside them keeps its age.  For every position of that pass, with `pre`
the objects before it and `post` those after it, the turns of `pre` lead to a state `wm`
in which the age of the object `e` at that position is still the one of `s0`.  If `e`
is dead in `wm`, its turn is skipped (the pass continues with `post` from `wm`) and its
age in `s1` is the one of `s0`.  If `e` is alive in `wm`, its turn is one call of
`update`, which raises its age by 1, the pass continues with `post` from the result, and
its age in `s1` is the one of `s0` plus 1. -/
theorem snapshot_iteration (s0 s1 : Simulation) (key : Option Char)
    (hreach : SimReachable s0) (h : s0.runMonth key = some s1) :
    (s0.world.grid.all.Nodup ∧ ∀ e ∈ s0.world.grid.all, e < s0.world.nextId) ∧
    (∀ e : Nat, ¬ e < s0.world.nextId → e < s1.world.nextId → (s1.world.heap e).age = 0) ∧
    (∀ e ∈ s1.world.grid.all, e ∉ s0.world.grid.all →
      ¬ e < s0.world.nextId ∧ e < s1.world.nextId ∧ (s1.world.heap e).age = 0) ∧
    ∃ w0 w1 w2 w3 : World,
      w0.heap = s0.world.heap ∧ w0.nextId = s0.world.nextId ∧ w0.grid = s0.world.grid ∧
      Simulation.updateAll s1.current_Season_sim s0.world.grid.carnivores_list w0 = some w1 ∧
      Simulation.updateAll s1.current_Season_sim s0.world.grid.herbivores_list w1 = some w2 ∧
      Simulation.updateAll s1.current_Season_sim s0.world.grid.plants_list w2 = some w3 ∧
      Simulation.updateAll s1.current_Season_sim s0.world.grid.all w0 = some w3 ∧
      (∀ e : Nat, e < s0.world.nextId → (s1.world.heap e).age = (w3.heap e).age) ∧
      (∀ e : Nat, e < s0.world.nextId → e ∉ s0.world.grid.all →
        (s1.world.heap e).age = (s0.world.heap e).age) ∧
      ∀ (pre post : List EntityId) (e : EntityId), s0.world.grid.all = pre ++ e :: post →
        ∃ wm, Simulation.updateAll s1.current_Season_sim pre w0 = some wm ∧
          (wm.heap e).age = (s0.world.heap e).age ∧
          ((wm.heap e).is_alive = false →
            Simulation.updateAll s1.current_Season_sim (e :: post) wm =
              Simulation.updateAll s1.current_Season_sim post wm ∧
            Simulation.updateAll s1.current_Season_sim post wm = some w3 ∧
            (s1.world.heap e).age = (s0.world.heap e).age) ∧
          ((wm.heap e).is_alive = true →
            ∃ wu, wm.update e s1.current_Season_sim = some wu ∧
              (wu.heap e).age = (wm.heap e).age + 1 ∧
              Simulation.updateAll s1.current_Season_sim post wu = some w3 ∧
              (s1.world.heap e).age = (s0.world.heap e).age + 1) := by
  have hreg := hreach.sim_registered
  have hages := Simulation.runMonth_ages h hreg
  have hreg1 := hages.ages_registered hreg
  obtain ⟨w0, w1, w2, w3, e1, e2, e3, h1, h2, h3, hall, hrest⟩ := Simulation.runMonth_passes h
  have hpass := Simulation.updateAll_ages _ _ hall (fun x hx => by rw [e2]; exact hreg.2 x hx)
  have hend : ∀ e : Nat, e < s0.world.nextId → (s1.world.heap e).age = (w3.heap e).age :=
    fun e he => hrest.old e (hpass.allocated e (by rw [e2]; exact he)) (List.not_mem_nil _)
  refine ⟨hreg, hages.fresh, fun e he hn => ?_, w0, w1, w2, w3, e1, e2, e3, h1, h2, h3, hall,
    hend, fun e he hn => hages.old e he hn, fun pre post e hsplit => ?_⟩
  · have hnew : ¬ e < s0.world.nextId := by
      intro hold
      have hc := hages.listed e (Or.inl hold)
      rw [List.count_eq_zero.mpr hn] at hc
      exact absurd (List.count_pos_iff.mpr he) (by omega)
    exact ⟨hnew, hreg1.2 e he, hages.fresh e hnew (hreg1.2 e he)⟩
  · rw [hsplit] at hall
    have hnd : (pre ++ e :: post).Nodup := hsplit ▸ hreg.1
    have hl : ∀ x ∈ pre ++ e :: post, x < w0.nextId := by
      intro x hx
      rw [e2]
      exact hreg.2 x (hsplit ▸ hx)
    have he : e < s0.world.nextId :=
      hreg.2 e (by rw [hsplit]; exact List.mem_append_right _ (List.mem_cons_self _ _))
    obtain ⟨wm, hm, hage, hdead, halive⟩ :=
      Simulation.updateAll_turn s1.current_Season_sim pre post e hall hnd hl
    rw [e1] at hage hdead halive
    refine ⟨wm, hm, hage, fun hd => ?_, fun ha => ?_⟩
    · obtain ⟨a1, a2, a3⟩ := hdead hd
      exact ⟨a1, a2, by rw [hend e he, a3]⟩
    · obtain ⟨wu, b1, b2, b3, b4⟩ := halive ha
      exact ⟨wu, b1, b2, b3, by rw [hend e he, b4]⟩

/-- C21 on the mating scenario.  After the first month the registries list the
herbivores 1 and 2 and the plant 0, all of age 1.  The second month, a Spring month,
brings one immigrant, object 3: at the end of that month it is registered with age 0,
and each of the three older objects has age 2. -/
theorem snapshot_iteration_witness :
    ∃ s0 s1 s2 : Simulation, matingStocked = some s0 ∧
      s0.runMonth enterKey = some s1 ∧ s1.runMonth enterKey = some s2 ∧
      SimReachable s1 ∧
      s1.world.grid.all = [1, 2, 0] ∧ s1.world.nextId = 3 ∧
      s2.world.grid.all = [1, 2, 3, 0] ∧ s2.world.nextId = 4 ∧
      (s1.world.heap 0).age = 1 ∧ (s1.world.heap 1).age = 1 ∧ (s1.world.heap 2).age = 1 ∧
      (s2.world.heap 0).age = 2 ∧ (s2.world.heap 1).age = 2 ∧ (s2.world.heap 2).age = 2 ∧
      (s2.world.heap 3).age = 0 ∧
      (∀ e ∈ s2.world.grid.all, e ∉ s1.world.grid.all →
        ¬ e < s1.world.nextId ∧ e < s2.world.nextId ∧ (s2.world.heap e).age = 0) := by
  have h : (matingStocked.bind (fun s0 => (s0.runMonth enterKey).bind (fun s1 =>
      (s1.runMonth enterKey).map (fun s2 =>
          decide (s1.world.grid.all = [1, 2, 0]) && decide (s1.world.nextId = 3) &&
          decide (s2.world.grid.all = [1, 2, 3, 0]) && decide (s2.world.nextId = 4) &&
          decide ((s1.world.heap 0).age = 1) && decide ((s1.world.heap 1).age = 1) &&
          decide ((s1.world.heap 2).age = 1) &&
          decide ((s2.world.heap 0).age = 2) && decide ((s2.world.heap 1).age = 2) &&
          decide ((s2.world.heap 2).age = 2) && decide ((s2.world.heap 3).age = 0)))))
      = some true := by decide!
  cases h0 : matingStocked with
  | none => rw [h0] at h; exact absurd h (by simp)
  | some s0 =>
    rw [h0, Option.some_bind] at h
    cases h1 : s0.runMonth enterKey with
    | none => rw [h1] at h; exact absurd h (by simp)
    | some s1 =>
      rw [h1, Option.some_bind] at h
      cases h2 : s1.runMonth enterKey with
      | none => rw [h2] at h; exact absurd h (by simp)
      | some s2 =>
        rw [h2] at h
        simp only [Option.map_some', Option.some.injEq, Bool.and_eq_true,
          decide_eq_true_eq] at h
        obtain ⟨⟨⟨⟨⟨⟨⟨⟨⟨⟨g0, g1⟩, g2⟩, g3⟩, g4⟩, g5⟩, g6⟩, g7⟩, g8⟩, g9⟩, g10⟩ := h
        have hreach : SimReachable s1 := SimReachable.month (SimReachable.stocked h0) h1
        exact ⟨s0, s1, s2, rfl, h1, h2, hreach, g0, g1, g2, g3, g4, g5, g6, g7, g8, g9, g10,
          (snapshot_iteration s1 s2 enterKey hreach h2).2.2.1⟩

/-! ## C40 : the month index of the single-file program -/

theorem SingleFile.determineSeason_index {s s1 : SingleFile.Simulation}
    (h : s.determineSeason = some s1) :
    s1.currentMonthOfYear_sim = Int.tmod (s.currentMonthSimTime - 1) 12 ∧
      0 ≤ s1.currentMonthOfYear_sim ∧ s1.currentMonthOfYear_sim ≤ 11 := by
  unfold SingleFile.Simulation.determineSeason at h
  dsimp only at h
  obtain ⟨name, hname, h⟩ := bind_some_elim h
  simp only [pure, Option.some.injEq] at h
  rw [← h]
  refine ⟨rfl, ?_, ?_⟩
  · unfold Simulation.monthName at hname
    dsimp only
    by_contra hneg
    rw [if_pos (by omega)] at hname
    exact absurd hname (by simp)
  · unfold Simulation.monthName at hname
    dsimp only
    by_contra hbig
    have h0 : ¬ Int.tmod (s.currentMonthSimTime - 1) 12 < 0 := by omega
    rw [if_neg h0] at hname
    have hlen : month_Names_sim.length ≤ (Int.tmod (s.currentMonthSimTime - 1) 12).toNat := by
      show 12 ≤ _
      omega
    rw [List.getElem?_eq_none hlen] at hname
    exact absurd hname (by simp)

/-- C40, evaluated on every start of the single-file program.  Whatever the two members
the constructor leaves uninitialised hold and whatever the user answers, the call of
`determineSeason` that `Simulation::start` makes before the first tick sees the counter
0, computes the month index `(0 - 1) % 12 = -1` and reads `monthNames_sim[-1]`, outside
the vector.  The calls made by `runMonth` are in bounds: from a counter `n ≥ 0` the tick
computes the index `n % 12`, which lies in `0..11`. -/
theorem single_file_first_index_out_of_bounds :
    (∀ (total : Int) (north0 northern : Bool) (years : Int),
      ((SingleFile.Simulation.new total north0).initializeSimulation northern
          years).currentMonthSimTime = 0 ∧
      Int.tmod (((SingleFile.Simulation.new total north0).initializeSimulation northern
          years).currentMonthSimTime - 1) 12 = -1 ∧
      Simulation.monthName (-1) = none ∧
      SingleFile.Simulation.startSetup total north0 northern years = none) ∧
    (∀ s : SingleFile.Simulation, 0 ≤ s.currentMonthSimTime →
      ∃ s1, s.runMonthSeason = some s1 ∧
        s1.currentMonthOfYear_sim = Int.tmod s.currentMonthSimTime 12 ∧
        0 ≤ s1.currentMonthOfYear_sim ∧ s1.currentMonthOfYear_sim ≤ 11) := by
  refine ⟨fun total north0 northern years => ⟨rfl, rfl, rfl, rfl⟩, fun s hs => ?_⟩
  have hidx : Int.tmod (s.currentMonthSimTime + 1 - 1) 12 = Int.tmod s.currentMonthSimTime 12 := by
    congr 1
    omega
  have h0 : 0 ≤ Int.tmod s.currentMonthSimTime 12 := Int.tmod_nonneg _ hs
  have h1 : Int.tmod s.currentMonthSimTime 12 < 12 := Int.tmod_lt_of_pos _ (by decide)
  obtain ⟨name, hname⟩ : ∃ name, Simulation.monthName (Int.tmod s.currentMonthSimTime 12)
      = some name := by
    obtain ⟨name, hn, _⟩ :=
      Simulation.monthName_isSome (Int.tmod s.currentMonthSimTime 12) h0 (by omega)
    exact ⟨name, hn⟩
  unfold SingleFile.Simulation.runMonthSeason SingleFile.Simulation.determineSeason
  dsimp only
  rw [hidx, hname]
  exact ⟨_, rfl, rfl, h0, by dsimp only; omega⟩

/-! ## C36 : the frame of `Grid::removeEntity` -/

theorem Grid.registry_eraseIf_same (g : Grid) (t : EntityType) (drop : EntityId → Bool) :
    (g.eraseIf t drop).registry t = (g.registry t).filter (fun p => !drop p) := by
  cases t <;> rfl

theorem Grid.registry_eraseIf_other (g : Grid) (t t1 : EntityType) (drop : EntityId → Bool)
    (h : t1 ≠ t) : (g.eraseIf t drop).registry t1 = g.registry t1 := by
  cases t <;> cases t1 <;> first | rfl | exact absurd rfl h

/-- C36, evaluated on an entity stored outside the grid.  `moveEntity(plant 45, -1, 0)`
on the one-plant grid gives `strandedWorld`, where the plant is registered and its stored
position is not valid.  `removeEntity` of that plant takes its early return: the world is
as before, and the plant is still in the registry of its type. -/
theorem removeEntity_leaves_stranded_entity :
    onePlantWorld.moveEntity (some 45) (-1) 0 = some strandedWorld ∧
    Grid.isValid (strandedWorld.heap 45).r_coord (strandedWorld.heap 45).c_coord = false ∧
    (strandedWorld.heap 45).getType = .PLANT ∧
    strandedWorld.grid.registry .PLANT = [45] ∧
    strandedWorld.removeEntity (some 45) = some strandedWorld ∧
    ∀ w1, strandedWorld.removeEntity (some 45) = some w1 → 45 ∈ w1.grid.registry .PLANT := by
  have hrem : strandedWorld.removeEntity (some 45) = some strandedWorld := by
    rw [World.removeEntity_some]
    rfl
  refine ⟨?_, by decide, rfl, rfl, hrem, ?_⟩
  · rw [World.moveEntity_some]
    rfl
  · intro w1 h
    rw [hrem] at h
    simp only [Option.some.injEq] at h
    rw [← h]
    decide

/-- C36, amended.  `removeEntity(e)` returns for every world and every entity.  When the
stored position of `e` is valid: the registry of the type of `e` becomes the list of its
entries that were alive before the call and are not `e`, in their order; the registries
of the other types are unchanged; every cell other than the one at the stored position of
`e` is unchanged, and that cell is emptied when it held `e` and unchanged otherwise; every
object other than `e` is unchanged, and `e` is dead with its other members unchanged.
When the stored position of `e` is not valid the world is as before. -/
theorem removeEntity_frame (w : World) (e : EntityId) :
    ∃ w1, w.removeEntity (some e) = some w1 ∧
      (Grid.isValid (w.heap e).r_coord (w.heap e).c_coord = true →
        w1.grid.registry (w.heap e).getType =
          (w.grid.registry (w.heap e).getType).filter
            (fun p => (w.heap p).is_alive && p != e) ∧
        (∀ p : EntityId, p ∈ w1.grid.registry (w.heap e).getType ↔
          p ∈ w.grid.registry (w.heap e).getType ∧ (w.heap p).is_alive = true ∧ p ≠ e) ∧
        (∀ t : EntityType, t ≠ (w.heap e).getType → w1.grid.registry t = w.grid.registry t) ∧
        (∀ r c : Int, ¬ (r = (w.heap e).r_coord ∧ c = (w.heap e).c_coord) →
          w1.grid.cells_grid r c = w.grid.cells_grid r c) ∧
        (w.grid.cells_grid (w.heap e).r_coord (w.heap e).c_coord = some e →
          w1.grid.cells_grid (w.heap e).r_coord (w.heap e).c_coord = none) ∧
        (w.grid.cells_grid (w.heap e).r_coord (w.heap e).c_coord ≠ some e →
          w1.grid.cells_grid (w.heap e).r_coord (w.heap e).c_coord =
            w.grid.cells_grid (w.heap e).r_coord (w.heap e).c_coord) ∧
        (∀ i : EntityId, i ≠ e → w1.heap i = w.heap i) ∧
        w1.heap e = (w.heap e).kill ∧
        w1.nextId = w.nextId ∧ w1.stats = w.stats ∧ w1.gen = w.gen) ∧
      (Grid.isValid (w.heap e).r_coord (w.heap e).c_coord = false → w1 = w) := by
  rw [World.removeEntity_some]
  refine ⟨_, rfl, fun hv => ?_, fun hv => ?_⟩
  · rw [if_pos hv]
    have hdrop : ∀ p : EntityId,
        (!(!((w.modify e Entity.kill).heap p).is_alive || p == e)) =
          ((w.heap p).is_alive && p != e) := by
      intro p
      by_cases hp : p = e
      · simp [hp]
      · simp [World.modify, hp, bne]
    have hreg : ∀ g : Grid, g.registry (w.heap e).getType = w.grid.registry (w.heap e).getType →
        (g.eraseIf (w.heap e).getType
            (fun p => !((w.modify e Entity.kill).heap p).is_alive || p == e)).registry
            (w.heap e).getType =
          (w.grid.registry (w.heap e).getType).filter
            (fun p => (w.heap p).is_alive && p != e) := by
      intro g hg
      rw [Grid.registry_eraseIf_same, hg]
      exact List.filter_congr (fun p _ => hdrop p)
    have hg0 : ∀ t : EntityType,
        ((if w.grid.cells_grid (w.heap e).r_coord (w.heap e).c_coord = some e then
            w.grid.setCell (w.heap e).r_coord (w.heap e).c_coord none
          else w.grid) : Grid).registry t = w.grid.registry t := by
      intro t
      split <;> rfl
    refine ⟨hreg _ (hg0 _), fun p => ?_, fun t ht => ?_, fun r c hrc => ?_, fun hc => ?_,
      fun hc => ?_, fun i hi => ?_, ?_, rfl, rfl, rfl⟩
    · show p ∈ (Grid.eraseIf _ _ _).registry _ ↔ _
      rw [hreg _ (hg0 _), List.mem_filter]
      simp
    · show (Grid.eraseIf _ _ _).registry t = _
      rw [Grid.registry_eraseIf_other _ _ _ _ ht, hg0]
    · show (Grid.eraseIf _ _ _).cells_grid r c = _
      rw [Grid.cells_eraseIf]
      split
      · simp only [Grid.setCell]
        rw [if_neg hrc]
      · rfl
    · show (Grid.eraseIf _ _ _).cells_grid _ _ = _
      rw [Grid.cells_eraseIf, if_pos hc]
      simp [Grid.setCell]
    · show (Grid.eraseIf _ _ _).cells_grid _ _ = _
      rw [Grid.cells_eraseIf, if_neg hc]
    · show (w.modify e Entity.kill).heap i = _
      exact World.modify_heap_other _ _ hi
    · show (w.modify e Entity.kill).heap e = _
      exact World.modify_heap_self _ _ _
  · rw [if_neg (by rw [hv]; decide)]

/-! ## C32 : the life of a plant -/

theorem Plant.Sprouted.sprouted_none {w w1 : World} (hh : w1.heap = w.heap)
    (hn : w1.nextId = w.nextId) (hg : w1.grid = w.grid) (hs : w1.stats = w.stats) :
    Plant.Sprouted w w1 [] :=
  ⟨by rw [hg, List.append_nil], by rw [hg], by rw [hg], by rw [hs]; simp, by rw [hs],
   by rw [hs], by rw [hn], fun e _ => by rw [hh], fun e he => absurd he (List.not_mem_nil _)⟩

theorem Plant.Sprouted.sprouted_append {w w1 w2 : World} {a b : List EntityId}
    (h1 : Plant.Sprouted w w1 a) (h2 : Plant.Sprouted w1 w2 b) :
    Plant.Sprouted w w2 (a ++ b) := by
  refine ⟨by rw [h2.plants, h1.plants, List.append_assoc], by rw [h2.herbivores, h1.herbivores],
    by rw [h2.carnivores, h1.carnivores], ?_, by rw [h2.diedAge, h1.diedAge],
    by rw [h2.diedWeather, h1.diedWeather], le_trans h1.allocated h2.allocated,
    fun e he => ?_, fun e he => ?_⟩
  · rw [h2.spread, h1.spread, List.length_append]
    push_cast
    ring
  · rw [h2.old e (Nat.lt_of_lt_of_le he h1.allocated), h1.old e he]
  · rcases List.mem_append.mp he with he | he
    · obtain ⟨f1, f2, f3, f4⟩ := h1.fresh e he
      rw [h2.old e f2]
      exact ⟨f1, Nat.lt_of_lt_of_le f2 h2.allocated, f3, f4⟩
    · obtain ⟨f1, f2, f3, f4⟩ := h2.fresh e he
      exact ⟨le_trans h1.allocated f1, f2, f3, f4⟩

/-- `std::make_shared` of an object followed by `addEntity` of the new pointer. -/
theorem World.alloc_addEntity (w : World) (ent : Entity) :
    ∃ w1 ok, (w.alloc ent).1.addEntity (some (w.alloc ent).2) = some (w1, ok) ∧
      w1.nextId = w.nextId + 1 ∧ (∀ e : Nat, e < w.nextId → w1.heap e = w.heap e) ∧
      w1.heap w.nextId = ent ∧ w1.stats = w.stats ∧ w1.gen = w.gen ∧
      (ok = true → w1.grid.registry ent.getType = w.grid.registry ent.getType ++ [w.nextId] ∧
        (∀ t : EntityType, t ≠ ent.getType → w1.grid.registry t = w.grid.registry t) ∧
        Grid.isValid ent.r_coord ent.c_coord = true ∧
        w.grid.cells_grid ent.r_coord ent.c_coord = none ∧
        w1.grid.cells_grid = (w.grid.setCell ent.r_coord ent.c_coord (some w.nextId)).cells_grid) ∧
      (ok = false → w1.grid = w.grid) := by
  rw [World.addEntity_some]
  have hnew : ∀ e : Nat, e < w.nextId → (w.alloc ent).1.heap e = w.heap e := by
    intro e he
    show (if e = w.nextId then ent else w.heap e) = _
    exact if_neg (Nat.ne_of_lt he)
  have hself : (w.alloc ent).1.heap (w.alloc ent).2 = ent := by
    show (if w.nextId = w.nextId then ent else w.heap w.nextId) = _
    exact if_pos rfl
  rw [hself]
  split
  · rename_i hc
    refine ⟨_, true, rfl, rfl, hnew, hself, rfl, rfl, fun _ => ⟨?_, fun t ht => ?_, hc.2.1, hc.2.2, ?_⟩,
      (by intro h; cases h)⟩
    · show (Grid.pushBack _ _ _).registry _ = _
      obtain ⟨r0, c0, al, k⟩ := ent
      cases k <;> simp [Grid.pushBack, Grid.registry, Grid.setCell, World.alloc, Entity.getType]
    · show (Grid.pushBack _ _ _).registry _ = _
      obtain ⟨r0, c0, al, k⟩ := ent
      cases k <;> cases t <;>
        first
        | exact absurd rfl ht
        | simp [Grid.pushBack, Grid.registry, Grid.setCell, World.alloc, Entity.getType]
    · show (Grid.pushBack _ _ _).cells_grid = _
      obtain ⟨r0, c0, al, k⟩ := ent
      cases k <;> rfl
  · exact ⟨_, false, rfl, rfl, hnew, hself, rfl, rfl, (by intro h; cases h), fun _ => rfl⟩

/-- `make_shared<Plant>` followed by `addEntity` and the count: at most one plant. -/
theorem Plant.spawn_sprouted (w : World) (r c : Int) :
    ∃ w1 added, Plant.spawn w r c = some w1 ∧ Plant.Sprouted w w1 added ∧
      added.length ≤ 1 := by
  unfold Plant.spawn
  obtain ⟨w1, ok, h, hn, hold, hself, hst, -, hok, hno⟩ := World.alloc_addEntity w (Plant.new r c)
  simp only [h, Option.pure_def, Option.bind_eq_bind, Option.some_bind]
  cases ok with
  | true =>
    obtain ⟨hreg, hoth, -, -, -⟩ := hok rfl
    refine ⟨_, [w.nextId], by rw [if_pos rfl], ?_, le_refl _⟩
    refine ⟨hreg, hoth .HERBIVORE (by intro hx; cases hx),
      hoth .CARNIVORE (by intro hx; cases hx), ?_, ?_, ?_, ?_, hold, fun e he => ?_⟩
    · show w1.stats.plantsSpread + 1 = _
      rw [hst]; simp
    · show w1.stats.plantsDiedNaturalAge = _
      rw [hst]
    · show w1.stats.plantsDiedWeather = _
      rw [hst]
    · show w.nextId ≤ w1.nextId
      rw [hn]; exact Nat.le_succ _
    · rw [List.mem_singleton] at he
      subst he
      refine ⟨le_refl _, ?_, ?_, ?_⟩
      · show w.nextId < w1.nextId
        rw [hn]; exact Nat.lt_succ_self _
      · show (w1.heap w.nextId).is_alive = true
        rw [hself]; rfl
      · show (w1.heap w.nextId).getType = _
        rw [hself]; rfl
  | false =>
    have hg := hno rfl
    refine ⟨_, [], by rw [if_neg (by simp)], ?_, Nat.zero_le _⟩
    exact ⟨by rw [hg, List.append_nil], by rw [hg], by rw [hg], by rw [hst]; simp, by rw [hst],
      by rw [hst], by rw [hn]; exact Nat.le_succ _, hold,
      fun e he => absurd he (List.not_mem_nil _)⟩

theorem Plant.bloomOnce_sprouted (w : World) (chance : Int) :
    ∃ w1 added, Plant.bloomOnce w chance = some w1 ∧ Plant.Sprouted w w1 added ∧
      added.length ≤ 1 := by
  unfold Plant.bloomOnce
  dsimp only
  split
  · obtain ⟨res, hres, -, -⟩ := Plant.bloomSearch_some w.grid (GRID_WIDTH * GRID_HEIGHT * 2 + 1)
      0 (getRandomInt w.gen 1 100).2 (by decide) (by decide)
    simp only [hres, Option.pure_def, Option.bind_eq_bind, Option.some_bind, Grid.isEmpty_eq]
    split
    · obtain ⟨w1, added, h1, hs, hl⟩ := Plant.spawn_sprouted { w with gen := res.2 } res.1.1 res.1.2
      refine ⟨w1, added, h1, ?_, hl⟩
      have h0 : Plant.Sprouted w { w with gen := res.2 } [] :=
        Plant.Sprouted.sprouted_none rfl rfl rfl rfl
      exact h0.sprouted_append hs
    · exact ⟨_, [], rfl, Plant.Sprouted.sprouted_none rfl rfl rfl rfl, Nat.zero_le _⟩
  · exact ⟨_, [], rfl, Plant.Sprouted.sprouted_none rfl rfl rfl rfl, Nat.zero_le _⟩

theorem Plant.spread_sprouted (w : World) (self : EntityId) (chance : Int) :
    ∃ w1 added, Plant.spread w self chance = some w1 ∧ Plant.Sprouted w w1 added ∧
      added.length ≤ 1 := by
  unfold Plant.spread
  dsimp only
  split
  · obtain ⟨adj, hadj, -, -⟩ := Grid.adjacentEmpty_facts w.grid (w.heap self).getR
      (w.heap self).getC
    simp only [hadj, Option.pure_def, Option.bind_eq_bind, Option.some_bind]
    split
    · exact ⟨_, [], rfl, Plant.Sprouted.sprouted_none rfl rfl rfl rfl, Nat.zero_le _⟩
    · rename_i hne
      have hne1 : adj ≠ [] := by
        intro h
        exact hne (by rw [h]; rfl)
      split
      · have hlt := birthIdx_lt (getRandomInt (getRandomInt w.gen 1 100).2 1 100).2 adj hne1
        obtain ⟨cell, hcell⟩ : ∃ cell, adj[(if adj.length > 1 then
            getRandomInt (getRandomInt (getRandomInt w.gen 1 100).2 1 100).2 0
              ((adj.length : Int) - 1)
            else (0, (getRandomInt (getRandomInt w.gen 1 100).2 1 100).2)).1.toNat]? = some cell :=
          ⟨_, List.getElem?_eq_getElem hlt⟩
        simp only [hcell, Option.some_bind]
        obtain ⟨w1, added, h1, hs, hl⟩ := Plant.spawn_sprouted
          { w with gen := (if adj.length > 1 then
            getRandomInt (getRandomInt (getRandomInt w.gen 1 100).2 1 100).2 0
              ((adj.length : Int) - 1)
            else (0, (getRandomInt (getRandomInt w.gen 1 100).2 1 100).2)).2 } cell.1 cell.2
        refine ⟨w1, added, h1, ?_, hl⟩
        have h0 : Plant.Sprouted w { w with gen := (if adj.length > 1 then
            getRandomInt (getRandomInt (getRandomInt w.gen 1 100).2 1 100).2 0
              ((adj.length : Int) - 1)
            else (0, (getRandomInt (getRandomInt w.gen 1 100).2 1 100).2)).2 } [] :=
          Plant.Sprouted.sprouted_none rfl rfl rfl rfl
        exact h0.sprouted_append hs
      · exact ⟨_, [], rfl, Plant.Sprouted.sprouted_none rfl rfl rfl rfl, Nat.zero_le _⟩
  · exact ⟨_, [], rfl, Plant.Sprouted.sprouted_none rfl rfl rfl rfl, Nat.zero_le _⟩

/-- The spread and the two bloom iterations add at most three plants, at most one outside
Spring and Summer. -/
theorem Plant.spreadAndBloom_sprouted (w : World) (self : EntityId) (p : PlantData)
    (season : Season) :
    ∃ w1 added, Plant.spreadAndBloom w self p season = some w1 ∧ Plant.Sprouted w w1 added ∧
      added.length ≤ 3 ∧ (season ≠ .SPRING → season ≠ .SUMMER → added.length ≤ 1) := by
  unfold Plant.spreadAndBloom
  dsimp only
  obtain ⟨w2, a2, h2, s2, l2⟩ := Plant.spread_sprouted w self
    (if season = .WINTER then Int.tdiv p.baseSpreadChanceValue 2
      else if season = .SUMMER then p.baseSpreadChanceValue * 2
      else p.baseSpreadChanceValue)
  rw [h2]
  simp only [Option.pure_def, Option.bind_eq_bind, Option.some_bind]
  generalize hch : (if season = Season.SPRING then (75 : Int)
    else if season = Season.SUMMER then 100 else 0) = chance
  by_cases hpos : chance > 0
  · rw [if_pos hpos]
    obtain ⟨w3, a3, h3, s3, l3⟩ := Plant.bloomOnce_sprouted w2 chance
    obtain ⟨w4, a4, h4, s4, l4⟩ := Plant.bloomOnce_sprouted w3 chance
    rw [h3, Option.some_bind, h4]
    refine ⟨w4, a2 ++ a3 ++ a4, rfl, (s2.sprouted_append s3).sprouted_append s4, ?_, ?_⟩
    · simp only [List.length_append]; omega
    · intro hs1 hs2
      rw [if_neg hs1, if_neg hs2] at hch
      omega
  · rw [if_neg hpos]
    exact ⟨w2, a2, rfl, s2, by omega, fun _ _ => l2⟩

theorem Plant.weatherDeath_cases (w : World) (self : EntityId) (rate : Int)
    (hal : (w.heap self).is_alive = true) :
    ((getRandomInt w.gen 1 100).1 ≤ rate →
      Plant.weatherDeath w self rate =
        (({ w with gen := (getRandomInt w.gen 1 100).2,
                   stats := { w.stats with plantsDiedWeather := w.stats.plantsDiedWeather + 1 } }
          ).modify self Entity.kill, true)) ∧
    (¬ (getRandomInt w.gen 1 100).1 ≤ rate →
      Plant.weatherDeath w self rate = ({ w with gen := (getRandomInt w.gen 1 100).2 }, false)) := by
  unfold Plant.weatherDeath
  dsimp only
  constructor
  · intro h
    rw [if_pos h, if_pos (by exact hal)]
  · intro h
    rw [if_neg h]

/-- C32.  `Plant::update` of a living, allocated plant with members `p0` returns; the
age of the plant is one higher and its other members are as before; no other object that
existed has changed.  If the new age exceeds `maximumAge` (40 for every plant, as the
constructor sets it) the plant is dead, `plantsDiedNaturalAge` is one higher and no plant
was added.  Otherwise, if the season is Winter and the draw in `1..100` is at most
`winterDeathChanceRate` (20), or the season is Autumn and the draw is at most
`autumnDeathChanceRate` (10), the plant is dead, `plantsDiedWeather` is one higher and no
plant was added; in every other case, so in every other season, the plant is alive and
the two death counters are as before.  In all cases the plant registry is the old one
followed by the added plants, which are new living plants, at most 3 (at most 1 outside
Spring and Summer), `plantsSpread` is higher by exactly their number, and the two other
registries are as before. -/
theorem plant_lifecycle (w : World) (self : EntityId) (season : Season) (p0 : PlantData)
    (hp : (w.heap self).plant = some p0) (hal : (w.heap self).is_alive = true)
    (hself : self < w.nextId) :
    ∃ (w1 : World) (added : List EntityId),
      Plant.update w self season = some w1 ∧
      (w1.heap self).plant = some { p0 with currentAge := p0.currentAge + 1 } ∧
      (∀ e : Nat, e < w.nextId → e ≠ self → w1.heap e = w.heap e) ∧
      w1.grid.plants_list = w.grid.plants_list ++ added ∧
      w1.grid.herbivores_list = w.grid.herbivores_list ∧
      w1.grid.carnivores_list = w.grid.carnivores_list ∧
      added.length ≤ 3 ∧
      (season ≠ .SPRING → season ≠ .SUMMER → added.length ≤ 1) ∧
      w1.stats.plantsSpread = w.stats.plantsSpread + (added.length : Int) ∧
      (∀ e ∈ added, w.nextId ≤ e ∧ e < w1.nextId ∧ (w1.heap e).is_alive = true ∧
        (w1.heap e).getType = .PLANT) ∧
      (p0.currentAge + 1 > p0.maximumAge →
        (w1.heap self).is_alive = false ∧ added = [] ∧
        w1.stats.plantsDiedNaturalAge = w.stats.plantsDiedNaturalAge + 1 ∧
        w1.stats.plantsDiedWeather = w.stats.plantsDiedWeather) ∧
      (p0.currentAge + 1 ≤ p0.maximumAge → Plant.weatherKills w.gen p0 season →
        (w1.heap self).is_alive = false ∧ added = [] ∧
        w1.stats.plantsDiedWeather = w.stats.plantsDiedWeather + 1 ∧
        w1.stats.plantsDiedNaturalAge = w.stats.plantsDiedNaturalAge) ∧
      (p0.currentAge + 1 ≤ p0.maximumAge → ¬ Plant.weatherKills w.gen p0 season →
        (w1.heap self).is_alive = true ∧
        w1.stats.plantsDiedWeather = w.stats.plantsDiedWeather ∧
        w1.stats.plantsDiedNaturalAge = w.stats.plantsDiedNaturalAge) ∧
      (p0.currentAge + 1 ≤ p0.maximumAge → season ≠ .WINTER → season ≠ .AUTUMN →
        (w1.heap self).is_alive = true) ∧
      (∀ r c : Int, (Plant.new r c).plant = some
        { baseSpreadChanceValue := 35, maximumAge := 40, currentAge := 0,
          winterDeathChanceRate := 20, autumnDeathChanceRate := 10 }) := by
  have hkind : ∀ st : MonthlyStats, ∀ gen : List Nat,
      ((({ w with stats := st, gen := gen } : World).modify self (fun e => e.setPlant
        { p0 with currentAge := p0.currentAge + 1 })).heap self).plant =
        some { p0 with currentAge := p0.currentAge + 1 } := by
    intro st gen
    rw [World.modify_heap_self]
    show ((w.heap self).setPlant _).plant = _
    unfold Entity.plant at hp ⊢
    unfold Entity.setPlant
    cases hk : (w.heap self).kind with
    | plant x => rfl
    | herbivore x => rw [hk] at hp; exact absurd hp (by simp)
    | carnivore x => rw [hk] at hp; exact absurd hp (by simp)
  have hkind0 := hkind w.stats w.gen
  have halive1 : ((w.modify self (fun e => e.setPlant
      { p0 with currentAge := p0.currentAge + 1 })).heap self).is_alive = true := by
    rw [World.modify_heap_self, Entity.setPlant_is_alive]
    exact hal
  have hoth : ∀ e : Nat, e ≠ self → (w.modify self (fun e => e.setPlant
      { p0 with currentAge := p0.currentAge + 1 })).heap e = w.heap e :=
    fun e he => World.modify_heap_other _ _ he
  have hconst : ∀ r c : Int, (Plant.new r c).plant = some
      { baseSpreadChanceValue := 35, maximumAge := 40, currentAge := 0,
        winterDeathChanceRate := 20, autumnDeathChanceRate := 10 } := fun _ _ => rfl
  unfold Plant.update
  have h0 : ¬ ((!(w.heap self).isAlive) = true) := by simp [Entity.isAlive, hal]
  rw [if_neg h0, hp]
  simp only [Option.pure_def, Option.bind_eq_bind, Option.some_bind]
  by_cases hage : p0.currentAge + 1 > p0.maximumAge
  · rw [if_pos hage, if_pos (by exact halive1)]
    refine ⟨_, [], rfl, ?_, fun e _ he => ?_, (List.append_nil _).symm, rfl, rfl, Nat.zero_le _,
      fun _ _ => Nat.zero_le _, by rw [List.length_nil, Nat.cast_zero, add_zero]; rfl,
      fun e he => absurd he (List.not_mem_nil _),
      fun _ => ⟨?_, rfl, rfl, rfl⟩, fun h => absurd hage (by omega),
      fun h => absurd hage (by omega), fun h => absurd hage (by omega), hconst⟩
    · rw [World.modify_heap_self]
      exact hkind0
    · rw [World.modify_heap_other _ _ he]
      exact hoth e he
    · rw [World.modify_heap_self]; rfl
  · rw [if_neg hage]
    have hle : p0.currentAge + 1 ≤ p0.maximumAge := by omega
    -- the seasonal death check
    have hdead : ∀ rate : Int, (getRandomInt w.gen 1 100).1 ≤ rate →
        ∃ w1, Plant.weatherDeath (w.modify self (fun e => e.setPlant
          { p0 with currentAge := p0.currentAge + 1 })) self rate = (w1, true) ∧
          (w1.heap self).plant = some { p0 with currentAge := p0.currentAge + 1 } ∧
          (∀ e : Nat, e ≠ self → w1.heap e = w.heap e) ∧ w1.grid = w.grid ∧
          (w1.heap self).is_alive = false ∧
          w1.stats.plantsDiedWeather = w.stats.plantsDiedWeather + 1 ∧
          w1.stats.plantsDiedNaturalAge = w.stats.plantsDiedNaturalAge ∧
          w1.stats.plantsSpread = w.stats.plantsSpread := by
      intro rate hr
      refine ⟨_, ((Plant.weatherDeath_cases _ self rate halive1).1 hr), ?_, fun e he => ?_, rfl,
        ?_, rfl, rfl, rfl⟩
      · rw [World.modify_heap_self]
        exact hkind0
      · rw [World.modify_heap_other _ _ he]
        exact hoth e he
      · rw [World.modify_heap_self]; rfl
    have hkilled : ∀ w2 : World,
        (w2.heap self).plant = some { p0 with currentAge := p0.currentAge + 1 } →
        (∀ e : Nat, e ≠ self → w2.heap e = w.heap e) → w2.grid = w.grid →
        (w2.heap self).is_alive = false →
        w2.stats.plantsDiedWeather = w.stats.plantsDiedWeather + 1 →
        w2.stats.plantsDiedNaturalAge = w.stats.plantsDiedNaturalAge →
        w2.stats.plantsSpread = w.stats.plantsSpread →
        Plant.weatherKills w.gen p0 season →
        ∃ (w1 : World) (added : List EntityId),
      some w2 = some w1 ∧
      (w1.heap self).plant = some { p0 with currentAge := p0.currentAge + 1 } ∧
      (∀ e : Nat, e < w.nextId → e ≠ self → w1.heap e = w.heap e) ∧
      w1.grid.plants_list = w.grid.plants_list ++ added ∧
      w1.grid.herbivores_list = w.grid.herbivores_list ∧
      w1.grid.carnivores_list = w.grid.carnivores_list ∧
      added.length ≤ 3 ∧
      (season ≠ .SPRING → season ≠ .SUMMER → added.length ≤ 1) ∧
      w1.stats.plantsSpread = w.stats.plantsSpread + (added.length : Int) ∧
      (∀ e ∈ added, w.nextId ≤ e ∧ e < w1.nextId ∧ (w1.heap e).is_alive = true ∧
        (w1.heap e).getType = .PLANT) ∧
      (p0.currentAge + 1 > p0.maximumAge →
        (w1.heap self).is_alive = false ∧ added = [] ∧
        w1.stats.plantsDiedNaturalAge = w.stats.plantsDiedNaturalAge + 1 ∧
        w1.stats.plantsDiedWeather = w.stats.plantsDiedWeather) ∧
      (p0.currentAge + 1 ≤ p0.maximumAge → Plant.weatherKills w.gen p0 season →
        (w1.heap self).is_alive = false ∧ added = [] ∧
        w1.stats.plantsDiedWeather = w.stats.plantsDiedWeather + 1 ∧
        w1.stats.plantsDiedNaturalAge = w.stats.plantsDiedNaturalAge) ∧
      (p0.currentAge + 1 ≤ p0.maximumAge → ¬ Plant.weatherKills w.gen p0 season →
        (w1.heap self).is_alive = true ∧
        w1.stats.plantsDiedWeather = w.stats.plantsDiedWeather ∧
        w1.stats.plantsDiedNaturalAge = w.stats.plantsDiedNaturalAge) ∧
      (p0.currentAge + 1 ≤ p0.maximumAge → season ≠ .WINTER → season ≠ .AUTUMN →
        (w1.heap self).is_alive = true) ∧
      (∀ r c : Int, (Plant.new r c).plant = some
        { baseSpreadChanceValue := 35, maximumAge := 40, currentAge := 0,
          winterDeathChanceRate := 20, autumnDeathChanceRate := 10 }) := by
      intro w2 k1 k2 k3 k4 k5 k6 k7 hk
      refine ⟨w2, [], rfl, k1, fun e _ he => k2 e he, by rw [k3, List.append_nil], by rw [k3],
        by rw [k3], Nat.zero_le _, fun _ _ => Nat.zero_le _, by rw [k7]; simp,
        fun e he => absurd he (List.not_mem_nil _), fun h => absurd hage (by omega),
        fun _ _ => ⟨k4, rfl, k5, k6⟩, fun _ hn => absurd hk hn, fun _ hw ha => ?_, hconst⟩
      rcases hk with ⟨hs, _⟩ | ⟨hs, _⟩
      · exact absurd hs hw
      · exact absurd hs ha
    have hsurvive : ∀ w2 : World,
        (w2.heap self).plant = some { p0 with currentAge := p0.currentAge + 1 } →
        (∀ e : Nat, e ≠ self → w2.heap e = w.heap e) → w2.grid = w.grid →
        (w2.heap self).is_alive = true → w2.stats = w.stats → w2.nextId = w.nextId →
        ¬ Plant.weatherKills w.gen p0 season →
        ∃ (w1 : World) (added : List EntityId),
      Plant.spreadAndBloom w2 self { p0 with currentAge := p0.currentAge + 1 } season = some w1 ∧
      (w1.heap self).plant = some { p0 with currentAge := p0.currentAge + 1 } ∧
      (∀ e : Nat, e < w.nextId → e ≠ self → w1.heap e = w.heap e) ∧
      w1.grid.plants_list = w.grid.plants_list ++ added ∧
      w1.grid.herbivores_list = w.grid.herbivores_list ∧
      w1.grid.carnivores_list = w.grid.carnivores_list ∧
      added.length ≤ 3 ∧
      (season ≠ .SPRING → season ≠ .SUMMER → added.length ≤ 1) ∧
      w1.stats.plantsSpread = w.stats.plantsSpread + (added.length : Int) ∧
      (∀ e ∈ added, w.nextId ≤ e ∧ e < w1.nextId ∧ (w1.heap e).is_alive = true ∧
        (w1.heap e).getType = .PLANT) ∧
      (p0.currentAge + 1 > p0.maximumAge →
        (w1.heap self).is_alive = false ∧ added = [] ∧
        w1.stats.plantsDiedNaturalAge = w.stats.plantsDiedNaturalAge + 1 ∧
        w1.stats.plantsDiedWeather = w.stats.plantsDiedWeather) ∧
      (p0.currentAge + 1 ≤ p0.maximumAge → Plant.weatherKills w.gen p0 season →
        (w1.heap self).is_alive = false ∧ added = [] ∧
        w1.stats.plantsDiedWeather = w.stats.plantsDiedWeather + 1 ∧
        w1.stats.plantsDiedNaturalAge = w.stats.plantsDiedNaturalAge) ∧
      (p0.currentAge + 1 ≤ p0.maximumAge → ¬ Plant.weatherKills w.gen p0 season →
        (w1.heap self).is_alive = true ∧
        w1.stats.plantsDiedWeather = w.stats.plantsDiedWeather ∧
        w1.stats.plantsDiedNaturalAge = w.stats.plantsDiedNaturalAge) ∧
      (p0.currentAge + 1 ≤ p0.maximumAge → season ≠ .WINTER → season ≠ .AUTUMN →
        (w1.heap self).is_alive = true) ∧
      (∀ r c : Int, (Plant.new r c).plant = some
        { baseSpreadChanceValue := 35, maximumAge := 40, currentAge := 0,
          winterDeathChanceRate := 20, autumnDeathChanceRate := 10 }) := by
      intro w2 k1 k2 k3 k4 k5 k6 hnk
      obtain ⟨w1, added, h1, sp, l3, l1⟩ := Plant.spreadAndBloom_sprouted w2 self
        { p0 with currentAge := p0.currentAge + 1 } season
      have hs2 : self < w2.nextId := by rw [k6]; exact hself
      have hselfeq : w1.heap self = w2.heap self := sp.old self hs2
      have halive : (w1.heap self).is_alive = true := by rw [hselfeq]; exact k4
      refine ⟨w1, added, h1, by rw [hselfeq]; exact k1, fun e he hne => ?_,
        by rw [sp.plants, k3], by rw [sp.herbivores, k3], by rw [sp.carnivores, k3], l3, l1,
        by rw [sp.spread, k5], fun e he => ?_, fun h => absurd hage (by omega),
        fun _ hk => absurd hk hnk, fun _ _ => ⟨halive, by rw [sp.diedWeather, k5],
          by rw [sp.diedAge, k5]⟩, fun _ _ _ => halive, hconst⟩
      · rw [sp.old e (by rw [k6]; exact he)]
        exact k2 e hne
      · obtain ⟨f1, f2, f3, f4⟩ := sp.fresh e he
        exact ⟨by rw [← k6]; exact f1, f2, f3, f4⟩
    unfold Plant.seasonalDeath
    by_cases hw : season = .WINTER
    · rw [if_pos hw]
      by_cases hr : (getRandomInt w.gen 1 100).1 ≤ p0.winterDeathChanceRate
      · obtain ⟨w2, e2, k1, k2, k3, k4, k5, k6, k7⟩ := hdead p0.winterDeathChanceRate hr
        rw [e2]
        dsimp only
        rw [if_pos rfl]
        exact hkilled w2 k1 k2 k3 k4 k5 k6 k7 (Or.inl ⟨hw, hr⟩)
      · rw [(Plant.weatherDeath_cases _ self p0.winterDeathChanceRate halive1).2 hr]
        dsimp only
        rw [if_neg (by simp), if_neg (by simp [Entity.isAlive]; exact halive1)]
        refine hsurvive _ hkind0 hoth rfl halive1 rfl rfl ?_
        rintro (⟨_, h⟩ | ⟨h, _⟩)
        · exact hr h
        · rw [hw] at h; cases h
    · rw [if_neg hw]
      by_cases ha : season = .AUTUMN
      · rw [if_pos ha]
        by_cases hr : (getRandomInt w.gen 1 100).1 ≤ p0.autumnDeathChanceRate
        · obtain ⟨w2, e2, k1, k2, k3, k4, k5, k6, k7⟩ := hdead p0.autumnDeathChanceRate hr
          rw [e2]
          dsimp only
          rw [if_pos rfl]
          exact hkilled w2 k1 k2 k3 k4 k5 k6 k7 (Or.inr ⟨ha, hr⟩)
        · rw [(Plant.weatherDeath_cases _ self p0.autumnDeathChanceRate halive1).2 hr]
          dsimp only
          rw [if_neg (by simp), if_neg (by simp [Entity.isAlive]; exact halive1)]
          refine hsurvive _ hkind0 hoth rfl halive1 rfl rfl ?_
          rintro (⟨h, _⟩ | ⟨_, h⟩)
          · exact hw h
          · exact hr h
      · rw [if_neg ha]
        dsimp only
        rw [if_neg (by simp), if_neg (by simp [Entity.isAlive]; exact halive1)]
        refine hsurvive _ hkind0 hoth rfl halive1 rfl rfl ?_
        rintro (⟨h, _⟩ | ⟨h, _⟩)
        · exact hw h
        · exact ha h

/-- C32 on `seedlingWorld` in a Spring month: the plant, of age 0, is alive with age 1
after its update, and the update has added three plants, the objects 1, 2 and 3 (one by
the spread, two by the bloom), counted by `plantsSpread`. -/
theorem plant_lifecycle_witness :
    ∃ (w1 : World) (added : List EntityId),
      Plant.update seedlingWorld 0 .SPRING = some w1 ∧
      (w1.heap 0).plant =
        some { baseSpreadChanceValue := 35, maximumAge := 40, currentAge := 1,
               winterDeathChanceRate := 20, autumnDeathChanceRate := 10 } ∧
      (w1.heap 0).is_alive = true ∧
      w1.grid.plants_list = [0] ++ added ∧ added = [1, 2, 3] ∧
      w1.stats.plantsSpread = 3 ∧ w1.stats.plantsDiedWeather = 0 ∧
      w1.stats.plantsDiedNaturalAge = 0 := by
  obtain ⟨w1, added, h, hplant, -, hreg, -, -, -, -, -, -, -, -, hlive, -, -⟩ :=
    plant_lifecycle seedlingWorld 0 .SPRING
      { baseSpreadChanceValue := 35, maximumAge := 40, currentAge := 0,
        winterDeathChanceRate := 20, autumnDeathChanceRate := 10 } rfl rfl (by decide)
  have hnot : ¬ Plant.weatherKills seedlingWorld.gen
      { baseSpreadChanceValue := 35, maximumAge := 40, currentAge := 0,
        winterDeathChanceRate := 20, autumnDeathChanceRate := 10 } .SPRING := by
    rintro (⟨hs, _⟩ | ⟨hs, _⟩) <;> cases hs
  obtain ⟨g1, g2, g3⟩ := hlive (by decide) hnot
  have hd : (Plant.update seedlingWorld 0 .SPRING).map (fun w1 =>
      decide (w1.grid.plants_list = [0, 1, 2, 3]) && decide (w1.stats.plantsSpread = 3))
      = some true := by decide!
  rw [h] at hd
  simp only [Option.map_some', Option.some.injEq, Bool.and_eq_true, decide_eq_true_eq] at hd
  have hadd : added = [1, 2, 3] := by
    have := hreg
    rw [hd.1] at this
    exact (List.cons.inj this).2.symm
  exact ⟨w1, added, h, hplant, g1, hreg, hadd, hd.2, g2, g3⟩

/-! ## C38 : the energy of the survivors -/

/-- An animal that is alive when the guarded move phase has returned went through the
final check of `Animal::update`, so its energy is positive. -/
theorem Animal.movePhase_survivor {w w1 : World} {self : EntityId} {season : Season}
    {a1 : AnimalData}
    (h : Animal.ifAlive self (fun u => Animal.movePhase u self season) w = some w1)
    (hal : (w1.heap self).is_alive = true) (ha1 : (w1.heap self).animal = some a1) :
    (w.heap self).is_alive = true ∧ 1 ≤ a1.currentEnergy := by
  unfold Animal.ifAlive at h
  rcases ite_some_cond h with ⟨hd, h⟩ | ⟨hc, h⟩
  · simp only [pure, Option.some.injEq] at h
    rw [← h] at hal
    simp [Entity.isAlive, hal] at hd
  · refine ⟨Entity.not_isAlive_false hc, ?_⟩
    unfold Animal.movePhase at h
    obtain ⟨w6, _, h⟩ := bind_some_elim h
    obtain ⟨a6, ha6, h⟩ := bind_some_elim h
    rcases ite_some_cond h with ⟨hlow, h⟩ | ⟨hok, h⟩
    · simp only [pure, Option.some.injEq] at h
      rw [← h, Animal.die_heap, World.modify_heap_self] at hal
      exact absurd hal (by simp [Entity.kill])
    · simp only [pure, Option.some.injEq] at h
      rw [← h] at hal ha1
      rw [ha6] at ha1
      simp only [Option.some.injEq] at ha1
      subst ha1
      have : ¬ a6.currentEnergy ≤ 0 := fun hle => hok ⟨hle, hal⟩
      omega

theorem Animal.ifAlive_survivor {w w1 : World} {self : EntityId}
    {phase : World → Option World} (h : Animal.ifAlive self phase w = some w1)
    (hal : (w1.heap self).is_alive = true) : (w.heap self).is_alive = true := by
  unfold Animal.ifAlive at h
  rcases ite_some_cond h with ⟨hd, h⟩ | ⟨hc, _⟩
  · simp only [pure, Option.some.injEq] at h
    rw [← h] at hal
    exact hal
  · exact Entity.not_isAlive_false hc

/-- C38.  The constructor of `Animal` sets the energy to `maxEnergy / 2` plus a draw from
`0 .. maxEnergy / 4`, whatever the generator yields; for the maximum 120 that both
`Herbivore` and `Carnivore` pass, the energy of a new animal lies in `60 .. 90`.  An
allocated animal that is alive when its own `Animal::update` has returned has
`1 ≤ currentEnergy ≤ maximumEnergy`, given that its energy did not exceed the maximum
before the update (as `energyBounded` says, which holds throughout a run). -/
theorem survivor_energy (w w1 : World) (self : EntityId) (season : Season) (a1 : AnimalData)
    (h : Animal.update w self season = some w1) (hself : self < w.nextId)
    (hb : (w.heap self).energyBounded)
    (hal : (w1.heap self).is_alive = true) (ha1 : (w1.heap self).animal = some a1) :
    (1 ≤ a1.currentEnergy ∧ a1.currentEnergy ≤ a1.maximumEnergy) ∧
    (∀ (gen : List Nat) (g : Gender)
        (maxAge maxEnergy vision moveCost gestation minBreed reproEnergy maxNoFood : Int),
      0 ≤ maxEnergy →
      Int.tdiv maxEnergy 2 ≤ (Animal.new gen g maxAge maxEnergy vision moveCost gestation
        minBreed reproEnergy maxNoFood).1.currentEnergy ∧
      (Animal.new gen g maxAge maxEnergy vision moveCost gestation
        minBreed reproEnergy maxNoFood).1.currentEnergy ≤
          Int.tdiv maxEnergy 2 + Int.tdiv maxEnergy 4) ∧
    (∀ (gen : List Nat) (r c : Int) (g : Gender),
      (∃ a, (Herbivore.new gen r c g).1.animal = some a ∧ a.maximumEnergy = 120 ∧
        60 ≤ a.currentEnergy ∧ a.currentEnergy ≤ 90) ∧
      (∃ a, (Carnivore.new gen r c g).1.animal = some a ∧ a.maximumEnergy = 120 ∧
        60 ≤ a.currentEnergy ∧ a.currentEnergy ≤ 90)) := by
  have hnew : ∀ (gen : List Nat) (g : Gender)
      (maxAge maxEnergy vision moveCost gestation minBreed reproEnergy maxNoFood : Int),
      0 ≤ maxEnergy →
      Int.tdiv maxEnergy 2 ≤ (Animal.new gen g maxAge maxEnergy vision moveCost gestation
        minBreed reproEnergy maxNoFood).1.currentEnergy ∧
      (Animal.new gen g maxAge maxEnergy vision moveCost gestation
        minBreed reproEnergy maxNoFood).1.currentEnergy ≤
          Int.tdiv maxEnergy 2 + Int.tdiv maxEnergy 4 := by
    intro gen g maxAge maxEnergy vision moveCost gestation minBreed reproEnergy maxNoFood hmax
    have h4 : 0 ≤ Int.tdiv maxEnergy 4 := Int.tdiv_nonneg hmax (by decide)
    obtain ⟨h1, h2⟩ := getRandomInt_mem gen 0 (Int.tdiv maxEnergy 4) h4
    unfold Animal.new
    dsimp only
    omega
  refine ⟨⟨?_, ?_⟩, hnew, fun gen r c g => ⟨?_, ?_⟩⟩
  · rw [Animal.update_eq_phases] at h
    obtain ⟨wb, _, h⟩ := bind_some_elim h
    obtain ⟨w3, _, h⟩ := bind_some_elim h
    obtain ⟨w4, _, h⟩ := bind_some_elim h
    obtain ⟨w5, _, h⟩ := bind_some_elim h
    exact (Animal.movePhase_survivor h hal ha1).2
  · exact (((Animal.animal_update_evolves h).old self hself).energy hb a1 ha1).2.2.1
  · have := hnew gen g 70 120 5 10 3 2 40 3 (by decide)
    exact ⟨_, rfl, rfl, this.1, this.2⟩
  · have := hnew gen g 100 120 6 15 4 5 50 2 (by decide)
    exact ⟨_, rfl, rfl, this.1, this.2⟩

/-- C38 on `grazingWorld`: the herbivore starts a Spring update with energy 60, pays 6 in
its base update, gains 35 from plant 2 and pays 10 for its move; it is alive afterwards
with energy 79, between 1 and its maximum 120. -/
theorem survivor_energy_witness :
    ∃ (w1 : World) (a1 : AnimalData),
      Animal.update grazingWorld 0 .SPRING = some w1 ∧ (w1.heap 0).animal = some a1 ∧
      (w1.heap 0).is_alive = true ∧ a1.currentEnergy = 79 ∧ a1.maximumEnergy = 120 ∧
      1 ≤ a1.currentEnergy ∧ a1.currentEnergy ≤ a1.maximumEnergy := by
  have hd : (Animal.update grazingWorld 0 .SPRING).map (fun w1 =>
      (w1.heap 0).is_alive && decide ((w1.heap 0).energy = some 79) &&
        decide (((w1.heap 0).animal.map (fun a => a.maximumEnergy)) = some 120)) = some true := by
    decide!
  cases hu : Animal.update grazingWorld 0 .SPRING with
  | none => rw [hu] at hd; exact absurd hd (by simp)
  | some w1 =>
    rw [hu] at hd
    simp only [Option.map_some', Option.some.injEq, Bool.and_eq_true, decide_eq_true_eq] at hd
    obtain ⟨⟨hal, he⟩, hm⟩ := hd
    unfold Entity.energy at he
    cases ha : (w1.heap 0).animal with
    | none => rw [ha] at he; exact absurd he (by simp)
    | some a1 =>
      rw [ha] at he hm
      simp only [Option.map_some', Option.some.injEq] at he hm
      have hb : (grazingWorld.heap 0).energyBounded := by
        intro a hak
        have : a = { exhaustedHerbivore with currentEnergy := 60 } := by
          have h0 : (grazingWorld.heap 0).animal =
              some { exhaustedHerbivore with currentEnergy := 60 } := rfl
          rw [h0] at hak
          exact (Option.some.inj hak).symm
        subst this
        exact ⟨by decide, by decide, by decide, fun _ => by decide⟩
      have key := (survivor_energy grazingWorld w1 0 .SPRING a1 hu (by decide) hb hal ha).1
      exact ⟨w1, a1, rfl, ha, hal, he, hm, key.1, key.2⟩

/-! ## C35 : whom a move relocates -/

/-- C35, evaluated on the chase scenario.  In the first month, a Winter month, the update
of carnivore 2 comes first: it eats herbivore 0 and, still hungry, chases herbivore 1,
whose cell `(5, 6)` its destination test accepts; `moveEntity` puts the carnivore into
that cell.  When herbivore 1, alive and stored at `(5, 6)`, reaches its move, the cell at
its coordinates holds carnivore 2, and this is the entity `Herbivore::move` hands to
`moveEntity`: the carnivore is relocated to `(4, 5)`, the first empty neighbour, while
the herbivore stays stored at `(5, 6)`, now held by no cell, and pays the movement cost
(52 to 42).  The month ends in that state. -/
theorem herbivore_move_relocates_carnivore :
    ∃ (s0 s1 : Simulation) (wc w5 w6 : World),
      chaseStocked = some s0 ∧ s0.runMonth enterKey = some s1 ∧
      Animal.update s0.world 2 .WINTER = some wc ∧
      Animal.beforeMove wc 1 .WINTER = some w5 ∧
      Herbivore.move w5 1 .WINTER = some w6 ∧
      (s0.world.heap 0).pos = (4, 4) ∧ (s0.world.heap 1).pos = (5, 6) ∧
      (s0.world.heap 2).pos = (5, 5) ∧ s1.current_Season_sim = .WINTER ∧
      (wc.heap 2).pos = (5, 6) ∧ wc.grid.cells_grid 5 6 = some 2 ∧
      (w5.heap 1).getType = .HERBIVORE ∧ (w5.heap 1).is_alive = true ∧
      (w5.heap 1).pos = (5, 6) ∧ (w5.heap 1).energy = some 52 ∧
      (w5.heap 2).getType = .CARNIVORE ∧ (w5.heap 2).pos = (5, 6) ∧
      w5.grid.getEntity (w5.heap 1).getR (w5.heap 1).getC = some (some 2) ∧
      (w6.heap 1).pos = (5, 6) ∧ (w6.heap 1).energy = some 42 ∧
      (w6.heap 2).pos = (4, 5) ∧ (w6.heap 2).is_alive = true ∧
      w6.grid.cells_grid 5 6 = none ∧ w6.grid.cells_grid 4 5 = some 2 ∧
      (s1.world.heap 1).pos = (5, 6) ∧ (s1.world.heap 1).is_alive = true ∧
      (s1.world.heap 1).energy = some 42 ∧ 1 ∈ s1.world.grid.herbivores_list ∧
      (s1.world.heap 2).pos = (4, 5) ∧ s1.world.grid.cells_grid 5 6 = none ∧
      s1.world.grid.cells_grid 4 5 = some 2 := by
  have h : (chaseStocked.bind (fun s0 => (s0.runMonth enterKey).bind (fun s1 =>
      (Animal.update s0.world 2 .WINTER).bind (fun wc =>
        (Animal.beforeMove wc 1 .WINTER).bind (fun w5 =>
          (Herbivore.move w5 1 .WINTER).map (fun w6 =>
            decide ((s0.world.heap 0).pos = (4, 4)) && decide ((s0.world.heap 1).pos = (5, 6)) &&
            decide ((s0.world.heap 2).pos = (5, 5)) &&
            decide (s1.current_Season_sim = .WINTER) &&
            decide ((wc.heap 2).pos = (5, 6)) && decide (wc.grid.cells_grid 5 6 = some 2) &&
            decide ((w5.heap 1).getType = .HERBIVORE) && (w5.heap 1).is_alive &&
            decide ((w5.heap 1).pos = (5, 6)) && decide ((w5.heap 1).energy = some 52) &&
            decide ((w5.heap 2).getType = .CARNIVORE) && decide ((w5.heap 2).pos = (5, 6)) &&
            decide (w5.grid.getEntity (w5.heap 1).getR (w5.heap 1).getC = some (some 2)) &&
            decide ((w6.heap 1).pos = (5, 6)) && decide ((w6.heap 1).energy = some 42) &&
            decide ((w6.heap 2).pos = (4, 5)) && (w6.heap 2).is_alive &&
            decide (w6.grid.cells_grid 5 6 = none) && decide (w6.grid.cells_grid 4 5 = some 2) &&
            decide ((s1.world.heap 1).pos = (5, 6)) && (s1.world.heap 1).is_alive &&
            decide ((s1.world.heap 1).energy = some 42) &&
            decide (1 ∈ s1.world.grid.herbivores_list) &&
            decide ((s1.world.heap 2).pos = (4, 5)) &&
            decide (s1.world.grid.cells_grid 5 6 = none) &&
            decide (s1.world.grid.cells_grid 4 5 = some 2)))))))
      = some true := by decide!
  cases h0 : chaseStocked with
  | none => rw [h0] at h; exact absurd h (by simp)
  | some s0 =>
    rw [h0, Option.some_bind] at h
    cases h1 : s0.runMonth enterKey with
    | none => rw [h1] at h; exact absurd h (by simp)
    | some s1 =>
      rw [h1, Option.some_bind] at h
      cases h2 : Animal.update s0.world 2 .WINTER with
      | none => rw [h2] at h; exact absurd h (by simp)
      | some wc =>
        rw [h2, Option.some_bind] at h
        cases h3 : Animal.beforeMove wc 1 .WINTER with
        | none => rw [h3] at h; exact absurd h (by simp)
        | some w5 =>
          rw [h3, Option.some_bind] at h
          cases h4 : Herbivore.move w5 1 .WINTER with
          | none => rw [h4] at h; exact absurd h (by simp)
          | some w6 =>
            rw [h4] at h
            simp only [Option.map_some', Option.some.injEq, Bool.and_eq_true,
              decide_eq_true_eq] at h
            obtain ⟨⟨⟨⟨⟨⟨⟨⟨⟨⟨⟨⟨⟨⟨⟨⟨⟨⟨⟨⟨⟨⟨⟨⟨⟨g1, g2⟩, g3⟩, g4⟩, g5⟩, g6⟩, g7⟩, g8⟩, g9⟩, g10⟩,
              g11⟩, g12⟩, g13⟩, g14⟩, g15⟩, g16⟩, g17⟩, g18⟩, g19⟩, g20⟩, g21⟩, g22⟩, g23⟩,
              g24⟩, g25⟩, g26⟩ := h
            exact ⟨s0, s1, wc, w5, w6, rfl, h1, h2, h3, h4, g1, g2, g3, g4, g5, g6, g7, g8,
              g9, g10, g11, g12, g13, g14, g15, g16, g17, g18, g19, g20, g21, g22, g23, g24,
              g25, g26⟩

/-! ## The steps of the tick engine -/

theorem World.Trace.trace_chain {b : Bool} {x y z : World} (h1 : World.Trace b x y)
    (h2 : World.Trace b y z) : World.Trace b x z := by
  induction h2 with
  | refl => exact h1
  | same _ hh hn hg ih => exact World.Trace.same ih hh hn hg
  | write e _ ha hw ih => exact World.Trace.write e ih ha hw
  | grow e p _ ih => exact World.Trace.grow e p ih
  | kill e _ ih => exact World.Trace.kill e ih
  | spawn ent _ hc hs ih => exact World.Trace.spawn ent ih hc hs
  | immigrate ent _ hc hs ih => exact World.Trace.immigrate ent ih hc hs
  | remove ent _ hs ih => exact World.Trace.remove ent ih hs
  | move ent r c _ hv hh hs ih => exact World.Trace.move ent r c ih hv hh hs

theorem Animal.Write.write_relax {b : Bool} {a a1 : AnimalData} (h : Animal.Write false a a1) :
    Animal.Write b a a1 := by
  cases h with
  | energy => exact Animal.Write.energy b _ _
  | meals => exact Animal.Write.meals b _
  | conceive => rename_i hc; exact Animal.Write.conceive b _ hc
  | born => exact Animal.Write.born b _

theorem World.Trace.trace_relax {b : Bool} {w w1 : World} (h : World.Trace false w w1) :
    World.Trace b w w1 := by
  induction h with
  | refl => exact World.Trace.refl _
  | same _ hh hn hg ih => exact World.Trace.same ih hh hn hg
  | write e _ ha hw ih => exact World.Trace.write e ih ha hw.write_relax
  | grow e p _ ih => exact World.Trace.grow e p ih
  | kill e _ ih => exact World.Trace.kill e ih
  | spawn ent _ hc hs ih => exact World.Trace.spawn ent ih hc hs
  | immigrate ent _ hc hs ih => exact World.Trace.immigrate ent ih hc hs
  | remove ent _ hs ih => exact World.Trace.remove ent ih hs
  | move ent r c _ hv hh hs ih => exact World.Trace.move ent r c ih hv hh hs

theorem World.Trace.trace_of_same {b : Bool} {w w1 : World} (hh : w1.heap = w.heap)
    (hn : w1.nextId = w.nextId) (hg : w1.grid = w.grid) : World.Trace b w w1 :=
  World.Trace.same (World.Trace.refl w) hh hn hg

theorem World.Trace.trace_then_stats {b : Bool} {w wm : World} (h : World.Trace b w wm)
    (st : MonthlyStats) : World.Trace b w { wm with stats := st } :=
  World.Trace.same h rfl rfl rfl

theorem World.Trace.trace_then_gen {b : Bool} {w wm : World} (h : World.Trace b w wm)
    (gen : List Nat) : World.Trace b w { wm with gen := gen } :=
  World.Trace.same h rfl rfl rfl

theorem World.Trace.trace_then_event {b : Bool} {w wm : World} (h : World.Trace b w wm)
    (ev : String) : World.Trace b w (wm.addMonthlyEvent ev) :=
  World.Trace.same h rfl rfl rfl

theorem Animal.die_trace (b : Bool) (w : World) (self : EntityId) (eaten : Bool) :
    World.Trace b w (Animal.die w self eaten) := by
  unfold Animal.die
  split
  · exact World.Trace.refl w
  · dsimp only
    have hk : World.Trace b w (w.modify self Entity.kill) :=
      World.Trace.kill self (World.Trace.refl w)
    split
    · split
      · exact hk.trace_then_stats _
      · split
        · exact hk.trace_then_stats _
        · exact hk
    · exact hk

theorem World.Trace.trace_then_die {b : Bool} {w wm : World} (h : World.Trace b w wm)
    (self : EntityId) (eaten : Bool) : World.Trace b w (Animal.die wm self eaten) :=
  h.trace_chain (Animal.die_trace b wm self eaten)

theorem World.removeEntity_trace (b : Bool) {w w1 : World} {ent : Option EntityId}
    (h : w.removeEntity ent = some w1) : World.Trace b w w1 :=
  World.Trace.remove ent (World.Trace.refl w) h

/-- The entity `getEntity` reports is held by a cell of the grid. -/
theorem Grid.getEntity_held {g : Grid} {r c : Int} {ent : Option EntityId}
    (h : g.getEntity r c = some ent) :
    ∀ e, ent = some e → ∃ r0 c0, Grid.isValid r0 c0 = true ∧ g.cells_grid r0 c0 = some e := by
  intro e he
  rw [Grid.getEntity_eq] at h
  simp only [Option.some.injEq] at h
  by_cases hv : Grid.isValid r c = true
  · rw [if_pos hv] at h
    exact ⟨r, c, hv, by rw [h, he]⟩
  · rw [if_neg hv] at h
    rw [← h] at he
    cases he

theorem World.moveEntity_trace (b : Bool) {w w1 : World} {ent : Option EntityId}
    {r0 c0 r c : Int} (hent : w.grid.getEntity r0 c0 = some ent)
    (hv : Grid.isValid r c = true) (h : w.moveEntity ent r c = some w1) :
    World.Trace b w w1 :=
  World.Trace.move ent r c (World.Trace.refl w) hv (Grid.getEntity_held hent) h

/-! ## The stored positions and the cell map along the steps of the tick engine -/

theorem Grid.mem_all_eraseIf {g : Grid} {t : EntityType} {drop : EntityId → Bool}
    {e : EntityId} (h : e ∈ (g.eraseIf t drop).all) : e ∈ g.all := by
  have h1 := Grid.count_all_eraseIf g t drop e
  have h2 : 0 < (g.eraseIf t drop).all.count e := List.count_pos_iff.mpr h
  exact List.count_pos_iff.mp (lt_of_lt_of_le h2 h1)

theorem Grid.mem_all_pushBack {g : Grid} {t : EntityType} {x e : EntityId}
    (h : e ∈ (g.pushBack t x).all) : e ∈ g.all ∨ e = x := by
  by_cases he : e = x
  · exact Or.inr he
  · left
    have h2 : 0 < (g.pushBack t x).all.count e := List.count_pos_iff.mpr h
    rw [(Grid.count_all_pushBack g t x e).2 he] at h2
    exact List.count_pos_iff.mp h2

theorem Grid.cells_pushBack (g : Grid) (t : EntityType) (x : EntityId) :
    (g.pushBack t x).cells_grid = g.cells_grid := by
  cases t <;> rfl

theorem Grid.mem_registry_pushBack {g : Grid} {t t1 : EntityType} {x e : EntityId}
    (h : e ∈ (g.pushBack t x).registry t1) : e ∈ g.registry t1 ∨ (e = x ∧ t1 = t) := by
  cases t <;> cases t1 <;> simp [Grid.pushBack, Grid.registry] at h ⊢ <;> exact h

theorem Grid.mem_registry_eraseIf {g : Grid} {t t1 : EntityType} {drop : EntityId → Bool}
    {e : EntityId} (h : e ∈ (g.eraseIf t drop).registry t1) : e ∈ g.registry t1 := by
  by_cases ht : t1 = t
  · rw [ht, Grid.registry_eraseIf_same] at h
    rw [ht]
    exact (List.mem_filter.mp h).1
  · rw [Grid.registry_eraseIf_other g t t1 drop ht] at h
    exact h

theorem Grid.registry_cleared (g : Grid) (p : Prop) [Decidable p] (r0 c0 : Int)
    (t : EntityType) : (if p then g.setCell r0 c0 none else g).registry t = g.registry t := by
  split
  · exact Grid.registry_setCell _ _ _ _ _
  · rfl

/-- The cell that `removeEntity` and `moveEntity` clear held the entity passed. -/
theorem Grid.cells_cleared {g : Grid} {p : Prop} [Decidable p] {r0 c0 r c : Int}
    {e : EntityId}
    (h : (if p then g.setCell r0 c0 none else g).cells_grid r c = some e) :
    g.cells_grid r c = some e ∧ ¬ (p ∧ r = r0 ∧ c = c0) := by
  by_cases hp : p
  · rw [if_pos hp] at h
    have h2 : (if r = r0 ∧ c = c0 then none else g.cells_grid r c) = some e := h
    by_cases hrc : r = r0 ∧ c = c0
    · rw [if_pos hrc] at h2
      cases h2
    · rw [if_neg hrc] at h2
      exact ⟨h2, fun hx => hrc hx.2⟩
  · rw [if_neg hp] at h
    exact ⟨h, fun hx => hp hx.1⟩

theorem Grid.all_cleared (g : Grid) (p : Prop) [Decidable p] (r0 c0 : Int) :
    (if p then g.setCell r0 c0 none else g).all = g.all := by
  split
  · rfl
  · rfl

theorem World.Sited.of_frame {w w1 : World} (h : w.Sited) (hn : w.nextId ≤ w1.nextId)
    (hg : w1.grid = w.grid)
    (hp : ∀ e : Nat, e < w.nextId → (w1.heap e).r_coord = (w.heap e).r_coord ∧
      (w1.heap e).c_coord = (w.heap e).c_coord ∧ (w1.heap e).getType = (w.heap e).getType) :
    w1.Sited := by
  refine ⟨fun r c e hv hc => ?_, fun t e he => ?_⟩
  · rw [hg] at hc
    obtain ⟨h1, h2, h3⟩ := h.held r c e hv hc
    obtain ⟨p1, p2, _⟩ := hp e h1
    exact ⟨Nat.lt_of_lt_of_le h1 hn, by rw [p1, h2], by rw [p2, h3]⟩
  · rw [hg] at he
    obtain ⟨h1, h2, h3⟩ := h.listed t e he
    obtain ⟨p1, p2, p3⟩ := hp e h1
    exact ⟨Nat.lt_of_lt_of_le h1 hn, by rw [p3]; exact h2, by rw [p1, p2]; exact h3⟩

theorem World.Sited.sited_modify {w : World} (h : w.Sited) (e : EntityId)
    (f : Entity → Entity)
    (hf : ∀ ent : Entity, (f ent).r_coord = ent.r_coord ∧ (f ent).c_coord = ent.c_coord ∧
      (f ent).getType = ent.getType) :
    (w.modify e f).Sited := by
  refine h.of_frame (Nat.le_refl _) rfl (fun i _ => ?_)
  show (if i = e then f (w.heap e) else w.heap i).r_coord = _ ∧
    (if i = e then f (w.heap e) else w.heap i).c_coord = _ ∧
    (if i = e then f (w.heap e) else w.heap i).getType = _
  by_cases hi : i = e
  · rw [if_pos hi, hi]
    exact hf _
  · rw [if_neg hi]
    exact ⟨rfl, rfl, rfl⟩

theorem Entity.setAnimal_pos (ent : Entity) (a : AnimalData) :
    (ent.setAnimal a).r_coord = ent.r_coord ∧ (ent.setAnimal a).c_coord = ent.c_coord := by
  unfold Entity.setAnimal
  cases hk : ent.kind <;> exact ⟨rfl, rfl⟩

theorem Entity.setPlant_pos (ent : Entity) (p : PlantData) :
    (ent.setPlant p).r_coord = ent.r_coord ∧ (ent.setPlant p).c_coord = ent.c_coord := by
  unfold Entity.setPlant
  cases hk : ent.kind <;> exact ⟨rfl, rfl⟩

theorem World.Sited.sited_alloc {w : World} (h : w.Sited) (ent : Entity) :
    (w.alloc ent).1.Sited := by
  refine h.of_frame (Nat.le_succ _) rfl (fun e he => ?_)
  show (if e = w.nextId then ent else w.heap e).r_coord = _ ∧
    (if e = w.nextId then ent else w.heap e).c_coord = _ ∧
    (if e = w.nextId then ent else w.heap e).getType = _
  rw [if_neg (Nat.ne_of_lt he)]
  exact ⟨rfl, rfl, rfl⟩

theorem World.Sited.sited_addEntity {w w1 : World} {x : EntityId} {ok : Bool} (h : w.Sited)
    (hx : x < w.nextId) (hadd : w.addEntity (some x) = some (w1, ok)) : w1.Sited := by
  rw [World.addEntity_some] at hadd
  simp only [Option.some.injEq] at hadd
  split at hadd
  · rename_i hc
    simp only [Prod.mk.injEq] at hadd
    rw [← hadd.1]
    refine ⟨fun r c e hv hcell => ?_, fun t e he => ?_⟩
    · have hcell2 : (if r = (w.heap x).r_coord ∧ c = (w.heap x).c_coord then some x
          else w.grid.cells_grid r c) = some e := by
        rw [← hcell]
        show _ = (Grid.pushBack _ _ _).cells_grid r c
        rw [Grid.cells_pushBack]
        rfl
      by_cases hrc : r = (w.heap x).r_coord ∧ c = (w.heap x).c_coord
      · rw [if_pos hrc] at hcell2
        simp only [Option.some.injEq] at hcell2
        subst hcell2
        exact ⟨hx, hrc.1.symm, hrc.2.symm⟩
      · rw [if_neg hrc] at hcell2
        exact h.held r c e hv hcell2
    · have he2 : e ∈ ((w.grid.setCell (w.heap x).r_coord (w.heap x).c_coord
          (some x)).pushBack (w.heap x).getType x).registry t := he
      rcases Grid.mem_registry_pushBack he2 with h1 | ⟨h1, h2⟩
      · rw [Grid.registry_setCell] at h1
        exact h.listed t e h1
      · rw [h1, h2]
        exact ⟨hx, rfl, hc.2.1⟩
  · simp only [Prod.mk.injEq] at hadd
    rw [← hadd.1]
    exact h

theorem World.Sited.sited_removeEntity {w w1 : World} {ent : Option EntityId} (h : w.Sited)
    (hr : w.removeEntity ent = some w1) : w1.Sited := by
  cases ent with
  | none =>
    simp only [World.removeEntity, pure, Option.some.injEq] at hr
    rw [← hr]
    exact h
  | some x =>
    rw [World.removeEntity_some] at hr
    simp only [Option.some.injEq] at hr
    split at hr
    · rw [← hr]
      have hpos : ∀ e : EntityId,
          ((w.modify x Entity.kill).heap e).r_coord = (w.heap e).r_coord ∧
          ((w.modify x Entity.kill).heap e).c_coord = (w.heap e).c_coord ∧
          ((w.modify x Entity.kill).heap e).getType = (w.heap e).getType := by
        intro e
        show (if e = x then (w.heap x).kill else w.heap e).r_coord = _ ∧
          (if e = x then (w.heap x).kill else w.heap e).c_coord = _ ∧
          (if e = x then (w.heap x).kill else w.heap e).getType = _
        by_cases he : e = x
        · rw [if_pos he, he]
          exact ⟨rfl, rfl, rfl⟩
        · rw [if_neg he]
          exact ⟨rfl, rfl, rfl⟩
      refine ⟨fun r c e hv hcell => ?_, fun t e he => ?_⟩
      · have hcell2 : (if w.grid.cells_grid (w.heap x).r_coord (w.heap x).c_coord = some x then
            w.grid.setCell (w.heap x).r_coord (w.heap x).c_coord none
            else w.grid).cells_grid r c = some e := by
          rw [← hcell]
          show _ = (Grid.eraseIf _ _ _).cells_grid r c
          rw [Grid.cells_eraseIf]
        obtain ⟨a1, a2, a3⟩ := h.held r c e hv (Grid.cells_cleared hcell2).1
        exact ⟨a1, by rw [(hpos e).1]; exact a2, by rw [(hpos e).2.1]; exact a3⟩
      · have he2 : e ∈ (if w.grid.cells_grid (w.heap x).r_coord (w.heap x).c_coord = some x then
            w.grid.setCell (w.heap x).r_coord (w.heap x).c_coord none
            else w.grid).registry t := Grid.mem_registry_eraseIf he
        rw [Grid.registry_cleared] at he2
        obtain ⟨a1, a2, a3⟩ := h.listed t e he2
        exact ⟨a1, by rw [(hpos e).2.2]; exact a2, by rw [(hpos e).1, (hpos e).2.1]; exact a3⟩
    · rw [← hr]
      exact h

theorem World.Sited.sited_moveEntity {w w1 : World} {ent : Option EntityId} {r c : Int}
    (h : w.Sited) (hv : Grid.isValid r c = true)
    (hheld : ∀ e, ent = some e → ∃ r0 c0, Grid.isValid r0 c0 = true ∧
      w.grid.cells_grid r0 c0 = some e)
    (hm : w.moveEntity ent r c = some w1) : w1.Sited := by
  cases ent with
  | none =>
    simp only [World.moveEntity, pure, Option.some.injEq] at hm
    rw [← hm]
    exact h
  | some x =>
    obtain ⟨r0, c0, hv0, hc0⟩ := hheld x rfl
    obtain ⟨hx, hxr, hxc⟩ := h.held r0 c0 x hv0 hc0
    rw [World.moveEntity_some] at hm
    simp only [Option.some.injEq] at hm
    rw [if_pos hv] at hm
    rw [← hm]
    refine ⟨fun r1 c1 e hv1 hcell => ?_, fun t e he => ?_⟩
    · have hcell2 : (if r1 = r ∧ c1 = c then some x
          else (if Grid.isValid (w.heap x).r_coord (w.heap x).c_coord = true ∧
              w.grid.cells_grid (w.heap x).r_coord (w.heap x).c_coord = some x then
            w.grid.setCell (w.heap x).r_coord (w.heap x).c_coord none
            else w.grid).cells_grid r1 c1) = some e := hcell
      by_cases hrc : r1 = r ∧ c1 = c
      · rw [if_pos hrc] at hcell2
        simp only [Option.some.injEq] at hcell2
        subst hcell2
        refine ⟨hx, ?_, ?_⟩
        · show (if x = x then ({ w.heap x with r_coord := r, c_coord := c } : Entity)
            else w.heap x).r_coord = r1
          rw [if_pos rfl]
          exact hrc.1.symm
        · show (if x = x then ({ w.heap x with r_coord := r, c_coord := c } : Entity)
            else w.heap x).c_coord = c1
          rw [if_pos rfl]
          exact hrc.2.symm
      · rw [if_neg hrc] at hcell2
        obtain ⟨hold, hnot⟩ := Grid.cells_cleared hcell2
        obtain ⟨a1, a2, a3⟩ := h.held r1 c1 e hv1 hold
        have hne : e ≠ x := by
          intro hex
          rw [hex] at a2 a3 hold
          apply hnot
          rw [a2, a3]
          exact ⟨⟨hv1, hold⟩, rfl, rfl⟩
        refine ⟨a1, ?_, ?_⟩
        · show (if e = x then ({ w.heap x with r_coord := r, c_coord := c } : Entity)
            else w.heap e).r_coord = r1
          rw [if_neg hne]
          exact a2
        · show (if e = x then ({ w.heap x with r_coord := r, c_coord := c } : Entity)
            else w.heap e).c_coord = c1
          rw [if_neg hne]
          exact a3
    · have he2 : e ∈ ((if Grid.isValid (w.heap x).r_coord (w.heap x).c_coord = true ∧
              w.grid.cells_grid (w.heap x).r_coord (w.heap x).c_coord = some x then
            w.grid.setCell (w.heap x).r_coord (w.heap x).c_coord none
            else w.grid).setCell r c (some x)).registry t := he
      rw [Grid.registry_setCell, Grid.registry_cleared] at he2
      obtain ⟨a1, a3, a2⟩ := h.listed t e he2
      refine ⟨a1, ?_, ?_⟩
      · show (if e = x then ({ w.heap x with r_coord := r, c_coord := c } : Entity)
          else w.heap e).getType = t
        by_cases hex : e = x
        · rw [if_pos hex]
          rw [hex] at a3
          exact a3
        · rw [if_neg hex]
          exact a3
      show Grid.isValid
        (if e = x then ({ w.heap x with r_coord := r, c_coord := c } : Entity)
          else w.heap e).r_coord
        (if e = x then ({ w.heap x with r_coord := r, c_coord := c } : Entity)
          else w.heap e).c_coord = true
      by_cases hex : e = x
      · rw [if_pos hex]
        exact hv
      · rw [if_neg hex]
        exact a2

theorem World.Sited.sited_addMigratingAnimalLoop (x : EntityId) (n : Nat) :
    ∀ {w w1 : World} {ok : Bool}, w.Sited → x < w.nextId →
      (∀ r c : Int, Grid.isValid r c = true → w.grid.cells_grid r c ≠ some x) →
      World.addMigratingAnimalLoop x n w = some (w1, ok) → w1.Sited := by
  induction n with
  | zero =>
    intro w w1 ok h _ _ hm
    simp only [World.addMigratingAnimalLoop, pure, Option.some.injEq, Prod.mk.injEq] at hm
    rw [← hm.1]
    exact h
  | succ n ih =>
    intro w w1 ok h hx hfree hm
    unfold World.addMigratingAnimalLoop at hm
    dsimp only at hm
    obtain ⟨emp, hemp, hm⟩ := bind_some_elim hm
    rw [Grid.isEmpty_eq] at hemp
    simp only [Option.some.injEq] at hemp
    rcases ite_some_cond hm with ⟨hc, hm⟩ | ⟨_, hm⟩
    · refine @World.Sited.sited_addEntity _ w1 x ok ?_ ?_ hm
      swap
      · exact hx
      have hvalid : Grid.isValid (getRandomInt w.gen 0 (GRID_HEIGHT - 1)).1
          (getRandomInt (getRandomInt w.gen 0 (GRID_HEIGHT - 1)).2 0 (GRID_WIDTH - 1)).1
            = true := by
        rw [← hemp] at hc
        simp only [Bool.and_eq_true] at hc
        exact hc.1
      refine ⟨fun r c e hv hcell => ?_, fun t e he => ?_⟩
      · have hcell2 : w.grid.cells_grid r c = some e := hcell
        obtain ⟨a1, a2, a3⟩ := h.held r c e hv hcell2
        have hne : e ≠ x := by
          intro hex
          rw [hex] at hcell2
          exact hfree r c hv hcell2
        refine ⟨a1, ?_, ?_⟩
        · simp only [World.modify, if_neg hne]
          exact a2
        · simp only [World.modify, if_neg hne]
          exact a3
      · have he2 : e ∈ w.grid.registry t := he
        obtain ⟨a1, a3, a2⟩ := h.listed t e he2
        refine ⟨a1, ?_, ?_⟩
        · by_cases hex : e = x
          · simp only [World.modify, if_pos hex, if_true, Entity.setR, Entity.setC]
            rw [hex] at a3
            exact a3
          · simp only [World.modify, if_neg hex]
            exact a3
        by_cases hex : e = x
        · simp only [World.modify, if_pos hex, if_true, Entity.setR, Entity.setC]
          exact hvalid
        · simp only [World.modify, if_neg hex]
          exact a2
    · refine @ih _ w1 ok ?_ ?_ ?_ hm
      · exact h.of_frame (Nat.le_refl _) rfl (fun _ _ => ⟨rfl, rfl, rfl⟩)
      · exact hx
      · exact hfree

theorem World.Sited.sited_addMigratingAnimal {w w1 : World} {x : EntityId} {ok : Bool}
    (h : w.Sited) (hx : x < w.nextId)
    (hfree : ∀ r c : Int, Grid.isValid r c = true → w.grid.cells_grid r c ≠ some x)
    (hm : w.addMigratingAnimal x = some (w1, ok)) : w1.Sited := by
  unfold World.addMigratingAnimal at hm
  rcases ite_eq_some_cases hm with hm | hm
  · simp only [pure, Option.some.injEq, Prod.mk.injEq] at hm
    rw [← hm.1]
    exact h
  · exact World.Sited.sited_addMigratingAnimalLoop x _ h hx hfree hm

/-- Every step of the tick engine keeps the cell map and the registries in agreement
with the stored positions. -/
theorem World.Trace.keeps_sited {b : Bool} {w w1 : World} (h : World.Trace b w w1)
    (hs : w.Sited) : w1.Sited := by
  induction h with
  | refl => exact hs
  | same _ hh hn hg ih =>
    exact ih.of_frame (Nat.le_of_eq hn.symm) hg (fun e _ => by rw [hh]; exact ⟨rfl, rfl, rfl⟩)
  | write e _ _ _ ih =>
    exact ih.sited_modify e _ (fun ent => ⟨(Entity.setAnimal_pos ent _).1,
      (Entity.setAnimal_pos ent _).2, Entity.setAnimal_getType ent _⟩)
  | grow e p _ ih =>
    exact ih.sited_modify e _ (fun ent => ⟨(Entity.setPlant_pos ent _).1,
      (Entity.setPlant_pos ent _).2, Entity.setPlant_getType ent _⟩)
  | kill e _ ih => exact ih.sited_modify e _ (fun _ => ⟨rfl, rfl, rfl⟩)
  | spawn ent _ _ hadd ih =>
    exact (ih.sited_alloc ent).sited_addEntity (Nat.lt_succ_self _) hadd
  | immigrate ent _ _ hadd ih =>
    refine (ih.sited_alloc ent).sited_addMigratingAnimal (Nat.lt_succ_self _) ?_ hadd
    intro r c hv hcell
    exact Nat.lt_irrefl _ (ih.held r c _ hv hcell).1
  | remove ent _ hr ih => exact ih.sited_removeEntity hr
  | move ent r c _ hv hh hm ih => exact ih.sited_moveEntity hv hh hm

/-! ## What the steps of the tick engine do to one object -/

theorem Entity.Placed.placed_pos {x y : Entity} (h : Entity.Placed x y)
    (hv : Grid.isValid x.r_coord x.c_coord = true) :
    Grid.isValid y.r_coord y.c_coord = true := by
  cases h with
  | same => exact hv
  | moved => rename_i r c h1; exact h1
  | killed => exact hv

theorem World.addEntity_heap {w w1 : World} {ent : Option EntityId} {ok : Bool}
    (h : w.addEntity ent = some (w1, ok)) : w1.heap = w.heap ∧ w1.nextId = w.nextId := by
  cases ent with
  | none =>
    simp only [World.addEntity, pure, Option.some.injEq, Prod.mk.injEq] at h
    rw [← h.1]
    exact ⟨rfl, rfl⟩
  | some x =>
    rw [World.addEntity_some] at h
    simp only [Option.some.injEq] at h
    split at h
    · simp only [Prod.mk.injEq] at h
      rw [← h.1]
      exact ⟨rfl, rfl⟩
    · simp only [Prod.mk.injEq] at h
      rw [← h.1]
      exact ⟨rfl, rfl⟩

theorem World.removeEntity_placed {w w1 : World} {ent : Option EntityId}
    (h : w.removeEntity ent = some w1) :
    w1.nextId = w.nextId ∧ ∀ e : EntityId, Entity.Placed (w.heap e) (w1.heap e) := by
  cases ent with
  | none =>
    simp only [World.removeEntity, pure, Option.some.injEq] at h
    rw [← h]
    exact ⟨rfl, fun e => Entity.Placed.same _⟩
  | some x =>
    rw [World.removeEntity_some] at h
    simp only [Option.some.injEq] at h
    split at h
    · rw [← h]
      refine ⟨rfl, fun e => ?_⟩
      show Entity.Placed (w.heap e) (if e = x then (w.heap x).kill else w.heap e)
      by_cases he : e = x
      · rw [if_pos he, he]
        exact Entity.Placed.killed _
      · rw [if_neg he]
        exact Entity.Placed.same _
    · rw [← h]
      exact ⟨rfl, fun e => Entity.Placed.same _⟩

theorem World.moveEntity_placed {w w1 : World} {ent : Option EntityId} {r c : Int}
    (hv : Grid.isValid r c = true) (h : w.moveEntity ent r c = some w1) :
    w1.nextId = w.nextId ∧ ∀ e : EntityId, Entity.Placed (w.heap e) (w1.heap e) := by
  cases ent with
  | none =>
    simp only [World.moveEntity, pure, Option.some.injEq] at h
    rw [← h]
    exact ⟨rfl, fun e => Entity.Placed.same _⟩
  | some x =>
    rw [World.moveEntity_some] at h
    simp only [Option.some.injEq] at h
    rw [if_pos hv] at h
    rw [← h]
    refine ⟨rfl, fun e => ?_⟩
    show Entity.Placed (w.heap e)
      (if e = x then ({ w.heap x with r_coord := r, c_coord := c } : Entity) else w.heap e)
    by_cases he : e = x
    · rw [if_pos he, he]
      exact Entity.Placed.moved _ r c hv
    · rw [if_neg he]
      exact Entity.Placed.same _

theorem World.addMigratingAnimalLoop_placed (x : EntityId) (n : Nat) :
    ∀ {w w1 : World} {ok : Bool}, World.addMigratingAnimalLoop x n w = some (w1, ok) →
      w1.nextId = w.nextId ∧ ∀ e : EntityId, Entity.Placed (w.heap e) (w1.heap e) := by
  induction n with
  | zero =>
    intro w w1 ok hm
    simp only [World.addMigratingAnimalLoop, pure, Option.some.injEq, Prod.mk.injEq] at hm
    rw [← hm.1]
    exact ⟨rfl, fun e => Entity.Placed.same _⟩
  | succ n ih =>
    intro w w1 ok hm
    unfold World.addMigratingAnimalLoop at hm
    dsimp only at hm
    obtain ⟨emp, hemp, hm⟩ := bind_some_elim hm
    rw [Grid.isEmpty_eq] at hemp
    simp only [Option.some.injEq] at hemp
    rcases ite_some_cond hm with ⟨hc, hm⟩ | ⟨_, hm⟩
    · have hvalid : Grid.isValid (getRandomInt w.gen 0 (GRID_HEIGHT - 1)).1
          (getRandomInt (getRandomInt w.gen 0 (GRID_HEIGHT - 1)).2 0 (GRID_WIDTH - 1)).1
            = true := by
        rw [← hemp] at hc
        simp only [Bool.and_eq_true] at hc
        exact hc.1
      obtain ⟨hh, hn⟩ := World.addEntity_heap hm
      rw [hh, hn]
      refine ⟨rfl, fun e => ?_⟩
      by_cases hex : e = x
      · simp only [World.modify, if_pos hex, if_true, Entity.setR, Entity.setC]
        rw [hex]
        exact Entity.Placed.moved _ _ _ hvalid
      · simp only [World.modify, if_neg hex]
        exact Entity.Placed.same _
    · have h3 := @ih _ w1 ok hm
      exact h3

theorem World.addMigratingAnimal_placed {w w1 : World} {x : EntityId} {ok : Bool}
    (hm : w.addMigratingAnimal x = some (w1, ok)) :
    w1.nextId = w.nextId ∧ ∀ e : EntityId, Entity.Placed (w.heap e) (w1.heap e) := by
  unfold World.addMigratingAnimal at hm
  rcases ite_eq_some_cases hm with hm | hm
  · simp only [pure, Option.some.injEq, Prod.mk.injEq] at hm
    rw [← hm.1]
    exact ⟨rfl, fun e => Entity.Placed.same _⟩
  · exact World.addMigratingAnimalLoop_placed x _ hm

/-- A property of single objects that every kind of step keeps is kept along a sequence
of steps, and the sequence only allocates. -/
theorem World.Trace.keeps_each {b : Bool} (P : Entity → Prop)
    (hw : ∀ (ent : Entity) (a a1 : AnimalData), P ent → ent.animal = some a →
      Animal.Write b a a1 → P (ent.setAnimal a1))
    (hg : ∀ (ent : Entity) (p : PlantData), P ent → P (ent.setPlant p))
    (hp : ∀ x y : Entity, Entity.Placed x y → P x → P y)
    {w w1 : World} (h : World.Trace b w w1) :
    w.nextId ≤ w1.nextId ∧ ∀ e : Nat, e < w.nextId → P (w.heap e) → P (w1.heap e) := by
  induction h with
  | refl => exact ⟨Nat.le_refl _, fun _ _ h => h⟩
  | same _ hh hn _ ih =>
    refine ⟨by rw [hn]; exact ih.1, fun e he hP => ?_⟩
    rw [hh]
    exact ih.2 e he hP
  | write x htr ha hwr ih =>
    refine ⟨ih.1, fun e he hP => ?_⟩
    rename_i wb a a1
    show P (if e = x then (wb.heap x).setAnimal a1 else wb.heap e)
    by_cases hex : e = x
    · rw [if_pos hex]
      exact hw _ _ _ (ih.2 x (hex ▸ he) (hex ▸ hP)) ha hwr
    · rw [if_neg hex]
      exact ih.2 e he hP
  | grow x p htr ih =>
    refine ⟨ih.1, fun e he hP => ?_⟩
    rename_i wb
    show P (if e = x then (wb.heap x).setPlant p else wb.heap e)
    by_cases hex : e = x
    · rw [if_pos hex]
      exact hg _ _ (ih.2 x (hex ▸ he) (hex ▸ hP))
    · rw [if_neg hex]
      exact ih.2 e he hP
  | kill x htr ih =>
    refine ⟨ih.1, fun e he hP => ?_⟩
    rename_i wb
    show P (if e = x then (wb.heap x).kill else wb.heap e)
    by_cases hex : e = x
    · rw [if_pos hex]
      exact hp _ _ (Entity.Placed.killed _) (ih.2 x (hex ▸ he) (hex ▸ hP))
    · rw [if_neg hex]
      exact ih.2 e he hP
  | spawn ent htr hcon hadd ih =>
    rename_i wb wc ok0
    obtain ⟨hh, hn⟩ := World.addEntity_heap hadd
    refine ⟨?_, fun e he hP => ?_⟩
    · rw [hn]
      exact Nat.le_succ_of_le ih.1
    · rw [hh]
      show P (if e = wb.nextId then ent else wb.heap e)
      rw [if_neg (Nat.ne_of_lt (Nat.lt_of_lt_of_le he ih.1))]
      exact ih.2 e he hP
  | immigrate ent htr hcon hadd ih =>
    rename_i wb wc ok0
    obtain ⟨hn, hpl⟩ := World.addMigratingAnimal_placed hadd
    refine ⟨?_, fun e he hP => ?_⟩
    · rw [hn]
      exact Nat.le_succ_of_le ih.1
    · refine hp _ _ (hpl e) ?_
      show P (if e = wb.nextId then ent else wb.heap e)
      rw [if_neg (Nat.ne_of_lt (Nat.lt_of_lt_of_le he ih.1))]
      exact ih.2 e he hP
  | remove ent _ hr ih =>
    obtain ⟨hn, hpl⟩ := World.removeEntity_placed hr
    exact ⟨by rw [hn]; exact ih.1, fun e he hP => hp _ _ (hpl e) (ih.2 e he hP)⟩
  | move ent r c _ hv _ hm ih =>
    obtain ⟨hn, hpl⟩ := World.moveEntity_placed hv hm
    exact ⟨by rw [hn]; exact ih.1, fun e he hP => hp _ _ (hpl e) (ih.2 e he hP)⟩

/-- A property of single objects that the constructors establish and every kind of step
keeps holds of all objects after a sequence of steps when it held of all before. -/
theorem World.Trace.keeps_all {b : Bool} (P : Entity → Prop)
    (hw : ∀ (ent : Entity) (a a1 : AnimalData), P ent → ent.animal = some a →
      Animal.Write b a a1 → P (ent.setAnimal a1))
    (hg : ∀ (ent : Entity) (p : PlantData), P ent → P (ent.setPlant p))
    (hp : ∀ x y : Entity, Entity.Placed x y → P x → P y)
    (hc : ∀ ent : Entity, ent.Constructed → P ent)
    {w w1 : World} (h : World.Trace b w w1) (hall : ∀ e : Nat, e < w.nextId → P (w.heap e)) :
    ∀ e : Nat, e < w1.nextId → P (w1.heap e) := by
  induction h with
  | refl => exact hall
  | same _ hh hn _ ih =>
    intro e he
    rw [hh]
    exact ih e (hn ▸ he)
  | write x htr ha hwr ih =>
    intro e he
    rename_i wb a a1
    show P (if e = x then (wb.heap x).setAnimal a1 else wb.heap e)
    by_cases hex : e = x
    · rw [if_pos hex]
      exact hw _ _ _ (ih x (hex ▸ he)) ha hwr
    · rw [if_neg hex]
      exact ih e he
  | grow x p htr ih =>
    intro e he
    rename_i wb
    show P (if e = x then (wb.heap x).setPlant p else wb.heap e)
    by_cases hex : e = x
    · rw [if_pos hex]
      exact hg _ _ (ih x (hex ▸ he))
    · rw [if_neg hex]
      exact ih e he
  | kill x htr ih =>
    intro e he
    rename_i wb
    show P (if e = x then (wb.heap x).kill else wb.heap e)
    by_cases hex : e = x
    · rw [if_pos hex]
      exact hp _ _ (Entity.Placed.killed _) (ih x (hex ▸ he))
    · rw [if_neg hex]
      exact ih e he
  | spawn ent htr hcon hadd ih =>
    intro e he
    rename_i wb wc ok0
    obtain ⟨hh, hn⟩ := World.addEntity_heap hadd
    rw [hh]
    show P (if e = wb.nextId then ent else wb.heap e)
    by_cases hex : e = wb.nextId
    · rw [if_pos hex]
      exact hc ent hcon
    · rw [if_neg hex]
      refine ih e ?_
      rw [hn] at he
      exact Nat.lt_of_le_of_ne (Nat.lt_succ_iff.mp he) hex
  | immigrate ent htr hcon hadd ih =>
    intro e he
    rename_i wb wc ok0
    obtain ⟨hn, hpl⟩ := World.addMigratingAnimal_placed hadd
    refine hp _ _ (hpl e) ?_
    show P (if e = wb.nextId then ent else wb.heap e)
    by_cases hex : e = wb.nextId
    · rw [if_pos hex]
      exact hc ent hcon
    · rw [if_neg hex]
      refine ih e ?_
      rw [hn] at he
      exact Nat.lt_of_le_of_ne (Nat.lt_succ_iff.mp he) hex
  | remove ent _ hr ih =>
    intro e he
    obtain ⟨hn, hpl⟩ := World.removeEntity_placed hr
    exact hp _ _ (hpl e) (ih e (hn ▸ he))
  | move ent r c _ hv _ hm ih =>
    intro e he
    obtain ⟨hn, hpl⟩ := World.moveEntity_placed hv hm
    exact hp _ _ (hpl e) (ih e (hn ▸ he))

/-- A property of single objects that the constructors establish and every kind of step
keeps: an object that has it keeps it along a sequence of steps. -/
theorem World.Trace.keeps_one {b : Bool} (P : Entity → Prop)
    (hw : ∀ (ent : Entity) (a a1 : AnimalData), P ent → ent.animal = some a →
      Animal.Write b a a1 → P (ent.setAnimal a1))
    (hg : ∀ (ent : Entity) (p : PlantData), P ent → P (ent.setPlant p))
    (hp : ∀ x y : Entity, Entity.Placed x y → P x → P y)
    (hc : ∀ ent : Entity, ent.Constructed → P ent)
    {w w1 : World} (h : World.Trace b w w1) (e : EntityId) (hall : P (w.heap e)) :
    P (w1.heap e) := by
  induction h with
  | refl => exact hall
  | same _ hh hn _ ih =>
    rw [hh]
    exact ih
  | write x htr ha hwr ih =>
    rename_i wb a a1
    show P (if e = x then (wb.heap x).setAnimal a1 else wb.heap e)
    by_cases hex : e = x
    · rw [if_pos hex]
      exact hw _ _ _ (hex ▸ ih) ha hwr
    · rw [if_neg hex]
      exact ih
  | grow x p htr ih =>
    rename_i wb
    show P (if e = x then (wb.heap x).setPlant p else wb.heap e)
    by_cases hex : e = x
    · rw [if_pos hex]
      exact hg _ _ (hex ▸ ih)
    · rw [if_neg hex]
      exact ih
  | kill x htr ih =>
    rename_i wb
    show P (if e = x then (wb.heap x).kill else wb.heap e)
    by_cases hex : e = x
    · rw [if_pos hex]
      exact hp _ _ (Entity.Placed.killed _) (hex ▸ ih)
    · rw [if_neg hex]
      exact ih
  | spawn ent htr hcon hadd ih =>
    rename_i wb wc ok0
    obtain ⟨hh, hn⟩ := World.addEntity_heap hadd
    rw [hh]
    show P (if e = wb.nextId then ent else wb.heap e)
    by_cases hex : e = wb.nextId
    · rw [if_pos hex]
      exact hc ent hcon
    · rw [if_neg hex]
      exact ih
  | immigrate ent htr hcon hadd ih =>
    rename_i wb wc ok0
    obtain ⟨hn, hpl⟩ := World.addMigratingAnimal_placed hadd
    refine hp _ _ (hpl e) ?_
    show P (if e = wb.nextId then ent else wb.heap e)
    by_cases hex : e = wb.nextId
    · rw [if_pos hex]
      exact hc ent hcon
    · rw [if_neg hex]
      exact ih
  | remove ent _ hr ih =>
    obtain ⟨hn, hpl⟩ := World.removeEntity_placed hr
    exact hp _ _ (hpl e) ih
  | move ent r c _ hv _ hm ih =>
    obtain ⟨hn, hpl⟩ := World.moveEntity_placed hv hm
    exact hp _ _ (hpl e) ih

/-! ## The `move` functions -/

theorem Entity.Placed.placed_kind {x y : Entity} (h : Entity.Placed x y) : y.kind = x.kind := by
  cases h <;> rfl

theorem Entity.animal_of_kind {x y : Entity} (h : y.kind = x.kind) : y.animal = x.animal := by
  unfold Entity.animal
  rw [h]

theorem World.Relocates.to_trace {b : Bool} {self : EntityId} {w w1 : World}
    (h : World.Relocates self w w1) : World.Trace b w w1 := by
  induction h with
  | refl => exact World.Trace.refl _
  | draw gen _ ih => exact ih.trace_then_gen gen
  | pay v _ ha ih => exact World.Trace.write self ih ha (Animal.Write.energy b _ v)
  | move ent r c _ hv hh hm ih => exact World.Trace.move ent r c ih hv hh hm

/-- What `moveEntity` to a valid destination changes outside the cell map: the stored
position of the entity passed. -/
theorem World.moveEntity_valid {w w1 : World} {ent : Option EntityId} {r c : Int}
    (hv : Grid.isValid r c = true) (h : w.moveEntity ent r c = some w1) :
    w1.nextId = w.nextId ∧ w1.stats = w.stats ∧
      w1.grid.plants_list = w.grid.plants_list ∧
      w1.grid.herbivores_list = w.grid.herbivores_list ∧
      w1.grid.carnivores_list = w.grid.carnivores_list ∧
      ∀ e : EntityId, w1.heap e = w.heap e ∨
        w1.heap e = { w.heap e with r_coord := r, c_coord := c } := by
  cases ent with
  | none =>
    simp only [World.moveEntity, pure, Option.some.injEq] at h
    rw [← h]
    exact ⟨rfl, rfl, rfl, rfl, rfl, fun e => Or.inl rfl⟩
  | some x =>
    rw [World.moveEntity_some] at h
    simp only [Option.some.injEq] at h
    rw [if_pos hv] at h
    rw [← h]
    refine ⟨rfl, rfl, ?_, ?_, ?_, fun e => ?_⟩
    · show (Grid.setCell _ _ _ _).plants_list = _
      split <;> rfl
    · show (Grid.setCell _ _ _ _).herbivores_list = _
      split <;> rfl
    · show (Grid.setCell _ _ _ _).carnivores_list = _
      split <;> rfl
    · show (if e = x then ({ w.heap x with r_coord := r, c_coord := c } : Entity)
        else w.heap e) = w.heap e ∨
        (if e = x then ({ w.heap x with r_coord := r, c_coord := c } : Entity)
        else w.heap e) = { w.heap e with r_coord := r, c_coord := c }
      by_cases he : e = x
      · rw [if_pos he, he]
        exact Or.inr rfl
      · rw [if_neg he]
        exact Or.inl rfl

/-- What the steps of a `move` function leave alone: the allocation, the statistics, the
registries, every `isAlive` flag, the validity of every stored position, the members of
every object but the mover, and the pregnancy members and the class of every object. -/
theorem World.Relocates.relocates_facts {self : EntityId} {w w1 : World}
    (h : World.Relocates self w w1) :
    w1.nextId = w.nextId ∧ w1.stats = w.stats ∧
      w1.grid.plants_list = w.grid.plants_list ∧
      w1.grid.herbivores_list = w.grid.herbivores_list ∧
      w1.grid.carnivores_list = w.grid.carnivores_list ∧
      ∀ e : EntityId, (w1.heap e).is_alive = (w.heap e).is_alive ∧
        (Grid.isValid (w.heap e).r_coord (w.heap e).c_coord = true →
          Grid.isValid (w1.heap e).r_coord (w1.heap e).c_coord = true) ∧
        (e ≠ self → (w1.heap e).kind = (w.heap e).kind) ∧
        (w1.heap e).brood = (w.heap e).brood ∧
        (w1.heap e).getType = (w.heap e).getType := by
  induction h with
  | refl => exact ⟨rfl, rfl, rfl, rfl, rfl, fun e => ⟨rfl, fun h => h, fun _ => rfl, rfl, rfl⟩⟩
  | draw gen _ ih => exact ih
  | pay v htr ha ih =>
    rename_i wb a
    obtain ⟨i1, i2, i3, i4, i5, i6⟩ := ih
    refine ⟨i1, i2, i3, i4, i5, fun e => ?_⟩
    obtain ⟨j1, j2, j3, j4, j5⟩ := i6 e
    show (if e = self then (wb.heap self).setAnimal (Animal.setCurrentEnergy a v)
        else wb.heap e).is_alive = _ ∧
      (_ → Grid.isValid
        (if e = self then (wb.heap self).setAnimal (Animal.setCurrentEnergy a v)
          else wb.heap e).r_coord
        (if e = self then (wb.heap self).setAnimal (Animal.setCurrentEnergy a v)
          else wb.heap e).c_coord = true) ∧
      (e ≠ self → (if e = self then (wb.heap self).setAnimal (Animal.setCurrentEnergy a v)
        else wb.heap e).kind = _) ∧
      (if e = self then (wb.heap self).setAnimal (Animal.setCurrentEnergy a v)
        else wb.heap e).brood = _ ∧
      (if e = self then (wb.heap self).setAnimal (Animal.setCurrentEnergy a v)
        else wb.heap e).getType = _
    by_cases he : e = self
    · rw [if_pos he]
      rw [he] at j1 j2 j4 j5 ⊢
      refine ⟨?_, fun hv => ?_, fun hne => absurd rfl hne, ?_, ?_⟩
      · rw [Entity.setAnimal_is_alive]
        exact j1
      · rw [(Entity.setAnimal_pos _ _).1, (Entity.setAnimal_pos _ _).2]
        exact j2 hv
      · rw [Entity.brood_setCurrentEnergy _ ha]
        exact j4
      · rw [Entity.setAnimal_getType]
        exact j5
    · rw [if_neg he]
      exact ⟨j1, j2, j3, j4, j5⟩
  | move ent r c htr hv hh hm ih =>
    obtain ⟨i1, i2, i3, i4, i5, i6⟩ := ih
    obtain ⟨m1, m2, m3, m4, m5, m6⟩ := World.moveEntity_valid hv hm
    refine ⟨by rw [m1, i1], by rw [m2, i2], by rw [m3, i3], by rw [m4, i4], by rw [m5, i5],
      fun e => ?_⟩
    obtain ⟨j1, j2, j3, j4, j5⟩ := i6 e
    rcases m6 e with h6 | h6
    · rw [h6]
      exact ⟨j1, j2, j3, j4, j5⟩
    · rw [h6]
      exact ⟨j1, fun _ => hv, j3, j4, j5⟩

theorem World.moveEntity_total (w : World) (ent : Option EntityId) (r c : Int) :
    ∃ w1, w.moveEntity ent r c = some w1 := by
  obtain ⟨w1, h, _⟩ := World.moveEntity_sameBrood w ent r c
  exact ⟨w1, h⟩

/-- A step of `move`: `moveEntity`, to a valid destination, of whatever the own cell
holds, then the energy cost. -/
theorem Animal.step_relocates {w w0 : World} {self : EntityId}
    (hrel : World.Relocates self w w0) {a : AnimalData}
    (ha : (w0.heap self).animal = some a) {ent : Option EntityId} {r0 c0 : Int}
    (hent : w0.grid.getEntity r0 c0 = some ent) (r c : Int)
    (hv : Grid.isValid r c = true) :
    ∃ w1, (w0.moveEntity ent r c).bind (fun w2 => Animal.payMove w2 self) = some w1 ∧
      World.Relocates self w w1 := by
  obtain ⟨w2, h2⟩ := World.moveEntity_total w0 ent r c
  have hrel2 := World.Relocates.move ent r c hrel hv (Grid.getEntity_held hent) h2
  have hk := ((World.moveEntity_placed hv h2).2 self).placed_kind
  have ha2 : (w2.heap self).animal = some a := by
    rw [Entity.animal_of_kind hk]
    exact ha
  rw [h2]
  simp only [Option.some_bind]
  unfold Animal.payMove
  rw [ha2]
  exact ⟨_, rfl, World.Relocates.pay _ hrel2 ha2⟩

/-- The random branch of both `move` functions never faults and moves to an adjacent
empty cell, which is valid. -/
theorem Animal.moveRandom_relocates (w : World) (self : EntityId) (a : AnimalData)
    (ha : (w.heap self).animal = some a) :
    ∃ w1, Animal.moveRandom w self = some w1 ∧ World.Relocates self w w1 := by
  unfold Animal.moveRandom
  simp only [Entity.getR, Entity.getC, Grid.getAdjacentEmptyCells_eq, Option.bind_eq_bind,
    Option.some_bind]
  split
  · next hne =>
    have hne1 : (List.filter (fun p => Grid.isValid p.1 p.2 && (w.grid.cells_grid p.1 p.2 == none))
        (List.map (fun d : Int × Int => ((w.heap self).r_coord + d.1, (w.heap self).c_coord + d.2))
          [(-1, -1), (-1, 0), (-1, 1), (0, -1), (0, 1), (1, -1), (1, 0), (1, 1)])) ≠ [] := by
      intro h0
      rw [h0] at hne
      exact absurd hne (by decide)
    rw [List.getElem?_eq_getElem (birthIdx_lt w.gen _ hne1)]
    simp only [Option.some_bind]
    have hmem := List.getElem_mem (birthIdx_lt w.gen _ hne1)
    rw [List.mem_filter] at hmem
    have hvalid := hmem.2
    simp only [Bool.and_eq_true] at hvalid
    obtain ⟨ent, hent⟩ : ∃ ent, ({ w with gen := (if (List.filter (fun p => Grid.isValid p.1 p.2 && (w.grid.cells_grid p.1 p.2 == none))
        (List.map (fun d : Int × Int => ((w.heap self).r_coord + d.1, (w.heap self).c_coord + d.2))
          [(-1, -1), (-1, 0), (-1, 1), (0, -1), (0, 1), (1, -1), (1, 0), (1, 1)])).length > 1 then
            getRandomInt w.gen 0 (((List.filter (fun p => Grid.isValid p.1 p.2 && (w.grid.cells_grid p.1 p.2 == none))
        (List.map (fun d : Int × Int => ((w.heap self).r_coord + d.1, (w.heap self).c_coord + d.2))
          [(-1, -1), (-1, 0), (-1, 1), (0, -1), (0, 1), (1, -1), (1, 0), (1, 1)])).length : Int) - 1)
          else (0, w.gen)).2 } : World).grid.getEntity (w.heap self).r_coord (w.heap self).c_coord
            = some ent := ⟨_, Grid.getEntity_eq _ _ _⟩
    rw [hent]
    simp only [Option.some_bind]
    refine @Animal.step_relocates w _ self ?_ a ?_ ent _ _ hent _ _ hvalid.1
    · exact World.Relocates.draw _ (World.Relocates.refl w)
    · exact ha
  · exact ⟨w, rfl, World.Relocates.refl w⟩

theorem Animal.canStepOnto_valid {w : World} {nr nc : Int} {t : EntityType}
    (h : Animal.canStepOnto w nr nc t = some true) : Grid.isValid nr nc = true := by
  unfold Animal.canStepOnto at h
  by_cases hv : Grid.isValid nr nc = true
  · exact hv
  · rw [if_neg hv] at h
    simp at h

/-- `Herbivore::move` never faults; it ends in `die` when the energy test fails, and
otherwise every `moveEntity` of its flee, forage and random branches is passed a valid
destination. -/
theorem Herbivore.herbivore_relocates (w : World) (self : EntityId) (season : Season)
    (a : AnimalData) (ha : (w.heap self).animal = some a) :
    ∃ w1, Herbivore.move w self season = some w1 ∧
      (((w.heap self).is_alive = true ∧ a.currentEnergy ≤ 0 ∧ w1 = Animal.die w self false) ∨
        World.Relocates self w w1) := by
  unfold Herbivore.move
  split
  · exact ⟨w, rfl, Or.inr (World.Relocates.refl w)⟩
  · next hal =>
    rw [ha]
    simp only [Option.bind_eq_bind, Option.some_bind]
    split
    · next he => exact ⟨_, rfl, Or.inl ⟨Entity.not_isAlive_false hal, he, rfl⟩⟩
    · rw [World.findNearbyEntities_eq]
      simp only [Option.some_bind]
      generalize (scanOffsets (a.sightRange + (if season = .SUMMER then 1 else 0)
          - (if season = .WINTER then 1 else 0))).filterMap
            (nearbyAt w (w.heap self).getR (w.heap self).getC .CARNIVORE) = cs
      obtain ⟨best, hbest⟩ := Herbivore.fleeChoice_some w self cs
      rw [hbest]
      simp only [Option.some_bind]
      split
      · next hc =>
        have hne : cs ≠ [] := by
          intro h0
          rw [h0] at hc
          exact absurd hc.1 (by decide)
        have hvb : Grid.isValid best.1 best.2 = true := by
          unfold Herbivore.fleeChoice at hbest
          rw [if_pos hc.1] at hbest
          obtain ⟨t, ht, hcase⟩ := Herbivore.fleeTarget_spec w self cs hne
          rw [ht] at hbest
          simp only [Option.some.injEq] at hbest
          rcases hcase with ⟨h1, _⟩ | ⟨_, h2, _⟩
          · exfalso
            rw [← hbest, h1] at hc
            exact hc.2.elim (fun h => h rfl) (fun h => h rfl)
          · rw [← hbest]
            exact h2
        rw [Grid.getEntity_eq]
        simp only [Option.some_bind]
        obtain ⟨w1, h1, hr⟩ := @Animal.step_relocates w w self (World.Relocates.refl w) a ha _
          (w.heap self).getR (w.heap self).getC (Grid.getEntity_eq w.grid _ _) best.1 best.2 hvb
        exact ⟨w1, h1, Or.inr hr⟩
      · obtain ⟨plants, hplants⟩ := Animal.nearbyIf_some w self
          (decide (a.currentEnergy * 100 < a.maximumEnergy * 90)) .PLANT a.sightRange
        rw [hplants]
        simp only [Option.some_bind]
        cases hcl : Animal.closestOf w self plants with
        | none =>
          obtain ⟨w1, h1, hr⟩ := Animal.moveRandom_relocates w self a ha
          exact ⟨w1, h1, Or.inr hr⟩
        | some closest =>
          dsimp only
          obtain ⟨b, hb⟩ := Animal.canStepOnto_some w
            ((w.heap self).getR + Animal.stepToward (w.heap closest).getR (w.heap self).getR)
            ((w.heap self).getC + Animal.stepToward (w.heap closest).getC (w.heap self).getC)
            .PLANT
          rw [hb]
          simp only [Option.some_bind]
          split
          · next hb1 =>
            rw [hb1] at hb
            rw [Grid.getEntity_eq]
            simp only [Option.some_bind]
            obtain ⟨w1, h1, hr⟩ := @Animal.step_relocates w w self (World.Relocates.refl w) a ha
              _ (w.heap self).getR (w.heap self).getC (Grid.getEntity_eq w.grid _ _) _ _
              (Animal.canStepOnto_valid hb)
            exact ⟨w1, h1, Or.inr hr⟩
          · obtain ⟨w1, h1, hr⟩ := Animal.moveRandom_relocates w self a ha
            exact ⟨w1, h1, Or.inr hr⟩

/-- `Carnivore::move` never faults; it ends in `die` when the energy test fails, and
otherwise every `moveEntity` of its chase and random branches is passed a valid
destination. -/
theorem Carnivore.carnivore_relocates (w : World) (self : EntityId) (season : Season)
    (a : AnimalData) (ha : (w.heap self).animal = some a) :
    ∃ w1, Carnivore.move w self season = some w1 ∧
      (((w.heap self).is_alive = true ∧ a.currentEnergy ≤ 0 ∧ w1 = Animal.die w self false) ∨
        World.Relocates self w w1) := by
  unfold Carnivore.move
  split
  · exact ⟨w, rfl, Or.inr (World.Relocates.refl w)⟩
  · next hal =>
    rw [ha]
    simp only [Option.bind_eq_bind, Option.some_bind]
    split
    · next he => exact ⟨_, rfl, Or.inl ⟨Entity.not_isAlive_false hal, he, rfl⟩⟩
    · obtain ⟨herbs, hherbs⟩ := Animal.nearbyIf_some w self
        (decide (a.currentEnergy * 100 < a.maximumEnergy * 85)) .HERBIVORE a.sightRange
      rw [hherbs]
      simp only [Option.some_bind]
      cases hcl : Animal.closestOf w self herbs with
      | none =>
        obtain ⟨w1, h1, hr⟩ := Animal.moveRandom_relocates w self a ha
        exact ⟨w1, h1, Or.inr hr⟩
      | some closest =>
        dsimp only
        obtain ⟨b, hb⟩ := Animal.canStepOnto_some w
          ((w.heap self).getR + Animal.stepToward (w.heap closest).getR (w.heap self).getR)
          ((w.heap self).getC + Animal.stepToward (w.heap closest).getC (w.heap self).getC)
          .HERBIVORE
        rw [hb]
        simp only [Option.some_bind]
        split
        · next hb1 =>
          rw [hb1] at hb
          rw [Grid.getEntity_eq]
          simp only [Option.some_bind]
          obtain ⟨w1, h1, hr⟩ := @Animal.step_relocates w w self (World.Relocates.refl w) a ha
            _ (w.heap self).getR (w.heap self).getC (Grid.getEntity_eq w.grid _ _) _ _
            (Animal.canStepOnto_valid hb)
          exact ⟨w1, h1, Or.inr hr⟩
        · obtain ⟨w1, h1, hr⟩ := Animal.moveRandom_relocates w self a ha
          exact ⟨w1, h1, Or.inr hr⟩

/-- The `move` of an animal, by virtual dispatch. -/
theorem Animal.animal_relocates (w : World) (self : EntityId) (season : Season)
    (a : AnimalData) (ha : (w.heap self).animal = some a) :
    ∃ w1, Animal.move w self season = some w1 ∧
      (((w.heap self).is_alive = true ∧ a.currentEnergy ≤ 0 ∧ w1 = Animal.die w self false) ∨
        World.Relocates self w w1) := by
  unfold Animal.move
  split
  · exact Herbivore.herbivore_relocates w self season a ha
  · exact Carnivore.carnivore_relocates w self season a ha
  · next p hk =>
    unfold Entity.animal at ha
    rw [hk] at ha
    exact absurd ha (by simp)

theorem Animal.animal_move_trace {b : Bool} {w w1 : World} {self : EntityId}
    {season : Season} (h : Animal.move w self season = some w1) : World.Trace b w w1 := by
  cases ha : (w.heap self).animal with
  | none =>
    unfold Animal.move at h
    unfold Entity.animal at ha
    split at h
    · next x hk => rw [hk] at ha; exact absurd ha (by simp)
    · next x hk => rw [hk] at ha; exact absurd ha (by simp)
    · exact absurd h (by simp)
  | some a =>
    obtain ⟨w2, h2, hr⟩ := Animal.animal_relocates w self season a ha
    rw [h] at h2
    simp only [Option.some.injEq] at h2
    rw [h2]
    rcases hr with ⟨_, _, hd⟩ | hr
    · rw [hd]
      exact Animal.die_trace b w self false
    · exact hr.to_trace

/-! ## The member functions as sequences of steps -/

theorem Herbivore.herbivore_attemptEatScan_trace {b : Bool} (self : EntityId)
    (offs : List (Int × Int)) :
    ∀ {w w1 : World} {ok : Bool}, Herbivore.attemptEatScan self offs w = some (w1, ok) → World.Trace b w w1 := by
  induction offs with
  | nil =>
    intro w w1 ok h
    simp only [Herbivore.attemptEatScan, pure, Option.some.injEq, Prod.mk.injEq] at h
    rw [← h.1]; exact World.Trace.refl w
  | cons d rest ih =>
    intro w w1 ok h
    obtain ⟨dr, dc⟩ := d
    unfold Herbivore.attemptEatScan at h
    dsimp only at h
    rcases ite_eq_some_cases h with h | h
    · obtain ⟨target, _, h⟩ := bind_some_elim h
      cases target with
      | none => exact ih h
      | some plantEntity =>
        dsimp only at h
        rcases ite_eq_some_cases h with h | h
        · obtain ⟨a, ha, h⟩ := bind_some_elim h
          obtain ⟨w5, h5, h⟩ := bind_some_elim h
          simp only [pure, Option.some.injEq, Prod.mk.injEq] at h
          rw [← h.1]
          refine World.Trace.trace_chain ?_ (World.removeEntity_trace b h5)
          refine World.Trace.trace_then_event ?_ _
          refine World.Trace.trace_then_stats ?_ _
          refine World.Trace.kill _ ?_
          exact World.Trace.write self (World.Trace.refl w) ha (Animal.Write.energy b _ _)
        · exact ih h
    · exact ih h

theorem Herbivore.herbivore_attemptEat_trace {b : Bool} {w w1 : World} {self : EntityId}
    {season : Season} {ok : Bool} (h : Herbivore.attemptEat w self season = some (w1, ok)) :
    World.Trace b w w1 := by
  unfold Herbivore.attemptEat at h
  obtain ⟨a, _, h⟩ := bind_some_elim h
  rcases ite_some_cond h with ⟨_, h⟩ | ⟨hc, h⟩
  · simp only [pure, Option.some.injEq, Prod.mk.injEq] at h
    rw [← h.1]; exact World.Trace.refl w
  · exact Herbivore.herbivore_attemptEatScan_trace self _ h

theorem Carnivore.carnivore_attemptEatScan_trace {b : Bool} (self : EntityId)
    (offs : List (Int × Int)) :
    ∀ {w w1 : World} {ok : Bool}, Carnivore.attemptEatScan self offs w = some (w1, ok) → World.Trace b w w1 := by
  induction offs with
  | nil =>
    intro w w1 ok h
    simp only [Carnivore.attemptEatScan, pure, Option.some.injEq, Prod.mk.injEq] at h
    rw [← h.1]; exact World.Trace.refl w
  | cons d rest ih =>
    intro w w1 ok h
    obtain ⟨dr, dc⟩ := d
    unfold Carnivore.attemptEatScan at h
    dsimp only at h
    rcases ite_eq_some_cases h with h | h
    · obtain ⟨target, _, h⟩ := bind_some_elim h
      cases target with
      | none => exact ih h
      | some t =>
        dsimp only at h
        rcases ite_eq_some_cases h with h | h
        · obtain ⟨a, ha, h⟩ := bind_some_elim h
          obtain ⟨w5, h5, h⟩ := bind_some_elim h
          simp only [pure, Option.some.injEq, Prod.mk.injEq] at h
          rw [← h.1]
          refine World.Trace.trace_chain ?_ (World.removeEntity_trace b h5)
          refine World.Trace.trace_then_event ?_ _
          refine World.Trace.trace_then_stats ?_ _
          refine World.Trace.trace_then_die ?_ _ _
          exact World.Trace.write self (World.Trace.refl w) ha (Animal.Write.energy b _ _)
        · exact ih h
    · exact ih h

theorem Carnivore.carnivore_attemptEat_trace {b : Bool} {w w1 : World} {self : EntityId}
    {season : Season} {ok : Bool} (h : Carnivore.attemptEat w self season = some (w1, ok)) :
    World.Trace b w w1 := by
  unfold Carnivore.attemptEat at h
  obtain ⟨a, _, h⟩ := bind_some_elim h
  rcases ite_some_cond h with ⟨_, h⟩ | ⟨hc, h⟩
  · simp only [pure, Option.some.injEq, Prod.mk.injEq] at h
    rw [← h.1]; exact World.Trace.refl w
  · exact Carnivore.carnivore_attemptEatScan_trace self _ h

theorem Animal.animal_attemptEat_trace {b : Bool} {w w1 : World} {self : EntityId}
    {season : Season} {ok : Bool} (h : Animal.attemptEat w self season = some (w1, ok)) :
    World.Trace b w w1 := by
  unfold Animal.attemptEat at h
  split at h
  · exact Herbivore.herbivore_attemptEat_trace h
  · exact Carnivore.carnivore_attemptEat_trace h
  · exact absurd h (by simp)

theorem Animal.resetMeals_trace {b : Bool} {w wm w1 : World} {self : EntityId} {ate : Bool}
    (hev : World.Trace b w wm)
    (h : Animal.resetMeals wm self ate = some w1) : World.Trace b w w1 := by
  unfold Animal.resetMeals at h
  rcases ite_eq_some_cases h with h | h
  · obtain ⟨a, ha, h⟩ := bind_some_elim h
    simp only [pure, Option.some.injEq] at h
    rw [← h]
    exact World.Trace.write self hev ha (Animal.Write.meals b _)
  · simp only [pure, Option.some.injEq] at h
    rw [← h]; exact hev

theorem Herbivore.herbivore_mateLoop_trace {b : Bool} (self : EntityId) (mates : List EntityId) :
    ∀ {w w1 : World},
      (∀ a, (w.heap self).animal = some a → Animal.canReproduceInternal a = true) →
      Herbivore.mateLoop self mates w = some w1 → World.Trace b w w1 := by
  induction mates with
  | nil =>
    intro w w1 _ h
    simp only [Herbivore.mateLoop, pure, Option.some.injEq] at h
    rw [← h]; exact World.Trace.refl w
  | cons mate rest ih =>
    intro w w1 hcan h
    unfold Herbivore.mateLoop at h
    by_cases h1 : (!(w.heap mate).isAlive || mate == self) = true
    · rw [if_pos h1] at h; exact ih hcan h
    · rw [if_neg h1] at h
      have hmal : (w.heap mate).is_alive = true := by
        simp only [Bool.or_eq_true, not_or] at h1
        exact Entity.not_isAlive_false h1.1
      by_cases h2 : (w.heap mate).getType ≠ .HERBIVORE ∨ (w.heap mate).getGender ≠ .MALE
      · rw [if_pos h2] at h; exact ih hcan h
      · rw [if_neg h2] at h
        obtain ⟨m, _, h⟩ := bind_some_elim h
        split at h
        · obtain ⟨a, ha, h⟩ := bind_some_elim h
          obtain ⟨a1, ha1, h⟩ := bind_some_elim h
          obtain ⟨m1, hm1, h⟩ := bind_some_elim h
          simp only [pure, Option.some.injEq] at h
          rw [← h]
          refine World.Trace.trace_then_event ?_ _
          have e2 : World.Trace b w
              ((w.modify self (fun e => e.setAnimal { a with currentlyPregnant := true })).modify
                self (fun e => e.setAnimal (Animal.setCurrentEnergy a1
                  (a1.currentEnergy - Int.tdiv a1.energyRequiredToReproduce 2)))) := by
            refine World.Trace.write self ?_ ha1 (Animal.Write.energy b _ _)
            exact World.Trace.write self (World.Trace.refl w) ha
              (Animal.Write.conceive b _ (hcan a ha))
          split
          · exact World.Trace.write mate e2 hm1 (Animal.Write.energy b _ _)
          · exact e2
        · exact ih hcan h

theorem Herbivore.herbivore_attemptReproduce_trace {b : Bool} {w w1 : World} {self : EntityId}
    {mates : List EntityId} {season : Season}
    (h : Herbivore.attemptReproduce w self mates season = some w1) :
    World.Trace b w w1 := by
  unfold Herbivore.attemptReproduce at h
  obtain ⟨a, ha, h⟩ := bind_some_elim h
  rcases ite_some_cond h with ⟨_, h⟩ | ⟨hc, h⟩
  · simp only [pure, Option.some.injEq] at h; rw [← h]; exact World.Trace.refl w
  · dsimp only at h
    rcases ite_eq_some_cases h with h | h
    · simp only [pure, Option.some.injEq] at h; rw [← h]
      exact World.Trace.trace_of_same rfl rfl rfl
    · refine World.Trace.trace_chain ?_ (Herbivore.herbivore_mateLoop_trace self mates ?_ h)
      · exact World.Trace.trace_of_same rfl rfl rfl
      · intro a1 ha1
        have ha2 : (w.heap self).animal = some a1 := ha1
        rw [ha] at ha2
        simp only [Option.some.injEq] at ha2
        rw [← ha2]
        simp only [Bool.or_eq_true, not_or, Bool.not_eq_true', Bool.not_eq_false] at hc
        exact hc.2

theorem Carnivore.carnivore_mateLoop_trace {b : Bool} (self : EntityId) (mates : List EntityId) :
    ∀ {w w1 : World},
      (∀ a, (w.heap self).animal = some a → Animal.canReproduceInternal a = true) →
      Carnivore.mateLoop self mates w = some w1 → World.Trace b w w1 := by
  induction mates with
  | nil =>
    intro w w1 _ h
    simp only [Carnivore.mateLoop, pure, Option.some.injEq] at h
    rw [← h]; exact World.Trace.refl w
  | cons mate rest ih =>
    intro w w1 hcan h
    unfold Carnivore.mateLoop at h
    by_cases h1 : (!(w.heap mate).isAlive || mate == self) = true
    · rw [if_pos h1] at h; exact ih hcan h
    · rw [if_neg h1] at h
      have hmal : (w.heap mate).is_alive = true := by
        simp only [Bool.or_eq_true, not_or] at h1
        exact Entity.not_isAlive_false h1.1
      by_cases h2 : (w.heap mate).getType ≠ .CARNIVORE ∨ (w.heap mate).getGender ≠ .MALE
      · rw [if_pos h2] at h; exact ih hcan h
      · rw [if_neg h2] at h
        obtain ⟨m, _, h⟩ := bind_some_elim h
        split at h
        · obtain ⟨a, ha, h⟩ := bind_some_elim h
          obtain ⟨a1, ha1, h⟩ := bind_some_elim h
          obtain ⟨m1, hm1, h⟩ := bind_some_elim h
          simp only [pure, Option.some.injEq] at h
          rw [← h]
          refine World.Trace.trace_then_event ?_ _
          have e2 : World.Trace b w
              ((w.modify self (fun e => e.setAnimal { a with currentlyPregnant := true })).modify
                self (fun e => e.setAnimal (Animal.setCurrentEnergy a1
                  (a1.currentEnergy - Int.tdiv a1.energyRequiredToReproduce 2)))) := by
            refine World.Trace.write self ?_ ha1 (Animal.Write.energy b _ _)
            exact World.Trace.write self (World.Trace.refl w) ha
              (Animal.Write.conceive b _ (hcan a ha))
          split
          · exact World.Trace.write mate e2 hm1 (Animal.Write.energy b _ _)
          · exact e2
        · exact ih hcan h

theorem Carnivore.carnivore_attemptReproduce_trace {b : Bool} {w w1 : World} {self : EntityId}
    {mates : List EntityId} {season : Season}
    (h : Carnivore.attemptReproduce w self mates season = some w1) :
    World.Trace b w w1 := by
  unfold Carnivore.attemptReproduce at h
  obtain ⟨a, ha, h⟩ := bind_some_elim h
  rcases ite_some_cond h with ⟨_, h⟩ | ⟨hc, h⟩
  · simp only [pure, Option.some.injEq] at h; rw [← h]; exact World.Trace.refl w
  · dsimp only at h
    rcases ite_eq_some_cases h with h | h
    · simp only [pure, Option.some.injEq] at h; rw [← h]
      exact World.Trace.trace_of_same rfl rfl rfl
    · refine World.Trace.trace_chain ?_ (Carnivore.carnivore_mateLoop_trace self mates ?_ h)
      · exact World.Trace.trace_of_same rfl rfl rfl
      · intro a1 ha1
        have ha2 : (w.heap self).animal = some a1 := ha1
        rw [ha] at ha2
        simp only [Option.some.injEq] at ha2
        rw [← ha2]
        simp only [Bool.or_eq_true, not_or, Bool.not_eq_true', Bool.not_eq_false] at hc
        exact hc.2

theorem Animal.animal_attemptReproduce_trace {b : Bool} {w w1 : World} {self : EntityId}
    {mates : List EntityId} {season : Season}
    (h : Animal.attemptReproduce w self mates season = some w1) :
    World.Trace b w w1 := by
  unfold Animal.attemptReproduce at h
  split at h
  · exact Herbivore.herbivore_attemptReproduce_trace h
  · exact Carnivore.carnivore_attemptReproduce_trace h
  · exact absurd h (by simp)

theorem Animal.matePhase_trace {b : Bool} {w w1 : World} {self : EntityId} {season : Season}
    (h : Animal.matePhase w self season = some w1) : World.Trace b w w1 := by
  unfold Animal.matePhase at h
  obtain ⟨a, _, h⟩ := bind_some_elim h
  rcases ite_eq_some_cases h with h | h
  · dsimp only at h
    rcases ite_eq_some_cases h with h | h
    · exact Animal.animal_attemptReproduce_trace h
    · simp only [pure, Option.some.injEq] at h; rw [← h]; exact World.Trace.refl w
  · simp only [pure, Option.some.injEq] at h; rw [← h]; exact World.Trace.refl w

theorem Herbivore.herbivore_birthLoop_trace {b : Bool} (n : Nat) :
    ∀ {locs : List (Int × Int)} {w w1 : World}, Herbivore.birthLoop n locs w = some w1 →
      World.Trace b w w1 := by
  induction n with
  | zero =>
    intro locs w w1 h
    simp only [Herbivore.birthLoop, pure, Option.some.injEq] at h
    rw [← h]; exact World.Trace.refl w
  | succ n ih =>
    intro locs w w1 h
    unfold Herbivore.birthLoop at h
    rcases ite_eq_some_cases h with h | h
    · simp only [pure, Option.some.injEq] at h
      rw [← h]; exact World.Trace.refl w
    · dsimp only at h
      obtain ⟨pos, _, h⟩ := bind_some_elim h
      obtain ⟨r, hadd, h⟩ := bind_some_elim h
      obtain ⟨w2, added⟩ := r
      dsimp only at h
      refine World.Trace.trace_chain ?_ (ih h)
      have e2 : World.Trace b w w2 := by
        refine World.Trace.trace_chain ?_
          (World.Trace.spawn _ (World.Trace.refl _) (Entity.Constructed.herbivore _ _ _ _) hadd)
        exact World.Trace.trace_of_same rfl rfl rfl
      split
      · exact (e2.trace_then_stats _).trace_then_event _
      · exact e2

theorem Herbivore.herbivore_giveBirth_trace {b : Bool} {w w1 : World} {self : EntityId}
    (h : Herbivore.giveBirth w self = some w1) : World.Trace b w w1 := by
  unfold Herbivore.giveBirth at h
  rcases ite_eq_some_cases h with h | h
  · simp only [pure, Option.some.injEq] at h
    rw [← h]; exact World.Trace.refl w
  · obtain ⟨locs, _, h⟩ := bind_some_elim h
    rcases ite_eq_some_cases h with h | h
    · simp only [pure, Option.some.injEq] at h
      rw [← h]; exact World.Trace.refl w
    · dsimp only at h
      refine World.Trace.trace_chain ?_ (Herbivore.herbivore_birthLoop_trace _ h)
      exact World.Trace.trace_of_same rfl rfl rfl

theorem Carnivore.carnivore_birthLoop_trace {b : Bool} (n : Nat) :
    ∀ {locs : List (Int × Int)} {w w1 : World}, Carnivore.birthLoop n locs w = some w1 →
      World.Trace b w w1 := by
  induction n with
  | zero =>
    intro locs w w1 h
    simp only [Carnivore.birthLoop, pure, Option.some.injEq] at h
    rw [← h]; exact World.Trace.refl w
  | succ n ih =>
    intro locs w w1 h
    unfold Carnivore.birthLoop at h
    rcases ite_eq_some_cases h with h | h
    · simp only [pure, Option.some.injEq] at h
      rw [← h]; exact World.Trace.refl w
    · dsimp only at h
      obtain ⟨pos, _, h⟩ := bind_some_elim h
      obtain ⟨r, hadd, h⟩ := bind_some_elim h
      obtain ⟨w2, added⟩ := r
      dsimp only at h
      refine World.Trace.trace_chain ?_ (ih h)
      have e2 : World.Trace b w w2 := by
        refine World.Trace.trace_chain ?_
          (World.Trace.spawn _ (World.Trace.refl _) (Entity.Constructed.carnivore _ _ _ _) hadd)
        exact World.Trace.trace_of_same rfl rfl rfl
      split
      · exact (e2.trace_then_stats _).trace_then_event _
      · exact e2

theorem Carnivore.carnivore_giveBirth_trace {b : Bool} {w w1 : World} {self : EntityId}
    (h : Carnivore.giveBirth w self = some w1) : World.Trace b w w1 := by
  unfold Carnivore.giveBirth at h
  rcases ite_eq_some_cases h with h | h
  · simp only [pure, Option.some.injEq] at h
    rw [← h]; exact World.Trace.refl w
  · obtain ⟨locs, _, h⟩ := bind_some_elim h
    rcases ite_eq_some_cases h with h | h
    · simp only [pure, Option.some.injEq] at h
      rw [← h]; exact World.Trace.refl w
    · dsimp only at h
      refine World.Trace.trace_chain ?_ (Carnivore.carnivore_birthLoop_trace _ h)
      exact World.Trace.trace_of_same rfl rfl rfl

theorem Animal.animal_giveBirth_trace {b : Bool} {w w1 : World} {self : EntityId}
    (h : Animal.giveBirth w self = some w1) : World.Trace b w w1 := by
  unfold Animal.giveBirth at h
  split at h
  · exact Herbivore.herbivore_giveBirth_trace h
  · exact Carnivore.carnivore_giveBirth_trace h
  · exact absurd h (by simp)

theorem Animal.birthPhase_trace {b : Bool} {w w1 : World} {self : EntityId}
    (h : Animal.birthPhase w self = some w1) :
    World.Trace b w w1 := by
  unfold Animal.birthPhase at h
  obtain ⟨a, _, h⟩ := bind_some_elim h
  rcases ite_eq_some_cases h with h | h
  · obtain ⟨w2, h2, h⟩ := bind_some_elim h
    obtain ⟨a1, ha1, h⟩ := bind_some_elim h
    dsimp only at h
    have e2 : World.Trace b _ _ := Animal.animal_giveBirth_trace h2
    rcases some_ite_cond h with ⟨_, rfl⟩ | ⟨hc, rfl⟩
    · exact (World.Trace.write self e2 ha1 (Animal.Write.born b _)).trace_then_die _ _
    · exact World.Trace.write self e2 ha1 (Animal.Write.born b _)
  · simp only [pure, Option.some.injEq] at h
    rw [← h]; exact World.Trace.refl w

theorem Plant.spawn_trace {b : Bool} {w w1 : World} {r c : Int}
    (h : Plant.spawn w r c = some w1) : World.Trace b w w1 := by
  unfold Plant.spawn at h
  dsimp only at h
  obtain ⟨res, hadd, h⟩ := bind_some_elim h
  obtain ⟨w2, added⟩ := res
  dsimp only at h
  have e2 : World.Trace b w w2 :=
    World.Trace.spawn _ (World.Trace.refl _) (Entity.Constructed.plant _ _) hadd
  rcases ite_eq_some_cases h with h | h
  · simp only [pure, Option.some.injEq] at h
    rw [← h]; exact e2.trace_then_stats _
  · simp only [pure, Option.some.injEq] at h
    rw [← h]; exact e2

theorem Plant.bloomOnce_trace {b : Bool} {w w1 : World} {chance : Int}
    (h : Plant.bloomOnce w chance = some w1) : World.Trace b w w1 := by
  unfold Plant.bloomOnce at h
  dsimp only at h
  rcases ite_eq_some_cases h with h | h
  · obtain ⟨res, _, h⟩ := bind_some_elim h
    obtain ⟨pos, gen2⟩ := res
    dsimp only at h
    obtain ⟨e, _, h⟩ := bind_some_elim h
    rcases ite_eq_some_cases h with h | h
    · refine World.Trace.trace_chain ?_ (Plant.spawn_trace h)
      exact World.Trace.trace_of_same rfl rfl rfl
    · simp only [pure, Option.some.injEq] at h
      rw [← h]; exact World.Trace.trace_of_same rfl rfl rfl
  · simp only [pure, Option.some.injEq] at h
    rw [← h]; exact World.Trace.trace_of_same rfl rfl rfl

theorem Plant.spread_trace {b : Bool} {w w1 : World} {self : EntityId} {chance : Int}
    (h : Plant.spread w self chance = some w1) : World.Trace b w w1 := by
  unfold Plant.spread at h
  dsimp only at h
  rcases ite_eq_some_cases h with h | h
  · obtain ⟨cells, _, h⟩ := bind_some_elim h
    rcases ite_eq_some_cases h with h | h
    · simp only [pure, Option.some.injEq] at h
      rw [← h]; exact World.Trace.trace_of_same rfl rfl rfl
    · rcases ite_eq_some_cases h with h | h
      · obtain ⟨cell, _, h⟩ := bind_some_elim h
        refine World.Trace.trace_chain ?_ (Plant.spawn_trace h)
        exact World.Trace.trace_of_same rfl rfl rfl
      · simp only [pure, Option.some.injEq] at h
        rw [← h]; exact World.Trace.trace_of_same rfl rfl rfl
  · simp only [pure, Option.some.injEq] at h
    rw [← h]; exact World.Trace.trace_of_same rfl rfl rfl

theorem Plant.spreadAndBloom_trace {b : Bool} {w w1 : World} {self : EntityId}
    {p : PlantData} {season : Season} (h : Plant.spreadAndBloom w self p season = some w1) :
    World.Trace b w w1 := by
  unfold Plant.spreadAndBloom at h
  dsimp only at h
  obtain ⟨w2, h2, h⟩ := bind_some_elim h
  have s2 : World.Trace b _ _ := Plant.spread_trace h2
  rcases ite_eq_some_cases h with h | h
  · obtain ⟨w3, h3, h⟩ := bind_some_elim h
    exact (s2.trace_chain (Plant.bloomOnce_trace h3)).trace_chain (Plant.bloomOnce_trace h)
  · simp only [pure, Option.some.injEq] at h
    rw [← h]; exact s2

theorem Plant.weatherDeath_trace {b : Bool} (w : World) (self : EntityId) (rate : Int) :
    World.Trace b w (Plant.weatherDeath w self rate).1 := by
  unfold Plant.weatherDeath
  dsimp only
  split
  · split
    · exact World.Trace.kill _ ((World.Trace.trace_of_same rfl rfl rfl : World.Trace b w
        ({ w with gen := (getRandomInt w.gen 1 100).2 } : World)).trace_then_stats _)
    · exact World.Trace.trace_of_same rfl rfl rfl
  · exact World.Trace.trace_of_same rfl rfl rfl

theorem Plant.seasonalDeath_trace {b : Bool} (w : World) (self : EntityId) (p : PlantData)
    (season : Season) : World.Trace b w (Plant.seasonalDeath w self p season).1 := by
  unfold Plant.seasonalDeath
  split
  · exact Plant.weatherDeath_trace _ _ _
  · split
    · exact Plant.weatherDeath_trace _ _ _
    · exact World.Trace.refl w

theorem Simulation.placeOne_trace {b : Bool} {w w1 : World} {t : EntityType}
    {pos : Int × Int} {g : Gender} (h : Simulation.placeOne w t pos g = some w1) :
    World.Trace b w w1 := by
  unfold Simulation.placeOne at h
  cases t with
  | EMPTY =>
    simp only [pure, Option.some.injEq] at h
    rw [← h]; exact World.Trace.refl w
  | PLANT =>
    dsimp only at h
    obtain ⟨res, hadd, h⟩ := bind_some_elim h
    obtain ⟨w2, ok⟩ := res
    simp only [pure, Option.some.injEq] at h
    rw [← h]
    exact World.Trace.spawn _ (World.Trace.refl _) (Entity.Constructed.plant _ _) hadd
  | HERBIVORE =>
    dsimp only at h
    obtain ⟨res, hadd, h⟩ := bind_some_elim h
    obtain ⟨w2, ok⟩ := res
    simp only [pure, Option.some.injEq] at h
    rw [← h]
    refine World.Trace.trace_chain ?_
      (World.Trace.spawn _ (World.Trace.refl _) (Entity.Constructed.herbivore _ _ _ _) hadd)
    exact World.Trace.trace_of_same rfl rfl rfl
  | CARNIVORE =>
    dsimp only at h
    obtain ⟨res, hadd, h⟩ := bind_some_elim h
    obtain ⟨w2, ok⟩ := res
    simp only [pure, Option.some.injEq] at h
    rw [← h]
    refine World.Trace.trace_chain ?_
      (World.Trace.spawn _ (World.Trace.refl _) (Entity.Constructed.carnivore _ _ _ _) hadd)
    exact World.Trace.trace_of_same rfl rfl rfl

theorem Simulation.place_trace {b : Bool} (t : EntityType) (n : Nat) :
    ∀ {w w1 : World}, Simulation.place t n w = some w1 → World.Trace b w w1 := by
  induction n with
  | zero =>
    intro w w1 h
    simp only [Simulation.place, pure, Option.some.injEq] at h
    rw [← h]; exact World.Trace.refl w
  | succ n ih =>
    intro w w1 h
    unfold Simulation.place at h
    obtain ⟨res, _, h⟩ := bind_some_elim h
    obtain ⟨pos, gen1⟩ := res
    dsimp only at h
    obtain ⟨e, _, h⟩ := bind_some_elim h
    rcases ite_eq_some_cases h with h | h
    · obtain ⟨w3, h3, h⟩ := bind_some_elim h
      refine World.Trace.trace_chain (World.Trace.trace_chain ?_ (Simulation.placeOne_trace h3)) (ih h)
      exact World.Trace.trace_of_same rfl rfl rfl
    · simp only [pure, Option.some.injEq] at h
      rw [← h]; exact World.Trace.trace_of_same rfl rfl rfl

theorem Simulation.initializeSimulation_trace {b : Bool} {s s1 : Simulation} {northern : Bool}
    {years : Int} {numP numH numC : Nat}
    (h : s.initializeSimulation northern years numP numH numC = some s1) :
    World.Trace b s.world s1.world := by
  unfold Simulation.initializeSimulation at h
  dsimp only at h
  rcases ite_eq_some_cases h with h | h
  · exact absurd h (by simp)
  · obtain ⟨w1, h1, h⟩ := bind_some_elim h
    obtain ⟨w2, h2, h⟩ := bind_some_elim h
    obtain ⟨w3, h3, h⟩ := bind_some_elim h
    simp only [pure, Option.some.injEq] at h
    rw [← h]
    exact ((Simulation.place_trace _ _ h1).trace_chain (Simulation.place_trace _ _ h2)).trace_chain
      (Simulation.place_trace _ _ h3)

theorem Simulation.immigrateLoop_trace {b : Bool} (n : Nat) :
    ∀ {w w1 : World} {k k1 : Int}, Simulation.immigrateLoop n (w, k) = some (w1, k1) →
      World.Trace b w w1 := by
  induction n with
  | zero =>
    intro w w1 k k1 h
    simp only [Simulation.immigrateLoop, pure, Option.some.injEq, Prod.mk.injEq] at h
    rw [← h.1]; exact World.Trace.refl w
  | succ n ih =>
    intro w w1 k k1 h
    unfold Simulation.immigrateLoop at h
    dsimp only at h
    obtain ⟨res, hadd, h⟩ := bind_some_elim h
    obtain ⟨w2, ok⟩ := res
    dsimp only at h
    have e2 : World.Trace b w w2 := by
      refine World.Trace.trace_chain ?_
        (World.Trace.immigrate _ (World.Trace.refl _) ?_ hadd)
      · exact World.Trace.trace_of_same rfl rfl rfl
      · split
        · exact Entity.Constructed.herbivore _ _ _ _
        · exact Entity.Constructed.carnivore _ _ _ _
    rcases ite_eq_some_cases h with h | h
    · exact (e2.trace_then_event _).trace_chain (ih h)
    · exact e2.trace_chain (ih h)

theorem Simulation.emigrateAll_trace {b : Bool} (name : String) (l : List EntityId) :
    ∀ {w w1 : World} {k k1 : Int}, Simulation.emigrateAll name l (w, k) = some (w1, k1) →
      World.Trace b w w1 := by
  induction l with
  | nil =>
    intro w w1 k k1 h
    simp only [Simulation.emigrateAll, pure, Option.some.injEq, Prod.mk.injEq] at h
    rw [← h.1]; exact World.Trace.refl w
  | cons e rest ih =>
    intro w w1 k k1 h
    unfold Simulation.emigrateAll at h
    rcases ite_eq_some_cases h with h | h
    · dsimp only at h
      obtain ⟨w2, h2, h⟩ := bind_some_elim h
      refine World.Trace.trace_chain (World.Trace.trace_chain ?_ (World.removeEntity_trace b h2)) (ih h)
      exact World.Trace.trace_of_same rfl rfl rfl
    · exact ih h

theorem Simulation.handleMigration_trace {b : Bool} {s s1 : Simulation}
    (h : s.handleMigration = some s1) : World.Trace b s.world s1.world := by
  unfold Simulation.handleMigration at h
  rcases ite_eq_some_cases h with h | h
  · dsimp only at h
    obtain ⟨res, hl, h⟩ := bind_some_elim h
    obtain ⟨w1, k⟩ := res
    dsimp only at h
    simp only [pure, Option.some.injEq] at h
    rw [← h]
    have hs : World.Trace b s.world w1 := by
      refine World.Trace.trace_chain ?_ (Simulation.immigrateLoop_trace _ hl)
      exact World.Trace.trace_of_same rfl rfl rfl
    dsimp only
    split
    · exact hs.trace_then_stats _
    · exact hs
  · rcases ite_eq_some_cases h with h | h
    · dsimp only at h
      obtain ⟨res1, _, h⟩ := bind_some_elim h
      obtain ⟨temp1, gen3⟩ := res1
      dsimp only at h
      obtain ⟨res2, he1, h⟩ := bind_some_elim h
      obtain ⟨w1, k1⟩ := res2
      dsimp only at h
      obtain ⟨res3, _, h⟩ := bind_some_elim h
      obtain ⟨temp2, gen4⟩ := res3
      dsimp only at h
      obtain ⟨res4, he2, h⟩ := bind_some_elim h
      obtain ⟨w2, k2⟩ := res4
      dsimp only at h
      simp only [pure, Option.some.injEq] at h
      rw [← h]
      have hs : World.Trace b s.world w2 := by
        refine World.Trace.trace_chain (World.Trace.trace_chain ?_
          (Simulation.emigrateAll_trace _ _ he1)) (World.Trace.trace_chain ?_
          (Simulation.emigrateAll_trace _ _ he2))
        · exact World.Trace.trace_of_same rfl rfl rfl
        · exact World.Trace.trace_of_same rfl rfl rfl
      dsimp only
      split
      · exact hs.trace_then_stats _
      · exact hs
    · simp only [pure, Option.some.injEq] at h
      rw [← h]; exact World.Trace.refl _

theorem Simulation.cleanup_trace {b : Bool} (l : List EntityId) :
    ∀ {w w1 : World}, Simulation.cleanup l w = some w1 → World.Trace b w w1 := by
  induction l with
  | nil =>
    intro w w1 h
    simp only [Simulation.cleanup, pure, Option.some.injEq] at h
    rw [← h]; exact World.Trace.refl w
  | cons e rest ih =>
    intro w w1 h
    unfold Simulation.cleanup at h
    rcases ite_eq_some_cases h with h | h
    · obtain ⟨w2, h2, h⟩ := bind_some_elim h
      exact (World.removeEntity_trace b h2).trace_chain (ih h)
    · exact ih h

theorem Animal.eatPhase_trace {b : Bool} {w w1 : World} {self : EntityId} {season : Season}
    (h : Animal.ifAlive self (fun u => Animal.eatPhase u self season) w = some w1) :
    World.Trace b w w1 := by
  unfold Animal.ifAlive at h
  rcases ite_some_cond h with ⟨_, h⟩ | ⟨hc, h⟩
  · simp only [pure, Option.some.injEq] at h
    rw [← h]; exact World.Trace.refl w
  · unfold Animal.eatPhase at h
    obtain ⟨r, hb, h⟩ := bind_some_elim h
    obtain ⟨w2, ate⟩ := r
    exact Animal.resetMeals_trace (Animal.animal_attemptEat_trace hb) h

theorem Animal.guarded_birthPhase_trace {b : Bool} {w w1 : World} {self : EntityId}
    (h : Animal.ifAlive self (fun u => Animal.birthPhase u self) w = some w1) :
    World.Trace b w w1 := by
  unfold Animal.ifAlive at h
  rcases ite_some_cond h with ⟨_, h⟩ | ⟨hc, h⟩
  · simp only [pure, Option.some.injEq] at h
    rw [← h]; exact World.Trace.refl w
  · exact Animal.birthPhase_trace h

theorem Animal.guarded_matePhase_trace {b : Bool} {w w1 : World} {self : EntityId} {season : Season}
    (h : Animal.ifAlive self (fun u => Animal.matePhase u self season) w = some w1) :
    World.Trace b w w1 := by
  unfold Animal.ifAlive at h
  rcases ite_some_cond h with ⟨_, h⟩ | ⟨_, h⟩
  · simp only [pure, Option.some.injEq] at h
    rw [← h]; exact World.Trace.refl w
  · exact Animal.matePhase_trace h

theorem Animal.movePhase_trace {b : Bool} {w w1 : World} {self : EntityId} {season : Season}
    (h : Animal.ifAlive self (fun u => Animal.movePhase u self season) w = some w1) :
    World.Trace b w w1 := by
  unfold Animal.ifAlive at h
  rcases ite_some_cond h with ⟨_, h⟩ | ⟨_, h⟩
  · simp only [pure, Option.some.injEq] at h
    rw [← h]; exact World.Trace.refl w
  · unfold Animal.movePhase at h
    obtain ⟨w6, h6, h⟩ := bind_some_elim h
    obtain ⟨a6, _, h⟩ := bind_some_elim h
    have e6 : World.Trace b _ _ := Animal.animal_move_trace h6
    rcases ite_eq_some_cases h with h | h
    · simp only [pure, Option.some.injEq] at h
      rw [← h]; exact e6.trace_then_die _ _
    · simp only [pure, Option.some.injEq] at h
      rw [← h]; exact e6

/-! ## The updates and the tick as sequences of steps -/

theorem Animal.baseUpdate_trace {w w1 : World} {self : EntityId} {season : Season}
    (h : Animal.baseUpdate w self season = some w1) : World.Trace true w w1 := by
  rw [Animal.baseUpdate_eq] at h
  rcases ite_some_cond h with ⟨_, h⟩ | ⟨_, h⟩
  · simp only [Option.some.injEq] at h
    rw [← h]
    exact World.Trace.refl w
  · obtain ⟨a0, ha, h⟩ := bind_some_elim h
    have e1 : World.Trace true w
        (w.modify self (fun e => e.setAnimal (Animal.baseUpdateData a0 season))) :=
      World.Trace.write self (World.Trace.refl w) ha (Animal.Write.base a0 season)
    rcases some_ite_cond h with ⟨_, rfl⟩ | ⟨_, rfl⟩
    · exact e1.trace_then_die _ _
    · exact e1

/-- The phases of `Animal::update` after the base update make no write of
`Animal::baseUpdate`. -/
theorem Animal.phases_trace {b : Bool} {wb w1 : World} {self : EntityId} {season : Season}
    (h : (Animal.ifAlive self (fun u => Animal.eatPhase u self season) wb).bind (fun w3 =>
      (Animal.ifAlive self (fun u => Animal.birthPhase u self) w3).bind (fun w4 =>
        (Animal.ifAlive self (fun u => Animal.matePhase u self season) w4).bind (fun w5 =>
          Animal.ifAlive self (fun u => Animal.movePhase u self season) w5))) = some w1) :
    World.Trace b wb w1 := by
  obtain ⟨w3, h3, h⟩ := bind_some_elim h
  obtain ⟨w4, h4, h⟩ := bind_some_elim h
  obtain ⟨w5, h5, h⟩ := bind_some_elim h
  exact (((Animal.eatPhase_trace h3).trace_chain (Animal.guarded_birthPhase_trace h4)).trace_chain
    (Animal.guarded_matePhase_trace h5)).trace_chain (Animal.movePhase_trace h)

theorem Animal.animal_update_trace {w w1 : World} {self : EntityId} {season : Season}
    (h : Animal.update w self season = some w1) : World.Trace true w w1 := by
  rw [Animal.update_eq_phases] at h
  obtain ⟨wb, hb, h⟩ := bind_some_elim h
  exact (Animal.baseUpdate_trace hb).trace_chain (Animal.phases_trace h)

theorem Plant.plant_update_trace {b : Bool} {w w1 : World} {self : EntityId} {season : Season}
    (h : Plant.update w self season = some w1) : World.Trace b w w1 := by
  unfold Plant.update at h
  rcases ite_some_cond h with ⟨_, h⟩ | ⟨_, h⟩
  · simp only [pure, Option.some.injEq] at h
    rw [← h]
    exact World.Trace.refl w
  · obtain ⟨p0, hp0, h⟩ := bind_some_elim h
    dsimp only at h
    have e1 : World.Trace b w (w.modify self
        (fun e => e.setPlant { p0 with currentAge := p0.currentAge + 1 })) :=
      World.Trace.grow self _ (World.Trace.refl w)
    rcases ite_eq_some_cases h with h | h
    · rcases ite_eq_some_cases h with h | h
      · simp only [pure, Option.some.injEq] at h
        rw [← h]
        exact World.Trace.kill _ (e1.trace_then_stats _)
      · simp only [pure, Option.some.injEq] at h
        rw [← h]
        exact e1
    · rcases ite_eq_some_cases h with h | h
      · simp only [pure, Option.some.injEq] at h
        rw [← h]
        exact e1.trace_chain (Plant.seasonalDeath_trace _ _ _ _)
      · rcases ite_eq_some_cases h with h | h
        · simp only [pure, Option.some.injEq] at h
          rw [← h]
          exact e1.trace_chain (Plant.seasonalDeath_trace _ _ _ _)
        · exact (e1.trace_chain (Plant.seasonalDeath_trace _ _ _ _)).trace_chain
            (Plant.spreadAndBloom_trace h)

theorem World.world_update_trace {w w1 : World} {e : EntityId} {season : Season}
    (h : w.update e season = some w1) : World.Trace true w w1 := by
  unfold World.update at h
  split at h
  · exact Plant.plant_update_trace h
  · exact Animal.animal_update_trace h

/-- A property of worlds that every `update` keeps is kept by the update loops of
`runMonth`. -/
theorem Simulation.updateAll_keeps (I : World → Prop) (season : Season)
    (hupd : ∀ (w : World) (e : EntityId) (w1 : World), I w → w.update e season = some w1 → I w1)
    (l : List EntityId) :
    ∀ {w w1 : World}, Simulation.updateAll season l w = some w1 → I w → I w1 := by
  induction l with
  | nil =>
    intro w w1 h hI
    simp only [Simulation.updateAll, pure, Option.some.injEq] at h
    rw [← h]
    exact hI
  | cons e rest ih =>
    intro w w1 h hI
    rw [Simulation.updateAll_cons] at h
    rcases ite_some_cond h with ⟨_, h⟩ | ⟨_, h⟩
    · obtain ⟨w2, h2, h⟩ := bind_some_elim h
      exact ih h (hupd w e w2 hI h2)
    · exact ih h hI

theorem Simulation.updateAll_trace (season : Season) (l : List EntityId) :
    ∀ {w w1 : World}, Simulation.updateAll season l w = some w1 → World.Trace true w w1 := by
  induction l with
  | nil =>
    intro w w1 h
    simp only [Simulation.updateAll, pure, Option.some.injEq] at h
    rw [← h]
    exact World.Trace.refl w
  | cons e rest ih =>
    intro w w1 h
    rw [Simulation.updateAll_cons] at h
    rcases ite_some_cond h with ⟨_, h⟩ | ⟨_, h⟩
    · obtain ⟨w2, h2, h⟩ := bind_some_elim h
      exact (World.world_update_trace h2).trace_chain (ih h)
    · exact ih h

/-- The tick: the world the season was written to, the three update loops, over the
registries as they were when the tick began, and then migration, the cleanup loop and
the counts, which make no write of `Animal::baseUpdate`. -/
theorem Simulation.runMonth_parts {s s1 : Simulation} {key : Option Char}
    (h : s.runMonth key = some s1) :
    ∃ (s3 s3m s4 : Simulation) (w5 : World),
      s3.world.heap = s.world.heap ∧ s3.world.nextId = s.world.nextId ∧
      s3.world.grid = s.world.grid ∧ s3.current_Season_sim = s1.current_Season_sim ∧
      Simulation.updateAll s1.current_Season_sim s.world.grid.all s3.world = some s3m.world ∧
      s3m.current_Season_sim = s1.current_Season_sim ∧
      s3m.handleMigration = some s4 ∧
      Simulation.cleanup (s4.world.grid.plants_list ++ s4.world.grid.herbivores_list ++
        s4.world.grid.carnivores_list) s4.world = some w5 ∧
      s1.world.heap = w5.heap ∧ s1.world.nextId = w5.nextId ∧ s1.world.grid = w5.grid := by
  unfold Simulation.runMonth at h
  obtain ⟨sc, hc, h⟩ := bind_some_elim h
  simp only [pure, Option.some.injEq] at h
  rw [← h, Simulation.runMonthEnd_world, (Simulation.runMonthEnd_index sc key).2]
  unfold Simulation.runMonthCore at hc
  dsimp only at hc
  obtain ⟨s3, h3, hc⟩ := bind_some_elim hc
  obtain ⟨g1, g2, g3⟩ := Simulation.determineSeason_world h3
  obtain ⟨w1, h1, hc⟩ := bind_some_elim hc
  obtain ⟨w2, h2, hc⟩ := bind_some_elim hc
  obtain ⟨w3, h3a, hc⟩ := bind_some_elim hc
  obtain ⟨s4, h4, hc⟩ := bind_some_elim hc
  obtain ⟨w5, h5, hc⟩ := bind_some_elim hc
  simp only [pure, Option.some.injEq] at hc
  have hseason : sc.current_Season_sim = s3.current_Season_sim := by
    rw [← hc]
    dsimp only
    rw [Simulation.handleMigration_eq h4]
  rw [hseason]
  have hg : s3.world.grid = s.world.grid := g3
  rw [hg] at h1 h2 h3a
  refine ⟨s3, { s3 with world := w3 }, s4, w5, g1, g2, g3, rfl, ?_, rfl, h4, h5, ?_, ?_, ?_⟩
  · unfold Grid.all
    rw [List.append_assoc, Simulation.updateAll_append, h1, Option.some_bind,
      Simulation.updateAll_append, h2, Option.some_bind]
    exact h3a
  · rw [← hc]
  · rw [← hc]
  · rw [← hc]

/-- A property of worlds that every `update` and every other step of the tick engine
keeps is kept by `runMonth`. -/
theorem Simulation.runMonth_keeps (I : World → Prop)
    (hupd : ∀ (w : World) (e : EntityId) (season : Season) (w1 : World),
      I w → w.update e season = some w1 → I w1)
    (htr : ∀ w w1 : World, World.Trace false w w1 → I w → I w1)
    {s s1 : Simulation} {key : Option Char} (h : s.runMonth key = some s1)
    (hI : I s.world) : I s1.world := by
  obtain ⟨s3, s3m, s4, w5, g1, g2, g3, _, hall, _, h4, h5, e1, e2, e3⟩ :=
    Simulation.runMonth_parts h
  have i3 : I s3.world := htr _ _ (World.Trace.trace_of_same g1 g2 g3) hI
  have i3m : I s3m.world :=
    Simulation.updateAll_keeps I _ (fun w e w1 => hupd w e _ w1) _ hall i3
  have i4 : I s4.world := htr _ _ (Simulation.handleMigration_trace h4) i3m
  have i5 : I w5 := htr _ _ (Simulation.cleanup_trace _ h5) i4
  exact htr _ _ (World.Trace.trace_of_same e1 e2 e3) i5

/-- A property of worlds that holds before `initialize` and that every `update` and
every other step of the tick engine keeps holds at every tick boundary. -/
theorem SimReachable.sim_keeps (I : World → Prop)
    (h0 : ∀ gen : List Nat, I (Simulation.new gen).world)
    (hupd : ∀ (w : World) (e : EntityId) (season : Season) (w1 : World),
      I w → w.update e season = some w1 → I w1)
    (htr : ∀ w w1 : World, World.Trace false w w1 → I w → I w1)
    {s : Simulation} (h : SimReachable s) : I s.world := by
  induction h with
  | stocked hinit => exact htr _ _ (Simulation.initializeSimulation_trace hinit) (h0 _)
  | month _ hm ih => exact Simulation.runMonth_keeps I hupd htr hm ih

theorem World.Sited.sited_new (gen : List Nat) : (Simulation.new gen).world.Sited := by
  refine ⟨fun _ _ _ _ hc => (by cases hc), fun t e he => ?_⟩
  cases t <;> exact absurd he (List.not_mem_nil _)

/-- At every tick boundary the cell map and the registries agree with the stored
positions. -/
theorem SimReachable.sim_sited {s : Simulation} (h : SimReachable s) : s.world.Sited :=
  SimReachable.sim_keeps World.Sited World.Sited.sited_new
    (fun _ _ _ _ hs hu => (World.world_update_trace hu).keeps_sited hs)
    (fun _ _ ht hs => ht.keeps_sited hs) h

/-! ## C34 : movement never leaves the grid -/

theorem World.Relocates.noneLost {self : EntityId} {w w1 : World}
    (h : World.Relocates self w w1) : World.NoneLost w w1 :=
  fun e => ⟨(h.relocates_facts.2.2.2.2.2 e).1, (h.relocates_facts.2.2.2.2.2 e).2.1⟩

/-- `moveEntity` of an entity never faults; to a valid destination it kills nobody and
leaves every valid stored position valid, and to an invalid one it kills the entity. -/
theorem World.moveEntity_kills_iff (w : World) (x : EntityId) (r c : Int) :
    ∃ w1, w.moveEntity (some x) r c = some w1 ∧
      (Grid.isValid r c = true → World.NoneLost w w1) ∧
      (Grid.isValid r c = false → (w1.heap x).is_alive = false) := by
  obtain ⟨w1, h⟩ := World.moveEntity_total w (some x) r c
  refine ⟨w1, h, fun hv e => ?_, fun hv => ?_⟩
  · rcases (World.moveEntity_valid hv h).2.2.2.2.2 e with h6 | h6
    · rw [h6]
      exact ⟨rfl, fun hx => hx⟩
    · rw [h6]
      exact ⟨rfl, fun _ => hv⟩
  · rw [World.moveEntity_some] at h
    simp only [Option.some.injEq] at h
    rw [if_neg (by rw [hv]; decide)] at h
    rw [← h]
    show (if x = x then ({ w.heap x with r_coord := r, c_coord := c, is_alive := false } : Entity)
      else w.heap x).is_alive = false
    rw [if_pos rfl]

/-- Along the steps of the tick engine the stored position of an allocated object stays
inside the grid. -/
theorem World.Trace.keeps_onGrid {b : Bool} {w w1 : World} (h : World.Trace b w w1)
    (e : Nat) (he : e < w.nextId) (hv : (w.heap e).onGrid) : (w1.heap e).onGrid := by
  refine (World.Trace.keeps_each Entity.onGrid ?_ ?_ ?_ h).2 e he hv
  · intro ent a a1 hP _ _
    unfold Entity.onGrid
    rw [(Entity.setAnimal_pos ent a1).1, (Entity.setAnimal_pos ent a1).2]
    exact hP
  · intro ent p hP
    unfold Entity.onGrid
    rw [(Entity.setPlant_pos ent p).1, (Entity.setPlant_pos ent p).2]
    exact hP
  · intro x y hxy hP
    exact hxy.placed_pos hP

/-- C34.  Movement never leaves the grid.  `Herbivore::move` and `Carnivore::move` of an
animal never fault.  Either the mover was alive with `currentEnergy <= 0` and the call
is `die()`, or the call is a sequence of `World.Relocates` steps, in which every
`moveEntity` (flee, forage or chase, random) is passed a destination inside the grid; then
no object was killed and every valid stored position is still valid.  `moveEntity`
kills nobody when the destination is valid, and kills the entity passed when it is not.
At every tick boundary, and after every `update`, `handleMigration` and cleanup loop
run from a world that had the property, each cell holds only an object stored at that
cell and each registry lists only objects of its type with a valid stored position;
along these runs the stored position of an allocated object stays valid.  Hence the
guard `!isValid(getR(), getC())` of `removeEntity` is false for every entity that is
registered or held by a cell. -/
theorem movement_stays_on_grid :
    (∀ (w : World) (self : EntityId) (season : Season) (a : AnimalData),
      (w.heap self).animal = some a →
      ∃ w1, Herbivore.move w self season = some w1 ∧
        (((w.heap self).is_alive = true ∧ a.currentEnergy ≤ 0 ∧
            w1 = Animal.die w self false) ∨
          (World.Relocates self w w1 ∧ World.NoneLost w w1))) ∧
    (∀ (w : World) (self : EntityId) (season : Season) (a : AnimalData),
      (w.heap self).animal = some a →
      ∃ w1, Carnivore.move w self season = some w1 ∧
        (((w.heap self).is_alive = true ∧ a.currentEnergy ≤ 0 ∧
            w1 = Animal.die w self false) ∨
          (World.Relocates self w w1 ∧ World.NoneLost w w1))) ∧
    (∀ (w : World) (x : EntityId) (r c : Int),
      ∃ w1, w.moveEntity (some x) r c = some w1 ∧
        (Grid.isValid r c = true → World.NoneLost w w1) ∧
        (Grid.isValid r c = false → (w1.heap x).is_alive = false)) ∧
    (∀ s : Simulation, SimReachable s → s.world.Sited) ∧
    (∀ (w : World) (e : EntityId) (season : Season) (w1 : World),
      w.update e season = some w1 →
      (w.Sited → w1.Sited) ∧ ∀ x : Nat, x < w.nextId → (w.heap x).onGrid → (w1.heap x).onGrid) ∧
    (∀ s s1 : Simulation, s.handleMigration = some s1 →
      (s.world.Sited → s1.world.Sited) ∧
        ∀ x : Nat, x < s.world.nextId → (s.world.heap x).onGrid → (s1.world.heap x).onGrid) ∧
    (∀ (l : List EntityId) (w w1 : World), Simulation.cleanup l w = some w1 →
      (w.Sited → w1.Sited) ∧ ∀ x : Nat, x < w.nextId → (w.heap x).onGrid → (w1.heap x).onGrid) ∧
    (∀ (w : World) (e : EntityId), w.Sited →
      ((∃ t : EntityType, e ∈ w.grid.registry t) ∨
        ∃ r c : Int, Grid.isValid r c = true ∧ w.grid.cells_grid r c = some e) →
      (!Grid.isValid (w.heap e).getR (w.heap e).getC) = false) := by
  refine ⟨fun w self season a ha => ?_, fun w self season a ha => ?_,
    World.moveEntity_kills_iff, fun s hs => hs.sim_sited, fun w e season w1 hu => ?_,
    fun s s1 hm => ?_, fun l w w1 hc => ?_, fun w e hs he => ?_⟩
  · obtain ⟨w1, h1, hr⟩ := Herbivore.herbivore_relocates w self season a ha
    refine ⟨w1, h1, ?_⟩
    rcases hr with hd | hr
    · exact Or.inl hd
    · exact Or.inr ⟨hr, hr.noneLost⟩
  · obtain ⟨w1, h1, hr⟩ := Carnivore.carnivore_relocates w self season a ha
    refine ⟨w1, h1, ?_⟩
    rcases hr with hd | hr
    · exact Or.inl hd
    · exact Or.inr ⟨hr, hr.noneLost⟩
  · have ht := World.world_update_trace hu
    exact ⟨fun hs => ht.keeps_sited hs, fun x hx hv => ht.keeps_onGrid x hx hv⟩
  · have ht : World.Trace false s.world s1.world := Simulation.handleMigration_trace hm
    exact ⟨fun hs => ht.keeps_sited hs, fun x hx hv => ht.keeps_onGrid x hx hv⟩
  · have ht : World.Trace false w w1 := Simulation.cleanup_trace l hc
    exact ⟨fun hs => ht.keeps_sited hs, fun x hx hv => ht.keeps_onGrid x hx hv⟩
  · have hv : Grid.isValid (w.heap e).r_coord (w.heap e).c_coord = true := by
      rcases he with ⟨t, ht⟩ | ⟨r, c, hv, hc⟩
      · exact (hs.listed t e ht).2.2
      · obtain ⟨_, h2, h3⟩ := hs.held r c e hv hc
        rw [h2, h3]
        exact hv
    show (!Grid.isValid (w.heap e).r_coord (w.heap e).c_coord) = false
    rw [hv]
    rfl

/-! ## C37 : the cell map implies the position -/

theorem World.CellsAgree.oneSlot {w : World} (h : w.CellsAgree) : w.OneSlot := by
  intro r c r1 c1 e hv hv1 hc hc1
  obtain ⟨a1, a2⟩ := h r c e hv hc
  obtain ⟨b1, b2⟩ := h r1 c1 e hv1 hc1
  exact ⟨by rw [← a1, b1], by rw [← a2, b2]⟩

theorem World.Sited.cellsAgree {w : World} (h : w.Sited) : w.CellsAgree :=
  fun r c e hv hc => (h.held r c e hv hc).2

theorem World.CellsAgree.agree_addEntity {w w1 : World} {ent : Option EntityId} {ok : Bool}
    (h : w.CellsAgree) (hadd : w.addEntity ent = some (w1, ok)) : w1.CellsAgree := by
  cases ent with
  | none =>
    simp only [World.addEntity, pure, Option.some.injEq, Prod.mk.injEq] at hadd
    rw [← hadd.1]
    exact h
  | some x =>
    rw [World.addEntity_some] at hadd
    simp only [Option.some.injEq] at hadd
    split at hadd
    · simp only [Prod.mk.injEq] at hadd
      rw [← hadd.1]
      intro r c e hv hcell
      have hcell2 : (if r = (w.heap x).r_coord ∧ c = (w.heap x).c_coord then some x
          else w.grid.cells_grid r c) = some e := by
        rw [← hcell]
        show _ = (Grid.pushBack _ _ _).cells_grid r c
        rw [Grid.cells_pushBack]
        rfl
      by_cases hrc : r = (w.heap x).r_coord ∧ c = (w.heap x).c_coord
      · rw [if_pos hrc] at hcell2
        simp only [Option.some.injEq] at hcell2
        subst hcell2
        exact ⟨hrc.1.symm, hrc.2.symm⟩
      · rw [if_neg hrc] at hcell2
        exact h r c e hv hcell2
    · simp only [Prod.mk.injEq] at hadd
      rw [← hadd.1]
      exact h

theorem World.CellsAgree.agree_removeEntity {w w1 : World} {ent : Option EntityId}
    (h : w.CellsAgree) (hr : w.removeEntity ent = some w1) : w1.CellsAgree := by
  cases ent with
  | none =>
    simp only [World.removeEntity, pure, Option.some.injEq] at hr
    rw [← hr]
    exact h
  | some x =>
    rw [World.removeEntity_some] at hr
    simp only [Option.some.injEq] at hr
    split at hr
    · rw [← hr]
      intro r c e hv hcell
      have hcell2 : (if w.grid.cells_grid (w.heap x).r_coord (w.heap x).c_coord = some x then
          w.grid.setCell (w.heap x).r_coord (w.heap x).c_coord none
          else w.grid).cells_grid r c = some e := by
        rw [← hcell]
        show _ = (Grid.eraseIf _ _ _).cells_grid r c
        rw [Grid.cells_eraseIf]
      obtain ⟨a2, a3⟩ := h r c e hv (Grid.cells_cleared hcell2).1
      show (if e = x then (w.heap x).kill else w.heap e).r_coord = r ∧
        (if e = x then (w.heap x).kill else w.heap e).c_coord = c
      by_cases he : e = x
      · rw [if_pos he]
        rw [he] at a2 a3
        exact ⟨a2, a3⟩
      · rw [if_neg he]
        exact ⟨a2, a3⟩
    · rw [← hr]
      exact h

theorem World.CellsAgree.agree_moveEntity {w w1 : World} {ent : Option EntityId} {r c : Int}
    (h : w.CellsAgree) (hm : w.moveEntity ent r c = some w1) : w1.CellsAgree := by
  cases ent with
  | none =>
    simp only [World.moveEntity, pure, Option.some.injEq] at hm
    rw [← hm]
    exact h
  | some x =>
    rw [World.moveEntity_some] at hm
    simp only [Option.some.injEq] at hm
    have hold : ∀ (r1 c1 : Int) (e : EntityId), Grid.isValid r1 c1 = true →
        (if Grid.isValid (w.heap x).r_coord (w.heap x).c_coord = true ∧
              w.grid.cells_grid (w.heap x).r_coord (w.heap x).c_coord = some x then
            w.grid.setCell (w.heap x).r_coord (w.heap x).c_coord none
            else w.grid).cells_grid r1 c1 = some e →
        e ≠ x ∧ (w.heap e).r_coord = r1 ∧ (w.heap e).c_coord = c1 := by
      intro r1 c1 e hv1 hcell
      obtain ⟨hcell1, hnot⟩ := Grid.cells_cleared hcell
      obtain ⟨a2, a3⟩ := h r1 c1 e hv1 hcell1
      refine ⟨?_, a2, a3⟩
      intro hex
      rw [hex] at a2 a3 hcell1
      apply hnot
      rw [a2, a3]
      exact ⟨⟨hv1, hcell1⟩, rfl, rfl⟩
    by_cases hv : Grid.isValid r c = true
    · rw [if_pos hv] at hm
      rw [← hm]
      intro r1 c1 e hv1 hcell
      have hcell2 : (if r1 = r ∧ c1 = c then some x
          else (if Grid.isValid (w.heap x).r_coord (w.heap x).c_coord = true ∧
              w.grid.cells_grid (w.heap x).r_coord (w.heap x).c_coord = some x then
            w.grid.setCell (w.heap x).r_coord (w.heap x).c_coord none
            else w.grid).cells_grid r1 c1) = some e := hcell
      show (if e = x then ({ w.heap x with r_coord := r, c_coord := c } : Entity)
          else w.heap e).r_coord = r1 ∧
        (if e = x then ({ w.heap x with r_coord := r, c_coord := c } : Entity)
          else w.heap e).c_coord = c1
      by_cases hrc : r1 = r ∧ c1 = c
      · rw [if_pos hrc] at hcell2
        simp only [Option.some.injEq] at hcell2
        rw [if_pos hcell2.symm]
        exact ⟨hrc.1.symm, hrc.2.symm⟩
      · rw [if_neg hrc] at hcell2
        obtain ⟨hne, a2, a3⟩ := hold r1 c1 e hv1 hcell2
        rw [if_neg hne]
        exact ⟨a2, a3⟩
    · rw [if_neg hv] at hm
      rw [← hm]
      intro r1 c1 e hv1 hcell
      obtain ⟨hne, a2, a3⟩ := hold r1 c1 e hv1 hcell
      show (if e = x then (_ : Entity) else w.heap e).r_coord = r1 ∧
        (if e = x then (_ : Entity) else w.heap e).c_coord = c1
      rw [if_neg hne]
      exact ⟨a2, a3⟩

theorem World.CellsAgree.agree_addMigratingAnimalLoop (x : EntityId) (n : Nat) :
    ∀ {w w1 : World} {ok : Bool}, w.CellsAgree →
      (∀ r c : Int, Grid.isValid r c = true → w.grid.cells_grid r c ≠ some x) →
      World.addMigratingAnimalLoop x n w = some (w1, ok) → w1.CellsAgree := by
  induction n with
  | zero =>
    intro w w1 ok h _ hm
    simp only [World.addMigratingAnimalLoop, pure, Option.some.injEq, Prod.mk.injEq] at hm
    rw [← hm.1]
    exact h
  | succ n ih =>
    intro w w1 ok h hfree hm
    unfold World.addMigratingAnimalLoop at hm
    dsimp only at hm
    obtain ⟨emp, hemp, hm⟩ := bind_some_elim hm
    rcases ite_some_cond hm with ⟨hc, hm⟩ | ⟨_, hm⟩
    · refine @World.CellsAgree.agree_addEntity _ w1 (some x) ok ?_ hm
      intro r c e hv hcell
      have hcell2 : w.grid.cells_grid r c = some e := hcell
      obtain ⟨a2, a3⟩ := h r c e hv hcell2
      have hne : e ≠ x := by
        intro hex
        rw [hex] at hcell2
        exact hfree r c hv hcell2
      constructor
      · simp only [World.modify, if_neg hne]
        exact a2
      · simp only [World.modify, if_neg hne]
        exact a3
    · refine @ih _ w1 ok ?_ ?_ hm
      · exact h
      · exact hfree

theorem World.CellsAgree.agree_addMigratingAnimal {w w1 : World} {x : EntityId} {ok : Bool}
    (h : w.CellsAgree)
    (hfree : ∀ r c : Int, Grid.isValid r c = true → w.grid.cells_grid r c ≠ some x)
    (hm : w.addMigratingAnimal x = some (w1, ok)) : w1.CellsAgree := by
  unfold World.addMigratingAnimal at hm
  rcases ite_eq_some_cases hm with hm | hm
  · simp only [pure, Option.some.injEq, Prod.mk.injEq] at hm
    rw [← hm.1]
    exact h
  · exact World.CellsAgree.agree_addMigratingAnimalLoop x _ h hfree hm

/-- C37.  The cell map implies the position.  At every tick boundary every non-empty
slot `(r, c)` of the cell map holds an entity whose stored position is `(r, c)`, and no
entity is held by more than one slot; the second property follows from the first in
every world.  The first property is kept by `addEntity`, `removeEntity` and `moveEntity`
with any arguments, and by `addMigratingAnimal` of an animal that no slot holds, as is
the new animal that `handleMigration` passes.  Within a tick it holds, together with the
registry part of `World.Sited`, after every `update`, `handleMigration` and cleanup
loop run from a world that had both. -/
theorem cell_map_implies_position :
    (∀ s : Simulation, SimReachable s → s.world.CellsAgree ∧ s.world.OneSlot) ∧
    (∀ w : World, w.CellsAgree → w.OneSlot) ∧
    (∀ (w w1 : World) (ent : Option EntityId) (ok : Bool),
      w.CellsAgree → w.addEntity ent = some (w1, ok) → w1.CellsAgree) ∧
    (∀ (w w1 : World) (x : EntityId) (ok : Bool), w.CellsAgree →
      (∀ r c : Int, Grid.isValid r c = true → w.grid.cells_grid r c ≠ some x) →
      w.addMigratingAnimal x = some (w1, ok) → w1.CellsAgree) ∧
    (∀ (w w1 : World) (ent : Option EntityId),
      w.CellsAgree → w.removeEntity ent = some w1 → w1.CellsAgree) ∧
    (∀ (w w1 : World) (ent : Option EntityId) (r c : Int),
      w.CellsAgree → w.moveEntity ent r c = some w1 → w1.CellsAgree) ∧
    (∀ w : World, w.Sited → w.CellsAgree) ∧
    (∀ (w : World) (e : EntityId) (season : Season) (w1 : World),
      w.Sited → w.update e season = some w1 → w1.Sited) ∧
    (∀ s s1 : Simulation, s.world.Sited → s.handleMigration = some s1 → s1.world.Sited) ∧
    (∀ (l : List EntityId) (w w1 : World),
      w.Sited → Simulation.cleanup l w = some w1 → w1.Sited) := by
  refine ⟨fun s hs => ⟨hs.sim_sited.cellsAgree, hs.sim_sited.cellsAgree.oneSlot⟩,
    fun w h => h.oneSlot, fun w w1 ent ok h hadd => h.agree_addEntity hadd,
    fun w w1 x ok h hfree hm => h.agree_addMigratingAnimal hfree hm,
    fun w w1 ent h hr => h.agree_removeEntity hr,
    fun w w1 ent r c h hm => h.agree_moveEntity hm, fun w h => h.cellsAgree,
    fun w e season w1 hs hu => (World.world_update_trace hu).keeps_sited hs,
    fun s s1 hs hm => ?_, fun l w w1 hs hc => ?_⟩
  · have ht : World.Trace false s.world s1.world := Simulation.handleMigration_trace hm
    exact ht.keeps_sited hs
  · have ht : World.Trace false w w1 := Simulation.cleanup_trace l hc
    exact ht.keeps_sited hs

/-! ## C39 : the pregnancy state -/

theorem Animal.baseUpdateData_brood (a0 : AnimalData) (season : Season) :
    (Animal.baseUpdateData a0 season).periodOfGestation = a0.periodOfGestation ∧
    (Animal.baseUpdateData a0 season).animalGender = a0.animalGender ∧
    (Animal.baseUpdateData a0 season).currentlyPregnant = a0.currentlyPregnant ∧
    (Animal.baseUpdateData a0 season).currentGestationProgress =
      if a0.currentlyPregnant = true then a0.currentGestationProgress + 1
      else a0.currentGestationProgress := by
  unfold Animal.baseUpdateData
  dsimp only
  refine ⟨?_, ?_, ?_, ?_⟩ <;> split_ifs <;> rfl

theorem Animal.canReproduceInternal_facts {a : AnimalData}
    (h : Animal.canReproduceInternal a = true) :
    a.animalGender = .FEMALE ∧ a.currentlyPregnant = false := by
  unfold Animal.canReproduceInternal at h
  simp only [Bool.and_eq_true, decide_eq_true_eq, Bool.not_eq_true'] at h
  exact ⟨h.1.1.1.1, h.1.1.1.2⟩

theorem Entity.Gestating.gestating_write {ent : Entity} {a a1 : AnimalData}
    (h : ent.Gestating) (ha : ent.animal = some a) (hw : Animal.Write false a a1) :
    (ent.setAnimal a1).Gestating := by
  intro x hx
  rw [Entity.setAnimal_animal _ ha] at hx
  simp only [Option.some.injEq] at hx
  subst hx
  obtain ⟨g1, g2, g3⟩ := h a ha
  cases hw with
  | energy => exact ⟨g1, g2, g3⟩
  | meals => exact ⟨g1, g2, g3⟩
  | conceive =>
    rename_i hc
    obtain ⟨c1, c2⟩ := Animal.canReproduceInternal_facts hc
    refine ⟨g1, fun hx => (by have h2 : true = false := hx; cases h2), fun _ => ⟨c1, ?_, ?_⟩⟩
    · show 0 ≤ a.currentGestationProgress
      rw [g2 c2]
    · show a.currentGestationProgress ≤ a.periodOfGestation
      rw [g2 c2]
      omega
  | born => exact ⟨g1, fun _ => rfl, fun hx => (by have h2 : false = true := hx; cases h2)⟩

theorem Entity.Settled.settled_write {ent : Entity} {a a1 : AnimalData}
    (hg : ent.Gestating) (h : ent.Settled) (ha : ent.animal = some a)
    (hw : Animal.Write false a a1) : (ent.setAnimal a1).Settled := by
  intro x hx hal hp
  rw [Entity.setAnimal_animal _ ha] at hx
  simp only [Option.some.injEq] at hx
  subst hx
  rw [Entity.setAnimal_is_alive] at hal
  obtain ⟨g1, g2, g3⟩ := hg a ha
  cases hw with
  | energy => exact h a ha hal hp
  | meals => exact h a ha hal hp
  | conceive =>
    rename_i hc
    obtain ⟨c1, c2⟩ := Animal.canReproduceInternal_facts hc
    show a.currentGestationProgress < a.periodOfGestation
    rw [g2 c2]
    omega
  | born =>
    have h2 : false = true := hp
    cases h2

theorem Entity.Gestating.gestating_of_animal {x y : Entity} (h : x.Gestating)
    (ha : y.animal = x.animal) : y.Gestating :=
  fun a hy => h a (ha ▸ hy)

theorem Entity.Settled.settled_of_animal {x y : Entity} (h : x.Settled)
    (ha : y.animal = x.animal) (hal : y.is_alive = true → x.is_alive = true) : y.Settled :=
  fun a hy hl hp => h a (ha ▸ hy) (hal hl) hp

theorem Entity.Constructed.gestating {ent : Entity} (h : ent.Constructed) :
    ent.Gestating ∧ ent.Settled := by
  cases h with
  | plant r c => exact ⟨fun a ha => (by cases ha), fun a ha => (by cases ha)⟩
  | herbivore gen r c g =>
    have hk : (Herbivore.new gen r c g).1.animal.map (fun a =>
        (a.currentlyPregnant, a.currentGestationProgress, a.periodOfGestation)) =
          some (false, 0, 3) := rfl
    constructor
    · intro a ha
      rw [ha] at hk
      simp only [Option.map_some', Option.some.injEq, Prod.mk.injEq] at hk
      exact ⟨by rw [hk.2.2]; decide, fun _ => hk.2.1,
        fun hp => by rw [hk.1] at hp; exact absurd hp (by decide)⟩
    · intro a ha _ hp
      rw [ha] at hk
      simp only [Option.map_some', Option.some.injEq, Prod.mk.injEq] at hk
      rw [hk.1] at hp
      exact absurd hp (by decide)
  | carnivore gen r c g =>
    have hk : (Carnivore.new gen r c g).1.animal.map (fun a =>
        (a.currentlyPregnant, a.currentGestationProgress, a.periodOfGestation)) =
          some (false, 0, 4) := rfl
    constructor
    · intro a ha
      rw [ha] at hk
      simp only [Option.map_some', Option.some.injEq, Prod.mk.injEq] at hk
      exact ⟨by rw [hk.2.2]; decide, fun _ => hk.2.1,
        fun hp => by rw [hk.1] at hp; exact absurd hp (by decide)⟩
    · intro a ha _ hp
      rw [ha] at hk
      simp only [Option.map_some', Option.some.injEq, Prod.mk.injEq] at hk
      rw [hk.1] at hp
      exact absurd hp (by decide)

theorem Entity.Placed.placed_alive {x y : Entity} (h : Entity.Placed x y)
    (hal : y.is_alive = true) : x.is_alive = true := by
  cases h with
  | same => exact hal
  | moved => exact hal
  | killed =>
    have h2 : false = true := hal
    cases h2

/-- The steps of the tick engine other than the base update keep the consistency of the
pregnancy members of every object. -/
theorem World.Trace.keeps_gestating {w w1 : World} (h : World.Trace false w w1)
    (e : EntityId) (hg : (w.heap e).Gestating) : (w1.heap e).Gestating :=
  World.Trace.keeps_one Entity.Gestating
    (fun _ _ _ hP ha hw => hP.gestating_write ha hw)
    (fun ent p hP => hP.gestating_of_animal (Entity.setPlant_animal ent p))
    (fun _ _ hxy hP => hP.gestating_of_animal (Entity.animal_of_kind hxy.placed_kind))
    (fun _ hc => hc.gestating.1) h e hg

/-- The steps of the tick engine other than the base update keep the pregnancy state of
an object that is between two updates. -/
theorem World.Trace.keeps_atRest {w w1 : World} (h : World.Trace false w w1)
    (e : EntityId) (hg : (w.heap e).Gestating ∧ (w.heap e).Settled) :
    (w1.heap e).Gestating ∧ (w1.heap e).Settled :=
  World.Trace.keeps_one (fun ent => ent.Gestating ∧ ent.Settled)
    (fun _ _ _ hP ha hw => ⟨hP.1.gestating_write ha hw, hP.2.settled_write hP.1 ha hw⟩)
    (fun ent p hP => ⟨hP.1.gestating_of_animal (Entity.setPlant_animal ent p),
      hP.2.settled_of_animal (Entity.setPlant_animal ent p)
        (fun hl => by rw [Entity.setPlant_is_alive] at hl; exact hl)⟩)
    (fun _ _ hxy hP => ⟨hP.1.gestating_of_animal (Entity.animal_of_kind hxy.placed_kind),
      hP.2.settled_of_animal (Entity.animal_of_kind hxy.placed_kind) hxy.placed_alive⟩)
    (fun _ hc => hc.gestating) h e hg

/-- After the base update of `self` the pregnancy members of every object are
consistent, and every object but `self` is as between two updates. -/
theorem Animal.baseUpdate_gestating {w wb : World} {self : EntityId} {season : Season}
    (h : Animal.baseUpdate w self season = some wb) (hw : w.AtRest) :
    (∀ e : EntityId, (wb.heap e).Gestating) ∧
      ∀ e : EntityId, e ≠ self → (wb.heap e).Settled := by
  rw [Animal.baseUpdate_eq] at h
  rcases ite_some_cond h with ⟨_, h⟩ | ⟨hal, h⟩
  · simp only [Option.some.injEq] at h
    rw [← h]
    exact ⟨fun e => (hw e).1, fun e _ => (hw e).2⟩
  · obtain ⟨a0, ha, h⟩ := bind_some_elim h
    have hal1 : (w.heap self).is_alive = true := Entity.not_isAlive_false hal
    obtain ⟨b1, b2, b3, b4⟩ := Animal.baseUpdateData_brood a0 season
    obtain ⟨g1, g2, g3⟩ := (hw self).1 a0 ha
    have hself : ((w.heap self).setAnimal (Animal.baseUpdateData a0 season)).Gestating := by
      intro x hx
      rw [Entity.setAnimal_animal _ ha] at hx
      simp only [Option.some.injEq] at hx
      subst hx
      rw [b1, b2, b3, b4]
      refine ⟨g1, fun hp => ?_, fun hp => ?_⟩
      · rw [if_neg (by rw [hp]; decide)]
        exact g2 hp
      · rw [if_pos hp]
        obtain ⟨f1, f2, _⟩ := g3 hp
        have := (hw self).2 a0 ha hal1 hp
        exact ⟨f1, by omega, by omega⟩
    have hmod : ∀ e : EntityId,
        ((w.modify self (fun x => x.setAnimal (Animal.baseUpdateData a0 season))).heap e).Gestating ∧
        (e ≠ self → ((w.modify self
          (fun x => x.setAnimal (Animal.baseUpdateData a0 season))).heap e).Settled) := by
      intro e
      by_cases he : e = self
      · rw [he, World.modify_heap_self]
        exact ⟨hself, fun hne => absurd rfl hne⟩
      · rw [World.modify_heap_other _ _ he]
        exact ⟨(hw e).1, fun _ => (hw e).2⟩
    rcases some_ite_cond h with ⟨_, rfl⟩ | ⟨_, rfl⟩
    · rw [Animal.die_heap]
      constructor
      · intro e
        by_cases he : e = self
        · rw [he, World.modify_heap_self]
          exact (hmod self).1.gestating_of_animal rfl
        · rw [World.modify_heap_other _ _ he]
          exact (hmod e).1
      · intro e he
        rw [World.modify_heap_other _ _ he]
        exact (hmod e).2 he
    · exact ⟨fun e => (hmod e).1, fun e he => (hmod e).2 he⟩

/-- When the birth block of `Animal::update` has been passed, the animal is not both
alive and pregnant with a completed gestation. -/
theorem Animal.guarded_birthPhase_settled {w3 w4 : World} {self : EntityId}
    (h : Animal.ifAlive self (fun u => Animal.birthPhase u self) w3 = some w4) :
    (w4.heap self).Settled := by
  unfold Animal.ifAlive at h
  rcases ite_some_cond h with ⟨hd, h⟩ | ⟨_, h⟩
  · simp only [pure, Option.some.injEq] at h
    rw [← h]
    intro a _ hal _
    simp only [Entity.isAlive, Bool.not_eq_true'] at hd
    rw [hd] at hal
    exact absurd hal (by decide)
  · unfold Animal.birthPhase at h
    obtain ⟨a, ha, h⟩ := bind_some_elim h
    rcases ite_some_cond h with ⟨_, h⟩ | ⟨hc, h⟩
    · obtain ⟨w2, h2, h⟩ := bind_some_elim h
      obtain ⟨a1, ha1, h⟩ := bind_some_elim h
      dsimp only at h
      have key : ∀ a3 : AnimalData, a3.currentlyPregnant = false →
          ((w2.modify self (fun e => e.setAnimal a3)).heap self).Settled := by
        intro a3 h3 x hx _ hp
        rw [World.modify_heap_self, Entity.setAnimal_animal _ ha1] at hx
        simp only [Option.some.injEq] at hx
        rw [← hx, h3] at hp
        exact absurd hp (by decide)
      rcases some_ite_cond h with ⟨_, rfl⟩ | ⟨_, rfl⟩
      · rw [Animal.die_heap, World.modify_heap_self]
        exact (key _ rfl).settled_of_animal rfl
          (fun hl => (by have h2 : false = true := hl; cases h2))
      · exact key _ rfl
    · simp only [pure, Option.some.injEq] at h
      rw [← h]
      intro x hx _ hp
      rw [ha] at hx
      simp only [Option.some.injEq] at hx
      subst hx
      by_contra hlt
      exact hc ⟨hp, by omega⟩

/-- The states between the phases of an `Animal::update`. -/
theorem Animal.update_states {w wb w3 w4 w5 : World} {self : EntityId} {season : Season}
    (hw : w.AtRest) (hb : Animal.baseUpdate w self season = some wb)
    (h3 : Animal.ifAlive self (fun u => Animal.eatPhase u self season) wb = some w3)
    (h4 : Animal.ifAlive self (fun u => Animal.birthPhase u self) w3 = some w4)
    (h5 : Animal.ifAlive self (fun u => Animal.matePhase u self season) w4 = some w5) :
    (∀ e : EntityId, (wb.heap e).Gestating) ∧ (∀ e : EntityId, (w3.heap e).Gestating) ∧
      w4.AtRest ∧ w5.AtRest := by
  obtain ⟨gb, sb⟩ := Animal.baseUpdate_gestating hb hw
  have t3 : World.Trace false wb w3 := Animal.eatPhase_trace h3
  have t4 : World.Trace false w3 w4 := Animal.guarded_birthPhase_trace h4
  have t5 : World.Trace false w4 w5 := Animal.guarded_matePhase_trace h5
  have g3 : ∀ e : EntityId, (w3.heap e).Gestating := fun e => t3.keeps_gestating e (gb e)
  have r4 : w4.AtRest := by
    intro e
    by_cases he : e = self
    · rw [he]
      exact ⟨t4.keeps_gestating self (g3 self), Animal.guarded_birthPhase_settled h4⟩
    · exact (t3.trace_chain t4).keeps_atRest e ⟨gb e, sb e he⟩
  exact ⟨gb, g3, r4, fun e => t5.keeps_atRest e (r4 e)⟩

theorem Animal.animal_update_atRest {w w1 : World} {self : EntityId} {season : Season}
    (hw : w.AtRest) (h : Animal.update w self season = some w1) : w1.AtRest := by
  rw [Animal.update_eq_phases] at h
  obtain ⟨wb, hb, h⟩ := bind_some_elim h
  obtain ⟨w3, h3, h⟩ := bind_some_elim h
  obtain ⟨w4, h4, h⟩ := bind_some_elim h
  obtain ⟨w5, h5, h⟩ := bind_some_elim h
  obtain ⟨_, _, _, r5⟩ := Animal.update_states hw hb h3 h4 h5
  have t6 : World.Trace false w5 w1 := Animal.movePhase_trace h
  exact fun e => t6.keeps_atRest e (r5 e)

theorem World.world_update_atRest {w w1 : World} {e : EntityId} {season : Season}
    (hw : w.AtRest) (h : w.update e season = some w1) : w1.AtRest := by
  unfold World.update at h
  split at h
  · have t : World.Trace false w w1 := Plant.plant_update_trace h
    exact fun x => t.keeps_atRest x (hw x)
  · exact Animal.animal_update_atRest hw h

/-- C39.  The pregnancy state.  At every tick boundary, and after every `Animal::update`
(indeed every `update`, `handleMigration` and cleanup loop) run from a world with the
property, every object has consistent pregnancy members (`Entity.Gestating`: an animal
that is not pregnant has `currentGestationProgress = 0`; a pregnant animal is a female,
so no male is pregnant, with `0 <= currentGestationProgress <= periodOfGestation`) and no
living pregnant animal has completed its gestation (`Entity.Settled`).  In the states
inside an `Animal::update` the members are consistent after the base update and after
the eat phase, and the full property holds again after the birth block and after the
mate phase. -/
theorem pregnancy_state_invariant :
    (∀ s : Simulation, SimReachable s → s.world.AtRest) ∧
    (∀ (w : World) (self : EntityId) (season : Season) (w1 : World),
      w.AtRest → Animal.update w self season = some w1 → w1.AtRest) ∧
    (∀ (w wb w3 w4 w5 : World) (self : EntityId) (season : Season),
      w.AtRest → Animal.baseUpdate w self season = some wb →
      Animal.ifAlive self (fun u => Animal.eatPhase u self season) wb = some w3 →
      Animal.ifAlive self (fun u => Animal.birthPhase u self) w3 = some w4 →
      Animal.ifAlive self (fun u => Animal.matePhase u self season) w4 = some w5 →
      (∀ e : EntityId, (wb.heap e).Gestating) ∧ (∀ e : EntityId, (w3.heap e).Gestating) ∧
        w4.AtRest ∧ w5.AtRest) ∧
    (∀ (w : World) (e : EntityId) (season : Season) (w1 : World),
      w.AtRest → w.update e season = some w1 → w1.AtRest) ∧
    (∀ s s1 : Simulation, s.world.AtRest → s.handleMigration = some s1 → s1.world.AtRest) ∧
    (∀ (l : List EntityId) (w w1 : World),
      w.AtRest → Simulation.cleanup l w = some w1 → w1.AtRest) := by
  refine ⟨fun s hs => ?_, fun w self season w1 hw h => Animal.animal_update_atRest hw h,
    fun w wb w3 w4 w5 self season hw hb h3 h4 h5 => Animal.update_states hw hb h3 h4 h5,
    fun w e season w1 hw h => World.world_update_atRest hw h, fun s s1 hw hm => ?_,
    fun l w w1 hw hc => ?_⟩
  · refine SimReachable.sim_keeps World.AtRest (fun gen e => ?_)
      (fun w e season w1 hw hu => World.world_update_atRest hw hu)
      (fun w w1 ht hw x => ht.keeps_atRest x (hw x)) hs
    exact ⟨fun a ha => (by cases ha), fun a ha => (by cases ha)⟩
  · have ht : World.Trace false s.world s1.world := Simulation.handleMigration_trace hm
    exact fun x => ht.keeps_atRest x (hw x)
  · have ht : World.Trace false w w1 := Simulation.cleanup_trace l hc
    exact fun x => ht.keeps_atRest x (hw x)

/-! ## C31 : the costs of a birth -/

theorem World.Births.births_of_frame {w w1 : World} (hh : w1.heap = w.heap)
    (hn : w1.nextId = w.nextId)
    (h1 : w1.stats.herbivoresDiedNatural = w.stats.herbivoresDiedNatural)
    (h2 : w1.stats.carnivoresDiedNatural = w.stats.carnivoresDiedNatural) :
    World.Births w w1 :=
  ⟨Nat.le_of_eq hn.symm, fun e _ => by rw [hh], h1, h2⟩

theorem World.Births.births_chain {w w1 w2 : World} (h1 : World.Births w w1)
    (h2 : World.Births w1 w2) : World.Births w w2 :=
  ⟨Nat.le_trans h1.allocated h2.allocated,
    fun e he => by rw [h2.old e (Nat.lt_of_lt_of_le he h1.allocated), h1.old e he],
    by rw [h2.herbivoresDied, h1.herbivoresDied],
    by rw [h2.carnivoresDied, h1.carnivoresDied]⟩

theorem World.addEntity_stats {w w1 : World} {ent : Option EntityId} {ok : Bool}
    (h : w.addEntity ent = some (w1, ok)) : w1.stats = w.stats := by
  cases ent with
  | none =>
    simp only [World.addEntity, pure, Option.some.injEq, Prod.mk.injEq] at h
    rw [← h.1]
  | some x =>
    rw [World.addEntity_some] at h
    simp only [Option.some.injEq] at h
    split at h
    · simp only [Prod.mk.injEq] at h
      rw [← h.1]
    · simp only [Prod.mk.injEq] at h
      rw [← h.1]

/-- `std::make_shared` of an object followed by `addEntity` of the new pointer. -/
theorem World.Births.births_of_spawn {w w2 : World} {ent : Entity} {ok : Bool}
    (hadd : (w.alloc ent).1.addEntity (some (w.alloc ent).2) = some (w2, ok)) :
    World.Births w w2 := by
  obtain ⟨hh, hn⟩ := World.addEntity_heap hadd
  have hs := World.addEntity_stats hadd
  refine ⟨?_, fun e he => ?_, ?_, ?_⟩
  · rw [hn]
    exact Nat.le_succ _
  · rw [hh]
    show (if e = w.nextId then ent else w.heap e) = w.heap e
    rw [if_neg (Nat.ne_of_lt he)]
  · rw [hs]
    rfl
  · rw [hs]
    rfl

theorem Herbivore.birthLoop_births (n : Nat) :
    ∀ {locs : List (Int × Int)} {w w1 : World}, Herbivore.birthLoop n locs w = some w1 →
      World.Births w w1 := by
  induction n with
  | zero =>
    intro locs w w1 h
    simp only [Herbivore.birthLoop, pure, Option.some.injEq] at h
    rw [← h]
    exact World.Births.births_of_frame rfl rfl rfl rfl
  | succ n ih =>
    intro locs w w1 h
    unfold Herbivore.birthLoop at h
    rcases ite_eq_some_cases h with h | h
    · simp only [pure, Option.some.injEq] at h
      rw [← h]
      exact World.Births.births_of_frame rfl rfl rfl rfl
    · dsimp only at h
      obtain ⟨pos, _, h⟩ := bind_some_elim h
      obtain ⟨r, hadd, h⟩ := bind_some_elim h
      obtain ⟨w2, added⟩ := r
      dsimp only at h
      refine World.Births.births_chain ?_ (ih h)
      have e2 : World.Births w w2 := by
        refine World.Births.births_chain ?_ (World.Births.births_of_spawn hadd)
        exact World.Births.births_of_frame rfl rfl rfl rfl
      split
      · exact e2.births_chain (World.Births.births_of_frame rfl rfl rfl rfl)
      · exact e2

theorem Carnivore.carnivore_birthLoop_births (n : Nat) :
    ∀ {locs : List (Int × Int)} {w w1 : World}, Carnivore.birthLoop n locs w = some w1 →
      World.Births w w1 := by
  induction n with
  | zero =>
    intro locs w w1 h
    simp only [Carnivore.birthLoop, pure, Option.some.injEq] at h
    rw [← h]
    exact World.Births.births_of_frame rfl rfl rfl rfl
  | succ n ih =>
    intro locs w w1 h
    unfold Carnivore.birthLoop at h
    rcases ite_eq_some_cases h with h | h
    · simp only [pure, Option.some.injEq] at h
      rw [← h]
      exact World.Births.births_of_frame rfl rfl rfl rfl
    · dsimp only at h
      obtain ⟨pos, _, h⟩ := bind_some_elim h
      obtain ⟨r, hadd, h⟩ := bind_some_elim h
      obtain ⟨w2, added⟩ := r
      dsimp only at h
      refine World.Births.births_chain ?_ (ih h)
      have e2 : World.Births w w2 := by
        refine World.Births.births_chain ?_ (World.Births.births_of_spawn hadd)
        exact World.Births.births_of_frame rfl rfl rfl rfl
      split
      · exact e2.births_chain (World.Births.births_of_frame rfl rfl rfl rfl)
      · exact e2

/-- The loop of `Carnivore::giveBirth` never faults. -/
theorem Carnivore.carnivore_birthLoop_some (n : Nat) :
    ∀ (locs : List (Int × Int)) (w : World), ∃ w1, Carnivore.birthLoop n locs w = some w1 := by
  induction n with
  | zero =>
    intro locs w
    exact ⟨w, rfl⟩
  | succ n ih =>
    intro locs w
    unfold Carnivore.birthLoop
    by_cases hE : locs.isEmpty = true
    · rw [if_pos hE]
      exact ⟨w, rfl⟩
    · rw [if_neg hE]
      dsimp only
      have hne : locs ≠ [] := fun h => hE (by rw [h]; rfl)
      rw [List.getElem?_eq_getElem (birthIdx_lt w.gen locs hne)]
      simp only [Option.bind_eq_bind, Option.some_bind, World.addEntity_some]
      exact ih _ _

/-- `giveBirth` of a living animal never faults, writes to no object that existed and
leaves the natural-death counters alone. -/
theorem Animal.giveBirth_births (w : World) (self : EntityId) (a : AnimalData)
    (ha : (w.heap self).animal = some a) (hal : (w.heap self).is_alive = true) :
    ∃ wb, Animal.giveBirth w self = some wb ∧ World.Births w wb := by
  obtain ⟨locs, hlocs, _⟩ := Animal.birthCells_some w self a ha
  have h0 : ¬ ((!(w.heap self).isAlive) = true) := by simp [Entity.isAlive, hal]
  unfold Animal.giveBirth
  split
  · unfold Herbivore.giveBirth
    rw [if_neg h0, hlocs]
    simp only [Option.bind_eq_bind, Option.some_bind]
    split
    · exact ⟨w, rfl, World.Births.births_of_frame rfl rfl rfl rfl⟩
    · obtain ⟨w1, h1⟩ := Herbivore.birthLoop_some (getRandomInt w.gen 1 3).1.toNat locs
        { w with gen := (getRandomInt w.gen 1 3).2 }
      refine ⟨w1, h1, World.Births.births_chain ?_ (Herbivore.birthLoop_births _ h1)⟩
      exact World.Births.births_of_frame rfl rfl rfl rfl
  · unfold Carnivore.giveBirth
    rw [if_neg h0, hlocs]
    simp only [Option.bind_eq_bind, Option.some_bind]
    split
    · exact ⟨w, rfl, World.Births.births_of_frame rfl rfl rfl rfl⟩
    · obtain ⟨w1, h1⟩ := Carnivore.carnivore_birthLoop_some (getRandomInt w.gen 1 2).1.toNat
        locs { w with gen := (getRandomInt w.gen 1 2).2 }
      refine ⟨w1, h1, World.Births.births_chain ?_ (Carnivore.carnivore_birthLoop_births _ h1)⟩
      exact World.Births.births_of_frame rfl rfl rfl rfl
  · next p hk =>
    unfold Entity.animal at ha
    rw [hk] at ha
    exact absurd ha (by simp)

/-- `die()` of a living animal raises the natural-death counter of its species by 1 and
leaves the other one alone. -/
theorem Animal.die_natural (w : World) (self : EntityId)
    (hal : (w.heap self).is_alive = true) :
    (Animal.die w self false).stats.herbivoresDiedNatural =
        (if (w.heap self).getType = .HERBIVORE then w.stats.herbivoresDiedNatural + 1
          else w.stats.herbivoresDiedNatural) ∧
      (Animal.die w self false).stats.carnivoresDiedNatural =
        (if (w.heap self).getType = .CARNIVORE then w.stats.carnivoresDiedNatural + 1
          else w.stats.carnivoresDiedNatural) := by
  have h0 : ¬ ((!(w.heap self).isAlive) = true) := by simp [Entity.isAlive, hal]
  unfold Animal.die
  rw [if_neg h0]
  have ht : ((w.modify self Entity.kill).heap self).getType = (w.heap self).getType := by
    rw [World.modify_heap_self]
    rfl
  dsimp only
  rw [ht]
  cases hk : (w.heap self).getType <;> simp [World.modify]

/-- The move phase of `Animal::update` never faults and leaves the pregnancy members of
every object alone. -/
theorem Animal.movePhase_total (w : World) (self : EntityId) (season : Season)
    (a : AnimalData) (ha : (w.heap self).animal = some a) :
    ∃ w1, Animal.ifAlive self (fun u => Animal.movePhase u self season) w = some w1 ∧
      World.SameBrood w w1 := by
  unfold Animal.ifAlive
  split
  · exact ⟨w, rfl, World.SameBrood.rfl_of w⟩
  · obtain ⟨w6, h6, hr⟩ := Animal.animal_relocates w self season a ha
    have hb6 : World.SameBrood w w6 := by
      rcases hr with ⟨_, _, hd⟩ | hr
      · rw [hd]
        exact Animal.die_sameBrood w self false
      · exact fun i => (hr.relocates_facts.2.2.2.2.2 i).2.2.2.1
    obtain ⟨a6, ha6⟩ := Entity.brood_isSome (hb6 self) ha
    unfold Animal.movePhase
    dsimp only
    rw [h6]
    simp only [Option.bind_eq_bind, Option.some_bind]
    rw [ha6]
    simp only [Option.some_bind]
    split
    · exact ⟨_, rfl, hb6.trans_of (Animal.die_sameBrood w6 self false)⟩
    · exact ⟨_, rfl, hb6⟩

theorem Entity.pregnant_of_brood {x y : Entity} (h : y.brood = x.brood) :
    y.pregnant = x.pregnant := by
  unfold Entity.brood at h
  unfold Entity.pregnant
  cases hx : x.animal with
  | none =>
    cases hy : y.animal with
    | none => rfl
    | some b =>
      rw [hx, hy] at h
      cases h
  | some a =>
    cases hy : y.animal with
    | none =>
      rw [hx, hy] at h
      cases h
    | some b =>
      rw [hx, hy] at h
      simp only [Option.map_some', Option.some.injEq, Prod.mk.injEq] at h
      exact h.1

theorem Animal.baseUpdateData_stock (a0 : AnimalData) (season : Season) :
    (Animal.baseUpdateData a0 season).cooldownForReproduction = a0.cooldownForReproduction ∧
    (Animal.baseUpdateData a0 season).maximumEnergy = a0.maximumEnergy := by
  unfold Animal.baseUpdateData
  dsimp only
  refine ⟨?_, ?_⟩ <;> split_ifs <;> rfl

theorem Entity.Stock.stock_write {b : Bool} {ent : Entity} {a a1 : AnimalData}
    (h : ent.Stock) (ha : ent.animal = some a) (hw : Animal.Write b a a1) :
    (ent.setAnimal a1).Stock := by
  intro x hx
  rw [Entity.setAnimal_animal _ ha] at hx
  simp only [Option.some.injEq] at hx
  subst hx
  have h0 := h a ha
  cases hw with
  | energy => exact h0
  | meals => exact h0
  | conceive => exact h0
  | born => exact h0
  | base =>
    rw [(Animal.baseUpdateData_stock _ _).1, (Animal.baseUpdateData_stock _ _).2]
    exact h0

theorem Entity.Constructed.stock {ent : Entity} (h : ent.Constructed) : ent.Stock := by
  cases h with
  | plant r c => exact fun a ha => (by cases ha)
  | herbivore gen r c g =>
    have hk : (Herbivore.new gen r c g).1.animal.map (fun a =>
        (a.cooldownForReproduction, a.maximumEnergy)) = some (1, 120) := rfl
    intro a ha
    rw [ha] at hk
    simp only [Option.map_some', Option.some.injEq, Prod.mk.injEq] at hk
    exact hk
  | carnivore gen r c g =>
    have hk : (Carnivore.new gen r c g).1.animal.map (fun a =>
        (a.cooldownForReproduction, a.maximumEnergy)) = some (1, 120) := rfl
    intro a ha
    rw [ha] at hk
    simp only [Option.map_some', Option.some.injEq, Prod.mk.injEq] at hk
    exact hk

/-- No step of the tick engine writes `cooldownForReproduction` or `maximumEnergy`. -/
theorem World.Trace.keeps_stock {b : Bool} {w w1 : World} (h : World.Trace b w w1)
    (e : EntityId) (hs : (w.heap e).Stock) : (w1.heap e).Stock :=
  World.Trace.keeps_one Entity.Stock
    (fun _ _ _ hP ha hw => hP.stock_write ha hw)
    (fun ent p hP a ha => hP a (by rw [← Entity.setPlant_animal ent p]; exact ha))
    (fun x y hxy hP a ha => hP a (by rw [← Entity.animal_of_kind hxy.placed_kind]; exact ha))
    (fun _ hc => hc.stock) h e hs

/-- What follows the birth block in the same `Animal::update` for an animal whose
cooldown is running: the mate phase does nothing, the move phase returns, and the animal
is not pregnant at the end. -/
theorem Animal.rest_after_birth (w1 : World) (self : EntityId) (a1 : AnimalData)
    (ha1 : (w1.heap self).animal = some a1) (hcd : a1.currentCooldownForReproduction ≠ 0)
    (hp : a1.currentlyPregnant = false) (season : Season) :
    ∃ w6, Animal.ifAlive self (fun u => Animal.matePhase u self season) w1 = some w1 ∧
      Animal.ifAlive self (fun u => Animal.movePhase u self season) w1 = some w6 ∧
      (w6.heap self).pregnant = false := by
  obtain ⟨w6, h6, hb⟩ := Animal.movePhase_total w1 self season a1 ha1
  refine ⟨w6, Animal.matePhase_skip w1 self season a1 ha1 hcd, h6, ?_⟩
  rw [Entity.pregnant_of_brood (hb self)]
  unfold Entity.pregnant
  rw [ha1]
  exact hp

/-- C31.  The costs of a birth.  Let `w` be the world in which `Animal::update` of an
allocated living animal (of either species) arrives at its birth block, pregnant and
with `currentGestationProgress >= periodOfGestation`, the members
`cooldownForReproduction` and `maximumEnergy` having the values 1 and 120 that both
constructors give them and that no step of the engine writes.  Then the birth block
returns a world `w1` in which the members `a1` of the mother have
`currentCooldownForReproduction = 1`, `currentEnergy` lower by 40 than before the block,
`currentlyPregnant = false` and `currentGestationProgress = 0`.  When the new energy is
`<= 0` she is dead in `w1`, the natural-death counter of her species is 1 higher than in
`w` and that of the other species is as in `w`; when it is positive she is alive and both
counters are as in `w`.  In the rest of that update the mate phase does nothing, the move
phase returns, and she is not pregnant when the update returns. -/
theorem birth_costs_and_cooldown (w : World) (self : EntityId) (a : AnimalData)
    (ha : (w.heap self).animal = some a) (hal : (w.heap self).is_alive = true)
    (hself : self < w.nextId) (hp : a.currentlyPregnant = true)
    (hg : a.periodOfGestation ≤ a.currentGestationProgress)
    (hcd : a.cooldownForReproduction = 1) (hmax : a.maximumEnergy = 120) :
    (∃ (w1 : World) (a1 : AnimalData), Animal.birthPhase w self = some w1 ∧
      (w1.heap self).animal = some a1 ∧
      a1.currentCooldownForReproduction = 1 ∧ a1.currentEnergy = a.currentEnergy - 40 ∧
      a1.currentlyPregnant = false ∧ a1.currentGestationProgress = 0 ∧
      (a.currentEnergy - 40 ≤ 0 →
        (w1.heap self).is_alive = false ∧
        ((w.heap self).getType = .HERBIVORE →
          w1.stats.herbivoresDiedNatural = w.stats.herbivoresDiedNatural + 1 ∧
          w1.stats.carnivoresDiedNatural = w.stats.carnivoresDiedNatural) ∧
        ((w.heap self).getType = .CARNIVORE →
          w1.stats.carnivoresDiedNatural = w.stats.carnivoresDiedNatural + 1 ∧
          w1.stats.herbivoresDiedNatural = w.stats.herbivoresDiedNatural)) ∧
      (0 < a.currentEnergy - 40 →
        (w1.heap self).is_alive = true ∧
        w1.stats.herbivoresDiedNatural = w.stats.herbivoresDiedNatural ∧
        w1.stats.carnivoresDiedNatural = w.stats.carnivoresDiedNatural) ∧
      ∀ season : Season, ∃ w6,
        Animal.ifAlive self (fun u => Animal.matePhase u self season) w1 = some w1 ∧
        Animal.ifAlive self (fun u => Animal.movePhase u self season) w1 = some w6 ∧
        (w6.heap self).pregnant = false ∧
        ∀ w0 wa : World, Animal.baseUpdate w0 self season = some wa →
          Animal.ifAlive self (fun u => Animal.eatPhase u self season) wa = some w →
          Animal.update w0 self season = some w6) ∧
    (∀ s : Simulation, SimReachable s → ∀ e : EntityId, (s.world.heap e).Stock) ∧
    (∀ (w2 w3 : World) (e : EntityId) (season : Season),
      (∀ x : EntityId, (w2.heap x).Stock) → w2.update e season = some w3 →
      ∀ x : EntityId, (w3.heap x).Stock) := by
  obtain ⟨wb, hwb, hbirths⟩ := Animal.giveBirth_births w self a ha hal
  have hsame := hbirths.old self hself
  have main : ∃ (w1 : World) (a1 : AnimalData), Animal.birthPhase w self = some w1 ∧
      (w1.heap self).animal = some a1 ∧
      a1.currentCooldownForReproduction = 1 ∧ a1.currentEnergy = a.currentEnergy - 40 ∧
      a1.currentlyPregnant = false ∧ a1.currentGestationProgress = 0 ∧
      (a.currentEnergy - 40 ≤ 0 →
        (w1.heap self).is_alive = false ∧
        ((w.heap self).getType = .HERBIVORE →
          w1.stats.herbivoresDiedNatural = w.stats.herbivoresDiedNatural + 1 ∧
          w1.stats.carnivoresDiedNatural = w.stats.carnivoresDiedNatural) ∧
        ((w.heap self).getType = .CARNIVORE →
          w1.stats.carnivoresDiedNatural = w.stats.carnivoresDiedNatural + 1 ∧
          w1.stats.herbivoresDiedNatural = w.stats.herbivoresDiedNatural)) ∧
      (0 < a.currentEnergy - 40 →
        (w1.heap self).is_alive = true ∧
        w1.stats.herbivoresDiedNatural = w.stats.herbivoresDiedNatural ∧
        w1.stats.carnivoresDiedNatural = w.stats.carnivoresDiedNatural) := by
    unfold Animal.birthPhase
    rw [ha]
    simp only [Option.bind_eq_bind, Option.some_bind]
    rw [if_pos ⟨hp, hg⟩, hwb]
    simp only [Option.some_bind]
    rw [hsame, ha]
    simp only [Option.some_bind]
    have f1 : ({ a with
        currentlyPregnant := false, currentGestationProgress := 0,
        currentCooldownForReproduction := a.cooldownForReproduction,
        currentEnergy := a.currentEnergy - Int.tdiv a.maximumEnergy 3 } :
          AnimalData).currentCooldownForReproduction = 1 := hcd
    have f2 : ({ a with
        currentlyPregnant := false, currentGestationProgress := 0,
        currentCooldownForReproduction := a.cooldownForReproduction,
        currentEnergy := a.currentEnergy - Int.tdiv a.maximumEnergy 3 } :
          AnimalData).currentEnergy = a.currentEnergy - 40 := by
      show a.currentEnergy - Int.tdiv a.maximumEnergy 3 = a.currentEnergy - 40
      rw [hmax]
      rfl
    have f3 : ({ a with
        currentlyPregnant := false, currentGestationProgress := 0,
        currentCooldownForReproduction := a.cooldownForReproduction,
        currentEnergy := a.currentEnergy - Int.tdiv a.maximumEnergy 3 } :
          AnimalData).currentlyPregnant = false := rfl
    have f4 : ({ a with
        currentlyPregnant := false, currentGestationProgress := 0,
        currentCooldownForReproduction := a.cooldownForReproduction,
        currentEnergy := a.currentEnergy - Int.tdiv a.maximumEnergy 3 } :
          AnimalData).currentGestationProgress = 0 := rfl
    generalize ({ a with
        currentlyPregnant := false, currentGestationProgress := 0,
        currentCooldownForReproduction := a.cooldownForReproduction,
        currentEnergy := a.currentEnergy - Int.tdiv a.maximumEnergy 3 } : AnimalData) = a3
      at f1 f2 f3 f4 ⊢
    have hmod : (wb.modify self (fun e => e.setAnimal a3)).heap self =
        (w.heap self).setAnimal a3 := by
      rw [World.modify_heap_self, hsame]
    have halive : ((wb.modify self (fun e => e.setAnimal a3)).heap self).is_alive = true := by
      rw [hmod, Entity.setAnimal_is_alive]
      exact hal
    have hanim : ((wb.modify self (fun e => e.setAnimal a3)).heap self).animal = some a3 := by
      rw [hmod]
      exact Entity.setAnimal_animal _ ha
    have htype : ((wb.modify self (fun e => e.setAnimal a3)).heap self).getType =
        (w.heap self).getType := by
      rw [hmod]
      exact Entity.setAnimal_getType _ _
    have f5 : a.currentEnergy - Int.tdiv a.maximumEnergy 3 = a.currentEnergy - 40 := by
      rw [hmax]
      rfl
    by_cases hE : a.currentEnergy - Int.tdiv a.maximumEnergy 3 ≤ 0
    · rw [if_pos ⟨hE, halive⟩]
      obtain ⟨d1, d2⟩ := Animal.die_natural (wb.modify self (fun e => e.setAnimal a3)) self
        halive
      rw [htype] at d1 d2
      refine ⟨_, a3, rfl, ?_, f1, f2, f3, f4, fun _ => ⟨?_, fun ht => ?_, fun ht => ?_⟩,
        fun hpos => ?_⟩
      · rw [Animal.die_heap, World.modify_heap_self]
        exact hanim
      · rw [Animal.die_heap, World.modify_heap_self]
        rfl
      · rw [d1, d2, if_pos ht, if_neg (by rw [ht]; decide)]
        exact ⟨by rw [← hbirths.herbivoresDied]; rfl, by rw [← hbirths.carnivoresDied]; rfl⟩
      · rw [d1, d2, if_pos ht, if_neg (by rw [ht]; decide)]
        exact ⟨by rw [← hbirths.carnivoresDied]; rfl, by rw [← hbirths.herbivoresDied]; rfl⟩
      · rw [f5] at hE
        omega
    · rw [if_neg (fun h => hE h.1)]
      refine ⟨_, a3, rfl, hanim, f1, f2, f3, f4, fun hneg => ?_, fun _ => ⟨halive, ?_, ?_⟩⟩
      · rw [f5] at hE
        omega
      · rw [← hbirths.herbivoresDied]
        rfl
      · rw [← hbirths.carnivoresDied]
        rfl
  obtain ⟨w1, a1, hbp, ha1, c1, c2, c3, c4, c5, c6⟩ := main
  refine ⟨⟨w1, a1, hbp, ha1, c1, c2, c3, c4, c5, c6, fun season => ?_⟩, fun s hs => ?_,
    fun w2 w3 e season h2 hu x => (World.world_update_trace hu).keeps_stock x (h2 x)⟩
  · obtain ⟨w6, m1, m2, m3⟩ := Animal.rest_after_birth w1 self a1 ha1
      (by rw [c1]; decide) c3 season
    refine ⟨w6, m1, m2, m3, fun w0 wa hb h3 => ?_⟩
    have h0 : ¬ ((!(w.heap self).isAlive) = true) := by simp [Entity.isAlive, hal]
    rw [Animal.update_eq_phases, hb, Option.some_bind, h3, Option.some_bind,
      Animal.ifAlive_alive _ h0, hbp, Option.some_bind, m1, Option.some_bind]
    exact m2
  · refine SimReachable.sim_keeps (fun w => ∀ e : EntityId, (w.heap e).Stock)
      (fun gen e a ha => (by cases ha))
      (fun w e season w1 hw hu x => (World.world_update_trace hu).keeps_stock x (hw x))
      (fun w w1 ht hw x => ht.keeps_stock x (hw x)) hs

/-- The due mother of `birthWorld`, with energy 60: after the birth block her cooldown
is 1, her energy 20, she is not pregnant, and she is alive. -/
theorem birth_costs_and_cooldown_witness :
    ∃ (w1 : World) (a1 : AnimalData), Animal.birthPhase birthWorld 0 = some w1 ∧
      (w1.heap 0).animal = some a1 ∧ a1.currentCooldownForReproduction = 1 ∧
      a1.currentEnergy = 20 ∧ a1.currentlyPregnant = false ∧
      (w1.heap 0).is_alive = true := by
  obtain ⟨⟨w1, a1, h1, h2, h3, h4, h5, _, _, h8, _⟩, _⟩ :=
    birth_costs_and_cooldown birthWorld 0 dueMother rfl rfl (by decide) rfl (by decide) rfl rfl
  exact ⟨w1, a1, h1, h2, h3, h4, h5, (h8 (by decide)).1⟩

/-! ## C33 : emigration -/

theorem World.Emigrated.emigrated_none (t : EntityType) {w w1 : World} (hs : w.Sited)
    (hh : w1.heap = w.heap) (hn : w1.nextId = w.nextId) (hg : w1.grid = w.grid)
    (hc : w1.stats.deathCounters = w.stats.deathCounters) : World.Emigrated t w w1 [] :=
  { sited := hs.of_frame (Nat.le_of_eq hn.symm) hg (fun e _ => by rw [hh]; exact ⟨rfl, rfl, rfl⟩)
    alive := fun x hx => absurd hx (List.not_mem_nil _)
    gone := fun x hx => absurd hx (List.not_mem_nil _)
    others := fun e _ => by rw [hh]
    counters := hc
    otherRegistries := fun t1 _ => by rw [hg]
    absent := fun x hx => absurd hx (List.not_mem_nil _)
    kept := fun p hp _ _ => by rw [hg]; exact hp
    sub := fun p hp => by rw [← hg]; exact hp
    unheld := fun x hx => absurd hx (List.not_mem_nil _)
    cellsSub := fun r c e _ h => by rw [← hg]; exact h
    unchanged := fun _ => hg }

theorem World.Emigrated.emigrated_chain {t : EntityType} {w w1 w2 : World}
    {em1 em2 : List EntityId} (h1 : World.Emigrated t w w1 em1)
    (h2 : World.Emigrated t w1 w2 em2) : World.Emigrated t w w2 (em1 ++ em2) := by
  have hdis : ∀ x ∈ em2, x ∉ em1 := by
    intro x hx2 hx1
    have ha := (h2.alive x hx2).2
    rw [h1.gone x hx1] at ha
    have ha2 : false = true := ha
    cases ha2
  refine
    { sited := h2.sited
      alive := fun x hx => ?_
      gone := fun x hx => ?_
      others := fun e he => ?_
      counters := by rw [h2.counters, h1.counters]
      otherRegistries := fun t1 ht => by rw [h2.otherRegistries t1 ht, h1.otherRegistries t1 ht]
      absent := fun x hx hmem => ?_
      kept := fun p hp hal hne => ?_
      sub := fun p hp => h1.sub p (h2.sub p hp)
      unheld := fun x hx r c hv hc => ?_
      cellsSub := fun r c e hv h => h1.cellsSub r c e hv (h2.cellsSub r c e hv h)
      unchanged := fun he => ?_ }
  · rcases List.mem_append.mp hx with hx | hx
    · exact h1.alive x hx
    · obtain ⟨a1, a2⟩ := h2.alive x hx
      rw [h1.others x (hdis x hx)] at a2
      exact ⟨h1.sub x a1, a2⟩
  · rcases List.mem_append.mp hx with hx | hx
    · have hx2 : x ∉ em2 := fun h => hdis x h hx
      rw [h2.others x hx2, h1.gone x hx]
    · rw [h2.gone x hx, h1.others x (hdis x hx)]
  · rw [h2.others e (fun h => he (List.mem_append_right _ h)),
      h1.others e (fun h => he (List.mem_append_left _ h))]
  · rcases List.mem_append.mp hx with hx | hx
    · exact h1.absent x hx (h2.sub x hmem)
    · exact h2.absent x hx hmem
  · have hp1 := h1.kept p hp hal (fun h => hne (List.mem_append_left _ h))
    refine h2.kept p hp1 ?_ (fun h => hne (List.mem_append_right _ h))
    rw [h1.others p (fun h => hne (List.mem_append_left _ h))]
    exact hal
  · rcases List.mem_append.mp hx with hx | hx
    · exact h1.unheld x hx r c hv (h2.cellsSub r c x hv hc)
    · exact h2.unheld x hx r c hv hc
  · obtain ⟨e1, e2⟩ := List.append_eq_nil.mp he
    rw [h2.unchanged e2, h1.unchanged e1]

/-- `removeEntity` of a living registered animal in a world whose cell map and registries
agree with the stored positions. -/
theorem World.removeEntity_emigrated {t : EntityType} {w : World} {x : EntityId}
    (hs : w.Sited) (hx : x ∈ w.grid.registry t) (hal : (w.heap x).is_alive = true) :
    ∃ w1, w.removeEntity (some x) = some w1 ∧ World.Emigrated t w w1 [x] := by
  obtain ⟨hlt, htype, hv⟩ := hs.listed t x hx
  have hrem := World.removeEntity_some w x
  rw [if_pos hv, htype] at hrem
  refine ⟨_, hrem, ?_⟩
  have hsited := hs.sited_removeEntity hrem
  refine
    { sited := hsited
      alive := fun y hy => ?_
      gone := fun y hy => ?_
      others := fun e he => ?_
      counters := rfl
      otherRegistries := fun t1 ht => ?_
      absent := fun y hy => ?_
      kept := fun p hp hpal hne => ?_
      sub := fun p hp => ?_
      unheld := fun y hy r c hvr hc => ?_
      cellsSub := fun r c e hvr hc => ?_
      unchanged := fun he => (by cases he) }
  · rw [List.mem_singleton.mp hy]
    exact ⟨hx, hal⟩
  · rw [List.mem_singleton.mp hy]
    exact World.modify_heap_self w x Entity.kill
  · exact World.modify_heap_other w Entity.kill (fun h => he (by rw [h]; exact List.mem_singleton.mpr rfl))
  · show (Grid.eraseIf _ t _).registry t1 = _
    rw [Grid.registry_eraseIf_other _ t t1 _ ht, Grid.registry_cleared]
  · rw [List.mem_singleton.mp hy]
    exact Grid.not_mem_registry_eraseIf _ t _ x (by simp)
  · show p ∈ (Grid.eraseIf _ t _).registry t
    rw [Grid.registry_eraseIf_same, List.mem_filter, Grid.registry_cleared]
    refine ⟨hp, ?_⟩
    have hpx : p ≠ x := fun h => hne (by rw [h]; exact List.mem_singleton.mpr rfl)
    rw [World.modify_heap_other w Entity.kill hpx, hpal]
    simp [hpx]
  · have hp2 : p ∈ (Grid.eraseIf _ t _).registry t := hp
    have hp3 := Grid.mem_registry_eraseIf hp2
    rw [Grid.registry_cleared] at hp3
    exact hp3
  · rw [List.mem_singleton.mp hy] at hc
    have hc2 : (Grid.eraseIf _ t _).cells_grid r c = some x := hc
    rw [Grid.cells_eraseIf] at hc2
    obtain ⟨hold, hnot⟩ := Grid.cells_cleared hc2
    obtain ⟨_, h2, h3⟩ := hs.held r c x hvr hold
    apply hnot
    rw [h2, h3]
    exact ⟨hold, rfl, rfl⟩
  · have hc2 : (Grid.eraseIf _ t _).cells_grid r c = some e := hc
    rw [Grid.cells_eraseIf] at hc2
    exact (Grid.cells_cleared hc2).1

theorem Simulation.emigrateAll_cons (name : String) (x : EntityId) (rest : List EntityId)
    (w : World) (k : Int) :
    Simulation.emigrateAll name (x :: rest) (w, k) =
      if (w.heap x).isAlive = true then
        ((w.addMonthlyEvent (name ++ " at ("
          ++ posText (w.heap x).getR (w.heap x).getC ++ ") emigrated.")).removeEntity
            (some x)).bind (fun w2 => Simulation.emigrateAll name rest (w2, k + 1))
      else Simulation.emigrateAll name rest (w, k) := by
  rw [Simulation.emigrateAll]
  rfl

/-- The removal loops of `handleMigration` never fault; they remove the picked animals
that are alive when their turn comes and count them. -/
theorem Simulation.emigrateAll_emigrated (t : EntityType) (name : String)
    (l : List EntityId) :
    ∀ (w : World) (k : Int), w.Sited →
      (∀ x ∈ l, (w.heap x).is_alive = true → x ∈ w.grid.registry t) →
      ∃ (w1 : World) (em : List EntityId),
        Simulation.emigrateAll name l (w, k) = some (w1, k + (em.length : Int)) ∧
        em.length ≤ l.length ∧ World.Emigrated t w w1 em := by
  induction l with
  | nil =>
    intro w k hs _
    refine ⟨w, [], ?_, Nat.le_refl _, World.Emigrated.emigrated_none t hs rfl rfl rfl rfl⟩
    simp [Simulation.emigrateAll]
  | cons x rest ih =>
    intro w k hs hreg
    rw [Simulation.emigrateAll_cons]
    by_cases hal : (w.heap x).isAlive = true
    · rw [if_pos hal]
      have hal1 : (w.heap x).is_alive = true := hal
      have hx := hreg x (List.mem_cons_self _ _) hal1
      have hs0 : (w.addMonthlyEvent (name ++ " at ("
          ++ posText (w.heap x).getR (w.heap x).getC ++ ") emigrated.")).Sited :=
        hs.of_frame (Nat.le_refl _) rfl (fun _ _ => ⟨rfl, rfl, rfl⟩)
      obtain ⟨w2, h2, e2⟩ := World.removeEntity_emigrated (t := t) hs0 hx hal1
      have e0 : World.Emigrated t w (w.addMonthlyEvent (name ++ " at ("
          ++ posText (w.heap x).getR (w.heap x).getC ++ ") emigrated.")) [] :=
        World.Emigrated.emigrated_none t hs rfl rfl rfl rfl
      have e2w : World.Emigrated t w w2 [x] := e0.emigrated_chain e2
      rw [h2, Option.some_bind]
      have hreg2 : ∀ y ∈ rest, (w2.heap y).is_alive = true → y ∈ w2.grid.registry t := by
        intro y hy hyal
        have hyx : y ∉ [x] := by
          intro hm
          rw [List.mem_singleton.mp hm, e2w.gone x (List.mem_singleton.mpr rfl)] at hyal
          have ha2 : false = true := hyal
          cases ha2
        have hyal0 : (w.heap y).is_alive = true := by
          rw [← e2w.others y hyx]
          exact hyal
        exact e2w.kept y (hreg y (List.mem_cons_of_mem _ hy) hyal0) hyal0 hyx
      obtain ⟨w1, em, h1, hlen, e1⟩ := ih w2 (k + 1) e2w.sited hreg2
      refine ⟨w1, x :: em, ?_, ?_, e2w.emigrated_chain e1⟩
      · rw [h1]
        simp only [List.length_cons, Nat.cast_add, Nat.cast_one]
        congr 2
        ring
      · simp only [List.length_cons]
        omega
    · rw [if_neg hal]
      obtain ⟨w1, em, h1, hlen, e1⟩ := ih w k hs
        (fun y hy hyal => hreg y (List.mem_cons_of_mem _ hy) hyal)
      exact ⟨w1, em, h1, Nat.le_succ_of_le hlen, e1⟩

theorem Simulation.registryAt_some (registry : List EntityId) (idx : Int) (h0 : 0 ≤ idx)
    (h1 : idx ≤ (registry.length : Int) - 1) :
    ∃ x, Simulation.registryAt registry idx = some x ∧ x ∈ registry := by
  unfold Simulation.registryAt
  rw [if_neg (by omega)]
  have hlt : idx.toNat < registry.length := by omega
  rw [List.getElem?_eq_getElem hlt]
  exact ⟨_, rfl, List.getElem_mem _⟩

/-- The loops that pick the emigrants never fault; they pick members of the registry, at
most as many as their bound allows. -/
theorem Simulation.pickEmigrants_spec (registry : List EntityId) (emigrate : Int) :
    ∀ (fuel : Nat) (i : Int) (gen : List Nat) (temp : List EntityId), 0 ≤ i →
      (∀ x ∈ temp, x ∈ registry) →
      ∃ temp1 gen1,
        Simulation.pickEmigrants registry emigrate fuel i gen temp = some (temp1, gen1) ∧
        (∀ x ∈ temp1, x ∈ registry) ∧ temp1.length ≤ temp.length + fuel := by
  intro fuel
  induction fuel with
  | zero =>
    intro i gen temp _ ht
    exact ⟨temp, gen, rfl, ht, Nat.le_refl _⟩
  | succ n ih =>
    intro i gen temp hi ht
    unfold Simulation.pickEmigrants
    by_cases hc : i < emigrate ∧ i < registry.length
    · rw [if_pos hc]
      dsimp only
      have hr := getRandomInt_mem gen 0 ((registry.length : Int) - 1) (by omega)
      obtain ⟨x, hx, hxm⟩ := Simulation.registryAt_some registry _ hr.1 hr.2
      rw [hx]
      simp only [Option.bind_eq_bind, Option.some_bind]
      obtain ⟨temp1, gen1, h1, h2, h3⟩ := ih (i + 1)
        (getRandomInt gen 0 ((registry.length : Int) - 1)).2 (temp ++ [x]) (by omega)
        (fun y hy => by
          rcases List.mem_append.mp hy with hy | hy
          · exact ht y hy
          · rw [List.mem_singleton.mp hy]
            exact hxm)
      refine ⟨temp1, gen1, h1, h2, ?_⟩
      rw [List.length_append, List.length_singleton] at h3
      omega
    · rw [if_neg hc]
      exact ⟨temp, gen, rfl, ht, by omega⟩

theorem List.exists_mem_not_mem_of_length_lt {l em : List EntityId} (hnd : l.Nodup)
    (hlen : em.length < l.length) : ∃ p ∈ l, p ∉ em := by
  by_contra hcon
  have hsub : l ⊆ em := by
    intro p hp
    by_contra hpe
    exact hcon ⟨p, hp, hpe⟩
  have := (List.Nodup.subperm hnd hsub).length_le
  omega

/-- The draw of the number of emigrants: between 0 and the cap, and 0 at or below the
threshold. -/
theorem Simulation.emigrateCount_bounds (gen : List Nat) (n : Nat) (thr : Nat) (d cap : Int)
    (hd : 0 < d) (hcap : 0 ≤ cap) :
    0 ≤ (if n > thr then getRandomInt gen 0 (min (Int.tdiv (n : Int) d) cap)
        else (0, gen)).1 ∧
      (if n > thr then getRandomInt gen 0 (min (Int.tdiv (n : Int) d) cap)
        else (0, gen)).1 ≤ min (Int.tdiv (n : Int) d) cap ∧
      (n ≤ thr → (if n > thr then getRandomInt gen 0 (min (Int.tdiv (n : Int) d) cap)
        else (0, gen)).1 = 0) := by
  have h0 : 0 ≤ Int.tdiv (n : Int) d := Int.tdiv_nonneg (Int.ofNat_nonneg n) (le_of_lt hd)
  have hm : (0 : Int) ≤ min (Int.tdiv (n : Int) d) cap := le_min h0 hcap
  by_cases hn : n > thr
  · rw [if_pos hn]
    have hr := getRandomInt_mem gen 0 (min (Int.tdiv (n : Int) d) cap) hm
    exact ⟨hr.1, hr.2, fun h => absurd hn (by omega)⟩
  · rw [if_neg hn]
    exact ⟨le_refl _, hm, fun _ => rfl⟩

/-- The two removal loops of `handleMigration` one after the other. -/
theorem World.AutumnMigration.of_emigrated {w wa w1 wb w2 w3 : World}
    {emH emC : List EntityId} (hs : w.Sited)
    (ha : World.Emigrated .HERBIVORE w wa []) (h1 : World.Emigrated .HERBIVORE wa w1 emH)
    (hb : World.Emigrated .CARNIVORE w1 wb []) (h2 : World.Emigrated .CARNIVORE wb w2 emC)
    (hh : w3.heap = w2.heap) (hg : w3.grid = w2.grid)
    (hc : w3.stats.deathCounters = w2.stats.deathCounters)
    (capH : (emH.length : Int) ≤ min (Int.tdiv (w.grid.herbivores_list.length : Int) 4) 2)
    (capC : (emC.length : Int) ≤ min (Int.tdiv (w.grid.carnivores_list.length : Int) 5) 1)
    (noneH : w.grid.herbivores_list.length ≤ 2 → emH = [])
    (noneC : w.grid.carnivores_list.length ≤ 1 → emC = []) :
    World.AutumnMigration w w3 emH emC := by
  have eH : World.Emigrated .HERBIVORE w w1 emH := ha.emigrated_chain h1
  have eC : World.Emigrated .CARNIVORE w1 w2 emC := hb.emigrated_chain h2
  have hHC : ∀ x ∈ emC, x ∉ emH := by
    intro x hxC hxH
    have h3 := (eC.alive x hxC).2
    rw [eH.gone x hxH] at h3
    have h4 : false = true := h3
    cases h4
  have selH : ∀ x ∈ emH, x ∈ w.grid.herbivores_list ∧ (w.heap x).is_alive = true :=
    fun x hx => eH.alive x hx
  have selC : ∀ x ∈ emC, x ∈ w.grid.carnivores_list ∧ (w.heap x).is_alive = true := by
    intro x hx
    obtain ⟨a1, a2⟩ := eC.alive x hx
    rw [eH.others x (hHC x hx)] at a2
    have a3 : x ∈ w1.grid.registry .CARNIVORE := a1
    rw [eH.otherRegistries .CARNIVORE (by decide)] at a3
    exact ⟨a3, a2⟩
  have keptH : ∀ p ∈ w.grid.herbivores_list, (w.heap p).is_alive = true → p ∉ emH →
      p ∈ w3.grid.herbivores_list := by
    intro p hp hal hne
    have h3 : p ∈ w1.grid.registry .HERBIVORE := eH.kept p hp hal hne
    rw [← eC.otherRegistries .HERBIVORE (by decide)] at h3
    rw [hg]
    exact h3
  have keptC : ∀ p ∈ w.grid.carnivores_list, (w.heap p).is_alive = true → p ∉ emC →
      p ∈ w3.grid.carnivores_list := by
    intro p hp hal hne
    have h3 : p ∈ w1.grid.registry .CARNIVORE := by
      rw [eH.otherRegistries .CARNIVORE (by decide)]
      exact hp
    have h4 : (w1.heap p).is_alive = true := by
      have hpH : p ∉ emH := by
        intro hx
        have h5 := (hs.listed .CARNIVORE p hp).2.1
        have h6 := (hs.listed .HERBIVORE p (selH p hx).1).2.1
        rw [h5] at h6
        cases h6
      rw [eH.others p hpH]
      exact hal
    rw [hg]
    exact eC.kept p h3 h4 hne
  refine
    { capH := capH
      capC := capC
      noneH := noneH
      noneC := noneC
      selectedH := selH
      selectedC := selC
      gone := fun x hx => ?_
      others := fun e he => ?_
      counters := by rw [hc, eC.counters, eH.counters]
      plants := ?_
      keptH := keptH
      keptC := keptC
      subH := fun p hp => ?_
      subC := fun p hp => ?_
      nonemptyH := fun hnd hall hne => ?_
      nonemptyC := fun hnd hall hne => ?_ }
  · rw [hh, hg]
    rcases List.mem_append.mp hx with hx | hx
    · have hxC : x ∉ emC := fun h => hHC x h hx
      have htype := (hs.listed .HERBIVORE x (selH x hx).1).2.1
      refine ⟨by rw [eC.others x hxC, eH.gone x hx]; rfl, fun t hmem => ?_,
        fun r c hv hcell => eH.unheld x hx r c hv (eC.cellsSub r c x hv hcell)⟩
      by_cases ht : t = .HERBIVORE
      · rw [ht, eC.otherRegistries .HERBIVORE (by decide)] at hmem
        exact eH.absent x hx hmem
      · by_cases ht2 : t = .CARNIVORE
        · rw [ht2] at hmem
          have h3 := eC.sub x hmem
          rw [eH.otherRegistries .CARNIVORE (by decide)] at h3
          have h4 := (hs.listed .CARNIVORE x h3).2.1
          rw [htype] at h4
          cases h4
        · rw [eC.otherRegistries t ht2, eH.otherRegistries t ht] at hmem
          have h4 := (hs.listed t x hmem).2.1
          rw [htype] at h4
          exact ht h4.symm
    · have htype := (hs.listed .CARNIVORE x (selC x hx).1).2.1
      refine ⟨by rw [eC.gone x hx]; rfl, fun t hmem => ?_,
        fun r c hv hcell => eC.unheld x hx r c hv hcell⟩
      by_cases ht2 : t = .CARNIVORE
      · rw [ht2] at hmem
        exact eC.absent x hx hmem
      · rw [eC.otherRegistries t ht2] at hmem
        by_cases ht : t = .HERBIVORE
        · rw [ht] at hmem
          have h4 := (hs.listed .HERBIVORE x (eH.sub x hmem)).2.1
          rw [htype] at h4
          cases h4
        · rw [eH.otherRegistries t ht] at hmem
          have h4 := (hs.listed t x hmem).2.1
          rw [htype] at h4
          exact ht2 h4.symm
  · rw [hh, eC.others e (fun h => he (List.mem_append_right _ h)),
      eH.others e (fun h => he (List.mem_append_left _ h))]
  · rw [hg]
    have h3 := eC.otherRegistries .PLANT (by decide)
    have h4 := eH.otherRegistries .PLANT (by decide)
    exact h3.trans h4
  · rw [hg] at hp
    have h3 : p ∈ w2.grid.registry .HERBIVORE := hp
    rw [eC.otherRegistries .HERBIVORE (by decide)] at h3
    exact eH.sub p h3
  · rw [hg] at hp
    have h3 := eC.sub p hp
    rw [eH.otherRegistries .CARNIVORE (by decide)] at h3
    exact h3
  · have hlt : emH.length < w.grid.herbivores_list.length := by
      by_cases h2 : w.grid.herbivores_list.length ≤ 2
      · rw [noneH h2]
        exact List.length_pos.mpr hne
      · have e4 := Int.tdiv_eq_ediv (Int.ofNat_nonneg w.grid.herbivores_list.length)
          (show (0 : Int) ≤ 4 by decide)
        have h5 := le_trans capH (min_le_left _ _)
        rw [e4] at h5
        omega
    obtain ⟨p, hp, hpe⟩ := List.exists_mem_not_mem_of_length_lt hnd hlt
    exact List.ne_nil_of_mem (keptH p hp (hall p hp) hpe)
  · have hlt : emC.length < w.grid.carnivores_list.length := by
      by_cases h2 : w.grid.carnivores_list.length ≤ 1
      · rw [noneC h2]
        exact List.length_pos.mpr hne
      · have e4 := Int.tdiv_eq_ediv (Int.ofNat_nonneg w.grid.carnivores_list.length)
          (show (0 : Int) ≤ 5 by decide)
        have h5 := le_trans capC (min_le_left _ _)
        rw [e4] at h5
        omega
    obtain ⟨p, hp, hpe⟩ := List.exists_mem_not_mem_of_length_lt hnd hlt
    exact List.ne_nil_of_mem (keptC p hp (hall p hp) hpe)

theorem Simulation.handleMigration_autumn (s : Simulation)
    (hA : s.current_Season_sim = .AUTUMN) (hs : s.world.Sited) :
    ∃ (s1 : Simulation) (emH emC : List EntityId), s.handleMigration = some s1 ∧
      World.AutumnMigration s.world s1.world emH emC := by
  unfold Simulation.handleMigration
  rw [if_neg (by rw [hA]; decide), if_pos hA]
  dsimp only
  obtain ⟨bh0, bh1, bh2⟩ := Simulation.emigrateCount_bounds s.world.gen
    s.world.grid.herbivores_list.length 2 4 2 (by decide) (by decide)
  generalize (if s.world.grid.herbivores_list.length > 2 then
    getRandomInt s.world.gen 0 (min (Int.tdiv (s.world.grid.herbivores_list.length : Int) 4) 2)
    else (0, s.world.gen)) = EH at bh0 bh1 bh2 ⊢
  obtain ⟨bc0, bc1, bc2⟩ := Simulation.emigrateCount_bounds EH.2
    s.world.grid.carnivores_list.length 1 5 1 (by decide) (by decide)
  generalize (if s.world.grid.carnivores_list.length > 1 then
    getRandomInt EH.2 0 (min (Int.tdiv (s.world.grid.carnivores_list.length : Int) 5) 1)
    else (0, EH.2)) = EC at bc0 bc1 bc2 ⊢
  obtain ⟨tH, g3, hpH, hmemH, hlenH⟩ := Simulation.pickEmigrants_spec
    s.world.grid.herbivores_list EH.1 EH.1.toNat 0 EC.2 [] (le_refl _)
    (fun x hx => absurd hx (List.not_mem_nil _))
  rw [hpH]
  simp only [Option.bind_eq_bind, Option.some_bind]
  have hs0 : ({ s.world with gen := g3 } : World).Sited :=
    hs.of_frame (Nat.le_refl _) rfl (fun _ _ => ⟨rfl, rfl, rfl⟩)
  have ea : World.Emigrated .HERBIVORE s.world { s.world with gen := g3 } [] :=
    World.Emigrated.emigrated_none .HERBIVORE hs rfl rfl rfl rfl
  obtain ⟨w1, emH, h1, hl1, e1⟩ := Simulation.emigrateAll_emigrated .HERBIVORE "Herbivore" tH
    { s.world with gen := g3 } 0 hs0 (fun x hx _ => hmemH x hx)
  rw [h1]
  simp only [Option.some_bind]
  obtain ⟨tC, g4, hpC, hmemC, hlenC⟩ := Simulation.pickEmigrants_spec
    w1.grid.carnivores_list EC.1 EC.1.toNat 0 w1.gen [] (le_refl _)
    (fun x hx => absurd hx (List.not_mem_nil _))
  rw [hpC]
  simp only [Option.some_bind]
  have hs1 : ({ w1 with gen := g4 } : World).Sited :=
    e1.sited.of_frame (Nat.le_refl _) rfl (fun _ _ => ⟨rfl, rfl, rfl⟩)
  have eb : World.Emigrated .CARNIVORE w1 { w1 with gen := g4 } [] :=
    World.Emigrated.emigrated_none .CARNIVORE e1.sited rfl rfl rfl rfl
  obtain ⟨w2, emC, h2, hl2, e2⟩ := Simulation.emigrateAll_emigrated .CARNIVORE "Carnivore" tC
    { w1 with gen := g4 } (0 + (emH.length : Int)) hs1 (fun x hx _ => hmemC x hx)
  rw [h2]
  simp only [Option.some_bind, pure]
  have capH : (emH.length : Int) ≤
      min (Int.tdiv (s.world.grid.herbivores_list.length : Int) 4) 2 := by
    refine le_trans ?_ bh1
    have h5 : tH.length ≤ EH.1.toNat := by
      rw [List.length_nil, Nat.zero_add] at hlenH
      exact hlenH
    have h6 := Int.toNat_of_nonneg bh0
    omega
  have capC : (emC.length : Int) ≤
      min (Int.tdiv (s.world.grid.carnivores_list.length : Int) 5) 1 := by
    refine le_trans ?_ bc1
    have h5 : tC.length ≤ EC.1.toNat := by
      rw [List.length_nil, Nat.zero_add] at hlenC
      exact hlenC
    have h6 := Int.toNat_of_nonneg bc0
    omega
  have noneH : s.world.grid.herbivores_list.length ≤ 2 → emH = [] := by
    intro h
    have h5 := bh2 h
    have h6 : tH.length ≤ EH.1.toNat := by
      rw [List.length_nil, Nat.zero_add] at hlenH
      exact hlenH
    rw [h5] at h6
    have h7 : emH.length = 0 := by
      have : (0 : Int).toNat = 0 := rfl
      omega
    exact List.length_eq_zero.mp h7
  have noneC : s.world.grid.carnivores_list.length ≤ 1 → emC = [] := by
    intro h
    have h5 := bc2 h
    have h6 : tC.length ≤ EC.1.toNat := by
      rw [List.length_nil, Nat.zero_add] at hlenC
      exact hlenC
    rw [h5] at h6
    have h7 : emC.length = 0 := by
      have : (0 : Int).toNat = 0 := rfl
      omega
    exact List.length_eq_zero.mp h7
  refine ⟨_, emH, emC, rfl, ?_⟩
  dsimp only
  split
  · exact World.AutumnMigration.of_emigrated hs ea e1 eb e2 rfl rfl rfl capH capC noneH noneC
  · exact World.AutumnMigration.of_emigrated hs ea e1 eb e2 rfl rfl rfl capH capC noneH noneC

/-- The state `runMonthUpdates` returns is the one of the three update loops, run as one
loop over the registries as they were when the tick began. -/
theorem Simulation.runMonthUpdates_parts {s sm : Simulation}
    (h : s.runMonthUpdates = some sm) :
    ∃ s3 : Simulation, s3.world.heap = s.world.heap ∧ s3.world.nextId = s.world.nextId ∧
      s3.world.grid = s.world.grid ∧
      Simulation.updateAll s3.current_Season_sim s.world.grid.all s3.world = some sm.world := by
  unfold Simulation.runMonthUpdates at h
  dsimp only at h
  obtain ⟨s3, h3, hc⟩ := bind_some_elim h
  obtain ⟨g1, g2, g3⟩ := Simulation.determineSeason_world h3
  obtain ⟨w1, h1, hc⟩ := bind_some_elim hc
  obtain ⟨w2, h2, hc⟩ := bind_some_elim hc
  obtain ⟨w3, h3a, hc⟩ := bind_some_elim hc
  simp only [pure, Option.some.injEq] at hc
  have hg : s3.world.grid = s.world.grid := g3
  rw [hg] at h1 h2 h3a
  refine ⟨s3, g1, g2, g3, ?_⟩
  rw [← hc]
  unfold Grid.all
  rw [List.append_assoc, Simulation.updateAll_append, h1, Option.some_bind,
    Simulation.updateAll_append, h2, Option.some_bind]
  exact h3a

/-- When migration starts in a tick of a run, the cell map and the registries agree with
the stored positions, and the registries list no object twice. -/
theorem Simulation.runMonthUpdates_state {s sm : Simulation} (hr : SimReachable s)
    (h : s.runMonthUpdates = some sm) : sm.world.Sited ∧ sm.world.Registered := by
  obtain ⟨s3, g1, g2, g3, hall⟩ := Simulation.runMonthUpdates_parts h
  have t3 : World.Trace false s.world s3.world := World.Trace.trace_of_same g1 g2 g3
  have hs3 : s3.world.Sited := t3.keeps_sited hr.sim_sited
  have hreg := hr.sim_registered
  have hreg3 : s3.world.Registered := by
    unfold World.Registered
    rw [g3, g2]
    exact hreg
  have ha := Simulation.updateAll_ages _ _ hall (fun x hx => by rw [g2]; exact hreg.2 x hx)
  exact ⟨(Simulation.updateAll_trace _ _ hall).keeps_sited hs3, ha.ages_registered hreg3⟩

/-- The function `runMonthCore` is `runMonthUpdates` followed by `handleMigration`, the
cleanup loop and the population counts. -/
theorem Simulation.runMonthCore_eq (s : Simulation) :
    s.runMonthCore = s.runMonthUpdates.bind (fun sm => sm.handleMigration.bind (fun s4 =>
      (Simulation.cleanup (s4.world.grid.plants_list ++ s4.world.grid.herbivores_list ++
        s4.world.grid.carnivores_list) s4.world).bind (fun w5 =>
          some { s4 with world := { w5 with stats := { w5.stats with
            currentPlants := w5.grid.plants_list.length,
            currentHerbivores := w5.grid.herbivores_list.length,
            currentCarnivores := w5.grid.carnivores_list.length } } }))) := by
  unfold Simulation.runMonthCore Simulation.runMonthUpdates
  simp only [Option.bind_eq_bind, Option.bind_assoc, pure, Option.some_bind]

/-- C33, evaluated on the emigration scenario.  Three months are run from the stocking.
In the fourth tick, an Autumn tick, herbivores 2, 3 and 4 starve in the update loops, so
that when migration starts the herbivore registry lists four animals, `[2, 3, 4, 5]`, of
which only herbivore 5 is alive.  `handleMigration` draws an emigration count of 1, which
is `min (4 / 4) 2`, and picks herbivore 5; the `removeEntity` call that removes it also
drops the three dead herbivores from the registry.  After `handleMigration` the
herbivore registry is empty. -/
theorem emigration_empties_registry :
    ∃ s0 s1 s2 s3 sm s4 : Simulation, emigrationStocked = some s0 ∧
      s0.runMonth enterKey = some s1 ∧ s1.runMonth enterKey = some s2 ∧
      s2.runMonth enterKey = some s3 ∧ s3.runMonthUpdates = some sm ∧
      sm.current_Season_sim = .AUTUMN ∧
      sm.world.grid.herbivores_list = [2, 3, 4, 5] ∧
      (sm.world.heap 5).is_alive = true ∧
      sm.handleMigration = some s4 ∧
      (s4.world.heap 5).is_alive = false ∧
      s4.world.stats.animalsEmigrated = 1 ∧
      s4.world.grid.herbivores_list = [] := by
  have h : (emigrationStocked.bind (fun s0 => (s0.runMonth enterKey).bind (fun s1 =>
      (s1.runMonth enterKey).bind (fun s2 => (s2.runMonth enterKey).bind (fun s3 =>
        s3.runMonthUpdates.bind (fun sm => sm.handleMigration.map (fun s4 =>
          decide (sm.current_Season_sim = .AUTUMN) &&
          decide (sm.world.grid.herbivores_list = [2, 3, 4, 5]) &&
          (sm.world.heap 5).is_alive &&
          !(s4.world.heap 5).is_alive &&
          decide (s4.world.stats.animalsEmigrated = 1) &&
          decide (s4.world.grid.herbivores_list = []))))))))
      = some true := by decide!
  cases h0 : emigrationStocked with
  | none => rw [h0] at h; exact absurd h (by simp)
  | some s0 =>
    rw [h0, Option.some_bind] at h
    cases h1 : s0.runMonth enterKey with
    | none => rw [h1] at h; exact absurd h (by simp)
    | some s1 =>
      rw [h1, Option.some_bind] at h
      cases h2 : s1.runMonth enterKey with
      | none => rw [h2] at h; exact absurd h (by simp)
      | some s2 =>
        rw [h2, Option.some_bind] at h
        cases h3 : s2.runMonth enterKey with
        | none => rw [h3] at h; exact absurd h (by simp)
        | some s3 =>
          rw [h3, Option.some_bind] at h
          cases hm : s3.runMonthUpdates with
          | none => rw [hm] at h; exact absurd h (by simp)
          | some sm =>
            rw [hm, Option.some_bind] at h
            cases h4 : sm.handleMigration with
            | none => rw [h4] at h; exact absurd h (by simp)
            | some s4 =>
              rw [h4] at h
              simp only [Option.map_some', Option.some.injEq, Bool.and_eq_true,
                decide_eq_true_eq, Bool.not_eq_true'] at h
              obtain ⟨⟨⟨⟨⟨g0, g1⟩, g2⟩, g3⟩, g4⟩, g5⟩ := h
              exact ⟨s0, s1, s2, s3, sm, s4, rfl, h1, h2, h3, hm, g0, g1, g2, h4, g3, g4, g5⟩

/-- C33, amended.  Let `s` be the simulation when migration starts in an Autumn tick, with
the cell map and the registries agreeing with the stored positions (`World.Sited`).
Then `handleMigration` returns, and there are lists `emH` and `emC` of the herbivores and
carnivores it emigrated for which `World.AutumnMigration` holds: with `H` and `C` the
sizes of the two registries when migration starts, `emH` has at most `min (H / 4) 2`
members and `emC` at most `min (C / 5) 1` (integer division), none when `H ≤ 2`
(resp. `C ≤ 1`); every emigrated animal was registered and alive when migration started
and is afterwards dead, in no registry and in no cell; no other object is written; no
death or eaten counter changes; a living animal that did not emigrate stays registered;
and a non-empty registry that lists no animal twice and whose animals are all alive when
migration starts is not empty afterwards.  In every tick of a run the state when
migration starts (`runMonthUpdates`) agrees with the stored positions and its
registries list no animal twice, and `runMonthCore` is `runMonthUpdates` followed by
`handleMigration`, the cleanup loop and the counts. -/
theorem emigration_caps (s : Simulation) (hA : s.current_Season_sim = .AUTUMN)
    (hs : s.world.Sited) :
    (∃ (s1 : Simulation) (emH emC : List EntityId), s.handleMigration = some s1 ∧
      World.AutumnMigration s.world s1.world emH emC) ∧
    (∀ t tm : Simulation, SimReachable t → t.runMonthUpdates = some tm →
      tm.world.Sited ∧ tm.world.grid.herbivores_list.Nodup ∧
      tm.world.grid.carnivores_list.Nodup) ∧
    (∀ t : Simulation,
      t.runMonthCore = t.runMonthUpdates.bind (fun tm => tm.handleMigration.bind (fun s4 =>
        (Simulation.cleanup (s4.world.grid.plants_list ++ s4.world.grid.herbivores_list ++
          s4.world.grid.carnivores_list) s4.world).bind (fun w5 =>
            some { s4 with world := { w5 with stats := { w5.stats with
              currentPlants := w5.grid.plants_list.length,
              currentHerbivores := w5.grid.herbivores_list.length,
              currentCarnivores := w5.grid.carnivores_list.length } } })))) := by
  refine ⟨Simulation.handleMigration_autumn s hA hs, fun t tm ht hm => ?_,
    Simulation.runMonthCore_eq⟩
  obtain ⟨h1, h2, _⟩ := Simulation.runMonthUpdates_state ht hm
  unfold Grid.all at h2
  exact ⟨h1, (List.nodup_append.mp (List.nodup_append.mp h2).1).2.1,
    (List.nodup_append.mp (List.nodup_append.mp h2).1).1⟩

/-- The second tick of the emigration scenario is an Autumn tick in which the four
herbivores are alive when migration starts; at most one of them emigrates, no carnivore
does, and the herbivore registry is not empty afterwards. -/
theorem emigration_caps_witness :
    ∃ (s0 s1 sm s2 : Simulation) (emH emC : List EntityId),
      emigrationStocked = some s0 ∧ s0.runMonth enterKey = some s1 ∧
      s1.runMonthUpdates = some sm ∧ sm.current_Season_sim = .AUTUMN ∧ sm.world.Sited ∧
      sm.world.grid.herbivores_list = [2, 3, 4, 5] ∧
      sm.handleMigration = some s2 ∧
      World.AutumnMigration sm.world s2.world emH emC ∧
      emH.length ≤ 1 ∧ emC = [] ∧ s2.world.grid.herbivores_list ≠ [] := by
  have h : (emigrationStocked.bind (fun s0 => (s0.runMonth enterKey).bind (fun s1 =>
      s1.runMonthUpdates.map (fun sm =>
        decide (sm.current_Season_sim = .AUTUMN) &&
        decide (sm.world.grid.herbivores_list = [2, 3, 4, 5]) &&
        decide (sm.world.grid.carnivores_list = []) &&
        (sm.world.heap 2).is_alive && (sm.world.heap 3).is_alive &&
        (sm.world.heap 4).is_alive && (sm.world.heap 5).is_alive))))
      = some true := by decide!
  cases h0 : emigrationStocked with
  | none => rw [h0] at h; exact absurd h (by simp)
  | some s0 =>
    rw [h0, Option.some_bind] at h
    cases h1 : s0.runMonth enterKey with
    | none => rw [h1] at h; exact absurd h (by simp)
    | some s1 =>
      rw [h1, Option.some_bind] at h
      cases hm : s1.runMonthUpdates with
      | none => rw [hm] at h; exact absurd h (by simp)
      | some sm =>
        rw [hm] at h
        simp only [Option.map_some', Option.some.injEq, Bool.and_eq_true,
          decide_eq_true_eq] at h
        obtain ⟨⟨⟨⟨⟨⟨hA, hH⟩, hC⟩, a2⟩, a3⟩, a4⟩, a5⟩ := h
        have hs : sm.world.Sited :=
          (Simulation.runMonthUpdates_state
            (SimReachable.month (SimReachable.stocked h0) h1) hm).1
        obtain ⟨⟨s2, emH, emC, h2, e⟩, _, _⟩ := emigration_caps sm hA hs
        refine ⟨s0, s1, sm, s2, emH, emC, rfl, h1, hm, hA, hs, hH, h2, e, ?_, ?_, ?_⟩
        · have h5 := le_trans e.capH (min_le_left _ _)
          rw [hH] at h5
          have h6 : Int.tdiv ((([2, 3, 4, 5] : List EntityId).length : Nat) : Int) 4 = 1 := by
            decide
          rw [h6] at h5
          omega
        · exact e.noneC (by rw [hC]; decide)
        · refine e.nonemptyH (by rw [hH]; decide) (fun p hp => ?_) (by rw [hH]; simp)
          rw [hH] at hp
          simp only [List.mem_cons, List.mem_singleton, List.not_mem_nil, or_false] at hp
          rcases hp with hp | hp | hp | hp
          · rw [hp]; exact a2
          · rw [hp]; exact a3
          · rw [hp]; exact a4
          · rw [hp]; exact a5

end Ecosystem
